import Mathlib

/-!
# Transaction log writer (`src/cc/meta/LogWriter.cc`): a shallow embedding

The writer `LogWriter::Impl` is embedded as a state record `Impl` and its member
functions as state transformers `M α = Impl → Res α`.

* Requests live in a memory `mem : Nat → MetaRequest` addressed by pointers
  (`Nat`); the null pointer is `none`.  The intrusive queues are kept exactly as
  in the source: a head pointer, a tail pointer and the `next` links stored in
  the requests.
* `seq_t`, `fid_t`, `int64_t` values are `Int`.  The two `int` counters whose
  increment the code checks for overflow wrap at 32 bits (`wrapInt32`).
* `panic` ends the call: `Res.panic` keeps the message and the state reached.
* Loops that follow `next` links or retry a system call take a bound on their
  number of iterations; `Res.timeout` is the loop that did not finish.
* The collaborators that are not part of this file of the repository (system
  calls, clock, random numbers, transmitter, checksum, serialisation of a
  request) are the fields of `Env`; their answers are indexed by the number of
  calls made so far (`Impl.tick`).
-/

set_option autoImplicit false

namespace KFS

abbrev Bytes := List Char

/-- Wrap an integer to the range of a 32 bit `int`. -/
def wrapInt32 (x : Int) : Int := (x + 2147483648) % 4294967296 - 2147483648

/-- The values of a 32 bit `int`. -/
def IsInt32 (x : Int) : Prop := -2147483648 ≤ x ∧ x ≤ 2147483647

instance (x : Int) : Decidable (IsInt32 x) := by unfold IsInt32; infer_instance

/-- `errno.h` values (Linux). -/
def EINVAL : Int := 22
def kEIO : Int := 5
def EFAULT : Int := 14

/-- `MetaRequest::LogAction`. -/
inductive LogAction where
  | kLogNever
  | kLogIfOk
  | kLogAlways
  deriving DecidableEq, Repr

/-- `MetaOp`: only `META_LOG_WRITER_CONTROL` is distinguished by the writer. -/
inductive MetaOp where
  | META_LOG_WRITER_CONTROL
  | META_OTHER (code : Nat)
  deriving DecidableEq, Repr

/-- `MetaLogWriterControl::Type`. -/
inductive ControlType where
  | kNop
  | kNewLog
  | kWriteBlock
  | kSetParameters
  deriving DecidableEq, Repr

/-- `Properties`, as far as `SetParameters` reads it: `getValue` by key, already
converted to the type of the default (the floating point `rotateIntervalSec` is
taken in microseconds). -/
structure Properties where
  getInt : String → Option Int
  getStr : String → Option String
  getUsec : String → Option Int

/-- `MetaRequest`, with the fields of its subtype `MetaLogWriterControl`
(meaningful when `op = META_LOG_WRITER_CONTROL`). -/
structure MetaRequest where
  next : Option Nat
  op : MetaOp
  logAction : LogAction
  status : Int
  statusMsg : String
  logseq : Int
  seqno : Int
  suspended : Bool
  commitPendingFlag : Bool
  /-- `GetLogQueueCounter()`: address of the per-subsystem counter, or null. -/
  logQueueCounter : Option Nat
  type : ControlType
  committed : Int
  lastLogSeq : Int
  logName : String
  paramsPrefixStr : String
  params : Properties
  blockStartSeq : Int
  blockEndSeq : Int
  blockChecksum : Nat
  blockData : Bytes
  blockLines : List Int
  blockSeq : Int
  blockCommitted : Int

/-- `LogWriter::Impl::Committed`. -/
structure Committed where
  mSeq : Int
  mFidSeed : Int
  mErrChkSum : Int
  mStatus : Int
  deriving DecidableEq, Repr

/-- `Committed::Committed()`. -/
def Committed.init : Committed := ⟨-1, -1, 0, 0⟩

/-- `LogWriter::Impl::Queue`: head and tail pointers. -/
structure Queue where
  mHeadPtr : Option Nat
  mTailPtr : Option Nat
  deriving DecidableEq, Repr

/-- `LogWriter::Impl::WriteState`. -/
inductive WriteState where
  | kWriteStateNone
  | kUpdateBlockChecksum
  deriving DecidableEq, Repr

/-- Modelled from the spec: the digest sink `MdStreamT<Impl>` (`common/MdStream.h`
is not among the sources).  `buf` is the window `[GetBufferedStart(),
GetBufferedEnd())`, `bufSize` the allocated capacity, `sync` the sync mode,
`fail` the stream error state (`! mMdStream`), `hex` the integer base, and `md`
the bytes the digest has seen. -/
structure MdStream where
  buf : Bytes
  bufSize : Nat
  sync : Bool
  fail : Bool
  hex : Bool
  md : Bytes
  deriving DecidableEq, Repr

/-- One call of `LogTransmitter::TransmitBlock`. -/
structure TxBlock where
  endSeq : Int
  count : Int
  data : Bytes
  checksum : Nat
  deriving DecidableEq, Repr

/-- What `MetaRequest::WriteLog` does: its return value, the record it appends
to the stream, and whether the stream is still good afterwards. -/
structure WriteLogResult where
  ret : Bool
  data : Bytes
  streamOk : Bool

/-- The collaborators of the writer that are outside `LogWriter.cc`.  An answer
that can differ from call to call takes the call number `tick` first. -/
structure Env where
  ELOGFAILED : Int
  VERSION : Int
  kKfsNullChecksum : Nat
  SysToKfsErrno : Int → Int
  ComputeBlockChecksum : Nat → Bytes → Nat
  ChecksumBlocksCombine : Nat → Nat → Nat → Nat
  WriteLog : MetaRequest → Bool → WriteLogResult
  showInt : Bool → Int → Bytes
  HexIntParse : Bytes → Option Int
  digest : Bytes → Bytes
  DisplayIsoDateTime : Nat → Bytes
  microseconds : Nat → Int
  Rand : Nat → Nat
  errno : Nat → Int
  sysOpen : Nat → Int
  sysWrite : Nat → Nat → Int
  sysFsync : Nat → Int
  sysClose : Nat → Int
  sysLseek : Nat → Int
  link_latest : Nat → Int
  TransmitBlock : Nat → TxBlock → Int
  transmitterIsUp : Nat → Bool
  transmitterSetParameters : Nat → Int

/-- `LogWriter::Impl`, the request memory it points into, and the record of
what it did to the outside (files, transmitted blocks, submitted requests). -/
structure Impl where
  mNetManagerPtr : Bool
  mTransmitCommitted : Int
  mTransmitterUpFlag : Bool
  mNextSeq : Int
  mMaxDoneLogSeq : Int
  mCommitted : Committed
  mThreadStarted : Bool
  mStopFlag : Bool
  mOmitDefaultsFlag : Bool
  mMaxBlockSize : Int
  mPendingCount : Int
  mLogDir : String
  mPendingQueue : Queue
  mInQueue : Queue
  mOutQueue : Queue
  mPendingAckQueue : Queue
  mPendingCommitted : Committed
  mInFlightCommitted : Committed
  mNextLogSeq : Int
  mNextBlockSeq : Int
  mLastLogSeq : Int
  mBlockChecksum : Nat
  mNextBlockChecksum : Nat
  mLogFd : Int
  mError : Int
  mMdStream : MdStream
  mCurLogStartTime : Int
  mCurLogStartSeq : Int
  mLogNum : Int
  mLogName : String
  mWriteState : WriteState
  mLogRotateInterval : Int
  mPanicOnIoErrorFlag : Bool
  mSyncFlag : Bool
  mWokenFlag : Bool
  mLastLogName : String
  mLastLogPath : String
  mFailureSimulationInterval : Int
  mLogFileNamePrefix : String
  /-- Request memory. -/
  mem : Nat → MetaRequest
  /-- The per-subsystem counters `GetLogQueueCounter()` points to. -/
  counters : Nat → Int
  /-- Number of calls made to the collaborators of `Env`. -/
  tick : Nat
  /-- File contents by path. -/
  files : String → Option Bytes
  /-- Path of each open file descriptor. -/
  fds : Int → Option String
  /-- Target of each link made by `link_latest`. -/
  links : String → Option String
  /-- Blocks handed to `TransmitBlock`, oldest first. -/
  transmitted : List TxBlock
  /-- Requests handed to `submit_request`, oldest first. -/
  submitted : List Nat
  /-- Calls of `mNetManager.Wakeup()` (the worker loop). -/
  workerWakeups : Nat
  /-- Calls of `mNetManagerPtr->Wakeup()` (the main loop). -/
  mainWakeups : Nat
  /-- Whether `mNetManager.Shutdown()` was called. -/
  netManagerShutdown : Bool

/-- Result of a call: normal return, `panic`, or a loop that did not finish
within the bound. -/
inductive Res (α : Type) where
  | ok : α → Impl → Res α
  | panic : String → Impl → Res α
  | timeout : Res α

/-- State transformers over `Impl`. -/
def M (α : Type) : Type := Impl → Res α

def M.pure {α : Type} (a : α) : M α := fun s => Res.ok a s

def M.bind {α β : Type} (m : M α) (f : α → M β) : M β := fun s =>
  match m s with
  | Res.ok a s1 => f a s1
  | Res.panic msg s1 => Res.panic msg s1
  | Res.timeout => Res.timeout

instance : Monad M where
  pure := M.pure
  bind := M.bind

/-- Modelled from the spec: `panic` (declared in `util.h`, not among the
sources) aborts; the call ends there. -/
def M.panic {α : Type} (msg : String) : M α := fun s => Res.panic msg s

def M.timeout {α : Type} : M α := fun _ => Res.timeout

def M.get : M Impl := fun s => Res.ok s s

def M.modify (f : Impl → Impl) : M Unit := fun s => Res.ok () (f s)

/-- Update one request in memory. -/
def Impl.setReq (s : Impl) (p : Nat) (f : MetaRequest → MetaRequest) : Impl :=
  { s with mem := Function.update s.mem p (f (s.mem p)) }

/-- Update the memory alone. -/
def setMem (mem : Nat → MetaRequest) (p : Nat) (f : MetaRequest → MetaRequest) :
    Nat → MetaRequest :=
  Function.update mem p (f (mem p))

/-! ## `Queue` -/

def Queue.empty : Queue := ⟨none, none⟩

/-- `Queue::Reset`. -/
def Queue.Reset (_q : Queue) : Queue := ⟨none, none⟩

/-- `Queue::IsEmpty`. -/
def Queue.IsEmpty (q : Queue) : Bool := q.mHeadPtr.isNone

/-- `Queue::Front`. -/
def Queue.Front (q : Queue) : Option Nat := q.mHeadPtr

/-- `Queue::Back`. -/
def Queue.Back (q : Queue) : Option Nat := q.mTailPtr

/-- `Queue::PushBack(MetaRequest&)`: returns the queue and the memory. -/
def Queue.PushBack (q : Queue) (inRequest : Nat) (mem : Nat → MetaRequest) :
    Queue × (Nat → MetaRequest) :=
  match q.mTailPtr with
  | some t => (⟨q.mHeadPtr, some inRequest⟩, setMem mem t (fun r => { r with next := some inRequest }))
  | none => (⟨some inRequest, some inRequest⟩, mem)

/-- `Queue::PushBack(Queue&)`: returns this queue, the argument queue (reset)
and the memory. -/
def Queue.PushBackQueue (q inQueue : Queue) (mem : Nat → MetaRequest) :
    Queue × Queue × (Nat → MetaRequest) :=
  match q.mTailPtr with
  | some t =>
    (⟨q.mHeadPtr, inQueue.mTailPtr⟩, inQueue.Reset,
      setMem mem t (fun r => { r with next := inQueue.mHeadPtr }))
  | none => (⟨inQueue.mHeadPtr, inQueue.mTailPtr⟩, inQueue.Reset, mem)

/-- The pointers `l` are linked by `next` from `h` to the null pointer. -/
def isChain (mem : Nat → MetaRequest) : Option Nat → List Nat → Bool
  | h, [] => h.isNone
  | h, p :: ps => h == some p && isChain mem (mem p).next ps

/-- The queue `q` holds exactly the requests `l`, in this order: `l` is linked
from the head to null, the tail is the last of `l`, and no request occurs
twice. -/
def Queue.Holds (q : Queue) (mem : Nat → MetaRequest) (l : List Nat) : Prop :=
  isChain mem q.mHeadPtr l = true ∧ q.mTailPtr = l.getLast? ∧ l.Nodup

/-! ## Producer side: `Enqueue`, `RequestCommitted`, `SetCommitted`,
`ScheduleFlush` -/

/-- The request contributes a log record: `kLogAlways`, or `kLogIfOk` with
status 0 (the test of `Write`). -/
def MetaRequest.loggable (r : MetaRequest) : Bool :=
  (r.logAction == LogAction.kLogIfOk && r.status == 0) ||
    r.logAction == LogAction.kLogAlways

/-- The value `*GetLogQueueCounter()` of a request, when the pointer is not null. -/
def Impl.counterOf (s : Impl) (p : Nat) : Option Int :=
  (s.mem p).logQueueCounter.map s.counters

/-- `LogWriter::Impl::Enqueue`. -/
def Enqueue (env : Env) (inRequest : Nat) : M Bool := do
  let s0 ← M.get
  M.modify fun s =>
    { (s.setReq inRequest fun r => { r with next := none, seqno := s0.mNextSeq + 1 }) with
      mNextSeq := s0.mNextSeq + 1 }
  let s ← M.get
  if s.mStopFlag then
    M.modify fun s => s.setReq inRequest fun r =>
      { r with status := -env.ELOGFAILED, statusMsg := "log writer is not running" }
    return false
  let r := s.mem inRequest
  let theCounterPtr := r.logQueueCounter
  if (decide (s.mPendingCount ≤ 0) ||
        (match theCounterPtr with
          | none => true
          | some c => decide (s.counters c ≤ 0))) &&
      (r.logAction == LogAction.kLogNever ||
        (r.logAction == LogAction.kLogIfOk && r.status != 0)) then
    return false
  match theCounterPtr with
  | some c =>
    M.modify fun s => { s with counters := Function.update s.counters c (wrapInt32 (s.counters c + 1)) }
    let s1 ← M.get
    if s1.counters c ≤ 0 then
      M.panic "request enqueue: invalid log queue counter"
  | none => pure ()
  M.modify fun s => s.setReq inRequest fun r => { r with commitPendingFlag := true }
  M.modify fun s => { s with mPendingCount := wrapInt32 (s.mPendingCount + 1) }
  let s2 ← M.get
  if s2.mPendingCount ≤ 0 then
    M.panic "log writer: invalid pending count"
  M.modify fun s =>
    let qm := s.mPendingQueue.PushBack inRequest s.mem
    { s with mPendingQueue := qm.1, mem := qm.2 }
  return true

/-- `LogWriter::Impl::RequestCommitted`. -/
def RequestCommitted (env : Env) (inRequest : Nat) (inFidSeed : Int) : M Unit := do
  let s ← M.get
  if ! (s.mem inRequest).commitPendingFlag then
    return ()
  match (s.mem inRequest).logQueueCounter with
  | some c =>
    M.modify fun s => { s with counters := Function.update s.counters c (wrapInt32 (s.counters c - 1)) }
    let s1 ← M.get
    if s1.counters c < 0 then
      M.panic "request committed: invalid log queue counter"
  | none => pure ()
  M.modify fun s => s.setReq inRequest fun r => { r with commitPendingFlag := false }
  let s ← M.get
  let r := s.mem inRequest
  if r.logseq < 0 then
    return ()
  if r.suspended then
    M.panic "request committed: invalid suspended state"
  if s.mCommitted.mSeq + 1 ≠ r.logseq ∧ 0 ≤ s.mCommitted.mSeq then
    M.panic "request committed: invalid out of order log sequence"
  let theStatus : Int := if r.status < 0 then env.SysToKfsErrno (-r.status) else 0
  M.modify fun s =>
    { s with mCommitted :=
        { mErrChkSum := s.mCommitted.mErrChkSum + theStatus
          mSeq := r.logseq
          mFidSeed := inFidSeed
          mStatus := theStatus } }

/-- `LogWriter::Impl::SetCommitted`. -/
def SetCommitted (inLogSeq inErrChecksum inFidSeed inStatus : Int) : M Unit :=
  M.modify fun s =>
    { s with mCommitted :=
        { mSeq := inLogSeq, mErrChkSum := inErrChecksum, mFidSeed := inFidSeed,
          mStatus := inStatus } }

/-- `LogWriter::Impl::ScheduleFlush`. -/
def ScheduleFlush : M Unit := do
  let s ← M.get
  if s.mPendingQueue.IsEmpty then
    return ()
  M.modify fun s =>
    let r := s.mInQueue.PushBackQueue s.mPendingQueue s.mem
    { s with
      mPendingCommitted := s.mCommitted
      mInQueue := r.1
      mPendingQueue := r.2.1
      mem := r.2.2
      workerWakeups := s.workerWakeups + 1 }

/-! ## The outside: clock, system calls, transmitter -/

/-- The number of the next call to a collaborator; the call is counted. -/
def nextTick : M Nat := fun s => Res.ok s.tick { s with tick := s.tick + 1 }

/-- `microseconds()`. -/
def microseconds (env : Env) : M Int := do
  let t ← nextTick
  return env.microseconds t

/-- `DisplayIsoDateTime()`. -/
def DisplayIsoDateTime (env : Env) : M Bytes := do
  let t ← nextTick
  return env.DisplayIsoDateTime t

/-- Append `data` to the file open at descriptor `fd`, if any. -/
def appendToFd (s : Impl) (fd : Int) (data : Bytes) : Impl :=
  match s.fds fd with
  | some name =>
    { s with files := Function.update s.files name (some ((s.files name).getD [] ++ data)) }
  | none => s

/-- `::write(mLogFd, inBufPtr, inLen)`: the system answers with a count of
bytes written (at most `inLen`, taken from the start of the buffer passed) or a
negative value; returns the answer and the `errno` of the call. -/
def sysWrite (env : Env) (inBufPtr : Bytes) (inLen : Nat) : M (Int × Int) := do
  let t ← nextTick
  let r := min (env.sysWrite t inLen) inLen
  if 0 ≤ r then
    M.modify fun s => appendToFd s s.mLogFd (inBufPtr.take r.toNat)
  return (r, env.errno t)

/-- `makename(dir, prefix, number)` of `util.h`, modelled from the spec: "File
naming: `logDir + "/" + prefix + "." + logNum`". -/
def makename (dir pre : String) (num : Int) : String :=
  dir ++ "/" ++ pre ++ "." ++ toString num

/-! ## `IoError`, `IsLogStreamGood`, `Sync`, `Close` -/

/-- `LogWriter::Impl::IoError`. -/
def IoError (inError : Int) : M Unit := do
  M.modify fun s =>
    { s with mError := if 0 < inError then -inError else if inError = 0 then - kEIO else inError }
  let s ← M.get
  if s.mPanicOnIoErrorFlag then
    M.panic "transaction log io failure"

/-- `LogWriter::Impl::IsLogStreamGood`. -/
def IsLogStreamGood : M Bool := do
  let s ← M.get
  if s.mError ≠ 0 ∨ s.mLogFd < 0 then
    return false
  if s.mMdStream.fail then
    IoError kEIO
    return false
  return true

/-- `LogWriter::Impl::Sync`. -/
def Sync (env : Env) : M Unit := do
  let s ← M.get
  if s.mLogFd < 0 ∨ ! s.mSyncFlag then
    return ()
  let t ← nextTick
  if env.sysFsync t ≠ 0 then
    IoError (-(env.errno t))

/-- `LogWriter::Impl::Close`. -/
def Close (env : Env) : M Bool := do
  let s ← M.get
  if s.mLogFd ≤ 0 then
    return false
  let t ← nextTick
  let theOkFlag := env.sysClose t == 0
  M.modify fun s => { s with fds := Function.update s.fds s.mLogFd none }
  if ! theOkFlag then
    IoError (env.errno t)
  M.modify fun s => { s with mLogFd := -1 }
  return theOkFlag

/-! ## The file write methods `write` and `flush`, called by the digest sink -/

/-- The loop of `LogWriter::Impl::write`:
`while (thePtr < theEndPtr && 0 <= (theNWr = ::write(mLogFd, inBufPtr, theEndPtr - thePtr)))
thePtr += theNWr;` with `thePos = thePtr - inBufPtr`.  Returns the last `theNWr`
and the `errno` left by the last call. -/
def writeLoop (env : Env) : Nat → Bytes → Nat → Int → Int → M (Int × Int)
  | 0, _, _, _, _ => M.timeout
  | n + 1, inBufPtr, thePos, theNWr, theErrno =>
    if thePos < inBufPtr.length then do
      let r ← sysWrite env inBufPtr (inBufPtr.length - thePos)
      if 0 ≤ r.1 then
        writeLoop env n inBufPtr (thePos + r.1.toNat) r.1 r.2
      else
        return r
    else
      return (theNWr, theErrno)

/-- `LogWriter::Impl::write`. -/
def write (env : Env) (fuel : Nat) (inBufPtr : Bytes) : M Bool := do
  let s ← M.get
  if ! s.mMdStream.sync then
    M.panic "invalid write invocation"
  if s.mWriteState = WriteState.kUpdateBlockChecksum then
    M.modify fun s =>
      { s with mBlockChecksum := env.ComputeBlockChecksum s.mBlockChecksum inBufPtr }
  if 0 < inBufPtr.length then
    let good ← IsLogStreamGood
    if good then
      let r ← writeLoop env fuel inBufPtr 0 0 0
      if r.1 < 0 then
        IoError r.2
  IsLogStreamGood

/-- `LogWriter::Impl::flush`. -/
def flush : M Bool := IsLogStreamGood

/-! ## The digest sink `mMdStream` (and `mReqOstream`, which writes through it)

Modelled from the spec (section 4.2, DigestSink): the class `MdStreamT` is not
among the sources. -/

/-- Modelled from the spec: pass the buffered window to the file writer and
empty it; a failed write puts the stream in error state. -/
def mdSyncSelf (env : Env) (fuel : Nat) : M Unit := do
  let s ← M.get
  if s.mMdStream.buf.isEmpty then
    return ()
  let ok ← write env fuel s.mMdStream.buf
  M.modify fun s => { s with mMdStream := { s.mMdStream with buf := [], fail := s.mMdStream.fail || ! ok } }

/-- Modelled from the spec: `write(bytes, len)` of the sink, which is also
`stream << data`: "append to buffer; if sync mode is on, pass through to the
underlying file writer".  The buffer grows as needed; a stream in error state
takes no output. -/
def mdWrite (env : Env) (fuel : Nat) (data : Bytes) : M Unit := do
  let s ← M.get
  if s.mMdStream.fail then
    return ()
  M.modify fun s =>
    { s with mMdStream :=
        { s.mMdStream with
          buf := s.mMdStream.buf ++ data
          bufSize := max s.mMdStream.bufSize (s.mMdStream.buf ++ data).length
          md := s.mMdStream.md ++ data } }
  if s.mMdStream.sync then
    mdSyncSelf env fuel

/-- Modelled from the spec: `flush()` of the sink.  In sync mode the buffered
window goes to the file writer, whose `flush` is then asked; otherwise the
bytes stay in the window. -/
def mdFlush (env : Env) (fuel : Nat) : M Unit := do
  let s ← M.get
  if s.mMdStream.fail then
    return ()
  if s.mMdStream.sync then
    mdSyncSelf env fuel
    let ok ← flush
    M.modify fun s => { s with mMdStream := { s.mMdStream with fail := s.mMdStream.fail || ! ok } }

/-- Modelled from the spec: `setSync(bool)`. -/
def mdSetSync (b : Bool) : M Unit :=
  M.modify fun s => { s with mMdStream := { s.mMdStream with sync := b } }

/-- Modelled from the spec: `reset(target)` re-seats the digest and drops the
window. -/
def mdReset : M Unit :=
  M.modify fun s => { s with mMdStream := { s.mMdStream with buf := [], md := [] } }

/-- `mMdStream.clear()`: clear the error state of the stream. -/
def mdClear : M Unit :=
  M.modify fun s => { s with mMdStream := { s.mMdStream with fail := false } }

/-- `mMdStream.setf(hex or dec, basefield)`. -/
def mdSetHex (b : Bool) : M Unit :=
  M.modify fun s => { s with mMdStream := { s.mMdStream with hex := b } }

/-- Modelled from the spec: `clearBuffer()` discards the unwritten window. -/
def mdClearBuffer : M Unit :=
  M.modify fun s => { s with mMdStream := { s.mMdStream with buf := [] } }

/-- `stream << n` for an integer, in the current base of the stream. -/
def showInt (env : Env) (s : Impl) (n : Int) : Bytes := env.showInt s.mMdStream.hex n

/-! ## Blocks -/

/-- `LogWriter::Impl::StartBlock`. -/
def StartBlock (inStartCheckSum : Nat) : M Unit := do
  mdSetSync false
  M.modify fun s =>
    { s with mWriteState := WriteState.kUpdateBlockChecksum, mBlockChecksum := inStartCheckSum }

/-- `LogWriter::Impl::FlushBlock`. -/
def FlushBlock (env : Env) (fuel : Nat) (inLogSeq : Int) : M Unit := do
  M.modify fun s => { s with mNextBlockSeq := s.mNextBlockSeq + 1 }
  let s ← M.get
  mdWrite env fuel
    ("c/".toList ++ showInt env s s.mInFlightCommitted.mSeq ++
      "/".toList ++ showInt env s s.mInFlightCommitted.mFidSeed ++
      "/".toList ++ showInt env s s.mInFlightCommitted.mErrChkSum ++
      "/".toList ++ showInt env s s.mInFlightCommitted.mStatus ++
      "/".toList ++ showInt env s inLogSeq ++ "/".toList)
  mdFlush env fuel
  let s ← M.get
  let theTxLen := s.mMdStream.buf.length
  M.modify fun s =>
    { s with mBlockChecksum := env.ComputeBlockChecksum s.mBlockChecksum (s.mMdStream.buf.take theTxLen) }
  let s ← M.get
  let theTxChecksum := s.mBlockChecksum
  mdWrite env fuel (showInt env s s.mNextBlockSeq ++ "/".toList)
  mdFlush env fuel
  M.modify fun s =>
    { s with
      mBlockChecksum := env.ComputeBlockChecksum s.mBlockChecksum (s.mMdStream.buf.drop theTxLen)
      mWriteState := WriteState.kWriteStateNone }
  let s ← M.get
  mdWrite env fuel (showInt env s s.mBlockChecksum ++ "\n".toList)
  mdFlush env fuel
  let s ← M.get
  if 0 < s.mNextBlockSeq then
    if s.mMdStream.buf.length < theTxLen then
      M.panic "invalid log write write buffer length"
    else
      let t ← nextTick
      let blk : TxBlock :=
        { endSeq := inLogSeq
          count := wrapInt32 (inLogSeq - s.mNextLogSeq)
          data := s.mMdStream.buf.take theTxLen
          checksum := theTxChecksum }
      M.modify fun s => { s with transmitted := s.transmitted ++ [blk] }
      if env.TransmitBlock t blk ≠ 0 then
        M.modify fun s => { s with mTransmitterUpFlag := false }
  mdSetSync true
  mdFlush env fuel
  Sync env
  let s ← M.get
  StartBlock s.mNextBlockChecksum

/-! ## Log files: `SetLogName`, `NewLog`, `CloseLog`, `StartNextLog` -/

/-- `LogWriter::Impl::LogError`. -/
def LogError (env : Env) (inReq : Nat) : M Unit :=
  M.modify fun s => s.setReq inReq fun r =>
    { r with logseq := -1, status := -env.ELOGFAILED, statusMsg := "transaction log write error" }

/-- `LogWriter::Impl::SetLogName`. -/
def SetLogName (inLogSeq : Int) : M Unit :=
  M.modify fun s =>
    { s with
      mCurLogStartSeq := inLogSeq
      mNextLogSeq := inLogSeq
      mLastLogSeq := inLogSeq
      mLogName := makename s.mLogDir s.mLogFileNamePrefix s.mLogNum }

/-- `LogWriter::Impl::NewLog`. -/
def NewLog (env : Env) (fuel : Nat) (inLogSeq : Int) : M Unit := do
  let _ ← Close env
  let now ← microseconds env
  M.modify fun s =>
    { s with
      mCurLogStartTime := now
      mNextBlockSeq := -1
      mError := 0
      mWriteState := WriteState.kWriteStateNone }
  SetLogName inLogSeq
  let t ← nextTick
  M.modify fun s => { s with mLogFd := env.sysOpen t }
  let s ← M.get
  if s.mLogFd < 0 then
    IoError (env.errno t)
    return ()
  M.modify fun s =>
    { s with
      files := Function.update s.files s.mLogName (some [])
      fds := Function.update s.fds s.mLogFd (some s.mLogName) }
  StartBlock env.kKfsNullChecksum
  mdReset
  mdClear
  mdSetHex false
  mdSetSync false
  let iso ← DisplayIsoDateTime env
  let s ← M.get
  mdWrite env fuel
    ("version/".toList ++ showInt env s env.VERSION ++ "\n".toList ++
      "checksum/last-line\n".toList ++ "setintbase/16\n".toList ++
      "time/".toList ++ iso ++ "\n".toList)
  mdSetHex true
  let s ← M.get
  FlushBlock env fuel s.mLastLogSeq
  let good ← IsLogStreamGood
  if good then
    M.modify fun s => { s with mNextLogSeq := s.mLastLogSeq }
  else
    M.modify fun s => { s with mLastLogSeq := s.mNextLogSeq }

/-- `LogWriter::Impl::CloseLog`. -/
def CloseLog (env : Env) (fuel : Nat) : M Unit := do
  let good ← IsLogStreamGood
  if good then
    let s ← M.get
    if s.mLastLogSeq ≠ s.mNextLogSeq then
      FlushBlock env fuel s.mLastLogSeq
      let good2 ← IsLogStreamGood
      if ! good2 then
        M.modify fun s => { s with mLastLogSeq := s.mNextLogSeq }
        return ()
    M.modify fun s => { s with mWriteState := WriteState.kWriteStateNone }
    mdSetSync true
    let iso ← DisplayIsoDateTime env
    mdWrite env fuel ("time/".toList ++ iso ++ "\n".toList)
    let s ← M.get
    let theChecksum := env.digest s.mMdStream.md
    mdWrite env fuel ("checksum/".toList ++ theChecksum ++ "\n".toList)
    mdFlush env fuel
  else
    M.modify fun s => { s with mLastLogSeq := s.mNextLogSeq }
  Sync env
  let s ← M.get
  if 0 ≤ s.mLogFd then
    let closed ← Close env
    if closed then
      let t ← nextTick
      if env.link_latest t ≠ 0 then
        IoError (env.errno t)
      else
        M.modify fun s => { s with links := Function.update s.links s.mLastLogPath (some s.mLogName) }

/-- `LogWriter::Impl::StartNextLog`. -/
def StartNextLog (env : Env) (fuel : Nat) : M Unit := do
  CloseLog env fuel
  M.modify fun s => { s with mLogNum := s.mLogNum + 1 }
  let s ← M.get
  NewLog env fuel s.mLastLogSeq

/-! ## Parameters and control requests -/

/-- `LogWriter::Impl::SetParameters`. -/
def SetParameters (env : Env) (inParametersPrefixPtr : Option String) (inParameters : Properties) :
    M Int := do
  let theName := inParametersPrefixPtr.getD ""
  M.modify fun s =>
    let theLogDir := (inParameters.getStr (theName ++ "logDir")).getD s.mLogDir
    let theLastLogName := (inParameters.getStr (theName ++ "lastLogName")).getD s.mLastLogName
    { s with
      mOmitDefaultsFlag :=
        (inParameters.getInt (theName ++ "omitDefaults")).getD (if s.mOmitDefaultsFlag then 1 else 0) != 0
      mMaxBlockSize := (inParameters.getInt (theName ++ "maxBlockSize")).getD s.mMaxBlockSize
      mLogDir := theLogDir
      mLastLogName := theLastLogName
      mLogRotateInterval :=
        (inParameters.getUsec (theName ++ "rotateIntervalSec")).getD s.mLogRotateInterval
      mPanicOnIoErrorFlag :=
        (inParameters.getInt (theName ++ "panicOnIoError")).getD (if s.mPanicOnIoErrorFlag then 1 else 0) != 0
      mSyncFlag := (inParameters.getInt (theName ++ "sync")).getD (if s.mSyncFlag then 1 else 0) != 0
      mFailureSimulationInterval :=
        (inParameters.getInt (theName ++ "failureSimulationInterval")).getD s.mFailureSimulationInterval
      mLastLogPath := theLogDir ++ "/" ++ theLastLogName }
  let t ← nextTick
  return env.transmitterSetParameters t

/-- `LogWriter::Impl::Control`. -/
def Control (env : Env) (fuel : Nat) (inRequest : Nat) : M Bool := do
  let s ← M.get
  let r := s.mem inRequest
  match r.type with
  | ControlType.kWriteBlock => return true
  | ControlType.kSetParameters =>
    let _ ← SetParameters env (some r.paramsPrefixStr) r.params
    return false
  | ControlType.kNewLog =>
    if s.mCurLogStartSeq < s.mLastLogSeq then
      StartNextLog env fuel
    M.modify fun s => s.setReq inRequest fun r =>
      { r with committed := s.mInFlightCommitted.mSeq, lastLogSeq := s.mLastLogSeq, logName := s.mLogName }
    IsLogStreamGood
  | ControlType.kNop =>
    M.modify fun s => s.setReq inRequest fun r =>
      { r with committed := s.mInFlightCommitted.mSeq, lastLogSeq := s.mLastLogSeq, logName := s.mLogName }
    return false

/-- The bytes of the last line of the block payload, which `WriteBlock` reads
at `theEndPtr - blockLines.Back()`: the last `back` bytes of the first `theEnd`
bytes of the window (nothing when that start lies outside the window). -/
def lastBlockLine (buf : Bytes) (theEnd : Nat) (back : Int) : Bytes :=
  if 0 ≤ back ∧ back ≤ theEnd then (buf.take theEnd).drop (theEnd - back.toNat) else []

/-- The committed sequence `WriteBlock` parses from the last line of the
payload: the line starts with `c/`, is longer than two bytes, and the hex
integer runs to the next `/`; -1 otherwise. -/
def parseBlockCommitted (env : Env) (line : Bytes) : Int :=
  match line with
  | 'c' :: '/' :: rest =>
    if rest.isEmpty then -1
    else
      let digits := rest.takeWhile (fun ch => ch != '/')
      if digits.length < rest.length then
        match env.HexIntParse digits with
        | some v => v
        | none => -1
      else -1
  | _ => -1

/-- `LogWriter::Impl::WriteBlock`. -/
def WriteBlock (env : Env) (fuel : Nat) (inRequest : Nat) : M Unit := do
  let s ← M.get
  let r := s.mem inRequest
  if r.blockData.length ≤ 0 then
    M.panic "write block: invalid block length"
  if r.blockLines.isEmpty then
    M.panic "write block: invalid invocation, no log lines"
  if s.mLastLogSeq ≠ s.mNextLogSeq then
    M.panic "invalid write block invocation"
  if r.blockStartSeq ≠ s.mLastLogSeq then
    M.modify fun s => s.setReq inRequest fun r =>
      { r with status := -EINVAL, statusMsg := "invalid block start sequence" }
    return ()
  let good ← IsLogStreamGood
  if ! good then
    M.modify fun s => s.setReq inRequest fun r =>
      { r with status := - kEIO, statusMsg := "log write error" }
    return ()
  mdSetSync false
  M.modify fun s =>
    { s with
      mWriteState := WriteState.kWriteStateNone
      mBlockChecksum := env.ChecksumBlocksCombine s.mBlockChecksum r.blockChecksum r.blockData.length }
  let s ← M.get
  let thePos := s.mMdStream.buf.length
  mdWrite env fuel r.blockData
  let s ← M.get
  let theLen := s.mMdStream.buf.length - thePos
  M.modify fun s => { s with mNextBlockSeq := s.mNextBlockSeq + 1 }
  let s ← M.get
  mdWrite env fuel (showInt env s s.mNextBlockSeq ++ "/".toList)
  mdFlush env fuel
  M.modify fun s =>
    { s with
      mBlockChecksum := env.ComputeBlockChecksum s.mBlockChecksum (s.mMdStream.buf.drop (thePos + theLen)) }
  let s ← M.get
  mdWrite env fuel (showInt env s s.mBlockChecksum ++ "\n".toList)
  mdFlush env fuel
  let s ← M.get
  let theTrailer := s.mMdStream.buf.drop (thePos + theLen)
  let theLine := lastBlockLine s.mMdStream.buf (thePos + theLen) (r.blockLines.getLast?.getD 0)
  let theCommitted := parseBlockCommitted env theLine
  M.modify fun s => s.setReq inRequest fun r =>
    { r with
      blockData := r.blockData ++ theTrailer
      blockLines := r.blockLines.dropLast ++ [r.blockLines.getLast?.getD 0 + theTrailer.length]
      blockCommitted := theCommitted }
  if theCommitted < 0 then
    mdClearBuffer
    M.modify fun s => { s with mNextBlockSeq := s.mNextBlockSeq - 1 }
    M.modify fun s => s.setReq inRequest fun r =>
      { r with status := - kEIO, statusMsg := "log write: invalid block format" }
    return ()
  let t ← nextTick
  let blk : TxBlock :=
    { endSeq := r.blockEndSeq
      count := wrapInt32 (r.blockEndSeq - r.blockStartSeq)
      data := (s.mMdStream.buf.drop thePos).take theLen
      checksum := r.blockChecksum }
  M.modify fun s => { s with transmitted := s.transmitted ++ [blk] }
  if env.TransmitBlock t blk ≠ 0 then
    M.modify fun s => { s with mTransmitterUpFlag := false }
  mdSetSync true
  mdFlush env fuel
  Sync env
  let good ← IsLogStreamGood
  if good then
    M.modify fun s =>
      { (s.setReq inRequest fun r => { r with blockSeq := s.mNextBlockSeq, status := 0 }) with
        mLastLogSeq := r.blockEndSeq
        mNextLogSeq := r.blockEndSeq }
    let s ← M.get
    StartBlock s.mNextBlockChecksum
  else
    M.modify fun s => s.setReq inRequest fun r =>
      { r with status := - kEIO, statusMsg := "log write error" }

/-! ## `Write` -/

/-- `LogWriter::Impl::IsSimulateFailure`. -/
def IsSimulateFailure (env : Env) : M Bool := do
  let s ← M.get
  if 0 < s.mFailureSimulationInterval then
    let t ← nextTick
    return env.Rand t % s.mFailureSimulationInterval.toNat == 0
  else
    return false

/-- The inner loop of `Write`, `for ( ; thePtr; thePtr = thePtr->next)`, from
`thePtr` on.  Returns `thePtr` at the exit of the loop (null when the loop ran
to the end of the list) and `theCtlPtr`. -/
def WriteInner (env : Env) (fuel : Nat) :
    Nat → Option Nat → Int → Bool → Bool → M (Option Nat × Option Nat)
  | 0, _, _, _, _ => M.timeout
  | _ + 1, none, _, _, _ => return (none, none)
  | n + 1, some p, theEndBlockSeq, theSimulateFailureFlag, theTransmitterUpFlag => do
    let s ← M.get
    if (s.mem p).op = MetaOp.META_LOG_WRITER_CONTROL then
      let brk ← Control env fuel p
      if brk then
        return (some p, some p)
      let s ← M.get
      WriteInner env fuel n (s.mem p).next (s.mNextLogSeq + s.mMaxBlockSize)
        theSimulateFailureFlag theTransmitterUpFlag
    else if s.mMdStream.fail || ! theTransmitterUpFlag then
      WriteInner env fuel n (s.mem p).next theEndBlockSeq theSimulateFailureFlag theTransmitterUpFlag
    else
      if (s.mem p).loggable then
        if theSimulateFailureFlag then
          return (some p, none)
        M.modify fun s =>
          { (s.setReq p fun r => { r with logseq := s.mLastLogSeq + 1 }) with
            mLastLogSeq := s.mLastLogSeq + 1 }
        let s ← M.get
        let w := env.WriteLog (s.mem p) s.mOmitDefaultsFlag
        mdWrite env fuel w.data
        M.modify fun s => { s with mMdStream := { s.mMdStream with fail := s.mMdStream.fail || ! w.streamOk } }
        if ! w.ret then
          M.panic "log writer: invalid request "
        let s ← M.get
        if s.mMdStream.fail then
          M.modify fun s => { s with mLastLogSeq := s.mLastLogSeq - 1 }
          LogError env p
      let s ← M.get
      if theEndBlockSeq ≤ s.mLastLogSeq then
        return (some p, none)
      if s.mMdStream.bufSize / 4 * 3 < s.mMdStream.buf.length then
        return (some p, none)
      WriteInner env fuel n (s.mem p).next theEndBlockSeq theSimulateFailureFlag theTransmitterUpFlag

/-- The write failure loop of `Write`,
`for (thePtr = theCurPtr; theEndPtr != thePtr; thePtr = thePtr->next)`. -/
def WriteFailed (env : Env) : Nat → Option Nat → Option Nat → M Unit
  | 0, _, _ => M.timeout
  | n + 1, thePtr, theEndPtr =>
    if thePtr = theEndPtr then
      return ()
    else
      match thePtr with
      | none => M.panic "null pointer dereference"
      | some p => do
        let s ← M.get
        if (s.mem p).op ≠ MetaOp.META_LOG_WRITER_CONTROL ∧ (s.mem p).loggable = true then
          LogError env p
        let s ← M.get
        WriteFailed env n (s.mem p).next theEndPtr

/-- The outer loop of `Write`, `while (theCurPtr)`: one iteration per batch. -/
def WriteBatches (env : Env) (fuel : Nat) : Nat → Option Nat → M Unit
  | 0, _ => M.timeout
  | _ + 1, none => return ()
  | n + 1, some theCurPtr => do
    M.modify fun s => { s with mLastLogSeq := s.mNextLogSeq }
    let s ← M.get
    let theEndBlockSeq := s.mNextLogSeq + s.mMaxBlockSize
    let theSimulateFailureFlag ← IsSimulateFailure env
    let theTransmitterUpFlag := s.mTransmitterUpFlag
    let r ← WriteInner env fuel fuel (some theCurPtr) theEndBlockSeq theSimulateFailureFlag
      theTransmitterUpFlag
    let thePtr := r.1
    let theCtlPtr := r.2
    let s ← M.get
    let theEndPtr := match thePtr with
      | some p => (s.mem p).next
      | none => none
    if s.mNextLogSeq < s.mLastLogSeq ∧ theTransmitterUpFlag = true then
      let good ← IsLogStreamGood
      if good then
        FlushBlock env fuel s.mLastLogSeq
    let good ← IsLogStreamGood
    if good && ! theSimulateFailureFlag && theTransmitterUpFlag then
      M.modify fun s => { s with mNextLogSeq := s.mLastLogSeq }
    else
      M.modify fun s => { s with mLastLogSeq := s.mNextLogSeq }
      WriteFailed env fuel (some theCurPtr) theEndPtr
    match theCtlPtr with
    | some c =>
      let s ← M.get
      if (s.mem c).type = ControlType.kWriteBlock then
        WriteBlock env fuel c
    | none => pure ()
    WriteBatches env fuel n theEndPtr

/-- `LogWriter::Impl::Write`. -/
def Write (env : Env) (fuel : Nat) (inHead : Nat) : M Unit := do
  let good ← IsLogStreamGood
  if ! good then
    let s ← M.get
    if s.mCurLogStartSeq < s.mNextLogSeq then
      StartNextLog env fuel
    else
      NewLog env fuel s.mNextLogSeq
  mdSetSync false
  WriteBatches env fuel fuel (some inHead)
  let s ← M.get
  if s.mCurLogStartSeq < s.mNextLogSeq then
    let good ← IsLogStreamGood
    if good then
      let now ← microseconds env
      if s.mCurLogStartTime + s.mLogRotateInterval < now then
        StartNextLog env fuel

/-! ## Worker dispatch and delivery -/

/-- The loop of `ProcessPendingAckQueue` over the pending-ack list, looking for
the first request with `mTransmitCommitted < logseq`; returns `inDoneQueue`. -/
def splitPendingAck : Nat → Option Nat → Option Nat → Queue → M Queue
  | 0, _, _, _ => M.timeout
  | _ + 1, none, _, inDoneQueue => return inDoneQueue
  | n + 1, some p, thePrevPtr, inDoneQueue => do
    let s ← M.get
    if s.mTransmitCommitted < (s.mem p).logseq then
      match thePrevPtr with
      | some prev =>
        M.modify fun s =>
          { (s.setReq prev fun r => { r with next := none }) with
            mPendingAckQueue := ⟨some p, s.mPendingAckQueue.Back⟩ }
        return ⟨s.mPendingAckQueue.Front, some prev⟩
      | none => return inDoneQueue
    else
      splitPendingAck n (s.mem p).next (some p) inDoneQueue

/-- `LogWriter::Impl::ProcessPendingAckQueue`; returns `inDoneQueue`, which the
caller passes by reference. -/
def ProcessPendingAckQueue (fuel : Nat) (inDoneQueue : Queue) : M Queue := do
  M.modify fun s =>
    let r := s.mPendingAckQueue.PushBackQueue inDoneQueue s.mem
    { s with mWokenFlag := false, mPendingAckQueue := r.1, mem := r.2.2 }
  let theDone := inDoneQueue.Reset
  let s ← M.get
  let theDone ←
    if s.mTransmitCommitted < s.mNextLogSeq then
      splitPendingAck fuel s.mPendingAckQueue.Front none theDone
    else do
      let r := theDone.PushBackQueue s.mPendingAckQueue s.mem
      M.modify fun s => { s with mPendingAckQueue := r.2.1, mem := r.2.2 }
      pure r.1
  if theDone.IsEmpty then
    return theDone
  let s ← M.get
  let r := s.mOutQueue.PushBackQueue theDone s.mem
  M.modify fun s => { s with mOutQueue := r.1, mem := r.2.2, mainWakeups := s.mainWakeups + 1 }
  return r.2.1

/-- `LogWriter::Impl::DispatchStart`. -/
def DispatchStart (env : Env) (fuel : Nat) : M Unit := do
  let s ← M.get
  if s.mStopFlag then
    M.modify fun s => { s with netManagerShutdown := true }
  match s.mInQueue.Front with
  | none =>
    if s.mWokenFlag then
      let _ ← ProcessPendingAckQueue fuel Queue.empty
    return ()
  | some head =>
    let theWriteQueue := s.mInQueue
    M.modify fun s =>
      { s with
        mInQueue := s.mInQueue.Reset
        mInFlightCommitted := s.mPendingCommitted
        mWokenFlag := true }
    Write env fuel head
    let _ ← ProcessPendingAckQueue fuel theWriteQueue
    return ()

/-- `LogWriter::Impl::DispatchEnd`. -/
def DispatchEnd (fuel : Nat) : M Unit := do
  let s ← M.get
  if s.mWokenFlag then
    let _ ← ProcessPendingAckQueue fuel Queue.empty

/-- The loop of `Timeout` over the requests taken from `mOutQueue`. -/
def deliver : Nat → Option Nat → M Unit
  | 0, _ => M.timeout
  | _ + 1, none => return ()
  | n + 1, some p => do
    let s ← M.get
    let theDonePtr := (s.mem p).next
    M.modify fun s => s.setReq p fun r => { r with next := none }
    if 0 ≤ (s.mem p).logseq then
      if (s.mem p).logseq ≤ s.mMaxDoneLogSeq then
        M.panic "log writer: invalid log sequence number"
      M.modify fun s => { s with mMaxDoneLogSeq := (s.mem p).logseq }
    M.modify fun s => { s with mPendingCount := wrapInt32 (s.mPendingCount - 1) }
    let s ← M.get
    if s.mPendingCount < 0 then
      M.panic "log writer: request completion invalid pending count"
    M.modify fun s => { s with submitted := s.submitted ++ [p] }
    deliver n theDonePtr

/-- `LogWriter::Impl::Timeout`. -/
def Timeout (fuel : Nat) : M Unit := do
  let s ← M.get
  if s.mPendingCount ≤ 0 then
    return ()
  let theDonePtr := s.mOutQueue.Front
  M.modify fun s => { s with mOutQueue := s.mOutQueue.Reset }
  deliver fuel theDonePtr

/-- `LogWriter::Impl::Notify`. -/
def Notify (env : Env) (inSeq : Int) : M Unit := do
  let s ← M.get
  let theWakeupFlag := decide (s.mTransmitCommitted < inSeq) && ! s.mWokenFlag
  let t ← nextTick
  M.modify fun s =>
    { s with mTransmitCommitted := inSeq, mTransmitterUpFlag := env.transmitterIsUp t }
  if theWakeupFlag then
    M.modify fun s => { s with mWokenFlag := true }

/-! ## `Start` -/

/-- `MdStateCtx`: the bytes the digest had seen when the state was saved, and
whether `SetMdState` accepts it. -/
structure MdStateCtx where
  md : Bytes
  valid : Bool

/-- `LogWriter::Impl::Start`; returns the status and writes
`outCurLogFileName` (the second component) on success. -/
def Start (env : Env) (fuel : Nat) (inLogNum inLogSeq inCommittedLogSeq inCommittedFidSeed
    inCommittedErrCheckSum inCommittedStatus : Int) (inLogAppendMdStatePtr : Option MdStateCtx)
    (inLogAppendStartSeq inLogAppendLastBlockSeq : Int) (inLogAppendHexFlag : Bool)
    (inParametersPrefixPtr : Option String) (inParameters : Properties) :
    M (Int × Option String) := do
  let s ← M.get
  if inLogNum < 0 ∨ inLogSeq < 0 ∨
      (inLogAppendMdStatePtr.isSome = true ∧ inLogSeq < inLogAppendStartSeq) ∨
      (s.mThreadStarted = true ∨ s.mNetManagerPtr = true) then
    return (-EINVAL, none)
  M.modify fun s =>
    { s with
      mNextBlockChecksum := env.ComputeBlockChecksum env.kKfsNullChecksum "\n".toList
      mLogNum := inLogNum }
  let theErr ← SetParameters env inParametersPrefixPtr inParameters
  if theErr ≠ 0 then
    return (theErr, none)
  mdReset
  M.modify fun s =>
    { s with
      mCommitted :=
        { mErrChkSum := inCommittedErrCheckSum, mSeq := inCommittedLogSeq
          mFidSeed := inCommittedFidSeed, mStatus := inCommittedStatus }
      mPendingCommitted :=
        { mErrChkSum := inCommittedErrCheckSum, mSeq := inCommittedLogSeq
          mFidSeed := inCommittedFidSeed, mStatus := inCommittedStatus }
      mInFlightCommitted :=
        { mErrChkSum := inCommittedErrCheckSum, mSeq := inCommittedLogSeq
          mFidSeed := inCommittedFidSeed, mStatus := inCommittedStatus } }
  match inLogAppendMdStatePtr with
  | some ctx =>
    SetLogName inLogSeq
    let now ← microseconds env
    M.modify fun s =>
      { s with
        mCurLogStartTime := now
        mCurLogStartSeq := inLogAppendStartSeq
        mMdStream := { s.mMdStream with md := ctx.md, fail := s.mMdStream.fail || ! ctx.valid } }
    let s ← M.get
    if s.mMdStream.fail then
      return (- kEIO, none)
    let _ ← Close env
    M.modify fun s => { s with mError := 0 }
    let t ← nextTick
    M.modify fun s => { s with mLogFd := env.sysOpen t }
    let s ← M.get
    if s.mLogFd < 0 then
      IoError (env.errno t)
      let s ← M.get
      return (s.mError, none)
    M.modify fun s => { s with fds := Function.update s.fds s.mLogFd (some s.mLogName) }
    let t ← nextTick
    let theSize := env.sysLseek t
    if theSize < 0 then
      IoError (env.errno t)
      let s ← M.get
      return (s.mError, none)
    if theSize = 0 then
      return (-EINVAL, none)
    mdSetHex inLogAppendHexFlag
    M.modify fun s => { s with mNextBlockSeq := inLogAppendLastBlockSeq }
    if inLogAppendLastBlockSeq < 0 ∨ inLogAppendHexFlag = false then
      StartNextLog env fuel
    else
      let s ← M.get
      StartBlock s.mNextBlockChecksum
  | none => NewLog env fuel inLogSeq
  let good ← IsLogStreamGood
  if ! good then
    let s ← M.get
    return (s.mError, none)
  M.modify fun s => { s with mStopFlag := false, mNetManagerPtr := true, mThreadStarted := true }
  let s ← M.get
  return (0, some s.mLogName)

/-- `LogWriter::Impl::Impl()`: the freshly constructed writer, over a request
memory `mem` and counters `counters`, with no file and nothing sent. -/
def Impl.init (env : Env) (mem : Nat → MetaRequest) (counters : Nat → Int) : Impl where
  mNetManagerPtr := false
  mTransmitCommitted := -1
  mTransmitterUpFlag := false
  mNextSeq := -1
  mMaxDoneLogSeq := -1
  mCommitted := Committed.init
  mThreadStarted := false
  mStopFlag := false
  mOmitDefaultsFlag := true
  mMaxBlockSize := 256
  mPendingCount := 0
  mLogDir := "./kfslog"
  mPendingQueue := Queue.empty
  mInQueue := Queue.empty
  mOutQueue := Queue.empty
  mPendingAckQueue := Queue.empty
  mPendingCommitted := Committed.init
  mInFlightCommitted := Committed.init
  mNextLogSeq := -1
  mNextBlockSeq := -1
  mLastLogSeq := -1
  mBlockChecksum := env.kKfsNullChecksum
  mNextBlockChecksum := env.kKfsNullChecksum
  mLogFd := -1
  mError := 0
  mMdStream := { buf := [], bufSize := 1048576, sync := false, fail := false, hex := false, md := [] }
  mCurLogStartTime := -1
  mCurLogStartSeq := -1
  mLogNum := 0
  mLogName := ""
  mWriteState := WriteState.kWriteStateNone
  mLogRotateInterval := 600 * 1000 * 1000
  mPanicOnIoErrorFlag := false
  mSyncFlag := false
  mWokenFlag := false
  mLastLogName := "last"
  mLastLogPath := "./kfslog" ++ "/" ++ "last"
  mFailureSimulationInterval := 0
  mLogFileNamePrefix := "log"
  mem := mem
  counters := counters
  tick := 0
  files := fun _ => none
  fds := fun _ => none
  links := fun _ => none
  transmitted := []
  submitted := []
  workerWakeups := 0
  mainWakeups := 0
  netManagerShutdown := false

/-- The value a call returned, if it returned. -/
def Res.val? {α : Type} : Res α → Option α
  | Res.ok a _ => some a
  | _ => none

/-- The state a call ended in (at its return or at its panic). -/
def Res.state? {α : Type} : Res α → Option Impl
  | Res.ok _ s => some s
  | Res.panic _ s => some s
  | Res.timeout => none

/-- The panic message, if the call ended in a panic. -/
def Res.panicMsg? {α : Type} : Res α → Option String
  | Res.panic msg _ => some msg
  | _ => none

/-! ## Concrete inputs used in the examples -/

/-- An environment in which every system call succeeds, the transmitter
accepts every block, and a request serialises to the line `r\n`. -/
def envOk : Env where
  ELOGFAILED := 1008
  VERSION := 1
  kKfsNullChecksum := 1
  SysToKfsErrno := fun e => e
  ComputeBlockChecksum := fun c b => (c + b.length) % 4294967296
  ChecksumBlocksCombine := fun a b _ => (a + b) % 4294967296
  WriteLog := fun _ _ => { ret := true, data := ['r', '\n'], streamOk := true }
  showInt := fun _ n => (toString n).toList
  HexIntParse := fun _ => none
  digest := fun _ => []
  DisplayIsoDateTime := fun _ => []
  microseconds := fun _ => 0
  Rand := fun _ => 0
  errno := fun _ => 0
  sysOpen := fun _ => 3
  sysWrite := fun _ n => n
  sysFsync := fun _ => 0
  sysClose := fun _ => 0
  sysLseek := fun _ => 1
  link_latest := fun _ => 0
  TransmitBlock := fun _ _ => 0
  transmitterIsUp := fun _ => true
  transmitterSetParameters := fun _ => 0

/-- No properties set. -/
def Properties.none : Properties := ⟨fun _ => Option.none, fun _ => Option.none, fun _ => Option.none⟩

/-- A request that is not linked, not logged yet, with the given log action
and status and the queue counter at address 0. -/
def reqEx (a : LogAction) (status : Int) : MetaRequest where
  next := none
  op := MetaOp.META_OTHER 0
  logAction := a
  status := status
  statusMsg := ""
  logseq := -1
  seqno := -1
  suspended := false
  commitPendingFlag := false
  logQueueCounter := some 0
  type := ControlType.kNop
  committed := -1
  lastLogSeq := -1
  logName := ""
  paramsPrefixStr := ""
  params := Properties.none
  blockStartSeq := -1
  blockEndSeq := -1
  blockChecksum := 0
  blockData := []
  blockLines := []
  blockSeq := -1
  blockCommitted := -1

/-! ## Conditions used in the statements -/

/-- The request does not require logging, as `Enqueue` tests it: `kLogNever`, or
`kLogIfOk` with a status other than 0. -/
def MetaRequest.notLogged (r : MetaRequest) : Prop :=
  r.logAction = LogAction.kLogNever ∨ (r.logAction = LogAction.kLogIfOk ∧ r.status ≠ 0)

/-- The short-circuit test of `Enqueue`: no request is pending, or the request
has no queue counter, or that counter is not positive; and the request does not
require logging. -/
def shortCircuits (s : Impl) (p : Nat) : Prop :=
  (s.mPendingCount ≤ 0 ∨ (s.mem p).logQueueCounter = none ∨
      ∃ c, (s.mem p).logQueueCounter = some c ∧ s.counters c ≤ 0) ∧
    (s.mem p).notLogged

/-- The counters after `++*theCounterPtr`, when the pointer is not null. -/
def incrCounter (counters : Nat → Int) : Option Nat → Nat → Int
  | none => counters
  | some c => Function.update counters c (wrapInt32 (counters c + 1))

/-- The counters after `--*theCounterPtr`, when the pointer is not null. -/
def decrCounter (counters : Nat → Int) : Option Nat → Nat → Int
  | none => counters
  | some c => Function.update counters c (wrapInt32 (counters c - 1))

/-! ## Concrete states used in the examples -/

/-- A started writer (nothing queued, committed sequence 4) over a memory in
which every request is `reqEx a status`, every counter holding `cnt`. -/
def stateEx (a : LogAction) (status cnt : Int) : Impl :=
  { Impl.init envOk (fun _ => reqEx a status) (fun _ => cnt) with
    mCommitted := ⟨4, 0, 0, 0⟩
    mPendingCommitted := ⟨4, 0, 0, 0⟩
    mInFlightCommitted := ⟨4, 0, 0, 0⟩ }

/-- The state of `RequestCommitted` after it has decremented the queue counter
and cleared `commitPendingFlag`. -/
def afterDecrement (s : Impl) (p : Nat) : Impl :=
  { s with
    counters := decrCounter s.counters (s.mem p).logQueueCounter
    mem := Function.update s.mem p { s.mem p with commitPendingFlag := false } }

/-- The status `RequestCommitted` records: 0, or the translated error. -/
def committedStatus (env : Env) (r : MetaRequest) : Int :=
  if r.status < 0 then env.SysToKfsErrno (-r.status) else 0

/-- `RequestCommitted` does not panic at its counter: the request has no queue
counter, or the decremented counter is not negative. -/
def counterStaysNonneg (s : Impl) (p : Nat) : Prop :=
  ∀ c, (s.mem p).logQueueCounter = some c → 0 ≤ wrapInt32 (s.counters c - 1)

/-- The request's log sequence is out of order: `mCommitted.mSeq` is not
negative and `logseq` is not the next one. -/
def outOfOrder (s : Impl) (p : Nat) : Prop :=
  s.mCommitted.mSeq + 1 ≠ (s.mem p).logseq ∧ 0 ≤ s.mCommitted.mSeq

/-- A writer as `stateEx` in which every request is commit pending with log
sequence `logseq`, and `mCommitted.mSeq = committed`. -/
def statePending (logseq committed cnt : Int) : Impl :=
  { Impl.init envOk
      (fun _ => { reqEx LogAction.kLogAlways 0 with commitPendingFlag := true, logseq := logseq })
      (fun _ => cnt) with
    mCommitted := ⟨committed, 0, 0, 0⟩ }

/-- A writer as `stateEx` with request 1 in the in queue and requests 2 and 3
(linked in this order) in the pending queue. -/
def stateQueued : Impl :=
  { stateEx LogAction.kLogAlways 0 0 with
    mem := fun p =>
      if p = 2 then { reqEx LogAction.kLogAlways 0 with next := some 3 }
      else reqEx LogAction.kLogAlways 0
    mInQueue := ⟨some 1, some 1⟩
    mPendingQueue := ⟨some 2, some 3⟩
    mCommitted := ⟨6, 0, 0, 0⟩ }

/-! ## Conditions on the log stream and on the outside -/

/-- The log stream is good, as `IsLogStreamGood` tests it. -/
def Good (s : Impl) : Prop := s.mError = 0 ∧ 0 ≤ s.mLogFd ∧ s.mMdStream.fail = false

/-- The writer with the fields blanked that file I/O and log rotation write:
the call counter, the files, the transmitted blocks, the block sequence and
checksum, the sink, and the name, number, start and descriptor of the log
file.  Two states with the same `core` differ in those fields only. -/
def Impl.core (s : Impl) : Impl :=
  { s with
    tick := 0
    files := fun _ => none
    fds := fun _ => none
    links := fun _ => none
    transmitted := []
    mNextBlockSeq := 0
    mMdStream := ⟨[], 0, false, false, false, []⟩
    mBlockChecksum := 0
    mWriteState := WriteState.kWriteStateNone
    mLogNum := 0
    mLogName := ""
    mCurLogStartTime := 0
    mCurLogStartSeq := 0
    mLogFd := 0
    mError := 0 }

/-- Every file system call succeeds (`write` takes all the bytes it is given)
and `WriteLog` serialises every request without error. -/
structure FileOk (env : Env) : Prop where
  open_ok : ∀ t, 0 ≤ env.sysOpen t
  write_ok : ∀ t n, env.sysWrite t n = n
  fsync_ok : ∀ t, env.sysFsync t = 0
  close_ok : ∀ t, env.sysClose t = 0
  link_ok : ∀ t, env.link_latest t = 0
  writeLog_ok : ∀ r o, (env.WriteLog r o).ret = true ∧ (env.WriteLog r o).streamOk = true

/-- All I/O succeeds: `FileOk`, and the transmitter accepts every block. -/
structure IoOk (env : Env) extends FileOk env : Prop where
  transmit_ok : ∀ t b, env.TransmitBlock t b = 0

/-- The call `m` from state `s` returns, and its value and final state
satisfy `Q`. -/
def M.total {α : Type} (m : M α) (s : Impl) (Q : α → Impl → Prop) : Prop :=
  ∃ a s', m s = Res.ok a s' ∧ Q a s'

/-- If the call `m` from state `s` returns, its value and final state satisfy
`Q`. -/
def M.post {α : Type} (m : M α) (s : Impl) (Q : α → Impl → Prop) : Prop :=
  ∀ a s', m s = Res.ok a s' → Q a s'

/-- The invariant of the write path while all I/O succeeds: the stream is good,
the sink is in sync mode `b`, and the state differs from `c` only in the fields
that I/O writes. -/
def Inv (c : Impl) (b : Bool) (s : Impl) : Prop :=
  s.core = c ∧ Good s ∧ s.mMdStream.sync = b

/-- The request memory and the last log sequence after the loggable requests
of `l`, taken in order, have each received the log sequence following the
previous one, starting after `n`. -/
def assignSeq (mem : Nat → MetaRequest) : List Nat → Int → (Nat → MetaRequest) × Int
  | [], n => (mem, n)
  | p :: ps, n =>
    if (mem p).loggable then
      assignSeq (Function.update mem p { mem p with logseq := n + 1 }) ps (n + 1)
    else
      assignSeq mem ps n

/-- No failure is simulated: `IsSimulateFailure` is false at every call. -/
def NoSimulatedFailure (env : Env) (s : Impl) : Prop :=
  ∀ t, ¬ (0 < s.mFailureSimulationInterval ∧
    env.Rand t % s.mFailureSimulationInterval.toNat = 0)

/-- `theEndPtr` of `Write`: `thePtr ? thePtr->next : thePtr`. -/
def endPtrOf (mem : Nat → MetaRequest) : Option Nat → Option Nat
  | some p => (mem p).next
  | none => none

/-- A started writer with a good stream (log file open at descriptor 3), the
transmitter up, next log sequence 10, and the requests 1, 2, 3 linked in this
order: 1 and 3 are `kLogAlways`, 2 is `kLogNever`. -/
def stateWrite : Impl :=
  { Impl.init envOk
      (fun p =>
        if p = 1 then { reqEx LogAction.kLogAlways 0 with next := some 2 }
        else if p = 2 then { reqEx LogAction.kLogNever 0 with next := some 3 }
        else reqEx LogAction.kLogAlways 0)
      (fun _ => 0) with
    mTransmitterUpFlag := true
    mNextLogSeq := 10
    mLastLogSeq := 10
    mLogFd := 3
    mLogName := "./kfslog/log.0"
    fds := fun fd => if fd = 3 then some "./kfslog/log.0" else none
    files := fun name => if name = "./kfslog/log.0" then some [] else none }

/-! ## What `FlushBlock` writes -/

/-- The commit marker `FlushBlock` emits for the last log sequence `inLogSeq`:
`c/<seq>/<fid seed>/<error checksum>/<status>/<inLogSeq>/`, the integers in the
current base of the stream. -/
def commitLine (env : Env) (s : Impl) (inLogSeq : Int) : Bytes :=
  "c/".toList ++ showInt env s s.mInFlightCommitted.mSeq ++
    "/".toList ++ showInt env s s.mInFlightCommitted.mFidSeed ++
    "/".toList ++ showInt env s s.mInFlightCommitted.mErrChkSum ++
    "/".toList ++ showInt env s s.mInFlightCommitted.mStatus ++
    "/".toList ++ showInt env s inLogSeq ++ "/".toList

/-- The block sequence `FlushBlock` emits after the commit marker:
`<mNextBlockSeq + 1>/`. -/
def blockSeqText (env : Env) (s : Impl) : Bytes :=
  showInt env s (s.mNextBlockSeq + 1) ++ "/".toList

/-- The checksum `FlushBlock` hands to the transmitter. -/
def txChecksum (env : Env) (s : Impl) (inLogSeq : Int) : Nat :=
  env.ComputeBlockChecksum s.mBlockChecksum (s.mMdStream.buf ++ commitLine env s inLogSeq)

/-- The checksum `FlushBlock` writes at the end of the block. -/
def trailerChecksum (env : Env) (s : Impl) (inLogSeq : Int) : Nat :=
  env.ComputeBlockChecksum (txChecksum env s inLogSeq) (blockSeqText env s)

/-- The bytes `FlushBlock` adds to the buffered records of the block. -/
def blockTrailer (env : Env) (s : Impl) (inLogSeq : Int) : Bytes :=
  commitLine env s inLogSeq ++ blockSeqText env s ++
    showInt env s (trailerChecksum env s inLogSeq) ++ "\n".toList

/-- The block `FlushBlock` hands to the transmitter. -/
def txBlock (env : Env) (s : Impl) (inLogSeq : Int) : TxBlock where
  endSeq := inLogSeq
  count := wrapInt32 (inLogSeq - s.mNextLogSeq)
  data := s.mMdStream.buf ++ commitLine env s inLogSeq
  checksum := txChecksum env s inLogSeq

/-- Whether `FlushBlock` calls `TransmitBlock`: the incremented block sequence
is positive. -/
def transmits (s : Impl) : Bool := decide (0 < s.mNextBlockSeq + 1)

/-- The state `FlushBlock` returns when it is entered with a good stream that is
not in sync mode and the file writes succeed. -/
def afterFlushBlock (env : Env) (s : Impl) (inLogSeq : Int) : Impl :=
  { s with
    mNextBlockSeq := s.mNextBlockSeq + 1
    mTransmitterUpFlag :=
      if transmits s = true ∧ env.TransmitBlock s.tick (txBlock env s inLogSeq) ≠ 0 then false
      else s.mTransmitterUpFlag
    transmitted :=
      if transmits s then s.transmitted ++ [txBlock env s inLogSeq] else s.transmitted
    mBlockChecksum := s.mNextBlockChecksum
    mWriteState := WriteState.kUpdateBlockChecksum
    mMdStream :=
      { s.mMdStream with
        buf := []
        bufSize := max s.mMdStream.bufSize (s.mMdStream.buf ++ blockTrailer env s inLogSeq).length
        sync := false
        md := s.mMdStream.md ++ blockTrailer env s inLogSeq }
    tick := s.tick + (if transmits s then 1 else 0) + 1 + (if s.mSyncFlag then 1 else 0)
    files := (appendToFd s s.mLogFd (s.mMdStream.buf ++ blockTrailer env s inLogSeq)).files }

/-! ## What `NewLog` writes -/

/-- The state `Close` returns when the system call succeeds. -/
def afterClose (s : Impl) : Impl :=
  if s.mLogFd ≤ 0 then s
  else { s with tick := s.tick + 1, fds := Function.update s.fds s.mLogFd none, mLogFd := -1 }

/-- The four header lines of a new log file; `iso` is the time stamp. -/
def headerLines (env : Env) (iso : Bytes) : Bytes :=
  "version/".toList ++ env.showInt false env.VERSION ++ "\n".toList ++
    "checksum/last-line\n".toList ++ "setintbase/16\n".toList ++
    "time/".toList ++ iso ++ "\n".toList

/-- The state of `NewLog` before it flushes the header block, when the file
calls succeed: the new file is open and empty, and the sink holds the header
lines. -/
def newLogHeader (env : Env) (s : Impl) (inLogSeq : Int) : Impl :=
  let c := afterClose s
  let name := makename c.mLogDir c.mLogFileNamePrefix c.mLogNum
  let hdr := headerLines env (env.DisplayIsoDateTime (c.tick + 2))
  { c with
    tick := c.tick + 3
    mCurLogStartTime := env.microseconds c.tick
    mNextBlockSeq := -1
    mError := 0
    mWriteState := WriteState.kUpdateBlockChecksum
    mBlockChecksum := env.kKfsNullChecksum
    mCurLogStartSeq := inLogSeq
    mNextLogSeq := inLogSeq
    mLastLogSeq := inLogSeq
    mLogName := name
    mLogFd := env.sysOpen (c.tick + 1)
    files := Function.update c.files name (some [])
    fds := Function.update c.fds (env.sysOpen (c.tick + 1)) (some name)
    mMdStream :=
      { buf := hdr
        bufSize := max c.mMdStream.bufSize hdr.length
        sync := false
        fail := false
        hex := true
        md := hdr } }

/-- The state `NewLog` returns when the file calls succeed. -/
def afterNewLog (env : Env) (s : Impl) (inLogSeq : Int) : Impl :=
  afterFlushBlock env (newLogHeader env s inLogSeq) inLogSeq

/-- A writer as `stateWrite` in the middle of block 1 of its log file: the
header block is written (`mNextBlockSeq = 0`), the sink holds the record `r\n`
of log sequence 11, and the block checksum seed is 1. -/
def stateBlock : Impl :=
  { stateWrite with
    mNextBlockSeq := 0
    mLastLogSeq := 11
    mBlockChecksum := 1
    mWriteState := WriteState.kUpdateBlockChecksum
    mMdStream := { stateWrite.mMdStream with buf := ['r', '\n'], md := ['r', '\n'] } }

/-- An environment as `envOk` in which the transmitter rejects its parameters
with status 7. -/
def envTxParams : Env := { envOk with transmitterSetParameters := fun _ => 7 }

/-! ## What `Timeout` delivers -/

/-- The loop of `Timeout` on the values alone: the requests `l` are delivered
in order from `mMaxDoneLogSeq = maxDone` and `mPendingCount = pending`; the
result is the final pair, or `none` if the loop panics. -/
def deliverRun (mem : Nat → MetaRequest) : List Nat → Int → Int → Option (Int × Int)
  | [], maxDone, pending => some (maxDone, pending)
  | p :: ps, maxDone, pending =>
    if 0 ≤ (mem p).logseq ∧ (mem p).logseq ≤ maxDone then none
    else if pending - 1 < 0 then none
    else deliverRun mem ps (if 0 ≤ (mem p).logseq then (mem p).logseq else maxDone) (pending - 1)

/-- The request memory with the `next` link of every request of `l` cleared. -/
def clearNext (mem : Nat → MetaRequest) : List Nat → Nat → MetaRequest
  | [] => mem
  | p :: ps => clearNext (Function.update mem p { mem p with next := none }) ps

/-- A writer as `stateQueued` with two requests pending and requests 2 and 3
(linked in this order) in the out queue. -/
def stateOut : Impl :=
  { stateQueued with mPendingCount := 2, mOutQueue := ⟨some 2, some 3⟩ }

/-- The block `WriteBlock` hands to the transmitter for the control request
`r`: the payload, its checksum and its sequence range. -/
def blockOf (r : MetaRequest) : TxBlock where
  endSeq := r.blockEndSeq
  count := wrapInt32 (r.blockEndSeq - r.blockStartSeq)
  data := r.blockData
  checksum := r.blockChecksum

/-- An environment as `envOk` whose hex parser reads every digit string as 4. -/
def envHex : Env := { envOk with HexIntParse := fun _ => some 4 }

/-- A `kWriteBlock` control request carrying the one-line block `c/4/` for the
log sequences 10 to 12. -/
def reqBlock : MetaRequest :=
  { reqEx LogAction.kLogNever 0 with
    op := MetaOp.META_LOG_WRITER_CONTROL
    type := ControlType.kWriteBlock
    blockStartSeq := 10
    blockEndSeq := 12
    blockChecksum := 5
    blockData := ['c', '/', '4', '/']
    blockLines := [4] }

/-- A writer as `stateWrite` after its header block, every request being
`reqBlock`. -/
def stateWriteBlock : Impl :=
  { stateWrite with mem := fun _ => reqBlock, mNextBlockSeq := 0 }

/-- The writer with every field blanked that the write path (`Write` and what
it calls: serialisation, blocks, log files, control requests) can change: the
fields blanked by `core`, the request memory, the log sequences, the
transmitter flag and the parameters.  What is left belongs to the producer
side and to delivery: the queues, the committed records, the counters, the
pending count and the requests delivered. -/
def Impl.keep (s : Impl) : Impl :=
  { s.core with
    mem := fun _ => reqEx LogAction.kLogNever 0
    mNextLogSeq := 0
    mLastLogSeq := 0
    mTransmitterUpFlag := false
    mOmitDefaultsFlag := false
    mMaxBlockSize := 0
    mLogDir := ""
    mLastLogName := ""
    mLogRotateInterval := 0
    mPanicOnIoErrorFlag := false
    mSyncFlag := false
    mFailureSimulationInterval := 0
    mLastLogPath := "" }

/-- The call `m` leaves the part `f` of the state as it was, whenever it
returns. -/
def Frame {α β : Type} (f : Impl → β) (m : M α) : Prop :=
  ∀ s a s', m s = Res.ok a s' → f s' = f s

/-- The three committed records and `mMaxDoneLogSeq`. -/
def Impl.ledger (s : Impl) : Committed × Committed × Committed × Int :=
  (s.mCommitted, s.mPendingCommitted, s.mInFlightCommitted, s.mMaxDoneLogSeq)

/-- The order of the committed records:
`mInFlightCommitted.mSeq <= mPendingCommitted.mSeq <= mCommitted.mSeq`. -/
def CommitOrder (s : Impl) : Prop :=
  s.mInFlightCommitted.mSeq ≤ s.mPendingCommitted.mSeq ∧
    s.mPendingCommitted.mSeq ≤ s.mCommitted.mSeq

/-- One step of a started writer that returns: a public operation (`Enqueue`,
`Committed`, `SetCommitted`, `ScheduleFlush`), a worker dispatch step
(`DispatchStart`, `DispatchEnd`), the main thread's `Timeout`, or the
transmitter's `Notify`.  `allowed s seq` says which `SetCommitted` calls are
taken into account. -/
inductive Step (env : Env) (allowed : Impl → Int → Prop) : Impl → Impl → Prop where
  | enqueue (s s' : Impl) (p : Nat) (b : Bool) : Enqueue env p s = Res.ok b s' → Step env allowed s s'
  | committed (s s' : Impl) (p : Nat) (fid : Int) :
    RequestCommitted env p fid s = Res.ok () s' → Step env allowed s s'
  | setCommitted (s s' : Impl) (seq chk fid st : Int) : allowed s seq →
    SetCommitted seq chk fid st s = Res.ok () s' → Step env allowed s s'
  | scheduleFlush (s s' : Impl) : ScheduleFlush s = Res.ok () s' → Step env allowed s s'
  | dispatchStart (s s' : Impl) (fuel : Nat) :
    DispatchStart env fuel s = Res.ok () s' → Step env allowed s s'
  | dispatchEnd (s s' : Impl) (fuel : Nat) :
    DispatchEnd fuel s = Res.ok () s' → Step env allowed s s'
  | timeout (s s' : Impl) (fuel : Nat) : Timeout fuel s = Res.ok () s' → Step env allowed s s'
  | notify (s s' : Impl) (seq : Int) : Notify env seq s = Res.ok () s' → Step env allowed s s'

/-- The states a writer reaches from a successful `Start` by steps. -/
def Reachable (env : Env) (allowed : Impl → Int → Prop) (s : Impl) : Prop :=
  ∃ (s0 s1 : Impl) (fuel : Nat) (inLogNum inLogSeq inCommittedLogSeq inCommittedFidSeed
      inCommittedErrCheckSum inCommittedStatus : Int) (inLogAppendMdStatePtr : Option MdStateCtx)
      (inLogAppendStartSeq inLogAppendLastBlockSeq : Int) (inLogAppendHexFlag : Bool)
      (inParametersPrefixPtr : Option String) (inParameters : Properties) (name : String),
    Start env fuel inLogNum inLogSeq inCommittedLogSeq inCommittedFidSeed inCommittedErrCheckSum
      inCommittedStatus inLogAppendMdStatePtr inLogAppendStartSeq inLogAppendLastBlockSeq
      inLogAppendHexFlag inParametersPrefixPtr inParameters s0 = Res.ok (0, some name) s1 ∧
    Relation.ReflTransGen (Step env allowed) s1 s

/-- The last request of `l` with `logseq >= 0`, if there is one. -/
def lastLogged (mem : Nat → MetaRequest) (l : List Nat) : Option Nat :=
  l.reverse.find? (fun p => decide (0 ≤ (mem p).logseq))

/-- A writer as `stateOut` whose requests 2 and 3 carry the log sequences 4 and
5, with `mMaxDoneLogSeq = 3`. -/
def stateDone : Impl :=
  { stateOut with
    mem := fun p =>
      if p = 2 then { reqEx LogAction.kLogAlways 0 with next := some 3, logseq := 4 }
      else { reqEx LogAction.kLogAlways 0 with logseq := 5 }
    mMaxDoneLogSeq := 3 }

/-! ## Permissions (`kfsdecls.h`) -/

/-- `PermissionsT::PBits`. -/
inductive PBits where
  | kExec
  | kWrite
  | kRead
  deriving DecidableEq, Repr

/-- The value of the enumerator: `kExec = 1`, `kWrite = 2`, `kRead = 4`. -/
def PBits.val : PBits → Nat
  | PBits.kExec => 1
  | PBits.kWrite => 2
  | PBits.kRead => 4

/-- The bit of the triad the enumerator stands for: `val = 2 ^ bit`. -/
def PBits.bit : PBits → Nat
  | PBits.kExec => 0
  | PBits.kWrite => 1
  | PBits.kRead => 2

/-- `PermissionsT`: owner, group and mode of an i-node.  The types `kfsUid_t`,
`kfsGid_t` and `kfsMode_t` of `kfstypes.h` are unsigned integers. -/
structure PermissionsT where
  user : Nat
  group : Nat
  mode : Nat
  deriving DecidableEq, Repr

/-- `PermissionsT::GetPermissions`; `IsGroupMember` is the member function of
the template parameter `UserAndGroupsT`. -/
def PermissionsT.GetPermissions (IsGroupMember : Nat → Nat → Bool) (p : PermissionsT)
    (euser egroup : Nat) : Nat :=
  if p.user = euser then
    (p.mode >>> 6) &&& 0x7
  else if p.group = egroup ∨ IsGroupMember euser p.group = true then
    (p.mode >>> 3) &&& 0x7
  else
    p.mode &&& 0x7

/-- `PermissionsT::Access`; `kKfsUserRoot` is the constant of `kfstypes.h`. -/
def PermissionsT.Access (IsGroupMember : Nat → Nat → Bool) (kKfsUserRoot : Nat)
    (p : PermissionsT) (euser egroup : Nat) (perm : PBits) : Bool :=
  euser == kKfsUserRoot ||
    (PermissionsT.GetPermissions IsGroupMember p euser egroup &&& perm.val) != 0

/-- `UserAndGroupNone::IsGroupMember`. -/
def UserAndGroupNone.IsGroupMember (_user _group : Nat) : Bool := false

/-- The triad `GetPermissions` selects, as the number of its lowest bit in the
mode: 6 for the owner, 3 for the group, 0 for the others. -/
def PermissionsT.triad (IsGroupMember : Nat → Nat → Bool) (p : PermissionsT)
    (euser egroup : Nat) : Nat :=
  if p.user = euser then 6
  else if p.group = egroup ∨ IsGroupMember euser p.group = true then 3
  else 0

/-- A started writer as `stateEx` whose transmitter has reported sequence 5. -/
def stateNotified : Impl :=
  { stateEx LogAction.kLogAlways 0 0 with mTransmitCommitted := 5 }

/-- A writer as `stateWriteBlock` whose log sequences are 11, one past the
start sequence 10 of the block request. -/
def stateBlockAhead : Impl :=
  { stateWriteBlock with mNextLogSeq := 11, mLastLogSeq := 11 }

/-- An environment as `envOk` whose hex parser reads the digits `-5` as the
number -5 and nothing else.  (`HexIntParser::Parse` is not among the sources;
it is a parameter of the model.) -/
def envSigned : Env :=
  { envOk with HexIntParse := fun d => if d = ['-', '5'] then some (-5) else none }

/-- A `kWriteBlock` control request carrying the one-line block `c/` `-5/` for
the log sequences 10 to 12. -/
def reqSigned : MetaRequest :=
  { reqBlock with blockData := ['c', '/', '-', '5', '/'], blockLines := [5] }

/-- A writer as `stateWriteBlock`, every request being `reqSigned`. -/
def stateSigned : Impl :=
  { stateWriteBlock with mem := fun _ => reqSigned }

/-- An environment as `envOk` whose first `::write` call is short: it takes 2
bytes; every later call takes all it is given. -/
def envShort : Env := { envOk with sysWrite := fun t n => if t = 0 then 2 else n }

/-- A writer as `stateWrite` with the sink in sync mode. -/
def stateSync : Impl :=
  { stateWrite with mMdStream := { stateWrite.mMdStream with sync := true } }

/-- A writer as `stateWrite` whose log file was opened at descriptor 0. -/
def stateFdZero : Impl :=
  { stateWrite with
    mLogFd := 0
    fds := fun fd => if fd = 0 then some "./kfslog/log.0" else none }

/-! ## `Write` in closed form, while the file calls succeed -/

/-- The state after the loop of `Write` has logged the request `p`: the request
has the next log sequence, and its record is in the sink. -/
def logReq (env : Env) (s : Impl) (p : Nat) : Impl :=
  { s with
    mem := Function.update s.mem p { s.mem p with logseq := s.mLastLogSeq + 1 }
    mLastLogSeq := s.mLastLogSeq + 1
    mMdStream :=
      { s.mMdStream with
        buf := s.mMdStream.buf ++
          (env.WriteLog { s.mem p with logseq := s.mLastLogSeq + 1 } s.mOmitDefaultsFlag).data
        bufSize := max s.mMdStream.bufSize (s.mMdStream.buf ++
          (env.WriteLog { s.mem p with logseq := s.mLastLogSeq + 1 } s.mOmitDefaultsFlag).data).length
        md := s.mMdStream.md ++
          (env.WriteLog { s.mem p with logseq := s.mLastLogSeq + 1 } s.mOmitDefaultsFlag).data } }

/-- The outcome of the inner loop of `Write`: `thePtr` at its exit, the requests
the loop went through (`batch`), the requests after them (`rest`), and the
state. -/
structure InnerResult where
  ptr : Option Nat
  batch : List Nat
  rest : List Nat
  state : Impl

/-- The inner loop of `Write` over the requests `l`, none of them a control
request, with a good stream not in sync mode. -/
def innerRun (env : Env) (theEndBlockSeq : Int) (theSimulateFailureFlag theTransmitterUpFlag : Bool) :
    List Nat → Impl → InnerResult
  | [], s => ⟨none, [], [], s⟩
  | p :: ps, s =>
    if theTransmitterUpFlag = false then
      let r := innerRun env theEndBlockSeq theSimulateFailureFlag theTransmitterUpFlag ps s
      ⟨r.ptr, p :: r.batch, r.rest, r.state⟩
    else if (s.mem p).loggable = true ∧ theSimulateFailureFlag = true then
      ⟨some p, [p], ps, s⟩
    else
      let s1 := if (s.mem p).loggable = true then logReq env s p else s
      if theEndBlockSeq ≤ s1.mLastLogSeq then ⟨some p, [p], ps, s1⟩
      else if s1.mMdStream.bufSize / 4 * 3 < s1.mMdStream.buf.length then ⟨some p, [p], ps, s1⟩
      else
        let r := innerRun env theEndBlockSeq theSimulateFailureFlag theTransmitterUpFlag ps s1
        ⟨r.ptr, p :: r.batch, r.rest, r.state⟩

/-- The state after the inner loop of `Write` has handled the request `p` with
no failure simulated: logged if it is loggable, untouched otherwise. -/
def stepReq (env : Env) (s : Impl) (p : Nat) : Impl :=
  if (s.mem p).loggable = true then logReq env s p else s

/-- The inner loop of `Write` leaves the loop after a request in state `s1`:
the block is full or the sink buffer is filled over three quarters. -/
def breaksAt (theEndBlockSeq : Int) (s1 : Impl) : Prop :=
  theEndBlockSeq ≤ s1.mLastLogSeq ∨ s1.mMdStream.bufSize / 4 * 3 < s1.mMdStream.buf.length

/-- The request memory after the write failure loop of `Write` has gone through
the requests `l`: every loggable request that is not a control request has
`logseq = -1`, `status = -ELOGFAILED` and the message of `LogError`. -/
def markFailed (env : Env) (mem : Nat → MetaRequest) : List Nat → Nat → MetaRequest
  | [] => mem
  | p :: ps =>
    markFailed env
      (if (mem p).op ≠ MetaOp.META_LOG_WRITER_CONTROL ∧ (mem p).loggable = true then
        Function.update mem p
          { mem p with
            logseq := -1, status := -env.ELOGFAILED, statusMsg := "transaction log write error" }
      else mem) ps

/-- `IsSimulateFailure` as a function: the flag and the state after the call. -/
def simRun (env : Env) (s : Impl) : Bool × Impl :=
  if 0 < s.mFailureSimulationInterval then
    (env.Rand s.tick % s.mFailureSimulationInterval.toNat == 0, { s with tick := s.tick + 1 })
  else (false, s)

/-- One iteration of the outer loop of `Write` over the requests `l` (none of
them a control request), with a good stream and successful file calls: the
requests left for the next iteration, and the state. -/
def batchRun (env : Env) (l : List Nat) (s : Impl) : List Nat × Impl :=
  let sim := simRun env { s with mLastLogSeq := s.mNextLogSeq }
  let up := s.mTransmitterUpFlag
  let r := innerRun env (s.mNextLogSeq + s.mMaxBlockSize) sim.1 up l sim.2
  let s1 := r.state
  let s2 := if s1.mNextLogSeq < s1.mLastLogSeq ∧ up = true then
      afterFlushBlock env s1 s1.mLastLogSeq else s1
  let s3 : Impl := if (!sim.1 && up) = true then { s2 with mNextLogSeq := s2.mLastLogSeq }
    else { s2 with mLastLogSeq := s2.mNextLogSeq, mem := markFailed env s2.mem r.batch }
  (r.rest, s3)

/-- The outer loop of `Write`, at most `n` iterations. -/
def batchesRun (env : Env) : Nat → List Nat → Impl → Impl
  | 0, _, s => s
  | _ + 1, [], s => s
  | n + 1, p :: ps, s =>
    batchesRun env n (batchRun env (p :: ps) s).1 (batchRun env (p :: ps) s).2

/-- Every batch of `Write` is failed without a write: a failure is simulated
at every batch (`failureSimulationInterval = 1`), or the transmitter is down. -/
def AllFail (s : Impl) : Prop :=
  s.mFailureSimulationInterval = 1 ∨ s.mTransmitterUpFlag = false

/-- The state `Write` returns for the requests `l` (none of them a control
request) when it is entered with a good stream, the file calls succeed and no
rotation is due at its end: the batches, and one reading of the clock when
the log holds records. -/
def writeRun (env : Env) (n : Nat) (l : List Nat) (s : Impl) : Impl :=
  let s2 := batchesRun env n l { s with mMdStream := { s.mMdStream with sync := false } }
  if s2.mCurLogStartSeq < s2.mNextLogSeq then { s2 with tick := s2.tick + 1 } else s2

/-- A rotation by time is due in state `s`, where `Write` reads the clock. -/
def rotationDue (env : Env) (s : Impl) : Prop :=
  s.mCurLogStartSeq < s.mNextLogSeq ∧
    s.mCurLogStartTime + s.mLogRotateInterval < env.microseconds s.tick

/-- The request was failed by `Write`: the three fields the failure path of
`Write` assigns. -/
def FailedReq (env : Env) (r : MetaRequest) : Prop :=
  r.logseq = -1 ∧ r.status = -env.ELOGFAILED ∧ r.statusMsg = "transaction log write error"

/-- As `envOk`, with the clock far past the log rotation interval. -/
def envLate : Env := { envOk with microseconds := fun _ => 1000000000000 }

/-- As `stateWrite` in block 6 of its log file, with a failure simulated at
every batch (`failureSimulationInterval = 1`). -/
def stateSim : Impl := { stateWrite with mFailureSimulationInterval := 1, mNextBlockSeq := 5 }

/-- As `envOk`, with a random number generator that returns 0 at the first
call and 1 afterwards. -/
def envSimOnce : Env := { envOk with Rand := fun t => if t = 0 then 0 else 1 }

/-- As `stateWrite` after the header block, with
`failureSimulationInterval = 2`: with `envSimOnce` a failure is simulated for
the first batch only. -/
def stateSimOnce : Impl := { stateWrite with mFailureSimulationInterval := 2, mNextBlockSeq := 0 }

/-- As `envOk`, with a transmitter that refuses every block. -/
def envTxFail : Env := { envOk with TransmitBlock := fun _ _ => 1 }

/-- As `stateWrite` after the header block of its log file. -/
def stateTx : Impl := { stateWrite with mNextBlockSeq := 0 }

/-- The parameters `SetParameters` assigns. -/
def setParams (inParametersPrefixPtr : Option String) (inParameters : Properties) (s : Impl) :
    Impl :=
  let theName := inParametersPrefixPtr.getD ""
  let theLogDir := (inParameters.getStr (theName ++ "logDir")).getD s.mLogDir
  let theLastLogName := (inParameters.getStr (theName ++ "lastLogName")).getD s.mLastLogName
  { s with
    mOmitDefaultsFlag :=
      (inParameters.getInt (theName ++ "omitDefaults")).getD (if s.mOmitDefaultsFlag then 1 else 0) != 0
    mMaxBlockSize := (inParameters.getInt (theName ++ "maxBlockSize")).getD s.mMaxBlockSize
    mLogDir := theLogDir
    mLastLogName := theLastLogName
    mLogRotateInterval :=
      (inParameters.getUsec (theName ++ "rotateIntervalSec")).getD s.mLogRotateInterval
    mPanicOnIoErrorFlag :=
      (inParameters.getInt (theName ++ "panicOnIoError")).getD (if s.mPanicOnIoErrorFlag then 1 else 0) != 0
    mSyncFlag := (inParameters.getInt (theName ++ "sync")).getD (if s.mSyncFlag then 1 else 0) != 0
    mFailureSimulationInterval :=
      (inParameters.getInt (theName ++ "failureSimulationInterval")).getD s.mFailureSimulationInterval
    mLastLogPath := theLogDir ++ "/" ++ theLastLogName }

/-- The state a successful `Start` returns when there is no log to append to
and the file calls succeed. -/
def afterStart (env : Env) (inLogNum inLogSeq inCommittedLogSeq inCommittedFidSeed
    inCommittedErrCheckSum inCommittedStatus : Int) (inParametersPrefixPtr : Option String)
    (inParameters : Properties) (s : Impl) : Impl :=
  let s1 := setParams inParametersPrefixPtr inParameters
    { s with
      mNextBlockChecksum := env.ComputeBlockChecksum env.kKfsNullChecksum "\n".toList
      mLogNum := inLogNum }
  let s2 : Impl :=
    { s1 with
      tick := s1.tick + 1
      mMdStream := { s1.mMdStream with buf := [], md := [] }
      mCommitted :=
        { mErrChkSum := inCommittedErrCheckSum, mSeq := inCommittedLogSeq
          mFidSeed := inCommittedFidSeed, mStatus := inCommittedStatus }
      mPendingCommitted :=
        { mErrChkSum := inCommittedErrCheckSum, mSeq := inCommittedLogSeq
          mFidSeed := inCommittedFidSeed, mStatus := inCommittedStatus }
      mInFlightCommitted :=
        { mErrChkSum := inCommittedErrCheckSum, mSeq := inCommittedLogSeq
          mFidSeed := inCommittedFidSeed, mStatus := inCommittedStatus } }
  { afterNewLog env s2 inLogSeq with
    mStopFlag := false, mNetManagerPtr := true, mThreadStarted := true }

/-- The loop of `ProcessPendingAckQueue` over the requests `l` of the
pending-ack queue: the done queue and the state. -/
def splitRun (s : Impl) (inDoneQueue : Queue) : List Nat → Option Nat → Queue × Impl
  | [], _ => (inDoneQueue, s)
  | p :: ps, thePrevPtr =>
    if s.mTransmitCommitted < (s.mem p).logseq then
      match thePrevPtr with
      | some prev =>
        (⟨s.mPendingAckQueue.Front, some prev⟩,
          { (s.setReq prev fun r => { r with next := none }) with
            mPendingAckQueue := ⟨some p, s.mPendingAckQueue.Back⟩ })
      | none => (inDoneQueue, s)
    else splitRun s inDoneQueue ps (some p)

/-- `ProcessPendingAckQueue` as a function, `l` being the requests of the
pending-ack queue after `inDoneQueue` was appended to it: the done queue
returned and the state. -/
def ackRun (s : Impl) (inDoneQueue : Queue) (l : List Nat) : Queue × Impl :=
  let s1 : Impl :=
    { s with
      mWokenFlag := false
      mPendingAckQueue := (s.mPendingAckQueue.PushBackQueue inDoneQueue s.mem).1
      mem := (s.mPendingAckQueue.PushBackQueue inDoneQueue s.mem).2.2 }
  let r : Queue × Impl :=
    if s1.mTransmitCommitted < s1.mNextLogSeq then splitRun s1 inDoneQueue.Reset l none
    else
      ((inDoneQueue.Reset.PushBackQueue s1.mPendingAckQueue s1.mem).1,
        { s1 with
          mPendingAckQueue := (inDoneQueue.Reset.PushBackQueue s1.mPendingAckQueue s1.mem).2.1
          mem := (inDoneQueue.Reset.PushBackQueue s1.mPendingAckQueue s1.mem).2.2 })
  if r.1.IsEmpty = true then r
  else
    ((r.2.mOutQueue.PushBackQueue r.1 r.2.mem).2.1,
      { r.2 with
        mOutQueue := (r.2.mOutQueue.PushBackQueue r.1 r.2.mem).1
        mem := (r.2.mOutQueue.PushBackQueue r.1 r.2.mem).2.2
        mainWakeups := r.2.mainWakeups + 1 })

/-- The state `Notify` returns. -/
def afterNotify (env : Env) (inSeq : Int) (s : Impl) : Impl :=
  { s with
    mTransmitCommitted := inSeq
    mTransmitterUpFlag := env.transmitterIsUp s.tick
    tick := s.tick + 1
    mWokenFlag := s.mWokenFlag || decide (s.mTransmitCommitted < inSeq) }

/-- The state `Enqueue` returns when it queues the request. -/
def afterEnqueue (p : Nat) (s : Impl) : Impl :=
  { s with
    mNextSeq := s.mNextSeq + 1
    mem := (s.mPendingQueue.PushBack p (Function.update s.mem p
      { s.mem p with next := none, seqno := s.mNextSeq + 1, commitPendingFlag := true })).2
    mPendingQueue := (s.mPendingQueue.PushBack p (Function.update s.mem p
      { s.mem p with next := none, seqno := s.mNextSeq + 1, commitPendingFlag := true })).1
    counters := incrCounter s.counters (s.mem p).logQueueCounter
    mPendingCount := wrapInt32 (s.mPendingCount + 1) }

/-- The state `ScheduleFlush` returns when the pending queue is not empty. -/
def afterScheduleFlush (s : Impl) : Impl :=
  { s with
    mPendingCommitted := s.mCommitted
    mInQueue := (s.mInQueue.PushBackQueue s.mPendingQueue s.mem).1
    mPendingQueue := (s.mInQueue.PushBackQueue s.mPendingQueue s.mem).2.1
    mem := (s.mInQueue.PushBackQueue s.mPendingQueue s.mem).2.2
    workerWakeups := s.workerWakeups + 1 }

/-- The state `DispatchStart` returns when the in queue holds the requests
`lw` (no control request among them), the stream is good and the file calls
succeed; `la` are the requests of the pending-ack queue after the write. -/
def afterDispatchStart (env : Env) (n : Nat) (lw la : List Nat) (s : Impl) : Impl :=
  (ackRun (writeRun env n lw
    { s with
      mInQueue := s.mInQueue.Reset
      mInFlightCommitted := s.mPendingCommitted
      mWokenFlag := true }) s.mInQueue la).2

/-- A writer started with log sequence 0 and committed log sequence 100. -/
def cycStarted : Impl :=
  afterStart envOk 0 0 100 0 0 0 none Properties.none
    (Impl.init envOk (fun _ => reqEx LogAction.kLogAlways 0) (fun _ => 0))

/-- `cycStarted` after the transmitter has notified sequence 0 and is up. -/
def cycNotified : Impl := afterNotify envOk 0 cycStarted

/-- `cycNotified` after request 1 was enqueued. -/
def cycQueued : Impl := afterEnqueue 1 cycNotified

/-- `cycQueued` after `ScheduleFlush`. -/
def cycFlushed : Impl := afterScheduleFlush cycQueued

/-- The request memory `m'` differs from `m` in `next` links only. -/
def NextOnly (m m' : Nat → MetaRequest) : Prop :=
  ∀ x, ∃ nx, m' x = { m x with next := nx }

/-- As `stateWrite`, with the requests 1, 2, 3 in the in queue. -/
def stateIn : Impl := { stateWrite with mInQueue := ⟨some 1, some 3⟩ }

/-- The `commitPendingFlag` of every request. -/
def Impl.flags (s : Impl) : Nat → Bool := fun q => (s.mem q).commitPendingFlag

/-- `cycFlushed` after the dispatch cycle that writes request 1. -/
def cycDispatched : Impl := afterDispatchStart envOk 5 [1] [1] cycFlushed

/-- `cycDispatched` after the transmitter has notified sequence 1. -/
def cycAcked : Impl := afterNotify envOk 1 cycDispatched

/-- `cycAcked` after `DispatchEnd` has moved request 1 to the out queue. -/
def cycEnded : Impl := (ackRun cycAcked Queue.empty [1]).2

/-- `cycEnded` after `Timeout` has delivered request 1. -/
def cycDelivered : Impl :=
  { cycEnded with
    mOutQueue := cycEnded.mOutQueue.Reset
    mem := clearNext cycEnded.mem [1]
    mMaxDoneLogSeq := 1
    mPendingCount := 0
    submitted := cycEnded.submitted ++ [1] }

/-- A `kWriteBlock` control request as `reqBlock` that `Enqueue` queues
(`kLogAlways`) and whose end sequence 3 is below its start sequence 10. -/
def reqBlockBack : MetaRequest :=
  { reqBlock with logAction := LogAction.kLogAlways, blockEndSeq := 3 }

/-- A writer started at log sequence 10, every request being `reqBlockBack`. -/
def blkStarted : Impl :=
  afterStart envHex 0 10 0 0 0 0 none Properties.none
    (Impl.init envHex (fun _ => reqBlockBack) (fun _ => 0))

/-- `blkStarted` after the transmitter has notified sequence 0 and is up. -/
def blkNotified : Impl := afterNotify envHex 0 blkStarted

/-- `blkNotified` after request 1 was enqueued. -/
def blkQueued : Impl := afterEnqueue 1 blkNotified

/-- `blkQueued` after `ScheduleFlush`. -/
def blkFlushed : Impl := afterScheduleFlush blkQueued

/-- As `stateTx`, with `mMaxBlockSize = 2`, a buffer of one byte, and the two
loggable requests 1 and 2 linked in this order. -/
def stateTwo : Impl :=
  { stateTx with
    mMaxBlockSize := 2
    mMdStream := { stateTx.mMdStream with bufSize := 1 }
    mem := fun p =>
      if p = 1 then { reqEx LogAction.kLogAlways 0 with next := some 2 }
      else reqEx LogAction.kLogAlways 0 }

/-- A `kWriteBlock` control request as `reqBlockBack` for the start sequence
11. -/
def reqBlockBack11 : MetaRequest := { reqBlockBack with blockStartSeq := 11 }

/-- A writer started at log sequence 10; request 2 is `reqBlockBack11`, every
other request is loggable. -/
def ackStarted : Impl :=
  afterStart envHex 0 10 0 0 0 0 none Properties.none
    (Impl.init envHex
      (fun p => if p = 2 then reqBlockBack11 else reqEx LogAction.kLogAlways 0) (fun _ => 0))

/-- `ackStarted` after the transmitter has notified sequence 10 and is up. -/
def ackNotified : Impl := afterNotify envHex 10 ackStarted

/-- `ackNotified` after request 1 was enqueued. -/
def ackQueued : Impl := afterEnqueue 1 ackNotified

/-- `ackQueued` after `ScheduleFlush`. -/
def ackFlushed : Impl := afterScheduleFlush ackQueued

/-- `ackFlushed` after the dispatch cycle that logs request 1 with log sequence
11; the request waits in the pending-ack queue. -/
def ackDispatched : Impl := afterDispatchStart envHex 5 [1] [1] ackFlushed

/-- `ackDispatched` after the control request 2 was enqueued. -/
def ackQueued2 : Impl := afterEnqueue 2 ackDispatched

/-- `ackQueued2` after `ScheduleFlush`. -/
def ackFlushed2 : Impl := afterScheduleFlush ackQueued2

/-! ## `HexIntParser::sChar2Hex` (`src/cc/common/RequestParser.cc`) -/

/-- `HexIntParser::sChar2Hex`, the table of `RequestParser.cc`, entry by entry
in the order of the source. -/
def HexIntParser.sChar2Hex : List Nat := [
  0xff, 0xff, 0xff, 0xff, 0xff,
  0xff, 0xff, 0xff, 0xff, 0xff,
  0xff, 0xff, 0xff, 0xff, 0xff,
  0xff, 0xff, 0xff, 0xff, 0xff,
  0xff, 0xff, 0xff, 0xff, 0xff,
  0xff, 0xff, 0xff, 0xff, 0xff,
  0xff, 0xff, 0xff, 0xff, 0xff,
  0xff, 0xff, 0xff, 0xff, 0xff,
  0xff, 0xff, 0xff, 0xff, 0xff,
  0xff, 0xff, 0xff, 0x00, 0x01,
  0x02, 0x03, 0x04, 0x05, 0x06,
  0x07, 0x08, 0x09, 0xff, 0xff,
  0xff, 0xff, 0xff, 0xff, 0xff,
  0x0a, 0x0b, 0x0c, 0x0d, 0x0e,
  0x0f, 0xff, 0xff, 0xff, 0xff,
  0xff, 0xff, 0xff, 0xff, 0xff,
  0xff, 0xff, 0xff, 0xff, 0xff,
  0xff, 0xff, 0xff, 0xff, 0xff,
  0xff, 0xff, 0xff, 0xff, 0xff,
  0xff, 0xff, 0x0a, 0x0b, 0x0c,
  0x0d, 0x0e, 0x0f, 0xff, 0xff,
  0xff, 0xff, 0xff, 0xff, 0xff,
  0xff, 0xff, 0xff, 0xff, 0xff,
  0xff, 0xff, 0xff, 0xff, 0xff,
  0xff, 0xff, 0xff, 0xff, 0xff,
  0xff, 0xff, 0xff, 0xff, 0xff,
  0xff, 0xff, 0xff, 0xff, 0xff,
  0xff, 0xff, 0xff, 0xff, 0xff,
  0xff, 0xff, 0xff, 0xff, 0xff,
  0xff, 0xff, 0xff, 0xff, 0xff,
  0xff, 0xff, 0xff, 0xff, 0xff,
  0xff, 0xff, 0xff, 0xff, 0xff,
  0xff, 0xff, 0xff, 0xff, 0xff,
  0xff, 0xff, 0xff, 0xff, 0xff,
  0xff, 0xff, 0xff, 0xff, 0xff,
  0xff, 0xff, 0xff, 0xff, 0xff,
  0xff, 0xff, 0xff, 0xff, 0xff,
  0xff, 0xff, 0xff, 0xff, 0xff,
  0xff, 0xff, 0xff, 0xff, 0xff,
  0xff, 0xff, 0xff, 0xff, 0xff,
  0xff, 0xff, 0xff, 0xff, 0xff,
  0xff, 0xff, 0xff, 0xff, 0xff,
  0xff, 0xff, 0xff, 0xff, 0xff,
  0xff, 0xff, 0xff, 0xff, 0xff,
  0xff, 0xff, 0xff, 0xff, 0xff,
  0xff, 0xff, 0xff, 0xff, 0xff,
  0xff, 0xff, 0xff, 0xff, 0xff,
  0xff, 0xff, 0xff, 0xff, 0xff,
  0xff, 0xff, 0xff, 0xff, 0xff,
  0xff, 0xff, 0xff, 0xff, 0xff,
  0xff, 0xff, 0xff, 0xff, 0xff,
  0xff]

/-- The numeric value of the byte `c` read as an ASCII hexadecimal digit, upper
or lower case, and `0xff` for every other byte: what the table is to hold. -/
def hexDigitValue (c : Nat) : Nat :=
  if '0'.toNat ≤ c ∧ c ≤ '9'.toNat then c - '0'.toNat
  else if 'a'.toNat ≤ c ∧ c ≤ 'f'.toNat then c - 'a'.toNat + 10
  else if 'A'.toNat ≤ c ∧ c ≤ 'F'.toNat then c - 'A'.toNat + 10
  else 0xff

/-! ## `ServerLocation` (`src/cc/common/kfsdecls.h`) -/

/-- `struct ServerLocation`: `hostname` as the list of its bytes (each the
unsigned value of a `char`, as `std::char_traits<char>` compares them) and
`port`. -/
structure ServerLocation where
  hostname : List Nat
  port : Int
deriving DecidableEq, Repr

/-- `std::string::compare`: negative, zero or positive as the first string is
before, equal to or after the second, bytes compared as unsigned values and a
proper initial part coming first. -/
def stringCompare : List Nat → List Nat → Int
  | [], [] => 0
  | [], _ :: _ => -1
  | _ :: _, [] => 1
  | a :: as, b :: bs => if a < b then -1 else if b < a then 1 else stringCompare as bs

/-- `ServerLocation::operator==`. -/
def ServerLocation.eq (a other : ServerLocation) : Bool :=
  decide (a.hostname = other.hostname) && decide (a.port = other.port)

/-- `ServerLocation::operator!=`. -/
def ServerLocation.ne (a other : ServerLocation) : Bool :=
  decide (a.hostname ≠ other.hostname) || decide (a.port ≠ other.port)

/-- `ServerLocation::operator<`. -/
def ServerLocation.lt (a other : ServerLocation) : Bool :=
  let res := stringCompare a.hostname other.hostname
  decide (res < 0) || (decide (res = 0) && decide (a.port < other.port))

/-- A writer as `stateWriteBlock` in the block state that `StartBlock` leaves
when a `FlushBlock` ends: `mWriteState = kUpdateBlockChecksum`. -/
def stateBadBlock : Impl :=
  { stateWriteBlock with mWriteState := WriteState.kUpdateBlockChecksum }

/-- A memory of requests that are not linked. -/
def memLoose : Nat → MetaRequest := fun _ => reqEx LogAction.kLogAlways 0

/-- A writer started at log sequence 10, every request loggable. -/
def lostStarted : Impl :=
  afterStart envOk 0 10 0 0 0 0 none Properties.none (Impl.init envOk memLoose (fun _ => 0))

/-- `lostStarted` after the transmitter has notified sequence 5 and is up. -/
def lostNotified : Impl := afterNotify envOk 5 lostStarted

/-- `lostNotified` after request 1 was enqueued. -/
def lostQueued : Impl := afterEnqueue 1 lostNotified

/-- `lostQueued` after `ScheduleFlush`. -/
def lostFlushed : Impl := afterScheduleFlush lostQueued

/-- `lostFlushed` after the dispatch cycle that logs request 1 with log
sequence 11; the request waits in the pending-ack queue. -/
def lostDispatched : Impl := afterDispatchStart envOk 5 [1] [1] lostFlushed

/-- `lostDispatched` after the transmitter has notified sequence 6, which wakes
the worker. -/
def lostWoken : Impl := afterNotify envOk 6 lostDispatched

/-- `lostWoken` after `DispatchEnd`, which runs `ProcessPendingAckQueue` with
an empty queue. -/
def lostEnded : Impl := (ackRun lostWoken Queue.empty [1]).2

/-- `lostEnded` after request 2 was enqueued. -/
def lostQueued2 : Impl := afterEnqueue 2 lostEnded

/-- `lostQueued2` after `ScheduleFlush`. -/
def lostFlushed2 : Impl := afterScheduleFlush lostQueued2

/-- `lostFlushed2` after the dispatch cycle that logs request 2. -/
def lostDispatched2 : Impl := afterDispatchStart envOk 5 [2] [2] lostFlushed2

/-- As `stateWrite` in block 6 of its log file, with the transmitter down. -/
def stateDown : Impl := { stateWrite with mTransmitterUpFlag := false, mNextBlockSeq := 5 }

/-- The number of the log file and the request memory: the part of the state
that closing a log file and opening the next leave alone. -/
def Impl.book (s : Impl) : Int × (Nat → MetaRequest) := (s.mLogNum, s.mem)

/-- The reply fields `Control` fills in a `kNop` or `kNewLog` request. -/
def controlReply (s : Impl) (r : MetaRequest) : MetaRequest :=
  { r with committed := s.mInFlightCommitted.mSeq, lastLogSeq := s.mLastLogSeq, logName := s.mLogName }

/-- What `ProcessPendingAckQueue` does with the requests `l` of the pending-ack
queue (the just-written requests appended): the requests moved to `mOutQueue`
and the requests that stay.  With `mTransmitCommitted < mNextLogSeq` the list
is cut before the first request with `mTransmitCommitted < logseq`, and
nothing is moved when there is no such request; otherwise all are moved. -/
def ackSplit (s : Impl) (l : List Nat) : List Nat × List Nat :=
  if s.mTransmitCommitted < s.mNextLogSeq then
    if l.all (fun p => decide ((s.mem p).logseq ≤ s.mTransmitCommitted)) then ([], l)
    else
      (l.takeWhile (fun p => decide ((s.mem p).logseq ≤ s.mTransmitCommitted)),
        l.dropWhile (fun p => decide ((s.mem p).logseq ≤ s.mTransmitCommitted)))
  else (l, [])

/-- A writer as `stateWrite` whose requests 1, 2, 3 carry the log sequences 10,
11, 12, with `mNextLogSeq = 12` and `mTransmitCommitted = 10`. -/
def stateAck : Impl :=
  { stateWrite with
    mTransmitCommitted := 10
    mNextLogSeq := 12
    mLastLogSeq := 12
    mem := fun p =>
      if p = 1 then { reqEx LogAction.kLogAlways 0 with next := some 2, logseq := 10 }
      else if p = 2 then { reqEx LogAction.kLogAlways 0 with next := some 3, logseq := 11 }
      else { reqEx LogAction.kLogAlways 0 with logseq := 12 } }

/-- The message of the panic `WriteBlock` raises when it is entered with
`mLastLogSeq != mNextLogSeq`. -/
def wbPanic : String := "invalid write block invocation"

/-- The call `m` never ends in a panic with the message `msg`. -/
def NoPanic {α : Type} (msg : String) (m : M α) : Prop :=
  ∀ s s', m s ≠ Res.panic msg s'

/-- As `envOk`, with a file system whose second outside call, a `write`, fails
with an input-output error (it returns -1 with `errno` set to `EIO`); every
other call succeeds. -/
def envFlaky : Env :=
  { envOk with
    sysWrite := fun t n => if t = 1 then -1 else n
    errno := fun t => if t = 1 then kEIO else 0 }

/-- A `kNewLog` control request, not linked. -/
def reqNewLog : MetaRequest :=
  { reqEx LogAction.kLogNever 0 with
    op := MetaOp.META_LOG_WRITER_CONTROL
    type := ControlType.kNewLog }

/-- A writer as `stateWrite` after the header block of its log file, which
starts at log sequence 10 (`mNextBlockSeq = 0`, `mCurLogStartSeq = 10`), with
the `kLogAlways` request 1 linked to request 2, a `kNewLog` control request
that ends the list. -/
def stateRotate : Impl :=
  { stateWrite with
    mNextBlockSeq := 0
    mCurLogStartSeq := 10
    mem := fun p =>
      if p = 1 then { reqEx LogAction.kLogAlways 0 with next := some 2 } else reqNewLog }

/-- The fields of the requests that the write path does not write: the link,
`commitPendingFlag`, the type of a control request, and the first and last log
sequence of a block to write. -/
def Impl.fixed (s : Impl) : Nat → Option Nat × Bool × ControlType × Int × Int :=
  fun q => ((s.mem q).next, (s.mem q).commitPendingFlag, (s.mem q).type,
    (s.mem q).blockStartSeq, (s.mem q).blockEndSeq)

/-- What the file and sink operations below `FlushBlock` leave alone: the
request memory, the log sequences, the block size, the blocks handed to the
transmitter and the block sequence. -/
def Impl.logic (s : Impl) :
    (Nat → MetaRequest) × Int × Int × Int × Int × List TxBlock × Int :=
  (s.mem, s.mNextLogSeq, s.mLastLogSeq, s.mCurLogStartSeq, s.mMaxBlockSize, s.transmitted,
    s.mNextBlockSeq)

/-- The request memory and the three log sequences. -/
def Impl.wseq (s : Impl) : (Nat → MetaRequest) × Int × Int × Int :=
  (s.mem, s.mNextLogSeq, s.mLastLogSeq, s.mCurLogStartSeq)

/-- The block sequence fields of every request: `blockStartSeq` and
`blockEndSeq`, which the writer reads and never writes. -/
def Impl.blocks (s : Impl) : Nat → Int × Int :=
  fun q => ((s.mem q).blockStartSeq, (s.mem q).blockEndSeq)

/-- The request `q` is linked from the pointer `h`: following `next` from `h`
leads to `q`. -/
inductive Linked (mem : Nat → MetaRequest) : Option Nat → Nat → Prop where
  | head (p : Nat) : Linked mem (some p) p
  | next (p q : Nat) : Linked mem (mem p).next q → Linked mem (some p) q

/-- The request is linked in one of the pending, in, pending-ack or out queues:
it is reached from the head of the queue. -/
def Impl.queued (s : Impl) (q : Nat) : Prop :=
  Linked s.mem s.mPendingQueue.Front q ∨ Linked s.mem s.mInQueue.Front q ∨
    Linked s.mem s.mPendingAckQueue.Front q ∨ Linked s.mem s.mOutQueue.Front q

/-- The set `C` of requests is closed under `next`. -/
def Closed (C : Nat → Prop) (mem : Nat → MetaRequest) : Prop :=
  ∀ p x, C p → (mem p).next = some x → C x

/-- The pointer is null or points into `C`. -/
def OptIn (C : Nat → Prop) (o : Option Nat) : Prop := ∀ p, o = some p → C p

/-- The requests of `C` link only to requests of `C`, and the heads of the four
queues point into `C`. -/
def Owned (C : Nat → Prop) (s : Impl) : Prop :=
  Closed C s.mem ∧ OptIn C s.mPendingQueue.Front ∧ OptIn C s.mInQueue.Front ∧
    OptIn C s.mPendingAckQueue.Front ∧ OptIn C s.mOutQueue.Front

/-- The call `m` keeps the property `I` of the state, whenever it returns. -/
def Keeps {α : Type} (I : Impl → Prop) (m : M α) : Prop :=
  ∀ s a s', I s → m s = Res.ok a s' → I s'

/-- One step of a started writer, as `Step`, with conditions on the calls taken
into account: `canCommit s p` on `Committed` for the request `p`,
`allowed s seq` on `SetCommitted`, and `canDispatch s` on `DispatchStart`. -/
inductive Move (env : Env) (canCommit : Impl → Nat → Prop) (allowed : Impl → Int → Prop)
    (canDispatch : Impl → Prop) : Impl → Impl → Prop where
  | enqueue (s s' : Impl) (p : Nat) (b : Bool) :
    Enqueue env p s = Res.ok b s' → Move env canCommit allowed canDispatch s s'
  | committed (s s' : Impl) (p : Nat) (fid : Int) : canCommit s p →
    RequestCommitted env p fid s = Res.ok () s' → Move env canCommit allowed canDispatch s s'
  | setCommitted (s s' : Impl) (seq chk fid st : Int) : allowed s seq →
    SetCommitted seq chk fid st s = Res.ok () s' → Move env canCommit allowed canDispatch s s'
  | scheduleFlush (s s' : Impl) :
    ScheduleFlush s = Res.ok () s' → Move env canCommit allowed canDispatch s s'
  | dispatchStart (s s' : Impl) (fuel : Nat) : canDispatch s →
    DispatchStart env fuel s = Res.ok () s' → Move env canCommit allowed canDispatch s s'
  | dispatchEnd (s s' : Impl) (fuel : Nat) :
    DispatchEnd fuel s = Res.ok () s' → Move env canCommit allowed canDispatch s s'
  | timeout (s s' : Impl) (fuel : Nat) :
    Timeout fuel s = Res.ok () s' → Move env canCommit allowed canDispatch s s'
  | notify (s s' : Impl) (seq : Int) :
    Notify env seq s = Res.ok () s' → Move env canCommit allowed canDispatch s s'

/-- The states a writer reaches from its constructed state, over a request
memory that satisfies `okMem`, by a successful `Start`, whose log sequence and
committed log sequence satisfy `okStart`, and steps of `R`. -/
def Started (env : Env) (okMem : (Nat → MetaRequest) → Prop) (okStart : Int → Int → Prop)
    (R : Impl → Impl → Prop) (s : Impl) : Prop :=
  ∃ (mem : Nat → MetaRequest) (counters : Nat → Int) (s1 : Impl) (fuel : Nat)
      (inLogNum inLogSeq inCommittedLogSeq inCommittedFidSeed inCommittedErrCheckSum
        inCommittedStatus : Int) (inLogAppendMdStatePtr : Option MdStateCtx)
      (inLogAppendStartSeq inLogAppendLastBlockSeq : Int) (inLogAppendHexFlag : Bool)
      (inParametersPrefixPtr : Option String) (inParameters : Properties) (name : String),
    okMem mem ∧ okStart inLogSeq inCommittedLogSeq ∧
    Start env fuel inLogNum inLogSeq inCommittedLogSeq inCommittedFidSeed inCommittedErrCheckSum
      inCommittedStatus inLogAppendMdStatePtr inLogAppendStartSeq inLogAppendLastBlockSeq
      inLogAppendHexFlag inParametersPrefixPtr inParameters (Impl.init env mem counters) =
        Res.ok (0, some name) s1 ∧
    Relation.ReflTransGen R s1 s

/-- The links of the queues: the `next` pointer of every request and the heads
of the four queues. -/
def Impl.wiring (s : Impl) :
    (Nat → Option Nat) × Option Nat × Option Nat × Option Nat × Option Nat :=
  (fun q => (s.mem q).next, s.mPendingQueue.Front, s.mInQueue.Front,
    s.mPendingAckQueue.Front, s.mOutQueue.Front)

/-- The `commitPendingFlag` of every request but `p`. -/
def Impl.flagsBut (p : Nat) (s : Impl) : Nat → Bool :=
  fun q => decide (q ≠ p) && (s.mem q).commitPendingFlag

/-- What a `Write` call keeps, relative to the request memory `m0` and the
sequence `n0` it starts with: the log sequences stay at or above `n0` (with
`mNextLogSeq <= mLastLogSeq`), the `logseq` of every request is the one of
`m0`, or -1, or above `n0`, and every request has
`blockStartSeq <= blockEndSeq`. -/
def WInv (m0 : Nat → MetaRequest) (n0 : Int) (s : Impl) : Prop :=
  n0 ≤ s.mNextLogSeq ∧ s.mNextLogSeq ≤ s.mLastLogSeq ∧
    (∀ q, (s.mem q).logseq = (m0 q).logseq ∨ (s.mem q).logseq = -1 ∨ n0 < (s.mem q).logseq) ∧
    (∀ q, (s.mem q).blockStartSeq ≤ (s.mem q).blockEndSeq)

/-- The committed sequences never run ahead of the log: the committed and the
pending committed sequence are at most `mNextLogSeq`, which is at most
`mLastLogSeq`, and every request has `blockStartSeq <= blockEndSeq`. -/
def SeqInv (s : Impl) : Prop :=
  s.mCommitted.mSeq ≤ s.mNextLogSeq ∧ s.mPendingCommitted.mSeq ≤ s.mNextLogSeq ∧
    s.mNextLogSeq ≤ s.mLastLogSeq ∧
    (∀ q, (s.mem q).blockStartSeq ≤ (s.mem q).blockEndSeq)

/-- The committed records and the log sequences. -/
def Impl.gauge (s : Impl) : Committed × Committed × Int × Int :=
  (s.mCommitted, s.mPendingCommitted, s.mNextLogSeq, s.mLastLogSeq)

/-- Hoare triple: from a state that satisfies `P`, the call `m`, when it
returns, returns a value and a state that satisfy `Q`. -/
def Tri {α : Type} (P : Impl → Prop) (m : M α) (Q : α → Impl → Prop) : Prop :=
  ∀ s, P s → M.post m s Q

/-- After `Start` has stored the committed sequence `c`: the committed and the
pending committed sequence are `c`. -/
def BInv (c : Int) (s : Impl) : Prop :=
  s.mCommitted.mSeq = c ∧ s.mPendingCommitted.mSeq = c

/-- After `Start` has set the log sequence `L`: the committed and the pending
committed sequence are `c`, and `mNextLogSeq = mLastLogSeq = L`. -/
def CInv (c L : Int) (s : Impl) : Prop :=
  s.mCommitted.mSeq = c ∧ s.mPendingCommitted.mSeq = c ∧ s.mNextLogSeq = L ∧ s.mLastLogSeq = L

/-- A writer started with log sequence 0 and committed log sequence 0. -/
def seqStarted : Impl :=
  afterStart envOk 0 0 0 0 0 0 none Properties.none
    (Impl.init envOk (fun _ => reqEx LogAction.kLogAlways 0) (fun _ => 0))

/-- `seqStarted` after the transmitter has notified sequence 0 and is up. -/
def seqNotified : Impl := afterNotify envOk 0 seqStarted

/-- `seqNotified` after request 1 was enqueued. -/
def seqQueued : Impl := afterEnqueue 1 seqNotified

/-- `seqQueued` after `ScheduleFlush`. -/
def seqFlushed : Impl := afterScheduleFlush seqQueued

/-- The blocks appended to `t0`, each with a record count between 1 and `B`. -/
def Blocks (t0 : List TxBlock) (B : Int) (t : List TxBlock) : Prop :=
  ∃ bs, t = t0 ++ bs ∧ ∀ b ∈ bs, 1 ≤ b.count ∧ b.count ≤ B

/-- What a `Write` call keeps, relative to the blocks `t0` transmitted before
it and the block size `B`: `mMaxBlockSize = B`, the block being built holds
between `lo` and `B - d` records
(`mNextLogSeq + lo <= mLastLogSeq <= mNextLogSeq + B - d`), every block
transmitted since holds between 1 and `B` records, no control request is a
`kSetParameters` or a `kWriteBlock` request, and the request `c` is a control
request. -/
def TInv (t0 : List TxBlock) (B lo d : Int) (c : Option Nat) (s : Impl) : Prop :=
  s.mMaxBlockSize = B ∧ s.mNextLogSeq + lo ≤ s.mLastLogSeq ∧
    s.mLastLogSeq + d ≤ s.mNextLogSeq + B ∧ Blocks t0 B s.transmitted ∧
    (∀ q, (s.mem q).op = MetaOp.META_LOG_WRITER_CONTROL →
      (s.mem q).type ≠ ControlType.kSetParameters ∧
        (s.mem q).type ≠ ControlType.kWriteBlock) ∧
    ∀ p, c = some p → (s.mem p).op = MetaOp.META_LOG_WRITER_CONTROL

/-- The part of `TInv` that holds between the batches of a `Write` call, where
the log sequences are not constrained. -/
def UInv (t0 : List TxBlock) (B : Int) (c : Option Nat) (s : Impl) : Prop :=
  s.mMaxBlockSize = B ∧ Blocks t0 B s.transmitted ∧
    (∀ q, (s.mem q).op = MetaOp.META_LOG_WRITER_CONTROL →
      (s.mem q).type ≠ ControlType.kSetParameters ∧
        (s.mem q).type ≠ ControlType.kWriteBlock) ∧
    ∀ p, c = some p → (s.mem p).op = MetaOp.META_LOG_WRITER_CONTROL

/-- `UInv` inside `NewLog`, after the reset of the block sequence. -/
def UNInv (t0 : List TxBlock) (B : Int) (c : Option Nat) (s : Impl) : Prop :=
  UInv t0 B c s ∧ s.mNextBlockSeq = -1

/-- The invariant `I` reads the state through `Impl.logic` only. -/
def LogicInv (I : Impl → Prop) : Prop := ∀ s s', s'.logic = s.logic → I s → I s'

/-- `TInv` before `FlushBlock(L)`: when the block is to be transmitted
(`0 <= mNextBlockSeq`), it holds between 1 and `B` records. -/
def GInv (t0 : List TxBlock) (B d : Int) (c : Option Nat) (L : Int) (s : Impl) : Prop :=
  TInv t0 B 0 d c s ∧ (0 ≤ s.mNextBlockSeq → s.mNextLogSeq < L ∧ L ≤ s.mNextLogSeq + B)

/-- `TInv` inside `FlushBlock(L)`, after the block sequence was incremented. -/
def FInv (t0 : List TxBlock) (B d : Int) (c : Option Nat) (L : Int) (s : Impl) : Prop :=
  TInv t0 B 0 d c s ∧ (0 < s.mNextBlockSeq → s.mNextLogSeq < L ∧ L ≤ s.mNextLogSeq + B)

/-- `TInv` inside `NewLog`, between the reset of the block sequence and the
flush of the header block. -/
def NInv (t0 : List TxBlock) (B d : Int) (c : Option Nat) (s : Impl) : Prop :=
  TInv t0 B 0 d c s ∧ s.mNextBlockSeq = -1

/-- `TInv` with the log sequences `n` and `l` read before. -/
def HInv (t0 : List TxBlock) (B d : Int) (c : Option Nat) (n l : Int) (s : Impl) : Prop :=
  TInv t0 B 0 d c s ∧ s.mNextLogSeq = n ∧ s.mLastLogSeq = l

/-- `TInv` inside the inner loop of `Write`, with the end of the block
`theEndBlockSeq = mNextLogSeq + mMaxBlockSize`. -/
def EInv (t0 : List TxBlock) (B lo d : Int) (c : Option Nat) (eb : Int) (s : Impl) : Prop :=
  TInv t0 B lo d c s ∧ eb = s.mNextLogSeq + B

/-- The record counts of the blocks in the transmitter log after a call that
returned; nothing for a call that did not return. -/
def Res.counts (r : Res Unit) : Option (List Int) :=
  match r with
  | Res.ok _ s => some (s.transmitted.map fun b => b.count)
  | _ => none

/-- A `kSetParameters` control request that sets `maxBlockSize` to 2, linked
to the request 2. -/
def reqParams : MetaRequest :=
  { reqEx LogAction.kLogNever 0 with
    op := MetaOp.META_LOG_WRITER_CONTROL
    type := ControlType.kSetParameters
    next := some 2
    params :=
      { Properties.none with getInt := fun k => if k = "maxBlockSize" then some 2 else none } }

/-- A writer as `stateTx` with `mMaxBlockSize = 1`, and the requests 1, 2, 3
linked in this order: 1 is `reqParams`, 2 and 3 are `kLogAlways`. -/
def stateParams : Impl :=
  { stateTx with
    mMaxBlockSize := 1
    mem := fun p =>
      if p = 1 then reqParams
      else if p = 2 then { reqEx LogAction.kLogAlways 0 with next := some 3 }
      else reqEx LogAction.kLogAlways 0 }

/-- A writer as `stateWriteBlock` (every request the `kWriteBlock` request
`reqBlock` for the log sequences 10 to 12) with `mMaxBlockSize = 1`. -/
def stateBlockTwo : Impl := { stateWriteBlock with mMaxBlockSize := 1 }

/-- A writer as `stateTx` with `mMaxBlockSize = 2`, and the `kLogAlways`
requests 1 and 2 linked in this order. -/
def stateFull : Impl :=
  { stateTx with
    mMaxBlockSize := 2
    mem := fun p =>
      if p = 1 then { reqEx LogAction.kLogAlways 0 with next := some 2 }
      else reqEx LogAction.kLogAlways 0 }

/-- A writer as `stateFull` with the transmitter down. -/
def stateTwoDown : Impl := { stateFull with mTransmitterUpFlag := false }

/-! # Theorems -/

section Basics

variable {α β : Type}

@[simp] theorem M.pure_run (a : α) (s : Impl) : @Pure.pure M _ α a s = Res.ok a s := rfl

@[simp] theorem M.bind_run (m : M α) (f : α → M β) (s : Impl) :
    (m >>= f) s = match m s with
      | Res.ok a s1 => f a s1
      | Res.panic msg s1 => Res.panic msg s1
      | Res.timeout => Res.timeout := rfl

@[simp] theorem M.get_run (s : Impl) : M.get s = Res.ok s s := rfl

@[simp] theorem M.modify_run (f : Impl → Impl) (s : Impl) : M.modify f s = Res.ok () (f s) := rfl

@[simp] theorem M.panic_run (msg : String) (s : Impl) : (M.panic msg : M α) s = Res.panic msg s := rfl

@[simp] theorem M.timeout_run (s : Impl) : (M.timeout : M α) s = Res.timeout := rfl

@[simp] theorem M.ite_run (c : Prop) [Decidable c] (a b : M α) (s : Impl) :
    (if c then a else b) s = if c then a s else b s := by split <;> rfl

end Basics

/-! ## Chains of requests -/

theorem isChain_cons (mem : Nat → MetaRequest) (h : Option Nat) (p : Nat) (ps : List Nat) :
    isChain mem h (p :: ps) = true ↔ h = some p ∧ isChain mem (mem p).next ps = true := by
  simp [isChain]

theorem isChain_nil (mem : Nat → MetaRequest) (h : Option Nat) :
    isChain mem h [] = true ↔ h = none := by
  simp [isChain]

theorem isChain_update_of_not_mem (mem : Nat → MetaRequest) (p : Nat) (r : MetaRequest)
    (l : List Nat) (h : Option Nat) (hp : p ∉ l) :
    isChain (Function.update mem p r) h l = isChain mem h l := by
  induction l generalizing h with
  | nil => rfl
  | cons a l ih =>
    have ha : a ≠ p := fun e => hp (by simp [e])
    have hl : p ∉ l := fun e => hp (by simp [e])
    simp [isChain, Function.update_noteq ha, ih _ hl]

theorem isChain_append (mem : Nat → MetaRequest) (l1 l2 : List Nat) (h h2 : Option Nat) (t : Nat)
    (r : MetaRequest) (hl1 : isChain mem h l1 = true) (hlast : l1.getLast? = some t)
    (hnd : l1.Nodup) (ht2 : t ∉ l2) (hl2 : isChain mem h2 l2 = true) (hr : r.next = h2) :
    isChain (Function.update mem t r) h (l1 ++ l2) = true := by
  induction l1 generalizing h with
  | nil => simp at hlast
  | cons a l ih =>
    rw [isChain_cons] at hl1
    rw [List.cons_append, isChain_cons]
    refine ⟨hl1.1, ?_⟩
    cases l with
    | nil =>
      simp at hlast
      subst hlast
      simp [hr, isChain_update_of_not_mem _ _ _ _ _ ht2, hl2]
    | cons b l =>
      have hlast2 : (b :: l).getLast? = some t := by simpa [List.getLast?_cons_cons] using hlast
      have htmem : t ∈ b :: l := List.mem_of_getLast?_eq_some hlast2
      have hat : a ≠ t := by
        intro e
        subst e
        exact (List.nodup_cons.mp hnd).1 htmem
      rw [Function.update_noteq hat]
      exact ih (mem a).next hl1.2 hlast2 (List.nodup_cons.mp hnd).2

theorem isChain_head_nil (mem : Nat → MetaRequest) (l : List Nat) (h : isChain mem none l = true) :
    l = [] := by
  cases l with
  | nil => rfl
  | cons a l => simp [isChain] at h

theorem isChain_head_ne_nil (mem : Nat → MetaRequest) (p : Nat) (l : List Nat)
    (h : isChain mem (some p) l = true) : l ≠ [] := by
  cases l with
  | nil => simp [isChain] at h
  | cons a l => simp

theorem Queue.Holds.tail_none_iff {q : Queue} {mem : Nat → MetaRequest} {l : List Nat}
    (h : q.Holds mem l) : q.mTailPtr = none ↔ l = [] := by
  rw [h.2.1]
  exact List.getLast?_eq_none_iff

/-! ## Enqueue -/

theorem shortCircuits_iff (s : Impl) (p : Nat) :
    ((decide (s.mPendingCount ≤ 0) ||
        (match (s.mem p).logQueueCounter with
          | none => true
          | some c => decide (s.counters c ≤ 0))) &&
      ((s.mem p).logAction == LogAction.kLogNever ||
        ((s.mem p).logAction == LogAction.kLogIfOk && (s.mem p).status != 0))) = true ↔
      shortCircuits s p := by
  unfold shortCircuits MetaRequest.notLogged
  cases (s.mem p).logQueueCounter <;> simp

theorem Enqueue_stopped (env : Env) (p : Nat) (s : Impl) (hstop : s.mStopFlag = true) :
    Enqueue env p s = Res.ok false
      { s with
        mNextSeq := s.mNextSeq + 1
        mem := Function.update s.mem p
          { s.mem p with
            next := none, seqno := s.mNextSeq + 1, status := -env.ELOGFAILED
            statusMsg := "log writer is not running" } } := by
  simp [Enqueue, Impl.setReq, hstop]

theorem Enqueue_shortCircuit (env : Env) (p : Nat) (s : Impl) (hstop : s.mStopFlag = false)
    (h : shortCircuits s p) :
    Enqueue env p s = Res.ok false
      { s with
        mNextSeq := s.mNextSeq + 1
        mem := Function.update s.mem p { s.mem p with next := none, seqno := s.mNextSeq + 1 } } := by
  have h' := (shortCircuits_iff s p).mpr h
  simp only [Enqueue, M.bind_run, M.get_run, M.modify_run, M.pure_run, bind_pure_comp,
    Impl.setReq, Function.update_same, hstop, M.ite_run, M.panic_run]
  simp [h']

theorem Enqueue_counter_panic (env : Env) (p : Nat) (s : Impl) (hstop : s.mStopFlag = false)
    (h : ¬ shortCircuits s p) (c : Nat) (hc : (s.mem p).logQueueCounter = some c)
    (hov : wrapInt32 (s.counters c + 1) ≤ 0) :
    Enqueue env p s = Res.panic "request enqueue: invalid log queue counter"
      { s with
        mNextSeq := s.mNextSeq + 1
        mem := Function.update s.mem p { s.mem p with next := none, seqno := s.mNextSeq + 1 }
        counters := Function.update s.counters c (wrapInt32 (s.counters c + 1)) } := by
  have h' := (shortCircuits_iff s p).not.mpr h
  simp only [Enqueue, M.bind_run, M.get_run, M.modify_run, M.pure_run, bind_pure_comp,
    Impl.setReq, Function.update_same, hstop, M.ite_run, M.panic_run]
  simp only [h']
  simp [hc, hov]

theorem Enqueue_pending_panic (env : Env) (p : Nat) (s : Impl) (hstop : s.mStopFlag = false)
    (h : ¬ shortCircuits s p)
    (hc : ∀ c, (s.mem p).logQueueCounter = some c → 0 < wrapInt32 (s.counters c + 1))
    (hov : wrapInt32 (s.mPendingCount + 1) ≤ 0) :
    Enqueue env p s = Res.panic "log writer: invalid pending count"
      { s with
        mNextSeq := s.mNextSeq + 1
        mem := Function.update s.mem p
          { s.mem p with next := none, seqno := s.mNextSeq + 1, commitPendingFlag := true }
        counters := incrCounter s.counters (s.mem p).logQueueCounter
        mPendingCount := wrapInt32 (s.mPendingCount + 1) } := by
  have h' := (shortCircuits_iff s p).not.mpr h
  simp only [Enqueue, M.bind_run, M.get_run, M.modify_run, M.pure_run, bind_pure_comp,
    Impl.setReq, Function.update_same, hstop, M.ite_run, M.panic_run]
  simp only [h']
  cases hcc : (s.mem p).logQueueCounter with
  | none => simp [hov, incrCounter]
  | some c =>
    have := hc c hcc
    simp [hov, incrCounter, this]

theorem Enqueue_enqueued (env : Env) (p : Nat) (s : Impl) (hstop : s.mStopFlag = false)
    (h : ¬ shortCircuits s p)
    (hc : ∀ c, (s.mem p).logQueueCounter = some c → 0 < wrapInt32 (s.counters c + 1))
    (hov : 0 < wrapInt32 (s.mPendingCount + 1)) :
    Enqueue env p s = Res.ok true
      { s with
        mNextSeq := s.mNextSeq + 1
        mem := (s.mPendingQueue.PushBack p (Function.update s.mem p
          { s.mem p with next := none, seqno := s.mNextSeq + 1, commitPendingFlag := true })).2
        mPendingQueue := (s.mPendingQueue.PushBack p (Function.update s.mem p
          { s.mem p with next := none, seqno := s.mNextSeq + 1, commitPendingFlag := true })).1
        counters := incrCounter s.counters (s.mem p).logQueueCounter
        mPendingCount := wrapInt32 (s.mPendingCount + 1) } := by
  have h' := (shortCircuits_iff s p).not.mpr h
  simp only [Enqueue, M.bind_run, M.get_run, M.modify_run, M.pure_run, bind_pure_comp,
    Impl.setReq, Function.update_same, hstop, M.ite_run, M.panic_run]
  simp only [h']
  cases hcc : (s.mem p).logQueueCounter with
  | none => simp [not_le.mpr hov, incrCounter]
  | some c =>
    have := not_le.mpr (hc c hcc)
    simp only [this, if_false]
    simp [not_le.mpr hov, incrCounter, hc c hcc]

theorem wrapInt32_succ_of_pos (x : Int) (hx : IsInt32 x) (h : 0 < wrapInt32 (x + 1)) :
    wrapInt32 (x + 1) = x + 1 := by
  unfold wrapInt32 IsInt32 at *
  omega

theorem wrapInt32_pred_of_pos (x : Int) (hx : IsInt32 x) (h : 0 < x) :
    wrapInt32 (x - 1) = x - 1 := by
  unfold wrapInt32 IsInt32 at *
  omega

theorem Queue.Holds.update {q : Queue} {mem : Nat → MetaRequest} {l : List Nat}
    (h : q.Holds mem l) (p : Nat) (r : MetaRequest) (hp : p ∉ l) :
    q.Holds (Function.update mem p r) l :=
  ⟨by rw [isChain_update_of_not_mem _ _ _ _ _ hp]; exact h.1, h.2.1, h.2.2⟩

theorem Queue.Holds.pushBack {q : Queue} {mem : Nat → MetaRequest} {l : List Nat}
    (h : q.Holds mem l) (p : Nat) (hp : p ∉ l) (hnext : (mem p).next = none) :
    (q.PushBack p mem).1.Holds (q.PushBack p mem).2 (l ++ [p]) ∧
      (q.PushBack p mem).2 p = mem p := by
  obtain ⟨hch, htl, hnd⟩ := h
  have hnd' : (l ++ [p]).Nodup := by
    rw [List.nodup_append]
    exact ⟨hnd, List.nodup_singleton p, by simpa using hp⟩
  cases ht : q.mTailPtr with
  | none =>
    have hl : l = [] := List.getLast?_eq_none_iff.mp (htl ▸ ht)
    subst hl
    simp [Queue.PushBack, ht, Queue.Holds, isChain, hnext]
  | some t =>
    have hlast : l.getLast? = some t := by rw [← htl, ht]
    have htmem : t ∈ l := List.mem_of_getLast?_eq_some hlast
    have htp : p ≠ t := fun e => hp (e ▸ htmem)
    have h1 : isChain mem (some p) [p] = true := by simp [isChain, hnext]
    have := isChain_append mem l [p] q.mHeadPtr (some p) t { mem t with next := some p } hch hlast hnd
      (by simpa using htp.symm) h1 rfl
    simp only [Queue.PushBack, ht, setMem]
    refine ⟨⟨this, by simp, hnd'⟩, ?_⟩
    exact Function.update_noteq htp _ _

/-- The value `Enqueue` returns, in any state: false exactly when the writer is
stopped or its short-circuit test holds; true exactly when neither is the case
and both incremented counters are positive afterwards (it panics otherwise). -/
theorem Enqueue_val_iff (env : Env) (p : Nat) (s : Impl) :
    ((Enqueue env p s).val? = some false ↔ (s.mStopFlag = true ∨ shortCircuits s p)) ∧
    ((Enqueue env p s).val? = some true ↔
      (s.mStopFlag = false ∧ ¬ shortCircuits s p ∧
        (∀ c, (s.mem p).logQueueCounter = some c → 0 < wrapInt32 (s.counters c + 1)) ∧
        0 < wrapInt32 (s.mPendingCount + 1))) ∧
    (∀ c, s.mStopFlag = false → (s.mem p).notLogged → 0 < s.mPendingCount →
      s.mPendingCount < 2147483647 → (s.mem p).logQueueCounter = some c →
      0 < s.counters c → s.counters c < 2147483647 →
      (Enqueue env p s).val? = some true) := by
  have key : ∀ (hstop : s.mStopFlag = false) (hsc : ¬ shortCircuits s p),
      (Enqueue env p s).val? = some true ↔
        ((∀ c, (s.mem p).logQueueCounter = some c → 0 < wrapInt32 (s.counters c + 1)) ∧
          0 < wrapInt32 (s.mPendingCount + 1)) := by
    intro hstop hsc
    by_cases hc : ∀ c, (s.mem p).logQueueCounter = some c → 0 < wrapInt32 (s.counters c + 1)
    · by_cases hov : 0 < wrapInt32 (s.mPendingCount + 1)
      · rw [Enqueue_enqueued env p s hstop hsc hc hov]
        simp only [Res.val?, true_iff]
        exact ⟨hc, hov⟩
      · rw [Enqueue_pending_panic env p s hstop hsc hc (not_lt.mp hov)]
        simp [Res.val?, hov]
    · have hc' := hc
      push_neg at hc'
      obtain ⟨c, hcc, hle⟩ := hc'
      rw [Enqueue_counter_panic env p s hstop hsc c hcc hle]
      simp [Res.val?, hc]
  refine ⟨?_, ?_, ?_⟩
  · cases hstop : s.mStopFlag
    · by_cases hsc : shortCircuits s p
      · rw [Enqueue_shortCircuit env p s hstop hsc]
        simp [Res.val?, hsc]
      · have := key hstop hsc
        cases hv : (Enqueue env p s).val? with
        | none => simp [hsc]
        | some b =>
          cases b
          · exfalso
            by_cases hc : ∀ c, (s.mem p).logQueueCounter = some c → 0 < wrapInt32 (s.counters c + 1)
            · by_cases hov : 0 < wrapInt32 (s.mPendingCount + 1)
              · rw [Enqueue_enqueued env p s hstop hsc hc hov] at hv
                simp [Res.val?] at hv
              · rw [Enqueue_pending_panic env p s hstop hsc hc (not_lt.mp hov)] at hv
                simp [Res.val?] at hv
            · push_neg at hc
              obtain ⟨c, hcc, hle⟩ := hc
              rw [Enqueue_counter_panic env p s hstop hsc c hcc hle] at hv
              simp [Res.val?] at hv
          · simp [hsc]
    · rw [Enqueue_stopped env p s hstop]
      simp [Res.val?]
  · cases hstop : s.mStopFlag
    · by_cases hsc : shortCircuits s p
      · rw [Enqueue_shortCircuit env p s hstop hsc]
        simp [Res.val?, hsc]
      · simpa [hsc] using key hstop hsc
    · rw [Enqueue_stopped env p s hstop]
      simp [Res.val?]
  · intro c hstop _ hp1 hp2 hcc hc1 hc2
    have hsc : ¬ shortCircuits s p := by
      rintro ⟨h | h | ⟨c', h, h'⟩, _⟩
      · omega
      · simp [hcc] at h
      · rw [hcc] at h
        cases h
        omega
    apply (key hstop hsc).mpr
    refine ⟨?_, ?_⟩
    · intro c' hc'
      rw [hcc] at hc'
      cases hc'
      unfold wrapInt32
      omega
    · unfold wrapInt32
      omega

/-- The outcomes of `Enqueue`, one per path through the code. -/
theorem Enqueue_cases (env : Env) (p : Nat) (s : Impl) :
    (∃ s', Enqueue env p s = Res.ok false s' ∧ (s.mStopFlag = true ∨ shortCircuits s p) ∧
        s'.mPendingQueue = s.mPendingQueue ∧ s'.mPendingCount = s.mPendingCount ∧
        s'.counters = s.counters ∧ ∃ r, s'.mem = Function.update s.mem p r) ∨
    (∃ msg s', Enqueue env p s = Res.panic msg s') ∨
    (s.mStopFlag = false ∧ ¬ shortCircuits s p ∧
      (∀ c, (s.mem p).logQueueCounter = some c → 0 < wrapInt32 (s.counters c + 1)) ∧
      0 < wrapInt32 (s.mPendingCount + 1) ∧
      Enqueue env p s = Res.ok true
        { s with
          mNextSeq := s.mNextSeq + 1
          mem := (s.mPendingQueue.PushBack p (Function.update s.mem p
            { s.mem p with next := none, seqno := s.mNextSeq + 1, commitPendingFlag := true })).2
          mPendingQueue := (s.mPendingQueue.PushBack p (Function.update s.mem p
            { s.mem p with next := none, seqno := s.mNextSeq + 1, commitPendingFlag := true })).1
          counters := incrCounter s.counters (s.mem p).logQueueCounter
          mPendingCount := wrapInt32 (s.mPendingCount + 1) }) := by
  rcases Bool.eq_false_or_eq_true s.mStopFlag with hstop | hstop
  · exact Or.inl ⟨_, Enqueue_stopped env p s hstop, Or.inl hstop, rfl, rfl, rfl, _, rfl⟩
  · by_cases hsc : shortCircuits s p
    · exact Or.inl ⟨_, Enqueue_shortCircuit env p s hstop hsc, Or.inr hsc, rfl, rfl, rfl, _, rfl⟩
    · by_cases hc : ∀ c, (s.mem p).logQueueCounter = some c → 0 < wrapInt32 (s.counters c + 1)
      · by_cases hov : 0 < wrapInt32 (s.mPendingCount + 1)
        · exact Or.inr (Or.inr ⟨hstop, hsc, hc, hov, Enqueue_enqueued env p s hstop hsc hc hov⟩)
        · exact Or.inr (Or.inl ⟨_, _, Enqueue_pending_panic env p s hstop hsc hc (not_lt.mp hov)⟩)
      · push_neg at hc
        obtain ⟨c, hcc, hle⟩ := hc
        exact Or.inr (Or.inl ⟨_, _, Enqueue_counter_panic env p s hstop hsc c hcc hle⟩)

/-- Claim C4: when `Enqueue` returns true, the request's `commitPendingFlag` is
set, `mPendingCount` and the request's queue counter (if any) are one larger,
and the pending queue holds its previous requests followed by the request; when
it returns false, the pending queue, `mPendingCount` and the counters are
unchanged.  The pending queue is a well-formed list `l` of requests that does
not contain the request, and the two counters are `int` values. -/
theorem Enqueue_effect (env : Env) (p : Nat) (s s' : Impl) (l : List Nat)
    (hq : s.mPendingQueue.Holds s.mem l) (hp : p ∉ l) (h32 : IsInt32 s.mPendingCount)
    (hc32 : ∀ c, (s.mem p).logQueueCounter = some c → IsInt32 (s.counters c)) :
    (Enqueue env p s = Res.ok true s' →
      (s'.mem p).commitPendingFlag = true ∧ s'.mPendingCount = s.mPendingCount + 1 ∧
      (∀ c, (s.mem p).logQueueCounter = some c →
        s'.counters c = s.counters c + 1 ∧ ∀ c', c' ≠ c → s'.counters c' = s.counters c') ∧
      ((s.mem p).logQueueCounter = none → s'.counters = s.counters) ∧
      s'.mPendingQueue.Holds s'.mem (l ++ [p])) ∧
    (Enqueue env p s = Res.ok false s' →
      s'.mPendingQueue = s.mPendingQueue ∧ s'.mPendingQueue.Holds s'.mem l ∧
      s'.mPendingCount = s.mPendingCount ∧ s'.counters = s.counters) := by
  rcases Enqueue_cases env p s with ⟨s1, h1, -, hq1, hp1, hc1, r, hm1⟩ | ⟨msg, s1, h1⟩ |
    ⟨hstop, hsc, hc, hov, h1⟩
  · rw [h1]
    refine ⟨fun h => by simp at h, fun h => ?_⟩
    simp only [Res.ok.injEq, true_and] at h
    subst h
    refine ⟨hq1, ?_, hp1, hc1⟩
    rw [hq1, hm1]
    exact hq.update p r hp
  · rw [h1]
    exact ⟨fun h => by simp at h, fun h => by simp at h⟩
  · rw [h1]
    refine ⟨fun h => ?_, fun h => by simp at h⟩
    simp only [Res.ok.injEq, true_and] at h
    subst h
    have hq1 := (hq.update p
      { s.mem p with next := none, seqno := s.mNextSeq + 1, commitPendingFlag := true }
      hp).pushBack p hp (by simp)
    refine ⟨?_, wrapInt32_succ_of_pos _ h32 hov, ?_, ?_, hq1.1⟩
    · show ((s.mPendingQueue.PushBack p _).2 p).commitPendingFlag = true
      rw [hq1.2]
      simp
    · intro c hcc
      show incrCounter s.counters (s.mem p).logQueueCounter c = _ ∧ _
      rw [hcc]
      refine ⟨?_, fun c' hne => ?_⟩
      · simp [incrCounter, wrapInt32_succ_of_pos _ (hc32 c hcc) (hc c hcc)]
      · simp [incrCounter, Function.update_noteq hne]
    · intro hcc
      show incrCounter s.counters (s.mem p).logQueueCounter = _
      rw [hcc]
      rfl

/-- Witness for `Enqueue_effect`: a `kLogAlways` request enqueued on the empty
pending queue of a started writer. -/
theorem Enqueue_effect_witness :
    ∃ s', Enqueue envOk 0 (stateEx LogAction.kLogAlways 0 0) = Res.ok true s' ∧
      (s'.mem 0).commitPendingFlag = true ∧ s'.mPendingCount = 0 + 1 ∧
      s'.mPendingQueue.Holds s'.mem ([] ++ [0]) := by
  have hsc : ¬ shortCircuits (stateEx LogAction.kLogAlways 0 0) 0 := by
    rintro ⟨-, h | ⟨h, -⟩⟩ <;> simp [stateEx, Impl.init, reqEx] at h
  have h := Enqueue_enqueued envOk 0 (stateEx LogAction.kLogAlways 0 0) rfl hsc
    (fun c _ => by simp [stateEx, Impl.init, wrapInt32]) (by simp [stateEx, Impl.init, wrapInt32])
  have hw := (Enqueue_effect envOk 0 (stateEx LogAction.kLogAlways 0 0) _ []
    ⟨rfl, rfl, List.nodup_nil⟩ (by simp) (by simp [stateEx, Impl.init, IsInt32])
    (fun c _ => by simp [stateEx, Impl.init, IsInt32])).1 h
  exact ⟨_, h, hw.1, hw.2.1, hw.2.2.2.2⟩

/-! ## RequestCommitted -/

theorem RequestCommitted_not_pending (env : Env) (p : Nat) (fid : Int) (s : Impl)
    (hf : (s.mem p).commitPendingFlag = false) :
    RequestCommitted env p fid s = Res.ok () s := by
  simp [RequestCommitted, hf]

theorem RequestCommitted_counter_panic (env : Env) (p : Nat) (fid : Int) (s : Impl)
    (hf : (s.mem p).commitPendingFlag = true) (c : Nat)
    (hc : (s.mem p).logQueueCounter = some c) (hlt : wrapInt32 (s.counters c - 1) < 0) :
    RequestCommitted env p fid s = Res.panic "request committed: invalid log queue counter"
      { s with counters := Function.update s.counters c (wrapInt32 (s.counters c - 1)) } := by
  simp [RequestCommitted, hf, hc, hlt]

theorem RequestCommitted_not_logged (env : Env) (p : Nat) (fid : Int) (s : Impl)
    (hf : (s.mem p).commitPendingFlag = true) (hc : counterStaysNonneg s p)
    (hl : (s.mem p).logseq < 0) :
    RequestCommitted env p fid s = Res.ok () (afterDecrement s p) := by
  unfold counterStaysNonneg at hc
  cases hcc : (s.mem p).logQueueCounter with
  | none => simp [RequestCommitted, hf, hcc, hl, afterDecrement, decrCounter, Impl.setReq]
  | some c =>
    have := not_lt.mpr (hc c hcc)
    simp [RequestCommitted, hf, hcc, hl, afterDecrement, decrCounter, Impl.setReq, this]

theorem RequestCommitted_suspended (env : Env) (p : Nat) (fid : Int) (s : Impl)
    (hf : (s.mem p).commitPendingFlag = true) (hc : counterStaysNonneg s p)
    (hl : 0 ≤ (s.mem p).logseq) (hs : (s.mem p).suspended = true) :
    RequestCommitted env p fid s =
      Res.panic "request committed: invalid suspended state" (afterDecrement s p) := by
  unfold counterStaysNonneg at hc
  have hl' := not_lt.mpr hl
  cases hcc : (s.mem p).logQueueCounter with
  | none => simp [RequestCommitted, hf, hcc, hl', hs, afterDecrement, decrCounter, Impl.setReq]
  | some c =>
    have := not_lt.mpr (hc c hcc)
    simp [RequestCommitted, hf, hcc, hl', hs, afterDecrement, decrCounter, Impl.setReq, this]

theorem RequestCommitted_out_of_order (env : Env) (p : Nat) (fid : Int) (s : Impl)
    (hf : (s.mem p).commitPendingFlag = true) (hc : counterStaysNonneg s p)
    (hl : 0 ≤ (s.mem p).logseq) (hs : (s.mem p).suspended = false) (ho : outOfOrder s p) :
    RequestCommitted env p fid s =
      Res.panic "request committed: invalid out of order log sequence" (afterDecrement s p) := by
  unfold counterStaysNonneg at hc
  unfold outOfOrder at ho
  have hl' := not_lt.mpr hl
  cases hcc : (s.mem p).logQueueCounter with
  | none => simp [RequestCommitted, hf, hcc, hl', hs, afterDecrement, decrCounter, Impl.setReq, ho]
  | some c =>
    have := not_lt.mpr (hc c hcc)
    simp [RequestCommitted, hf, hcc, hl', hs, afterDecrement, decrCounter, Impl.setReq, this, ho]

theorem RequestCommitted_committed (env : Env) (p : Nat) (fid : Int) (s : Impl)
    (hf : (s.mem p).commitPendingFlag = true) (hc : counterStaysNonneg s p)
    (hl : 0 ≤ (s.mem p).logseq) (hs : (s.mem p).suspended = false) (ho : ¬ outOfOrder s p) :
    RequestCommitted env p fid s =
      Res.ok ()
        { afterDecrement s p with
          mCommitted :=
            { mErrChkSum := s.mCommitted.mErrChkSum + committedStatus env (s.mem p)
              mSeq := (s.mem p).logseq
              mFidSeed := fid
              mStatus := committedStatus env (s.mem p) } } := by
  unfold counterStaysNonneg at hc
  unfold outOfOrder at ho
  have hl' := not_lt.mpr hl
  cases hcc : (s.mem p).logQueueCounter with
  | none =>
    simp [RequestCommitted, hf, hcc, hl', hs, afterDecrement, decrCounter, Impl.setReq, ho,
      committedStatus]
  | some c =>
    have := not_lt.mpr (hc c hcc)
    simp [RequestCommitted, hf, hcc, hl', hs, afterDecrement, decrCounter, Impl.setReq, this, ho,
      committedStatus]

/-- The outcomes of `RequestCommitted`, one per path through the code. -/
theorem RequestCommitted_cases (env : Env) (p : Nat) (fid : Int) (s : Impl) :
    ((s.mem p).commitPendingFlag = false ∧ RequestCommitted env p fid s = Res.ok () s) ∨
    ((s.mem p).commitPendingFlag = true ∧
      ∃ c, (s.mem p).logQueueCounter = some c ∧ wrapInt32 (s.counters c - 1) < 0 ∧
        RequestCommitted env p fid s = Res.panic "request committed: invalid log queue counter"
          { s with counters := Function.update s.counters c (wrapInt32 (s.counters c - 1)) }) ∨
    ((s.mem p).commitPendingFlag = true ∧ counterStaysNonneg s p ∧ (s.mem p).logseq < 0 ∧
      RequestCommitted env p fid s = Res.ok () (afterDecrement s p)) ∨
    ((s.mem p).commitPendingFlag = true ∧ counterStaysNonneg s p ∧ 0 ≤ (s.mem p).logseq ∧
      (s.mem p).suspended = true ∧
      RequestCommitted env p fid s =
        Res.panic "request committed: invalid suspended state" (afterDecrement s p)) ∨
    ((s.mem p).commitPendingFlag = true ∧ counterStaysNonneg s p ∧ 0 ≤ (s.mem p).logseq ∧
      (s.mem p).suspended = false ∧ outOfOrder s p ∧
      RequestCommitted env p fid s =
        Res.panic "request committed: invalid out of order log sequence" (afterDecrement s p)) ∨
    ((s.mem p).commitPendingFlag = true ∧ counterStaysNonneg s p ∧ 0 ≤ (s.mem p).logseq ∧
      (s.mem p).suspended = false ∧ ¬ outOfOrder s p ∧
      RequestCommitted env p fid s =
        Res.ok ()
          { afterDecrement s p with
            mCommitted :=
              { mErrChkSum := s.mCommitted.mErrChkSum + committedStatus env (s.mem p)
                mSeq := (s.mem p).logseq
                mFidSeed := fid
                mStatus := committedStatus env (s.mem p) } }) := by
  rcases Bool.eq_false_or_eq_true (s.mem p).commitPendingFlag with hf | hf
  swap
  · exact Or.inl ⟨hf, RequestCommitted_not_pending env p fid s hf⟩
  by_cases hc : counterStaysNonneg s p
  swap
  · unfold counterStaysNonneg at hc
    push_neg at hc
    obtain ⟨c, hcc, hlt⟩ := hc
    exact Or.inr (Or.inl ⟨hf, c, hcc, hlt, RequestCommitted_counter_panic env p fid s hf c hcc hlt⟩)
  by_cases hl : (s.mem p).logseq < 0
  · exact Or.inr (Or.inr (Or.inl ⟨hf, hc, hl, RequestCommitted_not_logged env p fid s hf hc hl⟩))
  have hl' := not_lt.mp hl
  rcases Bool.eq_false_or_eq_true (s.mem p).suspended with hs | hs
  · exact Or.inr (Or.inr (Or.inr (Or.inl
      ⟨hf, hc, hl', hs, RequestCommitted_suspended env p fid s hf hc hl' hs⟩)))
  by_cases ho : outOfOrder s p
  · exact Or.inr (Or.inr (Or.inr (Or.inr (Or.inl
      ⟨hf, hc, hl', hs, ho, RequestCommitted_out_of_order env p fid s hf hc hl' hs ho⟩))))
  · exact Or.inr (Or.inr (Or.inr (Or.inr (Or.inr
      ⟨hf, hc, hl', hs, ho, RequestCommitted_committed env p fid s hf hc hl' hs ho⟩))))

/-- Claim C5: for a commit pending request with `logseq >= 0`, not suspended
and in order, whose queue counter (if any) is a positive `int`,
`RequestCommitted` returns and leaves `mCommitted.mSeq = logseq`,
`mCommitted.mFidSeed = fidSeed`, `mCommitted.mStatus = t` and
`mCommitted.mErrChkSum` = old value + `t`, where `t` is 0 for a status `>= 0` and
`SysToKfsErrno(-status)` otherwise; it clears `commitPendingFlag` and decrements
the queue counter by one. -/
theorem RequestCommitted_updates_committed (env : Env) (p : Nat) (fid : Int) (s : Impl)
    (hf : (s.mem p).commitPendingFlag = true) (hl : 0 ≤ (s.mem p).logseq)
    (hs : (s.mem p).suspended = false)
    (hord : s.mCommitted.mSeq < 0 ∨ (s.mem p).logseq = s.mCommitted.mSeq + 1)
    (hcnt : ∀ c, (s.mem p).logQueueCounter = some c → IsInt32 (s.counters c) ∧ 0 < s.counters c) :
    ∃ s', RequestCommitted env p fid s = Res.ok () s' ∧
      s'.mCommitted.mSeq = (s.mem p).logseq ∧
      s'.mCommitted.mFidSeed = fid ∧
      s'.mCommitted.mStatus =
        (if 0 ≤ (s.mem p).status then 0 else env.SysToKfsErrno (-(s.mem p).status)) ∧
      s'.mCommitted.mErrChkSum = s.mCommitted.mErrChkSum +
        (if 0 ≤ (s.mem p).status then 0 else env.SysToKfsErrno (-(s.mem p).status)) ∧
      (s'.mem p).commitPendingFlag = false ∧
      (∀ c, (s.mem p).logQueueCounter = some c → s'.counters c = s.counters c - 1) := by
  have hc : counterStaysNonneg s p := by
    intro c hcc
    rw [wrapInt32_pred_of_pos _ (hcnt c hcc).1 (hcnt c hcc).2]
    have := (hcnt c hcc).2
    omega
  have ho : ¬ outOfOrder s p := by
    unfold outOfOrder
    omega
  refine ⟨_, RequestCommitted_committed env p fid s hf hc hl hs ho, rfl, rfl, ?_, ?_, ?_, ?_⟩
  · simp only [committedStatus]
    split_ifs <;> first | rfl | omega
  · simp only [committedStatus]
    split_ifs <;> first | rfl | omega
  · simp [afterDecrement]
  · intro c hcc
    simp [afterDecrement, decrCounter, hcc, wrapInt32_pred_of_pos _ (hcnt c hcc).1 (hcnt c hcc).2]

/-- Witness for `RequestCommitted_updates_committed`: request 0 with log
sequence 5 committed after sequence 4, its counter holding 1. -/
theorem RequestCommitted_updates_committed_witness :
    ∃ s', RequestCommitted envOk 0 7 (statePending 5 4 1) = Res.ok () s' ∧
      s'.mCommitted.mSeq = ((statePending 5 4 1).mem 0).logseq ∧
      s'.mCommitted.mFidSeed = 7 ∧
      s'.mCommitted.mStatus =
        (if 0 ≤ ((statePending 5 4 1).mem 0).status then 0
          else envOk.SysToKfsErrno (-((statePending 5 4 1).mem 0).status)) ∧
      s'.mCommitted.mErrChkSum = (statePending 5 4 1).mCommitted.mErrChkSum +
        (if 0 ≤ ((statePending 5 4 1).mem 0).status then 0
          else envOk.SysToKfsErrno (-((statePending 5 4 1).mem 0).status)) ∧
      (s'.mem 0).commitPendingFlag = false ∧
      (∀ c, ((statePending 5 4 1).mem 0).logQueueCounter = some c →
        s'.counters c = (statePending 5 4 1).counters c - 1) :=
  RequestCommitted_updates_committed envOk 0 7 (statePending 5 4 1) rfl (by decide) rfl
    (Or.inr (by decide)) (fun _ _ => by simp [statePending, Impl.init, IsInt32])

/-- Claim C6, as stated, fails: for a commit pending request with `logseq = -1`
whose counter holds 5, `RequestCommitted` is not a no-op: it returns with the
counter at 4 and `commitPendingFlag` cleared. -/
theorem RequestCommitted_noop_counterexample :
    ¬ ((((statePending (-1) 4 5).mem 0).commitPendingFlag = false ∨
          ((statePending (-1) 4 5).mem 0).logseq < 0) →
        RequestCommitted envOk 0 7 (statePending (-1) 4 5) = Res.ok () (statePending (-1) 4 5)) := by
  intro h
  have h1 := h (Or.inr (by decide))
  have hc : counterStaysNonneg (statePending (-1) 4 5) 0 := by
    intro c _
    simp [statePending, Impl.init, wrapInt32]
  rw [RequestCommitted_not_logged envOk 0 7 _ rfl hc (by decide)] at h1
  have h2 := congrArg (fun r => r.state?.map fun s => s.counters 0) h1
  simp [Res.state?, afterDecrement, decrCounter, statePending, Impl.init, reqEx, wrapInt32] at h2

/-- Claim C6, amended: `RequestCommitted` changes nothing when
`commitPendingFlag` is false.  When the flag is set and `logseq` is negative (and
the queue counter, if any, does not drop below zero) it leaves every field of
the writer unchanged, but clears the request's `commitPendingFlag` and
decrements the request's queue counter. -/
theorem RequestCommitted_noop (env : Env) (p : Nat) (fid : Int) (s : Impl) :
    ((s.mem p).commitPendingFlag = false → RequestCommitted env p fid s = Res.ok () s) ∧
    ((s.mem p).commitPendingFlag = true → (s.mem p).logseq < 0 → counterStaysNonneg s p →
      RequestCommitted env p fid s =
        Res.ok ()
          { s with
            counters := decrCounter s.counters (s.mem p).logQueueCounter
            mem := Function.update s.mem p { s.mem p with commitPendingFlag := false } }) :=
  ⟨RequestCommitted_not_pending env p fid s,
    fun hf hl hc => RequestCommitted_not_logged env p fid s hf hc hl⟩

/-- Witness for `RequestCommitted_noop`: both cases at concrete requests. -/
theorem RequestCommitted_noop_witness :
    RequestCommitted envOk 0 7 (stateEx LogAction.kLogAlways 0 5) =
        Res.ok () (stateEx LogAction.kLogAlways 0 5) ∧
      RequestCommitted envOk 0 7 (statePending (-1) 4 5) =
        Res.ok ()
          { statePending (-1) 4 5 with
            counters := decrCounter (statePending (-1) 4 5).counters
              ((statePending (-1) 4 5).mem 0).logQueueCounter
            mem := Function.update (statePending (-1) 4 5).mem 0
              { (statePending (-1) 4 5).mem 0 with commitPendingFlag := false } } :=
  ⟨(RequestCommitted_noop envOk 0 7 (stateEx LogAction.kLogAlways 0 5)).1 rfl,
    (RequestCommitted_noop envOk 0 7 (statePending (-1) 4 5)).2 rfl (by decide)
      (fun c _ => by simp [statePending, Impl.init, wrapInt32])⟩

/-- Claim C7: for a commit pending request with `logseq >= 0`,
`RequestCommitted` panics if and only if the request is suspended, or
`mCommitted.mSeq >= 0` and `logseq != mCommitted.mSeq + 1`, or the decremented
queue counter is below zero; a panic leaves `mCommitted` unchanged, and the
out-of-order panic is raised exactly when the counter and the suspended state
are in order and the sequence is not. -/
theorem RequestCommitted_panics_iff (env : Env) (p : Nat) (fid : Int) (s : Impl)
    (hf : (s.mem p).commitPendingFlag = true) (hl : 0 ≤ (s.mem p).logseq) :
    ((RequestCommitted env p fid s).panicMsg?.isSome = true ↔
      ((s.mem p).suspended = true ∨
        (0 ≤ s.mCommitted.mSeq ∧ (s.mem p).logseq ≠ s.mCommitted.mSeq + 1) ∨
        ∃ c, (s.mem p).logQueueCounter = some c ∧ wrapInt32 (s.counters c - 1) < 0)) ∧
    (∀ msg s', RequestCommitted env p fid s = Res.panic msg s' → s'.mCommitted = s.mCommitted) ∧
    ((RequestCommitted env p fid s).panicMsg? =
        some "request committed: invalid out of order log sequence" ↔
      ((s.mem p).suspended = false ∧
        (0 ≤ s.mCommitted.mSeq ∧ (s.mem p).logseq ≠ s.mCommitted.mSeq + 1) ∧
        ¬ ∃ c, (s.mem p).logQueueCounter = some c ∧ wrapInt32 (s.counters c - 1) < 0)) := by
  have hcs : counterStaysNonneg s p ↔
      ¬ ∃ c, (s.mem p).logQueueCounter = some c ∧ wrapInt32 (s.counters c - 1) < 0 := by
    unfold counterStaysNonneg
    push_neg
    rfl
  have hoo : outOfOrder s p ↔
      (0 ≤ s.mCommitted.mSeq ∧ (s.mem p).logseq ≠ s.mCommitted.mSeq + 1) := by
    unfold outOfOrder
    constructor
    · rintro ⟨h1, h2⟩
      exact ⟨h2, fun e => h1 e.symm⟩
    · rintro ⟨h1, h2⟩
      exact ⟨fun e => h2 e.symm, h1⟩
  rw [← hoo, ← hcs]
  rcases RequestCommitted_cases env p fid s with ⟨hf', -⟩ | ⟨-, c, hcc, hlt, h⟩ | ⟨-, -, hl', -⟩ |
    ⟨-, hc, -, hs, h⟩ | ⟨-, hc, -, hs, ho, h⟩ | ⟨-, hc, -, hs, ho, h⟩
  · rw [hf] at hf'
    cases hf'
  · have hnc : ¬ counterStaysNonneg s p := fun hc => by
      have := hc c hcc
      omega
    rw [h]
    refine ⟨?_, ?_, ?_⟩
    · simp only [Res.panicMsg?, Option.isSome_some, true_iff]
      exact Or.inr (Or.inr (hcs.not_left.mp hnc))
    · intro msg s' e
      simp only [Res.panic.injEq] at e
      rw [← e.2]
    · simp only [Res.panicMsg?, Option.some.injEq]
      constructor
      · intro e
        exact absurd e (by decide)
      · rintro ⟨-, -, hc⟩
        exact absurd hc hnc
  · omega
  · rw [h]
    refine ⟨?_, ?_, ?_⟩
    · simp only [Res.panicMsg?, Option.isSome_some, true_iff]
      exact Or.inl hs
    · intro msg s' e
      simp only [Res.panic.injEq] at e
      rw [← e.2]
      rfl
    · simp only [Res.panicMsg?, Option.some.injEq]
      constructor
      · intro e
        exact absurd e (by decide)
      · rintro ⟨hs', -⟩
        rw [hs] at hs'
        cases hs'
  · rw [h]
    refine ⟨?_, ?_, ?_⟩
    · simp only [Res.panicMsg?, Option.isSome_some, true_iff]
      exact Or.inr (Or.inl ho)
    · intro msg s' e
      simp only [Res.panic.injEq] at e
      rw [← e.2]
      rfl
    · simp only [Res.panicMsg?, true_iff]
      exact ⟨hs, ho, hc⟩
  · rw [h]
    refine ⟨?_, ?_, ?_⟩
    · simp only [Res.panicMsg?, Option.isSome_none, Bool.false_eq_true, false_iff]
      rintro (hs' | ho' | hc')
      · rw [hs] at hs'
        cases hs'
      · exact ho ho'
      · exact (hcs.mp hc) hc'
    · intro msg s' e
      cases e
    · simp only [Res.panicMsg?]
      constructor
      · intro e
        cases e
      · rintro ⟨-, ho', -⟩
        exact absurd ho' ho

/-- Witness for `RequestCommitted_panics_iff`: request 0 with log sequence 9
after committed sequence 4 panics as out of order. -/
theorem RequestCommitted_panics_iff_witness :
    (RequestCommitted envOk 0 7 (statePending 9 4 1)).panicMsg? =
      some "request committed: invalid out of order log sequence" :=
  (RequestCommitted_panics_iff envOk 0 7 (statePending 9 4 1) rfl (by decide)).2.2.mpr
    ⟨rfl, ⟨by decide, by decide⟩, by
      rintro ⟨c, -, h⟩
      simp [statePending, Impl.init, wrapInt32] at h⟩

/-- Claim C8, as stated, fails: with `mCommitted.mSeq = -1` a request with log
sequence 5 commits without panic and leaves `mCommitted.mSeq = 5`, which is
neither -1 nor 0. -/
theorem RequestCommitted_seq_counterexample :
    ¬ (∀ s', RequestCommitted envOk 0 7 (statePending 5 (-1) 1) = Res.ok () s' →
        s'.mCommitted.mSeq = (statePending 5 (-1) 1).mCommitted.mSeq + 1 ∨
        s'.mCommitted.mSeq = (statePending 5 (-1) 1).mCommitted.mSeq) := by
  intro h
  have hc : counterStaysNonneg (statePending 5 (-1) 1) 0 := by
    intro c _
    simp [statePending, Impl.init, wrapInt32]
  have ho : ¬ outOfOrder (statePending 5 (-1) 1) 0 := by
    rintro ⟨-, h2⟩
    exact absurd h2 (by decide)
  have := h _ (RequestCommitted_committed envOk 0 7 _ rfl hc (by decide) rfl ho)
  simp [statePending, Impl.init, reqEx] at this

/-- Claim C8, amended: a call of `RequestCommitted` that returns leaves
`mCommitted.mSeq` at its previous value or, when that value was not negative, at
exactly that value plus 1; when it was negative the new value may be any
`logseq >= 0` of the committed request.  In every case it does not decrease. -/
theorem RequestCommitted_seq_step (env : Env) (p : Nat) (fid : Int) (s s' : Impl)
    (h : RequestCommitted env p fid s = Res.ok () s') :
    (0 ≤ s.mCommitted.mSeq →
      s'.mCommitted.mSeq = s.mCommitted.mSeq + 1 ∨ s'.mCommitted.mSeq = s.mCommitted.mSeq) ∧
    (s.mCommitted.mSeq < 0 →
      s'.mCommitted.mSeq = s.mCommitted.mSeq ∨
        (s'.mCommitted.mSeq = (s.mem p).logseq ∧ 0 ≤ (s.mem p).logseq)) ∧
    s.mCommitted.mSeq ≤ s'.mCommitted.mSeq := by
  rcases RequestCommitted_cases env p fid s with ⟨-, h1⟩ | ⟨-, c, -, -, h1⟩ | ⟨-, -, -, h1⟩ |
    ⟨-, -, -, -, h1⟩ | ⟨-, -, -, -, -, h1⟩ | ⟨-, -, hl, -, ho, h1⟩
  all_goals rw [h1] at h
  any_goals cases h
  · exact ⟨fun _ => Or.inr rfl, fun _ => Or.inl rfl, le_refl _⟩
  · exact ⟨fun _ => Or.inr rfl, fun _ => Or.inl rfl, le_refl _⟩
  · unfold outOfOrder at ho
    refine ⟨fun h0 => Or.inl ?_, fun _ => Or.inr ⟨rfl, hl⟩, ?_⟩
    · show (s.mem p).logseq = _
      omega
    · show _ ≤ (s.mem p).logseq
      omega

/-- Witness for `RequestCommitted_seq_step`: the commit of log sequence 5 after
committed sequence 4. -/
theorem RequestCommitted_seq_step_witness :
    ∃ s', RequestCommitted envOk 0 7 (statePending 5 4 1) = Res.ok () s' ∧
      (0 ≤ (statePending 5 4 1).mCommitted.mSeq →
        s'.mCommitted.mSeq = (statePending 5 4 1).mCommitted.mSeq + 1 ∨
          s'.mCommitted.mSeq = (statePending 5 4 1).mCommitted.mSeq) := by
  have hc : counterStaysNonneg (statePending 5 4 1) 0 := by
    intro c _
    simp [statePending, Impl.init, wrapInt32]
  have ho : ¬ outOfOrder (statePending 5 4 1) 0 := by
    rintro ⟨h1, -⟩
    exact absurd h1 (by decide)
  have h := RequestCommitted_committed envOk 0 7 (statePending 5 4 1) rfl hc (by decide) rfl ho
  exact ⟨_, h, (RequestCommitted_seq_step envOk 0 7 (statePending 5 4 1) _ h).1⟩

/-! ## ScheduleFlush -/

theorem Queue.Holds.pushBackQueue {q q2 : Queue} {mem : Nat → MetaRequest} {l1 l2 : List Nat}
    (h1 : q.Holds mem l1) (h2 : q2.Holds mem l2) (hne : l2 ≠ []) (hd : l1.Disjoint l2) :
    (q.PushBackQueue q2 mem).1.Holds (q.PushBackQueue q2 mem).2.2 (l1 ++ l2) ∧
      (q.PushBackQueue q2 mem).2.1.Holds (q.PushBackQueue q2 mem).2.2 [] := by
  obtain ⟨hch1, htl1, hnd1⟩ := h1
  obtain ⟨hch2, htl2, hnd2⟩ := h2
  have hnd : (l1 ++ l2).Nodup := List.nodup_append.mpr ⟨hnd1, hnd2, hd⟩
  have hlast : (l1 ++ l2).getLast? = l2.getLast? := by
    rw [List.getLast?_append]
    cases hl : l2.getLast? with
    | none => exact absurd (List.getLast?_eq_none_iff.mp hl) hne
    | some x => rfl
  have hempty : ∀ m, (Queue.Reset q2).Holds m [] := fun m => ⟨rfl, rfl, List.nodup_nil⟩
  cases ht : q.mTailPtr with
  | none =>
    have hl : l1 = [] := List.getLast?_eq_none_iff.mp (htl1 ▸ ht)
    subst hl
    simp only [Queue.PushBackQueue, ht, List.nil_append]
    exact ⟨⟨hch2, htl2, hnd2⟩, hempty _⟩
  | some t =>
    have hlast1 : l1.getLast? = some t := by rw [← htl1, ht]
    have htmem : t ∈ l1 := List.mem_of_getLast?_eq_some hlast1
    have ht2 : t ∉ l2 := fun h => hd htmem h
    have := isChain_append mem l1 l2 q.mHeadPtr q2.mHeadPtr t { mem t with next := q2.mHeadPtr }
      hch1 hlast1 hnd1 ht2 hch2 rfl
    simp only [Queue.PushBackQueue, ht, setMem]
    exact ⟨⟨this, by rw [hlast, htl2], hnd⟩, hempty _⟩

theorem ScheduleFlush_empty (s : Impl) (h : s.mPendingQueue.IsEmpty = true) :
    ScheduleFlush s = Res.ok () s := by
  simp [ScheduleFlush, h]

theorem ScheduleFlush_nonempty (s : Impl) (h : s.mPendingQueue.IsEmpty = false) :
    ScheduleFlush s = Res.ok ()
      { s with
        mPendingCommitted := s.mCommitted
        mInQueue := (s.mInQueue.PushBackQueue s.mPendingQueue s.mem).1
        mPendingQueue := (s.mInQueue.PushBackQueue s.mPendingQueue s.mem).2.1
        mem := (s.mInQueue.PushBackQueue s.mPendingQueue s.mem).2.2
        workerWakeups := s.workerWakeups + 1 } := by
  simp [ScheduleFlush, h]

/-- Claim C9: `ScheduleFlush` with an empty pending queue changes nothing.  With
a non-empty pending queue (holding the requests `lp`, the in queue holding `li`,
no request in both) it sets `mPendingCommitted = mCommitted`, leaves the in
queue holding `li` followed by `lp` in the same order, and leaves the pending
queue empty. -/
theorem ScheduleFlush_splices (s : Impl) :
    (s.mPendingQueue.IsEmpty = true → ScheduleFlush s = Res.ok () s) ∧
    (∀ li lp, s.mPendingQueue.IsEmpty = false → s.mInQueue.Holds s.mem li →
      s.mPendingQueue.Holds s.mem lp → li.Disjoint lp →
      ∃ s', ScheduleFlush s = Res.ok () s' ∧
        s'.mPendingCommitted = s.mCommitted ∧ s'.mCommitted = s.mCommitted ∧
        s'.mInQueue.Holds s'.mem (li ++ lp) ∧
        s'.mPendingQueue.Holds s'.mem [] ∧ s'.mPendingQueue.IsEmpty = true) := by
  refine ⟨ScheduleFlush_empty s, fun li lp hne hi hp hd => ?_⟩
  have hlp : lp ≠ [] := by
    rintro rfl
    have := hp.1
    simp [isChain, Queue.IsEmpty] at this hne
    simp [this] at hne
  have := hi.pushBackQueue hp hlp hd
  refine ⟨_, ScheduleFlush_nonempty s hne, rfl, rfl, this.1, this.2, ?_⟩
  have h3 := this.2.1
  simp only [isChain_nil] at h3
  simp [Queue.IsEmpty]
  exact h3

/-- Witness for `ScheduleFlush_splices`: request 1 in the in queue, requests 2
and 3 pending. -/
theorem ScheduleFlush_splices_witness :
    ∃ s', ScheduleFlush stateQueued = Res.ok () s' ∧
      s'.mPendingCommitted = stateQueued.mCommitted ∧ s'.mCommitted = stateQueued.mCommitted ∧
      s'.mInQueue.Holds s'.mem ([1] ++ [2, 3]) ∧
      s'.mPendingQueue.Holds s'.mem [] ∧ s'.mPendingQueue.IsEmpty = true :=
  (ScheduleFlush_splices stateQueued).2 [1] [2, 3] rfl
    ⟨by decide, rfl, by decide⟩ ⟨by decide, rfl, by decide⟩ (by simp [List.Disjoint])

/-! ## The file and sink operations when all I/O succeeds -/

theorem IsLogStreamGood_good (s : Impl) (h : Good s) : IsLogStreamGood s = Res.ok true s := by
  obtain ⟨h1, h2, h3⟩ := h
  simp [IsLogStreamGood, h1, h3, not_lt.mpr h2]

theorem mdWrite_nosync (env : Env) (fuel : Nat) (data : Bytes) (s : Impl)
    (hf : s.mMdStream.fail = false) (hs : s.mMdStream.sync = false) :
    mdWrite env fuel data s = Res.ok ()
      { s with mMdStream :=
          { s.mMdStream with
            buf := s.mMdStream.buf ++ data
            bufSize := max s.mMdStream.bufSize (s.mMdStream.buf ++ data).length
            md := s.mMdStream.md ++ data } } := by
  simp [mdWrite, hf, hs]

theorem mdFlush_nosync (env : Env) (fuel : Nat) (s : Impl) (hs : s.mMdStream.sync = false) :
    mdFlush env fuel s = Res.ok () s := by
  cases hf : s.mMdStream.fail <;> simp [mdFlush, hf, hs]

theorem writeLoop_ok (env : Env) (io : FileOk env) (k : Nat) (buf : Bytes) (s : Impl)
    (hb : buf ≠ []) :
    writeLoop env (k + 2) buf 0 0 0 s =
      Res.ok ((buf.length : Int), env.errno s.tick)
        (appendToFd { s with tick := s.tick + 1 } s.mLogFd buf) := by
  have hlen : 0 < buf.length := List.length_pos.mpr hb
  simp [writeLoop, sysWrite, nextTick, hlen, io.write_ok, appendToFd]

theorem appendToFd_eq (s : Impl) (fd : Int) (data : Bytes) :
    ∃ f, appendToFd s fd data = { s with files := f } := by
  unfold appendToFd
  cases s.fds fd with
  | none => exact ⟨s.files, rfl⟩
  | some name => exact ⟨_, rfl⟩

theorem appendToFd_core (s : Impl) (fd : Int) (data : Bytes) :
    (appendToFd s fd data).core = s.core := by
  obtain ⟨f, hf⟩ := appendToFd_eq s fd data
  rw [hf]
  rfl

theorem appendToFd_good (s : Impl) (fd : Int) (data : Bytes) :
    Good (appendToFd s fd data) ↔ Good s := by
  obtain ⟨f, hf⟩ := appendToFd_eq s fd data
  rw [hf]
  rfl

theorem appendToFd_mdStream (s : Impl) (fd : Int) (data : Bytes) :
    (appendToFd s fd data).mMdStream = s.mMdStream := by
  obtain ⟨f, hf⟩ := appendToFd_eq s fd data
  rw [hf]

/-! ## Total and partial correctness of calls -/

section Triples

variable {α β : Type}

@[simp] theorem M.total_bind_iff (m : M α) (f : α → M β) (s : Impl) (Q : β → Impl → Prop) :
    M.total (m >>= f) s Q ↔ M.total m s (fun a s' => M.total (f a) s' Q) := by
  unfold M.total
  simp only [M.bind_run]
  constructor
  · rintro ⟨b, s2, h, hq⟩
    cases hm : m s with
    | ok a s1 =>
      rw [hm] at h
      exact ⟨a, s1, rfl, b, s2, h, hq⟩
    | panic msg s1 =>
      rw [hm] at h
      cases h
    | timeout =>
      rw [hm] at h
      cases h
  · rintro ⟨a, s1, hm, b, s2, h, hq⟩
    rw [hm]
    exact ⟨b, s2, h, hq⟩

@[simp] theorem M.total_pure_iff (a : α) (s : Impl) (Q : α → Impl → Prop) :
    M.total (@Pure.pure M _ α a) s Q ↔ Q a s := by
  unfold M.total
  simp only [M.pure_run, Res.ok.injEq]
  constructor
  · rintro ⟨a', s', ⟨rfl, rfl⟩, hq⟩
    exact hq
  · intro hq
    exact ⟨a, s, ⟨rfl, rfl⟩, hq⟩

@[simp] theorem M.total_get_iff (s : Impl) (Q : Impl → Impl → Prop) : M.total M.get s Q ↔ Q s s := by
  unfold M.total
  simp only [M.get_run, Res.ok.injEq]
  constructor
  · rintro ⟨a', s', ⟨rfl, rfl⟩, hq⟩
    exact hq
  · intro hq
    exact ⟨s, s, ⟨rfl, rfl⟩, hq⟩

@[simp] theorem M.total_modify_iff (g : Impl → Impl) (s : Impl) (Q : Unit → Impl → Prop) :
    M.total (M.modify g) s Q ↔ Q () (g s) := by
  unfold M.total
  simp only [M.modify_run, Res.ok.injEq]
  constructor
  · rintro ⟨a', s', ⟨-, rfl⟩, hq⟩
    exact hq
  · intro hq
    exact ⟨(), g s, ⟨trivial, rfl⟩, hq⟩

@[simp] theorem M.total_panic_iff (msg : String) (s : Impl) (Q : α → Impl → Prop) :
    M.total (M.panic msg : M α) s Q ↔ False := by
  unfold M.total
  simp

@[simp] theorem M.total_timeout_iff (s : Impl) (Q : α → Impl → Prop) :
    M.total (M.timeout : M α) s Q ↔ False := by
  unfold M.total
  simp

@[simp] theorem M.total_ite_iff (c : Prop) [Decidable c] (a b : M α) (s : Impl) (Q : α → Impl → Prop) :
    M.total (if c then a else b) s Q ↔ if c then M.total a s Q else M.total b s Q := by
  split <;> rfl

theorem M.total_mono {m : M α} {s : Impl} {Q Q' : α → Impl → Prop} (h : M.total m s Q)
    (hq : ∀ a s', Q a s' → Q' a s') : M.total m s Q' := by
  obtain ⟨a, s', h1, h2⟩ := h
  exact ⟨a, s', h1, hq a s' h2⟩

@[simp] theorem M.total_nextTick_iff (s : Impl) (Q : Nat → Impl → Prop) :
    M.total nextTick s Q ↔ Q s.tick { s with tick := s.tick + 1 } := by
  unfold M.total nextTick
  simp only [Res.ok.injEq]
  constructor
  · rintro ⟨a', s', ⟨rfl, rfl⟩, hq⟩
    exact hq
  · intro hq
    exact ⟨_, _, ⟨rfl, rfl⟩, hq⟩

@[simp] theorem M.post_bind_iff (m : M α) (f : α → M β) (s : Impl) (Q : β → Impl → Prop) :
    M.post (m >>= f) s Q ↔ M.post m s (fun a s' => M.post (f a) s' Q) := by
  unfold M.post
  simp only [M.bind_run]
  constructor
  · intro h a s1 hm b s2 hf
    apply h
    rw [hm]
    exact hf
  · intro h b s2 hb
    cases hm : m s with
    | ok a s1 =>
      rw [hm] at hb
      exact h a s1 hm b s2 hb
    | panic msg s1 =>
      rw [hm] at hb
      cases hb
    | timeout =>
      rw [hm] at hb
      cases hb

@[simp] theorem M.post_pure_iff (a : α) (s : Impl) (Q : α → Impl → Prop) :
    M.post (@Pure.pure M _ α a) s Q ↔ Q a s := by
  unfold M.post
  simp only [M.pure_run, Res.ok.injEq]
  constructor
  · intro h
    exact h a s ⟨rfl, rfl⟩
  · rintro hq a' s' ⟨rfl, rfl⟩
    exact hq

@[simp] theorem M.post_get_iff (s : Impl) (Q : Impl → Impl → Prop) : M.post M.get s Q ↔ Q s s := by
  unfold M.post
  simp only [M.get_run, Res.ok.injEq]
  constructor
  · intro h
    exact h s s ⟨rfl, rfl⟩
  · rintro hq a' s' ⟨rfl, rfl⟩
    exact hq

@[simp] theorem M.post_modify_iff (g : Impl → Impl) (s : Impl) (Q : Unit → Impl → Prop) :
    M.post (M.modify g) s Q ↔ Q () (g s) := by
  unfold M.post
  simp only [M.modify_run, Res.ok.injEq]
  constructor
  · intro h
    exact h () (g s) ⟨trivial, rfl⟩
  · rintro hq a' s' ⟨-, rfl⟩
    exact hq

@[simp] theorem M.post_panic_iff (msg : String) (s : Impl) (Q : α → Impl → Prop) :
    M.post (M.panic msg : M α) s Q ↔ True := by
  unfold M.post
  simp

@[simp] theorem M.post_timeout_iff (s : Impl) (Q : α → Impl → Prop) :
    M.post (M.timeout : M α) s Q ↔ True := by
  unfold M.post
  simp

@[simp] theorem M.post_ite_iff (c : Prop) [Decidable c] (a b : M α) (s : Impl) (Q : α → Impl → Prop) :
    M.post (if c then a else b) s Q ↔ if c then M.post a s Q else M.post b s Q := by
  split <;> rfl

theorem M.post_mono {m : M α} {s : Impl} {Q Q' : α → Impl → Prop} (h : M.post m s Q)
    (hq : ∀ a s', Q a s' → Q' a s') : M.post m s Q' :=
  fun a s' hm => hq a s' (h a s' hm)

@[simp] theorem M.post_nextTick_iff (s : Impl) (Q : Nat → Impl → Prop) :
    M.post nextTick s Q ↔ Q s.tick { s with tick := s.tick + 1 } := by
  unfold M.post nextTick
  simp only [Res.ok.injEq]
  constructor
  · intro h
    exact h _ _ ⟨rfl, rfl⟩
  · rintro hq a' s' ⟨rfl, rfl⟩
    exact hq

theorem M.total.post {m : M α} {s : Impl} {Q Q' : α → Impl → Prop} (h : M.total m s Q)
    (h' : M.post m s Q') : M.total m s (fun a s' => Q a s' ∧ Q' a s') := by
  obtain ⟨a, s', h1, h2⟩ := h
  exact ⟨a, s', h1, h2, h' a s' h1⟩

end Triples

theorem Inv.modify {c : Impl} {b b' : Bool} {s s' : Impl} (h : Inv c b s)
    (h1 : s'.core = s.core) (h2 : s'.mError = s.mError) (h3 : s'.mLogFd = s.mLogFd)
    (h4 : s'.mMdStream.fail = s.mMdStream.fail) (h5 : s'.mMdStream.sync = b') : Inv c b' s' := by
  obtain ⟨hc, ⟨he, hfd, hf⟩, -⟩ := h
  exact ⟨h1.trans hc, ⟨h2.trans he, h3 ▸ hfd, h4.trans hf⟩, h5⟩

theorem writeLoop_total (env : Env) (io : FileOk env) (k : Nat) (buf : Bytes) (s : Impl)
    (hb : 0 < buf.length) (Q : Int × Int → Impl → Prop)
    (hq : Q ((buf.length : Int), env.errno s.tick)
      (appendToFd { s with tick := s.tick + 1 } s.mLogFd buf)) :
    M.total (writeLoop env (k + 2) buf 0 0 0) s Q :=
  ⟨_, _, writeLoop_ok env io k buf s (List.length_pos.mp hb), hq⟩

theorem Inv.appendToFd {c : Impl} {b : Bool} {s : Impl} (h : Inv c b s) (fd : Int)
    (data : Bytes) : Inv c b (appendToFd s fd data) := by
  obtain ⟨f, hf⟩ := appendToFd_eq s fd data
  rw [hf]
  exact h.modify rfl rfl rfl rfl h.2.2

theorem IsLogStreamGood_total {s : Impl} (Q : Bool → Impl → Prop) (h : Good s) (hq : Q true s) :
    M.total IsLogStreamGood s Q :=
  ⟨true, s, IsLogStreamGood_good s h, hq⟩

theorem write_inv (env : Env) (io : FileOk env) (k : Nat) (buf : Bytes) {c : Impl} {s : Impl}
    (Q : Bool → Impl → Prop) (h : Inv c true s)
    (hq : ∀ s', Inv c true s' → s'.mMdStream = s.mMdStream → Q true s') :
    M.total (write env (k + 2) buf) s Q := by
  have hs := h.2.2
  have hnn : ¬ ((buf.length : Int) < 0) := by omega
  by_cases hw : s.mWriteState = WriteState.kUpdateBlockChecksum <;>
    by_cases hb : 0 < buf.length
  · simp only [write, M.total_bind_iff, M.total_get_iff, hs, Bool.not_true, Bool.false_eq_true,
      if_false, M.total_pure_iff, hw, hb, if_true, M.total_modify_iff]
    refine IsLogStreamGood_total _ ?_ ?_
    · exact h.2.1
    simp only [if_true, M.total_bind_iff]
    refine writeLoop_total env io k buf _ hb _ ?_
    simp only [hnn, if_false, M.total_pure_iff, M.total_bind_iff]
    have hi : Inv c true (appendToFd
        { s with
          mBlockChecksum := env.ComputeBlockChecksum s.mBlockChecksum buf
          mWriteState := WriteState.kUpdateBlockChecksum
          tick := s.tick + 1 } s.mLogFd buf) :=
      Inv.appendToFd (h.modify (by rfl) (by rfl) (by rfl) (by rfl) (by exact hs)) _ _
    refine IsLogStreamGood_total _ hi.2.1 (hq _ hi ?_)
    rw [appendToFd_mdStream]
  · simp only [write, M.total_bind_iff, M.total_get_iff, hs, Bool.not_true, Bool.false_eq_true,
      if_false, M.total_pure_iff, hw, hb, if_true, M.total_modify_iff]
    refine IsLogStreamGood_total _ h.2.1 (hq _ (h.modify (by rfl) (by rfl) (by rfl) (by rfl) (by exact hs)) rfl)
  · simp only [write, M.total_bind_iff, M.total_get_iff, hs, Bool.not_true, Bool.false_eq_true,
      if_false, M.total_pure_iff, hw, hb, if_true, M.total_modify_iff]
    refine IsLogStreamGood_total _ h.2.1 ?_
    simp only [if_true, M.total_bind_iff]
    refine writeLoop_total env io k buf _ hb _ ?_
    simp only [hnn, if_false, M.total_pure_iff, M.total_bind_iff]
    have hi : Inv c true (appendToFd { s with tick := s.tick + 1 } s.mLogFd buf) :=
      Inv.appendToFd (h.modify (by rfl) (by rfl) (by rfl) (by rfl) (by exact hs)) _ _
    refine IsLogStreamGood_total _ hi.2.1 (hq _ hi ?_)
    rw [appendToFd_mdStream]
  · simp only [write, M.total_bind_iff, M.total_get_iff, hs, Bool.not_true, Bool.false_eq_true,
      if_false, M.total_pure_iff, hw, hb, if_true, M.total_modify_iff]
    exact IsLogStreamGood_total _ h.2.1 (hq _ h rfl)

theorem mdSyncSelf_inv (env : Env) (io : FileOk env) (k : Nat) {c : Impl} {s : Impl}
    (Q : Unit → Impl → Prop) (h : Inv c true s) (hq : ∀ s', Inv c true s' → Q () s') :
    M.total (mdSyncSelf env (k + 2)) s Q := by
  by_cases hb : s.mMdStream.buf.isEmpty = true
  · simp only [mdSyncSelf, M.total_bind_iff, M.total_get_iff, hb, if_true, M.total_pure_iff]
    exact hq _ h
  · simp only [mdSyncSelf, M.total_bind_iff, M.total_get_iff, hb, Bool.false_eq_true, if_false,
      M.total_pure_iff]
    refine write_inv env io k _ _ h ?_
    intro s1 h1 hm
    simp only [M.total_modify_iff]
    refine hq _ (h1.modify (by rfl) (by rfl) (by rfl) ?_ (by exact h1.2.2))
    simp [h1.2.1.2.2]

theorem mdWrite_inv (env : Env) (io : FileOk env) (k : Nat) (data : Bytes) {c : Impl} {b : Bool}
    {s : Impl} (Q : Unit → Impl → Prop) (h : Inv c b s)
    (hq : ∀ s', Inv c b s' → (b = false → s'.mMdStream.buf = s.mMdStream.buf ++ data) → Q () s') :
    M.total (mdWrite env (k + 2) data) s Q := by
  have hf := h.2.1.2.2
  have hs := h.2.2
  cases b
  · simp only [mdWrite, M.total_bind_iff, M.total_get_iff, hf, Bool.false_eq_true, if_false,
      M.total_pure_iff, M.total_modify_iff, hs]
    exact hq _ (h.modify (by rfl) (by rfl) (by rfl) (by exact hf.symm) (by rfl)) (fun _ => rfl)
  · simp only [mdWrite, M.total_bind_iff, M.total_get_iff, hf, Bool.false_eq_true, if_false,
      M.total_pure_iff, M.total_modify_iff, hs, if_true]
    refine mdSyncSelf_inv env io k _
      (h.modify (by rfl) (by rfl) (by rfl) (by exact hf.symm) (by rfl)) ?_
    intro s1 h1
    exact hq s1 h1 (fun e => by cases e)

theorem mdFlush_inv (env : Env) (io : FileOk env) (k : Nat) {c : Impl} {b : Bool}
    {s : Impl} (Q : Unit → Impl → Prop) (h : Inv c b s)
    (hq : ∀ s', Inv c b s' → (b = false → s' = s) → Q () s') :
    M.total (mdFlush env (k + 2)) s Q := by
  have hf := h.2.1.2.2
  have hs := h.2.2
  cases b
  · simp only [mdFlush, M.total_bind_iff, M.total_get_iff, hf, Bool.false_eq_true, if_false,
      M.total_pure_iff, hs]
    exact hq _ h (fun _ => rfl)
  · simp only [mdFlush, M.total_bind_iff, M.total_get_iff, hf, Bool.false_eq_true, if_false,
      M.total_pure_iff, hs, if_true]
    refine mdSyncSelf_inv env io k _ h ?_
    intro s1 h1
    refine IsLogStreamGood_total _ h1.2.1 ?_
    simp only [M.total_modify_iff]
    refine hq _ (h1.modify (by rfl) (by rfl) (by rfl) ?_ (by exact h1.2.2)) (fun e => by cases e)
    simp [h1.2.1.2.2]

theorem Sync_inv (env : Env) (io : FileOk env) {c : Impl} {b : Bool}
    {s : Impl} (Q : Unit → Impl → Prop) (h : Inv c b s) (hq : ∀ s', Inv c b s' → Q () s') :
    M.total (Sync env) s Q := by
  by_cases hc : s.mLogFd < 0 ∨ (! s.mSyncFlag) = true
  · simp only [Sync, M.total_bind_iff, M.total_get_iff, hc, if_true, M.total_pure_iff]
    exact hq _ h
  · simp only [Sync, M.total_bind_iff, M.total_get_iff, hc, if_false, M.total_pure_iff,
      M.total_nextTick_iff, io.fsync_ok, ne_eq, not_true_eq_false]
    exact hq _ (h.modify (by rfl) (by rfl) (by rfl) (by rfl) (by exact h.2.2))

theorem mdSetSync_inv (b' : Bool) {c : Impl} {b : Bool} {s : Impl} (Q : Unit → Impl → Prop)
    (h : Inv c b s) (hq : ∀ s', Inv c b' s' → Q () s') : M.total (mdSetSync b') s Q := by
  simp only [mdSetSync, M.total_modify_iff]
  exact hq _ (h.modify (by rfl) (by rfl) (by rfl) (by rfl) (by rfl))

theorem StartBlock_inv (n : Nat) {c : Impl} {b : Bool} {s : Impl} (Q : Unit → Impl → Prop)
    (h : Inv c b s) (hq : ∀ s', Inv c false s' → Q () s') : M.total (StartBlock n) s Q := by
  simp only [StartBlock, mdSetSync, M.total_bind_iff, M.total_modify_iff]
  exact hq _ (h.modify (by rfl) (by rfl) (by rfl) (by rfl) (by rfl))

theorem FlushBlock_inv (env : Env) (io : IoOk env) (k : Nat) (inLogSeq : Int) {c : Impl}
    {s : Impl} (Q : Unit → Impl → Prop) (h : Inv c false s)
    (hq : ∀ s', Inv c false s' → Q () s') :
    M.total (FlushBlock env (k + 2) inLogSeq) s Q := by
  simp only [FlushBlock, M.total_bind_iff, M.total_modify_iff, M.total_get_iff]
  refine mdWrite_inv env io.toFileOk k _ _ (h.modify (by rfl) (by rfl) (by rfl) (by rfl) (by exact h.2.2)) ?_
  intro s1 h1 _
  refine mdFlush_inv env io.toFileOk k _ h1 ?_
  intro s2 h2 _
  refine mdWrite_inv env io.toFileOk k _ _ (h2.modify (by rfl) (by rfl) (by rfl) (by rfl) (by exact h2.2.2)) ?_
  intro s3 h3 hb3
  refine mdFlush_inv env io.toFileOk k _ h3 ?_
  intro s4 h4 hb4
  refine mdWrite_inv env io.toFileOk k _ _ (h4.modify (by rfl) (by rfl) (by rfl) (by rfl) (by exact h4.2.2)) ?_
  intro s5 h5 hb5
  refine mdFlush_inv env io.toFileOk k _ h5 ?_
  intro s6 h6 hb6
  have hlen : ¬ s6.mMdStream.buf.length < s2.mMdStream.buf.length := by
    rw [hb6 rfl, hb5 rfl]
    have e4 := hb4 rfl
    have e3 := hb3 rfl
    simp only [List.length_append]
    have : s4.mMdStream.buf.length = s3.mMdStream.buf.length := by rw [e4]
    have e3' := congrArg List.length e3
    simp only [List.length_append] at e3'
    omega
  by_cases hpos : 0 < s6.mNextBlockSeq
  · simp only [hpos, hlen, if_true, if_false, M.total_ite_iff, M.total_bind_iff,
      M.total_nextTick_iff, M.total_modify_iff, io.transmit_ok, ne_eq, not_true_eq_false,
      M.total_pure_iff]
    refine mdSetSync_inv true _ (h6.modify (by rfl) (by rfl) (by rfl) (by rfl) (by exact h6.2.2)) ?_
    intro s8 h8
    refine mdFlush_inv env io.toFileOk k _ h8 ?_
    intro s9 h9 _
    refine Sync_inv env io.toFileOk _ h9 ?_
    intro s10 h10
    simp only [M.total_get_iff]
    exact StartBlock_inv _ _ h10 hq
  · simp only [hpos, if_false, M.total_ite_iff, M.total_bind_iff, M.total_pure_iff]
    refine mdSetSync_inv true _ h6 ?_
    intro s8 h8
    refine mdFlush_inv env io.toFileOk k _ h8 ?_
    intro s9 h9 _
    refine Sync_inv env io.toFileOk _ h9 ?_
    intro s10 h10
    simp only [M.total_get_iff]
    exact StartBlock_inv _ _ h10 hq

theorem core_eq_mem {s s' : Impl} (h : s'.core = s.core) : s'.mem = s.mem := by
  have := congrArg Impl.mem h
  exact this

theorem core_eq_mem' {c s' : Impl} (h : s'.core = c) : s'.mem = c.mem := by
  have := congrArg Impl.mem h
  exact this

theorem core_eq_mNextLogSeq {s s' : Impl} (h : s'.core = s.core) : s'.mNextLogSeq = s.mNextLogSeq := by
  have := congrArg Impl.mNextLogSeq h
  exact this

theorem core_eq_mNextLogSeq' {c s' : Impl} (h : s'.core = c) : s'.mNextLogSeq = c.mNextLogSeq := by
  have := congrArg Impl.mNextLogSeq h
  exact this

theorem core_eq_mLastLogSeq {s s' : Impl} (h : s'.core = s.core) : s'.mLastLogSeq = s.mLastLogSeq := by
  have := congrArg Impl.mLastLogSeq h
  exact this

theorem core_eq_mLastLogSeq' {c s' : Impl} (h : s'.core = c) : s'.mLastLogSeq = c.mLastLogSeq := by
  have := congrArg Impl.mLastLogSeq h
  exact this

theorem core_eq_mTransmitterUpFlag {s s' : Impl} (h : s'.core = s.core) : s'.mTransmitterUpFlag = s.mTransmitterUpFlag := by
  have := congrArg Impl.mTransmitterUpFlag h
  exact this

theorem core_eq_mTransmitterUpFlag' {c s' : Impl} (h : s'.core = c) : s'.mTransmitterUpFlag = c.mTransmitterUpFlag := by
  have := congrArg Impl.mTransmitterUpFlag h
  exact this

theorem core_eq_mMaxBlockSize {s s' : Impl} (h : s'.core = s.core) : s'.mMaxBlockSize = s.mMaxBlockSize := by
  have := congrArg Impl.mMaxBlockSize h
  exact this

theorem core_eq_mMaxBlockSize' {c s' : Impl} (h : s'.core = c) : s'.mMaxBlockSize = c.mMaxBlockSize := by
  have := congrArg Impl.mMaxBlockSize h
  exact this

theorem core_eq_mOmitDefaultsFlag {s s' : Impl} (h : s'.core = s.core) : s'.mOmitDefaultsFlag = s.mOmitDefaultsFlag := by
  have := congrArg Impl.mOmitDefaultsFlag h
  exact this

theorem core_eq_mOmitDefaultsFlag' {c s' : Impl} (h : s'.core = c) : s'.mOmitDefaultsFlag = c.mOmitDefaultsFlag := by
  have := congrArg Impl.mOmitDefaultsFlag h
  exact this

theorem core_eq_mFailureSimulationInterval {s s' : Impl} (h : s'.core = s.core) : s'.mFailureSimulationInterval = s.mFailureSimulationInterval := by
  have := congrArg Impl.mFailureSimulationInterval h
  exact this

theorem core_eq_mFailureSimulationInterval' {c s' : Impl} (h : s'.core = c) : s'.mFailureSimulationInterval = c.mFailureSimulationInterval := by
  have := congrArg Impl.mFailureSimulationInterval h
  exact this

theorem core_eq_mLogRotateInterval {s s' : Impl} (h : s'.core = s.core) : s'.mLogRotateInterval = s.mLogRotateInterval := by
  have := congrArg Impl.mLogRotateInterval h
  exact this

theorem core_eq_mLogRotateInterval' {c s' : Impl} (h : s'.core = c) : s'.mLogRotateInterval = c.mLogRotateInterval := by
  have := congrArg Impl.mLogRotateInterval h
  exact this

theorem core_eq_mCommitted {s s' : Impl} (h : s'.core = s.core) : s'.mCommitted = s.mCommitted := by
  have := congrArg Impl.mCommitted h
  exact this

theorem core_eq_mCommitted' {c s' : Impl} (h : s'.core = c) : s'.mCommitted = c.mCommitted := by
  have := congrArg Impl.mCommitted h
  exact this

theorem core_eq_mPendingCommitted {s s' : Impl} (h : s'.core = s.core) : s'.mPendingCommitted = s.mPendingCommitted := by
  have := congrArg Impl.mPendingCommitted h
  exact this

theorem core_eq_mPendingCommitted' {c s' : Impl} (h : s'.core = c) : s'.mPendingCommitted = c.mPendingCommitted := by
  have := congrArg Impl.mPendingCommitted h
  exact this

theorem core_eq_mInFlightCommitted {s s' : Impl} (h : s'.core = s.core) : s'.mInFlightCommitted = s.mInFlightCommitted := by
  have := congrArg Impl.mInFlightCommitted h
  exact this

theorem core_eq_mInFlightCommitted' {c s' : Impl} (h : s'.core = c) : s'.mInFlightCommitted = c.mInFlightCommitted := by
  have := congrArg Impl.mInFlightCommitted h
  exact this

theorem core_eq_counters {s s' : Impl} (h : s'.core = s.core) : s'.counters = s.counters := by
  have := congrArg Impl.counters h
  exact this

theorem core_eq_counters' {c s' : Impl} (h : s'.core = c) : s'.counters = c.counters := by
  have := congrArg Impl.counters h
  exact this

theorem core_setSeq (s : Impl) (n : Int) (h1 : s.mNextLogSeq = n) (h2 : s.mLastLogSeq = n)
    (s' : Impl) (hc : s'.core = s.core) :
    ({ s' with mNextLogSeq := n, mLastLogSeq := n } : Impl).core = s.core := by
  have e1 : s'.mNextLogSeq = n := (core_eq_mNextLogSeq hc).trans h1
  have e2 : s'.mLastLogSeq = n := (core_eq_mLastLogSeq hc).trans h2
  rw [← hc]
  clear hc h1 h2
  cases s'
  simp only at e1 e2
  subst e1 e2
  rfl

theorem Close_core (env : Env) (io : FileOk env) {c : Impl} {s : Impl} (Q : Bool → Impl → Prop)
    (h : s.core = c)
    (hq : ∀ a s', s'.core = c → s'.mError = s.mError → s'.mMdStream = s.mMdStream →
      s'.mLogFd ≤ 0 → Q a s') :
    M.total (Close env) s Q := by
  by_cases hfd : s.mLogFd ≤ 0
  · simp only [Close, M.total_bind_iff, M.total_get_iff, hfd, if_true, M.total_pure_iff]
    exact hq _ _ h rfl rfl hfd
  · simp only [Close, M.total_bind_iff, M.total_get_iff, hfd, if_false, M.total_pure_iff,
      M.total_nextTick_iff, M.total_modify_iff, io.close_ok, beq_self_eq_true, Bool.not_true,
      Bool.false_eq_true]
    refine hq _ _ h rfl rfl ?_
    show (-1 : Int) ≤ 0
    decide

theorem NewLog_inv (env : Env) (io : IoOk env) (k : Nat) (inLogSeq : Int) {c : Impl} {s : Impl}
    (Q : Unit → Impl → Prop) (h : s.core = c) (h1 : s.mNextLogSeq = inLogSeq)
    (h2 : s.mLastLogSeq = inLogSeq) (hq : ∀ s', Inv c false s' → Q () s') :
    M.total (NewLog env (k + 2) inLogSeq) s Q := by
  subst h
  simp only [NewLog, M.total_bind_iff]
  refine Close_core env io.toFileOk _ rfl ?_
  intro _ s1 hc1 _ _ _
  have hfd : ∀ t, ¬ env.sysOpen t < 0 := fun t => not_lt.mpr (io.open_ok t)
  simp only [microseconds, DisplayIsoDateTime, SetLogName, StartBlock, mdReset, mdClear, mdSetHex,
    mdSetSync, M.total_bind_iff, M.total_nextTick_iff, M.total_pure_iff, M.total_modify_iff,
    M.total_get_iff, hfd, if_false]
  have hcore : ∀ (s2 : Impl), s2.core = s1.core →
      ({ s2 with mNextLogSeq := inLogSeq, mLastLogSeq := inLogSeq } : Impl).core = s.core := by
    intro s2 h2'
    exact core_setSeq s inLogSeq h1 h2 s2 (h2'.trans hc1)
  refine mdWrite_inv env io.toFileOk k _ _ ⟨hcore _ (by rfl), ⟨rfl, io.open_ok _, rfl⟩, rfl⟩ ?_
  intro s3 h3 _
  try simp only [M.total_bind_iff, M.total_modify_iff, M.total_get_iff]
  refine FlushBlock_inv env io k _ _ (h3.modify (by rfl) (by rfl) (by rfl) (by rfl) (by exact h3.2.2)) ?_
  intro s4 h4
  refine IsLogStreamGood_total _ h4.2.1 ?_
  simp only [if_true, M.total_modify_iff]
  refine hq _ ⟨?_, h4.2.1, h4.2.2⟩
  have e1 : s4.mNextLogSeq = s.mNextLogSeq := core_eq_mNextLogSeq h4.1
  have e2 : s4.mLastLogSeq = s.mLastLogSeq := core_eq_mLastLogSeq h4.1
  have := core_setSeq s4 s4.mLastLogSeq (by rw [e1, e2, h1, h2]) rfl s4 rfl
  rw [← h4.1]
  rw [← this]

theorem CloseLog_inv (env : Env) (io : IoOk env) (k : Nat) {c : Impl} {b : Bool} {s : Impl}
    (Q : Unit → Impl → Prop) (h : Inv c b s) (hseq : s.mLastLogSeq = s.mNextLogSeq)
    (hq : ∀ s', s'.core = c → Q () s') :
    M.total (CloseLog env (k + 2)) s Q := by
  simp only [CloseLog, M.total_bind_iff]
  refine IsLogStreamGood_total _ h.2.1 ?_
  have hne : ¬ (s.mLastLogSeq ≠ s.mNextLogSeq) := fun hh => hh hseq
  simp only [if_true, M.total_bind_iff, M.total_get_iff, hne, if_false,
    M.total_pure_iff, M.total_modify_iff, DisplayIsoDateTime, M.total_nextTick_iff]
  refine mdSetSync_inv true _ (h.modify (by rfl) (by rfl) (by rfl) (by rfl) (by exact h.2.2)) ?_
  intro s1 h1
  refine mdWrite_inv env io.toFileOk k _ _ (h1.modify (by rfl) (by rfl) (by rfl) (by rfl) (by exact h1.2.2)) ?_
  intro s2 h2 _
  refine mdWrite_inv env io.toFileOk k _ _ h2 ?_
  intro s3 h3 _
  refine mdFlush_inv env io.toFileOk k _ h3 ?_
  intro s4 h4 _
  refine Sync_inv env io.toFileOk _ h4 ?_
  intro s5 h5
  simp only [M.total_get_iff, h5.2.1.2.1, if_true, M.total_bind_iff]
  refine Close_core env io.toFileOk _ h5.1 ?_
  intro a s6 h6 _ _ _
  cases a
  · simp only [Bool.false_eq_true, if_false, M.total_pure_iff]
    exact hq _ h6
  · simp only [if_true, M.total_bind_iff, M.total_nextTick_iff, io.link_ok, ne_eq,
      not_true_eq_false, if_false, M.total_modify_iff]
    exact hq _ h6

theorem StartNextLog_inv (env : Env) (io : IoOk env) (k : Nat) {c : Impl} {b : Bool} {s : Impl}
    (Q : Unit → Impl → Prop) (h : Inv c b s) (hseq : s.mLastLogSeq = s.mNextLogSeq)
    (hq : ∀ s', Inv c false s' → Q () s') :
    M.total (StartNextLog env (k + 2)) s Q := by
  simp only [StartNextLog, M.total_bind_iff]
  refine CloseLog_inv env io k _ h hseq ?_
  intro s1 h1
  simp only [M.total_modify_iff, M.total_get_iff]
  have e1 : s1.mNextLogSeq = s.mNextLogSeq := core_eq_mNextLogSeq (h1.trans h.1.symm)
  have e2 : s1.mLastLogSeq = s.mLastLogSeq := core_eq_mLastLogSeq (h1.trans h.1.symm)
  refine NewLog_inv env io k _ _ (c := c) (by exact h1) ?_ (by rfl) hq
  show s1.mNextLogSeq = s1.mLastLogSeq
  rw [e1, e2, hseq]

/-! ## Chains are duplicate free; `assignSeq` -/

theorem isChain_unique (mem : Nat → MetaRequest) (l1 l2 : List Nat) (h : Option Nat)
    (h1 : isChain mem h l1 = true) (h2 : isChain mem h l2 = true) : l1 = l2 := by
  induction l1 generalizing h l2 with
  | nil =>
    rw [isChain_nil] at h1
    subst h1
    exact (isChain_head_nil mem l2 h2).symm
  | cons a l ih =>
    rw [isChain_cons] at h1
    cases l2 with
    | nil =>
      rw [isChain_nil] at h2
      rw [h2] at h1
      cases h1.1
    | cons b l2 =>
      rw [isChain_cons] at h2
      have hab : a = b := by
        have := h1.1.symm.trans h2.1
        exact Option.some.inj this
      subst hab
      rw [ih l2 _ h1.2 h2.2]

theorem isChain_suffix (mem : Nat → MetaRequest) (a b : List Nat) (h : Option Nat)
    (h1 : isChain mem h (a ++ b) = true) : ∃ h', isChain mem h' b = true := by
  induction a generalizing h with
  | nil => exact ⟨h, h1⟩
  | cons x a ih =>
    rw [List.cons_append, isChain_cons] at h1
    exact ih _ h1.2

theorem isChain_nodup (mem : Nat → MetaRequest) (l : List Nat) (h : Option Nat)
    (h1 : isChain mem h l = true) : l.Nodup := by
  induction l generalizing h with
  | nil => exact List.nodup_nil
  | cons p ps ih =>
    rw [isChain_cons] at h1
    refine List.nodup_cons.mpr ⟨?_, ih _ h1.2⟩
    intro hp
    obtain ⟨a, b, hab⟩ := List.append_of_mem hp
    have h2 := h1.2
    rw [hab] at h2
    obtain ⟨h', h3⟩ := isChain_suffix mem a (p :: b) _ h2
    rw [isChain_cons] at h3
    have := isChain_unique mem b ps _ h3.2 h1.2
    have hl := congrArg List.length hab
    rw [← this] at hl
    simp at hl
    omega

theorem isChain_congr (mem mem' : Nat → MetaRequest) (l : List Nat) (h : Option Nat)
    (hn : ∀ p ∈ l, (mem' p).next = (mem p).next) : isChain mem' h l = isChain mem h l := by
  induction l generalizing h with
  | nil => rfl
  | cons a l ih =>
    simp only [isChain]
    rw [hn a (List.mem_cons_self a l), ih _ (fun p hp => hn p (List.mem_cons_of_mem a hp))]

theorem assignSeq_append (mem : Nat → MetaRequest) (l1 l2 : List Nat) (n : Int) :
    assignSeq mem (l1 ++ l2) n = assignSeq (assignSeq mem l1 n).1 l2 (assignSeq mem l1 n).2 := by
  induction l1 generalizing mem n with
  | nil => rfl
  | cons p ps ih =>
    simp only [List.cons_append, assignSeq]
    split
    · exact ih _ _
    · exact ih _ _

theorem assignSeq_same (mem : Nat → MetaRequest) (l : List Nat) (n : Int) (q : Nat) :
    (assignSeq mem l n).1 q = { mem q with logseq := ((assignSeq mem l n).1 q).logseq } := by
  induction l generalizing mem n with
  | nil => rfl
  | cons p ps ih =>
    simp only [assignSeq]
    split
    · rw [ih]
      by_cases hq : q = p
      · subst hq
        simp
      · simp [Function.update_noteq hq]
    · exact ih _ _

theorem assignSeq_next (mem : Nat → MetaRequest) (l : List Nat) (n : Int) (q : Nat) :
    ((assignSeq mem l n).1 q).next = (mem q).next := by
  rw [assignSeq_same]

theorem assignSeq_op (mem : Nat → MetaRequest) (l : List Nat) (n : Int) (q : Nat) :
    ((assignSeq mem l n).1 q).op = (mem q).op := by
  rw [assignSeq_same]

theorem assignSeq_loggable (mem : Nat → MetaRequest) (l : List Nat) (n : Int) (q : Nat) :
    ((assignSeq mem l n).1 q).loggable = (mem q).loggable := by
  rw [assignSeq_same]
  rfl

theorem assignSeq_not_mem (mem : Nat → MetaRequest) (l : List Nat) (n : Int) (q : Nat)
    (hq : q ∉ l ∨ (mem q).loggable = false) : (assignSeq mem l n).1 q = mem q := by
  induction l generalizing mem n with
  | nil => rfl
  | cons p ps ih =>
    simp only [assignSeq]
    split
    · rename_i hp
      have hne : q ≠ p := by
        rintro rfl
        rcases hq with hq | hq
        · exact hq (List.mem_cons_self _ _)
        · rw [hq] at hp
          cases hp
      rw [ih]
      · exact Function.update_noteq hne _ _
      · rcases hq with hq | hq
        · exact Or.inl (fun h => hq (List.mem_cons_of_mem _ h))
        · right
          rw [Function.update_noteq hne]
          exact hq
    · apply ih
      rcases hq with hq | hq
      · exact Or.inl (fun h => hq (List.mem_cons_of_mem _ h))
      · exact Or.inr hq

theorem assignSeq_filter_congr (mem : Nat → MetaRequest) (p : Nat) (r : MetaRequest)
    (ps : List Nat) (hp : p ∉ ps) :
    ps.filter (fun q => (Function.update mem p r q).loggable) =
      ps.filter (fun q => (mem q).loggable) := by
  apply List.filter_congr
  intro q hq
  have : q ≠ p := fun e => hp (e ▸ hq)
  rw [Function.update_noteq this]

theorem assignSeq_spec (mem : Nat → MetaRequest) (l : List Nat) (n : Int) (hnd : l.Nodup) :
    (assignSeq mem l n).2 = n + (l.filter (fun p => (mem p).loggable)).length ∧
    (l.filter (fun p => (mem p).loggable)).map (fun p => ((assignSeq mem l n).1 p).logseq) =
      (List.range (l.filter (fun p => (mem p).loggable)).length).map
        (fun (i : Nat) => n + 1 + (i : Int)) := by
  induction l generalizing mem n with
  | nil => simp [assignSeq]
  | cons p ps ih =>
    have hp : p ∉ ps := (List.nodup_cons.mp hnd).1
    have hps : ps.Nodup := (List.nodup_cons.mp hnd).2
    simp only [assignSeq]
    by_cases hl : (mem p).loggable = true
    · simp only [hl, if_true, List.filter_cons_of_pos, List.length_cons, List.map_cons]
      obtain ⟨ih1, ih2⟩ := ih (Function.update mem p { mem p with logseq := n + 1 }) (n + 1) hps
      rw [assignSeq_filter_congr mem p _ ps hp] at ih1 ih2
      refine ⟨?_, ?_⟩
      · rw [ih1]
        push_cast
        ring
      · rw [List.range_succ_eq_map, List.map_cons, List.map_map]
        congr 1
        · rw [assignSeq_not_mem _ _ _ _ (Or.inl hp)]
          simp
        · rw [ih2]
          apply List.map_congr_left
          intro i _
          simp only [Function.comp_apply]
          push_cast
          ring
    · simp only [hl, Bool.false_eq_true, if_false]
      rw [List.filter_cons_of_neg (by simpa using hl)]
      exact ih mem n hps

/-! ## `Write` when all I/O succeeds -/

theorem IsSimulateFailure_total (env : Env) {c : Impl} {b : Bool} {s : Impl}
    (Q : Bool → Impl → Prop) (h : Inv c b s) (hsim : NoSimulatedFailure env s)
    (hq : ∀ s', Inv c b s' → Q false s') : M.total (IsSimulateFailure env) s Q := by
  by_cases hi : 0 < s.mFailureSimulationInterval
  · have := hsim s.tick
    simp only [hi, true_and] at this
    simp only [IsSimulateFailure, M.total_bind_iff, M.total_get_iff, hi, if_true,
      M.total_nextTick_iff, M.total_pure_iff, beq_eq_false_iff_ne.mpr this]
    exact hq _ (h.modify (by rfl) (by rfl) (by rfl) (by rfl) (by exact h.2.2))
  · simp only [IsSimulateFailure, M.total_bind_iff, M.total_get_iff, hi, if_false,
      M.total_pure_iff]
    exact hq _ h

theorem WriteInner_ok (env : Env) (io : FileOk env) (k : Nat) :
    ∀ (n : Nat) (l : List Nat) (head : Option Nat) (s : Impl) (eb : Int)
      (Q : Option Nat × Option Nat → Impl → Prop),
      l.length < n → isChain s.mem head l = true → Good s → s.mMdStream.sync = false →
      (∀ p ∈ l, (s.mem p).op ≠ MetaOp.META_LOG_WRITER_CONTROL) →
      (∀ r s', (∃ l1 l2, l = l1 ++ l2 ∧ (l ≠ [] → l1 ≠ []) ∧ r.2 = none ∧
          isChain s'.mem (endPtrOf s'.mem r.1) l2 = true ∧
          Inv { s.core with
                mem := (assignSeq s.mem l1 s.mLastLogSeq).1
                mLastLogSeq := (assignSeq s.mem l1 s.mLastLogSeq).2 } false s') → Q r s') →
      M.total (WriteInner env (k + 2) n head eb false true) s Q := by
  intro n
  induction n with
  | zero =>
    intro l head s eb Q hlen
    omega
  | succ n ih =>
    intro l head s eb Q hlen hch hg hsync hctl hq
    cases l with
    | nil =>
      rw [isChain_nil] at hch
      subst hch
      simp only [WriteInner, M.total_pure_iff]
      exact hq _ _ ⟨[], [], rfl, fun h => h, rfl, rfl, rfl, hg, hsync⟩
    | cons p ps =>
      rw [isChain_cons] at hch
      obtain ⟨hh, hch⟩ := hch
      subst hh
      have hop := hctl p (List.mem_cons_self _ _)
      have hf := hg.2.2
      have hchain1 : ∀ s1 : Impl, s1.mem = (assignSeq s.mem [p] s.mLastLogSeq).1 →
          isChain s1.mem (s1.mem p).next ps = true := by
        intro s1 hm
        rw [hm, assignSeq_next, isChain_congr s.mem _ ps _ (fun q _ => assignSeq_next _ _ _ _)]
        exact hch
      have hbreak : ∀ s1 : Impl,
          Inv { s.core with
                mem := (assignSeq s.mem [p] s.mLastLogSeq).1
                mLastLogSeq := (assignSeq s.mem [p] s.mLastLogSeq).2 } false s1 →
          Q (some p, none) s1 := by
        intro s1 h1
        refine hq _ _ ⟨[p], ps, rfl, fun _ => by simp, rfl, ?_, h1⟩
        exact hchain1 s1 (core_eq_mem' h1.1)
      have hcont : ∀ s1 : Impl,
          Inv { s.core with
                mem := (assignSeq s.mem [p] s.mLastLogSeq).1
                mLastLogSeq := (assignSeq s.mem [p] s.mLastLogSeq).2 } false s1 →
          M.total (WriteInner env (k + 2) n (s1.mem p).next eb false true) s1 Q := by
        intro s1 h1
        have hm : s1.mem = (assignSeq s.mem [p] s.mLastLogSeq).1 := core_eq_mem' h1.1
        have hk : s1.mLastLogSeq = (assignSeq s.mem [p] s.mLastLogSeq).2 := core_eq_mLastLogSeq' h1.1
        refine ih ps _ s1 eb Q (by simpa using hlen) (hchain1 s1 hm) h1.2.1 h1.2.2 ?_ ?_
        · intro q hq'
          rw [hm, assignSeq_op]
          exact hctl q (List.mem_cons_of_mem _ hq')
        · rintro r s' ⟨l1, l2, hl, -, hr, hc2, hi⟩
          refine hq _ _ ⟨p :: l1, l2, by rw [hl]; rfl, fun _ => by simp, hr, hc2, ?_⟩
          have e : assignSeq s.mem (p :: l1) s.mLastLogSeq =
              assignSeq s1.mem l1 s1.mLastLogSeq := by
            rw [hm, hk]
            exact assignSeq_append s.mem [p] l1 s.mLastLogSeq
          rw [e]
          refine ⟨?_, hi.2.1, hi.2.2⟩
          rw [hi.1, h1.1]
      by_cases hl : (s.mem p).loggable = true
      · have hassign : assignSeq s.mem [p] s.mLastLogSeq =
            (Function.update s.mem p { s.mem p with logseq := s.mLastLogSeq + 1 },
              s.mLastLogSeq + 1) := by
          simp [assignSeq, hl]
        rw [hassign] at hbreak hcont
        simp only [WriteInner, M.total_bind_iff, M.total_get_iff, hop, if_false, hf, Bool.not_true,
          Bool.or_self, Bool.false_eq_true, hl, if_true, M.total_modify_iff, Impl.setReq,
          M.total_pure_iff]
        refine mdWrite_inv env io k _ _ (c := _) (b := false) ⟨rfl, hg, hsync⟩ ?_
        intro s1 h1 _
        simp only [(io.writeLog_ok _ _).1, (io.writeLog_ok _ _).2, Bool.not_true, Bool.or_false,
          Bool.false_eq_true, if_false, M.total_pure_iff, M.total_bind_iff, M.total_modify_iff,
          M.total_get_iff, h1.2.1.2.2, M.total_ite_iff]
        have h1' : Inv { s.core with
            mem := Function.update s.mem p { s.mem p with logseq := s.mLastLogSeq + 1 }
            mLastLogSeq := s.mLastLogSeq + 1 } false
            { s1 with mMdStream := { s1.mMdStream with fail := false } } :=
          h1.modify (by rfl) (by rfl) (by rfl) (by exact h1.2.1.2.2.symm) (by exact h1.2.2)
        split_ifs
        · exact hbreak _ h1'
        · exact hbreak _ h1'
        · exact hcont _ h1'
      · have hassign : assignSeq s.mem [p] s.mLastLogSeq = (s.mem, s.mLastLogSeq) := by
          simp [assignSeq, hl]
        rw [hassign] at hbreak hcont
        have h0 : Inv { s.core with mem := s.mem, mLastLogSeq := s.mLastLogSeq } false s :=
          ⟨rfl, hg, hsync⟩
        simp only [WriteInner, M.total_bind_iff, M.total_get_iff, hop, if_false, hf, Bool.not_true,
          Bool.or_self, Bool.false_eq_true, hl, M.total_pure_iff, M.total_ite_iff]
        split_ifs
        · exact hbreak _ h0
        · exact hbreak _ h0
        · exact hcont _ h0

theorem endPtrOf_eq (mem : Nat → MetaRequest) (o : Option Nat) :
    (match o with
      | some p => (mem p).next
      | none => none) = endPtrOf mem o := by
  cases o <;> rfl

theorem WriteBatches_ok (env : Env) (io : IoOk env) (k : Nat) :
    ∀ (n : Nat) (l : List Nat) (head : Option Nat) (s : Impl) (Q : Unit → Impl → Prop),
      l.length < n → l.length < k + 2 → isChain s.mem head l = true → Good s →
      s.mMdStream.sync = false → s.mTransmitterUpFlag = true → NoSimulatedFailure env s →
      (∀ p ∈ l, (s.mem p).op ≠ MetaOp.META_LOG_WRITER_CONTROL) →
      (l = [] → s.mLastLogSeq = s.mNextLogSeq) →
      (∀ s', Inv { s.core with
                   mem := (assignSeq s.mem l s.mNextLogSeq).1
                   mNextLogSeq := (assignSeq s.mem l s.mNextLogSeq).2
                   mLastLogSeq := (assignSeq s.mem l s.mNextLogSeq).2 } false s' → Q () s') →
      M.total (WriteBatches env (k + 2) n head) s Q := by
  intro n
  induction n with
  | zero =>
    intro l head s Q hlen
    omega
  | succ n ih =>
    intro l head s Q hlen hlenk hch hg hsync hup hsim hctl hseq hq
    cases l with
    | nil =>
      rw [isChain_nil] at hch
      subst hch
      simp only [WriteBatches, M.total_pure_iff]
      refine hq _ ⟨?_, hg, hsync⟩
      exact (core_setSeq s s.mNextLogSeq rfl (hseq rfl) s rfl).symm
    | cons p ps =>
      have hch0 := hch
      rw [isChain_cons] at hch
      obtain ⟨hh, -⟩ := hch
      subst hh
      simp only [WriteBatches, M.total_bind_iff, M.total_modify_iff, M.total_get_iff]
      refine IsSimulateFailure_total env _ (c := _) (b := false) ⟨rfl, hg, hsync⟩ hsim ?_
      intro s1 h1
      have hm1 : s1.mem = s.mem := by
        have := core_eq_mem' h1.1
        exact this
      have hk1 : s1.mLastLogSeq = s.mNextLogSeq := by
        have := core_eq_mLastLogSeq' h1.1
        exact this
      rw [hup]
      refine WriteInner_ok env io.toFileOk k (k + 2) (p :: ps) (some p) s1 _ _ hlenk
        (by rw [hm1]; exact hch0) h1.2.1 h1.2.2 (by rw [hm1]; exact hctl) ?_
      rintro r s2 ⟨l1, l2, hl, hne, hr, hc2, h2⟩
      rw [hm1, hk1] at h2
      have hm2 : s2.mem = (assignSeq s.mem l1 s.mNextLogSeq).1 := by
        have := core_eq_mem' h2.1
        exact this
      have hk2 : s2.mLastLogSeq = (assignSeq s.mem l1 s.mNextLogSeq).2 := by
        have := core_eq_mLastLogSeq' h2.1
        exact this
      have hup2 : s2.mTransmitterUpFlag = true := by
        have e2 := core_eq_mTransmitterUpFlag' h2.1
        have e1 := core_eq_mTransmitterUpFlag' h1.1
        exact e2.trans (e1.trans hup)
      have hfs2 : s2.mFailureSimulationInterval = s.mFailureSimulationInterval := by
        have e2 := core_eq_mFailureSimulationInterval' h2.1
        have e1 := core_eq_mFailureSimulationInterval' h1.1
        exact e2.trans e1
      have hl1 : l1 ≠ [] := hne (by simp)
      have hlen2 : l2.length < (p :: ps).length := by
        rw [hl, List.length_append]
        have := List.length_pos.mpr hl1
        omega
      have key : ∀ s3 : Impl, s3.core = s2.core → Good s3 → s3.mMdStream.sync = false →
          M.total (WriteBatches env (k + 2) n (endPtrOf s2.mem r.1))
            { s3 with mNextLogSeq := s3.mLastLogSeq } Q := by
        intro s3 hc3 hg3 hs3
        have hm3 : s3.mem = s2.mem := core_eq_mem hc3
        have hk3 : s3.mLastLogSeq = s2.mLastLogSeq := core_eq_mLastLogSeq hc3
        refine ih l2 _ _ Q (by omega) (by omega) ?_ hg3 hs3 ?_ ?_ ?_ (fun _ => rfl) ?_
        · show isChain s3.mem _ l2 = true
          rw [hm3]
          exact hc2
        · show s3.mTransmitterUpFlag = true
          rw [core_eq_mTransmitterUpFlag hc3]
          exact hup2
        · intro t
          show ¬ (0 < s3.mFailureSimulationInterval ∧ _)
          rw [core_eq_mFailureSimulationInterval hc3, hfs2]
          exact hsim t
        · intro q hq
          show (s3.mem q).op ≠ _
          rw [hm3, hm2, assignSeq_op]
          exact hctl q (by rw [hl]; exact List.mem_append_right _ hq)
        · intro s' h'
          apply hq
          have e : ({ s3 with mNextLogSeq := s3.mLastLogSeq } : Impl).core =
              { s.core with
                mem := (assignSeq s.mem l1 s.mNextLogSeq).1
                mNextLogSeq := (assignSeq s.mem l1 s.mNextLogSeq).2
                mLastLogSeq := (assignSeq s.mem l1 s.mNextLogSeq).2 } := by
            have e0 : ({ s3 with mNextLogSeq := s3.mLastLogSeq } : Impl).core =
                { s3.core with mNextLogSeq := s3.mLastLogSeq } := rfl
            rw [e0, hc3, hk3, hk2, h2.1, h1.1]
            rfl
          have h'' := h'
          rw [show ({ s3 with mNextLogSeq := s3.mLastLogSeq } : Impl).mem = s3.mem from rfl,
            show ({ s3 with mNextLogSeq := s3.mLastLogSeq } : Impl).mNextLogSeq = s3.mLastLogSeq
              from rfl, e, hm3, hm2, hk3, hk2] at h''
          rw [hl, assignSeq_append]
          exact h''
      simp only [M.total_bind_iff, M.total_get_iff, endPtrOf_eq, and_true, hr, M.total_pure_iff,
        M.total_ite_iff]
      split_ifs with hlt
      · refine IsLogStreamGood_total _ h2.2.1 ?_
        simp only [if_true]
        refine FlushBlock_inv env io k _ _ h2 ?_
        intro s3 h3
        refine IsLogStreamGood_total _ h3.2.1 ?_
        simp only [Bool.not_false, Bool.and_self, if_true, M.total_modify_iff]
        exact key s3 (h3.1.trans h2.1.symm) h3.2.1 h3.2.2
      · refine IsLogStreamGood_total _ h2.2.1 ?_
        simp only [Bool.not_false, Bool.and_self, if_true, M.total_modify_iff]
        exact key s2 rfl h2.2.1 h2.2.2

theorem Write_ok (env : Env) (io : IoOk env) (k : Nat) (head : Nat) (l : List Nat) (s : Impl)
    (Q : Unit → Impl → Prop) (hlen : l.length < k + 2)
    (hch : isChain s.mem (some head) l = true) (hg : Good s)
    (hup : s.mTransmitterUpFlag = true) (hsim : NoSimulatedFailure env s)
    (hctl : ∀ p ∈ l, (s.mem p).op ≠ MetaOp.META_LOG_WRITER_CONTROL)
    (hq : ∀ s', Inv { s.core with
                      mem := (assignSeq s.mem l s.mNextLogSeq).1
                      mNextLogSeq := (assignSeq s.mem l s.mNextLogSeq).2
                      mLastLogSeq := (assignSeq s.mem l s.mNextLogSeq).2 } false s' → Q () s') :
    M.total (Write env (k + 2) head) s Q := by
  have hne : l ≠ [] := by
    rintro rfl
    simp [isChain] at hch
  simp only [Write, M.total_bind_iff]
  refine IsLogStreamGood_total _ hg ?_
  simp only [Bool.not_true, Bool.false_eq_true, if_false, M.total_pure_iff, M.total_bind_iff]
  refine mdSetSync_inv false (c := s.core) (b := s.mMdStream.sync) _ ⟨rfl, hg, rfl⟩ ?_
  intro s1 h1
  have hm1 : s1.mem = s.mem := core_eq_mem h1.1
  have hn1 : s1.mNextLogSeq = s.mNextLogSeq := core_eq_mNextLogSeq h1.1
  refine WriteBatches_ok env io k (k + 2) l (some head) s1 _ hlen hlen (by rw [hm1]; exact hch)
    h1.2.1 h1.2.2 (by rw [core_eq_mTransmitterUpFlag h1.1]; exact hup) ?_
    (by rw [hm1]; exact hctl) (fun e => absurd e hne) ?_
  · intro t
    rw [core_eq_mFailureSimulationInterval h1.1]
    exact hsim t
  intro s2 h2
  rw [h1.1, hm1, hn1] at h2
  simp only [M.total_get_iff, M.total_ite_iff]
  split_ifs with hrot
  · simp only [M.total_bind_iff]
    refine IsLogStreamGood_total _ h2.2.1 ?_
    simp only [if_true, microseconds, M.total_bind_iff, M.total_nextTick_iff, M.total_pure_iff,
      M.total_ite_iff]
    have h3 : Inv _ false { s2 with tick := s2.tick + 1 } :=
      h2.modify (by rfl) (by rfl) (by rfl) (by rfl) (by exact h2.2.2)
    split_ifs with hdue
    · refine StartNextLog_inv env io k _ h3 ?_ hq
      show s2.mLastLogSeq = s2.mNextLogSeq
      rw [core_eq_mLastLogSeq' h2.1, core_eq_mNextLogSeq' h2.1]
    · exact hq _ h3
  · simp only [M.total_pure_iff]
    exact hq _ h2

theorem envOk_fileOk : FileOk envOk :=
  ⟨fun _ => (by decide : (0 : Int) ≤ 3), fun _ _ => rfl, fun _ => rfl, fun _ => rfl, fun _ => rfl,
    fun _ _ => ⟨rfl, rfl⟩⟩

theorem envOk_ioOk : IoOk envOk :=
  ⟨envOk_fileOk, fun _ _ => rfl⟩

/-- C1: a `Write` call on a queue `l` without control requests, with the
transmitter up, the stream good, no simulated failure and all I/O succeeding,
returns; the loggable requests of `l`, in queue order, have received the log
sequences `n + 1, n + 2, ..., n + k` (`n` the value of `mNextLogSeq` before the
call, `k` their number); `mNextLogSeq = mLastLogSeq = n + k` afterwards; and
the log sequence of every request that is not loggable is unchanged. -/
theorem Write_assigns_consecutive (env : Env) (io : IoOk env) (fuel head : Nat) (l : List Nat)
    (s : Impl) (hfuel : l.length < fuel)
    (hch : isChain s.mem (some head) l = true)
    (hctl : ∀ p ∈ l, (s.mem p).op ≠ MetaOp.META_LOG_WRITER_CONTROL)
    (hup : s.mTransmitterUpFlag = true) (hg : Good s) (hsim : NoSimulatedFailure env s) :
    ∃ s', Write env fuel head s = Res.ok () s' ∧
      (l.filter fun p => (s.mem p).loggable).map (fun p => (s'.mem p).logseq) =
        (List.range (l.filter fun p => (s.mem p).loggable).length).map
          (fun (i : Nat) => s.mNextLogSeq + 1 + (i : Int)) ∧
      s'.mNextLogSeq = s.mNextLogSeq + (l.filter fun p => (s.mem p).loggable).length ∧
      s'.mLastLogSeq = s.mNextLogSeq + (l.filter fun p => (s.mem p).loggable).length ∧
      ∀ p, (s.mem p).loggable = false → (s'.mem p).logseq = (s.mem p).logseq := by
  have hne : l ≠ [] := by
    rintro rfl
    simp [isChain] at hch
  obtain ⟨k, rfl⟩ : ∃ k, fuel = k + 2 := by
    have := List.length_pos.mpr hne
    exact ⟨fuel - 2, by omega⟩
  have hnd : l.Nodup := isChain_nodup s.mem l _ hch
  obtain ⟨a, s', hrun, hs'⟩ := Write_ok env io k head l s
    (fun _ s' => Inv { s.core with
                      mem := (assignSeq s.mem l s.mNextLogSeq).1
                      mNextLogSeq := (assignSeq s.mem l s.mNextLogSeq).2
                      mLastLogSeq := (assignSeq s.mem l s.mNextLogSeq).2 } false s')
    hfuel hch hg hup hsim hctl (fun _ h => h)
  have hm : s'.mem = (assignSeq s.mem l s.mNextLogSeq).1 := by
    have := core_eq_mem' hs'.1
    exact this
  have hn : s'.mNextLogSeq = (assignSeq s.mem l s.mNextLogSeq).2 := by
    have := core_eq_mNextLogSeq' hs'.1
    exact this
  have hk : s'.mLastLogSeq = (assignSeq s.mem l s.mNextLogSeq).2 := by
    have := core_eq_mLastLogSeq' hs'.1
    exact this
  obtain ⟨sp1, sp2⟩ := assignSeq_spec s.mem l s.mNextLogSeq hnd
  refine ⟨s', hrun, ?_, ?_, ?_, ?_⟩
  · rw [hm]
    exact sp2
  · rw [hn, sp1]
  · rw [hk, sp1]
  · intro p hp
    rw [hm, assignSeq_not_mem _ _ _ _ (Or.inr hp)]

theorem Write_assigns_consecutive_witness :
    ∃ s', Write envOk 5 1 stateWrite = Res.ok () s' ∧
      ([1, 2, 3].filter fun p => (stateWrite.mem p).loggable).map (fun p => (s'.mem p).logseq) =
        (List.range ([1, 2, 3].filter fun p => (stateWrite.mem p).loggable).length).map
          (fun (i : Nat) => stateWrite.mNextLogSeq + 1 + (i : Int)) ∧
      s'.mNextLogSeq =
        stateWrite.mNextLogSeq + ([1, 2, 3].filter fun p => (stateWrite.mem p).loggable).length ∧
      s'.mLastLogSeq =
        stateWrite.mNextLogSeq + ([1, 2, 3].filter fun p => (stateWrite.mem p).loggable).length ∧
      ∀ p, (stateWrite.mem p).loggable = false → (s'.mem p).logseq = (stateWrite.mem p).logseq :=
  Write_assigns_consecutive envOk envOk_ioOk 5 1 [1, 2, 3] stateWrite (by decide) (by decide)
    (by decide) rfl ⟨rfl, by decide, rfl⟩ (fun _ h => absurd h.1 (by decide))

theorem IoOk.fileOk {env : Env} (io : IoOk env) : FileOk env := io.toFileOk

theorem appendToFd_files (s : Impl) (fd : Int) (data : Bytes) :
    appendToFd s fd data = { s with files := (appendToFd s fd data).files } := by
  unfold appendToFd
  cases s.fds fd <;> rfl

theorem appendToFd_files_congr (s s' : Impl) (fd : Int) (data : Bytes) (h1 : s'.fds = s.fds)
    (h2 : s'.files = s.files) : (appendToFd s' fd data).files = (appendToFd s fd data).files := by
  unfold appendToFd
  rw [h1]
  cases s.fds fd with
  | none => exact h2
  | some name =>
    show Function.update s'.files _ _ = Function.update s.files _ _
    rw [h2]

theorem mdWrite_nosync_total (env : Env) (fuel : Nat) (data : Bytes) {s : Impl}
    (Q : Unit → Impl → Prop) (hf : s.mMdStream.fail = false) (hs : s.mMdStream.sync = false)
    (hq : Q () { s with mMdStream :=
          { s.mMdStream with
            buf := s.mMdStream.buf ++ data
            bufSize := max s.mMdStream.bufSize (s.mMdStream.buf ++ data).length
            md := s.mMdStream.md ++ data } }) :
    M.total (mdWrite env fuel data) s Q :=
  ⟨_, _, mdWrite_nosync env fuel data s hf hs, hq⟩

theorem mdFlush_nosync_total (env : Env) (fuel : Nat) {s : Impl}
    (Q : Unit → Impl → Prop) (hs : s.mMdStream.sync = false) (hq : Q () s) :
    M.total (mdFlush env fuel) s Q :=
  ⟨_, _, mdFlush_nosync env fuel s hs, hq⟩

/-- `mdFlush` in sync mode on a good stream with a non-empty window, outside a
checksummed block: the window goes to the file. -/
theorem mdFlush_sync_total (env : Env) (io : FileOk env) (k : Nat) {s : Impl}
    (Q : Unit → Impl → Prop) (hg : Good s) (hs : s.mMdStream.sync = true)
    (hb : s.mMdStream.buf ≠ []) (hw : s.mWriteState = WriteState.kWriteStateNone)
    (hq : Q () { s with
      tick := s.tick + 1
      files := (appendToFd s s.mLogFd s.mMdStream.buf).files
      mMdStream := { s.mMdStream with buf := [] } }) :
    M.total (mdFlush env (k + 2)) s Q := by
  obtain ⟨he, hfd, hf⟩ := hg
  have hlen : 0 < s.mMdStream.buf.length := List.length_pos.mpr hb
  have hnn : ¬ ((s.mMdStream.buf.length : Int) < 0) := by omega
  have hemp : s.mMdStream.buf.isEmpty = false := by
    cases hbuf : s.mMdStream.buf with
    | nil => exact absurd hbuf hb
    | cons a l => rfl
  have hw' : ¬ (s.mWriteState = WriteState.kUpdateBlockChecksum) := by
    rw [hw]
    decide
  simp only [mdFlush, mdSyncSelf, write, flush, M.total_bind_iff, M.total_get_iff, hf, hs, hemp,
    Bool.false_eq_true, if_false, if_true, Bool.not_true, M.total_pure_iff, hw', hlen,
    M.total_modify_iff]
  refine IsLogStreamGood_total _ ⟨he, hfd, hf⟩ ?_
  simp only [if_true, M.total_bind_iff]
  refine writeLoop_total env io k _ _ hlen _ ?_
  simp only [hnn, if_false, M.total_pure_iff, M.total_bind_iff]
  rw [appendToFd_files]
  refine IsLogStreamGood_total _ ⟨he, hfd, hf⟩ ?_
  simp only [Bool.not_true, Bool.or_false]
  refine IsLogStreamGood_total _ ⟨he, hfd, hf⟩ ?_
  simp only [Bool.not_true, Bool.or_false]
  have e := appendToFd_files_congr s { s with tick := s.tick + 1 } s.mLogFd s.mMdStream.buf rfl rfl
  rw [e]
  exact hq

theorem Sync_total (env : Env) (io : FileOk env) {s : Impl} (Q : Unit → Impl → Prop)
    (hfd : 0 ≤ s.mLogFd)
    (hq : Q () { s with tick := s.tick + (if s.mSyncFlag then 1 else 0) }) :
    M.total (Sync env) s Q := by
  have hfd' : ¬ s.mLogFd < 0 := not_lt.mpr hfd
  by_cases h : s.mSyncFlag = true
  · have key : (if s.mSyncFlag = true then 1 else 0) = 1 := if_pos h
    rw [key] at hq
    have hc : ¬ (s.mLogFd < 0 ∨ (! s.mSyncFlag) = true) := by simp [h, hfd]
    simp only [Sync, M.total_bind_iff, M.total_get_iff, hc, if_false, M.total_nextTick_iff,
      io.fsync_ok, ne_eq, not_true_eq_false, M.total_pure_iff]
    exact hq
  · have key : (if s.mSyncFlag = true then 1 else 0) = 0 := if_neg h
    rw [key] at hq
    have hc : s.mLogFd < 0 ∨ (! s.mSyncFlag) = true := Or.inr (by simpa using h)
    simp only [Sync, M.total_bind_iff, M.total_get_iff, hc, if_true, M.total_pure_iff]
    exact hq

theorem take_length_append3 {α : Type} (x y z : List α) : ((x ++ y) ++ z).take x.length = x := by
  rw [List.append_assoc, List.take_left]

theorem not_length_append3_lt {α : Type} (x y z : List α) :
    ¬ ((x ++ y) ++ z).length < x.length := by
  simp only [List.length_append]
  omega

theorem commitLine_eq (env : Env) (s : Impl) (inLogSeq : Int) :
    "c/".toList ++ env.showInt s.mMdStream.hex s.mInFlightCommitted.mSeq ++
      "/".toList ++ env.showInt s.mMdStream.hex s.mInFlightCommitted.mFidSeed ++
      "/".toList ++ env.showInt s.mMdStream.hex s.mInFlightCommitted.mErrChkSum ++
      "/".toList ++ env.showInt s.mMdStream.hex s.mInFlightCommitted.mStatus ++
      "/".toList ++ env.showInt s.mMdStream.hex inLogSeq ++ "/".toList =
    commitLine env s inLogSeq := rfl

theorem blockSeqText_eq (env : Env) (s : Impl) :
    env.showInt s.mMdStream.hex (s.mNextBlockSeq + 1) ++ "/".toList = blockSeqText env s := rfl

theorem txChecksum_eq (env : Env) (s : Impl) (inLogSeq : Int) :
    env.ComputeBlockChecksum s.mBlockChecksum (s.mMdStream.buf ++ commitLine env s inLogSeq) =
      txChecksum env s inLogSeq := rfl

theorem trailerChecksum_eq (env : Env) (s : Impl) (inLogSeq : Int) :
    env.ComputeBlockChecksum (txChecksum env s inLogSeq) (blockSeqText env s) =
      trailerChecksum env s inLogSeq := rfl

theorem blockTrailer_eq (env : Env) (s : Impl) (inLogSeq : Int) :
    blockTrailer env s inLogSeq = commitLine env s inLogSeq ++ blockSeqText env s ++
      env.showInt s.mMdStream.hex (trailerChecksum env s inLogSeq) ++ "\n".toList := rfl

theorem FlushBlock_total (env : Env) (io : FileOk env) (k : Nat) (inLogSeq : Int) {s : Impl}
    (Q : Unit → Impl → Prop) (hg : Good s) (hs : s.mMdStream.sync = false)
    (hq : Q () (afterFlushBlock env s inLogSeq)) :
    M.total (FlushBlock env (k + 2) inLogSeq) s Q := by
  obtain ⟨he, hfd, hf⟩ := hg
  simp only [FlushBlock, M.total_bind_iff, M.total_modify_iff, M.total_get_iff]
  refine mdWrite_nosync_total env _ _ _ hf hs ?_
  refine mdFlush_nosync_total env _ _ hs ?_
  simp only [M.total_bind_iff, M.total_modify_iff, M.total_get_iff]
  refine mdWrite_nosync_total env _ _ _ hf hs ?_
  refine mdFlush_nosync_total env _ _ hs ?_
  simp only [M.total_bind_iff, M.total_modify_iff, M.total_get_iff]
  refine mdWrite_nosync_total env _ _ _ hf hs ?_
  refine mdFlush_nosync_total env _ _ hs ?_
  simp only [M.total_bind_iff, M.total_modify_iff, M.total_get_iff, showInt, List.take_length,
    List.drop_left, take_length_append3, not_length_append3_lt, if_false, M.total_ite_iff,
    M.total_nextTick_iff, M.total_pure_iff, mdSetSync]
  simp only [commitLine_eq, blockSeqText_eq, txChecksum_eq, trailerChecksum_eq]
  have tail : ∀ s1 : Impl, Good s1 → s1.mMdStream.sync = true → s1.mMdStream.buf ≠ [] →
      s1.mWriteState = WriteState.kWriteStateNone →
      Q () { s1 with
        tick := s1.tick + 1 + (if s1.mSyncFlag then 1 else 0)
        files := (appendToFd s1 s1.mLogFd s1.mMdStream.buf).files
        mMdStream := { s1.mMdStream with buf := [], sync := false }
        mWriteState := WriteState.kUpdateBlockChecksum
        mBlockChecksum := s1.mNextBlockChecksum } →
      M.total (mdFlush env (k + 2)) s1 (fun _ s' => M.total (Sync env) s'
        (fun _ s' => M.total (StartBlock s'.mNextBlockChecksum) s' Q)) := by
    intro s1 hg1 hs1 hb1 hw1 hq1
    refine mdFlush_sync_total env io k _ hg1 hs1 hb1 hw1 ?_
    refine Sync_total env io _ hg1.2.1 ?_
    simp only [StartBlock, mdSetSync, M.total_bind_iff, M.total_modify_iff]
    exact hq1
  have hq' := hq
  unfold afterFlushBlock transmits txBlock at hq'
  rw [blockTrailer_eq] at hq'
  generalize commitLine env s inLogSeq = C at hq' ⊢
  generalize blockSeqText env s = S at hq' ⊢
  generalize env.showInt s.mMdStream.hex (trailerChecksum env s inLogSeq) = K at hq' ⊢
  have hmd : ∀ (b : Nat) (B md : Bytes) (h : Bool) (f : Bool),
      ({ buf := [], bufSize := max (max (max b (B ++ C).length) (B ++ C ++ S).length)
            (B ++ C ++ S ++ (K ++ "\n".toList)).length,
          sync := false, fail := f, hex := h, md := md ++ C ++ S ++ (K ++ "\n".toList) } : MdStream) =
        { buf := [], bufSize := max b (B ++ (C ++ S ++ K ++ "\n".toList)).length,
          sync := false, fail := f, hex := h, md := md ++ (C ++ S ++ K ++ "\n".toList) } := by
    intro b B md h f
    simp only [List.append_assoc, List.length_append, MdStream.mk.injEq, true_and, and_true]
    omega
  have hfiles : ∀ s1 : Impl, s1.fds = s.fds → s1.files = s.files → s1.mLogFd = s.mLogFd →
      (appendToFd s1 s1.mLogFd (s.mMdStream.buf ++ C ++ S ++ (K ++ "\n".toList))).files =
        (appendToFd s s.mLogFd (s.mMdStream.buf ++ (C ++ S ++ K ++ "\n".toList))).files := by
    intro s1 e1 e2 e3
    rw [e3, appendToFd_files_congr s s1 _ _ e1 e2]
    simp only [List.append_assoc]
  split_ifs with h1 h2
  · refine tail _ ⟨he, hfd, hf⟩ rfl (by simp) rfl ?_
    simp only [h1, decide_True, if_true, h2, ne_eq, not_false_eq_true, and_self] at hq'
    convert hq' using 2
    all_goals first | exact hmd _ _ _ _ _ | exact hfiles _ rfl rfl rfl
  · refine tail _ ⟨he, hfd, hf⟩ rfl (by simp) rfl ?_
    simp only [h1, decide_True, if_true, h2, ne_eq, not_false_eq_true, and_self, and_false,
      if_false] at hq'
    convert hq' using 2
    all_goals first | exact hmd _ _ _ _ _ | exact hfiles _ rfl rfl rfl
  · refine tail _ ⟨he, hfd, hf⟩ rfl (by simp) rfl ?_
    simp only [h1, decide_False, if_true, ne_eq, not_false_eq_true, and_self, false_and,
      Bool.false_eq_true, if_false, add_zero] at hq'
    convert hq' using 2
    all_goals first | exact hmd _ _ _ _ _ | exact hfiles _ rfl rfl rfl

theorem FlushBlock_eq (env : Env) (io : FileOk env) (k : Nat) (inLogSeq : Int) (s : Impl)
    (hg : Good s) (hs : s.mMdStream.sync = false) :
    FlushBlock env (k + 2) inLogSeq s = Res.ok () (afterFlushBlock env s inLogSeq) := by
  obtain ⟨a, s', h, rfl⟩ :=
    FlushBlock_total env io k inLogSeq (fun _ s' => s' = afterFlushBlock env s inLogSeq) hg hs rfl
  exact h

theorem Close_total (env : Env) (io : FileOk env) {s : Impl} (Q : Bool → Impl → Prop)
    (hq : Q (decide (0 < s.mLogFd)) (afterClose s)) : M.total (Close env) s Q := by
  unfold afterClose at hq
  by_cases h : s.mLogFd ≤ 0
  · rw [if_pos h] at hq
    have hd : decide (0 < s.mLogFd) = false := by simpa using h
    rw [hd] at hq
    simp only [Close, M.total_bind_iff, M.total_get_iff, h, if_true, M.total_pure_iff]
    exact hq
  · rw [if_neg h] at hq
    have hd : decide (0 < s.mLogFd) = true := by simpa using h
    rw [hd] at hq
    simp only [Close, M.total_bind_iff, M.total_get_iff, h, if_false, M.total_nextTick_iff,
      M.total_modify_iff, io.close_ok, beq_self_eq_true, Bool.not_true, Bool.false_eq_true,
      M.total_pure_iff]
    exact hq

theorem afterFlushBlock_good (env : Env) (s : Impl) (inLogSeq : Int) (h : Good s) :
    Good (afterFlushBlock env s inLogSeq) := h

theorem NewLog_total (env : Env) (io : FileOk env) (k : Nat) (inLogSeq : Int) {s : Impl}
    (Q : Unit → Impl → Prop) (hq : Q () (afterNewLog env s inLogSeq)) :
    M.total (NewLog env (k + 2) inLogSeq) s Q := by
  simp only [NewLog, M.total_bind_iff]
  refine Close_total env io _ ?_
  simp only [microseconds, SetLogName, StartBlock, mdSetSync, mdReset, mdClear, mdSetHex,
    DisplayIsoDateTime, M.total_bind_iff, M.total_nextTick_iff, M.total_pure_iff,
    M.total_modify_iff, M.total_get_iff, not_lt.mpr (io.open_ok _), if_false]
  refine mdWrite_nosync_total env _ _ _ rfl rfl ?_
  simp only [M.total_bind_iff, M.total_modify_iff, M.total_get_iff]
  have hX : Good (newLogHeader env s inLogSeq) ∧ (newLogHeader env s inLogSeq).mMdStream.sync = false :=
    ⟨⟨rfl, io.open_ok _, rfl⟩, rfl⟩
  refine FlushBlock_total env io k _ _ (s := newLogHeader env s inLogSeq) hX.1 hX.2 ?_
  refine IsLogStreamGood_total _ (afterFlushBlock_good env _ _ hX.1) ?_
  simp only [if_true, M.total_modify_iff]
  exact hq

theorem afterClose_transmitted (s : Impl) : (afterClose s).transmitted = s.transmitted := by
  unfold afterClose
  split <;> rfl

theorem appendToFd_files_of_open (s : Impl) (fd : Int) (name : String) (data : Bytes)
    (h : s.fds fd = some name) :
    (appendToFd s fd data).files name = some ((s.files name).getD [] ++ data) := by
  unfold appendToFd
  rw [h]
  show Function.update s.files name _ name = _
  rw [Function.update_same]

/-- C15: `FlushBlock(L)` entered with block seed `s.mBlockChecksum` and the
record bytes `B = s.mMdStream.buf` in the sink, for a checksum update with
`update (update c x) y = update c (x ++ y)`: the checksum written in the block
trailer is `update seed (B ++ commitLine ++ blockSeqText)` (`blockSeqText` is the
block sequence number followed by `/`), and the checksum handed to the
transmitter is `update seed (B ++ commitLine)`. -/
theorem FlushBlock_checksums (env : Env) (io : FileOk env) (k : Nat) (inLogSeq : Int) (s : Impl)
    (name : String) (hg : Good s) (hs : s.mMdStream.sync = false)
    (hfd : s.fds s.mLogFd = some name)
    (hcomb : ∀ c x y, env.ComputeBlockChecksum (env.ComputeBlockChecksum c x) y =
      env.ComputeBlockChecksum c (x ++ y)) :
    ∃ s', FlushBlock env (k + 2) inLogSeq s = Res.ok () s' ∧
      s'.files name = some ((s.files name).getD [] ++
        (s.mMdStream.buf ++ commitLine env s inLogSeq ++ blockSeqText env s ++
          showInt env s (env.ComputeBlockChecksum s.mBlockChecksum
            (s.mMdStream.buf ++ commitLine env s inLogSeq ++ blockSeqText env s)) ++
          "\n".toList)) ∧
      (0 < s.mNextBlockSeq + 1 →
        ∃ b, s'.transmitted = s.transmitted ++ [b] ∧
          b.checksum = env.ComputeBlockChecksum s.mBlockChecksum
            (s.mMdStream.buf ++ commitLine env s inLogSeq)) := by
  refine ⟨_, FlushBlock_eq env io k inLogSeq s hg hs, ?_, ?_⟩
  · show (appendToFd s s.mLogFd _).files name = _
    rw [appendToFd_files_of_open s _ name _ hfd, blockTrailer_eq]
    unfold trailerChecksum txChecksum
    rw [hcomb]
    simp only [showInt, List.append_assoc]
  · intro h
    refine ⟨txBlock env s inLogSeq, ?_, rfl⟩
    show (if transmits s = true then _ else _) = _
    rw [if_pos (by simpa [transmits] using h)]

theorem FlushBlock_checksums_witness :
    ∃ s', FlushBlock envOk 2 11 stateBlock = Res.ok () s' ∧
      s'.files "./kfslog/log.0" = some ((stateBlock.files "./kfslog/log.0").getD [] ++
        (stateBlock.mMdStream.buf ++ commitLine envOk stateBlock 11 ++ blockSeqText envOk stateBlock ++
          showInt envOk stateBlock (envOk.ComputeBlockChecksum stateBlock.mBlockChecksum
            (stateBlock.mMdStream.buf ++ commitLine envOk stateBlock 11 ++
              blockSeqText envOk stateBlock)) ++
          "\n".toList)) ∧
      (0 < stateBlock.mNextBlockSeq + 1 →
        ∃ b, s'.transmitted = stateBlock.transmitted ++ [b] ∧
          b.checksum = envOk.ComputeBlockChecksum stateBlock.mBlockChecksum
            (stateBlock.mMdStream.buf ++ commitLine envOk stateBlock 11)) :=
  FlushBlock_checksums envOk envOk_fileOk 0 11 stateBlock "./kfslog/log.0"
    ⟨rfl, by decide, rfl⟩ rfl (by decide) (by
      intro c x y
      simp only [envOk, List.length_append]
      omega)

theorem afterFlushBlock_transmitted (env : Env) (s : Impl) (inLogSeq : Int) :
    (afterFlushBlock env s inLogSeq).transmitted =
      if transmits s then s.transmitted ++ [txBlock env s inLogSeq] else s.transmitted := rfl

theorem newLogHeader_transmits (env : Env) (s : Impl) (inLogSeq : Int) :
    transmits (newLogHeader env s inLogSeq) = false := by
  show decide ((0 : Int) < -1 + 1) = false
  decide

theorem afterNewLog_transmitted (env : Env) (s : Impl) (inLogSeq : Int) :
    (afterNewLog env s inLogSeq).transmitted = s.transmitted := by
  unfold afterNewLog
  rw [afterFlushBlock_transmitted, newLogHeader_transmits]
  exact afterClose_transmitted s

/-- C19: `FlushBlock(L)` adds exactly 1 to `mNextBlockSeq`; it calls
`TransmitBlock` exactly when the incremented value is positive, once, with end
sequence `L` and record count `L - mNextLogSeq` (as an `int`); and `NewLog`
leaves `mNextBlockSeq = 0` without calling `TransmitBlock`. -/
theorem FlushBlock_block_seq (env : Env) (io : FileOk env) (k : Nat) (inLogSeq : Int)
    (s : Impl) (hg : Good s) (hs : s.mMdStream.sync = false) :
    (∃ s', FlushBlock env (k + 2) inLogSeq s = Res.ok () s' ∧
      s'.mNextBlockSeq = s.mNextBlockSeq + 1 ∧
      (0 < s'.mNextBlockSeq →
        ∃ b, s'.transmitted = s.transmitted ++ [b] ∧ b.endSeq = inLogSeq ∧
          b.count = wrapInt32 (inLogSeq - s.mNextLogSeq) ∧
          (IsInt32 (inLogSeq - s.mNextLogSeq) → b.count = inLogSeq - s.mNextLogSeq)) ∧
      (¬ 0 < s'.mNextBlockSeq → s'.transmitted = s.transmitted)) ∧
    ∀ (s0 : Impl) (inLogSeq0 : Int), ∃ s', NewLog env (k + 2) inLogSeq0 s0 = Res.ok () s' ∧
      s'.mNextBlockSeq = 0 ∧ s'.transmitted = s0.transmitted := by
  constructor
  · refine ⟨_, FlushBlock_eq env io k inLogSeq s hg hs, rfl, ?_, ?_⟩
    · intro h
      refine ⟨txBlock env s inLogSeq, ?_, rfl, rfl, ?_⟩
      · show (if transmits s = true then _ else _) = _
        rw [if_pos (by simpa [transmits] using h)]
      · intro hi
        show wrapInt32 _ = _
        unfold wrapInt32
        unfold IsInt32 at hi
        omega
    · intro h
      show (if transmits s = true then _ else _) = _
      rw [if_neg (by simpa [transmits] using h)]
  · intro s0 L0
    obtain ⟨a, s', h, rfl⟩ := NewLog_total env io k L0 (s := s0) (fun _ s' => s' = afterNewLog env s0 L0) rfl
    exact ⟨_, h, rfl, afterNewLog_transmitted env s0 L0⟩

theorem FlushBlock_block_seq_witness :
    (∃ s', FlushBlock envOk 2 11 stateBlock = Res.ok () s' ∧
      s'.mNextBlockSeq = stateBlock.mNextBlockSeq + 1 ∧
      (0 < s'.mNextBlockSeq →
        ∃ b, s'.transmitted = stateBlock.transmitted ++ [b] ∧ b.endSeq = 11 ∧
          b.count = wrapInt32 (11 - stateBlock.mNextLogSeq) ∧
          (IsInt32 (11 - stateBlock.mNextLogSeq) → b.count = 11 - stateBlock.mNextLogSeq)) ∧
      (¬ 0 < s'.mNextBlockSeq → s'.transmitted = stateBlock.transmitted)) ∧
    ∀ (s0 : Impl) (inLogSeq0 : Int), ∃ s', NewLog envOk 2 inLogSeq0 s0 = Res.ok () s' ∧
      s'.mNextBlockSeq = 0 ∧ s'.transmitted = s0.transmitted :=
  FlushBlock_block_seq envOk envOk_fileOk 0 11 stateBlock ⟨rfl, by decide, rfl⟩ rfl

theorem afterClose_inFlight (s : Impl) :
    (afterClose s).mInFlightCommitted = s.mInFlightCommitted := by
  unfold afterClose
  split <;> rfl

theorem stateBlock_blockSeqText : blockSeqText envOk stateBlock = ['1', '/'] := by
  decide

/-- Claim C16, as stated, fails: flushing block 1 of `stateBlock` appends the
record, the commit marker and then, with no newline between, `1/<checksum>`;
the file is not of the form `... c/.../b/` newline `1/<hex>` newline. -/
theorem FlushBlock_format_counterexample :
    ∃ s', FlushBlock envOk 2 11 stateBlock = Res.ok () s' ∧
      ¬ ∃ hex : Bytes, s'.files "./kfslog/log.0" =
        some (stateBlock.mMdStream.buf ++ commitLine envOk stateBlock 11 ++ "\n".toList ++
          showInt envOk stateBlock (stateBlock.mNextBlockSeq + 1) ++ "/".toList ++ hex ++
          "\n".toList) := by
  refine ⟨_, FlushBlock_eq envOk envOk_fileOk 0 11 stateBlock ⟨rfl, by decide, rfl⟩ rfl, ?_⟩
  rintro ⟨hex, h⟩
  have hf : (afterFlushBlock envOk stateBlock 11).files "./kfslog/log.0" =
      some ((stateBlock.files "./kfslog/log.0").getD [] ++
        (stateBlock.mMdStream.buf ++ blockTrailer envOk stateBlock 11)) :=
    appendToFd_files_of_open stateBlock stateBlock.mLogFd "./kfslog/log.0"
      (stateBlock.mMdStream.buf ++ blockTrailer envOk stateBlock 11) (by decide)
  rw [hf, blockTrailer_eq, stateBlock_blockSeqText] at h
  have h0 : (stateBlock.files "./kfslog/log.0").getD [] = [] := by decide
  rw [h0] at h
  simp only [List.nil_append, List.append_assoc, Option.some.injEq, List.append_cancel_left_eq] at h
  have := congrArg List.head? h
  simp at this

/-- Claim C16, amended: `FlushBlock` appends to the log file, after the record
lines of the block, the commit marker
`c/<committedSeq>/<fidSeed>/<errChecksum>/<status>/<lastRecordSeq>/` directly
followed by `<blockSeq>/<checksum>` and one newline; and the file `NewLog`
creates holds the four header lines followed by the commit marker, `0/`, the
checksum and a newline. -/
theorem FlushBlock_format (env : Env) (io : FileOk env) (k : Nat) (inLogSeq : Int) (s : Impl)
    (name : String) (hg : Good s) (hs : s.mMdStream.sync = false)
    (hfd : s.fds s.mLogFd = some name) :
    (∃ s' cks, FlushBlock env (k + 2) inLogSeq s = Res.ok () s' ∧
      s'.files name = some ((s.files name).getD [] ++ s.mMdStream.buf ++
        ("c/".toList ++ showInt env s s.mInFlightCommitted.mSeq ++
          "/".toList ++ showInt env s s.mInFlightCommitted.mFidSeed ++
          "/".toList ++ showInt env s s.mInFlightCommitted.mErrChkSum ++
          "/".toList ++ showInt env s s.mInFlightCommitted.mStatus ++
          "/".toList ++ showInt env s inLogSeq ++ "/".toList) ++
        (showInt env s (s.mNextBlockSeq + 1) ++ "/".toList ++ showInt env s cks ++
          "\n".toList))) ∧
    ∀ (s0 : Impl) (inLogSeq0 : Int), ∃ s' iso cks,
      NewLog env (k + 2) inLogSeq0 s0 = Res.ok () s' ∧
      s'.files s'.mLogName = some (
        ("version/".toList ++ env.showInt false env.VERSION ++ "\n".toList ++
          "checksum/last-line\n".toList ++ "setintbase/16\n".toList ++
          "time/".toList ++ iso ++ "\n".toList) ++
        ("c/".toList ++ env.showInt true s0.mInFlightCommitted.mSeq ++
          "/".toList ++ env.showInt true s0.mInFlightCommitted.mFidSeed ++
          "/".toList ++ env.showInt true s0.mInFlightCommitted.mErrChkSum ++
          "/".toList ++ env.showInt true s0.mInFlightCommitted.mStatus ++
          "/".toList ++ env.showInt true inLogSeq0 ++ "/".toList) ++
        (env.showInt true 0 ++ "/".toList ++ env.showInt true cks ++ "\n".toList)) := by
  constructor
  · refine ⟨_, trailerChecksum env s inLogSeq, FlushBlock_eq env io k inLogSeq s hg hs, ?_⟩
    show (appendToFd s s.mLogFd _).files name = _
    rw [appendToFd_files_of_open s _ name _ hfd, blockTrailer_eq]
    simp only [commitLine, blockSeqText, showInt, List.append_assoc]
  · intro s0 L0
    obtain ⟨a, s', h, rfl⟩ :=
      NewLog_total env io k L0 (s := s0) (fun _ s' => s' = afterNewLog env s0 L0) rfl
    refine ⟨_, env.DisplayIsoDateTime ((afterClose s0).tick + 2),
      trailerChecksum env (newLogHeader env s0 L0) L0, h, ?_⟩
    have hfd0 : (newLogHeader env s0 L0).fds (newLogHeader env s0 L0).mLogFd =
        some (newLogHeader env s0 L0).mLogName := Function.update_same _ _ _
    have hfile0 : (newLogHeader env s0 L0).files (newLogHeader env s0 L0).mLogName = some [] :=
      Function.update_same _ _ _
    have hname : (afterNewLog env s0 L0).mLogName = (newLogHeader env s0 L0).mLogName := rfl
    have hfiles : (afterNewLog env s0 L0).files (newLogHeader env s0 L0).mLogName =
        some (((newLogHeader env s0 L0).files (newLogHeader env s0 L0).mLogName).getD [] ++
          ((newLogHeader env s0 L0).mMdStream.buf ++ blockTrailer env (newLogHeader env s0 L0) L0)) :=
      appendToFd_files_of_open (newLogHeader env s0 L0) (newLogHeader env s0 L0).mLogFd
        (newLogHeader env s0 L0).mLogName _ hfd0
    have e1 : (newLogHeader env s0 L0).mMdStream.buf =
        headerLines env (env.DisplayIsoDateTime ((afterClose s0).tick + 2)) := rfl
    have e2 : (newLogHeader env s0 L0).mMdStream.hex = true := rfl
    have e3 : (newLogHeader env s0 L0).mNextBlockSeq + 1 = 0 := rfl
    have e4 : (newLogHeader env s0 L0).mInFlightCommitted = s0.mInFlightCommitted :=
      afterClose_inFlight s0
    rw [hname, hfiles, hfile0, blockTrailer_eq]
    simp only [commitLine, blockSeqText, showInt, e1, e2, e3, e4, headerLines, List.append_assoc,
      Option.getD_some, List.nil_append]

theorem FlushBlock_format_witness :
    (∃ s' cks, FlushBlock envOk 2 11 stateBlock = Res.ok () s' ∧
      s'.files "./kfslog/log.0" = some ((stateBlock.files "./kfslog/log.0").getD [] ++
        stateBlock.mMdStream.buf ++
        ("c/".toList ++ showInt envOk stateBlock stateBlock.mInFlightCommitted.mSeq ++
          "/".toList ++ showInt envOk stateBlock stateBlock.mInFlightCommitted.mFidSeed ++
          "/".toList ++ showInt envOk stateBlock stateBlock.mInFlightCommitted.mErrChkSum ++
          "/".toList ++ showInt envOk stateBlock stateBlock.mInFlightCommitted.mStatus ++
          "/".toList ++ showInt envOk stateBlock 11 ++ "/".toList) ++
        (showInt envOk stateBlock (stateBlock.mNextBlockSeq + 1) ++ "/".toList ++
          showInt envOk stateBlock cks ++ "\n".toList))) ∧
    ∀ (s0 : Impl) (inLogSeq0 : Int), ∃ s' iso cks,
      NewLog envOk 2 inLogSeq0 s0 = Res.ok () s' ∧
      s'.files s'.mLogName = some (
        ("version/".toList ++ envOk.showInt false envOk.VERSION ++ "\n".toList ++
          "checksum/last-line\n".toList ++ "setintbase/16\n".toList ++
          "time/".toList ++ iso ++ "\n".toList) ++
        ("c/".toList ++ envOk.showInt true s0.mInFlightCommitted.mSeq ++
          "/".toList ++ envOk.showInt true s0.mInFlightCommitted.mFidSeed ++
          "/".toList ++ envOk.showInt true s0.mInFlightCommitted.mErrChkSum ++
          "/".toList ++ envOk.showInt true s0.mInFlightCommitted.mStatus ++
          "/".toList ++ envOk.showInt true inLogSeq0 ++ "/".toList) ++
        (envOk.showInt true 0 ++ "/".toList ++ envOk.showInt true cks ++ "\n".toList)) :=
  FlushBlock_format envOk envOk_fileOk 0 11 stateBlock "./kfslog/log.0"
    ⟨rfl, by decide, rfl⟩ rfl (by decide)

/-- Claim C14, as stated, fails: `Start` with committed log sequence -1 (and
valid log number and log sequence) on a fresh writer does not return `-EINVAL`
before modifying the writer; it goes on to `SetParameters` (here the transmitter
rejects the parameters, and `Start` returns that status, 7). -/
theorem Start_claim_counterexample :
    ∃ s', Start envTxParams 2 0 0 (-1) 0 0 0 none 0 0 false none Properties.none
        (Impl.init envTxParams (fun _ => reqEx LogAction.kLogAlways 0) (fun _ => 0)) =
        Res.ok (7, none) s' ∧ (7 : Int) ≠ -EINVAL ∧
      s'.mNextBlockChecksum ≠
        (Impl.init envTxParams (fun _ => reqEx LogAction.kLogAlways 0) (fun _ => 0)).mNextBlockChecksum := by
  have key : M.total (Start envTxParams 2 0 0 (-1) 0 0 0 none 0 0 false none Properties.none)
      (Impl.init envTxParams (fun _ => reqEx LogAction.kLogAlways 0) (fun _ => 0))
      (fun r s' => r = (7, none) ∧ s'.mNextBlockChecksum = 2) := by
    have h0 : ¬ ((0 : Int) < 0 ∨ (0 : Int) < 0 ∨
        ((none : Option MdStateCtx).isSome = true ∧ (0 : Int) < 0) ∨
        ((Impl.init envTxParams (fun _ => reqEx LogAction.kLogAlways 0) (fun _ => 0)).mThreadStarted = true ∨
          (Impl.init envTxParams (fun _ => reqEx LogAction.kLogAlways 0) (fun _ => 0)).mNetManagerPtr = true)) := by
      decide
    simp only [Start, SetParameters, M.total_bind_iff, M.total_get_iff, h0, if_false,
      M.total_modify_iff, M.total_nextTick_iff, M.total_pure_iff]
    have h1 : envTxParams.transmitterSetParameters
        (Impl.init envTxParams (fun _ => reqEx LogAction.kLogAlways 0) (fun _ => 0)).tick ≠ 0 := by
      decide
    rw [if_pos h1]
    simp only [M.total_pure_iff]
    exact ⟨rfl, rfl⟩
  obtain ⟨r, s', h, rfl, h2⟩ := key
  refine ⟨s', h, by decide, ?_⟩
  rw [h2]
  decide

/-- Claim C14, amended: `Start` returns `-EINVAL` and leaves the writer
unchanged when the log number or the log sequence is negative, when an append
snapshot is given with `inLogSeq` below `inLogAppendStartSeq`, or when the
writer is already running.  (The committed log sequence is not validated.) -/
theorem Start_invalid (env : Env) (fuel : Nat) (inLogNum inLogSeq inCommittedLogSeq
    inCommittedFidSeed inCommittedErrCheckSum inCommittedStatus : Int)
    (inLogAppendMdStatePtr : Option MdStateCtx) (inLogAppendStartSeq inLogAppendLastBlockSeq : Int)
    (inLogAppendHexFlag : Bool) (inParametersPrefixPtr : Option String) (inParameters : Properties)
    (s : Impl)
    (h : inLogNum < 0 ∨ inLogSeq < 0 ∨
      (inLogAppendMdStatePtr.isSome = true ∧ inLogSeq < inLogAppendStartSeq) ∨
      (s.mThreadStarted = true ∨ s.mNetManagerPtr = true)) :
    Start env fuel inLogNum inLogSeq inCommittedLogSeq inCommittedFidSeed inCommittedErrCheckSum
      inCommittedStatus inLogAppendMdStatePtr inLogAppendStartSeq inLogAppendLastBlockSeq
      inLogAppendHexFlag inParametersPrefixPtr inParameters s = Res.ok (-EINVAL, none) s := by
  simp only [Start, M.bind_run, M.get_run, h, if_true, M.pure_run]

theorem Start_invalid_witness :
    Start envOk 2 (-1) 0 0 0 0 0 none 0 0 false none Properties.none
      (Impl.init envOk (fun _ => reqEx LogAction.kLogAlways 0) (fun _ => 0)) =
      Res.ok (-EINVAL, none)
        (Impl.init envOk (fun _ => reqEx LogAction.kLogAlways 0) (fun _ => 0)) :=
  Start_invalid envOk 2 (-1) 0 0 0 0 0 none 0 0 false none Properties.none _
    (Or.inl (by decide))

theorem deliverRun_congr (mem mem' : Nat → MetaRequest) (l : List Nat) (m c : Int)
    (h : ∀ p ∈ l, (mem' p).logseq = (mem p).logseq) :
    deliverRun mem' l m c = deliverRun mem l m c := by
  induction l generalizing m c with
  | nil => rfl
  | cons p ps ih =>
    simp only [deliverRun]
    rw [h p (List.mem_cons_self _ _), ih _ _ (fun q hq => h q (List.mem_cons_of_mem _ hq))]

theorem clearNext_logseq (mem : Nat → MetaRequest) (l : List Nat) (q : Nat) :
    (clearNext mem l q).logseq = (mem q).logseq := by
  induction l generalizing mem with
  | nil => rfl
  | cons p ps ih =>
    simp only [clearNext]
    rw [ih]
    by_cases h : q = p
    · subst h
      simp
    · rw [Function.update_noteq h]

theorem clearNext_next (mem : Nat → MetaRequest) (l : List Nat) (q : Nat) (hq : q ∈ l) :
    (clearNext mem l q).next = none := by
  induction l generalizing mem with
  | nil => cases hq
  | cons p ps ih =>
    simp only [clearNext]
    by_cases h : q ∈ ps
    · exact ih _ h
    · have hqp : q = p := by
        rcases List.mem_cons.mp hq with e | e
        · exact e
        · exact absurd e h
      subst hqp
      have : ∀ (m : Nat → MetaRequest), (m q).next = none → (clearNext m ps q).next = none := by
        intro m hm
        clear ih hq
        induction ps generalizing m with
        | nil => exact hm
        | cons a as ih2 =>
          simp only [clearNext]
          have ha : q ≠ a := fun e => h (e ▸ List.mem_cons_self _ _)
          apply ih2 (fun e => h (List.mem_cons_of_mem _ e))
          rw [Function.update_noteq ha]
          exact hm
      apply this
      simp

theorem deliver_spec (l : List Nat) :
    ∀ (n : Nat) (head : Option Nat) (s : Impl), l.length < n → isChain s.mem head l = true →
      0 ≤ s.mPendingCount → s.mPendingCount ≤ 2147483647 →
      (∃ m c, deliverRun s.mem l s.mMaxDoneLogSeq s.mPendingCount = some (m, c) ∧
        deliver n head s = Res.ok ()
          { s with mem := clearNext s.mem l, mMaxDoneLogSeq := m, mPendingCount := c
                   submitted := s.submitted ++ l }) ∨
      (deliverRun s.mem l s.mMaxDoneLogSeq s.mPendingCount = none ∧
        ∃ msg s', deliver n head s = Res.panic msg s') := by
  induction l with
  | nil =>
    intro n head s hn hch _ _
    rw [isChain_nil] at hch
    subst hch
    obtain ⟨n, rfl⟩ : ∃ k, n = k + 1 := ⟨n - 1, by simp at hn; omega⟩
    left
    refine ⟨_, _, rfl, ?_⟩
    simp [deliver, clearNext]
  | cons p ps ih =>
    intro n head s hn hch h0 h1
    have hnd := isChain_nodup s.mem _ _ hch
    rw [isChain_cons] at hch
    obtain ⟨rfl, hch⟩ := hch
    obtain ⟨n, rfl⟩ : ∃ k, n = k + 1 := ⟨n - 1, by simp at hn; omega⟩
    have hp : p ∉ ps := (List.nodup_cons.mp hnd).1
    simp only [deliverRun]
    by_cases hbad : 0 ≤ (s.mem p).logseq ∧ (s.mem p).logseq ≤ s.mMaxDoneLogSeq
    · right
      rw [if_pos hbad]
      refine ⟨rfl, ?_⟩
      simp [deliver, Impl.setReq, hbad.1, hbad.2]
    · rw [if_neg hbad]
      have hw : wrapInt32 (s.mPendingCount - 1) = s.mPendingCount - 1 := by
        unfold wrapInt32
        omega
      by_cases hcnt : s.mPendingCount - 1 < 0
      · right
        rw [if_pos hcnt]
        refine ⟨rfl, ?_⟩
        by_cases hl : 0 ≤ (s.mem p).logseq
        · have hl2 : ¬ (s.mem p).logseq ≤ s.mMaxDoneLogSeq := fun h => hbad ⟨hl, h⟩
          simp [deliver, Impl.setReq, hl, hl2, hw, hcnt]
        · simp [deliver, Impl.setReq, hl, hw, hcnt]
      · rw [if_neg hcnt]
        obtain ⟨s1, hs1⟩ : ∃ s1 : Impl, s1 =
            { s with
              mem := Function.update s.mem p { s.mem p with next := none }
              mMaxDoneLogSeq := if 0 ≤ (s.mem p).logseq then (s.mem p).logseq else s.mMaxDoneLogSeq
              mPendingCount := s.mPendingCount - 1
              submitted := s.submitted ++ [p] } := ⟨_, rfl⟩
        have hstep : deliver (n + 1) (some p) s = deliver n (s.mem p).next s1 := by
          rw [hs1]
          by_cases hl : 0 ≤ (s.mem p).logseq
          · have hl2 : ¬ (s.mem p).logseq ≤ s.mMaxDoneLogSeq := fun h => hbad ⟨hl, h⟩
            simp [deliver, Impl.setReq, hl, hl2, hw, hcnt]
          · simp [deliver, Impl.setReq, hl, hw, hcnt]
        rw [hstep]
        have hlen : ps.length < n := by simp at hn; omega
        have em : s1.mem = Function.update s.mem p { s.mem p with next := none } := by rw [hs1]
        have ed : s1.mMaxDoneLogSeq =
            if 0 ≤ (s.mem p).logseq then (s.mem p).logseq else s.mMaxDoneLogSeq := by rw [hs1]
        have ec : s1.mPendingCount = s.mPendingCount - 1 := by rw [hs1]
        have hrun : ∀ m c, deliverRun s1.mem ps m c = deliverRun s.mem ps m c := by
          intro m c
          apply deliverRun_congr
          intro q hq
          have : q ≠ p := fun e => hp (e ▸ hq)
          rw [em, Function.update_noteq this]
        rcases ih n (s.mem p).next s1 hlen
          (by rw [em, isChain_update_of_not_mem _ _ _ _ _ hp]; exact hch)
          (by rw [ec]; omega) (by rw [ec]; omega) with ⟨m, c, hr, hd⟩ | ⟨hr, hd⟩
        · left
          refine ⟨m, c, ?_, ?_⟩
          · rw [← hrun, ← ed, ← ec]
            exact hr
          · rw [hd, hs1]
            simp [clearNext]
        · right
          refine ⟨?_, hd⟩
          rw [← hrun, ← ed, ← ec]
          exact hr

theorem deliverRun_count (mem : Nat → MetaRequest) (l : List Nat) (m c m' c' : Int)
    (h : deliverRun mem l m c = some (m', c')) : c' = c - l.length ∧ m ≤ m' := by
  induction l generalizing m c with
  | nil =>
    simp only [deliverRun, Option.some.injEq, Prod.mk.injEq] at h
    obtain ⟨rfl, rfl⟩ := h
    simp
  | cons p ps ih =>
    simp only [deliverRun] at h
    split_ifs at h with h1 h2 h3
    · obtain ⟨e1, e2⟩ := ih _ _ h
      refine ⟨?_, ?_⟩
      · rw [e1]
        simp only [List.length_cons]
        push_cast
        ring
      · refine le_trans ?_ e2
        by_contra hc
        exact h1 ⟨h3, by omega⟩
    · obtain ⟨e1, e2⟩ := ih _ _ h
      refine ⟨?_, e2⟩
      rw [e1]
      simp only [List.length_cons]
      push_cast
      ring

theorem Timeout_idle (fuel : Nat) (s : Impl) (h : s.mPendingCount ≤ 0) :
    Timeout fuel s = Res.ok () s := by
  simp [Timeout, h]

theorem Timeout_busy (fuel : Nat) (s : Impl) (h : 0 < s.mPendingCount) :
    Timeout fuel s = deliver fuel s.mOutQueue.Front { s with mOutQueue := s.mOutQueue.Reset } := by
  simp [Timeout, not_le.mpr h]

/-- C12: when `mPendingCount > 0` and `Timeout` does not panic, it returns with
`mOutQueue` empty, every request `l` that was in the queue handed to
`submit_request` once, in queue order, the `next` link of each cleared, and
`mPendingCount` decreased by the number of requests; when `mPendingCount <= 0`
it returns the state unchanged. -/
theorem Timeout_delivers (fuel : Nat) (s : Impl) (l : List Nat)
    (hch : isChain s.mem s.mOutQueue.Front l = true) (hfuel : l.length < fuel)
    (hint : s.mPendingCount ≤ 2147483647) :
    (0 < s.mPendingCount → (∀ msg s', Timeout fuel s ≠ Res.panic msg s') →
      ∃ s', Timeout fuel s = Res.ok () s' ∧
        s'.mOutQueue.IsEmpty = true ∧
        s'.submitted = s.submitted ++ l ∧
        (∀ p ∈ l, (s'.mem p).next = none) ∧
        s'.mPendingCount = s.mPendingCount - l.length) ∧
    (s.mPendingCount ≤ 0 → Timeout fuel s = Res.ok () s) := by
  refine ⟨?_, Timeout_idle fuel s⟩
  intro hpos hnp
  rw [Timeout_busy fuel s hpos] at hnp ⊢
  rcases deliver_spec l fuel s.mOutQueue.Front { s with mOutQueue := s.mOutQueue.Reset } hfuel hch
    (le_of_lt hpos) hint with ⟨m, c, hr, hd⟩ | ⟨-, msg, s', hd⟩
  · refine ⟨_, hd, rfl, rfl, ?_, ?_⟩
    · intro p hp
      exact clearNext_next _ _ _ hp
    · exact (deliverRun_count _ _ _ _ _ _ hr).1
  · exact absurd hd (hnp msg s')

theorem Timeout_stateOut_no_panic (msg : String) (s' : Impl) :
    Timeout 5 stateOut ≠ Res.panic msg s' := by
  rw [Timeout_busy 5 stateOut (by decide)]
  rcases deliver_spec [2, 3] 5 stateOut.mOutQueue.Front
    { stateOut with mOutQueue := stateOut.mOutQueue.Reset } (by decide) (by decide) (by decide)
    (by decide) with ⟨m, c, -, hd⟩ | ⟨hr, -⟩
  · rw [hd]
    intro e
    cases e
  · exact absurd hr (by decide)

/-- Witness for `Timeout_delivers`: two requests pending, request 2 followed by
request 3 in the out queue. -/
theorem Timeout_delivers_witness :
    ∃ s', Timeout 5 stateOut = Res.ok () s' ∧
      s'.mOutQueue.IsEmpty = true ∧
      s'.submitted = stateOut.submitted ++ [2, 3] ∧
      (∀ p ∈ [2, 3], (s'.mem p).next = none) ∧
      s'.mPendingCount = stateOut.mPendingCount - ([2, 3] : List Nat).length :=
  (Timeout_delivers 5 stateOut [2, 3] (by decide) (by decide) (by decide)).1 (by decide)
    Timeout_stateOut_no_panic

theorem lastBlockLine_append (x y : Bytes) (back : Int) :
    lastBlockLine (x ++ y) x.length back = lastBlockLine x x.length back := by
  unfold lastBlockLine
  rw [List.take_left, List.take_length]

theorem length_append_sub {α : Type} (x y : List α) : (x ++ y).length - x.length = y.length := by
  rw [List.length_append, Nat.add_sub_cancel_left]

theorem drop_length_add {α : Type} (x y z : List α) :
    (x ++ y ++ z).drop (x.length + y.length) = z := by
  rw [← List.length_append, List.drop_left]

theorem lastBlockLine_append4 (x y z w : Bytes) (back : Int) :
    lastBlockLine (x ++ y ++ z ++ w) (x.length + y.length) back =
      lastBlockLine (x ++ y) (x ++ y).length back := by
  rw [← List.length_append, List.append_assoc (x ++ y), lastBlockLine_append]

theorem take_drop_append4 {α : Type} (x y z w : List α) :
    ((x ++ y ++ z ++ w).drop x.length).take y.length = y := by
  simp only [List.append_assoc]
  rw [List.drop_left, List.take_left]

theorem WriteBlock_success_total (env : Env) (io : FileOk env) (k : Nat) (p : Nat) (s : Impl)
    (hdata : (s.mem p).blockData ≠ []) (hlines : (s.mem p).blockLines ≠ [])
    (hseq : s.mLastLogSeq = s.mNextLogSeq) (hstart : (s.mem p).blockStartSeq = s.mLastLogSeq)
    (hg : Good s)
    (hparse : 0 ≤ parseBlockCommitted env
      (lastBlockLine (s.mMdStream.buf ++ (s.mem p).blockData)
        (s.mMdStream.buf ++ (s.mem p).blockData).length ((s.mem p).blockLines.getLast?.getD 0))) :
    M.total (WriteBlock env (k + 2) p) s (fun _ s' =>
      (s'.mem p).status = 0 ∧ s'.mNextBlockSeq = s.mNextBlockSeq + 1 ∧
      (s'.mem p).blockSeq = s'.mNextBlockSeq ∧
      s'.mLastLogSeq = (s.mem p).blockEndSeq ∧ s'.mNextLogSeq = (s.mem p).blockEndSeq ∧
      (s'.mem p).blockCommitted = parseBlockCommitted env
        (lastBlockLine (s.mMdStream.buf ++ (s.mem p).blockData)
          (s.mMdStream.buf ++ (s.mem p).blockData).length ((s.mem p).blockLines.getLast?.getD 0)) ∧
      s'.mBlockChecksum = s.mNextBlockChecksum ∧
      s'.mWriteState = WriteState.kUpdateBlockChecksum ∧
      s'.transmitted = s.transmitted ++ [blockOf (s.mem p)] ∧
      s'.mTransmitterUpFlag =
        (if env.TransmitBlock s.tick (blockOf (s.mem p)) ≠ 0 then false
          else s.mTransmitterUpFlag)) := by
  obtain ⟨he, hfd, hf⟩ := hg
  have h1 : ¬ ((s.mem p).blockData.length ≤ 0) := by
    have := List.length_pos.mpr hdata
    omega
  have h2 : (s.mem p).blockLines.isEmpty = false := by
    cases hb : (s.mem p).blockLines with
    | nil => exact absurd hb hlines
    | cons a l => rfl
  have h3 : ¬ (s.mLastLogSeq ≠ s.mNextLogSeq) := not_not.mpr hseq
  have h4 : ¬ ((s.mem p).blockStartSeq ≠ s.mLastLogSeq) := not_not.mpr hstart
  simp only [WriteBlock, M.total_bind_iff, M.total_get_iff, h1, h2, h3, h4, if_false,
    Bool.false_eq_true, M.total_pure_iff]
  refine IsLogStreamGood_total _ ⟨he, hfd, hf⟩ ?_
  simp only [Bool.not_true, Bool.false_eq_true, if_false, M.total_pure_iff, M.total_bind_iff,
    mdSetSync, M.total_modify_iff, M.total_get_iff]
  refine mdWrite_nosync_total env _ _ _ hf rfl ?_
  simp only [M.total_bind_iff, M.total_modify_iff, M.total_get_iff]
  refine mdWrite_nosync_total env _ _ _ hf rfl ?_
  refine mdFlush_nosync_total env _ _ rfl ?_
  simp only [M.total_bind_iff, M.total_modify_iff, M.total_get_iff]
  refine mdWrite_nosync_total env _ _ _ hf rfl ?_
  refine mdFlush_nosync_total env _ _ rfl ?_
  simp only [M.total_bind_iff, M.total_modify_iff, M.total_get_iff, showInt, length_append_sub,
    drop_length_add, Impl.setReq, lastBlockLine_append4, take_drop_append4, not_lt.mpr hparse,
    if_false, M.total_pure_iff, M.total_nextTick_iff, M.total_ite_iff]
  have hne : ∀ (x y : Bytes), s.mMdStream.buf ++ (s.mem p).blockData ++ x ++ y ≠ [] := by
    intro x y h
    simp only [List.append_eq_nil] at h
    exact hdata h.1.1.2
  unfold blockOf
  split_ifs with htx
  · refine mdFlush_sync_total env io k _ ⟨he, hfd, hf⟩ rfl (hne _ _) rfl ?_
    refine Sync_total env io _ hfd ?_
    refine IsLogStreamGood_total _ ⟨he, hfd, hf⟩ ?_
    simp only [if_true, M.total_bind_iff, M.total_modify_iff, M.total_get_iff, StartBlock,
      mdSetSync, Function.update_same]
    exact ⟨trivial, trivial, trivial, trivial, trivial, trivial, trivial, trivial, trivial, trivial⟩
  · refine mdFlush_sync_total env io k _ ⟨he, hfd, hf⟩ rfl (hne _ _) rfl ?_
    refine Sync_total env io _ hfd ?_
    refine IsLogStreamGood_total _ ⟨he, hfd, hf⟩ ?_
    simp only [if_true, M.total_bind_iff, M.total_modify_iff, M.total_get_iff, StartBlock,
      mdSetSync, Function.update_same]
    exact ⟨trivial, trivial, trivial, trivial, trivial, trivial, trivial, trivial, trivial, trivial⟩

theorem envHex_fileOk : FileOk envHex :=
  ⟨fun _ => (by decide : (0 : Int) ≤ 3), fun _ _ => rfl, fun _ => rfl, fun _ => rfl, fun _ => rfl,
    fun _ _ => ⟨rfl, rfl⟩⟩

/-- C20: a `WriteBlock` call with non-empty payload and lines,
`mLastLogSeq = mNextLogSeq = blockStartSeq`, a good stream, a last line that
parses to a non-negative committed sequence, and file I/O that succeeds,
returns with status 0, `mNextBlockSeq` one larger and `blockSeq` equal to it,
`mLastLogSeq = mNextLogSeq = blockEndSeq`, `blockCommitted` the parsed sequence,
`mBlockChecksum = mNextBlockChecksum` and `mWriteState = kUpdateBlockChecksum`,
whether or not `TransmitBlock` succeeds; `mTransmitterUpFlag` is set false
exactly when it does not. -/
theorem WriteBlock_success (env : Env) (io : FileOk env) (k : Nat) (p : Nat) (s : Impl)
    (hdata : (s.mem p).blockData ≠ []) (hlines : (s.mem p).blockLines ≠ [])
    (hseq : s.mLastLogSeq = s.mNextLogSeq) (hstart : (s.mem p).blockStartSeq = s.mLastLogSeq)
    (hg : Good s)
    (hparse : 0 ≤ parseBlockCommitted env
      (lastBlockLine (s.mMdStream.buf ++ (s.mem p).blockData)
        (s.mMdStream.buf ++ (s.mem p).blockData).length ((s.mem p).blockLines.getLast?.getD 0))) :
    ∃ s', WriteBlock env (k + 2) p s = Res.ok () s' ∧
      (s'.mem p).status = 0 ∧ s'.mNextBlockSeq = s.mNextBlockSeq + 1 ∧
      (s'.mem p).blockSeq = s'.mNextBlockSeq ∧
      s'.mLastLogSeq = (s.mem p).blockEndSeq ∧ s'.mNextLogSeq = (s.mem p).blockEndSeq ∧
      (s'.mem p).blockCommitted = parseBlockCommitted env
        (lastBlockLine (s.mMdStream.buf ++ (s.mem p).blockData)
          (s.mMdStream.buf ++ (s.mem p).blockData).length ((s.mem p).blockLines.getLast?.getD 0)) ∧
      s'.mBlockChecksum = s.mNextBlockChecksum ∧
      s'.mWriteState = WriteState.kUpdateBlockChecksum ∧
      s'.transmitted = s.transmitted ++ [blockOf (s.mem p)] ∧
      (env.TransmitBlock s.tick (blockOf (s.mem p)) ≠ 0 → s'.mTransmitterUpFlag = false) ∧
      (env.TransmitBlock s.tick (blockOf (s.mem p)) = 0 →
        s'.mTransmitterUpFlag = s.mTransmitterUpFlag) := by
  obtain ⟨a, s', hrun, h1, h2, h3, h4, h5, h6, h7, h8, h9, h10⟩ :=
    WriteBlock_success_total env io k p s hdata hlines hseq hstart hg hparse
  refine ⟨s', hrun, h1, h2, h3, h4, h5, h6, h7, h8, h9, ?_, ?_⟩
  · intro h
    rw [h10, if_pos h]
  · intro h
    rw [h10, if_neg (not_not.mpr h)]

theorem WriteBlock_success_witness :
    ∃ s', WriteBlock envHex 2 1 stateWriteBlock = Res.ok () s' ∧
      (s'.mem 1).status = 0 ∧ s'.mNextBlockSeq = stateWriteBlock.mNextBlockSeq + 1 ∧
      (s'.mem 1).blockSeq = s'.mNextBlockSeq ∧
      s'.mLastLogSeq = (stateWriteBlock.mem 1).blockEndSeq ∧
      s'.mNextLogSeq = (stateWriteBlock.mem 1).blockEndSeq ∧
      (s'.mem 1).blockCommitted = parseBlockCommitted envHex
        (lastBlockLine (stateWriteBlock.mMdStream.buf ++ (stateWriteBlock.mem 1).blockData)
          (stateWriteBlock.mMdStream.buf ++ (stateWriteBlock.mem 1).blockData).length
          ((stateWriteBlock.mem 1).blockLines.getLast?.getD 0)) ∧
      s'.mBlockChecksum = stateWriteBlock.mNextBlockChecksum ∧
      s'.mWriteState = WriteState.kUpdateBlockChecksum ∧
      s'.transmitted = stateWriteBlock.transmitted ++ [blockOf (stateWriteBlock.mem 1)] ∧
      (envHex.TransmitBlock stateWriteBlock.tick (blockOf (stateWriteBlock.mem 1)) ≠ 0 →
        s'.mTransmitterUpFlag = false) ∧
      (envHex.TransmitBlock stateWriteBlock.tick (blockOf (stateWriteBlock.mem 1)) = 0 →
        s'.mTransmitterUpFlag = stateWriteBlock.mTransmitterUpFlag) :=
  WriteBlock_success envHex envHex_fileOk 0 1 stateWriteBlock (by decide) (by decide) (by decide)
    (by decide) ⟨rfl, by decide, rfl⟩ (by decide)

section Frames

variable {α β γ : Type} {f : Impl → γ}

theorem Frame.pure (a : α) : Frame f (Pure.pure a : M α) := by
  intro s b s' h
  cases h
  rfl

theorem Frame.bind {m : M α} {g : α → M β} (hm : Frame f m) (hg : ∀ a, Frame f (g a)) :
    Frame f (m >>= g) := by
  intro s b s' h
  change (match m s with
    | Res.ok a s1 => g a s1
    | Res.panic msg s1 => Res.panic msg s1
    | Res.timeout => Res.timeout) = _ at h
  cases hms : m s with
  | ok a s1 =>
    rw [hms] at h
    exact (hg a s1 b s' h).trans (hm s a s1 hms)
  | panic msg s1 =>
    rw [hms] at h
    cases h
  | timeout =>
    rw [hms] at h
    cases h

theorem Frame.get : Frame f M.get := by
  intro s b s' h
  cases h
  rfl

theorem Frame.ofModify {g : Impl → Impl} (hg : ∀ s, f (g s) = f s) : Frame f (M.modify g) := by
  intro s b s' h
  cases h
  exact hg s

theorem Frame.panic (msg : String) : Frame f (M.panic msg : M α) := by
  intro s b s' h
  cases h

theorem Frame.timeout : Frame f (M.timeout : M α) := by
  intro s b s' h
  cases h

theorem Frame.ite (c : Prop) [Decidable c] {a b : M α} (ha : Frame f a) (hb : Frame f b) :
    Frame f (if c then a else b) := by
  split
  · exact ha
  · exact hb

theorem Frame.nextTick (hf : ∀ s : Impl, f { s with tick := s.tick + 1 } = f s) :
    Frame f nextTick := by
  intro s b s' h
  cases h
  exact hf s

theorem Frame.comp {δ : Type} (g : γ → δ) {m : M α} (h : Frame f m) : Frame (g ∘ f) m := by
  intro s a s' hs
  exact congrArg g (h s a s' hs)

end Frames

theorem appendToFd_keep (s : Impl) (fd : Int) (data : Bytes) :
    (appendToFd s fd data).keep = s.keep := by
  obtain ⟨g, hg⟩ := appendToFd_eq s fd data
  rw [hg]
  rfl

set_option linter.unusedTactic false
set_option linter.unreachableTactic false

theorem IoError_keep (e : Int) : Frame Impl.keep (IoError e) := by
  unfold IoError
  repeat' first
    | with_reducible apply Frame.bind
    | with_reducible apply Frame.pure
    | with_reducible apply Frame.get
    | with_reducible apply Frame.panic
    | with_reducible apply Frame.timeout
    | with_reducible apply Frame.ite
    | with_reducible apply Frame.nextTick
    | with_reducible apply Frame.ofModify
    | exact appendToFd_keep _ _ _
    | rfl
    | with_reducible intro _
    | split
    | dsimp only

theorem IsLogStreamGood_keep : Frame Impl.keep IsLogStreamGood := by
  unfold IsLogStreamGood
  repeat' first
    | with_reducible apply IoError_keep
    | with_reducible apply Frame.bind
    | with_reducible apply Frame.pure
    | with_reducible apply Frame.get
    | with_reducible apply Frame.panic
    | with_reducible apply Frame.timeout
    | with_reducible apply Frame.ite
    | with_reducible apply Frame.nextTick
    | with_reducible apply Frame.ofModify
    | exact appendToFd_keep _ _ _
    | rfl
    | with_reducible intro _
    | split
    | dsimp only

theorem Sync_keep (env : Env) : Frame Impl.keep (Sync env) := by
  unfold Sync
  repeat' first
    | with_reducible apply IoError_keep
    | with_reducible apply Frame.bind
    | with_reducible apply Frame.pure
    | with_reducible apply Frame.get
    | with_reducible apply Frame.panic
    | with_reducible apply Frame.timeout
    | with_reducible apply Frame.ite
    | with_reducible apply Frame.nextTick
    | with_reducible apply Frame.ofModify
    | exact appendToFd_keep _ _ _
    | rfl
    | with_reducible intro _
    | split
    | dsimp only

theorem Close_keep (env : Env) : Frame Impl.keep (Close env) := by
  unfold Close
  repeat' first
    | with_reducible apply IoError_keep
    | with_reducible apply Frame.bind
    | with_reducible apply Frame.pure
    | with_reducible apply Frame.get
    | with_reducible apply Frame.panic
    | with_reducible apply Frame.timeout
    | with_reducible apply Frame.ite
    | with_reducible apply Frame.nextTick
    | with_reducible apply Frame.ofModify
    | exact appendToFd_keep _ _ _
    | rfl
    | with_reducible intro _
    | split
    | dsimp only

theorem sysWrite_keep (env : Env) (b : Bytes) (n : Nat) : Frame Impl.keep (sysWrite env b n) := by
  unfold sysWrite
  repeat' first
    | with_reducible apply Frame.bind
    | with_reducible apply Frame.pure
    | with_reducible apply Frame.get
    | with_reducible apply Frame.panic
    | with_reducible apply Frame.timeout
    | with_reducible apply Frame.ite
    | with_reducible apply Frame.nextTick
    | with_reducible apply Frame.ofModify
    | exact appendToFd_keep _ _ _
    | rfl
    | with_reducible intro _
    | split
    | dsimp only

theorem writeLoop_keep (env : Env) (n : Nat) :
    ∀ (b : Bytes) (pos : Nat) (w e : Int), Frame Impl.keep (writeLoop env n b pos w e) := by
  induction n with
  | zero =>
    intro b pos w e
    exact Frame.timeout
  | succ n ih =>
    intro b pos w e
    unfold writeLoop
    repeat' first
      | with_reducible apply ih
      | with_reducible apply sysWrite_keep
      | with_reducible apply Frame.bind
      | with_reducible apply Frame.pure
      | with_reducible apply Frame.get
      | with_reducible apply Frame.panic
      | with_reducible apply Frame.timeout
      | with_reducible apply Frame.ite
      | with_reducible apply Frame.nextTick
      | with_reducible apply Frame.ofModify
      | exact appendToFd_keep _ _ _
      | rfl
      | with_reducible intro _
      | split
      | dsimp only

theorem write_keep (env : Env) (fuel : Nat) (b : Bytes) : Frame Impl.keep (write env fuel b) := by
  unfold write
  repeat' first
    | with_reducible apply IoError_keep
    | with_reducible apply IsLogStreamGood_keep
    | with_reducible apply writeLoop_keep
    | with_reducible apply Frame.bind
    | with_reducible apply Frame.pure
    | with_reducible apply Frame.get
    | with_reducible apply Frame.panic
    | with_reducible apply Frame.timeout
    | with_reducible apply Frame.ite
    | with_reducible apply Frame.nextTick
    | with_reducible apply Frame.ofModify
    | exact appendToFd_keep _ _ _
    | rfl
    | with_reducible intro _
    | split
    | dsimp only

theorem mdSyncSelf_keep (env : Env) (fuel : Nat) : Frame Impl.keep (mdSyncSelf env fuel) := by
  unfold mdSyncSelf
  repeat' first
    | with_reducible apply write_keep
    | with_reducible apply Frame.bind
    | with_reducible apply Frame.pure
    | with_reducible apply Frame.get
    | with_reducible apply Frame.panic
    | with_reducible apply Frame.timeout
    | with_reducible apply Frame.ite
    | with_reducible apply Frame.nextTick
    | with_reducible apply Frame.ofModify
    | exact appendToFd_keep _ _ _
    | rfl
    | with_reducible intro _
    | split
    | dsimp only

theorem mdWrite_keep (env : Env) (fuel : Nat) (b : Bytes) : Frame Impl.keep (mdWrite env fuel b) := by
  unfold mdWrite
  repeat' first
    | with_reducible apply mdSyncSelf_keep
    | with_reducible apply Frame.bind
    | with_reducible apply Frame.pure
    | with_reducible apply Frame.get
    | with_reducible apply Frame.panic
    | with_reducible apply Frame.timeout
    | with_reducible apply Frame.ite
    | with_reducible apply Frame.nextTick
    | with_reducible apply Frame.ofModify
    | exact appendToFd_keep _ _ _
    | rfl
    | with_reducible intro _
    | split
    | dsimp only

theorem mdFlush_keep (env : Env) (fuel : Nat) : Frame Impl.keep (mdFlush env fuel) := by
  unfold mdFlush flush
  repeat' first
    | with_reducible apply mdSyncSelf_keep
    | with_reducible apply IsLogStreamGood_keep
    | with_reducible apply Frame.bind
    | with_reducible apply Frame.pure
    | with_reducible apply Frame.get
    | with_reducible apply Frame.panic
    | with_reducible apply Frame.timeout
    | with_reducible apply Frame.ite
    | with_reducible apply Frame.nextTick
    | with_reducible apply Frame.ofModify
    | exact appendToFd_keep _ _ _
    | rfl
    | with_reducible intro _
    | split
    | dsimp only

theorem StartBlock_keep (c : Nat) : Frame Impl.keep (StartBlock c) := by
  unfold StartBlock mdSetSync
  repeat' first
    | with_reducible apply Frame.bind
    | with_reducible apply Frame.pure
    | with_reducible apply Frame.get
    | with_reducible apply Frame.panic
    | with_reducible apply Frame.timeout
    | with_reducible apply Frame.ite
    | with_reducible apply Frame.nextTick
    | with_reducible apply Frame.ofModify
    | exact appendToFd_keep _ _ _
    | rfl
    | with_reducible intro _
    | split
    | dsimp only

theorem FlushBlock_keep (env : Env) (fuel : Nat) (inLogSeq : Int) : Frame Impl.keep (FlushBlock env fuel inLogSeq) := by
  unfold FlushBlock mdSetSync
  repeat' first
    | with_reducible apply mdWrite_keep
    | with_reducible apply mdFlush_keep
    | with_reducible apply Sync_keep
    | with_reducible apply StartBlock_keep
    | with_reducible apply Frame.bind
    | with_reducible apply Frame.pure
    | with_reducible apply Frame.get
    | with_reducible apply Frame.panic
    | with_reducible apply Frame.timeout
    | with_reducible apply Frame.ite
    | with_reducible apply Frame.nextTick
    | with_reducible apply Frame.ofModify
    | exact appendToFd_keep _ _ _
    | rfl
    | with_reducible intro _
    | split
    | dsimp only

theorem NewLog_keep (env : Env) (fuel : Nat) (inLogSeq : Int) : Frame Impl.keep (NewLog env fuel inLogSeq) := by
  unfold NewLog microseconds DisplayIsoDateTime SetLogName mdReset mdClear mdSetHex mdSetSync
  repeat' first
    | with_reducible apply Close_keep
    | with_reducible apply IoError_keep
    | with_reducible apply IsLogStreamGood_keep
    | with_reducible apply mdWrite_keep
    | with_reducible apply FlushBlock_keep
    | with_reducible apply StartBlock_keep
    | with_reducible apply Frame.bind
    | with_reducible apply Frame.pure
    | with_reducible apply Frame.get
    | with_reducible apply Frame.panic
    | with_reducible apply Frame.timeout
    | with_reducible apply Frame.ite
    | with_reducible apply Frame.nextTick
    | with_reducible apply Frame.ofModify
    | exact appendToFd_keep _ _ _
    | rfl
    | with_reducible intro _
    | split
    | dsimp only

theorem CloseLog_keep (env : Env) (fuel : Nat) : Frame Impl.keep (CloseLog env fuel) := by
  unfold CloseLog DisplayIsoDateTime mdSetSync
  repeat' first
    | with_reducible apply Close_keep
    | with_reducible apply IoError_keep
    | with_reducible apply IsLogStreamGood_keep
    | with_reducible apply mdWrite_keep
    | with_reducible apply mdFlush_keep
    | with_reducible apply FlushBlock_keep
    | with_reducible apply Sync_keep
    | with_reducible apply Frame.bind
    | with_reducible apply Frame.pure
    | with_reducible apply Frame.get
    | with_reducible apply Frame.panic
    | with_reducible apply Frame.timeout
    | with_reducible apply Frame.ite
    | with_reducible apply Frame.nextTick
    | with_reducible apply Frame.ofModify
    | exact appendToFd_keep _ _ _
    | rfl
    | with_reducible intro _
    | split
    | dsimp only

theorem StartNextLog_keep (env : Env) (fuel : Nat) : Frame Impl.keep (StartNextLog env fuel) := by
  unfold StartNextLog
  repeat' first
    | with_reducible apply CloseLog_keep
    | with_reducible apply NewLog_keep
    | with_reducible apply Frame.bind
    | with_reducible apply Frame.pure
    | with_reducible apply Frame.get
    | with_reducible apply Frame.panic
    | with_reducible apply Frame.timeout
    | with_reducible apply Frame.ite
    | with_reducible apply Frame.nextTick
    | with_reducible apply Frame.ofModify
    | exact appendToFd_keep _ _ _
    | rfl
    | with_reducible intro _
    | split
    | dsimp only

theorem SetParameters_keep (env : Env) (pre : Option String) (props : Properties) : Frame Impl.keep (SetParameters env pre props) := by
  unfold SetParameters
  repeat' first
    | with_reducible apply Frame.bind
    | with_reducible apply Frame.pure
    | with_reducible apply Frame.get
    | with_reducible apply Frame.panic
    | with_reducible apply Frame.timeout
    | with_reducible apply Frame.ite
    | with_reducible apply Frame.nextTick
    | with_reducible apply Frame.ofModify
    | exact appendToFd_keep _ _ _
    | rfl
    | with_reducible intro _
    | split
    | dsimp only

theorem Control_keep (env : Env) (fuel : Nat) (p : Nat) : Frame Impl.keep (Control env fuel p) := by
  unfold Control
  repeat' first
    | with_reducible apply SetParameters_keep
    | with_reducible apply StartNextLog_keep
    | with_reducible apply IsLogStreamGood_keep
    | with_reducible apply Frame.bind
    | with_reducible apply Frame.pure
    | with_reducible apply Frame.get
    | with_reducible apply Frame.panic
    | with_reducible apply Frame.timeout
    | with_reducible apply Frame.ite
    | with_reducible apply Frame.nextTick
    | with_reducible apply Frame.ofModify
    | exact appendToFd_keep _ _ _
    | rfl
    | with_reducible intro _
    | split
    | dsimp only

theorem WriteBlock_keep (env : Env) (fuel : Nat) (p : Nat) : Frame Impl.keep (WriteBlock env fuel p) := by
  unfold WriteBlock mdSetSync mdClearBuffer
  repeat' first
    | with_reducible apply IsLogStreamGood_keep
    | with_reducible apply mdWrite_keep
    | with_reducible apply mdFlush_keep
    | with_reducible apply Sync_keep
    | with_reducible apply StartBlock_keep
    | with_reducible apply Frame.bind
    | with_reducible apply Frame.pure
    | with_reducible apply Frame.get
    | with_reducible apply Frame.panic
    | with_reducible apply Frame.timeout
    | with_reducible apply Frame.ite
    | with_reducible apply Frame.nextTick
    | with_reducible apply Frame.ofModify
    | exact appendToFd_keep _ _ _
    | rfl
    | with_reducible intro _
    | split
    | dsimp only

theorem IsSimulateFailure_keep (env : Env) : Frame Impl.keep (IsSimulateFailure env) := by
  unfold IsSimulateFailure
  repeat' first
    | with_reducible apply Frame.bind
    | with_reducible apply Frame.pure
    | with_reducible apply Frame.get
    | with_reducible apply Frame.panic
    | with_reducible apply Frame.timeout
    | with_reducible apply Frame.ite
    | with_reducible apply Frame.nextTick
    | with_reducible apply Frame.ofModify
    | exact appendToFd_keep _ _ _
    | rfl
    | with_reducible intro _
    | split
    | dsimp only

theorem LogError_keep (env : Env) (p : Nat) : Frame Impl.keep (LogError env p) := by
  unfold LogError
  repeat' first
    | with_reducible apply Frame.bind
    | with_reducible apply Frame.pure
    | with_reducible apply Frame.get
    | with_reducible apply Frame.panic
    | with_reducible apply Frame.timeout
    | with_reducible apply Frame.ite
    | with_reducible apply Frame.nextTick
    | with_reducible apply Frame.ofModify
    | exact appendToFd_keep _ _ _
    | rfl
    | with_reducible intro _
    | split
    | dsimp only

theorem WriteInner_keep (env : Env) (fuel : Nat) (n : Nat) :
    ∀ (head : Option Nat) (eb : Int) (sim up : Bool),
      Frame Impl.keep (WriteInner env fuel n head eb sim up) := by
  induction n with
  | zero =>
    intro head eb sim up
    exact Frame.timeout
  | succ n ih =>
    intro head eb sim up
    cases head with
    | none => exact Frame.pure _
    | some p =>
      unfold WriteInner
      repeat' first
        | with_reducible apply ih
        | with_reducible apply Control_keep
        | with_reducible apply mdWrite_keep
        | with_reducible apply LogError_keep
        | with_reducible apply Frame.bind
        | with_reducible apply Frame.pure
        | with_reducible apply Frame.get
        | with_reducible apply Frame.panic
        | with_reducible apply Frame.timeout
        | with_reducible apply Frame.ite
        | with_reducible apply Frame.nextTick
        | with_reducible apply Frame.ofModify
        | exact appendToFd_keep _ _ _
        | rfl
        | with_reducible intro _
        | split
        | dsimp only

theorem WriteFailed_keep (env : Env) (n : Nat) :
    ∀ (ptr endPtr : Option Nat), Frame Impl.keep (WriteFailed env n ptr endPtr) := by
  induction n with
  | zero =>
    intro ptr endPtr
    exact Frame.timeout
  | succ n ih =>
    intro ptr endPtr
    unfold WriteFailed
    repeat' first
      | with_reducible apply ih
      | with_reducible apply LogError_keep
      | with_reducible apply Frame.bind
      | with_reducible apply Frame.pure
      | with_reducible apply Frame.get
      | with_reducible apply Frame.panic
      | with_reducible apply Frame.timeout
      | with_reducible apply Frame.ite
      | with_reducible apply Frame.nextTick
      | with_reducible apply Frame.ofModify
      | exact appendToFd_keep _ _ _
      | rfl
      | with_reducible intro _
      | split
      | dsimp only

theorem WriteBatches_keep (env : Env) (fuel : Nat) (n : Nat) :
    ∀ (head : Option Nat), Frame Impl.keep (WriteBatches env fuel n head) := by
  induction n with
  | zero =>
    intro head
    exact Frame.timeout
  | succ n ih =>
    intro head
    cases head with
    | none => exact Frame.pure _
    | some p =>
      unfold WriteBatches
      repeat' first
        | with_reducible apply ih
        | with_reducible apply IsSimulateFailure_keep
        | with_reducible apply WriteInner_keep
        | with_reducible apply IsLogStreamGood_keep
        | with_reducible apply FlushBlock_keep
        | with_reducible apply WriteFailed_keep
        | with_reducible apply WriteBlock_keep
        | with_reducible apply Frame.bind
        | with_reducible apply Frame.pure
        | with_reducible apply Frame.get
        | with_reducible apply Frame.panic
        | with_reducible apply Frame.timeout
        | with_reducible apply Frame.ite
        | with_reducible apply Frame.nextTick
        | with_reducible apply Frame.ofModify
        | exact appendToFd_keep _ _ _
        | rfl
        | with_reducible intro _
        | split
        | dsimp only

theorem Write_keep (env : Env) (fuel : Nat) (head : Nat) :
    Frame Impl.keep (Write env fuel head) := by
  unfold Write microseconds mdSetSync
  repeat' first
    | with_reducible apply IsLogStreamGood_keep
    | with_reducible apply StartNextLog_keep
    | with_reducible apply NewLog_keep
    | with_reducible apply WriteBatches_keep
    | with_reducible apply Frame.bind
    | with_reducible apply Frame.pure
    | with_reducible apply Frame.get
    | with_reducible apply Frame.panic
    | with_reducible apply Frame.timeout
    | with_reducible apply Frame.ite
    | with_reducible apply Frame.nextTick
    | with_reducible apply Frame.ofModify
    | exact appendToFd_keep _ _ _
    | rfl
    | with_reducible intro _
    | split
    | dsimp only

section FrameUse

variable {α γ δ : Type}

theorem Frame.mono {f : Impl → γ} {g : Impl → δ} {m : M α}
    (h : ∀ s s', f s' = f s → g s' = g s) (hm : Frame f m) : Frame g m := by
  intro s a s' hs
  exact h s s' (hm s a s' hs)

theorem Frame.ledger_of_keep {m : M α} (hm : Frame Impl.keep m) : Frame Impl.ledger m :=
  Frame.mono (fun s s' h => by
    have h1 : s'.keep.ledger = s.keep.ledger := congrArg Impl.ledger h
    exact h1) hm

theorem Frame.to_post {f : Impl → γ} {m : M α} (hm : Frame f m) (s : Impl)
    (Q : α → Impl → Prop) (hq : ∀ a s', f s' = f s → Q a s') : M.post m s Q := by
  intro a s' h
  exact hq a s' (hm s a s' h)

end FrameUse

theorem splitPendingAck_ledger (n : Nat) :
    ∀ (ptr prev : Option Nat) (q : Queue), Frame Impl.ledger (splitPendingAck n ptr prev q) := by
  induction n with
  | zero =>
    intro ptr prev q
    exact Frame.timeout
  | succ n ih =>
    intro ptr prev q
    cases ptr with
    | none => exact Frame.pure _
    | some p =>
      unfold splitPendingAck
      repeat' first
        | with_reducible apply ih
        | with_reducible apply Frame.bind
        | with_reducible apply Frame.pure
        | with_reducible apply Frame.get
        | with_reducible apply Frame.ite
        | with_reducible apply Frame.ofModify
        | rfl
        | with_reducible intro _
        | split
        | dsimp only

theorem ProcessPendingAckQueue_ledger (fuel : Nat) (q : Queue) :
    Frame Impl.ledger (ProcessPendingAckQueue fuel q) := by
  unfold ProcessPendingAckQueue
  repeat' first
    | with_reducible apply splitPendingAck_ledger
    | with_reducible apply Frame.bind
    | with_reducible apply Frame.pure
    | with_reducible apply Frame.get
    | with_reducible apply Frame.ite
    | with_reducible apply Frame.ofModify
    | rfl
    | with_reducible intro _
    | split
    | dsimp only

theorem DispatchEnd_ledger (fuel : Nat) : Frame Impl.ledger (DispatchEnd fuel) := by
  unfold DispatchEnd
  repeat' first
    | with_reducible apply ProcessPendingAckQueue_ledger
    | with_reducible apply Frame.bind
    | with_reducible apply Frame.pure
    | with_reducible apply Frame.get
    | with_reducible apply Frame.ite
    | with_reducible apply Frame.ofModify
    | rfl
    | with_reducible intro _
    | split
    | dsimp only

theorem Enqueue_ledger (env : Env) (p : Nat) : Frame Impl.ledger (Enqueue env p) := by
  unfold Enqueue
  repeat' first
    | with_reducible apply Frame.bind
    | with_reducible apply Frame.pure
    | with_reducible apply Frame.get
    | with_reducible apply Frame.panic
    | with_reducible apply Frame.ite
    | with_reducible apply Frame.ofModify
    | rfl
    | with_reducible intro _
    | split
    | dsimp only

theorem Notify_ledger (env : Env) (seq : Int) : Frame Impl.ledger (Notify env seq) := by
  unfold Notify
  repeat' first
    | with_reducible apply Frame.bind
    | with_reducible apply Frame.pure
    | with_reducible apply Frame.get
    | with_reducible apply Frame.ite
    | with_reducible apply Frame.nextTick
    | with_reducible apply Frame.ofModify
    | rfl
    | with_reducible intro _
    | split
    | dsimp only

theorem deliver_commits (n : Nat) :
    ∀ (ptr : Option Nat), Frame (fun s => (s.mCommitted, s.mPendingCommitted, s.mInFlightCommitted))
      (deliver n ptr) := by
  induction n with
  | zero =>
    intro ptr
    exact Frame.timeout
  | succ n ih =>
    intro ptr
    cases ptr with
    | none => exact Frame.pure _
    | some p =>
      unfold deliver
      repeat' first
        | with_reducible apply ih
        | with_reducible apply Frame.bind
        | with_reducible apply Frame.pure
        | with_reducible apply Frame.get
        | with_reducible apply Frame.panic
        | with_reducible apply Frame.ite
        | with_reducible apply Frame.ofModify
        | rfl
        | with_reducible intro _
        | split
        | dsimp only

theorem Timeout_commits (fuel : Nat) :
    Frame (fun s => (s.mCommitted, s.mPendingCommitted, s.mInFlightCommitted)) (Timeout fuel) := by
  unfold Timeout
  repeat' first
    | with_reducible apply deliver_commits
    | with_reducible apply Frame.bind
    | with_reducible apply Frame.pure
    | with_reducible apply Frame.get
    | with_reducible apply Frame.ite
    | with_reducible apply Frame.ofModify
    | rfl
    | with_reducible intro _
    | split
    | dsimp only

theorem CommitOrder.of_ledger {s s' : Impl} (h : s'.ledger = s.ledger) (hs : CommitOrder s) :
    CommitOrder s' := by
  unfold Impl.ledger at h
  simp only [Prod.mk.injEq] at h
  obtain ⟨h1, h2, h3, -⟩ := h
  unfold CommitOrder
  rw [h1, h2, h3]
  exact hs

/-- `DispatchStart` leaves `mCommitted`, `mPendingCommitted` and
`mMaxDoneLogSeq` as they were, and `mInFlightCommitted` as it was or equal to
`mPendingCommitted`. -/
theorem DispatchStart_ledger (env : Env) (fuel : Nat) (s s' : Impl)
    (h : DispatchStart env fuel s = Res.ok () s') :
    s'.mCommitted = s.mCommitted ∧ s'.mPendingCommitted = s.mPendingCommitted ∧
      (s'.mInFlightCommitted = s.mInFlightCommitted ∨
        s'.mInFlightCommitted = s.mPendingCommitted) ∧
      s'.mMaxDoneLogSeq = s.mMaxDoneLogSeq := by
  have key : M.post (DispatchStart env fuel) s (fun _ s' =>
      s'.mCommitted = s.mCommitted ∧ s'.mPendingCommitted = s.mPendingCommitted ∧
      (s'.mInFlightCommitted = s.mInFlightCommitted ∨
        s'.mInFlightCommitted = s.mPendingCommitted) ∧
      s'.mMaxDoneLogSeq = s.mMaxDoneLogSeq) := by
    have led : ∀ {s1 s2 : Impl}, s2.ledger = s1.ledger →
        s2.mCommitted = s1.mCommitted ∧ s2.mPendingCommitted = s1.mPendingCommitted ∧
          s2.mInFlightCommitted = s1.mInFlightCommitted ∧ s2.mMaxDoneLogSeq = s1.mMaxDoneLogSeq := by
      intro s1 s2 h
      unfold Impl.ledger at h
      simp only [Prod.mk.injEq] at h
      exact h
    have tailNone : ∀ s1 : Impl, s1.ledger = s.ledger →
        M.post (ProcessPendingAckQueue fuel Queue.empty) s1 (fun _ s' =>
          s'.mCommitted = s.mCommitted ∧ s'.mPendingCommitted = s.mPendingCommitted ∧
          (s'.mInFlightCommitted = s.mInFlightCommitted ∨
            s'.mInFlightCommitted = s.mPendingCommitted) ∧
          s'.mMaxDoneLogSeq = s.mMaxDoneLogSeq) := by
      intro s1 h1
      refine (ProcessPendingAckQueue_ledger fuel Queue.empty).to_post _ _ ?_
      intro a s2 h2
      obtain ⟨f1, f2, f3, f4⟩ := led (h2.trans h1)
      exact ⟨f1, f2, Or.inl f3, f4⟩
    have tailSome : ∀ (head : Nat) (s1 : Impl), s1.mCommitted = s.mCommitted →
        s1.mPendingCommitted = s.mPendingCommitted → s1.mInFlightCommitted = s.mPendingCommitted →
        s1.mMaxDoneLogSeq = s.mMaxDoneLogSeq →
        M.post (Write env fuel head) s1 (fun _ s2 =>
          M.post (ProcessPendingAckQueue fuel s.mInQueue) s2 (fun _ s' =>
            s'.mCommitted = s.mCommitted ∧ s'.mPendingCommitted = s.mPendingCommitted ∧
            (s'.mInFlightCommitted = s.mInFlightCommitted ∨
              s'.mInFlightCommitted = s.mPendingCommitted) ∧
            s'.mMaxDoneLogSeq = s.mMaxDoneLogSeq)) := by
      intro head s1 e1 e2 e3 e4
      refine (Write_keep env fuel head).ledger_of_keep.to_post _ _ ?_
      intro a s2 h2
      refine (ProcessPendingAckQueue_ledger fuel s.mInQueue).to_post _ _ ?_
      intro b s3 h3
      obtain ⟨f1, f2, f3, f4⟩ := led (h3.trans h2)
      exact ⟨f1.trans e1, f2.trans e2, Or.inr (f3.trans e3), f4.trans e4⟩
    simp only [DispatchStart, M.post_bind_iff, M.post_get_iff, M.post_ite_iff, M.post_modify_iff,
      M.post_pure_iff]
    cases hq : s.mInQueue.Front with
    | none =>
      simp only [M.post_bind_iff, M.post_ite_iff, M.post_pure_iff]
      split_ifs
      · exact tailNone _ rfl
      · simp
      · exact tailNone _ rfl
      · simp
    | some head =>
      simp only [M.post_bind_iff, M.post_modify_iff, M.post_pure_iff]
      split_ifs
      · exact tailSome head _ rfl rfl rfl rfl
      · exact tailSome head _ rfl rfl rfl rfl
  exact key () s' h

theorem Start_commits (env : Env) (fuel : Nat) (inLogNum inLogSeq inCommittedLogSeq
    inCommittedFidSeed inCommittedErrCheckSum inCommittedStatus : Int)
    (inLogAppendMdStatePtr : Option MdStateCtx) (inLogAppendStartSeq inLogAppendLastBlockSeq : Int)
    (inLogAppendHexFlag : Bool) (inParametersPrefixPtr : Option String) (inParameters : Properties)
    (s s' : Impl) (name : String)
    (h : Start env fuel inLogNum inLogSeq inCommittedLogSeq inCommittedFidSeed
      inCommittedErrCheckSum inCommittedStatus inLogAppendMdStatePtr inLogAppendStartSeq
      inLogAppendLastBlockSeq inLogAppendHexFlag inParametersPrefixPtr inParameters s =
        Res.ok (0, some name) s') :
    s'.mPendingCommitted = s'.mCommitted ∧ s'.mInFlightCommitted = s'.mCommitted := by
  have key : M.post (Start env fuel inLogNum inLogSeq inCommittedLogSeq inCommittedFidSeed
      inCommittedErrCheckSum inCommittedStatus inLogAppendMdStatePtr inLogAppendStartSeq
      inLogAppendLastBlockSeq inLogAppendHexFlag inParametersPrefixPtr inParameters) s
      (fun r s' => r.2.isSome = true →
        s'.mPendingCommitted = s'.mCommitted ∧ s'.mInFlightCommitted = s'.mCommitted) := by
    have led : ∀ {s1 s2 : Impl}, s2.ledger = s1.ledger →
        s1.mPendingCommitted = s1.mCommitted ∧ s1.mInFlightCommitted = s1.mCommitted →
        s2.mPendingCommitted = s2.mCommitted ∧ s2.mInFlightCommitted = s2.mCommitted := by
      intro s1 s2 h hs
      unfold Impl.ledger at h
      simp only [Prod.mk.injEq] at h
      obtain ⟨h1, h2, h3, -⟩ := h
      rw [h1, h2, h3]
      exact hs
    cases inLogAppendMdStatePtr with
    | none =>
      simp only [Start, M.post_bind_iff, M.post_get_iff, M.post_ite_iff, M.post_pure_iff,
        M.post_modify_iff, mdReset]
      split_ifs with hc
      · intro h
        cases h
      intro theErr s2 _
      split_ifs with he
      · intro h
        cases h
      refine Frame.to_post (Frame.ledger_of_keep (NewLog_keep _ _ _)) _ _ ?_
      intro _ s3 h3
      refine Frame.to_post (Frame.ledger_of_keep IsLogStreamGood_keep) _ _ ?_
      intro good s4 h4
      split_ifs
      · intro h
        cases h
      · intro _
        exact led (h4.trans h3) ⟨rfl, rfl⟩
    | some ctx =>
      have step : ∀ {α : Type} {m : M α} (_ : Frame Impl.ledger m) {s1 : Impl}
          {Q : α → Impl → Prop},
          (s1.mPendingCommitted = s1.mCommitted ∧ s1.mInFlightCommitted = s1.mCommitted) →
          (∀ a s2, (s2.mPendingCommitted = s2.mCommitted ∧
            s2.mInFlightCommitted = s2.mCommitted) → Q a s2) → M.post m s1 Q := by
        intro α m hm s1 Q hs hq
        exact Frame.to_post hm _ _ (fun a s2 h2 => hq a s2 (led h2 hs))
      simp only [Start, M.post_bind_iff, M.post_get_iff, M.post_ite_iff, M.post_pure_iff,
        M.post_modify_iff, mdReset, SetLogName, microseconds, mdSetHex, M.post_nextTick_iff]
      split_ifs with hc
      · intro h
        cases h
      · intro theErr s2 _
        split_ifs with he hf
        · intro h
          cases h
        · intro h
          cases h
        refine step (Frame.ledger_of_keep (Close_keep _)) ⟨rfl, rfl⟩ ?_
        intro _ s3 h3
        split_ifs
        · refine step (Frame.ledger_of_keep (IoError_keep _)) h3 ?_
          intro _ _ _ h
          cases h
        · refine step (Frame.ledger_of_keep (IoError_keep _)) h3 ?_
          intro _ _ _ h
          cases h
        · intro h
          cases h
        · refine step (Frame.ledger_of_keep (StartNextLog_keep _ _)) h3 ?_
          intro _ s4 h4
          refine step (Frame.ledger_of_keep IsLogStreamGood_keep) h4 ?_
          intro good s5 h5
          split_ifs
          · intro h
            cases h
          · intro _
            exact h5
      · intro theErr s2 _
        split_ifs with he hf
        · intro h
          cases h
        · intro h
          cases h
        refine step (Frame.ledger_of_keep (Close_keep _)) ⟨rfl, rfl⟩ ?_
        intro _ s3 h3
        split_ifs
        · refine step (Frame.ledger_of_keep (IoError_keep _)) h3 ?_
          intro _ _ _ h
          cases h
        · refine step (Frame.ledger_of_keep (IoError_keep _)) h3 ?_
          intro _ _ _ h
          cases h
        · intro h
          cases h
        · refine step (Frame.ledger_of_keep (StartBlock_keep _)) h3 ?_
          intro _ s4 h4
          refine step (Frame.ledger_of_keep IsLogStreamGood_keep) h4 ?_
          intro good s5 h5
          split_ifs
          · intro h
            cases h
          · intro _
            exact h5
  exact key _ _ h rfl

theorem afterClose_ledger (s : Impl) : (afterClose s).ledger = s.ledger := by
  unfold afterClose
  split <;> rfl

theorem afterNewLog_ledger (env : Env) (s : Impl) (inLogSeq : Int) :
    (afterNewLog env s inLogSeq).ledger = s.ledger :=
  afterClose_ledger s

theorem Start_fresh_total (env : Env) (io : FileOk env)
    (htx : ∀ t, env.transmitterSetParameters t = 0) (k : Nat) (inLogNum inLogSeq
    inCommittedLogSeq inCommittedFidSeed inCommittedErrCheckSum inCommittedStatus : Int)
    (inLogAppendStartSeq inLogAppendLastBlockSeq : Int)
    (inLogAppendHexFlag : Bool) (inParametersPrefixPtr : Option String) (inParameters : Properties)
    (s : Impl) (hn : 0 ≤ inLogNum) (hl : 0 ≤ inLogSeq) (hr : s.mThreadStarted = false)
    (hp : s.mNetManagerPtr = false) :
    ∃ name s', Start env (k + 2) inLogNum inLogSeq inCommittedLogSeq inCommittedFidSeed
      inCommittedErrCheckSum inCommittedStatus none inLogAppendStartSeq
      inLogAppendLastBlockSeq inLogAppendHexFlag inParametersPrefixPtr inParameters s =
        Res.ok (0, some name) s' ∧ s'.mCommitted.mSeq = inCommittedLogSeq ∧
      s'.mPendingCommitted.mSeq = inCommittedLogSeq ∧
      s'.mInFlightCommitted.mSeq = inCommittedLogSeq := by
  have key : M.total (Start env (k + 2) inLogNum inLogSeq inCommittedLogSeq inCommittedFidSeed
      inCommittedErrCheckSum inCommittedStatus none inLogAppendStartSeq
      inLogAppendLastBlockSeq inLogAppendHexFlag inParametersPrefixPtr inParameters) s
      (fun r s' => (∃ name, r = (0, some name)) ∧ s'.mCommitted.mSeq = inCommittedLogSeq ∧
        s'.mPendingCommitted.mSeq = inCommittedLogSeq ∧
        s'.mInFlightCommitted.mSeq = inCommittedLogSeq) := by
    have h0 : ¬ (inLogNum < 0 ∨ inLogSeq < 0 ∨
        ((none : Option MdStateCtx).isSome = true ∧ inLogSeq < inLogAppendStartSeq) ∨
        (s.mThreadStarted = true ∨ s.mNetManagerPtr = true)) := by
      rw [hr, hp]
      simp only [Option.isSome_none, Bool.false_eq_true, false_and, or_self, or_false, not_or,
        not_lt]
      exact ⟨hn, hl⟩
    simp only [Start, SetParameters, M.total_bind_iff, M.total_get_iff, h0, if_false,
      M.total_modify_iff, M.total_nextTick_iff, M.total_pure_iff, htx, ne_eq, not_true_eq_false,
      mdReset]
    refine NewLog_total env io k _ _ ?_
    refine IsLogStreamGood_total _ (afterFlushBlock_good env _ _ ⟨rfl, io.open_ok _, rfl⟩) ?_
    simp only [Bool.not_true, Bool.false_eq_true, if_false, M.total_bind_iff, M.total_get_iff,
      M.total_modify_iff, M.total_pure_iff]
    have e1 : ∀ X : Impl, (afterNewLog env X inLogSeq).mCommitted = X.mCommitted :=
      fun X => congrArg (fun l => l.1) (afterNewLog_ledger env X inLogSeq)
    have e2 : ∀ X : Impl, (afterNewLog env X inLogSeq).mPendingCommitted = X.mPendingCommitted :=
      fun X => congrArg (fun l => l.2.1) (afterNewLog_ledger env X inLogSeq)
    have e3 : ∀ X : Impl, (afterNewLog env X inLogSeq).mInFlightCommitted = X.mInFlightCommitted :=
      fun X => congrArg (fun l => l.2.2.1) (afterNewLog_ledger env X inLogSeq)
    rw [e1, e2, e3]
    exact ⟨⟨_, rfl⟩, rfl, rfl, rfl⟩
  obtain ⟨r, s', h, ⟨name, rfl⟩, h2⟩ := key
  exact ⟨name, s', h, h2⟩

theorem RequestCommitted_commits (env : Env) (p : Nat) (fid : Int) (s s' : Impl)
    (h : RequestCommitted env p fid s = Res.ok () s') :
    s'.mPendingCommitted = s.mPendingCommitted ∧
      s'.mInFlightCommitted = s.mInFlightCommitted ∧
      s'.mMaxDoneLogSeq = s.mMaxDoneLogSeq ∧ s.mCommitted.mSeq ≤ s'.mCommitted.mSeq := by
  rcases RequestCommitted_cases env p fid s with ⟨-, e⟩ | ⟨-, c, -, -, e⟩ | ⟨-, -, -, e⟩ |
    ⟨-, -, -, -, e⟩ | ⟨-, -, -, -, -, e⟩ | ⟨-, -, hl, -, ho, e⟩
  · rw [e] at h
    cases h
    exact ⟨rfl, rfl, rfl, le_refl _⟩
  · rw [e] at h
    cases h
  · rw [e] at h
    cases h
    exact ⟨rfl, rfl, rfl, le_refl _⟩
  · rw [e] at h
    cases h
  · rw [e] at h
    cases h
  · rw [e] at h
    cases h
    refine ⟨rfl, rfl, rfl, ?_⟩
    unfold outOfOrder at ho
    show s.mCommitted.mSeq ≤ (s.mem p).logseq
    by_cases h0 : 0 ≤ s.mCommitted.mSeq
    · have h1 : s.mCommitted.mSeq + 1 = (s.mem p).logseq := by
        by_contra hne
        exact ho ⟨hne, h0⟩
      omega
    · omega

theorem ScheduleFlush_commits (s s' : Impl) (h : ScheduleFlush s = Res.ok () s') :
    s'.mCommitted = s.mCommitted ∧ s'.mInFlightCommitted = s.mInFlightCommitted ∧
      s'.mMaxDoneLogSeq = s.mMaxDoneLogSeq ∧
      (s'.mPendingCommitted = s.mPendingCommitted ∨ s'.mPendingCommitted = s.mCommitted) := by
  have key : M.post ScheduleFlush s (fun _ s' =>
      s'.mCommitted = s.mCommitted ∧ s'.mInFlightCommitted = s.mInFlightCommitted ∧
      s'.mMaxDoneLogSeq = s.mMaxDoneLogSeq ∧
      (s'.mPendingCommitted = s.mPendingCommitted ∨ s'.mPendingCommitted = s.mCommitted)) := by
    simp only [ScheduleFlush, M.post_bind_iff, M.post_get_iff, M.post_ite_iff, M.post_pure_iff,
      M.post_modify_iff]
    split_ifs <;> simp
  exact key _ _ h

theorem Step.commitOrder (env : Env) (s s' : Impl)
    (h : Step env (fun s seq => s.mCommitted.mSeq ≤ seq) s s') (hs : CommitOrder s) :
    CommitOrder s' := by
  unfold CommitOrder at hs ⊢
  cases h with
  | enqueue p b h => exact CommitOrder.of_ledger (Enqueue_ledger env p s b s' h) hs
  | committed p fid h =>
    obtain ⟨h1, h2, -, h3⟩ := RequestCommitted_commits env p fid s s' h
    rw [h1, h2]
    exact ⟨hs.1, le_trans hs.2 h3⟩
  | setCommitted seq chk fid st ha h =>
    cases h
    exact ⟨hs.1, le_trans hs.2 ha⟩
  | scheduleFlush h =>
    obtain ⟨h1, h2, -, h3⟩ := ScheduleFlush_commits s s' h
    rw [h1, h2]
    rcases h3 with h3 | h3
    · rw [h3]
      exact hs
    · rw [h3]
      exact ⟨le_trans hs.1 hs.2, le_refl _⟩
  | dispatchStart fuel h =>
    obtain ⟨h1, h2, h3, -⟩ := DispatchStart_ledger env fuel s s' h
    rw [h1, h2]
    rcases h3 with h3 | h3
    · rw [h3]
      exact hs
    · rw [h3]
      exact ⟨le_refl _, hs.2⟩
  | dispatchEnd fuel h => exact CommitOrder.of_ledger (DispatchEnd_ledger fuel s () s' h) hs
  | timeout fuel h =>
    have := Timeout_commits fuel s () s' h
    simp only [Prod.mk.injEq] at this
    obtain ⟨h1, h2, h3⟩ := this
    rw [h1, h2, h3]
    exact hs
  | notify seq h => exact CommitOrder.of_ledger (Notify_ledger env seq s () s' h) hs

/-- Claim C10, as stated, fails: after a successful `Start` with committed log
sequence 5, `SetCommitted` with log sequence 3 leaves
`mPendingCommitted.mSeq = 5` above `mCommitted.mSeq = 3`. -/
theorem CommitOrder_claim_counterexample :
    ∃ s, Reachable envOk (fun _ _ => True) s ∧ s.mPendingCommitted.mSeq = 5 ∧
      s.mCommitted.mSeq = 3 ∧ ¬ CommitOrder s := by
  obtain ⟨name, s1, h, -, h2, -⟩ := Start_fresh_total envOk envOk_fileOk (fun _ => rfl) 0
    0 0 5 0 0 0 0 0 false none Properties.none
    (Impl.init envOk (fun _ => reqEx LogAction.kLogAlways 0) (fun _ => 0))
    (le_refl _) (le_refl _) rfl rfl
  refine ⟨{ s1 with mCommitted := { mSeq := 3, mErrChkSum := 0, mFidSeed := 0, mStatus := 0 } },
    ⟨_, s1, _, _, _, _, _, _, _, _, _, _, _, _, _, name, h,
      Relation.ReflTransGen.single (Step.setCommitted _ _ 3 0 0 0 trivial rfl)⟩, h2, rfl, ?_⟩
  unfold CommitOrder
  intro hc
  have h3 : s1.mPendingCommitted.mSeq ≤ 3 := hc.2
  rw [h2] at h3
  exact absurd h3 (by decide)

/-- Claim C10, amended: in every state reachable from a successful `Start` by
any sequence of `Enqueue`, `Committed`, `ScheduleFlush`, worker dispatch steps,
`Timeout`, `Notify`, and those `SetCommitted` calls whose log sequence is not
below the current `mCommitted.mSeq`,
`mInFlightCommitted.mSeq <= mPendingCommitted.mSeq <= mCommitted.mSeq`. -/
theorem CommitOrder_reachable (env : Env) (s : Impl)
    (h : Reachable env (fun s seq => s.mCommitted.mSeq ≤ seq) s) : CommitOrder s := by
  obtain ⟨s0, s1, fuel, a1, a2, a3, a4, a5, a6, a7, a8, a9, a10, a11, a12, name, hstart, hrun⟩ := h
  induction hrun with
  | refl =>
    obtain ⟨h1, h2⟩ := Start_commits env fuel a1 a2 a3 a4 a5 a6 a7 a8 a9 a10 a11 a12 s0 s1 name hstart
    unfold CommitOrder
    rw [h1, h2]
    exact ⟨le_refl _, le_refl _⟩
  | tail _ hstep ih => exact Step.commitOrder env _ _ hstep ih

theorem CommitOrder_reachable_witness :
    ∃ s, Reachable envOk (fun s seq => s.mCommitted.mSeq ≤ seq) s ∧ s.mCommitted.mSeq = 7 ∧
      CommitOrder s := by
  obtain ⟨name, s1, h, h1, -, -⟩ := Start_fresh_total envOk envOk_fileOk (fun _ => rfl) 0
    0 0 5 0 0 0 0 0 false none Properties.none
    (Impl.init envOk (fun _ => reqEx LogAction.kLogAlways 0) (fun _ => 0))
    (le_refl _) (le_refl _) rfl rfl
  have hr : Reachable envOk (fun s seq => s.mCommitted.mSeq ≤ seq)
      { s1 with mCommitted := { mSeq := 7, mErrChkSum := 0, mFidSeed := 0, mStatus := 0 } } :=
    ⟨_, s1, _, _, _, _, _, _, _, _, _, _, _, _, _, name, h,
      Relation.ReflTransGen.single (Step.setCommitted _ _ 7 0 0 0
        (by show s1.mCommitted.mSeq ≤ 7; rw [h1]; decide) rfl)⟩
  exact ⟨_, hr, rfl, CommitOrder_reachable envOk _ hr⟩

theorem deliverRun_append (mem : Nat → MetaRequest) (l1 l2 : List Nat) (m c : Int) :
    deliverRun mem (l1 ++ l2) m c =
      (deliverRun mem l1 m c).bind (fun r => deliverRun mem l2 r.1 r.2) := by
  induction l1 generalizing m c with
  | nil => rfl
  | cons p ps ih =>
    simp only [List.cons_append, deliverRun]
    split_ifs
    · rfl
    · rfl
    · exact ih _ _
    · exact ih _ _

theorem deliverRun_none_iff (mem : Nat → MetaRequest) (l : List Nat) (m c : Int) :
    deliverRun mem l m c = none ↔
      ∃ l1 p l2 m1 c1, l = l1 ++ p :: l2 ∧ deliverRun mem l1 m c = some (m1, c1) ∧
        ((0 ≤ (mem p).logseq ∧ (mem p).logseq ≤ m1) ∨ c1 - 1 < 0) := by
  constructor
  · intro h
    induction l generalizing m c with
    | nil => simp [deliverRun] at h
    | cons p ps ih =>
      by_cases hb : (0 ≤ (mem p).logseq ∧ (mem p).logseq ≤ m) ∨ c - 1 < 0
      · exact ⟨[], p, ps, m, c, rfl, rfl, hb⟩
      · have hb1 : ¬ (0 ≤ (mem p).logseq ∧ (mem p).logseq ≤ m) := fun h => hb (Or.inl h)
        have hb2 : ¬ (c - 1 < 0) := fun h => hb (Or.inr h)
        simp only [deliverRun, if_neg hb1, if_neg hb2] at h
        obtain ⟨l1, q, l2, m1, c1, e, hr, hv⟩ := ih _ _ h
        refine ⟨p :: l1, q, l2, m1, c1, by rw [e]; rfl, ?_, hv⟩
        simp only [deliverRun, if_neg hb1, if_neg hb2]
        exact hr
  · rintro ⟨l1, p, l2, m1, c1, rfl, hr, hv⟩
    rw [deliverRun_append, hr]
    simp only [Option.some_bind, deliverRun]
    rcases hv with hv | hv
    · rw [if_pos hv]
    · split_ifs <;> rfl

theorem lastLogged_append_singleton (mem : Nat → MetaRequest) (l : List Nat) (p : Nat) :
    lastLogged mem (l ++ [p]) =
      if 0 ≤ (mem p).logseq then some p else lastLogged mem l := by
  unfold lastLogged
  rw [List.reverse_append, List.reverse_singleton, List.singleton_append, List.find?_cons]
  by_cases h : 0 ≤ (mem p).logseq
  · simp [h]
  · simp [h]

theorem deliverRun_max (mem : Nat → MetaRequest) (l : List Nat) (m c m1 c1 : Int)
    (h : deliverRun mem l m c = some (m1, c1)) :
    m1 = match lastLogged mem l with
      | some p => (mem p).logseq
      | none => m := by
  induction l using List.reverseRecOn generalizing m1 c1 with
  | nil =>
    simp only [deliverRun, Option.some.injEq, Prod.mk.injEq] at h
    exact h.1.symm
  | append_singleton l p ih =>
    rw [deliverRun_append] at h
    cases hr : deliverRun mem l m c with
    | none => simp [hr] at h
    | some r =>
      obtain ⟨m2, c2⟩ := r
      have h2 := ih m2 c2 hr
      rw [hr] at h
      simp only [Option.some_bind, deliverRun] at h
      rw [lastLogged_append_singleton]
      split_ifs at h with h3 h4 h5
      · simp only [Option.some.injEq, Prod.mk.injEq] at h
        rw [if_pos h5]
        exact h.1.symm
      · simp only [Option.some.injEq, Prod.mk.injEq] at h
        rw [if_neg h5, ← h.1]
        exact h2

theorem Frame.done_of_keep {α : Type} {m : M α} (hm : Frame Impl.keep m) :
    Frame (fun s : Impl => s.mMaxDoneLogSeq) m :=
  Frame.mono (fun s s' h => by
    have h1 : s'.keep.mMaxDoneLogSeq = s.keep.mMaxDoneLogSeq := congrArg _ h
    exact h1) hm

theorem Frame.done_of_ledger {α : Type} {m : M α} (hm : Frame Impl.ledger m) :
    Frame (fun s : Impl => s.mMaxDoneLogSeq) m :=
  Frame.mono (fun s s' h => congrArg (fun l => l.2.2.2) h) hm

theorem Start_done (env : Env) (fuel : Nat) (inLogNum inLogSeq inCommittedLogSeq
    inCommittedFidSeed inCommittedErrCheckSum inCommittedStatus : Int)
    (inLogAppendMdStatePtr : Option MdStateCtx) (inLogAppendStartSeq inLogAppendLastBlockSeq : Int)
    (inLogAppendHexFlag : Bool) (inParametersPrefixPtr : Option String) (inParameters : Properties) :
    Frame (fun s : Impl => s.mMaxDoneLogSeq)
      (Start env fuel inLogNum inLogSeq inCommittedLogSeq inCommittedFidSeed
        inCommittedErrCheckSum inCommittedStatus inLogAppendMdStatePtr inLogAppendStartSeq
        inLogAppendLastBlockSeq inLogAppendHexFlag inParametersPrefixPtr inParameters) := by
  unfold Start mdReset SetLogName microseconds mdSetHex
  repeat' first
    | with_reducible exact Frame.done_of_keep (SetParameters_keep _ _ _)
    | with_reducible exact Frame.done_of_keep (StartNextLog_keep _ _)
    | with_reducible exact Frame.done_of_keep (NewLog_keep _ _ _)
    | with_reducible exact Frame.done_of_keep (StartBlock_keep _)
    | with_reducible exact Frame.done_of_keep (Close_keep _)
    | with_reducible exact Frame.done_of_keep (IoError_keep _)
    | with_reducible exact Frame.done_of_keep IsLogStreamGood_keep
    | with_reducible apply Frame.bind
    | with_reducible apply Frame.pure
    | with_reducible apply Frame.get
    | with_reducible apply Frame.panic
    | with_reducible apply Frame.timeout
    | with_reducible apply Frame.ite
    | with_reducible apply Frame.nextTick
    | with_reducible apply Frame.ofModify
    | rfl
    | with_reducible intro _
    | split
    | dsimp only

/-- C13: `Timeout` on an out queue holding the requests `l` returns or panics.
When it returns, `mMaxDoneLogSeq` is not below its previous value, and is the
`logseq` of the last delivered request with `logseq >= 0` when there is one
(its previous value otherwise).  It panics exactly when `mPendingCount > 0` and,
after delivering some prefix `l1` of the queue (leaving `mMaxDoneLogSeq = m` and
`mPendingCount = c`), it meets a request with `0 <= logseq <= m`, or `c - 1 < 0`.
`Enqueue`, `RequestCommitted`, `SetCommitted`, `ScheduleFlush`, `DispatchStart`,
`DispatchEnd`, `Notify` and `Start` leave `mMaxDoneLogSeq` as it was. -/
theorem Timeout_max_done (env : Env) (fuel : Nat) (s : Impl) (l : List Nat)
    (hch : isChain s.mem s.mOutQueue.Front l = true) (hfuel : l.length < fuel)
    (hint : s.mPendingCount ≤ 2147483647) :
    ((∃ s', Timeout fuel s = Res.ok () s') ∨ (∃ msg s', Timeout fuel s = Res.panic msg s')) ∧
    (∀ s', Timeout fuel s = Res.ok () s' →
      s.mMaxDoneLogSeq ≤ s'.mMaxDoneLogSeq ∧
      s'.mMaxDoneLogSeq =
        match (if 0 < s.mPendingCount then lastLogged s.mem l else none) with
        | some p => (s.mem p).logseq
        | none => s.mMaxDoneLogSeq) ∧
    ((∃ msg s', Timeout fuel s = Res.panic msg s') ↔
      0 < s.mPendingCount ∧ ∃ l1 p l2 m c, l = l1 ++ p :: l2 ∧
        deliverRun s.mem l1 s.mMaxDoneLogSeq s.mPendingCount = some (m, c) ∧
        ((0 ≤ (s.mem p).logseq ∧ (s.mem p).logseq ≤ m) ∨ c - 1 < 0)) ∧
    (∀ p, Frame (fun s : Impl => s.mMaxDoneLogSeq) (Enqueue env p)) ∧
    (∀ p fid, Frame (fun s : Impl => s.mMaxDoneLogSeq) (RequestCommitted env p fid)) ∧
    (∀ seq chk fid st, Frame (fun s : Impl => s.mMaxDoneLogSeq) (SetCommitted seq chk fid st)) ∧
    Frame (fun s : Impl => s.mMaxDoneLogSeq) ScheduleFlush ∧
    (∀ n, Frame (fun s : Impl => s.mMaxDoneLogSeq) (DispatchStart env n)) ∧
    (∀ n, Frame (fun s : Impl => s.mMaxDoneLogSeq) (DispatchEnd n)) ∧
    (∀ seq, Frame (fun s : Impl => s.mMaxDoneLogSeq) (Notify env seq)) ∧
    (∀ (n : Nat) (inLogNum inLogSeq inCommittedLogSeq inCommittedFidSeed inCommittedErrCheckSum
        inCommittedStatus : Int) (inLogAppendMdStatePtr : Option MdStateCtx)
        (inLogAppendStartSeq inLogAppendLastBlockSeq : Int) (inLogAppendHexFlag : Bool)
        (inParametersPrefixPtr : Option String) (inParameters : Properties),
      Frame (fun s : Impl => s.mMaxDoneLogSeq)
        (Start env n inLogNum inLogSeq inCommittedLogSeq inCommittedFidSeed
          inCommittedErrCheckSum inCommittedStatus inLogAppendMdStatePtr inLogAppendStartSeq
          inLogAppendLastBlockSeq inLogAppendHexFlag inParametersPrefixPtr inParameters)) := by
  have hframes : ∀ (P : Prop), P → P ∧
      (∀ p, Frame (fun s : Impl => s.mMaxDoneLogSeq) (Enqueue env p)) ∧
      (∀ p fid, Frame (fun s : Impl => s.mMaxDoneLogSeq) (RequestCommitted env p fid)) ∧
      (∀ seq chk fid st, Frame (fun s : Impl => s.mMaxDoneLogSeq) (SetCommitted seq chk fid st)) ∧
      Frame (fun s : Impl => s.mMaxDoneLogSeq) ScheduleFlush ∧
      (∀ n, Frame (fun s : Impl => s.mMaxDoneLogSeq) (DispatchStart env n)) ∧
      (∀ n, Frame (fun s : Impl => s.mMaxDoneLogSeq) (DispatchEnd n)) ∧
      (∀ seq, Frame (fun s : Impl => s.mMaxDoneLogSeq) (Notify env seq)) ∧
      (∀ (n : Nat) (inLogNum inLogSeq inCommittedLogSeq inCommittedFidSeed inCommittedErrCheckSum
          inCommittedStatus : Int) (inLogAppendMdStatePtr : Option MdStateCtx)
          (inLogAppendStartSeq inLogAppendLastBlockSeq : Int) (inLogAppendHexFlag : Bool)
          (inParametersPrefixPtr : Option String) (inParameters : Properties),
        Frame (fun s : Impl => s.mMaxDoneLogSeq)
          (Start env n inLogNum inLogSeq inCommittedLogSeq inCommittedFidSeed
            inCommittedErrCheckSum inCommittedStatus inLogAppendMdStatePtr inLogAppendStartSeq
            inLogAppendLastBlockSeq inLogAppendHexFlag inParametersPrefixPtr inParameters)) := by
    intro P hP
    refine ⟨hP, fun p => Frame.done_of_ledger (Enqueue_ledger env p), ?_, ?_, ?_, ?_,
      fun n => Frame.done_of_ledger (DispatchEnd_ledger n),
      fun seq => Frame.done_of_ledger (Notify_ledger env seq),
      fun n a1 a2 a3 a4 a5 a6 a7 a8 a9 a10 a11 a12 =>
        Start_done env n a1 a2 a3 a4 a5 a6 a7 a8 a9 a10 a11 a12⟩
    · intro p fid s1 a s2 h
      exact (RequestCommitted_commits env p fid s1 s2 h).2.2.1
    · intro seq chk fid st s1 a s2 h
      cases h
      rfl
    · intro s1 a s2 h
      exact (ScheduleFlush_commits s1 s2 h).2.2.1
    · intro n s1 a s2 h
      exact (DispatchStart_ledger env n s1 s2 h).2.2.2
  rw [← and_assoc, ← and_assoc]
  refine hframes _ ?_
  rw [and_assoc]
  by_cases hpos : 0 < s.mPendingCount
  swap
  · have hidle := Timeout_idle fuel s (not_lt.mp hpos)
    refine ⟨Or.inl ⟨s, hidle⟩, ?_, ?_⟩
    · intro s' h
      rw [hidle] at h
      cases h
      rw [if_neg hpos]
      exact ⟨le_refl _, rfl⟩
    · constructor
      · rintro ⟨msg, s', h⟩
        rw [hidle] at h
        cases h
      · rintro ⟨h, -⟩
        exact absurd h hpos
  rw [Timeout_busy fuel s hpos, if_pos hpos]
  rcases deliver_spec l fuel s.mOutQueue.Front { s with mOutQueue := s.mOutQueue.Reset } hfuel hch
    (le_of_lt hpos) hint with ⟨m, c, hr, hd⟩ | ⟨hr, msg, s1, hd⟩
  · have hr' : deliverRun s.mem l s.mMaxDoneLogSeq s.mPendingCount = some (m, c) := hr
    refine ⟨Or.inl ⟨_, hd⟩, ?_, ?_⟩
    · intro s' h
      rw [hd] at h
      cases h
      exact ⟨(deliverRun_count _ _ _ _ _ _ hr').2, deliverRun_max _ _ _ _ _ _ hr'⟩
    · constructor
      · rintro ⟨msg, s', h⟩
        rw [hd] at h
        cases h
      · rintro ⟨-, hex⟩
        have := (deliverRun_none_iff s.mem l s.mMaxDoneLogSeq s.mPendingCount).mpr hex
        rw [hr'] at this
        cases this
  · have hr' : deliverRun s.mem l s.mMaxDoneLogSeq s.mPendingCount = none := hr
    refine ⟨Or.inr ⟨_, _, hd⟩, ?_, ?_⟩
    · intro s' h
      rw [hd] at h
      cases h
    · constructor
      · intro _
        exact ⟨hpos, (deliverRun_none_iff s.mem l s.mMaxDoneLogSeq s.mPendingCount).mp hr'⟩
      · intro _
        exact ⟨_, _, hd⟩

theorem Timeout_stateDone_returns : ∃ s', Timeout 5 stateDone = Res.ok () s' := by
  rw [Timeout_busy 5 stateDone (by decide)]
  rcases deliver_spec [2, 3] 5 stateDone.mOutQueue.Front
    { stateDone with mOutQueue := stateDone.mOutQueue.Reset } (by decide) (by decide) (by decide)
    (by decide) with ⟨m, c, -, hd⟩ | ⟨hr, -⟩
  · exact ⟨_, hd⟩
  · exact absurd hr (by decide)

/-- Witness for `Timeout_max_done`: the out queue holds request 2 (log sequence
4) followed by request 3 (log sequence 5), and `mMaxDoneLogSeq = 3`; `Timeout`
returns with `mMaxDoneLogSeq = 5`. -/
theorem Timeout_max_done_witness :
    isChain stateDone.mem stateDone.mOutQueue.Front [2, 3] = true ∧
    ([2, 3] : List Nat).length < 5 ∧ stateDone.mPendingCount ≤ 2147483647 ∧
    stateDone.mMaxDoneLogSeq = 3 ∧
    ∃ s', Timeout 5 stateDone = Res.ok () s' ∧ stateDone.mMaxDoneLogSeq ≤ s'.mMaxDoneLogSeq ∧
      s'.mMaxDoneLogSeq = 5 := by
  obtain ⟨s', h⟩ := Timeout_stateDone_returns
  have key := (Timeout_max_done envOk 5 stateDone [2, 3] (by decide) (by decide)
    (by decide)).2.1 s' h
  exact ⟨by decide, by decide, by decide, rfl, s', h, key.1, key.2⟩

theorem and_seven_and_val (t : Nat) (perm : PBits) :
    (((t &&& 0x7) &&& perm.val) != 0) = t.testBit perm.bit := by
  have h7 : t &&& 7 < 8 := Nat.lt_of_le_of_lt Nat.and_le_right (by decide)
  have hb : (t &&& 7).testBit perm.bit = t.testBit perm.bit := by
    rw [Nat.testBit_and]
    have hs : Nat.testBit 7 perm.bit = true := by
      cases perm <;> decide
    rw [hs, Bool.and_true]
  rw [← hb]
  generalize t &&& 7 = u at h7
  interval_cases u <;> cases perm <;> decide

theorem GetPermissions_eq (m : Nat → Nat → Bool) (p : PermissionsT) (euser egroup : Nat) :
    PermissionsT.GetPermissions m p euser egroup =
      (p.mode >>> PermissionsT.triad m p euser egroup) &&& 0x7 := by
  unfold PermissionsT.GetPermissions PermissionsT.triad
  split_ifs <;> rfl

/-- C30: `Access` returns true when the effective user is root; otherwise it
returns true exactly when the bit `perm` of the selected triad of the mode is
set, the triad being the owner bits (from bit 6) when the effective user is the
owner, else the group bits (from bit 3) when the effective group is the group
or `IsGroupMember` holds, else the other bits (from bit 0).  So a non-root
owner whose owner bits deny `perm` is denied whatever the other bits are, and
`GetPermissions` is at most 7.  `Permissions` is the instance whose
`IsGroupMember` is always false. -/
theorem Access_selected_triad (IsGroupMember : Nat → Nat → Bool) (kKfsUserRoot : Nat)
    (p : PermissionsT) (euser egroup : Nat) (perm : PBits) :
    (euser = kKfsUserRoot → PermissionsT.Access IsGroupMember kKfsUserRoot p euser egroup perm = true) ∧
    (euser ≠ kKfsUserRoot →
      PermissionsT.Access IsGroupMember kKfsUserRoot p euser egroup perm =
        p.mode.testBit (PermissionsT.triad IsGroupMember p euser egroup + perm.bit)) ∧
    (p.user = euser → PermissionsT.triad IsGroupMember p euser egroup = 6) ∧
    (p.user ≠ euser → (p.group = egroup ∨ IsGroupMember euser p.group = true) →
      PermissionsT.triad IsGroupMember p euser egroup = 3) ∧
    (p.user ≠ euser → p.group ≠ egroup → IsGroupMember euser p.group = false →
      PermissionsT.triad IsGroupMember p euser egroup = 0) ∧
    (euser ≠ kKfsUserRoot → p.user = euser → p.mode.testBit (6 + perm.bit) = false →
      PermissionsT.Access IsGroupMember kKfsUserRoot p euser egroup perm = false) ∧
    PermissionsT.GetPermissions IsGroupMember p euser egroup ≤ 7 ∧
    (p.user ≠ euser → p.group ≠ egroup →
      PermissionsT.GetPermissions UserAndGroupNone.IsGroupMember p euser egroup = p.mode &&& 0x7) := by
  have hacc : euser ≠ kKfsUserRoot →
      PermissionsT.Access IsGroupMember kKfsUserRoot p euser egroup perm =
        p.mode.testBit (PermissionsT.triad IsGroupMember p euser egroup + perm.bit) := by
    intro hne
    unfold PermissionsT.Access
    rw [GetPermissions_eq, and_seven_and_val, Nat.testBit_shiftRight]
    simp [hne]
  have h6 : p.user = euser → PermissionsT.triad IsGroupMember p euser egroup = 6 := by
    intro h
    simp [PermissionsT.triad, h]
  refine ⟨?_, hacc, h6, ?_, ?_, ?_, ?_, ?_⟩
  · intro h
    simp [PermissionsT.Access, h]
  · intro h1 h2
    simp [PermissionsT.triad, h1, h2]
  · intro h1 h2 h3
    simp [PermissionsT.triad, h1, h2, h3]
  · intro hne hu hb
    rw [hacc hne, h6 hu]
    exact hb
  · rw [GetPermissions_eq]
    exact Nat.and_le_right
  · intro h1 h2
    simp [PermissionsT.GetPermissions, h1, h2, UserAndGroupNone.IsGroupMember]

/-- Witness for `Access_selected_triad`: with mode 067 the owner (user 10, not
root) is denied `kRead`, although the group and the other bits allow it. -/
theorem Access_selected_triad_witness :
    (10 : Nat) ≠ 0 ∧ Nat.testBit 0o067 (6 + PBits.kRead.bit) = false ∧
    PermissionsT.Access UserAndGroupNone.IsGroupMember 0 ⟨10, 20, 0o067⟩ 10 20 PBits.kRead = false :=
  ⟨by decide, by decide,
    (Access_selected_triad UserAndGroupNone.IsGroupMember 0 ⟨10, 20, 0o067⟩ 10 20
      PBits.kRead).2.2.2.2.2.1 (by decide) rfl (by decide)⟩

theorem Notify_run (env : Env) (inSeq : Int) (s : Impl) :
    Notify env inSeq s = Res.ok ()
      { s with
        mTransmitCommitted := inSeq
        mTransmitterUpFlag := env.transmitterIsUp s.tick
        tick := s.tick + 1
        mWokenFlag := s.mWokenFlag || decide (s.mTransmitCommitted < inSeq) } := by
  by_cases h : s.mTransmitCommitted < inSeq
  · rcases Bool.eq_false_or_eq_true s.mWokenFlag with hw | hw
    · simp [Notify, M.bind_run, M.get_run, M.modify_run, M.pure_run, nextTick, h, hw]
    · simp [Notify, M.bind_run, M.get_run, M.modify_run, M.pure_run, nextTick, h, hw]
  · rcases Bool.eq_false_or_eq_true s.mWokenFlag with hw | hw
    · simp [Notify, M.bind_run, M.get_run, M.modify_run, M.pure_run, nextTick, h, hw]
    · simp [Notify, M.bind_run, M.get_run, M.modify_run, M.pure_run, nextTick, h, hw]

/-- Claim C29, as stated, fails: with `mTransmitCommitted = 5`, `Notify(3)`
leaves `mTransmitCommitted = 3`, which is neither the larger of 5 and 3 nor at
least the previous value. -/
theorem Notify_claim_counterexample :
    ∃ s', Notify envOk 3 stateNotified = Res.ok () s' ∧ s'.mTransmitCommitted = 3 ∧
      s'.mTransmitCommitted ≠ max stateNotified.mTransmitCommitted 3 ∧
      s'.mTransmitCommitted < stateNotified.mTransmitCommitted :=
  ⟨_, Notify_run envOk 3 stateNotified, rfl, by decide, by decide⟩

/-- Claim C29, amended: for every writer state and every reported sequence
`inSeq`, `Notify(inSeq)` returns and leaves `mTransmitCommitted = inSeq`; so
`mTransmitCommitted` does not decrease under `Notify` exactly when `inSeq` is not
below its previous value, and it is then the larger of the two. -/
theorem Notify_assigns (env : Env) (inSeq : Int) (s : Impl) :
    ∃ s', Notify env inSeq s = Res.ok () s' ∧ s'.mTransmitCommitted = inSeq ∧
      (s.mTransmitCommitted ≤ s'.mTransmitCommitted ↔ s.mTransmitCommitted ≤ inSeq) ∧
      (s.mTransmitCommitted ≤ inSeq → s'.mTransmitCommitted = max s.mTransmitCommitted inSeq) :=
  ⟨_, Notify_run env inSeq s, rfl, Iff.rfl, fun h => (max_eq_right h).symm⟩

theorem WriteBlock_bad_start_run (env : Env) (fuel : Nat) (p : Nat) (s : Impl)
    (hd : 0 < (s.mem p).blockData.length) (hl : (s.mem p).blockLines ≠ [])
    (hseq : s.mLastLogSeq = s.mNextLogSeq) (hstart : (s.mem p).blockStartSeq ≠ s.mLastLogSeq) :
    WriteBlock env fuel p s = Res.ok ()
      (s.setReq p fun r =>
        { r with status := -EINVAL, statusMsg := "invalid block start sequence" }) := by
  have h1 : ¬ (s.mem p).blockData.length ≤ 0 := by omega
  have h2 : (s.mem p).blockLines.isEmpty = false := by
    cases h : (s.mem p).blockLines with
    | nil => exact absurd h hl
    | cons a l => rfl
  have h3 : ¬ s.mLastLogSeq ≠ s.mNextLogSeq := fun h => h hseq
  simp only [WriteBlock, M.bind_run, M.get_run, h1, if_false, M.pure_run, h2, Bool.false_eq_true,
    h3, hstart, ne_eq, not_false_eq_true, if_true, M.modify_run]

/-- C21: a `WriteBlock` call with non-empty payload and lines and
`mLastLogSeq = mNextLogSeq` but `blockStartSeq != mLastLogSeq` returns with the
request's status `-EINVAL` and message "invalid block start sequence"; the
request's block data and every other request are as before, and so are
`mNextBlockSeq`, `mNextLogSeq`, `mLastLogSeq`, `mBlockChecksum`, `mWriteState`,
the sink, the transmitted blocks and the files. -/
theorem WriteBlock_bad_start (env : Env) (fuel : Nat) (p : Nat) (s : Impl)
    (hd : 0 < (s.mem p).blockData.length) (hl : (s.mem p).blockLines ≠ [])
    (hseq : s.mLastLogSeq = s.mNextLogSeq) (hstart : (s.mem p).blockStartSeq ≠ s.mLastLogSeq) :
    ∃ s', WriteBlock env fuel p s = Res.ok () s' ∧
      (s'.mem p).status = -EINVAL ∧ (s'.mem p).statusMsg = "invalid block start sequence" ∧
      (s'.mem p).blockData = (s.mem p).blockData ∧
      (s'.mem p).blockLines = (s.mem p).blockLines ∧
      (∀ q, q ≠ p → s'.mem q = s.mem q) ∧
      s'.mNextBlockSeq = s.mNextBlockSeq ∧ s'.mNextLogSeq = s.mNextLogSeq ∧
      s'.mLastLogSeq = s.mLastLogSeq ∧ s'.mBlockChecksum = s.mBlockChecksum ∧
      s'.mWriteState = s.mWriteState ∧ s'.mMdStream = s.mMdStream ∧
      s'.transmitted = s.transmitted ∧ s'.files = s.files ∧ s'.tick = s.tick := by
  refine ⟨_, WriteBlock_bad_start_run env fuel p s hd hl hseq hstart, ?_, ?_, ?_, ?_, ?_,
    rfl, rfl, rfl, rfl, rfl, rfl, rfl, rfl, rfl⟩
  · simp [Impl.setReq]
  · simp [Impl.setReq]
  · simp [Impl.setReq]
  · simp [Impl.setReq]
  · intro q hq
    simp [Impl.setReq, Function.update_noteq hq]

/-- Witness for `WriteBlock_bad_start`: the block request starts at sequence 10
and the writer is at sequence 11. -/
theorem WriteBlock_bad_start_witness :
    ∃ s', WriteBlock envOk 5 1 stateBlockAhead = Res.ok () s' ∧
      (s'.mem 1).status = -EINVAL ∧ (s'.mem 1).statusMsg = "invalid block start sequence" ∧
      s'.transmitted = stateBlockAhead.transmitted ∧ s'.files = stateBlockAhead.files := by
  obtain ⟨s', h, h1, h2, -, -, -, -, -, -, -, -, -, h3, h4, -⟩ :=
    WriteBlock_bad_start envOk 5 1 stateBlockAhead (by decide) (by decide) (by decide) (by decide)
  exact ⟨s', h, h1, h2, h3, h4⟩

theorem parseBlockCommitted_cases (env : Env) (line : Bytes) :
    parseBlockCommitted env line = -1 ∨
      ∃ d, env.HexIntParse d = some (parseBlockCommitted env line) := by
  unfold parseBlockCommitted
  split
  · split_ifs
    · exact Or.inl rfl
    · dsimp only
      split_ifs
      · cases hv : env.HexIntParse _ with
        | none => exact Or.inl rfl
        | some v => exact Or.inr ⟨_, hv⟩
      · exact Or.inl rfl
  · exact Or.inl rfl

theorem WriteBlock_bad_format_total (env : Env) (fuel : Nat) (p : Nat) (s : Impl)
    (hdata : (s.mem p).blockData ≠ []) (hlines : (s.mem p).blockLines ≠ [])
    (hseq : s.mLastLogSeq = s.mNextLogSeq) (hstart : (s.mem p).blockStartSeq = s.mLastLogSeq)
    (hg : Good s)
    (hparse : parseBlockCommitted env
      (lastBlockLine (s.mMdStream.buf ++ (s.mem p).blockData)
        (s.mMdStream.buf ++ (s.mem p).blockData).length ((s.mem p).blockLines.getLast?.getD 0)) < 0) :
    M.total (WriteBlock env fuel p) s (fun _ s' =>
      (s'.mem p).status = - kEIO ∧ (s'.mem p).statusMsg = "log write: invalid block format" ∧
      (s'.mem p).blockCommitted = parseBlockCommitted env
        (lastBlockLine (s.mMdStream.buf ++ (s.mem p).blockData)
          (s.mMdStream.buf ++ (s.mem p).blockData).length ((s.mem p).blockLines.getLast?.getD 0)) ∧
      s'.mMdStream.buf = [] ∧ s'.mNextBlockSeq = s.mNextBlockSeq ∧
      s'.mNextLogSeq = s.mNextLogSeq ∧ s'.mLastLogSeq = s.mLastLogSeq ∧
      s'.transmitted = s.transmitted ∧ s'.files = s.files ∧ s'.tick = s.tick) := by
  obtain ⟨he, hfd, hf⟩ := hg
  have h1 : ¬ ((s.mem p).blockData.length ≤ 0) := by
    have := List.length_pos.mpr hdata
    omega
  have h2 : (s.mem p).blockLines.isEmpty = false := by
    cases hb : (s.mem p).blockLines with
    | nil => exact absurd hb hlines
    | cons a l => rfl
  have h3 : ¬ (s.mLastLogSeq ≠ s.mNextLogSeq) := not_not.mpr hseq
  have h4 : ¬ ((s.mem p).blockStartSeq ≠ s.mLastLogSeq) := not_not.mpr hstart
  simp only [WriteBlock, M.total_bind_iff, M.total_get_iff, h1, h2, h3, h4, if_false,
    Bool.false_eq_true, M.total_pure_iff]
  refine IsLogStreamGood_total _ ⟨he, hfd, hf⟩ ?_
  simp only [Bool.not_true, Bool.false_eq_true, if_false, M.total_pure_iff, M.total_bind_iff,
    mdSetSync, M.total_modify_iff, M.total_get_iff]
  refine mdWrite_nosync_total env _ _ _ hf rfl ?_
  simp only [M.total_bind_iff, M.total_modify_iff, M.total_get_iff]
  refine mdWrite_nosync_total env _ _ _ hf rfl ?_
  refine mdFlush_nosync_total env _ _ rfl ?_
  simp only [M.total_bind_iff, M.total_modify_iff, M.total_get_iff]
  refine mdWrite_nosync_total env _ _ _ hf rfl ?_
  refine mdFlush_nosync_total env _ _ rfl ?_
  simp only [M.total_bind_iff, M.total_modify_iff, M.total_get_iff, showInt, length_append_sub,
    drop_length_add, Impl.setReq, lastBlockLine_append4, take_drop_append4, hparse,
    if_true, M.total_pure_iff, mdClearBuffer, Function.update_same, Function.update_idem]
  refine ⟨trivial, trivial, trivial, trivial, ?_, trivial, trivial, trivial, trivial, trivial⟩
  omega

/-- Claim C22, as stated, fails: with a parser that reads `-5` as -5, the block
whose only line is `c/` `-5/` passes the preconditions and does not start with
`c/` and a non-negative integer; `WriteBlock` fails it with "log write: invalid
block format" but leaves `blockCommitted = -5`, not -1. -/
theorem WriteBlock_bad_format_counterexample :
    ∃ s', WriteBlock envSigned 5 1 stateSigned = Res.ok () s' ∧
      (s'.mem 1).statusMsg = "log write: invalid block format" ∧
      (s'.mem 1).blockCommitted = -5 ∧ (s'.mem 1).blockCommitted ≠ -1 := by
  obtain ⟨_, s', h, -, h2, h3, -⟩ := WriteBlock_bad_format_total envSigned 5 1 stateSigned
    (by decide) (by decide) (by decide) (by decide) ⟨rfl, by decide, rfl⟩ (by decide)
  have h4 : (s'.mem 1).blockCommitted = -5 := by
    rw [h3]
    decide
  refine ⟨s', h, h2, h4, ?_⟩
  rw [h4]
  decide

/-- Claim C22, amended: a `WriteBlock` call that passes its preconditions
(non-empty payload and lines, `mLastLogSeq = mNextLogSeq = blockStartSeq`, good
stream) and whose last block line does not parse to a non-negative number
(`parseBlockCommitted` is negative: the line does not start with `c/`, has no
closing `/`, the parser rejects the digits, or the parser reads a negative
number) returns with the request's status `-EIO`, message "log write: invalid
block format" and `blockCommitted` negative: -1, or the negative number the
parser read.  The sink buffer is empty, `mNextBlockSeq`, `mNextLogSeq` and
`mLastLogSeq` are as before, and nothing is transmitted or written to a file. -/
theorem WriteBlock_bad_format (env : Env) (fuel : Nat) (p : Nat) (s : Impl)
    (hdata : (s.mem p).blockData ≠ []) (hlines : (s.mem p).blockLines ≠ [])
    (hseq : s.mLastLogSeq = s.mNextLogSeq) (hstart : (s.mem p).blockStartSeq = s.mLastLogSeq)
    (hg : Good s)
    (hparse : parseBlockCommitted env
      (lastBlockLine (s.mMdStream.buf ++ (s.mem p).blockData)
        (s.mMdStream.buf ++ (s.mem p).blockData).length ((s.mem p).blockLines.getLast?.getD 0)) < 0) :
    ∃ s', WriteBlock env fuel p s = Res.ok () s' ∧
      (s'.mem p).status = - kEIO ∧ (s'.mem p).statusMsg = "log write: invalid block format" ∧
      (s'.mem p).blockCommitted < 0 ∧
      ((s'.mem p).blockCommitted = -1 ∨
        ∃ d, env.HexIntParse d = some (s'.mem p).blockCommitted) ∧
      ((∀ d v, env.HexIntParse d = some v → 0 ≤ v) → (s'.mem p).blockCommitted = -1) ∧
      s'.mMdStream.buf = [] ∧ s'.mNextBlockSeq = s.mNextBlockSeq ∧
      s'.mNextLogSeq = s.mNextLogSeq ∧ s'.mLastLogSeq = s.mLastLogSeq ∧
      s'.transmitted = s.transmitted ∧ s'.files = s.files ∧ s'.tick = s.tick := by
  obtain ⟨_, s', h, h1, h2, h3, h4, h5, h6, h7, h8, h9, h10⟩ :=
    WriteBlock_bad_format_total env fuel p s hdata hlines hseq hstart hg hparse
  have hc := parseBlockCommitted_cases env
    (lastBlockLine (s.mMdStream.buf ++ (s.mem p).blockData)
      (s.mMdStream.buf ++ (s.mem p).blockData).length ((s.mem p).blockLines.getLast?.getD 0))
  rw [← h3] at hc hparse
  refine ⟨s', h, h1, h2, hparse, hc, ?_, h4, h5, h6, h7, h8, h9, h10⟩
  intro hnn
  rcases hc with hc | ⟨d, hd⟩
  · exact hc
  · have := hnn d _ hd
    omega

/-- Witness for `WriteBlock_bad_format`: the block `c/4/` with a parser that
rejects every digit string. -/
theorem WriteBlock_bad_format_witness :
    ∃ s', WriteBlock envOk 5 1 stateWriteBlock = Res.ok () s' ∧
      (s'.mem 1).status = - kEIO ∧ (s'.mem 1).statusMsg = "log write: invalid block format" ∧
      (s'.mem 1).blockCommitted = -1 ∧ s'.mMdStream.buf = [] ∧
      s'.transmitted = stateWriteBlock.transmitted ∧ s'.files = stateWriteBlock.files := by
  obtain ⟨s', h, h1, h2, -, -, h5, h6, -, -, -, h10, h11, -⟩ :=
    WriteBlock_bad_format envOk 5 1 stateWriteBlock (by decide) (by decide) (by decide)
      (by decide) ⟨rfl, by decide, rfl⟩ (by decide)
  exact ⟨s', h, h1, h2, h5 (fun d v hv => by cases hv), h6, h10, h11⟩

theorem appendToFd_tick (s : Impl) (fd : Int) (data : Bytes) :
    (appendToFd s fd data).tick = s.tick := by
  obtain ⟨f, hf⟩ := appendToFd_eq s fd data
  rw [hf]

theorem appendToFd_mLogFd (s : Impl) (fd : Int) (data : Bytes) :
    (appendToFd s fd data).mLogFd = s.mLogFd := by
  obtain ⟨f, hf⟩ := appendToFd_eq s fd data
  rw [hf]

theorem appendToFd_fds (s : Impl) (fd : Int) (data : Bytes) :
    (appendToFd s fd data).fds = s.fds := by
  obtain ⟨f, hf⟩ := appendToFd_eq s fd data
  rw [hf]

theorem sysWrite_run (env : Env) (buf : Bytes) (n : Nat) (s : Impl) (r : Nat)
    (h : env.sysWrite s.tick n = r) (hr : r ≤ n) :
    sysWrite env buf n s =
      Res.ok ((r : Int), env.errno s.tick)
        (appendToFd { s with tick := s.tick + 1 } s.mLogFd (buf.take r)) := by
  have hm : min (r : Int) (n : Int) = r := min_eq_left (by exact_mod_cast hr)
  simp [sysWrite, nextTick, h, hm, M.bind_run, M.modify_run, M.pure_run]

theorem writeLoop_short (env : Env) (n : Nat) (buf : Bytes) (s : Impl) (k : Nat)
    (hk : 0 < k) (hk2 : k < buf.length)
    (h1 : env.sysWrite s.tick buf.length = k)
    (h2 : env.sysWrite (s.tick + 1) (buf.length - k) = (buf.length - k : Nat)) :
    writeLoop env (n + 3) buf 0 0 0 s =
      Res.ok (((buf.length - k : Nat) : Int), env.errno (s.tick + 1))
        (appendToFd
          { appendToFd { s with tick := s.tick + 1 } s.mLogFd (buf.take k) with
            tick := s.tick + 1 + 1 }
          s.mLogFd (buf.take (buf.length - k))) := by
  have hlen : 0 < buf.length := by omega
  set s1 := appendToFd { s with tick := s.tick + 1 } s.mLogFd (buf.take k) with hs1
  have t1 : s1.tick = s.tick + 1 := appendToFd_tick _ _ _
  have f1 : s1.mLogFd = s.mLogFd := appendToFd_mLogFd _ _ _
  have e1 := sysWrite_run env buf (buf.length - 0) s k (by simpa using h1) (by omega)
  have e2 := sysWrite_run env buf (buf.length - (0 + k)) s1 (buf.length - k)
    (by rw [t1]; simpa using h2) (by omega)
  rw [writeLoop, if_pos hlen]
  simp only [M.bind_run, e1]
  have hnn : (0 : Int) ≤ (k : Int) := by omega
  simp only [hnn, if_true, Int.toNat_ofNat]
  rw [writeLoop, if_pos (by omega : 0 + k < buf.length)]
  simp only [M.bind_run, e2]
  have hnn2 : (0 : Int) ≤ ((buf.length - k : Nat) : Int) := by omega
  simp only [hnn2, if_true, Int.toNat_ofNat]
  rw [writeLoop, if_neg (by omega : ¬ 0 + k + (buf.length - k) < buf.length)]
  simp only [M.pure_run, t1, f1]

theorem write_retry_total (env : Env) (fuel : Nat) (buf : Bytes) (s : Impl) (k : Nat)
    (name : String) (old : Bytes) (Q : Bool → Impl → Prop)
    (hg : Good s) (hsync : s.mMdStream.sync = true)
    (hfd : s.fds s.mLogFd = some name) (hfile : s.files name = some old)
    (hk : 0 < k) (hk2 : k < buf.length)
    (h1 : env.sysWrite s.tick buf.length = k)
    (h2 : env.sysWrite (s.tick + 1) (buf.length - k) = (buf.length - k : Nat))
    (hq : ∀ s', s'.files name = some (old ++ buf.take k ++ buf.take (buf.length - k)) →
      Q true s') :
    M.total (write env (fuel + 3) buf) s Q := by
  have hlen : 0 < buf.length := by omega
  have hs : (!s.mMdStream.sync) = false := by rw [hsync]; rfl
  have hcont : ∀ s1 : Impl, Good s1 → s1.fds = s.fds → s1.files = s.files →
      s1.mLogFd = s.mLogFd → s1.tick = s.tick →
      M.total (do
        let good ← IsLogStreamGood
        if good = true then do
          let r ← writeLoop env (fuel + 3) buf 0 0 0
          if r.1 < 0 then do
            IoError r.2
            IsLogStreamGood
          else do
            Pure.pure PUnit.unit
            IsLogStreamGood
        else do
          Pure.pure PUnit.unit
          IsLogStreamGood) s1 Q := by
    intro s1 hg1 e1 e2 e3 e4
    simp only [M.total_bind_iff]
    refine IsLogStreamGood_total _ hg1 ?_
    simp only [if_true, M.total_bind_iff]
    refine ⟨_, _, writeLoop_short env fuel buf s1 k hk hk2 (by rw [e4]; exact h1)
      (by rw [e4]; exact h2), ?_⟩
    simp only [M.total_bind_iff, M.total_pure_iff]
    have hfd1 : s1.fds s1.mLogFd = some name := by rw [e1, e3]; exact hfd
    have hin : (appendToFd { s1 with tick := s1.tick + 1 } s1.mLogFd (buf.take k)).files name =
        some (old ++ buf.take k) := by
      refine (appendToFd_files_of_open { s1 with tick := s1.tick + 1 } s1.mLogFd name
        (buf.take k) hfd1).trans ?_
      show some ((s1.files name).getD [] ++ buf.take k) = _
      rw [e2, hfile]
      rfl
    have hfd2 : (appendToFd { s1 with tick := s1.tick + 1 } s1.mLogFd (buf.take k)).fds
        s1.mLogFd = some name := by
      rw [appendToFd_fds]
      exact hfd1
    refine IsLogStreamGood_total _ ?_ (hq _ ?_)
    · rw [appendToFd_good]
      exact (appendToFd_good { s1 with tick := s1.tick + 1 } s1.mLogFd (buf.take k)).mpr hg1
    · refine (appendToFd_files_of_open
        { appendToFd { s1 with tick := s1.tick + 1 } s1.mLogFd (buf.take k) with
          tick := s1.tick + 1 + 1 } s1.mLogFd name (buf.take (buf.length - k)) hfd2).trans ?_
      show some (((appendToFd { s1 with tick := s1.tick + 1 } s1.mLogFd
        (buf.take k)).files name).getD [] ++ _) = _
      rw [hin]
      rfl
  simp only [write, M.total_bind_iff, M.total_get_iff, hs, Bool.false_eq_true, if_false,
    M.total_pure_iff, hlen, if_true]
  split_ifs
  · exact hcont _ hg rfl rfl rfl rfl
  · exact hcont _ hg rfl rfl rfl rfl

/-- Claim C23 at the failing input: `write` of the four bytes `abcd`, the first
`::write` call taking 2 bytes.  The retry passes `inBufPtr` again, not the
first byte not yet written, so the log file receives `abab`. -/
theorem write_short_retry :
    ∃ s', write envShort 5 ['a', 'b', 'c', 'd'] stateSync = Res.ok true s' ∧
      stateSync.files "./kfslog/log.0" = some [] ∧
      s'.files "./kfslog/log.0" = some ['a', 'b', 'a', 'b'] := by
  have key := write_retry_total envShort 2 ['a', 'b', 'c', 'd'] stateSync 2 "./kfslog/log.0" []
    (fun r s' => r = true ∧ s'.files "./kfslog/log.0" = some ['a', 'b', 'a', 'b'])
    ⟨rfl, by decide, rfl⟩ rfl (by decide) (by decide) (by decide) (by decide) (by decide)
    (by decide)
    (fun s' h => ⟨rfl, h⟩)
  obtain ⟨r, s', h, rfl, h2⟩ := key
  exact ⟨s', h, by decide, h2⟩

/-- Claim C24 at the failing input: the log file is open at descriptor 0.
`Close` returns false and leaves the file open and `mLogFd = 0`. -/
theorem Close_fd_zero :
    Close envOk stateFdZero = Res.ok false stateFdZero ∧ stateFdZero.mLogFd = 0 ∧
      ¬ stateFdZero.mLogFd < 0 ∧ stateFdZero.fds stateFdZero.mLogFd = some "./kfslog/log.0" := by
  refine ⟨?_, rfl, by decide, by decide⟩
  simp only [Close, M.bind_run, M.get_run, M.pure_run]
  rfl

theorem MdStream.setFail_stream_eq (m : MdStream) (h : m.fail = false) :
    ({ m with fail := false } : MdStream) = m := by
  cases m
  simp only at h
  subst h
  rfl

theorem setFail_eq (s : Impl) (h : s.mMdStream.fail = false) :
    ({ s with mMdStream := { s.mMdStream with fail := false } } : Impl) = s := by
  rw [MdStream.setFail_stream_eq _ h]

theorem innerRun_nil (env : Env) (eb : Int) (sim up : Bool) (s : Impl) :
    innerRun env eb sim up [] s = ⟨none, [], [], s⟩ := rfl

theorem logReq_next (env : Env) (s : Impl) (p q : Nat) :
    ((logReq env s p).mem q).next = (s.mem q).next := by
  unfold logReq
  by_cases h : q = p
  · subst h
    simp
  · simp [Function.update_noteq h]

theorem logReq_op (env : Env) (s : Impl) (p q : Nat) :
    ((logReq env s p).mem q).op = (s.mem q).op := by
  unfold logReq
  by_cases h : q = p
  · subst h
    simp
  · simp [Function.update_noteq h]

theorem WriteInner_run (env : Env) (fuel : Nat) (eb : Int) (sim up : Bool)
    (hw : sim = false → up = true →
      ∀ r o, (env.WriteLog r o).ret = true ∧ (env.WriteLog r o).streamOk = true) :
    ∀ (n : Nat) (l : List Nat) (head : Option Nat) (s : Impl)
      (Q : Option Nat × Option Nat → Impl → Prop),
      l.length < n → isChain s.mem head l = true →
      (∀ p ∈ l, (s.mem p).op ≠ MetaOp.META_LOG_WRITER_CONTROL) →
      s.mMdStream.fail = false → s.mMdStream.sync = false →
      Q ((innerRun env eb sim up l s).ptr, none) (innerRun env eb sim up l s).state →
      M.total (WriteInner env fuel n head eb sim up) s Q := by
  intro n
  induction n with
  | zero =>
    intro l head s Q hlen
    omega
  | succ n ih =>
    intro l head s Q hlen hch hctl hf hsync hq
    cases l with
    | nil =>
      rw [isChain_nil] at hch
      subst hch
      simp only [WriteInner, M.total_pure_iff]
      exact hq
    | cons p ps =>
      rw [isChain_cons] at hch
      obtain ⟨hh, hch⟩ := hch
      subst hh
      have hop := hctl p (List.mem_cons_self _ _)
      have hctl' : ∀ q ∈ ps, (s.mem q).op ≠ MetaOp.META_LOG_WRITER_CONTROL :=
        fun q hq' => hctl q (List.mem_cons_of_mem _ hq')
      have hlen' : ps.length < n := by simpa using hlen
      rcases Bool.eq_false_or_eq_true up with hup | hup
      swap
      · subst hup
        unfold innerRun at hq
        simp only [if_true] at hq
        simp only [WriteInner, M.total_bind_iff, M.total_get_iff, hop, if_false, hf, Bool.not_false,
          Bool.or_true, if_true]
        exact ih ps _ s Q hlen' hch hctl' hf hsync hq
      subst hup
      unfold innerRun at hq
      simp only [Bool.true_eq_false, if_false] at hq
      have hrec : ∀ s1 : Impl, (∀ q, (s1.mem q).next = (s.mem q).next) →
          (∀ q, (s1.mem q).op = (s.mem q).op) → s1.mMdStream.fail = false →
          s1.mMdStream.sync = false →
          Q ((innerRun env eb sim true ps s1).ptr, none) (innerRun env eb sim true ps s1).state →
          M.total (WriteInner env fuel n (s.mem p).next eb sim true) s1 Q := by
        intro s1 hn ho hf1 hs1 hq1
        refine ih ps _ s1 Q hlen' ?_ ?_ hf1 hs1 hq1
        · rw [isChain_congr s.mem s1.mem ps _ (fun q _ => hn q)]
          exact hch
        · intro q hq'
          rw [ho q]
          exact hctl' q hq'
      by_cases hl : (s.mem p).loggable = true
      · rcases Bool.eq_false_or_eq_true sim with hsim | hsim
        · subst hsim
          simp only [hl, and_self, if_true] at hq
          simp only [WriteInner, M.total_bind_iff, M.total_get_iff, hop, if_false, hf,
            Bool.not_true, Bool.or_self, Bool.false_eq_true, hl, if_true, M.total_pure_iff]
          exact hq
        · subst hsim
          simp only [hl, Bool.false_eq_true, and_false, if_false, if_true] at hq
          simp only [WriteInner, M.total_bind_iff, M.total_get_iff, hop, if_false, hf,
            Bool.not_true, Bool.or_self, Bool.false_eq_true, hl, if_true, M.total_modify_iff,
            Impl.setReq, M.total_pure_iff]
          refine mdWrite_nosync_total env fuel _ _ hf hsync ?_
          simp only [(hw rfl rfl _ _).1, (hw rfl rfl _ _).2, Bool.not_true, Bool.or_false,
            Bool.false_eq_true, if_false, M.total_pure_iff, M.total_bind_iff, M.total_modify_iff,
            M.total_get_iff, M.total_ite_iff, hf, Function.update_same]
          have hX : ({ s with
              mem := Function.update s.mem p { s.mem p with logseq := s.mLastLogSeq + 1 }
              mLastLogSeq := s.mLastLogSeq + 1
              mMdStream :=
                { s.mMdStream with
                  buf := s.mMdStream.buf ++
                    (env.WriteLog { s.mem p with logseq := s.mLastLogSeq + 1 }
                      s.mOmitDefaultsFlag).data
                  bufSize := max s.mMdStream.bufSize (s.mMdStream.buf ++
                    (env.WriteLog { s.mem p with logseq := s.mLastLogSeq + 1 }
                      s.mOmitDefaultsFlag).data).length
                  md := s.mMdStream.md ++
                    (env.WriteLog { s.mem p with logseq := s.mLastLogSeq + 1 }
                      s.mOmitDefaultsFlag).data
                  fail := false } } : Impl) = logReq env s p := by
            unfold logReq
            rw [← hf]
          rw [hX]
          show (if eb ≤ (logReq env s p).mLastLogSeq then _
            else if (logReq env s p).mMdStream.bufSize / 4 * 3 <
                (logReq env s p).mMdStream.buf.length then _ else _)
          split_ifs at hq ⊢
          · exact hq
          · exact hq
          · exact hrec _ (logReq_next env s p) (logReq_op env s p) hf hsync hq
      · have hl' : ¬ ((s.mem p).loggable = true ∧ sim = true) := fun h => hl h.1
        simp only [hl, Bool.false_eq_true, false_and, if_false] at hq
        simp only [WriteInner, M.total_bind_iff, M.total_get_iff, hop, if_false, hf,
          Bool.not_true, Bool.or_self, Bool.false_eq_true, hl, M.total_pure_iff, M.total_ite_iff]
        split_ifs at hq ⊢
        · exact hq
        · exact hq
        · exact hrec s (fun _ => rfl) (fun _ => rfl) hf hsync hq

theorem isChain_head (mem : Nat → MetaRequest) (h : Option Nat) (l : List Nat)
    (hc : isChain mem h l = true) : h = l.head? := by
  cases l with
  | nil =>
    rw [isChain_nil] at hc
    exact hc
  | cons p ps =>
    rw [isChain_cons] at hc
    exact hc.1

theorem innerRun_cons_cases (env : Env) (eb : Int) (sim up : Bool) (p : Nat) (ps : List Nat)
    (s : Impl) :
    (up = true ∧ (s.mem p).loggable = true ∧ sim = true ∧
      innerRun env eb sim up (p :: ps) s = ⟨some p, [p], ps, s⟩) ∨
    (up = true ∧ ¬ ((s.mem p).loggable = true ∧ sim = true) ∧ breaksAt eb (stepReq env s p) ∧
      innerRun env eb sim up (p :: ps) s = ⟨some p, [p], ps, stepReq env s p⟩) ∨
    (up = true ∧ ¬ ((s.mem p).loggable = true ∧ sim = true) ∧ ¬ breaksAt eb (stepReq env s p) ∧
      innerRun env eb sim up (p :: ps) s =
        ⟨(innerRun env eb sim up ps (stepReq env s p)).ptr,
          p :: (innerRun env eb sim up ps (stepReq env s p)).batch,
          (innerRun env eb sim up ps (stepReq env s p)).rest,
          (innerRun env eb sim up ps (stepReq env s p)).state⟩) ∨
    (up = false ∧
      innerRun env eb sim up (p :: ps) s =
        ⟨(innerRun env eb sim up ps s).ptr, p :: (innerRun env eb sim up ps s).batch,
          (innerRun env eb sim up ps s).rest, (innerRun env eb sim up ps s).state⟩) := by
  rcases Bool.eq_false_or_eq_true up with hup | hup
  swap
  · right; right; right
    refine ⟨hup, ?_⟩
    rw [innerRun, if_pos hup]
  have hup' : ¬ up = false := by rw [hup]; decide
  by_cases hls : (s.mem p).loggable = true ∧ sim = true
  · left
    refine ⟨hup, hls.1, hls.2, ?_⟩
    rw [innerRun, if_neg hup', if_pos hls]
  by_cases hb : breaksAt eb (stepReq env s p)
  · right; left
    refine ⟨hup, hls, hb, ?_⟩
    rw [innerRun, if_neg hup', if_neg hls]
    unfold breaksAt stepReq at hb
    unfold stepReq
    dsimp only
    by_cases h1 : eb ≤ (if (s.mem p).loggable = true then logReq env s p else s).mLastLogSeq
    · rw [if_pos h1]
    · rw [if_neg h1, if_pos (hb.resolve_left h1)]
  · right; right; left
    refine ⟨hup, hls, hb, ?_⟩
    rw [innerRun, if_neg hup', if_neg hls]
    unfold breaksAt stepReq at hb
    unfold stepReq
    dsimp only
    rw [if_neg (fun h => hb (Or.inl h)), if_neg (fun h => hb (Or.inr h))]

theorem innerRun_split (env : Env) (eb : Int) (sim up : Bool) (l : List Nat) :
    ∀ s : Impl, (innerRun env eb sim up l s).batch ++ (innerRun env eb sim up l s).rest = l := by
  induction l with
  | nil => intro s; rfl
  | cons p ps ih =>
    intro s
    rcases innerRun_cons_cases env eb sim up p ps s with ⟨-, -, -, h⟩ | ⟨-, -, -, h⟩ |
      ⟨-, -, -, h⟩ | ⟨-, h⟩
    · rw [h]
      rfl
    · rw [h]
      rfl
    · rw [h]
      exact congrArg (List.cons p) (ih _)
    · rw [h]
      exact congrArg (List.cons p) (ih _)

theorem innerRun_batch_ne (env : Env) (eb : Int) (sim up : Bool) (p : Nat) (ps : List Nat)
    (s : Impl) : (innerRun env eb sim up (p :: ps) s).batch ≠ [] := by
  rcases innerRun_cons_cases env eb sim up p ps s with ⟨-, -, -, h⟩ | ⟨-, -, -, h⟩ |
    ⟨-, -, -, h⟩ | ⟨-, h⟩ <;> rw [h] <;> simp

theorem stepReq_shape (env : Env) (s : Impl) (p : Nat) :
    ∃ m L b z d, stepReq env s p =
      { s with mem := m, mLastLogSeq := L
               mMdStream := { s.mMdStream with buf := b, bufSize := z, md := d } } := by
  unfold stepReq
  split_ifs
  · exact ⟨_, _, _, _, _, rfl⟩
  · exact ⟨_, _, _, _, _, rfl⟩

theorem innerRun_shape (env : Env) (eb : Int) (sim up : Bool) (l : List Nat) :
    ∀ s : Impl, ∃ m L b z d, (innerRun env eb sim up l s).state =
      { s with mem := m, mLastLogSeq := L
               mMdStream := { s.mMdStream with buf := b, bufSize := z, md := d } } := by
  induction l with
  | nil =>
    intro s
    exact ⟨_, _, _, _, _, rfl⟩
  | cons p ps ih =>
    intro s
    have hstep : ∀ s1 : Impl, (∃ m L b z d, s1 =
        ({ s with mem := m, mLastLogSeq := L
                  mMdStream := { s.mMdStream with buf := b, bufSize := z, md := d } } : Impl)) →
        ∃ m L b z d, (innerRun env eb sim up ps s1).state =
          ({ s with mem := m, mLastLogSeq := L
                    mMdStream := { s.mMdStream with buf := b, bufSize := z, md := d } } : Impl) := by
      rintro s1 ⟨m, L, b, z, d, rfl⟩
      obtain ⟨m', L', b', z', d', h⟩ := ih
        { s with mem := m, mLastLogSeq := L
                 mMdStream := { s.mMdStream with buf := b, bufSize := z, md := d } }
      exact ⟨m', L', b', z', d', h⟩
    rcases innerRun_cons_cases env eb sim up p ps s with ⟨-, -, -, h⟩ | ⟨-, -, -, h⟩ |
      ⟨-, -, -, h⟩ | ⟨-, h⟩
    · rw [h]
      exact ⟨_, _, _, _, _, rfl⟩
    · rw [h]
      exact stepReq_shape env s p
    · rw [h]
      exact hstep _ (stepReq_shape env s p)
    · rw [h]
      exact hstep s ⟨_, _, _, _, _, rfl⟩

theorem stepReq_mem (env : Env) (s : Impl) (p q : Nat) :
    (stepReq env s p).mem q = { s.mem q with logseq := ((stepReq env s p).mem q).logseq } := by
  unfold stepReq
  split_ifs
  · unfold logReq
    by_cases h : q = p
    · subst h
      simp
    · simp [Function.update_noteq h]
  · rfl

theorem innerRun_mem (env : Env) (eb : Int) (sim up : Bool) (l : List Nat) :
    ∀ (s : Impl) (q : Nat), (innerRun env eb sim up l s).state.mem q =
      { s.mem q with logseq := ((innerRun env eb sim up l s).state.mem q).logseq } := by
  induction l with
  | nil => intro s q; rfl
  | cons p ps ih =>
    intro s q
    rcases innerRun_cons_cases env eb sim up p ps s with ⟨-, -, -, h⟩ | ⟨-, -, -, h⟩ |
      ⟨-, -, -, h⟩ | ⟨-, h⟩
    · rw [h]
    · rw [h]
      exact stepReq_mem env s p q
    · rw [h]
      show (innerRun env eb sim up ps (stepReq env s p)).state.mem q = _
      rw [ih (stepReq env s p) q, stepReq_mem env s p q]
    · rw [h]
      exact ih s q

theorem innerRun_next (env : Env) (eb : Int) (sim up : Bool) (l : List Nat) (s : Impl) (q : Nat) :
    ((innerRun env eb sim up l s).state.mem q).next = (s.mem q).next := by
  rw [innerRun_mem]

theorem innerRun_op (env : Env) (eb : Int) (sim up : Bool) (l : List Nat) (s : Impl) (q : Nat) :
    ((innerRun env eb sim up l s).state.mem q).op = (s.mem q).op := by
  rw [innerRun_mem]

theorem innerRun_endPtr (env : Env) (eb : Int) (sim up : Bool) (l : List Nat) :
    ∀ (s : Impl) (head : Option Nat), isChain s.mem head l = true →
      endPtrOf (innerRun env eb sim up l s).state.mem (innerRun env eb sim up l s).ptr =
        (innerRun env eb sim up l s).rest.head? := by
  induction l with
  | nil => intro s head _; rfl
  | cons p ps ih =>
    intro s head hch
    rw [isChain_cons] at hch
    have hh := isChain_head _ _ _ hch.2
    have hstop : ∀ s1 : Impl, (s1.mem p).next = (s.mem p).next →
        endPtrOf s1.mem (some p) = ps.head? := by
      intro s1 h1
      show (s1.mem p).next = _
      rw [h1, hh]
    rcases innerRun_cons_cases env eb sim up p ps s with ⟨-, -, -, h⟩ | ⟨-, -, -, h⟩ |
      ⟨-, -, -, h⟩ | ⟨-, h⟩
    · rw [h]
      exact hstop s rfl
    · rw [h]
      exact hstop _ (by rw [stepReq_mem])
    · rw [h]
      refine ih (stepReq env s p) (s.mem p).next ?_
      rw [isChain_congr s.mem _ ps _ (fun q _ => by rw [stepReq_mem])]
      exact hch.2
    · rw [h]
      exact ih s _ hch.2

theorem markFailed_mem (env : Env) (l : List Nat) :
    ∀ (mem : Nat → MetaRequest) (q : Nat), markFailed env mem l q =
      { mem q with
        logseq := (markFailed env mem l q).logseq
        status := (markFailed env mem l q).status
        statusMsg := (markFailed env mem l q).statusMsg } := by
  induction l with
  | nil => intro mem q; rfl
  | cons p ps ih =>
    intro mem q
    unfold markFailed
    rw [ih]
    split_ifs
    · by_cases h : q = p
      · subst h
        simp
      · simp [Function.update_noteq h]
    · rfl

theorem markFailed_next (env : Env) (l : List Nat) (mem : Nat → MetaRequest) (q : Nat) :
    (markFailed env mem l q).next = (mem q).next := by
  rw [markFailed_mem]

theorem markFailed_op (env : Env) (l : List Nat) (mem : Nat → MetaRequest) (q : Nat) :
    (markFailed env mem l q).op = (mem q).op := by
  rw [markFailed_mem]

theorem WriteFailed_run (env : Env) (l1 : List Nat) :
    ∀ (n : Nat) (l2 : List Nat) (head : Option Nat) (s : Impl) (Q : Unit → Impl → Prop),
      l1.length < n → isChain s.mem head (l1 ++ l2) = true →
      Q () { s with mem := markFailed env s.mem l1 } →
      M.total (WriteFailed env n head l2.head?) s Q := by
  induction l1 with
  | nil =>
    intro n l2 head s Q hn hch hq
    obtain ⟨n, rfl⟩ : ∃ k, n = k + 1 := ⟨n - 1, by simp at hn; omega⟩
    have hh := isChain_head _ _ _ hch
    simp only [List.nil_append] at hh
    simp only [WriteFailed, hh, if_true, M.total_pure_iff]
    exact hq
  | cons p ps ih =>
    intro n l2 head s Q hn hch hq
    obtain ⟨n, rfl⟩ : ∃ k, n = k + 1 := ⟨n - 1, by simp at hn; omega⟩
    have hnd := isChain_nodup _ _ _ hch
    rw [List.cons_append, isChain_cons] at hch
    obtain ⟨rfl, hch⟩ := hch
    have hne : ¬ (some p = l2.head?) := by
      intro h
      have hp : p ∈ l2 := List.mem_of_mem_head? h.symm
      rw [List.cons_append, List.nodup_cons] at hnd
      exact hnd.1 (List.mem_append_right _ hp)
    simp only [WriteFailed, hne, if_false, M.total_bind_iff, M.total_get_iff, LogError,
      M.total_ite_iff, M.total_modify_iff, M.total_pure_iff, Impl.setReq]
    unfold markFailed at hq
    split_ifs at hq ⊢ with hc
    · simp only [Function.update_same]
      refine ih n l2 _ _ Q (by simpa using hn) ?_ hq
      rw [isChain_congr s.mem _ (ps ++ l2) _ (fun q _ => ?_)]
      · exact hch
      · show (Function.update s.mem p _ q).next = _
        by_cases h : q = p
        · subst h
          simp
        · simp [Function.update_noteq h]
    · exact ih n l2 _ s Q (by simpa using hn) hch hq

theorem IsSimulateFailure_run (env : Env) (s : Impl) :
    IsSimulateFailure env s = Res.ok (simRun env s).1 (simRun env s).2 := by
  unfold simRun
  by_cases h : 0 < s.mFailureSimulationInterval
  · simp [IsSimulateFailure, M.bind_run, M.get_run, M.pure_run, nextTick, h]
  · simp [IsSimulateFailure, M.bind_run, M.get_run, M.pure_run, h]

theorem simRun_shape (env : Env) (s : Impl) : ∃ t, (simRun env s).2 = { s with tick := t } := by
  unfold simRun
  split_ifs
  · exact ⟨_, rfl⟩
  · exact ⟨_, rfl⟩

theorem isChain_rest (mem : Nat → MetaRequest) (a b : List Nat) (h : Option Nat)
    (hc : isChain mem h (a ++ b) = true) : isChain mem b.head? b = true := by
  obtain ⟨h', hb⟩ := isChain_suffix mem a b h hc
  rw [← isChain_head mem h' b hb]
  exact hb

theorem innerRun_good (env : Env) (eb : Int) (sim up : Bool) (l : List Nat) (s : Impl) :
    (Good (innerRun env eb sim up l s).state ↔ Good s) ∧
      (innerRun env eb sim up l s).state.mMdStream.sync = s.mMdStream.sync ∧
      (innerRun env eb sim up l s).state.mNextLogSeq = s.mNextLogSeq := by
  obtain ⟨m, L, b, z, d, h⟩ := innerRun_shape env eb sim up l s
  rw [h]
  exact ⟨Iff.rfl, rfl, rfl⟩

theorem simRun_good (env : Env) (s : Impl) :
    (Good (simRun env s).2 ↔ Good s) ∧ (simRun env s).2.mMdStream = s.mMdStream ∧
      (simRun env s).2.mem = s.mem := by
  obtain ⟨t, h⟩ := simRun_shape env s
  rw [h]
  exact ⟨Iff.rfl, rfl, rfl⟩

theorem batchRun_mem_cases (env : Env) (l : List Nat) (s : Impl) :
    (batchRun env l s).2.mem =
        (innerRun env (s.mNextLogSeq + s.mMaxBlockSize)
          (simRun env { s with mLastLogSeq := s.mNextLogSeq }).1 s.mTransmitterUpFlag l
          (simRun env { s with mLastLogSeq := s.mNextLogSeq }).2).state.mem ∨
      (batchRun env l s).2.mem =
        markFailed env (innerRun env (s.mNextLogSeq + s.mMaxBlockSize)
          (simRun env { s with mLastLogSeq := s.mNextLogSeq }).1 s.mTransmitterUpFlag l
          (simRun env { s with mLastLogSeq := s.mNextLogSeq }).2).state.mem
          (innerRun env (s.mNextLogSeq + s.mMaxBlockSize)
          (simRun env { s with mLastLogSeq := s.mNextLogSeq }).1 s.mTransmitterUpFlag l
          (simRun env { s with mLastLogSeq := s.mNextLogSeq }).2).batch := by
  unfold batchRun
  dsimp only
  split_ifs <;> first | exact Or.inl rfl | exact Or.inr rfl

theorem batchRun_mem (env : Env) (l : List Nat) (s : Impl) (q : Nat) :
    ∃ a b c, (batchRun env l s).2.mem q =
      { s.mem q with logseq := a, status := b, statusMsg := c } := by
  have h1 := innerRun_mem env (s.mNextLogSeq + s.mMaxBlockSize)
    (simRun env { s with mLastLogSeq := s.mNextLogSeq }).1 s.mTransmitterUpFlag l
    (simRun env { s with mLastLogSeq := s.mNextLogSeq }).2 q
  have h0 : (simRun env { s with mLastLogSeq := s.mNextLogSeq }).2.mem = s.mem :=
    (simRun_good env _).2.2
  rw [h0] at h1
  rcases batchRun_mem_cases env l s with h | h
  · rw [h]
    exact ⟨_, _, _, h1.trans rfl⟩
  · rw [h, markFailed_mem, h1]
    exact ⟨_, _, _, rfl⟩

theorem batchRun_next (env : Env) (l : List Nat) (s : Impl) (q : Nat) :
    ((batchRun env l s).2.mem q).next = (s.mem q).next ∧
      ((batchRun env l s).2.mem q).op = (s.mem q).op := by
  obtain ⟨a, b, c, h⟩ := batchRun_mem env l s q
  rw [h]
  exact ⟨rfl, rfl⟩

theorem batchRun_good (env : Env) (l : List Nat) (s : Impl) (hg : Good s)
    (hs : s.mMdStream.sync = false) :
    Good (batchRun env l s).2 ∧ (batchRun env l s).2.mMdStream.sync = false := by
  have h1 := innerRun_good env (s.mNextLogSeq + s.mMaxBlockSize)
    (simRun env { s with mLastLogSeq := s.mNextLogSeq }).1 s.mTransmitterUpFlag l
    (simRun env { s with mLastLogSeq := s.mNextLogSeq }).2
  have h0 := simRun_good env { s with mLastLogSeq := s.mNextLogSeq }
  have hg1 : Good (innerRun env (s.mNextLogSeq + s.mMaxBlockSize)
      (simRun env { s with mLastLogSeq := s.mNextLogSeq }).1 s.mTransmitterUpFlag l
      (simRun env { s with mLastLogSeq := s.mNextLogSeq }).2).state :=
    h1.1.mpr (h0.1.mpr hg)
  have hs1 : (innerRun env (s.mNextLogSeq + s.mMaxBlockSize)
      (simRun env { s with mLastLogSeq := s.mNextLogSeq }).1 s.mTransmitterUpFlag l
      (simRun env { s with mLastLogSeq := s.mNextLogSeq }).2).state.mMdStream.sync = false := by
    rw [h1.2.1, h0.2.1]
    exact hs
  unfold batchRun
  dsimp only
  split_ifs <;> first | exact ⟨hg1, rfl⟩ | exact ⟨hg1, hs1⟩

theorem simRun_one (env : Env) (s : Impl) (h : s.mFailureSimulationInterval = 1) :
    simRun env s = (true, { s with tick := s.tick + 1 }) := by
  unfold simRun
  rw [h]
  simp [Nat.mod_one]

theorem innerRun_idle (env : Env) (eb : Int) (sim up : Bool) (h : sim = true ∨ up = false)
    (l : List Nat) : ∀ s : Impl, (innerRun env eb sim up l s).state = s := by
  induction l with
  | nil => intro s; rfl
  | cons p ps ih =>
    intro s
    have hst : ¬ ((s.mem p).loggable = true ∧ sim = true) → up = true → stepReq env s p = s := by
      intro h1 h2
      have hs : sim = true := by
        rcases h with h | h
        · exact h
        · rw [h2] at h
          cases h
      unfold stepReq
      rw [if_neg (fun hl => h1 ⟨hl, hs⟩)]
    rcases innerRun_cons_cases env eb sim up p ps s with ⟨-, -, -, e⟩ | ⟨hu, hn, -, e⟩ |
      ⟨hu, hn, -, e⟩ | ⟨-, e⟩
    · rw [e]
    · rw [e]
      exact hst hn hu
    · rw [e]
      show (innerRun env eb sim up ps (stepReq env s p)).state = s
      rw [hst hn hu]
      exact ih s
    · rw [e]
      exact ih s

theorem simRun_allFail (env : Env) (s : Impl) (h : AllFail s) :
    (simRun env { s with mLastLogSeq := s.mNextLogSeq }).1 = true ∨
      s.mTransmitterUpFlag = false := by
  rcases h with h | h
  · left
    rw [simRun_one env { s with mLastLogSeq := s.mNextLogSeq } h]
  · exact Or.inr h

theorem batchRun_idle (env : Env) (l : List Nat) (s : Impl) (h : AllFail s) :
    ∃ t, (batchRun env l s).2 =
      { s with
        mLastLogSeq := s.mNextLogSeq
        tick := t
        mem := markFailed env s.mem
          (innerRun env (s.mNextLogSeq + s.mMaxBlockSize)
            (simRun env { s with mLastLogSeq := s.mNextLogSeq }).1 s.mTransmitterUpFlag l
            (simRun env { s with mLastLogSeq := s.mNextLogSeq }).2).batch } := by
  have hi := simRun_allFail env s h
  have hidle := innerRun_idle env (s.mNextLogSeq + s.mMaxBlockSize)
    (simRun env { s with mLastLogSeq := s.mNextLogSeq }).1 s.mTransmitterUpFlag hi l
    (simRun env { s with mLastLogSeq := s.mNextLogSeq }).2
  obtain ⟨t, ht⟩ := simRun_shape env { s with mLastLogSeq := s.mNextLogSeq }
  have hb : ¬ ((!(simRun env { s with mLastLogSeq := s.mNextLogSeq }).1 &&
      s.mTransmitterUpFlag) = true) := by
    rcases hi with hi | hi
    · rw [hi]
      simp
    · rw [hi]
      simp
  refine ⟨t, ?_⟩
  unfold batchRun
  dsimp only
  rw [if_neg hb, hidle, ht]
  have hnf : ¬ ((s.mNextLogSeq : Int) < s.mNextLogSeq ∧ s.mTransmitterUpFlag = true) :=
    fun hh => lt_irrefl _ hh.1
  rw [if_neg hnf]

theorem WriteBatches_run (env : Env) (k : Nat) :
    ∀ (n : Nat) (l : List Nat) (head : Option Nat) (s : Impl) (Q : Unit → Impl → Prop),
      l.length < n → l.length < k + 2 → isChain s.mem head l = true →
      (∀ p ∈ l, (s.mem p).op ≠ MetaOp.META_LOG_WRITER_CONTROL) →
      Good s → s.mMdStream.sync = false → (FileOk env ∨ AllFail s) →
      Q () (batchesRun env n l s) →
      M.total (WriteBatches env (k + 2) n head) s Q := by
  intro n
  induction n with
  | zero =>
    intro l head s Q hlen
    omega
  | succ n ih =>
    intro l head s Q hlen hlenk hch hctl hg hsync hio hq
    cases l with
    | nil =>
      rw [isChain_nil] at hch
      subst hch
      simp only [WriteBatches, M.total_pure_iff]
      exact hq
    | cons p ps =>
      have hch0 := hch
      rw [isChain_cons] at hch
      obtain ⟨hh, -⟩ := hch
      subst hh
      -- the pieces of the iteration
      obtain ⟨sim, hsim⟩ : ∃ x, x = simRun env { s with mLastLogSeq := s.mNextLogSeq } :=
        ⟨_, rfl⟩
      obtain ⟨r, hr⟩ : ∃ x, x = innerRun env (s.mNextLogSeq + s.mMaxBlockSize) sim.1
        s.mTransmitterUpFlag (p :: ps) sim.2 := ⟨_, rfl⟩
      have hsg := simRun_good env { s with mLastLogSeq := s.mNextLogSeq }
      rw [← hsim] at hsg
      have hig := innerRun_good env (s.mNextLogSeq + s.mMaxBlockSize) sim.1
        s.mTransmitterUpFlag (p :: ps) sim.2
      rw [← hr] at hig
      have hg1 : Good r.state := hig.1.mpr (hsg.1.mpr hg)
      have hs1 : r.state.mMdStream.sync = false := by
        rw [hig.2.1, hsg.2.1]
        exact hsync
      have hbr : batchRun env (p :: ps) s =
          (r.rest,
            if (!sim.1 && s.mTransmitterUpFlag) = true then
              { (if r.state.mNextLogSeq < r.state.mLastLogSeq ∧ s.mTransmitterUpFlag = true then
                  afterFlushBlock env r.state r.state.mLastLogSeq else r.state) with
                mNextLogSeq :=
                  (if r.state.mNextLogSeq < r.state.mLastLogSeq ∧ s.mTransmitterUpFlag = true then
                    afterFlushBlock env r.state r.state.mLastLogSeq else r.state).mLastLogSeq }
            else
              { (if r.state.mNextLogSeq < r.state.mLastLogSeq ∧ s.mTransmitterUpFlag = true then
                  afterFlushBlock env r.state r.state.mLastLogSeq else r.state) with
                mLastLogSeq :=
                  (if r.state.mNextLogSeq < r.state.mLastLogSeq ∧ s.mTransmitterUpFlag = true then
                    afterFlushBlock env r.state r.state.mLastLogSeq else r.state).mNextLogSeq
                mem := markFailed env
                  (if r.state.mNextLogSeq < r.state.mLastLogSeq ∧ s.mTransmitterUpFlag = true then
                    afterFlushBlock env r.state r.state.mLastLogSeq else r.state).mem r.batch }) := by
        rw [hr, hsim]
        rfl
      have hq' : Q () (batchesRun env n (batchRun env (p :: ps) s).1
          (batchRun env (p :: ps) s).2) := hq
      have hbg := batchRun_good env (p :: ps) s hg hsync
      have hsplit : r.batch ++ r.rest = p :: ps := by
        rw [hr]
        exact innerRun_split _ _ _ _ _ _
      have hrest_len : r.rest.length < n := by
        have hne : r.batch ≠ [] := by
          rw [hr]
          exact innerRun_batch_ne _ _ _ _ _ _ _
        have := congrArg List.length hsplit
        rw [List.length_append] at this
        have hpos := List.length_pos.mpr hne
        simp only [List.length_cons] at this hlen
        omega
      have hrest_lenk : r.rest.length < k + 2 := by
        have := congrArg List.length hsplit
        rw [List.length_append] at this
        simp only [List.length_cons] at this hlenk
        omega
      have hbatch_lenk : r.batch.length < k + 2 := by
        have := congrArg List.length hsplit
        rw [List.length_append] at this
        simp only [List.length_cons] at this hlenk
        omega
      -- the recursive call
      have hrec : M.total (WriteBatches env (k + 2) n r.rest.head?)
          (batchRun env (p :: ps) s).2 Q := by
        have hr1 : (batchRun env (p :: ps) s).1 = r.rest := by rw [hbr]
        rw [hr1] at hq'
        have hio2 : FileOk env ∨ AllFail (batchRun env (p :: ps) s).2 := by
          rcases hio with hio | hio
          · exact Or.inl hio
          · right
            obtain ⟨t, ht⟩ := batchRun_idle env (p :: ps) s hio
            rw [ht]
            exact hio
        refine ih r.rest _ _ Q hrest_len hrest_lenk ?_ ?_ hbg.1 hbg.2 hio2 hq'
        · have hc : isChain (batchRun env (p :: ps) s).2.mem (some p) (r.batch ++ r.rest) = true := by
            rw [hsplit, isChain_congr s.mem _ (p :: ps) _
              (fun q _ => (batchRun_next env (p :: ps) s q).1)]
            exact hch0
          exact isChain_rest _ _ _ _ hc
        · intro q hq1
          rw [(batchRun_next env (p :: ps) s q).2]
          refine hctl q ?_
          rw [← hsplit]
          exact List.mem_append_right _ hq1
      have hend : endPtrOf r.state.mem r.ptr = r.rest.head? := by
        rw [hr]
        refine innerRun_endPtr _ _ _ _ _ _ (some p) ?_
        rw [hsg.2.2]
        exact hch0
      simp only [WriteBatches, M.total_bind_iff, M.total_modify_iff, M.total_get_iff]
      refine ⟨_, _, IsSimulateFailure_run env _, ?_⟩
      rw [← hsim]
      have hw : sim.1 = false → s.mTransmitterUpFlag = true →
          ∀ r o, (env.WriteLog r o).ret = true ∧ (env.WriteLog r o).streamOk = true := by
        intro h1 h2
        rcases hio with hio | hio
        · exact hio.writeLog_ok
        · rcases simRun_allFail env s hio with h | h
          · rw [← hsim, h1] at h
            cases h
          · rw [h2] at h
            cases h
      refine WriteInner_run env (k + 2) _ _ _ hw (k + 2) (p :: ps) (some p) sim.2 _
        hlenk (by rw [hsg.2.2]; exact hch0) (by rw [hsg.2.2]; exact hctl)
        (by rw [hsg.2.1]; exact hg.2.2) (by rw [hsg.2.1]; exact hsync) ?_
      rw [← hr]
      simp only [endPtrOf_eq, hend]
      have htail : ∀ s2 : Impl,
          s2 = (if r.state.mNextLogSeq < r.state.mLastLogSeq ∧ s.mTransmitterUpFlag = true then
            afterFlushBlock env r.state r.state.mLastLogSeq else r.state) →
          M.total (do
            let good ← IsLogStreamGood
            if (good && !sim.1 && s.mTransmitterUpFlag) = true then do
              M.modify fun s => { s with mNextLogSeq := s.mLastLogSeq }
              Pure.pure ()
              WriteBatches env (k + 2) n r.rest.head?
            else do
              M.modify fun s => { s with mLastLogSeq := s.mNextLogSeq }
              WriteFailed env (k + 2) (some p) r.rest.head?
              Pure.pure ()
              WriteBatches env (k + 2) n r.rest.head?) s2 Q := by
        intro s2 hs2
        have hg2 : Good s2 := by
          rw [hs2]
          split_ifs
          · exact afterFlushBlock_good env _ _ hg1
          · exact hg1
        have hm2 : s2.mem = r.state.mem := by
          rw [hs2]
          split_ifs <;> rfl
        simp only [M.total_bind_iff]
        refine IsLogStreamGood_total _ hg2 ?_
        simp only [Bool.true_and]
        by_cases hb : (!sim.1 && s.mTransmitterUpFlag) = true
        · have e : (batchRun env (p :: ps) s).2 = { s2 with mNextLogSeq := s2.mLastLogSeq } := by
            rw [hbr, hs2]
            exact if_pos hb
          rw [e] at hrec
          rw [if_pos hb]
          simp only [M.total_bind_iff, M.total_modify_iff, M.total_pure_iff]
          exact hrec
        · have e : (batchRun env (p :: ps) s).2 =
              { s2 with mLastLogSeq := s2.mNextLogSeq, mem := markFailed env s2.mem r.batch } := by
            rw [hbr, hs2]
            exact if_neg hb
          rw [e] at hrec
          rw [if_neg hb]
          simp only [M.total_bind_iff, M.total_modify_iff, M.total_pure_iff]
          refine WriteFailed_run env r.batch (k + 2) r.rest (some p) _ _ hbatch_lenk ?_ ?_
          · show isChain s2.mem (some p) (r.batch ++ r.rest) = true
            rw [hm2, hsplit, isChain_congr s.mem _ (p :: ps) _ (fun q _ => ?_)]
            · exact hch0
            · rw [hr, innerRun_next, hsg.2.2]
          · exact hrec
      by_cases hfl : r.state.mNextLogSeq < r.state.mLastLogSeq ∧ s.mTransmitterUpFlag = true
      · rw [if_pos hfl]
        simp only [M.total_bind_iff]
        refine IsLogStreamGood_total _ hg1 ?_
        simp only [if_true, M.total_bind_iff]
        have io : FileOk env := by
          rcases hio with hio | hio
          · exact hio
          · exfalso
            have hidle := innerRun_idle env (s.mNextLogSeq + s.mMaxBlockSize)
              (simRun env { s with mLastLogSeq := s.mNextLogSeq }).1 s.mTransmitterUpFlag
              (simRun_allFail env s hio) (p :: ps)
              (simRun env { s with mLastLogSeq := s.mNextLogSeq }).2
            obtain ⟨t, ht⟩ := simRun_shape env { s with mLastLogSeq := s.mNextLogSeq }
            rw [← hsim, ← hr] at hidle
            rw [← hsim] at ht
            have h1 := hfl.1
            rw [hidle, ht] at h1
            exact lt_irrefl _ h1
        refine FlushBlock_total env io k _ _ hg1 hs1 ?_
        have := htail _ (by rw [if_pos hfl])
        simp only [M.total_bind_iff] at this
        exact this
      · have := htail _ (by rw [if_neg hfl])
        rw [if_neg hfl]
        simp only [M.total_bind_iff, M.total_pure_iff]
        simp only [M.total_bind_iff] at this
        exact this

theorem batchesRun_good (env : Env) :
    ∀ (n : Nat) (l : List Nat) (s : Impl), Good s → s.mMdStream.sync = false →
      Good (batchesRun env n l s) ∧ (batchesRun env n l s).mMdStream.sync = false := by
  intro n
  induction n with
  | zero => intro l s hg hs; exact ⟨hg, hs⟩
  | succ n ih =>
    intro l s hg hs
    cases l with
    | nil => exact ⟨hg, hs⟩
    | cons p ps =>
      have h := batchRun_good env (p :: ps) s hg hs
      exact ih _ _ h.1 h.2

theorem Write_run (env : Env) (k : Nat) (head : Nat) (l : List Nat) (s : Impl)
    (Q : Unit → Impl → Prop) (io : FileOk env ∨ AllFail s) (hlen : l.length < k + 2)
    (hch : isChain s.mem (some head) l = true)
    (hctl : ∀ p ∈ l, (s.mem p).op ≠ MetaOp.META_LOG_WRITER_CONTROL) (hg : Good s)
    (hrot : ¬ rotationDue env
      (batchesRun env (k + 2) l { s with mMdStream := { s.mMdStream with sync := false } }))
    (hq : Q () (writeRun env (k + 2) l s)) :
    M.total (Write env (k + 2) head) s Q := by
  simp only [Write, M.total_bind_iff]
  refine IsLogStreamGood_total _ hg ?_
  simp only [Bool.not_true, Bool.false_eq_true, if_false, M.total_pure_iff, M.total_bind_iff,
    mdSetSync, M.total_modify_iff]
  refine WriteBatches_run env k (k + 2) l (some head) _ _ hlen hlen hch hctl hg rfl io ?_
  have hg2 := (batchesRun_good env (k + 2) l
    { s with mMdStream := { s.mMdStream with sync := false } } hg rfl).1
  unfold writeRun at hq
  unfold rotationDue at hrot
  simp only [M.total_get_iff, M.total_pure_iff]
  by_cases hc : (batchesRun env (k + 2) l
      { s with mMdStream := { s.mMdStream with sync := false } }).mCurLogStartSeq <
      (batchesRun env (k + 2) l
        { s with mMdStream := { s.mMdStream with sync := false } }).mNextLogSeq
  · rw [if_pos hc]
    simp only [M.total_bind_iff]
    refine IsLogStreamGood_total _ hg2 ?_
    have ht : ¬ ((batchesRun env (k + 2) l
        { s with mMdStream := { s.mMdStream with sync := false } }).mCurLogStartTime +
        (batchesRun env (k + 2) l
          { s with mMdStream := { s.mMdStream with sync := false } }).mLogRotateInterval <
        env.microseconds (batchesRun env (k + 2) l
          { s with mMdStream := { s.mMdStream with sync := false } }).tick) :=
      fun h => hrot ⟨hc, h⟩
    simp only [if_true, microseconds, M.total_bind_iff, M.total_nextTick_iff, M.total_pure_iff,
      ht, if_false]
    dsimp only at hq
    rw [if_pos hc] at hq
    exact hq
  · rw [if_neg hc]
    simp only [M.total_pure_iff]
    dsimp only at hq
    rw [if_neg hc] at hq
    exact hq

theorem markFailed_append (env : Env) (l1 l2 : List Nat) :
    ∀ mem : Nat → MetaRequest,
      markFailed env mem (l1 ++ l2) = markFailed env (markFailed env mem l1) l2 := by
  induction l1 with
  | nil => intro mem; rfl
  | cons p ps ih => intro mem; exact ih _

theorem markFailed_failed (env : Env) (l : List Nat) :
    ∀ (mem : Nat → MetaRequest) (q : Nat),
      (q ∈ l ∧ (mem q).op ≠ MetaOp.META_LOG_WRITER_CONTROL ∧ (mem q).loggable = true) ∨
        FailedReq env (mem q) →
      FailedReq env (markFailed env mem l q) := by
  induction l with
  | nil =>
    intro mem q h
    rcases h with ⟨h, -⟩ | h
    · exact absurd h (List.not_mem_nil _)
    · exact h
  | cons p ps ih =>
    intro mem q h
    unfold markFailed
    apply ih
    by_cases hqp : q = p
    · subst hqp
      right
      by_cases hc : (mem q).op ≠ MetaOp.META_LOG_WRITER_CONTROL ∧ (mem q).loggable = true
      · rw [if_pos hc, Function.update_same]
        exact ⟨rfl, rfl, rfl⟩
      · rw [if_neg hc]
        rcases h with ⟨-, h⟩ | h
        · exact absurd h hc
        · exact h
    · have hm : (if (mem p).op ≠ MetaOp.META_LOG_WRITER_CONTROL ∧ (mem p).loggable = true then
          Function.update mem p
            { mem p with
              logseq := -1, status := -env.ELOGFAILED
              statusMsg := "transaction log write error" }
          else mem) q = mem q := by
        split_ifs
        · exact Function.update_noteq hqp _ _
        · rfl
      rw [hm]
      rcases h with ⟨h1, h2⟩ | h
      · left
        exact ⟨(List.mem_cons.mp h1).resolve_left hqp, h2⟩
      · right
        exact h

theorem markFailed_skip (env : Env) (l : List Nat) :
    ∀ (mem : Nat → MetaRequest) (q : Nat),
      (q ∉ l ∨ (mem q).op = MetaOp.META_LOG_WRITER_CONTROL ∨ (mem q).loggable = false) →
      markFailed env mem l q = mem q := by
  induction l with
  | nil => intro mem q _; rfl
  | cons p ps ih =>
    intro mem q h
    unfold markFailed
    have hm : (if (mem p).op ≠ MetaOp.META_LOG_WRITER_CONTROL ∧ (mem p).loggable = true then
        Function.update mem p
          { mem p with
            logseq := -1, status := -env.ELOGFAILED
            statusMsg := "transaction log write error" }
        else mem) q = mem q := by
      by_cases hqp : q = p
      · subst hqp
        rw [if_neg]
        intro hc
        rcases h with h | h | h
        · exact h (List.mem_cons_self _ _)
        · exact hc.1 h
        · rw [hc.2] at h
          cases h
      · split_ifs
        · exact Function.update_noteq hqp _ _
        · rfl
    rw [← hm]
    apply ih
    rw [hm]
    rcases h with h | h | h
    · left
      exact fun hh => h (List.mem_cons_of_mem _ hh)
    · right; left; exact h
    · right; right; exact h

theorem batchesRun_idle (env : Env) :
    ∀ (n : Nat) (l : List Nat) (s : Impl), AllFail s → l.length < n →
      ∃ t, batchesRun env n l s =
        { s with
          mLastLogSeq := if l = [] then s.mLastLogSeq else s.mNextLogSeq
          tick := t
          mem := markFailed env s.mem l } := by
  intro n
  induction n with
  | zero => intro l s _ h; exact absurd h (Nat.not_lt_zero _)
  | succ n ih =>
    intro l s ha hl
    cases l with
    | nil => exact ⟨s.tick, rfl⟩
    | cons p ps =>
      show ∃ t, batchesRun env n (batchRun env (p :: ps) s).1 (batchRun env (p :: ps) s).2 = _
      obtain ⟨t1, h1⟩ := batchRun_idle env (p :: ps) s ha
      have hr : (batchRun env (p :: ps) s).1 =
          (innerRun env (s.mNextLogSeq + s.mMaxBlockSize)
            (simRun env { s with mLastLogSeq := s.mNextLogSeq }).1 s.mTransmitterUpFlag (p :: ps)
            (simRun env { s with mLastLogSeq := s.mNextLogSeq }).2).rest := rfl
      have hsp := innerRun_split env (s.mNextLogSeq + s.mMaxBlockSize)
        (simRun env { s with mLastLogSeq := s.mNextLogSeq }).1 s.mTransmitterUpFlag (p :: ps)
        (simRun env { s with mLastLogSeq := s.mNextLogSeq }).2
      have hne := innerRun_batch_ne env (s.mNextLogSeq + s.mMaxBlockSize)
        (simRun env { s with mLastLogSeq := s.mNextLogSeq }).1 s.mTransmitterUpFlag p ps
        (simRun env { s with mLastLogSeq := s.mNextLogSeq }).2
      rw [h1, hr]
      generalize innerRun env (s.mNextLogSeq + s.mMaxBlockSize)
        (simRun env { s with mLastLogSeq := s.mNextLogSeq }).1 s.mTransmitterUpFlag (p :: ps)
        (simRun env { s with mLastLogSeq := s.mNextLogSeq }).2 = r at hsp hne ⊢
      have hlen : r.rest.length < n := by
        have h2 := congrArg List.length hsp
        rw [List.length_append] at h2
        have h3 : 0 < r.batch.length := List.length_pos.mpr hne
        simp only [List.length_cons] at hl h2
        omega
      obtain ⟨t2, h2⟩ := ih r.rest
        { s with mLastLogSeq := s.mNextLogSeq, tick := t1, mem := markFailed env s.mem r.batch }
        ha hlen
      refine ⟨t2, ?_⟩
      rw [h2, if_neg (List.cons_ne_nil _ _)]
      dsimp only
      rw [ite_self, ← markFailed_append, hsp]

/-- When log rotation is due by time at the end of `Write`, the call goes on
with `StartNextLog`. -/
theorem Write_rotate_run (env : Env) (k : Nat) (head : Nat) (l : List Nat) (s : Impl)
    (Q : Unit → Impl → Prop) (io : FileOk env ∨ AllFail s) (hlen : l.length < k + 2)
    (hch : isChain s.mem (some head) l = true)
    (hctl : ∀ p ∈ l, (s.mem p).op ≠ MetaOp.META_LOG_WRITER_CONTROL) (hg : Good s)
    (hrot : rotationDue env
      (batchesRun env (k + 2) l { s with mMdStream := { s.mMdStream with sync := false } }))
    (hq : M.total (StartNextLog env (k + 2))
      { batchesRun env (k + 2) l { s with mMdStream := { s.mMdStream with sync := false } } with
        tick := (batchesRun env (k + 2) l
          { s with mMdStream := { s.mMdStream with sync := false } }).tick + 1 } Q) :
    M.total (Write env (k + 2) head) s Q := by
  simp only [Write, M.total_bind_iff]
  refine IsLogStreamGood_total _ hg ?_
  simp only [Bool.not_true, Bool.false_eq_true, if_false, M.total_pure_iff, M.total_bind_iff,
    mdSetSync, M.total_modify_iff]
  refine WriteBatches_run env k (k + 2) l (some head) _ _ hlen hlen hch hctl hg rfl io ?_
  have hg2 := (batchesRun_good env (k + 2) l
    { s with mMdStream := { s.mMdStream with sync := false } } hg rfl).1
  unfold rotationDue at hrot
  simp only [M.total_get_iff]
  rw [if_pos hrot.1]
  simp only [M.total_bind_iff]
  refine IsLogStreamGood_total _ hg2 ?_
  simp only [if_true, microseconds, M.total_bind_iff, M.total_nextTick_iff, M.total_pure_iff,
    hrot.2]
  exact hq

theorem StartNextLog_run (env : Env) (io : IoOk env) (k : Nat) (s : Impl)
    (Q : Unit → Impl → Prop) (hg : Good s) (hseq : s.mLastLogSeq = s.mNextLogSeq)
    (hq : ∀ s1 : Impl, s1.core = s.core →
      Q () (afterNewLog env { s1 with mLogNum := s1.mLogNum + 1 } s1.mLastLogSeq)) :
    M.total (StartNextLog env (k + 2)) s Q := by
  simp only [StartNextLog, M.total_bind_iff]
  refine CloseLog_inv env io k _ ⟨rfl, hg, rfl⟩ hseq ?_
  intro s1 h1
  simp only [M.total_modify_iff, M.total_get_iff]
  exact NewLog_total env io.fileOk k _ _ (hq s1 h1)

theorem afterNewLog_header_file (env : Env) (s : Impl) (L : Int) :
    (afterNewLog env s L).mNextBlockSeq = 0 ∧ (afterNewLog env s L).mCurLogStartSeq = L ∧
      (afterNewLog env s L).files (afterNewLog env s L).mLogName =
        some (headerLines env (env.DisplayIsoDateTime ((afterClose s).tick + 2)) ++
          blockTrailer env (newLogHeader env s L) L) := by
  refine ⟨?_, rfl, ?_⟩
  · show (-1 : Int) + 1 = 0
    decide
  · show (appendToFd (newLogHeader env s L) (newLogHeader env s L).mLogFd
      ((newLogHeader env s L).mMdStream.buf ++ blockTrailer env (newLogHeader env s L) L)).files
        (newLogHeader env s L).mLogName = _
    rw [appendToFd_files_of_open (newLogHeader env s L) (newLogHeader env s L).mLogFd
      (newLogHeader env s L).mLogName _ (Function.update_same _ _ _)]
    have h1 : (newLogHeader env s L).files (newLogHeader env s L).mLogName = some [] :=
      Function.update_same _ _ _
    rw [h1]
    rfl

theorem envLate_ioOk : IoOk envLate :=
  ⟨⟨fun _ => (by decide : (0 : Int) ≤ 3), fun _ _ => rfl, fun _ => rfl, fun _ => rfl, fun _ => rfl,
    fun _ _ => ⟨rfl, rfl⟩⟩, fun _ _ => rfl⟩

/-- C2 (claim as stated fails): with `failureSimulationInterval = 1`, the
transmitter up and the stream good, the clock being past the rotation interval
of a log file that already holds records, `Write` on the queue 1, 2, 3 fails
the batch and then starts the next log file: the block counter goes from 5 to
0, the new segment starts at sequence 10, and the header block of the new file
is flushed to it. -/
theorem Write_simulated_failure_counterexample :
    stateSim.mFailureSimulationInterval = 1 ∧ stateSim.mTransmitterUpFlag = true ∧
      Good stateSim ∧ isChain stateSim.mem (some 1) [1, 2, 3] = true ∧
      (∀ p ∈ [1, 2, 3], (stateSim.mem p).op ≠ MetaOp.META_LOG_WRITER_CONTROL) ∧
      stateSim.mNextBlockSeq = 5 ∧ stateSim.mCurLogStartSeq = -1 ∧
      ∃ s', Write envLate 5 1 stateSim = Res.ok () s' ∧ s'.mNextBlockSeq = 0 ∧
        s'.mCurLogStartSeq = 10 ∧
        ∃ trailer, s'.files s'.mLogName = some (headerLines envLate [] ++ trailer) := by
  refine ⟨rfl, rfl, ⟨rfl, by decide, rfl⟩, by decide, by decide, rfl, rfl, ?_⟩
  have hg : Good stateSim := ⟨rfl, by decide, rfl⟩
  obtain ⟨t, hb⟩ := batchesRun_idle envLate 5 [1, 2, 3]
    { stateSim with mMdStream := { stateSim.mMdStream with sync := false } } (Or.inl rfl)
    (by decide)
  have hg2 := (batchesRun_good envLate 5 [1, 2, 3]
    { stateSim with mMdStream := { stateSim.mMdStream with sync := false } } hg rfl).1
  obtain ⟨a, s', h, hQ⟩ := Write_rotate_run envLate 3 1 [1, 2, 3] stateSim
    (fun _ s' => s'.mNextBlockSeq = 0 ∧ s'.mCurLogStartSeq = 10 ∧
      ∃ trailer, s'.files s'.mLogName = some (headerLines envLate [] ++ trailer))
    (Or.inr (Or.inl rfl)) (by decide) (by decide) (by decide) hg
    (by
      rw [hb]
      refine ⟨?_, ?_⟩
      · show stateSim.mCurLogStartSeq < stateSim.mNextLogSeq
        decide
      · show stateSim.mCurLogStartTime + stateSim.mLogRotateInterval < 1000000000000
        decide)
    (by
      refine StartNextLog_run envLate envLate_ioOk 3 _ _ ⟨hg2.1, hg2.2.1, hg2.2.2⟩ ?_ ?_
      · rw [hb]
        rfl
      · intro s1 h1
        have hL : s1.mLastLogSeq = 10 := by
          have := congrArg Impl.mLastLogSeq h1
          rw [hb] at this
          exact this
        have hf := afterNewLog_header_file envLate { s1 with mLogNum := s1.mLogNum + 1 }
          s1.mLastLogSeq
        refine ⟨hf.1, hf.2.1.trans hL, _, hf.2.2⟩)
  exact ⟨s', h, hQ⟩

/-- C2 (amended): with `failureSimulationInterval = 1` and the stream good
(the transmitter up or not), when no log rotation is due by time at the end of
the call, `Write` on any queue without control requests returns; every
loggable request of the queue ends with `status = -ELOGFAILED`, `logseq = -1`
and `statusMsg = "transaction log write error"`, every other request is
unchanged; `mNextLogSeq` keeps its value and `mLastLogSeq` is equal to it (its
own value before the call, when the two were equal on entry); and no block is
flushed or transmitted: block counter, transmitted blocks, files, sink buffer,
digest stream and log number are unchanged. -/
theorem Write_simulated_failure (env : Env) (k head : Nat) (l : List Nat) (s : Impl)
    (hint : s.mFailureSimulationInterval = 1) (hg : Good s) (hlen : l.length < k + 2)
    (hch : isChain s.mem (some head) l = true)
    (hctl : ∀ p ∈ l, (s.mem p).op ≠ MetaOp.META_LOG_WRITER_CONTROL)
    (hrot : s.mCurLogStartSeq < s.mNextLogSeq →
      ∀ t, ¬ (s.mCurLogStartTime + s.mLogRotateInterval < env.microseconds t)) :
    ∃ s', Write env (k + 2) head s = Res.ok () s' ∧
      (∀ p ∈ l, (s.mem p).loggable = true → FailedReq env (s'.mem p)) ∧
      (∀ p, p ∉ l ∨ (s.mem p).loggable = false → s'.mem p = s.mem p) ∧
      s'.mNextLogSeq = s.mNextLogSeq ∧ s'.mLastLogSeq = s.mNextLogSeq ∧
      (s.mLastLogSeq = s.mNextLogSeq → s'.mLastLogSeq = s.mLastLogSeq) ∧
      s'.mNextBlockSeq = s.mNextBlockSeq ∧ s'.transmitted = s.transmitted ∧
      s'.files = s.files ∧ s'.mMdStream.buf = s.mMdStream.buf ∧
      s'.mMdStream.md = s.mMdStream.md ∧ s'.mLogNum = s.mLogNum := by
  obtain ⟨t, hb⟩ := batchesRun_idle env (k + 2) l
    { s with mMdStream := { s.mMdStream with sync := false } } (Or.inl hint) hlen
  have hne : l ≠ [] := isChain_head_ne_nil _ _ _ hch
  rw [if_neg hne] at hb
  have hmem : ∀ m : Nat → MetaRequest, m = markFailed env s.mem l →
      (∀ p ∈ l, (s.mem p).loggable = true → FailedReq env (m p)) ∧
      (∀ p, p ∉ l ∨ (s.mem p).loggable = false → m p = s.mem p) := by
    intro m hm
    subst hm
    constructor
    · intro p hp hl
      exact markFailed_failed env l s.mem p (Or.inl ⟨hp, hctl p hp, hl⟩)
    · intro p hp
      refine markFailed_skip env l s.mem p ?_
      rcases hp with hp | hp
      · exact Or.inl hp
      · exact Or.inr (Or.inr hp)
  obtain ⟨a, s', h, hQ⟩ := Write_run env k head l s
    (fun _ s' => (∀ p ∈ l, (s.mem p).loggable = true → FailedReq env (s'.mem p)) ∧
      (∀ p, p ∉ l ∨ (s.mem p).loggable = false → s'.mem p = s.mem p) ∧
      s'.mNextLogSeq = s.mNextLogSeq ∧ s'.mLastLogSeq = s.mNextLogSeq ∧
      (s.mLastLogSeq = s.mNextLogSeq → s'.mLastLogSeq = s.mLastLogSeq) ∧
      s'.mNextBlockSeq = s.mNextBlockSeq ∧ s'.transmitted = s.transmitted ∧
      s'.files = s.files ∧ s'.mMdStream.buf = s.mMdStream.buf ∧
      s'.mMdStream.md = s.mMdStream.md ∧ s'.mLogNum = s.mLogNum)
    (Or.inr (Or.inl hint)) hlen hch hctl hg
    (by
      rw [hb]
      intro hr
      exact hrot hr.1 _ hr.2)
    (by
      unfold writeRun
      dsimp only
      rw [hb]
      split_ifs
      · exact ⟨(hmem _ rfl).1, (hmem _ rfl).2, rfl, rfl, fun e => e.symm, rfl, rfl, rfl, rfl,
          rfl, rfl⟩
      · exact ⟨(hmem _ rfl).1, (hmem _ rfl).2, rfl, rfl, fun e => e.symm, rfl, rfl, rfl, rfl,
          rfl, rfl⟩)
  exact ⟨s', h, hQ⟩

theorem Write_simulated_failure_witness :
    ∃ s', Write envOk 5 1 stateSim = Res.ok () s' ∧
      (∀ p ∈ [1, 2, 3], (stateSim.mem p).loggable = true → FailedReq envOk (s'.mem p)) ∧
      (∀ p, p ∉ [1, 2, 3] ∨ (stateSim.mem p).loggable = false → s'.mem p = stateSim.mem p) ∧
      s'.mNextLogSeq = stateSim.mNextLogSeq ∧ s'.mLastLogSeq = stateSim.mNextLogSeq ∧
      (stateSim.mLastLogSeq = stateSim.mNextLogSeq → s'.mLastLogSeq = stateSim.mLastLogSeq) ∧
      s'.mNextBlockSeq = stateSim.mNextBlockSeq ∧ s'.transmitted = stateSim.transmitted ∧
      s'.files = stateSim.files ∧ s'.mMdStream.buf = stateSim.mMdStream.buf ∧
      s'.mMdStream.md = stateSim.mMdStream.md ∧ s'.mLogNum = stateSim.mLogNum :=
  Write_simulated_failure envOk 3 1 [1, 2, 3] stateSim rfl ⟨rfl, by decide, rfl⟩ (by decide)
    (by decide) (by decide) (fun _ _ h => absurd (show stateSim.mCurLogStartTime + stateSim.mLogRotateInterval < 0 from h)
      (by decide))

theorem batchRun_shape (env : Env) (l : List Nat) (s : Impl) :
    ∃ m nl ll md t nb up tr bc ws f, (batchRun env l s).2 =
      { s with mem := m, mNextLogSeq := nl, mLastLogSeq := ll, mMdStream := md, tick := t
               mNextBlockSeq := nb, mTransmitterUpFlag := up, transmitted := tr
               mBlockChecksum := bc, mWriteState := ws, files := f } := by
  obtain ⟨t, h0⟩ := simRun_shape env { s with mLastLogSeq := s.mNextLogSeq }
  obtain ⟨m, L, b, z, d, h1⟩ := innerRun_shape env (s.mNextLogSeq + s.mMaxBlockSize)
    (simRun env { s with mLastLogSeq := s.mNextLogSeq }).1 s.mTransmitterUpFlag l
    (simRun env { s with mLastLogSeq := s.mNextLogSeq }).2
  unfold batchRun
  dsimp only
  rw [h1, h0]
  split_ifs <;> exact ⟨_, _, _, _, _, _, _, _, _, _, _, rfl⟩

theorem batchesRun_shape (env : Env) :
    ∀ (n : Nat) (l : List Nat) (s : Impl),
      ∃ m nl ll md t nb up tr bc ws f, batchesRun env n l s =
        { s with mem := m, mNextLogSeq := nl, mLastLogSeq := ll, mMdStream := md, tick := t
                 mNextBlockSeq := nb, mTransmitterUpFlag := up, transmitted := tr
                 mBlockChecksum := bc, mWriteState := ws, files := f } := by
  intro n
  induction n with
  | zero => intro l s; exact ⟨_, _, _, _, _, _, _, _, _, _, _, rfl⟩
  | succ n ih =>
    intro l s
    cases l with
    | nil => exact ⟨_, _, _, _, _, _, _, _, _, _, _, rfl⟩
    | cons p ps =>
      show ∃ m nl ll md t nb up tr bc ws f,
        batchesRun env n (batchRun env (p :: ps) s).1 (batchRun env (p :: ps) s).2 = _
      obtain ⟨m, nl, ll, md, t, nb, up, tr, bc, ws, f, h⟩ := batchRun_shape env (p :: ps) s
      rw [h]
      obtain ⟨m', nl', ll', md', t', nb', up', tr', bc', ws', f', h'⟩ := ih
        (batchRun env (p :: ps) s).1
        { s with mem := m, mNextLogSeq := nl, mLastLogSeq := ll, mMdStream := md, tick := t
                 mNextBlockSeq := nb, mTransmitterUpFlag := up, transmitted := tr
                 mBlockChecksum := bc, mWriteState := ws, files := f }
      rw [h']
      exact ⟨_, _, _, _, _, _, _, _, _, _, _, rfl⟩

theorem writeRun_shape (env : Env) (n : Nat) (l : List Nat) (s : Impl) :
    ∃ m nl ll md t nb up tr bc ws f, writeRun env n l s =
      { s with mem := m, mNextLogSeq := nl, mLastLogSeq := ll, mMdStream := md, tick := t
               mNextBlockSeq := nb, mTransmitterUpFlag := up, transmitted := tr
               mBlockChecksum := bc, mWriteState := ws, files := f } := by
  obtain ⟨m, nl, ll, md, t, nb, up, tr, bc, ws, f, h⟩ := batchesRun_shape env n l
    { s with mMdStream := { s.mMdStream with sync := false } }
  unfold writeRun
  dsimp only
  rw [h]
  split_ifs <;> exact ⟨_, _, _, _, _, _, _, _, _, _, _, rfl⟩

theorem stepReq_mem_ne (env : Env) (s : Impl) (p q : Nat) (h : q ≠ p) :
    (stepReq env s p).mem q = s.mem q := by
  unfold stepReq
  split_ifs
  · exact Function.update_noteq h _ _
  · rfl

theorem innerRun_mem_not_mem (env : Env) (eb : Int) (sim up : Bool) (l : List Nat) :
    ∀ (s : Impl) (q : Nat), q ∉ l → (innerRun env eb sim up l s).state.mem q = s.mem q := by
  induction l with
  | nil => intro s q _; rfl
  | cons p ps ih =>
    intro s q hq
    rw [List.mem_cons, not_or] at hq
    rcases innerRun_cons_cases env eb sim up p ps s with ⟨-, -, -, h⟩ | ⟨-, -, -, h⟩ |
      ⟨-, -, -, h⟩ | ⟨-, h⟩
    · rw [h]
    · rw [h]
      exact stepReq_mem_ne env s p q hq.1
    · rw [h]
      show (innerRun env eb sim up ps (stepReq env s p)).state.mem q = _
      rw [ih (stepReq env s p) q hq.2, stepReq_mem_ne env s p q hq.1]
    · rw [h]
      exact ih s q hq.2

theorem innerRun_batch_subset (env : Env) (eb : Int) (sim up : Bool) (l : List Nat) (s : Impl)
    (q : Nat) (h : q ∈ (innerRun env eb sim up l s).batch) : q ∈ l := by
  rw [← innerRun_split env eb sim up l s]
  exact List.mem_append_left _ h

theorem innerRun_rest_subset (env : Env) (eb : Int) (sim up : Bool) (l : List Nat) (s : Impl)
    (q : Nat) (h : q ∈ (innerRun env eb sim up l s).rest) : q ∈ l := by
  rw [← innerRun_split env eb sim up l s]
  exact List.mem_append_right _ h

theorem batchRun_mem_not_mem (env : Env) (l : List Nat) (s : Impl) (q : Nat) (hq : q ∉ l) :
    (batchRun env l s).2.mem q = s.mem q := by
  have h0 : (simRun env { s with mLastLogSeq := s.mNextLogSeq }).2.mem = s.mem :=
    (simRun_good env _).2.2
  have h1 := innerRun_mem_not_mem env (s.mNextLogSeq + s.mMaxBlockSize)
    (simRun env { s with mLastLogSeq := s.mNextLogSeq }).1 s.mTransmitterUpFlag l
    (simRun env { s with mLastLogSeq := s.mNextLogSeq }).2 q hq
  rw [h0] at h1
  rcases batchRun_mem_cases env l s with h | h
  · rw [h, h1]
  · rw [h, markFailed_skip env _ _ q (Or.inl fun hh => hq (innerRun_batch_subset _ _ _ _ _ _ _ hh)),
      h1]

theorem batchesRun_mem_not_mem (env : Env) :
    ∀ (n : Nat) (l : List Nat) (s : Impl) (q : Nat), q ∉ l →
      (batchesRun env n l s).mem q = s.mem q := by
  intro n
  induction n with
  | zero => intro l s q _; rfl
  | succ n ih =>
    intro l s q hq
    cases l with
    | nil => rfl
    | cons p ps =>
      show (batchesRun env n (batchRun env (p :: ps) s).1 (batchRun env (p :: ps) s).2).mem q = _
      have hr : q ∉ (batchRun env (p :: ps) s).1 :=
        fun hh => hq (innerRun_rest_subset _ _ _ _ _ _ _ hh)
      rw [ih _ _ q hr, batchRun_mem_not_mem env _ s q hq]

/-- A batch that starts with a simulated failure, the transmitter up, at a
loggable request: the batch is this request alone, and it is failed. -/
theorem batchRun_sim_head (env : Env) (p : Nat) (ps : List Nat) (s : Impl)
    (hsim : (simRun env { s with mLastLogSeq := s.mNextLogSeq }).1 = true)
    (hup : s.mTransmitterUpFlag = true) (hl : (s.mem p).loggable = true)
    (hop : (s.mem p).op ≠ MetaOp.META_LOG_WRITER_CONTROL) :
    (batchRun env (p :: ps) s).1 = ps ∧ FailedReq env ((batchRun env (p :: ps) s).2.mem p) := by
  have h0 : (simRun env { s with mLastLogSeq := s.mNextLogSeq }).2.mem = s.mem :=
    (simRun_good env _).2.2
  have hi : innerRun env (s.mNextLogSeq + s.mMaxBlockSize)
      (simRun env { s with mLastLogSeq := s.mNextLogSeq }).1 s.mTransmitterUpFlag (p :: ps)
      (simRun env { s with mLastLogSeq := s.mNextLogSeq }).2 =
      ⟨some p, [p], ps, (simRun env { s with mLastLogSeq := s.mNextLogSeq }).2⟩ := by
    rw [innerRun, if_neg (by rw [hup]; decide), if_pos ⟨by rw [h0]; exact hl, hsim⟩]
  obtain ⟨t, ht⟩ := simRun_shape env { s with mLastLogSeq := s.mNextLogSeq }
  unfold batchRun
  dsimp only
  rw [hi]
  dsimp only
  rw [hsim, ht]
  constructor
  · rfl
  · rw [if_neg (by simp : ¬ (!true && s.mTransmitterUpFlag) = true)]
    rw [if_neg (by
      intro h
      exact absurd h.1 (lt_irrefl _))]
    exact markFailed_failed env [p] s.mem p (Or.inl ⟨List.mem_singleton_self p, hop, hl⟩)

theorem batchesRun_mem (env : Env) :
    ∀ (n : Nat) (l : List Nat) (s : Impl) (q : Nat),
      ∃ a b c, (batchesRun env n l s).mem q =
        { s.mem q with logseq := a, status := b, statusMsg := c } := by
  intro n
  induction n with
  | zero => intro l s q; exact ⟨_, _, _, rfl⟩
  | succ n ih =>
    intro l s q
    cases l with
    | nil => exact ⟨_, _, _, rfl⟩
    | cons p ps =>
      show ∃ a b c,
        (batchesRun env n (batchRun env (p :: ps) s).1 (batchRun env (p :: ps) s).2).mem q = _
      obtain ⟨a, b, c, h⟩ := ih (batchRun env (p :: ps) s).1 (batchRun env (p :: ps) s).2 q
      obtain ⟨a', b', c', h'⟩ := batchRun_mem env (p :: ps) s q
      rw [h, h']
      exact ⟨_, _, _, rfl⟩

theorem writeRun_mem (env : Env) (n : Nat) (l : List Nat) (s : Impl) :
    (writeRun env n l s).mem =
      (batchesRun env n l { s with mMdStream := { s.mMdStream with sync := false } }).mem := by
  unfold writeRun
  dsimp only
  split_ifs <;> rfl

theorem writeRun_op (env : Env) (n : Nat) (l : List Nat) (s : Impl) (q : Nat) :
    ((writeRun env n l s).mem q).op = (s.mem q).op ∧
      ((writeRun env n l s).mem q).next = (s.mem q).next := by
  obtain ⟨a, b, c, h⟩ := batchesRun_mem env n l
    { s with mMdStream := { s.mMdStream with sync := false } } q
  rw [writeRun_mem, h]
  exact ⟨rfl, rfl⟩

theorem Write_eq (env : Env) (io : FileOk env) (k head : Nat) (l : List Nat) (s : Impl)
    (hlen : l.length < k + 2) (hch : isChain s.mem (some head) l = true)
    (hctl : ∀ p ∈ l, (s.mem p).op ≠ MetaOp.META_LOG_WRITER_CONTROL) (hg : Good s)
    (hrot : ∀ t, ¬ (s.mCurLogStartTime + s.mLogRotateInterval < env.microseconds t)) :
    Write env (k + 2) head s = Res.ok () (writeRun env (k + 2) l s) := by
  obtain ⟨a, s', h, rfl⟩ := Write_run env k head l s (fun _ s' => s' = writeRun env (k + 2) l s)
    (Or.inl io) hlen hch hctl hg
    (by
      obtain ⟨m, nl, ll, md, t, nb, up, tr, bc, ws, f, h⟩ := batchesRun_shape env (k + 2) l
        { s with mMdStream := { s.mMdStream with sync := false } }
      rw [h]
      intro hr
      exact hrot _ hr.2)
    rfl
  exact h

theorem writeRun_good (env : Env) (n : Nat) (l : List Nat) (s : Impl) (hg : Good s) :
    Good (writeRun env n l s) := by
  have h := (batchesRun_good env n l
    { s with mMdStream := { s.mMdStream with sync := false } } hg rfl).1
  unfold writeRun
  dsimp only
  split_ifs
  · exact h
  · exact h

/-- C28 (claim as stated fails): `Write` on the queue 4 fails its batch by
simulated failure (request 4 ends failed); the next `Write`, on the queue
1, 2, 3, writes the records 11 and 12 without rotation: the log number, the
log name and the descriptor are the ones before the two calls, and the block
counter goes on from 0 to 1. -/
theorem Write_after_simulated_failure_counterexample :
    ∃ s1 s2, Write envSimOnce 5 4 stateSimOnce = Res.ok () s1 ∧
      (stateSimOnce.mem 4).loggable = true ∧ FailedReq envSimOnce (s1.mem 4) ∧
      Write envSimOnce 5 1 s1 = Res.ok () s2 ∧
      s2.mLogNum = stateSimOnce.mLogNum ∧ s2.mLogName = stateSimOnce.mLogName ∧
      s2.mLogFd = stateSimOnce.mLogFd ∧ stateSimOnce.mNextBlockSeq = 0 ∧ s2.mNextBlockSeq = 1 ∧
      (s2.mem 1).logseq = 11 ∧ (s2.mem 3).logseq = 12 ∧ s2.mNextLogSeq = 12 := by
  have io : FileOk envSimOnce :=
    ⟨fun _ => (by decide : (0 : Int) ≤ 3), fun _ _ => rfl, fun _ => rfl, fun _ => rfl,
      fun _ => rfl, fun _ _ => ⟨rfl, rfl⟩⟩
  have hg : Good stateSimOnce := ⟨rfl, by decide, rfl⟩
  have h1 := Write_eq envSimOnce io 3 4 [4] stateSimOnce (by decide) (by decide) (by decide) hg
    (fun _ h => absurd (show stateSimOnce.mCurLogStartTime + stateSimOnce.mLogRotateInterval < 0
      from h) (by decide))
  have hg1 := writeRun_good envSimOnce 5 [4] stateSimOnce hg
  have h2 := Write_eq envSimOnce io 3 1 [1, 2, 3] (writeRun envSimOnce 5 [4] stateSimOnce)
    (by decide) rfl (by
      intro p hp
      rw [(writeRun_op envSimOnce 5 [4] stateSimOnce p).1]
      revert p
      decide) hg1
    (by
      obtain ⟨m, nl, ll, md, t, nb, up, tr, bc, ws, f, h⟩ := writeRun_shape envSimOnce 5 [4]
        stateSimOnce
      rw [h]
      exact fun _ h => absurd (show stateSimOnce.mCurLogStartTime +
        stateSimOnce.mLogRotateInterval < 0 from h) (by decide))
  refine ⟨_, _, h1, rfl, ⟨rfl, rfl, rfl⟩, h2, rfl, rfl, rfl, rfl, rfl, rfl, rfl, rfl⟩

/-- C28 (amended): a simulated write failure leaves the stream good, so the
next `Write` does not rotate.  When `Write` starts with the stream good, the
transmitter up, a failure simulated for the first batch and a loggable request
at the head of the queue (no control requests, file calls succeeding, no
rotation by time being due), it returns with the head request failed
(`-ELOGFAILED`) and the stream still good; and the next `Write` call, on any
queue without control requests, returns with the log number, the log name, the
descriptor, the open files and the start of the log segment as they were
before the two calls: no new log file is started. -/
theorem Write_after_simulated_failure (env : Env) (io : FileOk env) (k head1 : Nat)
    (ps : List Nat) (s : Impl) (hg : Good s) (hup : s.mTransmitterUpFlag = true)
    (hsim : 0 < s.mFailureSimulationInterval ∧
      env.Rand s.tick % s.mFailureSimulationInterval.toNat = 0)
    (hl : (s.mem head1).loggable = true) (hlen : (head1 :: ps).length < k + 2)
    (hch : isChain s.mem (some head1) (head1 :: ps) = true) (hnd : (head1 :: ps).Nodup)
    (hctl : ∀ p ∈ head1 :: ps, (s.mem p).op ≠ MetaOp.META_LOG_WRITER_CONTROL)
    (hrot : ∀ t, ¬ (s.mCurLogStartTime + s.mLogRotateInterval < env.microseconds t)) :
    ∃ s1, Write env (k + 2) head1 s = Res.ok () s1 ∧ FailedReq env (s1.mem head1) ∧ Good s1 ∧
      ∀ (head2 : Nat) (l2 : List Nat), l2.length < k + 2 →
        isChain s1.mem (some head2) l2 = true →
        (∀ p ∈ l2, (s1.mem p).op ≠ MetaOp.META_LOG_WRITER_CONTROL) →
        ∃ s2, Write env (k + 2) head2 s1 = Res.ok () s2 ∧ s2.mLogNum = s.mLogNum ∧
          s2.mLogName = s.mLogName ∧ s2.mLogFd = s.mLogFd ∧ s2.fds = s.fds ∧
          s2.mCurLogStartSeq = s.mCurLogStartSeq ∧ s2.mCurLogStartTime = s.mCurLogStartTime := by
  have h1 := Write_eq env io k head1 (head1 :: ps) s hlen hch hctl hg hrot
  have hg1 := writeRun_good env (k + 2) (head1 :: ps) s hg
  obtain ⟨m, nl, ll, md, t, nb, up, tr, bc, ws, f, hs1⟩ := writeRun_shape env (k + 2)
    (head1 :: ps) s
  refine ⟨_, h1, ?_, hg1, ?_⟩
  · rw [writeRun_mem]
    show FailedReq env ((batchesRun env (k + 1)
      (batchRun env (head1 :: ps) { s with mMdStream := { s.mMdStream with sync := false } }).1
      (batchRun env (head1 :: ps)
        { s with mMdStream := { s.mMdStream with sync := false } }).2).mem head1)
    have hs : (simRun env
        { ({ s with mMdStream := { s.mMdStream with sync := false } } : Impl) with
          mLastLogSeq := s.mNextLogSeq }).1 = true := by
      unfold simRun
      rw [if_pos hsim.1]
      show (env.Rand s.tick % s.mFailureSimulationInterval.toNat == 0) = true
      rw [hsim.2]
      rfl
    obtain ⟨hr, hf⟩ := batchRun_sim_head env head1 ps
      { s with mMdStream := { s.mMdStream with sync := false } } hs hup hl
      (hctl head1 (List.mem_cons_self _ _))
    have hn : head1 ∉ (batchRun env (head1 :: ps)
        { s with mMdStream := { s.mMdStream with sync := false } }).1 := by
      rw [hr]
      exact (List.nodup_cons.mp hnd).1
    rw [batchesRun_mem_not_mem env _ _ _ head1 hn]
    exact hf
  · intro head2 l2 hlen2 hch2 hctl2
    have hrot1 : ∀ t, ¬ ((writeRun env (k + 2) (head1 :: ps) s).mCurLogStartTime +
        (writeRun env (k + 2) (head1 :: ps) s).mLogRotateInterval < env.microseconds t) := by
      rw [hs1]
      exact hrot
    have h2 := Write_eq env io k head2 l2 _ hlen2 hch2 hctl2 hg1 hrot1
    obtain ⟨m', nl', ll', md', t', nb', up', tr', bc', ws', f', hs2⟩ := writeRun_shape env
      (k + 2) l2 (writeRun env (k + 2) (head1 :: ps) s)
    refine ⟨_, h2, ?_⟩
    rw [hs2, hs1]
    exact ⟨rfl, rfl, rfl, rfl, rfl, rfl⟩

theorem Write_after_simulated_failure_witness :
    ∃ s1, Write envSimOnce 5 4 stateSimOnce = Res.ok () s1 ∧ FailedReq envSimOnce (s1.mem 4) ∧
      Good s1 ∧
      ∀ (head2 : Nat) (l2 : List Nat), l2.length < 3 + 2 →
        isChain s1.mem (some head2) l2 = true →
        (∀ p ∈ l2, (s1.mem p).op ≠ MetaOp.META_LOG_WRITER_CONTROL) →
        ∃ s2, Write envSimOnce 5 head2 s1 = Res.ok () s2 ∧ s2.mLogNum = stateSimOnce.mLogNum ∧
          s2.mLogName = stateSimOnce.mLogName ∧ s2.mLogFd = stateSimOnce.mLogFd ∧
          s2.fds = stateSimOnce.fds ∧ s2.mCurLogStartSeq = stateSimOnce.mCurLogStartSeq ∧
          s2.mCurLogStartTime = stateSimOnce.mCurLogStartTime :=
  Write_after_simulated_failure envSimOnce
    ⟨fun _ => (by decide : (0 : Int) ≤ 3), fun _ _ => rfl, fun _ => rfl, fun _ => rfl,
      fun _ => rfl, fun _ _ => ⟨rfl, rfl⟩⟩
    3 4 [] stateSimOnce ⟨rfl, by decide, rfl⟩ rfl ⟨by decide, by decide⟩ rfl (by decide)
    (by decide) (by decide) (by decide)
    (fun _ h => absurd (show stateSimOnce.mCurLogStartTime + stateSimOnce.mLogRotateInterval < 0
      from h) (by decide))

theorem innerRun_mem_not_batch (env : Env) (eb : Int) (sim up : Bool) (l : List Nat) :
    ∀ (s : Impl) (q : Nat), q ∉ (innerRun env eb sim up l s).batch →
      (innerRun env eb sim up l s).state.mem q = s.mem q := by
  induction l with
  | nil => intro s q _; rfl
  | cons p ps ih =>
    intro s q
    rcases innerRun_cons_cases env eb sim up p ps s with ⟨-, -, -, h⟩ | ⟨-, -, -, h⟩ |
      ⟨-, -, -, h⟩ | ⟨-, h⟩
    · rw [h]
      intro _
      rfl
    · rw [h]
      intro hq
      exact stepReq_mem_ne env s p q (fun e => hq (by rw [e]; exact List.mem_singleton_self p))
    · rw [h]
      intro hq
      rw [List.mem_cons, not_or] at hq
      show (innerRun env eb sim up ps (stepReq env s p)).state.mem q = _
      rw [ih (stepReq env s p) q hq.2, stepReq_mem_ne env s p q hq.1]
    · rw [h]
      intro hq
      rw [List.mem_cons, not_or] at hq
      exact ih s q hq.2

theorem loggable_of_logseq (r : MetaRequest) (a : Int) :
    MetaRequest.loggable { r with logseq := a } = r.loggable := rfl

theorem stepReq_loggable (env : Env) (s : Impl) (p q : Nat) :
    ((stepReq env s p).mem q).loggable = (s.mem q).loggable := by
  rw [stepReq_mem, loggable_of_logseq]

theorem stepReq_logged (env : Env) (s : Impl) (p : Nat) :
    (stepReq env s p).mLastLogSeq = s.mLastLogSeq + (if (s.mem p).loggable = true then 1 else 0) ∧
      ((s.mem p).loggable = true → ((stepReq env s p).mem p).logseq = s.mLastLogSeq + 1) := by
  unfold stepReq
  by_cases h : (s.mem p).loggable = true
  · rw [if_pos h, if_pos h]
    refine ⟨rfl, fun _ => ?_⟩
    unfold logReq
    simp
  · rw [if_neg h, if_neg h]
    exact ⟨(add_zero _).symm, fun hh => absurd hh h⟩

/-- The inner loop of `Write` without a simulated failure, the transmitter up:
the last log sequence advances by the number of loggable requests of the
batch, and each of them carries a log sequence assigned in the batch. -/
theorem innerRun_logged (env : Env) (eb : Int) (l : List Nat) :
    ∀ s : Impl,
      (innerRun env eb false true l s).state.mLastLogSeq =
        s.mLastLogSeq +
          (((innerRun env eb false true l s).batch.filter fun p => (s.mem p).loggable).length :
            Int) ∧
      ∀ p ∈ (innerRun env eb false true l s).batch, (s.mem p).loggable = true →
        s.mLastLogSeq < ((innerRun env eb false true l s).state.mem p).logseq ∧
          ((innerRun env eb false true l s).state.mem p).logseq ≤
            (innerRun env eb false true l s).state.mLastLogSeq := by
  induction l with
  | nil =>
    intro s
    refine ⟨(add_zero _).symm, ?_⟩
    intro p hp
    exact absurd hp (List.not_mem_nil _)
  | cons p ps ih =>
    intro s
    obtain ⟨hs1, hs2⟩ := stepReq_logged env s p
    rcases innerRun_cons_cases env eb false true p ps s with ⟨-, -, h, -⟩ | ⟨-, -, -, h⟩ |
      ⟨-, -, -, h⟩ | ⟨h, -⟩
    · exact absurd h (by decide)
    · rw [h]
      dsimp only
      constructor
      · rw [hs1]
        by_cases hl : (s.mem p).loggable = true
        · simp [hl]
        · simp [hl]
      · intro q hq hl
        rw [List.mem_singleton] at hq
        subst hq
        rw [hs2 hl, hs1, if_pos hl]
        exact ⟨by omega, le_refl _⟩
    · rw [h]
      dsimp only
      obtain ⟨ih1, ih2⟩ := ih (stepReq env s p)
      have hf : ((innerRun env eb false true ps (stepReq env s p)).batch.filter
          fun q => ((stepReq env s p).mem q).loggable) =
          ((innerRun env eb false true ps (stepReq env s p)).batch.filter
            fun q => (s.mem q).loggable) := by
        congr 1
        funext q
        exact stepReq_loggable env s p q
      rw [hf] at ih1
      have hmono : (stepReq env s p).mLastLogSeq ≤
          (innerRun env eb false true ps (stepReq env s p)).state.mLastLogSeq := by
        rw [ih1]
        omega
      have hge : s.mLastLogSeq ≤ (stepReq env s p).mLastLogSeq := by
        rw [hs1]
        split_ifs <;> omega
      constructor
      · rw [ih1, hs1, List.filter_cons]
        by_cases hl : (s.mem p).loggable = true
        · simp only [hl, if_true, List.length_cons]
          push_cast
          omega
        · simp only [hl, if_false, Bool.false_eq_true]
          omega
      · intro q hq hl
        by_cases hqb : q ∈ (innerRun env eb false true ps (stepReq env s p)).batch
        · have := ih2 q hqb (by rw [stepReq_loggable]; exact hl)
          exact ⟨lt_of_le_of_lt hge this.1, this.2⟩
        · have hqp : q = p := (List.mem_cons.mp hq).resolve_right hqb
          subst hqp
          rw [innerRun_mem_not_batch env eb false true ps (stepReq env s q) q hqb, hs2 hl]
          constructor
          · omega
          · rw [hs1, if_pos hl] at hmono
            exact hmono
    · exact absurd h (by decide)

theorem innerRun_batch_head (env : Env) (eb : Int) (sim up : Bool) (p : Nat) (ps : List Nat)
    (s : Impl) : p ∈ (innerRun env eb sim up (p :: ps) s).batch := by
  rcases innerRun_cons_cases env eb sim up p ps s with ⟨-, -, -, h⟩ | ⟨-, -, -, h⟩ |
    ⟨-, -, -, h⟩ | ⟨-, h⟩ <;> rw [h] <;> simp

theorem simRun_none (env : Env) (s : Impl)
    (hns : ¬ (0 < s.mFailureSimulationInterval ∧
      env.Rand s.tick % s.mFailureSimulationInterval.toNat = 0)) :
    (simRun env s).1 = false := by
  unfold simRun
  by_cases h : 0 < s.mFailureSimulationInterval
  · rw [if_pos h]
    show (env.Rand s.tick % s.mFailureSimulationInterval.toNat == 0) = false
    rw [beq_eq_false_iff_ne]
    exact fun e => hns ⟨h, e⟩
  · rw [if_neg h]

/-- A batch of `Write` without a simulated failure, the transmitter up, that
logs at least one request: the block is flushed and `mNextLogSeq` advances. -/
theorem batchRun_logged (env : Env) (l : List Nat) (s : Impl)
    (hsim : (simRun env { s with mLastLogSeq := s.mNextLogSeq }).1 = false)
    (hup : s.mTransmitterUpFlag = true)
    (hpos : ∀ t0, s.mNextLogSeq < (innerRun env (s.mNextLogSeq + s.mMaxBlockSize) false true l
      { ({ s with mLastLogSeq := s.mNextLogSeq } : Impl) with tick := t0 }).state.mLastLogSeq) :
    ∃ t0, batchRun env l s =
      ((innerRun env (s.mNextLogSeq + s.mMaxBlockSize) false true l
          { ({ s with mLastLogSeq := s.mNextLogSeq } : Impl) with tick := t0 }).rest,
        { afterFlushBlock env
            (innerRun env (s.mNextLogSeq + s.mMaxBlockSize) false true l
              { ({ s with mLastLogSeq := s.mNextLogSeq } : Impl) with tick := t0 }).state
            (innerRun env (s.mNextLogSeq + s.mMaxBlockSize) false true l
              { ({ s with mLastLogSeq := s.mNextLogSeq } : Impl) with tick := t0 }).state.mLastLogSeq
          with mNextLogSeq :=
            (innerRun env (s.mNextLogSeq + s.mMaxBlockSize) false true l
              { ({ s with mLastLogSeq := s.mNextLogSeq } : Impl) with
                tick := t0 }).state.mLastLogSeq }) := by
  obtain ⟨t0, ht0⟩ := simRun_shape env { s with mLastLogSeq := s.mNextLogSeq }
  refine ⟨t0, ?_⟩
  have hp := hpos t0
  have hn := (innerRun_good env (s.mNextLogSeq + s.mMaxBlockSize) false true l
    { ({ s with mLastLogSeq := s.mNextLogSeq } : Impl) with tick := t0 }).2.2
  have e : innerRun env (s.mNextLogSeq + s.mMaxBlockSize) false s.mTransmitterUpFlag l
      { ({ s with mLastLogSeq := s.mNextLogSeq } : Impl) with tick := t0 } =
      innerRun env (s.mNextLogSeq + s.mMaxBlockSize) false true l
        { ({ s with mLastLogSeq := s.mNextLogSeq } : Impl) with tick := t0 } := by
    rw [hup]
  unfold batchRun
  dsimp only
  rw [hsim, ht0, e]
  rw [if_pos (by rw [hup]; rfl : (!false && s.mTransmitterUpFlag) = true)]
  rw [if_pos ⟨by rw [hn]; exact hp, hup⟩]
  rfl

theorem writeRun_tick (env : Env) (n : Nat) (l : List Nat) (s : Impl) :
    ∃ t, writeRun env n l s =
      { batchesRun env n l { s with mMdStream := { s.mMdStream with sync := false } } with
        tick := t } := by
  unfold writeRun
  dsimp only
  split_ifs
  · exact ⟨_, rfl⟩
  · exact ⟨_, rfl⟩

/-- The outer loop of `Write` when the transmitter refuses the block of the
first batch: the batch is committed, the block is in the file, the transmitter
is marked down. -/
theorem batchesRun_transmit_failure (env : Env) (n head : Nat) (ps : List Nat) (s : Impl)
    (name : String) (hup : s.mTransmitterUpFlag = true)
    (hns : ¬ (0 < s.mFailureSimulationInterval ∧
      env.Rand s.tick % s.mFailureSimulationInterval.toNat = 0))
    (htx : ∀ t b, env.TransmitBlock t b ≠ 0) (hblk : 0 ≤ s.mNextBlockSeq)
    (hl : (s.mem head).loggable = true) (hfd : s.fds s.mLogFd = some name)
    (hlen : (head :: ps).length < n + 1) (hnd : (head :: ps).Nodup) :
    ∃ batch rest b data, head :: ps = batch ++ rest ∧ head ∈ batch ∧
      (∀ p ∈ batch, (s.mem p).loggable = true →
        s.mNextLogSeq < ((batchesRun env (n + 1) (head :: ps) s).mem p).logseq ∧
        ((batchesRun env (n + 1) (head :: ps) s).mem p).logseq ≤
          (batchesRun env (n + 1) (head :: ps) s).mNextLogSeq ∧
        ((batchesRun env (n + 1) (head :: ps) s).mem p).status = (s.mem p).status ∧
        ((batchesRun env (n + 1) (head :: ps) s).mem p).statusMsg = (s.mem p).statusMsg) ∧
      (batchesRun env (n + 1) (head :: ps) s).mNextLogSeq =
        s.mNextLogSeq + ((batch.filter fun p => (s.mem p).loggable).length : Int) ∧
      (batchesRun env (n + 1) (head :: ps) s).transmitted = s.transmitted ++ [b] ∧
      b.endSeq = (batchesRun env (n + 1) (head :: ps) s).mNextLogSeq ∧
      (batchesRun env (n + 1) (head :: ps) s).files name =
        some ((s.files name).getD [] ++ b.data ++ data) ∧
      (batchesRun env (n + 1) (head :: ps) s).mTransmitterUpFlag = false := by
  have hsim : (simRun env { s with mLastLogSeq := s.mNextLogSeq }).1 = false :=
    simRun_none env _ hns
  have hpos : ∀ t0, s.mNextLogSeq <
      (innerRun env (s.mNextLogSeq + s.mMaxBlockSize) false true (head :: ps)
        { ({ s with mLastLogSeq := s.mNextLogSeq } : Impl) with tick := t0 }).state.mLastLogSeq := by
    intro t0
    obtain ⟨hL, -⟩ := innerRun_logged env (s.mNextLogSeq + s.mMaxBlockSize) (head :: ps)
      { ({ s with mLastLogSeq := s.mNextLogSeq } : Impl) with tick := t0 }
    have hh := innerRun_batch_head env (s.mNextLogSeq + s.mMaxBlockSize) false true head ps
      { ({ s with mLastLogSeq := s.mNextLogSeq } : Impl) with tick := t0 }
    rw [hL]
    have hmf : head ∈ List.filter (fun p => (s.mem p).loggable) _ :=
      List.mem_filter.mpr ⟨hh, hl⟩
    have hc := List.length_pos_of_mem hmf
    show s.mNextLogSeq < s.mNextLogSeq + _
    exact lt_add_of_pos_right _ (Int.ofNat_pos.mpr hc)
  obtain ⟨t0, hb⟩ := batchRun_logged env (head :: ps) s hsim hup hpos
  have hsplit := innerRun_split env (s.mNextLogSeq + s.mMaxBlockSize) false true (head :: ps)
    { ({ s with mLastLogSeq := s.mNextLogSeq } : Impl) with tick := t0 }
  have hhead := innerRun_batch_head env (s.mNextLogSeq + s.mMaxBlockSize) false true head ps
    { ({ s with mLastLogSeq := s.mNextLogSeq } : Impl) with tick := t0 }
  obtain ⟨hL, hM⟩ := innerRun_logged env (s.mNextLogSeq + s.mMaxBlockSize) (head :: ps)
    { ({ s with mLastLogSeq := s.mNextLogSeq } : Impl) with tick := t0 }
  have hmem := innerRun_mem env (s.mNextLogSeq + s.mMaxBlockSize) false true (head :: ps)
    { ({ s with mLastLogSeq := s.mNextLogSeq } : Impl) with tick := t0 }
  obtain ⟨m, L, b, z, d, hS⟩ := innerRun_shape env (s.mNextLogSeq + s.mMaxBlockSize) false true
    (head :: ps) { ({ s with mLastLogSeq := s.mNextLogSeq } : Impl) with tick := t0 }
  generalize innerRun env (s.mNextLogSeq + s.mMaxBlockSize) false true (head :: ps)
    { ({ s with mLastLogSeq := s.mNextLogSeq } : Impl) with tick := t0 } = r
    at hb hsplit hhead hL hM hmem hS
  have f1 : r.state.mNextBlockSeq = s.mNextBlockSeq := by
    have h := congrArg Impl.mNextBlockSeq hS
    exact h
  have f2 : r.state.transmitted = s.transmitted := by
    have h := congrArg Impl.transmitted hS
    exact h
  have f3 : r.state.files = s.files := by
    have h := congrArg Impl.files hS
    exact h
  have f4 : r.state.fds = s.fds := by
    have h := congrArg Impl.fds hS
    exact h
  have f5 : r.state.mLogFd = s.mLogFd := by
    have h := congrArg Impl.mLogFd hS
    exact h
  have htr : transmits r.state = true := by
    unfold transmits
    rw [f1]
    exact decide_eq_true (by omega)
  have hdown : ({ afterFlushBlock env r.state r.state.mLastLogSeq with
      mNextLogSeq := r.state.mLastLogSeq } : Impl).mTransmitterUpFlag = false := by
    show (if transmits r.state = true ∧
      env.TransmitBlock r.state.tick (txBlock env r.state r.state.mLastLogSeq) ≠ 0 then false
      else r.state.mTransmitterUpFlag) = false
    rw [if_pos ⟨htr, htx _ _⟩]
  have hlenr : r.rest.length < n := by
    have h2 := congrArg List.length hsplit
    rw [List.length_append] at h2
    have h3 : 0 < r.batch.length := List.length_pos_of_mem hhead
    simp only [List.length_cons] at hlen h2
    omega
  obtain ⟨t1, hidle⟩ := batchesRun_idle env n r.rest
    { afterFlushBlock env r.state r.state.mLastLogSeq with mNextLogSeq := r.state.mLastLogSeq }
    (Or.inr hdown) hlenr
  have hfin : batchesRun env (n + 1) (head :: ps) s =
      batchesRun env n r.rest
        { afterFlushBlock env r.state r.state.mLastLogSeq with
          mNextLogSeq := r.state.mLastLogSeq } := by
    show batchesRun env n (batchRun env (head :: ps) s).1 (batchRun env (head :: ps) s).2 = _
    rw [hb]
  rw [hfin, hidle]
  refine ⟨r.batch, r.rest, txBlock env r.state r.state.mLastLogSeq,
    blockSeqText env r.state ++
      showInt env r.state (trailerChecksum env r.state r.state.mLastLogSeq) ++ "\n".toList,
    hsplit.symm, hhead, ?_, hL, ?_, rfl, ?_, hdown⟩
  · intro p hp hlp
    have hnr : p ∉ r.rest := by
      rw [← hsplit] at hnd
      exact fun hh => (List.nodup_append.mp hnd).2.2 hp hh
    show s.mNextLogSeq < (markFailed env r.state.mem r.rest p).logseq ∧
      (markFailed env r.state.mem r.rest p).logseq ≤ r.state.mLastLogSeq ∧
      (markFailed env r.state.mem r.rest p).status = (s.mem p).status ∧
      (markFailed env r.state.mem r.rest p).statusMsg = (s.mem p).statusMsg
    rw [markFailed_skip env r.rest r.state.mem p (Or.inl hnr)]
    obtain ⟨a1, a2⟩ := hM p hp hlp
    refine ⟨a1, a2, ?_, ?_⟩
    · rw [hmem p]
    · rw [hmem p]
  · show (if transmits r.state = true then
      r.state.transmitted ++ [txBlock env r.state r.state.mLastLogSeq]
      else r.state.transmitted) = _
    rw [if_pos htr, f2]
  · show (appendToFd r.state r.state.mLogFd
      (r.state.mMdStream.buf ++ blockTrailer env r.state r.state.mLastLogSeq)).files name = _
    rw [appendToFd_files_of_open r.state r.state.mLogFd name _ (by rw [f4, f5]; exact hfd), f3]
    simp only [blockTrailer, txBlock, List.append_assoc]

/-- C18: when `Write` starts a batch with the transmitter up and the stream
good (no failure simulated, a loggable request at the head, the header block
written, no control requests, no rotation by time being due), the file calls
succeed and `TransmitBlock` returns a non-zero status inside `FlushBlock`, the
batch is not failed: the call returns, the queue splits into the batch and the
rest, every loggable request of the batch has a log sequence assigned in the
batch (above the old `mNextLogSeq`, at most the new one) and its status and
status message unchanged, `mNextLogSeq` has advanced by the number of loggable
requests of the batch, the block was handed to the transmitter once, its bytes
followed by the rest of the trailer are appended to the log file, and
`mTransmitterUpFlag` is false. -/
theorem Write_transmit_failure (env : Env) (io : FileOk env) (k head : Nat) (ps : List Nat)
    (s : Impl) (name : String) (hg : Good s) (hup : s.mTransmitterUpFlag = true)
    (hns : ¬ (0 < s.mFailureSimulationInterval ∧
      env.Rand s.tick % s.mFailureSimulationInterval.toNat = 0))
    (htx : ∀ t b, env.TransmitBlock t b ≠ 0) (hblk : 0 ≤ s.mNextBlockSeq)
    (hl : (s.mem head).loggable = true) (hfd : s.fds s.mLogFd = some name)
    (hlen : (head :: ps).length < k + 2)
    (hch : isChain s.mem (some head) (head :: ps) = true) (hnd : (head :: ps).Nodup)
    (hctl : ∀ p ∈ head :: ps, (s.mem p).op ≠ MetaOp.META_LOG_WRITER_CONTROL)
    (hrot : ∀ t, ¬ (s.mCurLogStartTime + s.mLogRotateInterval < env.microseconds t)) :
    ∃ s' batch rest b data, Write env (k + 2) head s = Res.ok () s' ∧
      head :: ps = batch ++ rest ∧ head ∈ batch ∧
      (∀ p ∈ batch, (s.mem p).loggable = true →
        s.mNextLogSeq < (s'.mem p).logseq ∧ (s'.mem p).logseq ≤ s'.mNextLogSeq ∧
        (s'.mem p).status = (s.mem p).status ∧ (s'.mem p).statusMsg = (s.mem p).statusMsg) ∧
      s'.mNextLogSeq =
        s.mNextLogSeq + ((batch.filter fun p => (s.mem p).loggable).length : Int) ∧
      s'.transmitted = s.transmitted ++ [b] ∧ b.endSeq = s'.mNextLogSeq ∧
      s'.files name = some ((s.files name).getD [] ++ b.data ++ data) ∧
      s'.mTransmitterUpFlag = false := by
  have h1 := Write_eq env io k head (head :: ps) s hlen hch hctl hg hrot
  obtain ⟨tw, hw⟩ := writeRun_tick env (k + 2) (head :: ps) s
  obtain ⟨batch, rest, b, data, c1, c2, c3, c4, c5, c6, c7, c8⟩ :=
    batchesRun_transmit_failure env (k + 1) head ps
      { s with mMdStream := { s.mMdStream with sync := false } } name hup hns htx hblk hl hfd
      hlen hnd
  refine ⟨_, batch, rest, b, data, h1, c1, c2, ?_, ?_, ?_, ?_, ?_, ?_⟩
  · rw [hw]
    exact c3
  · rw [hw]
    exact c4
  · rw [hw]
    exact c5
  · rw [hw]
    exact c6
  · rw [hw]
    exact c7
  · rw [hw]
    exact c8

theorem Write_transmit_failure_witness :
    ∃ s' batch rest b data, Write envTxFail 5 1 stateTx = Res.ok () s' ∧
      [1, 2, 3] = batch ++ rest ∧ 1 ∈ batch ∧
      (∀ p ∈ batch, (stateTx.mem p).loggable = true →
        stateTx.mNextLogSeq < (s'.mem p).logseq ∧ (s'.mem p).logseq ≤ s'.mNextLogSeq ∧
        (s'.mem p).status = (stateTx.mem p).status ∧
        (s'.mem p).statusMsg = (stateTx.mem p).statusMsg) ∧
      s'.mNextLogSeq =
        stateTx.mNextLogSeq + ((batch.filter fun p => (stateTx.mem p).loggable).length : Int) ∧
      s'.transmitted = stateTx.transmitted ++ [b] ∧ b.endSeq = s'.mNextLogSeq ∧
      s'.files "./kfslog/log.0" =
        some ((stateTx.files "./kfslog/log.0").getD [] ++ b.data ++ data) ∧
      s'.mTransmitterUpFlag = false :=
  Write_transmit_failure envTxFail
    ⟨fun _ => (by decide : (0 : Int) ≤ 3), fun _ _ => rfl, fun _ => rfl, fun _ => rfl,
      fun _ => rfl, fun _ _ => ⟨rfl, rfl⟩⟩
    3 1 [2, 3] stateTx "./kfslog/log.0" ⟨rfl, by decide, rfl⟩ rfl
    (fun h => absurd h.1 (by decide)) (fun _ _ => (by decide : (1 : Int) ≠ 0)) (by decide) rfl
    rfl (by decide) (by decide) (by decide) (by decide)
    (fun _ h => absurd (show stateTx.mCurLogStartTime + stateTx.mLogRotateInterval < 0 from h)
      (by decide))

theorem Start_fresh_eq (env : Env) (io : FileOk env)
    (htx : ∀ t, env.transmitterSetParameters t = 0) (k : Nat) (inLogNum inLogSeq
    inCommittedLogSeq inCommittedFidSeed inCommittedErrCheckSum inCommittedStatus : Int)
    (inLogAppendStartSeq inLogAppendLastBlockSeq : Int)
    (inLogAppendHexFlag : Bool) (inParametersPrefixPtr : Option String) (inParameters : Properties)
    (s : Impl) (hn : 0 ≤ inLogNum) (hl : 0 ≤ inLogSeq) (hr : s.mThreadStarted = false)
    (hp : s.mNetManagerPtr = false) :
    Start env (k + 2) inLogNum inLogSeq inCommittedLogSeq inCommittedFidSeed
      inCommittedErrCheckSum inCommittedStatus none inLogAppendStartSeq
      inLogAppendLastBlockSeq inLogAppendHexFlag inParametersPrefixPtr inParameters s =
      Res.ok (0, some (afterStart env inLogNum inLogSeq inCommittedLogSeq inCommittedFidSeed
          inCommittedErrCheckSum inCommittedStatus inParametersPrefixPtr inParameters s).mLogName)
        (afterStart env inLogNum inLogSeq inCommittedLogSeq inCommittedFidSeed
          inCommittedErrCheckSum inCommittedStatus inParametersPrefixPtr inParameters s) := by
  have key : M.total (Start env (k + 2) inLogNum inLogSeq inCommittedLogSeq inCommittedFidSeed
      inCommittedErrCheckSum inCommittedStatus none inLogAppendStartSeq
      inLogAppendLastBlockSeq inLogAppendHexFlag inParametersPrefixPtr inParameters) s
      (fun r s' => r = (0, some (afterStart env inLogNum inLogSeq inCommittedLogSeq
          inCommittedFidSeed inCommittedErrCheckSum inCommittedStatus inParametersPrefixPtr
          inParameters s).mLogName) ∧
        s' = afterStart env inLogNum inLogSeq inCommittedLogSeq inCommittedFidSeed
          inCommittedErrCheckSum inCommittedStatus inParametersPrefixPtr inParameters s) := by
    have h0 : ¬ (inLogNum < 0 ∨ inLogSeq < 0 ∨
        ((none : Option MdStateCtx).isSome = true ∧ inLogSeq < inLogAppendStartSeq) ∨
        (s.mThreadStarted = true ∨ s.mNetManagerPtr = true)) := by
      rw [hr, hp]
      simp only [Option.isSome_none, Bool.false_eq_true, false_and, or_self, or_false, not_or,
        not_lt]
      exact ⟨hn, hl⟩
    simp only [Start, SetParameters, M.total_bind_iff, M.total_get_iff, h0, if_false,
      M.total_modify_iff, M.total_nextTick_iff, M.total_pure_iff, htx, ne_eq, not_true_eq_false,
      mdReset]
    refine NewLog_total env io k _ _ ?_
    refine IsLogStreamGood_total _ (afterFlushBlock_good env _ _ ⟨rfl, io.open_ok _, rfl⟩) ?_
    simp only [Bool.not_true, Bool.false_eq_true, if_false, M.total_bind_iff, M.total_get_iff,
      M.total_modify_iff, M.total_pure_iff]
    exact ⟨rfl, rfl⟩
  obtain ⟨r, s', h, rfl, rfl⟩ := key
  exact h

theorem splitPendingAck_run (l : List Nat) :
    ∀ (n : Nat) (ptr thePrevPtr : Option Nat) (inDoneQueue : Queue) (s : Impl), l.length < n →
      isChain s.mem ptr l = true →
      splitPendingAck n ptr thePrevPtr inDoneQueue s =
        Res.ok (splitRun s inDoneQueue l thePrevPtr).1 (splitRun s inDoneQueue l thePrevPtr).2 := by
  induction l with
  | nil =>
    intro n ptr prev done s hn hch
    rw [isChain_nil] at hch
    subst hch
    obtain ⟨n, rfl⟩ : ∃ k, n = k + 1 := ⟨n - 1, by simp at hn; omega⟩
    rfl
  | cons p ps ih =>
    intro n ptr prev done s hn hch
    obtain ⟨n, rfl⟩ : ∃ k, n = k + 1 := ⟨n - 1, by simp at hn; omega⟩
    have hh := isChain_head _ _ _ hch
    simp only [List.head?_cons] at hh
    subst hh
    have hch2 : isChain s.mem (s.mem p).next ps = true := by
      simp only [isChain, beq_self_eq_true, Bool.true_and] at hch
      exact hch
    by_cases hc : s.mTransmitCommitted < (s.mem p).logseq
    · cases prev with
      | none =>
        simp only [splitPendingAck, splitRun, M.bind_run, M.get_run, hc, if_true, M.pure_run]
      | some prev =>
        simp only [splitPendingAck, splitRun, M.bind_run, M.get_run, hc, if_true, M.pure_run,
          M.modify_run]
    · have := ih n (s.mem p).next (some p) done s (by simp at hn ⊢; omega) hch2
      simp only [splitPendingAck, splitRun, M.bind_run, M.get_run, hc, if_false]
      exact this

theorem M.total_of_eq {α : Type} {m : M α} {s : Impl} {a : α} {s' : Impl}
    {Q : α → Impl → Prop} (h : m s = Res.ok a s') (hq : Q a s') : M.total m s Q :=
  ⟨a, s', h, hq⟩

theorem ProcessPendingAckQueue_total (fuel : Nat) (inDoneQueue : Queue) (l : List Nat) (s : Impl)
    (Q : Queue → Impl → Prop) (hl : l.length < fuel)
    (hch : isChain (s.mPendingAckQueue.PushBackQueue inDoneQueue s.mem).2.2
      (s.mPendingAckQueue.PushBackQueue inDoneQueue s.mem).1.Front l = true)
    (hq : Q (ackRun s inDoneQueue l).1 (ackRun s inDoneQueue l).2) :
    M.total (ProcessPendingAckQueue fuel inDoneQueue) s Q := by
  unfold ProcessPendingAckQueue
  simp only [M.total_bind_iff, M.total_modify_iff, M.total_get_iff]
  unfold ackRun at hq
  dsimp only at hq
  by_cases hc : s.mTransmitCommitted < s.mNextLogSeq
  · rw [if_pos hc] at hq
    rw [if_pos hc]
    simp only [M.total_bind_iff]
    refine M.total_of_eq (splitPendingAck_run l fuel _ none _ _ hl hch) ?_
    by_cases he : (splitRun
        { s with
          mWokenFlag := false
          mPendingAckQueue := (s.mPendingAckQueue.PushBackQueue inDoneQueue s.mem).1
          mem := (s.mPendingAckQueue.PushBackQueue inDoneQueue s.mem).2.2 }
        inDoneQueue.Reset l none).1.IsEmpty = true
    · rw [if_pos he] at hq
      simp only [he, if_true, M.total_pure_iff]
      exact hq
    · rw [if_neg he] at hq
      simp only [he, if_false, M.total_pure_iff, M.total_bind_iff, M.total_get_iff,
        M.total_modify_iff, Bool.false_eq_true]
      exact hq
  · rw [if_neg hc] at hq
    rw [if_neg hc]
    simp only [M.total_bind_iff, M.total_modify_iff, M.total_pure_iff]
    by_cases he : (inDoneQueue.Reset.PushBackQueue
        (s.mPendingAckQueue.PushBackQueue inDoneQueue s.mem).1
        (s.mPendingAckQueue.PushBackQueue inDoneQueue s.mem).2.2).1.IsEmpty = true
    · rw [if_pos he] at hq
      simp only [he, if_true, M.total_pure_iff]
      exact hq
    · rw [if_neg he] at hq
      simp only [he, if_false, M.total_pure_iff, M.total_bind_iff, M.total_get_iff,
        M.total_modify_iff, Bool.false_eq_true]
      exact hq

theorem DispatchStart_eq (env : Env) (io : FileOk env) (k head : Nat) (lw la : List Nat)
    (s : Impl) (hstop : s.mStopFlag = false) (hfront : s.mInQueue.Front = some head)
    (hlen : lw.length < k + 2) (hch : isChain s.mem (some head) lw = true)
    (hctl : ∀ p ∈ lw, (s.mem p).op ≠ MetaOp.META_LOG_WRITER_CONTROL) (hg : Good s)
    (hrot : ∀ t, ¬ (s.mCurLogStartTime + s.mLogRotateInterval < env.microseconds t))
    (hla : la.length < k + 2)
    (hcha : isChain
      ((writeRun env (k + 2) lw
        { s with
          mInQueue := s.mInQueue.Reset
          mInFlightCommitted := s.mPendingCommitted
          mWokenFlag := true }).mPendingAckQueue.PushBackQueue s.mInQueue
        (writeRun env (k + 2) lw
          { s with
            mInQueue := s.mInQueue.Reset
            mInFlightCommitted := s.mPendingCommitted
            mWokenFlag := true }).mem).2.2
      ((writeRun env (k + 2) lw
        { s with
          mInQueue := s.mInQueue.Reset
          mInFlightCommitted := s.mPendingCommitted
          mWokenFlag := true }).mPendingAckQueue.PushBackQueue s.mInQueue
        (writeRun env (k + 2) lw
          { s with
            mInQueue := s.mInQueue.Reset
            mInFlightCommitted := s.mPendingCommitted
            mWokenFlag := true }).mem).1.Front la = true) :
    DispatchStart env (k + 2) s = Res.ok ()
      (ackRun (writeRun env (k + 2) lw
        { s with
          mInQueue := s.mInQueue.Reset
          mInFlightCommitted := s.mPendingCommitted
          mWokenFlag := true }) s.mInQueue la).2 := by
  have key : M.total (DispatchStart env (k + 2)) s (fun _ s' => s' =
      (ackRun (writeRun env (k + 2) lw
        { s with
          mInQueue := s.mInQueue.Reset
          mInFlightCommitted := s.mPendingCommitted
          mWokenFlag := true }) s.mInQueue la).2) := by
    unfold DispatchStart
    simp only [M.total_bind_iff, M.total_get_iff]
    rw [if_neg (show ¬ s.mStopFlag = true by rw [hstop]; decide)]
    simp only [M.total_pure_iff, hfront, M.total_modify_iff, M.total_bind_iff]
    refine M.total_of_eq (Write_eq env io k head lw _ hlen hch hctl hg hrot) ?_
    refine ProcessPendingAckQueue_total (k + 2) s.mInQueue la _ _ hla hcha ?_
    simp only [M.total_pure_iff]
  obtain ⟨a, s', h, rfl⟩ := key
  exact h

theorem DispatchEnd_eq (fuel : Nat) (la : List Nat) (s : Impl) (hw : s.mWokenFlag = true)
    (hla : la.length < fuel)
    (hcha : isChain (s.mPendingAckQueue.PushBackQueue Queue.empty s.mem).2.2
      (s.mPendingAckQueue.PushBackQueue Queue.empty s.mem).1.Front la = true) :
    DispatchEnd fuel s = Res.ok () (ackRun s Queue.empty la).2 := by
  have key : M.total (DispatchEnd fuel) s (fun _ s' => s' = (ackRun s Queue.empty la).2) := by
    unfold DispatchEnd
    simp only [M.total_bind_iff, M.total_get_iff]
    rw [if_pos hw]
    simp only [M.total_bind_iff]
    refine ProcessPendingAckQueue_total fuel Queue.empty la _ _ hla hcha ?_
    simp only [M.total_pure_iff]
  obtain ⟨a, s', h, rfl⟩ := key
  exact h

theorem cycFlushed_reachable : Reachable envOk (fun _ _ => True) cycFlushed := by
  refine ⟨Impl.init envOk (fun _ => reqEx LogAction.kLogAlways 0) (fun _ => 0), cycStarted, 2,
    0, 0, 100, 0, 0, 0, none, 0, 0, false, none, Properties.none, _,
    Start_fresh_eq envOk envOk_fileOk (fun _ => rfl) 0 0 0 100 0 0 0 0 0 false none
      Properties.none _ (le_refl _) (le_refl _) rfl rfl, ?_⟩
  have h1 : Step envOk (fun _ _ => True) cycStarted cycNotified :=
    Step.notify _ _ 0 (Notify_run envOk 0 cycStarted)
  have h2 : Step envOk (fun _ _ => True) cycNotified cycQueued :=
    Step.enqueue _ _ 1 true (Enqueue_enqueued envOk 1 cycNotified rfl
      (fun h => absurd (show LogAction.kLogAlways = LogAction.kLogNever ∨
          (LogAction.kLogAlways = LogAction.kLogIfOk ∧ (0 : Int) ≠ 0) from h.2) (by decide))
      (by
        intro c h
        have h' : some 0 = some c := h
        cases h'
        decide)
      (by decide))
  have h3 : Step envOk (fun _ _ => True) cycQueued cycFlushed :=
    Step.scheduleFlush _ _ (ScheduleFlush_nonempty cycQueued rfl)
  exact ((Relation.ReflTransGen.single h1).tail h2).tail h3

theorem batchRun_failed (env : Env) (l : List Nat) (s : Impl)
    (hi : (simRun env { s with mLastLogSeq := s.mNextLogSeq }).1 = true ∨
      s.mTransmitterUpFlag = false) :
    ∃ t, (batchRun env l s).2 =
      { s with
        mLastLogSeq := s.mNextLogSeq
        tick := t
        mem := markFailed env s.mem
          (innerRun env (s.mNextLogSeq + s.mMaxBlockSize)
            (simRun env { s with mLastLogSeq := s.mNextLogSeq }).1 s.mTransmitterUpFlag l
            (simRun env { s with mLastLogSeq := s.mNextLogSeq }).2).batch } := by
  have hidle := innerRun_idle env (s.mNextLogSeq + s.mMaxBlockSize)
    (simRun env { s with mLastLogSeq := s.mNextLogSeq }).1 s.mTransmitterUpFlag hi l
    (simRun env { s with mLastLogSeq := s.mNextLogSeq }).2
  obtain ⟨t, ht⟩ := simRun_shape env { s with mLastLogSeq := s.mNextLogSeq }
  have hb : ¬ ((!(simRun env { s with mLastLogSeq := s.mNextLogSeq }).1 &&
      s.mTransmitterUpFlag) = true) := by
    rcases hi with hi | hi
    · rw [hi]
      simp
    · rw [hi]
      simp
  refine ⟨t, ?_⟩
  unfold batchRun
  dsimp only
  rw [if_neg hb, hidle, ht]
  have hnf : ¬ ((s.mNextLogSeq : Int) < s.mNextLogSeq ∧ s.mTransmitterUpFlag = true) :=
    fun hh => lt_irrefl _ hh.1
  rw [if_neg hnf]

theorem batchRun_committed (env : Env) (l : List Nat) (s : Impl)
    (hsim : (simRun env { s with mLastLogSeq := s.mNextLogSeq }).1 = false)
    (hup : s.mTransmitterUpFlag = true) :
    ∃ t0, (batchRun env l s).1 =
        (innerRun env (s.mNextLogSeq + s.mMaxBlockSize) false true l
          { ({ s with mLastLogSeq := s.mNextLogSeq } : Impl) with tick := t0 }).rest ∧
      (batchRun env l s).2.mem =
        (innerRun env (s.mNextLogSeq + s.mMaxBlockSize) false true l
          { ({ s with mLastLogSeq := s.mNextLogSeq } : Impl) with tick := t0 }).state.mem ∧
      (batchRun env l s).2.mNextLogSeq =
        (innerRun env (s.mNextLogSeq + s.mMaxBlockSize) false true l
          { ({ s with mLastLogSeq := s.mNextLogSeq } : Impl) with tick := t0 }).state.mLastLogSeq := by
  obtain ⟨t0, ht0⟩ := simRun_shape env { s with mLastLogSeq := s.mNextLogSeq }
  refine ⟨t0, ?_⟩
  have e : innerRun env (s.mNextLogSeq + s.mMaxBlockSize) false s.mTransmitterUpFlag l
      { ({ s with mLastLogSeq := s.mNextLogSeq } : Impl) with tick := t0 } =
      innerRun env (s.mNextLogSeq + s.mMaxBlockSize) false true l
        { ({ s with mLastLogSeq := s.mNextLogSeq } : Impl) with tick := t0 } := by
    rw [hup]
  unfold batchRun
  dsimp only
  rw [hsim, ht0, e]
  rw [if_pos (by rw [hup]; rfl : (!false && s.mTransmitterUpFlag) = true)]
  split_ifs
  · exact ⟨rfl, rfl, rfl⟩
  · exact ⟨rfl, rfl, rfl⟩

/-- One batch of `Write`: the requests of the batch that are loggable end with
`logseq = -1` or with a log sequence above the old `mNextLogSeq`; the others
are unchanged; `mNextLogSeq` does not decrease. -/
theorem batchRun_assigned (env : Env) (l : List Nat) (s : Impl) :
    ∃ batch, batch ++ (batchRun env l s).1 = l ∧ (l ≠ [] → batch ≠ []) ∧
      s.mNextLogSeq ≤ (batchRun env l s).2.mNextLogSeq ∧
      (∀ p ∈ batch, (s.mem p).loggable = true →
        (s.mem p).op ≠ MetaOp.META_LOG_WRITER_CONTROL →
        ((batchRun env l s).2.mem p).logseq = -1 ∨
          s.mNextLogSeq < ((batchRun env l s).2.mem p).logseq) ∧
      ∀ p, p ∉ batch → (batchRun env l s).2.mem p = s.mem p := by
  by_cases hc : (simRun env { s with mLastLogSeq := s.mNextLogSeq }).1 = false ∧
      s.mTransmitterUpFlag = true
  · obtain ⟨t0, h1, h2, h3⟩ := batchRun_committed env l s hc.1 hc.2
    have hsplit := innerRun_split env (s.mNextLogSeq + s.mMaxBlockSize) false true l
      { ({ s with mLastLogSeq := s.mNextLogSeq } : Impl) with tick := t0 }
    obtain ⟨hL, hM⟩ := innerRun_logged env (s.mNextLogSeq + s.mMaxBlockSize) l
      { ({ s with mLastLogSeq := s.mNextLogSeq } : Impl) with tick := t0 }
    have hnb := innerRun_mem_not_batch env (s.mNextLogSeq + s.mMaxBlockSize) false true l
      { ({ s with mLastLogSeq := s.mNextLogSeq } : Impl) with tick := t0 }
    refine ⟨(innerRun env (s.mNextLogSeq + s.mMaxBlockSize) false true l
      { ({ s with mLastLogSeq := s.mNextLogSeq } : Impl) with tick := t0 }).batch,
      ?_, ?_, ?_, ?_, ?_⟩
    · rw [h1]
      exact hsplit
    · intro hne
      cases l with
      | nil => exact absurd rfl hne
      | cons a l => exact innerRun_batch_ne env _ false true a l _
    · rw [h3, hL]
      show s.mNextLogSeq ≤ s.mNextLogSeq + _
      exact le_add_of_nonneg_right (Int.ofNat_nonneg _)
    · intro p hp hl _
      right
      rw [h2]
      exact (hM p hp hl).1
    · intro p hp
      rw [h2]
      exact hnb p hp
  · have hi : (simRun env { s with mLastLogSeq := s.mNextLogSeq }).1 = true ∨
        s.mTransmitterUpFlag = false := by
      rcases Bool.eq_false_or_eq_true (simRun env { s with mLastLogSeq := s.mNextLogSeq }).1
        with h | h
      · exact Or.inl h
      · rcases Bool.eq_false_or_eq_true s.mTransmitterUpFlag with h' | h'
        · exact absurd ⟨h, h'⟩ hc
        · exact Or.inr h'
    obtain ⟨t, ht⟩ := batchRun_failed env l s hi
    have hsplit := innerRun_split env (s.mNextLogSeq + s.mMaxBlockSize)
      (simRun env { s with mLastLogSeq := s.mNextLogSeq }).1 s.mTransmitterUpFlag l
      (simRun env { s with mLastLogSeq := s.mNextLogSeq }).2
    refine ⟨_, hsplit, ?_, ?_, ?_, ?_⟩
    · intro hne
      cases l with
      | nil => exact absurd rfl hne
      | cons a l => exact innerRun_batch_ne env _ _ _ a l _
    · rw [ht]
    · intro p hp hl hop
      left
      rw [ht]
      exact (markFailed_failed env _ s.mem p (Or.inl ⟨hp, hop, hl⟩)).1
    · intro p hp
      rw [ht]
      exact markFailed_skip env _ s.mem p (Or.inl hp)

theorem batchesRun_assigned (env : Env) :
    ∀ (n : Nat) (l : List Nat) (s : Impl), l.Nodup → l.length < n →
      ∀ p ∈ l, (s.mem p).loggable = true → (s.mem p).op ≠ MetaOp.META_LOG_WRITER_CONTROL →
        ((batchesRun env n l s).mem p).logseq = -1 ∨
          s.mNextLogSeq < ((batchesRun env n l s).mem p).logseq := by
  intro n
  induction n with
  | zero => intro l s _ h; exact absurd h (Nat.not_lt_zero _)
  | succ n ih =>
    intro l s hnd hlen p hp hl hop
    cases l with
    | nil => exact absurd hp (List.not_mem_nil _)
    | cons a as =>
      show ((batchesRun env n (batchRun env (a :: as) s).1 (batchRun env (a :: as) s).2).mem
        p).logseq = -1 ∨ s.mNextLogSeq <
          ((batchesRun env n (batchRun env (a :: as) s).1 (batchRun env (a :: as) s).2).mem
            p).logseq
      obtain ⟨batch, hsplit, hne, hmono, hb, hnb⟩ := batchRun_assigned env (a :: as) s
      have hnd2 := hnd
      rw [← hsplit] at hnd2 hp
      obtain ⟨-, hndr, hdis⟩ := List.nodup_append.mp hnd2
      have hlenr : (batchRun env (a :: as) s).1.length < n := by
        have h2 := congrArg List.length hsplit
        rw [List.length_append] at h2
        have h3 : 0 < batch.length := List.length_pos.mpr (hne (List.cons_ne_nil _ _))
        simp only [List.length_cons] at hlen h2
        omega
      rcases List.mem_append.mp hp with hpb | hpr
      · have hnr : p ∉ (batchRun env (a :: as) s).1 := fun hh => hdis hpb hh
        rw [batchesRun_mem_not_mem env n _ _ p hnr]
        exact hb p hpb hl hop
      · have hpnb : p ∉ batch := fun hh => hdis hh hpr
        have hm := hnb p hpnb
        rcases ih _ (batchRun env (a :: as) s).2 hndr hlenr p hpr (by rw [hm]; exact hl)
          (by rw [hm]; exact hop) with h | h
        · exact Or.inl h
        · exact Or.inr (lt_of_le_of_lt hmono h)

theorem NextOnly.refl (m : Nat → MetaRequest) : NextOnly m m := fun _ => ⟨_, rfl⟩

theorem NextOnly.trans {m1 m2 m3 : Nat → MetaRequest} (h1 : NextOnly m1 m2)
    (h2 : NextOnly m2 m3) : NextOnly m1 m3 := by
  intro x
  obtain ⟨a, ha⟩ := h1 x
  obtain ⟨b, hb⟩ := h2 x
  exact ⟨b, by rw [hb, ha]⟩

theorem NextOnly.setMem (m : Nat → MetaRequest) (t : Nat) (nx : Option Nat) :
    NextOnly m (setMem m t fun r => { r with next := nx }) := by
  intro x
  unfold KFS.setMem
  by_cases h : x = t
  · subst h
    exact ⟨nx, by rw [Function.update_same]⟩
  · exact ⟨(m x).next, by rw [Function.update_noteq h]⟩

theorem PushBackQueue_nextOnly (q q2 : Queue) (m : Nat → MetaRequest) :
    NextOnly m (q.PushBackQueue q2 m).2.2 := by
  unfold Queue.PushBackQueue
  cases q.mTailPtr with
  | none => exact NextOnly.refl m
  | some t => exact NextOnly.setMem m t _

theorem splitRun_shape (s : Impl) (inDoneQueue : Queue) (l : List Nat) :
    ∀ thePrevPtr : Option Nat, ∃ q m,
      (splitRun s inDoneQueue l thePrevPtr).2 = { s with mPendingAckQueue := q, mem := m } ∧
        NextOnly s.mem m := by
  induction l with
  | nil => intro _; exact ⟨_, _, rfl, NextOnly.refl _⟩
  | cons p ps ih =>
    intro prev
    unfold splitRun
    by_cases hc : s.mTransmitCommitted < (s.mem p).logseq
    · rw [if_pos hc]
      cases prev with
      | none => exact ⟨_, _, rfl, NextOnly.refl _⟩
      | some prev => exact ⟨_, _, rfl, NextOnly.setMem s.mem prev none⟩
    · rw [if_neg hc]
      exact ih (some p)

theorem ackRun_shape (s : Impl) (inDoneQueue : Queue) (l : List Nat) :
    ∃ w q m o mw, (ackRun s inDoneQueue l).2 =
      { s with mWokenFlag := w, mPendingAckQueue := q, mem := m, mOutQueue := o
               mainWakeups := mw } ∧ NextOnly s.mem m := by
  have hp1 := PushBackQueue_nextOnly s.mPendingAckQueue inDoneQueue s.mem
  unfold ackRun
  dsimp only
  by_cases hc : s.mTransmitCommitted < s.mNextLogSeq
  · rw [if_pos hc]
    obtain ⟨q, m, hs, hm⟩ := splitRun_shape
      { s with
        mWokenFlag := false
        mPendingAckQueue := (s.mPendingAckQueue.PushBackQueue inDoneQueue s.mem).1
        mem := (s.mPendingAckQueue.PushBackQueue inDoneQueue s.mem).2.2 }
      inDoneQueue.Reset l none
    split_ifs
    · rw [hs]
      exact ⟨_, _, _, _, _, rfl, hp1.trans hm⟩
    · dsimp only
      rw [hs]
      exact ⟨_, _, _, _, _, rfl, (hp1.trans hm).trans (PushBackQueue_nextOnly _ _ _)⟩
  · rw [if_neg hc]
    split_ifs
    · exact ⟨_, _, _, _, _, rfl, hp1.trans (PushBackQueue_nextOnly _ _ _)⟩
    · exact ⟨_, _, _, _, _, rfl,
        (hp1.trans (PushBackQueue_nextOnly _ _ _)).trans (PushBackQueue_nextOnly _ _ _)⟩

theorem Queue.Holds.congr {q : Queue} {mem mem' : Nat → MetaRequest} {l : List Nat}
    (h : q.Holds mem l) (hn : ∀ p, (mem' p).next = (mem p).next) : q.Holds mem' l :=
  ⟨by rw [isChain_congr mem mem' l _ (fun p _ => hn p)]; exact h.1, h.2.1, h.2.2⟩

set_option maxRecDepth 4000 in
/-- C27 (claim as stated fails): `Start` accepts a committed log sequence (100)
above the log sequence (0); after `Notify`, `Enqueue` of request 1 and
`ScheduleFlush`, the dispatch cycle snapshots `mInFlightCommitted.mSeq = 100`
and `Write` assigns the log sequence 1 to request 1. -/
theorem DispatchStart_logseq_counterexample :
    ∃ s s', Reachable envOk (fun _ _ => True) s ∧ DispatchStart envOk 5 s = Res.ok () s' ∧
      s'.mInFlightCommitted.mSeq = 100 ∧ (s.mem 1).logseq = -1 ∧ (s'.mem 1).logseq = 1 := by
  refine ⟨cycFlushed, afterDispatchStart envOk 5 [1] [1] cycFlushed, cycFlushed_reachable,
    DispatchStart_eq envOk envOk_fileOk 3 1 [1] [1] cycFlushed rfl rfl (by decide) (by decide)
      (by decide) ⟨rfl, by decide, rfl⟩
      (fun _ h => absurd (show cycFlushed.mCurLogStartTime + cycFlushed.mLogRotateInterval < 0
        from h) (by decide))
      (by decide) (by decide), ?_, ?_, ?_⟩
  · rfl
  · rfl
  · rfl

/-- A dispatch cycle over plain requests: a cycle that starts with
`mPendingCommitted.mSeq <= mNextLogSeq` (the stream good, the file calls
succeeding, no control request in the in queue, no rotation by time being
due) returns with `mInFlightCommitted` the snapshot of `mPendingCommitted`,
and every loggable request of the in queue ends either failed
(`logseq = -1`) or with a log sequence above `mInFlightCommitted.mSeq`. -/
theorem DispatchStart_logseq_above (env : Env) (io : FileOk env) (k head : Nat)
    (lw lp : List Nat) (s : Impl) (hstop : s.mStopFlag = false) (hg : Good s)
    (hin : s.mInQueue.Holds s.mem lw) (hfront : s.mInQueue.Front = some head)
    (hpa : s.mPendingAckQueue.Holds s.mem lp) (hd : lp.Disjoint lw)
    (hlen : (lp ++ lw).length < k + 2)
    (hctl : ∀ p ∈ lw, (s.mem p).op ≠ MetaOp.META_LOG_WRITER_CONTROL)
    (hrot : ∀ t, ¬ (s.mCurLogStartTime + s.mLogRotateInterval < env.microseconds t))
    (hpc : s.mPendingCommitted.mSeq ≤ s.mNextLogSeq) :
    ∃ s', DispatchStart env (k + 2) s = Res.ok () s' ∧
      s'.mInFlightCommitted = s.mPendingCommitted ∧
      ∀ p ∈ lw, (s.mem p).loggable = true →
        (s'.mem p).logseq = -1 ∨ s'.mInFlightCommitted.mSeq < (s'.mem p).logseq := by
  have hch : isChain s.mem (some head) lw = true := by
    rw [← hfront]
    exact hin.1
  have hne : lw ≠ [] := isChain_head_ne_nil _ _ _ hch
  have hlw : lw.length < k + 2 := by
    rw [List.length_append] at hlen
    omega
  obtain ⟨m1, nl, ll, md, t, nb, up, tr, bc, ws, f, hW⟩ := writeRun_shape env (k + 2) lw
    { s with
      mInQueue := s.mInQueue.Reset
      mInFlightCommitted := s.mPendingCommitted
      mWokenFlag := true }
  have hWn := fun p => (writeRun_op env (k + 2) lw
    { s with
      mInQueue := s.mInQueue.Reset
      mInFlightCommitted := s.mPendingCommitted
      mWokenFlag := true } p).2
  have hWm := writeRun_mem env (k + 2) lw
    { s with
      mInQueue := s.mInQueue.Reset
      mInFlightCommitted := s.mPendingCommitted
      mWokenFlag := true }
  have hasg := batchesRun_assigned env (k + 2) lw
    { ({ s with
      mInQueue := s.mInQueue.Reset
      mInFlightCommitted := s.mPendingCommitted
      mWokenFlag := true } : Impl) with mMdStream := { s.mMdStream with sync := false } }
    hin.2.2 hlw
  have hcha := (Queue.Holds.pushBackQueue
    (q := (writeRun env (k + 2) lw
      { s with
        mInQueue := s.mInQueue.Reset
        mInFlightCommitted := s.mPendingCommitted
        mWokenFlag := true }).mPendingAckQueue)
    (by
      have hq : (writeRun env (k + 2) lw
          { s with
            mInQueue := s.mInQueue.Reset
            mInFlightCommitted := s.mPendingCommitted
            mWokenFlag := true }).mPendingAckQueue = s.mPendingAckQueue := by
        rw [hW]
      rw [hq]
      exact hpa.congr hWn)
    (hin.congr hWn) hne hd).1.1
  have h := DispatchStart_eq env io k head lw (lp ++ lw) s hstop hfront hlw hch hctl hg hrot
    hlen hcha
  obtain ⟨w, q, m, o, mw, ha, hm⟩ := ackRun_shape (writeRun env (k + 2) lw
    { s with
      mInQueue := s.mInQueue.Reset
      mInFlightCommitted := s.mPendingCommitted
      mWokenFlag := true }) s.mInQueue (lp ++ lw)
  refine ⟨_, h, ?_, ?_⟩
  · rw [ha, hW]
  · intro p hp hl
    have hfl : ((ackRun (writeRun env (k + 2) lw
        { s with
          mInQueue := s.mInQueue.Reset
          mInFlightCommitted := s.mPendingCommitted
          mWokenFlag := true }) s.mInQueue (lp ++ lw)).2.mInFlightCommitted).mSeq =
        s.mPendingCommitted.mSeq := by
      rw [ha, hW]
    have hlg : ((ackRun (writeRun env (k + 2) lw
        { s with
          mInQueue := s.mInQueue.Reset
          mInFlightCommitted := s.mPendingCommitted
          mWokenFlag := true }) s.mInQueue (lp ++ lw)).2.mem p).logseq =
        ((batchesRun env (k + 2) lw
          { ({ s with
            mInQueue := s.mInQueue.Reset
            mInFlightCommitted := s.mPendingCommitted
            mWokenFlag := true } : Impl) with
            mMdStream := { s.mMdStream with sync := false } }).mem p).logseq := by
      obtain ⟨nx, hx⟩ := hm p
      rw [ha]
      show (m p).logseq = _
      rw [hx, hWm]
    rw [hfl, hlg]
    rcases hasg p hp hl (hctl p hp) with h1 | h1
    · exact Or.inl h1
    · exact Or.inr (lt_of_le_of_lt hpc h1)

theorem DispatchStart_logseq_above_witness :
    ∃ s', DispatchStart envOk 5 stateIn = Res.ok () s' ∧
      s'.mInFlightCommitted = stateIn.mPendingCommitted ∧
      ∀ p ∈ [1, 2, 3], (stateIn.mem p).loggable = true →
        (s'.mem p).logseq = -1 ∨ s'.mInFlightCommitted.mSeq < (s'.mem p).logseq :=
  DispatchStart_logseq_above envOk envOk_fileOk 3 1 [1, 2, 3] [] stateIn rfl
    ⟨rfl, by decide, rfl⟩ ⟨by decide, rfl, by decide⟩ rfl ⟨rfl, rfl, List.nodup_nil⟩
    (by simp) (by decide) (by decide)
    (fun _ h => absurd (show stateIn.mCurLogStartTime + stateIn.mLogRotateInterval < 0
      from h) (by decide))
    (by decide)

theorem Reachable.step_tail {env : Env} {allowed : Impl → Int → Prop} {s s' : Impl}
    (h : Reachable env allowed s) (hs : Step env allowed s s') : Reachable env allowed s' := by
  obtain ⟨s0, s1, fuel, a1, a2, a3, a4, a5, a6, a7, a8, a9, a10, a11, a12, name, hstart, hrun⟩ := h
  exact ⟨s0, s1, fuel, a1, a2, a3, a4, a5, a6, a7, a8, a9, a10, a11, a12, name, hstart,
    hrun.tail hs⟩

set_option maxRecDepth 4000 in
theorem cycDispatched_reachable : Reachable envOk (fun _ _ => True) cycDispatched :=
  cycFlushed_reachable.step_tail (Step.dispatchStart _ _ 5
    (DispatchStart_eq envOk envOk_fileOk 3 1 [1] [1] cycFlushed rfl rfl (by decide) (by decide)
      (by decide) ⟨rfl, by decide, rfl⟩
      (fun _ h => absurd (show cycFlushed.mCurLogStartTime + cycFlushed.mLogRotateInterval < 0
        from h) (by decide))
      (by decide) (by decide)))

set_option maxRecDepth 4000 in
theorem cycEnded_reachable : Reachable envOk (fun _ _ => True) cycEnded :=
  (cycDispatched_reachable.step_tail (Step.notify _ _ 1 (Notify_run envOk 1 cycDispatched))).step_tail
    (Step.dispatchEnd _ _ 5 (DispatchEnd_eq 5 [1] cycAcked rfl (by decide) (by decide)))

set_option maxRecDepth 4000 in
theorem Timeout_cycEnded : Timeout 5 cycEnded = Res.ok () cycDelivered := by
  rw [Timeout_busy 5 cycEnded (by decide)]
  rcases deliver_spec [1] 5 cycEnded.mOutQueue.Front
    { cycEnded with mOutQueue := cycEnded.mOutQueue.Reset } (by decide) (by decide) (by decide)
    (by decide) with ⟨m, c, hr, hd⟩ | ⟨hr, -⟩
  · have hv : deliverRun cycEnded.mem [1] cycEnded.mMaxDoneLogSeq cycEnded.mPendingCount =
        some (1, 0) := by decide
    have hmc : (m, c) = (1, 0) := Option.some.inj (hr.symm.trans hv)
    cases hmc
    exact hd
  · exact absurd hr (by decide)

theorem flags_setReq_next (s : Impl) (p : Nat) (nx : Option Nat) :
    (s.setReq p fun r => { r with next := nx }).flags = s.flags := by
  funext q
  unfold Impl.flags Impl.setReq
  by_cases h : q = p
  · subst h
    simp
  · simp [Function.update_noteq h]

theorem deliver_flags (n : Nat) : ∀ (ptr : Option Nat), Frame Impl.flags (deliver n ptr) := by
  induction n with
  | zero =>
    intro ptr
    exact Frame.timeout
  | succ n ih =>
    intro ptr
    cases ptr with
    | none => exact Frame.pure _
    | some p =>
      unfold deliver
      repeat' first
        | with_reducible apply ih
        | with_reducible apply Frame.bind
        | with_reducible apply Frame.pure
        | with_reducible apply Frame.get
        | with_reducible apply Frame.panic
        | with_reducible apply Frame.ite
        | with_reducible apply Frame.ofModify
        | exact flags_setReq_next _ _ _
        | rfl
        | with_reducible intro _

theorem Timeout_flags (fuel : Nat) : Frame Impl.flags (Timeout fuel) := by
  unfold Timeout
  repeat' first
    | with_reducible apply deliver_flags
    | with_reducible apply Frame.bind
    | with_reducible apply Frame.pure
    | with_reducible apply Frame.get
    | with_reducible apply Frame.ite
    | with_reducible apply Frame.ofModify
    | rfl
    | with_reducible intro _

theorem PushBack_nextOnly (q : Queue) (p : Nat) (m : Nat → MetaRequest) :
    NextOnly m (q.PushBack p m).2 := by
  unfold Queue.PushBack
  cases q.mTailPtr with
  | none => exact NextOnly.refl m
  | some t => exact NextOnly.setMem m t _

set_option maxRecDepth 4000 in
/-- C26 (claim as stated fails): after `Start`, `Notify`, `Enqueue` of request
1, `ScheduleFlush`, a dispatch cycle, `Notify(1)`, `DispatchEnd` and `Timeout`,
request 1 has been handed to `submit_request` and the four queues are empty,
yet its `commitPendingFlag` is still true. -/
theorem commitPendingFlag_counterexample :
    ∃ s, Reachable envOk (fun _ _ => True) s ∧ s.submitted = [1] ∧
      s.mPendingQueue.Front = none ∧ s.mInQueue.Front = none ∧
      s.mPendingAckQueue.Front = none ∧ s.mOutQueue.Front = none ∧
      (s.mem 1).next = none ∧ (s.mem 1).commitPendingFlag = true :=
  ⟨cycDelivered, cycEnded_reachable.step_tail (Step.timeout _ _ 5 Timeout_cycEnded),
    rfl, rfl, rfl, rfl, rfl, rfl, rfl⟩

/-- The transitions of `commitPendingFlag` in one call: it is set by `Enqueue` when it queues the
request (returns true) and is left as it was when `Enqueue` rejects or
short-circuits it (returns false); `Committed` clears it; `Timeout`, which
takes the requests off the out queue and hands them to `submit_request`,
leaves the flag of every request as it was. -/
theorem commitPendingFlag_transitions (env : Env) (p : Nat) (s s' : Impl) :
    (Enqueue env p s = Res.ok true s' → (s'.mem p).commitPendingFlag = true) ∧
    (Enqueue env p s = Res.ok false s' →
      (s'.mem p).commitPendingFlag = (s.mem p).commitPendingFlag) ∧
    (∀ fid, RequestCommitted env p fid s = Res.ok () s' →
      (s'.mem p).commitPendingFlag = false) ∧
    (∀ fuel, Timeout fuel s = Res.ok () s' →
      ∀ q, (s'.mem q).commitPendingFlag = (s.mem q).commitPendingFlag) := by
  have henq : ∀ b, Enqueue env p s = Res.ok b s' →
      (b = true → (s'.mem p).commitPendingFlag = true) ∧
      (b = false → (s'.mem p).commitPendingFlag = (s.mem p).commitPendingFlag) := by
    intro b h
    rcases Bool.eq_false_or_eq_true s.mStopFlag with hstop | hstop
    · rw [Enqueue_stopped env p s hstop] at h
      cases h
      refine ⟨fun hb => absurd hb (by decide), fun _ => ?_⟩
      show (Function.update s.mem p _ p).commitPendingFlag = _
      rw [Function.update_same]
    · by_cases hsc : shortCircuits s p
      · rw [Enqueue_shortCircuit env p s hstop hsc] at h
        cases h
        refine ⟨fun hb => absurd hb (by decide), fun _ => ?_⟩
        show (Function.update s.mem p _ p).commitPendingFlag = _
        rw [Function.update_same]
      · by_cases hc : ∀ c, (s.mem p).logQueueCounter = some c →
            0 < wrapInt32 (s.counters c + 1)
        · by_cases hov : 0 < wrapInt32 (s.mPendingCount + 1)
          · rw [Enqueue_enqueued env p s hstop hsc hc hov] at h
            cases h
            refine ⟨fun _ => ?_, fun hb => absurd hb (by decide)⟩
            obtain ⟨nx, hx⟩ := PushBack_nextOnly s.mPendingQueue p (Function.update s.mem p
              { s.mem p with next := none, seqno := s.mNextSeq + 1, commitPendingFlag := true }) p
            show ((s.mPendingQueue.PushBack p _).2 p).commitPendingFlag = true
            rw [hx, Function.update_same]
          · rw [Enqueue_pending_panic env p s hstop hsc hc (not_lt.mp hov)] at h
            cases h
        · push_neg at hc
          obtain ⟨c, hc1, hc2⟩ := hc
          rw [Enqueue_counter_panic env p s hstop hsc c hc1 hc2] at h
          cases h
  refine ⟨fun h => (henq true h).1 rfl, fun h => (henq false h).2 rfl, ?_, ?_⟩
  · intro fid h
    rcases RequestCommitted_cases env p fid s with ⟨hf, e⟩ | ⟨-, c, -, -, e⟩ | ⟨-, -, -, e⟩ |
      ⟨-, -, -, -, e⟩ | ⟨-, -, -, -, -, e⟩ | ⟨-, -, -, -, -, e⟩
    · rw [e] at h
      cases h
      exact hf
    · rw [e] at h
      cases h
    · rw [e] at h
      cases h
      show (Function.update s.mem p _ p).commitPendingFlag = false
      rw [Function.update_same]
    · rw [e] at h
      cases h
    · rw [e] at h
      cases h
    · rw [e] at h
      cases h
      show (Function.update s.mem p _ p).commitPendingFlag = false
      rw [Function.update_same]
  · intro fuel h q
    exact congrFun (Timeout_flags fuel s () s' h) q

theorem WriteBlock_success_frame (env : Env) (io : FileOk env) (k : Nat) (p : Nat) (s : Impl)
    (hdata : (s.mem p).blockData ≠ []) (hlines : (s.mem p).blockLines ≠ [])
    (hseq : s.mLastLogSeq = s.mNextLogSeq) (hstart : (s.mem p).blockStartSeq = s.mLastLogSeq)
    (hg : Good s)
    (hparse : 0 ≤ parseBlockCommitted env
      (lastBlockLine (s.mMdStream.buf ++ (s.mem p).blockData)
        (s.mMdStream.buf ++ (s.mem p).blockData).length ((s.mem p).blockLines.getLast?.getD 0))) :
    M.total (WriteBlock env (k + 2) p) s (fun _ s' =>
      s'.mNextLogSeq = (s.mem p).blockEndSeq ∧ s'.mCurLogStartSeq = s.mCurLogStartSeq ∧
      s'.mMaxDoneLogSeq = s.mMaxDoneLogSeq ∧
      s'.mPendingAckQueue = s.mPendingAckQueue ∧ s'.mTransmitCommitted = s.mTransmitCommitted ∧
      (s'.mem p).next = (s.mem p).next) := by
  obtain ⟨he, hfd, hf⟩ := hg
  have h1 : ¬ ((s.mem p).blockData.length ≤ 0) := by
    have := List.length_pos.mpr hdata
    omega
  have h2 : (s.mem p).blockLines.isEmpty = false := by
    cases hb : (s.mem p).blockLines with
    | nil => exact absurd hb hlines
    | cons a l => rfl
  have h3 : ¬ (s.mLastLogSeq ≠ s.mNextLogSeq) := not_not.mpr hseq
  have h4 : ¬ ((s.mem p).blockStartSeq ≠ s.mLastLogSeq) := not_not.mpr hstart
  simp only [WriteBlock, M.total_bind_iff, M.total_get_iff, h1, h2, h3, h4, if_false,
    Bool.false_eq_true, M.total_pure_iff]
  refine IsLogStreamGood_total _ ⟨he, hfd, hf⟩ ?_
  simp only [Bool.not_true, Bool.false_eq_true, if_false, M.total_pure_iff, M.total_bind_iff,
    mdSetSync, M.total_modify_iff, M.total_get_iff]
  refine mdWrite_nosync_total env _ _ _ hf rfl ?_
  simp only [M.total_bind_iff, M.total_modify_iff, M.total_get_iff]
  refine mdWrite_nosync_total env _ _ _ hf rfl ?_
  refine mdFlush_nosync_total env _ _ rfl ?_
  simp only [M.total_bind_iff, M.total_modify_iff, M.total_get_iff]
  refine mdWrite_nosync_total env _ _ _ hf rfl ?_
  refine mdFlush_nosync_total env _ _ rfl ?_
  simp only [M.total_bind_iff, M.total_modify_iff, M.total_get_iff, showInt, length_append_sub,
    drop_length_add, Impl.setReq, lastBlockLine_append4, take_drop_append4, not_lt.mpr hparse,
    if_false, M.total_pure_iff, M.total_nextTick_iff, M.total_ite_iff]
  have hne : ∀ (x y : Bytes), s.mMdStream.buf ++ (s.mem p).blockData ++ x ++ y ≠ [] := by
    intro x y h
    simp only [List.append_eq_nil] at h
    exact hdata h.1.1.2
  split_ifs with htx
  · refine mdFlush_sync_total env io k _ ⟨he, hfd, hf⟩ rfl (hne _ _) rfl ?_
    refine Sync_total env io _ hfd ?_
    refine IsLogStreamGood_total _ ⟨he, hfd, hf⟩ ?_
    simp only [if_true, M.total_bind_iff, M.total_modify_iff, M.total_get_iff, StartBlock,
      mdSetSync, Function.update_same]
    exact ⟨trivial, trivial, trivial, trivial, trivial, trivial⟩
  · refine mdFlush_sync_total env io k _ ⟨he, hfd, hf⟩ rfl (hne _ _) rfl ?_
    refine Sync_total env io _ hfd ?_
    refine IsLogStreamGood_total _ ⟨he, hfd, hf⟩ ?_
    simp only [if_true, M.total_bind_iff, M.total_modify_iff, M.total_get_iff, StartBlock,
      mdSetSync, Function.update_same]
    exact ⟨trivial, trivial, trivial, trivial, trivial, trivial⟩

theorem Write_block_total (env : Env) (k c : Nat) (s : Impl) (Q : Unit → Impl → Prop)
    (hg : Good s) (hop : (s.mem c).op = MetaOp.META_LOG_WRITER_CONTROL)
    (hty : (s.mem c).type = ControlType.kWriteBlock) (hnx : (s.mem c).next = none)
    (hint : ¬ 0 < s.mFailureSimulationInterval) (hup : s.mTransmitterUpFlag = true)
    (hq : M.total (WriteBlock env (k + 2) c)
      { s with
        mMdStream := { s.mMdStream with sync := false }
        mLastLogSeq := s.mNextLogSeq }
      (fun _ s' => ¬ (s'.mCurLogStartSeq < s'.mNextLogSeq) ∧ Q () s')) :
    M.total (Write env (k + 2) c) s Q := by
  simp only [Write, M.total_bind_iff]
  refine IsLogStreamGood_total _ hg ?_
  simp only [Bool.not_true, Bool.false_eq_true, if_false, M.total_pure_iff, M.total_bind_iff,
    mdSetSync, M.total_modify_iff]
  simp only [WriteBatches, M.total_bind_iff, M.total_modify_iff, M.total_get_iff,
    IsSimulateFailure, hint, if_false, M.total_pure_iff, WriteInner, hop, if_true, Control, hty,
    lt_self_iff_false, false_and]
  refine IsLogStreamGood_total _ ⟨hg.1, hg.2.1, hg.2.2⟩ ?_
  rw [if_pos (by rw [hup]; rfl)]
  simp only [M.total_bind_iff, M.total_modify_iff, M.total_get_iff, hty, if_true, hnx]
  refine M.total_mono hq ?_
  intro a s' h
  simp only [WriteBatches, M.total_pure_iff, M.total_bind_iff, M.total_get_iff, h.1, if_false]
  exact h.2

set_option maxRecDepth 4000 in
theorem blkFlushed_reachable : Reachable envHex (fun _ _ => True) blkFlushed := by
  refine ⟨Impl.init envHex (fun _ => reqBlockBack) (fun _ => 0), blkStarted, 2,
    0, 10, 0, 0, 0, 0, none, 0, 0, false, none, Properties.none, _,
    Start_fresh_eq envHex envHex_fileOk (fun _ => rfl) 0 0 10 0 0 0 0 0 0 false none
      Properties.none _ (le_refl _) (by decide) rfl rfl, ?_⟩
  have h1 : Step envHex (fun _ _ => True) blkStarted blkNotified :=
    Step.notify _ _ 0 (Notify_run envHex 0 blkStarted)
  have h2 : Step envHex (fun _ _ => True) blkNotified blkQueued :=
    Step.enqueue _ _ 1 true (Enqueue_enqueued envHex 1 blkNotified rfl
      (fun h => absurd (show LogAction.kLogAlways = LogAction.kLogNever ∨
          (LogAction.kLogAlways = LogAction.kLogIfOk ∧ (0 : Int) ≠ 0) from h.2) (by decide))
      (by
        intro c h
        have h' : some 0 = some c := h
        cases h'
        decide)
      (by decide))
  have h3 : Step envHex (fun _ _ => True) blkQueued blkFlushed :=
    Step.scheduleFlush _ _ (ScheduleFlush_nonempty blkQueued rfl)
  exact ((Relation.ReflTransGen.single h1).tail h2).tail h3

set_option maxRecDepth 4000 in
theorem DispatchStart_block :
    ∃ s', DispatchStart envHex 5 blkFlushed = Res.ok () s' ∧ s'.mNextLogSeq = 3 ∧
      s'.mCurLogStartSeq = 10 := by
  have key : M.total (DispatchStart envHex 5) blkFlushed
      (fun _ s' => s'.mNextLogSeq = 3 ∧ s'.mCurLogStartSeq = 10) := by
    have hfront : blkFlushed.mInQueue.Front = some 1 := rfl
    unfold DispatchStart
    simp only [M.total_bind_iff, M.total_get_iff]
    rw [if_neg (show ¬ blkFlushed.mStopFlag = true by decide)]
    simp only [M.total_pure_iff, hfront, M.total_modify_iff, M.total_bind_iff]
    refine Write_block_total envHex 3 1 _ _ ⟨rfl, by decide, rfl⟩ rfl rfl rfl (by decide) rfl ?_
    refine M.total_mono (WriteBlock_success_frame envHex envHex_fileOk 3 1 _ (by decide)
      (by decide) rfl rfl ⟨rfl, by decide, rfl⟩ (by decide)) ?_
    rintro a W ⟨h1, h2, -, h4, -, h6⟩
    have e1 : W.mNextLogSeq = 3 := h1
    have e2 : W.mCurLogStartSeq = 10 := h2
    have e4 : W.mPendingAckQueue = Queue.empty := h4
    have e6 : (W.mem 1).next = none := h6
    refine ⟨by rw [e1, e2]; decide, ?_⟩
    refine ProcessPendingAckQueue_total 5 blkFlushed.mInQueue [1] W _ (by decide) ?_ ?_
    · rw [e4]
      show isChain W.mem (some 1) [1] = true
      simp only [isChain, beq_self_eq_true, Bool.true_and, e6, Option.isNone_none]
    · obtain ⟨w, q, m, o, mw, ha, -⟩ := ackRun_shape W blkFlushed.mInQueue [1]
      rw [ha]
      exact ⟨e1, e2⟩
  obtain ⟨a, s', h, h1, h2⟩ := key
  exact ⟨s', h, h1, h2⟩

/-- C25 (the code departs from the claim): `WriteBlock` compares
`blockStartSeq` with `mLastLogSeq` but never `blockEndSeq` with
`blockStartSeq`, the check that `Start` makes for its own pair
(`inLogSeq < inLogAppendStartSeq` is refused).  After `Start` at log sequence
10, `Notify`, `Enqueue` of a `kWriteBlock` control request with
`blockStartSeq = 10` and `blockEndSeq = 3`, `ScheduleFlush` and the dispatch
cycle, the block is written and `mNextLogSeq = 3` is below
`mCurLogStartSeq = 10`. -/
theorem log_start_seq_counterexample :
    ∃ s, Reachable envHex (fun _ _ => True) s ∧ s.mNextLogSeq = 3 ∧ s.mCurLogStartSeq = 10 ∧
      ¬ (s.mCurLogStartSeq ≤ s.mNextLogSeq) := by
  obtain ⟨s', h, h1, h2⟩ := DispatchStart_block
  refine ⟨s', blkFlushed_reachable.step_tail (Step.dispatchStart _ _ 5 h), h1, h2, ?_⟩
  rw [h1, h2]
  decide

/-- What a successful `WriteBlock` does to the sequences: it sets
`mNextLogSeq = blockEndSeq` and leaves `mCurLogStartSeq` and `mMaxDoneLogSeq`
as they were, without comparing `blockEndSeq` with `blockStartSeq`; when
`blockStartSeq <= blockEndSeq`, it keeps `mCurLogStartSeq <= mNextLogSeq` and
`mMaxDoneLogSeq <= mNextLogSeq`. -/
theorem WriteBlock_keeps_order (env : Env) (io : FileOk env) (k : Nat) (p : Nat) (s : Impl)
    (hdata : (s.mem p).blockData ≠ []) (hlines : (s.mem p).blockLines ≠ [])
    (hseq : s.mLastLogSeq = s.mNextLogSeq) (hstart : (s.mem p).blockStartSeq = s.mLastLogSeq)
    (hg : Good s)
    (hparse : 0 ≤ parseBlockCommitted env
      (lastBlockLine (s.mMdStream.buf ++ (s.mem p).blockData)
        (s.mMdStream.buf ++ (s.mem p).blockData).length ((s.mem p).blockLines.getLast?.getD 0)))
    (hord : (s.mem p).blockStartSeq ≤ (s.mem p).blockEndSeq)
    (h1 : s.mCurLogStartSeq ≤ s.mNextLogSeq) (h2 : s.mMaxDoneLogSeq ≤ s.mNextLogSeq) :
    ∃ s', WriteBlock env (k + 2) p s = Res.ok () s' ∧
      s'.mNextLogSeq = (s.mem p).blockEndSeq ∧ s'.mCurLogStartSeq = s.mCurLogStartSeq ∧
      s'.mMaxDoneLogSeq = s.mMaxDoneLogSeq ∧
      s'.mCurLogStartSeq ≤ s'.mNextLogSeq ∧ s'.mMaxDoneLogSeq ≤ s'.mNextLogSeq := by
  obtain ⟨a, s', h, e1, e2, e3, -, -, -⟩ :=
    WriteBlock_success_frame env io k p s hdata hlines hseq hstart hg hparse
  refine ⟨s', h, e1, e2, e3, ?_, ?_⟩
  · rw [e1, e2]
    omega
  · rw [e1, e3]
    omega

theorem WriteBlock_keeps_order_witness :
    ∃ s', WriteBlock envHex 2 1 stateWriteBlock = Res.ok () s' ∧
      s'.mNextLogSeq = (stateWriteBlock.mem 1).blockEndSeq ∧
      s'.mCurLogStartSeq = stateWriteBlock.mCurLogStartSeq ∧
      s'.mMaxDoneLogSeq = stateWriteBlock.mMaxDoneLogSeq ∧
      s'.mCurLogStartSeq ≤ s'.mNextLogSeq ∧ s'.mMaxDoneLogSeq ≤ s'.mNextLogSeq :=
  WriteBlock_keeps_order envHex envHex_fileOk 0 1 stateWriteBlock (by decide) (by decide)
    (by decide) (by decide) ⟨rfl, by decide, rfl⟩ (by decide) (by decide) (by decide) (by decide)

theorem stepReq_last_le (env : Env) (s : Impl) (p : Nat) :
    (stepReq env s p).mLastLogSeq ≤ s.mLastLogSeq + 1 := by
  rw [(stepReq_logged env s p).1]
  split_ifs <;> omega

/-- The inner loop of `Write` stops at the end sequence of the block. -/
theorem innerRun_bound (env : Env) (eb : Int) (sim up : Bool) (l : List Nat) :
    ∀ s : Impl, s.mLastLogSeq < eb → (innerRun env eb sim up l s).state.mLastLogSeq ≤ eb := by
  induction l with
  | nil => intro s h; exact le_of_lt h
  | cons p ps ih =>
    intro s hs
    rcases innerRun_cons_cases env eb sim up p ps s with ⟨-, -, -, h⟩ | ⟨-, -, -, h⟩ |
      ⟨-, -, hb, h⟩ | ⟨-, h⟩
    · rw [h]
      exact le_of_lt hs
    · rw [h]
      have := stepReq_last_le env s p
      show (stepReq env s p).mLastLogSeq ≤ eb
      omega
    · rw [h]
      show (innerRun env eb sim up ps (stepReq env s p)).state.mLastLogSeq ≤ eb
      refine ih _ ?_
      unfold breaksAt at hb
      rw [not_or] at hb
      exact not_le.mp hb.1
    · rw [h]
      exact ih s hs

theorem wrapInt32_of_range (x : Int) (h1 : -2147483648 ≤ x) (h2 : x ≤ 2147483647) :
    wrapInt32 x = x := by
  unfold wrapInt32
  omega

/-- One batch of `Write`, past the header block: at most one block is handed
to the transmitter, and it holds between 1 and `mMaxBlockSize` records. -/
theorem batchRun_blocks (env : Env) (l : List Nat) (s : Impl) (h1 : 1 ≤ s.mMaxBlockSize)
    (h2 : s.mMaxBlockSize ≤ 2147483647) (hb : 0 ≤ s.mNextBlockSeq) :
    ∃ bs, (batchRun env l s).2.transmitted = s.transmitted ++ bs ∧
      (∀ b ∈ bs, 1 ≤ b.count ∧ b.count ≤ s.mMaxBlockSize) ∧
      0 ≤ (batchRun env l s).2.mNextBlockSeq ∧
      (batchRun env l s).2.mMaxBlockSize = s.mMaxBlockSize := by
  obtain ⟨t, h0⟩ := simRun_shape env { s with mLastLogSeq := s.mNextLogSeq }
  have hbound := innerRun_bound env (s.mNextLogSeq + s.mMaxBlockSize)
    (simRun env { s with mLastLogSeq := s.mNextLogSeq }).1 s.mTransmitterUpFlag l
    (simRun env { s with mLastLogSeq := s.mNextLogSeq }).2
    (by
      rw [h0]
      show s.mNextLogSeq < s.mNextLogSeq + s.mMaxBlockSize
      omega)
  obtain ⟨m, L, b, z, d, hS⟩ := innerRun_shape env (s.mNextLogSeq + s.mMaxBlockSize)
    (simRun env { s with mLastLogSeq := s.mNextLogSeq }).1 s.mTransmitterUpFlag l
    (simRun env { s with mLastLogSeq := s.mNextLogSeq }).2
  rw [hS] at hbound
  have hL : L ≤ s.mNextLogSeq + s.mMaxBlockSize := hbound
  unfold batchRun
  dsimp only
  rw [hS, h0]
  by_cases hf : s.mNextLogSeq < L ∧ s.mTransmitterUpFlag = true
  · have htr : transmits
        ({ ({ ({ s with mLastLogSeq := s.mNextLogSeq } : Impl) with tick := t } : Impl) with
          mem := m, mLastLogSeq := L
          mMdStream := { s.mMdStream with buf := b, bufSize := z, md := d } } : Impl) = true := by
      unfold transmits
      exact decide_eq_true (by show 0 < s.mNextBlockSeq + 1; omega)
    have hres : ∀ X : Impl, X.transmitted = s.transmitted ++
        [txBlock env ({ ({ ({ s with mLastLogSeq := s.mNextLogSeq } : Impl) with
          tick := t } : Impl) with
          mem := m, mLastLogSeq := L
          mMdStream := { s.mMdStream with buf := b, bufSize := z, md := d } } : Impl) L] →
        X.mNextBlockSeq = s.mNextBlockSeq + 1 → X.mMaxBlockSize = s.mMaxBlockSize →
        ∃ bs, X.transmitted = s.transmitted ++ bs ∧
          (∀ b ∈ bs, 1 ≤ b.count ∧ b.count ≤ s.mMaxBlockSize) ∧
          0 ≤ X.mNextBlockSeq ∧ X.mMaxBlockSize = s.mMaxBlockSize := by
      intro X e1 e2 e3
      refine ⟨_, e1, ?_, by omega, e3⟩
      intro blk hblk
      rw [List.mem_singleton] at hblk
      subst hblk
      show 1 ≤ wrapInt32 (L - s.mNextLogSeq) ∧ wrapInt32 (L - s.mNextLogSeq) ≤ s.mMaxBlockSize
      rw [wrapInt32_of_range _ (by omega) (by omega)]
      omega
    rw [if_pos hf]
    split_ifs
    · refine hres _ ?_ rfl rfl
      show (if transmits _ = true then _ else _) = _
      rw [if_pos htr]
    · refine hres _ ?_ rfl rfl
      show (if transmits _ = true then _ else _) = _
      rw [if_pos htr]
  · rw [if_neg hf]
    split_ifs
    · exact ⟨[], (List.append_nil _).symm, fun _ h => absurd h (List.not_mem_nil _), hb, rfl⟩
    · exact ⟨[], (List.append_nil _).symm, fun _ h => absurd h (List.not_mem_nil _), hb, rfl⟩

theorem batchesRun_blocks (env : Env) :
    ∀ (n : Nat) (l : List Nat) (s : Impl), 1 ≤ s.mMaxBlockSize → s.mMaxBlockSize ≤ 2147483647 →
      0 ≤ s.mNextBlockSeq →
      ∃ bs, (batchesRun env n l s).transmitted = s.transmitted ++ bs ∧
        ∀ b ∈ bs, 1 ≤ b.count ∧ b.count ≤ s.mMaxBlockSize := by
  intro n
  induction n with
  | zero =>
    intro l s _ _ _
    exact ⟨[], (List.append_nil _).symm, fun _ h => absurd h (List.not_mem_nil _)⟩
  | succ n ih =>
    intro l s h1 h2 hb
    cases l with
    | nil => exact ⟨[], (List.append_nil _).symm, fun _ h => absurd h (List.not_mem_nil _)⟩
    | cons p ps =>
      show ∃ bs, (batchesRun env n (batchRun env (p :: ps) s).1
        (batchRun env (p :: ps) s).2).transmitted = _ ∧ _
      obtain ⟨bs1, e1, c1, hb1, hm1⟩ := batchRun_blocks env (p :: ps) s h1 h2 hb
      obtain ⟨bs2, e2, c2⟩ := ih (batchRun env (p :: ps) s).1 (batchRun env (p :: ps) s).2
        (by rw [hm1]; exact h1) (by rw [hm1]; exact h2) hb1
      refine ⟨bs1 ++ bs2, ?_, ?_⟩
      · rw [e2, e1, List.append_assoc]
      · intro b hb'
        rcases List.mem_append.mp hb' with h | h
        · exact c1 b h
        · have := c2 b h
          rw [hm1] at this
          exact this

theorem WriteBlock_success_others (env : Env) (io : FileOk env) (k : Nat) (p : Nat) (s : Impl)
    (hdata : (s.mem p).blockData ≠ []) (hlines : (s.mem p).blockLines ≠ [])
    (hseq : s.mLastLogSeq = s.mNextLogSeq) (hstart : (s.mem p).blockStartSeq = s.mLastLogSeq)
    (hg : Good s)
    (hparse : 0 ≤ parseBlockCommitted env
      (lastBlockLine (s.mMdStream.buf ++ (s.mem p).blockData)
        (s.mMdStream.buf ++ (s.mem p).blockData).length ((s.mem p).blockLines.getLast?.getD 0))) :
    M.total (WriteBlock env (k + 2) p) s (fun _ s' =>
      s'.mNextLogSeq = (s.mem p).blockEndSeq ∧ s'.mCurLogStartSeq = s.mCurLogStartSeq ∧
      s'.mPendingAckQueue = s.mPendingAckQueue ∧ s'.mTransmitCommitted = s.mTransmitCommitted ∧
      (s'.mem p).next = (s.mem p).next ∧ s'.mOutQueue = s.mOutQueue ∧
      ∀ q, q ≠ p → s'.mem q = s.mem q) := by
  obtain ⟨he, hfd, hf⟩ := hg
  have h1 : ¬ ((s.mem p).blockData.length ≤ 0) := by
    have := List.length_pos.mpr hdata
    omega
  have h2 : (s.mem p).blockLines.isEmpty = false := by
    cases hb : (s.mem p).blockLines with
    | nil => exact absurd hb hlines
    | cons a l => rfl
  have h3 : ¬ (s.mLastLogSeq ≠ s.mNextLogSeq) := not_not.mpr hseq
  have h4 : ¬ ((s.mem p).blockStartSeq ≠ s.mLastLogSeq) := not_not.mpr hstart
  simp only [WriteBlock, M.total_bind_iff, M.total_get_iff, h1, h2, h3, h4, if_false,
    Bool.false_eq_true, M.total_pure_iff]
  refine IsLogStreamGood_total _ ⟨he, hfd, hf⟩ ?_
  simp only [Bool.not_true, Bool.false_eq_true, if_false, M.total_pure_iff, M.total_bind_iff,
    mdSetSync, M.total_modify_iff, M.total_get_iff]
  refine mdWrite_nosync_total env _ _ _ hf rfl ?_
  simp only [M.total_bind_iff, M.total_modify_iff, M.total_get_iff]
  refine mdWrite_nosync_total env _ _ _ hf rfl ?_
  refine mdFlush_nosync_total env _ _ rfl ?_
  simp only [M.total_bind_iff, M.total_modify_iff, M.total_get_iff]
  refine mdWrite_nosync_total env _ _ _ hf rfl ?_
  refine mdFlush_nosync_total env _ _ rfl ?_
  simp only [M.total_bind_iff, M.total_modify_iff, M.total_get_iff, showInt, length_append_sub,
    drop_length_add, Impl.setReq, lastBlockLine_append4, take_drop_append4, not_lt.mpr hparse,
    if_false, M.total_pure_iff, M.total_nextTick_iff, M.total_ite_iff]
  have hne : ∀ (x y : Bytes), s.mMdStream.buf ++ (s.mem p).blockData ++ x ++ y ≠ [] := by
    intro x y h
    simp only [List.append_eq_nil] at h
    exact hdata h.1.1.2
  split_ifs with htx
  · refine mdFlush_sync_total env io k _ ⟨he, hfd, hf⟩ rfl (hne _ _) rfl ?_
    refine Sync_total env io _ hfd ?_
    refine IsLogStreamGood_total _ ⟨he, hfd, hf⟩ ?_
    simp only [if_true, M.total_bind_iff, M.total_modify_iff, M.total_get_iff, StartBlock,
      mdSetSync, Function.update_same]
    refine ⟨trivial, trivial, trivial, trivial, trivial, trivial, ?_⟩
    intro q hq
    simp only [Function.update_noteq hq]
  · refine mdFlush_sync_total env io k _ ⟨he, hfd, hf⟩ rfl (hne _ _) rfl ?_
    refine Sync_total env io _ hfd ?_
    refine IsLogStreamGood_total _ ⟨he, hfd, hf⟩ ?_
    simp only [if_true, M.total_bind_iff, M.total_modify_iff, M.total_get_iff, StartBlock,
      mdSetSync, Function.update_same]
    refine ⟨trivial, trivial, trivial, trivial, trivial, trivial, ?_⟩
    intro q hq
    simp only [Function.update_noteq hq]

set_option maxRecDepth 4000 in
theorem ackFlushed2_reachable : Reachable envHex (fun _ _ => True) ackFlushed2 := by
  have h0 : Reachable envHex (fun _ _ => True) ackStarted :=
    ⟨Impl.init envHex
        (fun p => if p = 2 then reqBlockBack11 else reqEx LogAction.kLogAlways 0) (fun _ => 0),
      ackStarted, 2, 0, 10, 0, 0, 0, 0, none, 0, 0, false, none, Properties.none, _,
      Start_fresh_eq envHex envHex_fileOk (fun _ => rfl) 0 0 10 0 0 0 0 0 0 false none
        Properties.none _ (le_refl _) (by decide) rfl rfl, Relation.ReflTransGen.refl⟩
  have h1 := h0.step_tail (Step.notify _ _ 10 (Notify_run envHex 10 ackStarted))
  have h2 := h1.step_tail (Step.enqueue _ _ 1 true (Enqueue_enqueued envHex 1 ackNotified rfl
    (fun h => absurd (show LogAction.kLogAlways = LogAction.kLogNever ∨
        (LogAction.kLogAlways = LogAction.kLogIfOk ∧ (0 : Int) ≠ 0) from h.2) (by decide))
    (by
      intro c h
      have h' : some 0 = some c := h
      cases h'
      decide)
    (by decide)))
  have h3 := h2.step_tail (Step.scheduleFlush _ _ (ScheduleFlush_nonempty ackQueued rfl))
  have h4 := h3.step_tail (Step.dispatchStart _ _ 5
    (DispatchStart_eq envHex envHex_fileOk 3 1 [1] [1] ackFlushed rfl rfl (by decide) (by decide)
      (by decide) ⟨rfl, by decide, rfl⟩
      (fun _ h => absurd (show ackFlushed.mCurLogStartTime + ackFlushed.mLogRotateInterval < 0
        from h) (by decide))
      (by decide) (by decide)))
  have h5 := h4.step_tail (Step.enqueue _ _ 2 true (Enqueue_enqueued envHex 2 ackDispatched rfl
    (fun h => absurd (show LogAction.kLogAlways = LogAction.kLogNever ∨
        (LogAction.kLogAlways = LogAction.kLogIfOk ∧ (0 : Int) ≠ 0) from h.2) (by decide))
    (by
      intro c h
      have h' : some 0 = some c := h
      cases h'
      decide)
    (by decide)))
  exact h5.step_tail (Step.scheduleFlush _ _ (ScheduleFlush_nonempty ackQueued2 rfl))

set_option maxRecDepth 4000 in
theorem DispatchStart_ackFlushed2 :
    ∃ s', DispatchStart envHex 5 ackFlushed2 = Res.ok () s' ∧ s'.mOutQueue.Front = some 1 ∧
      (s'.mem 1).logseq = 11 ∧ s'.mTransmitCommitted = 10 := by
  have key : M.total (DispatchStart envHex 5) ackFlushed2
      (fun _ s' => s'.mOutQueue.Front = some 1 ∧ (s'.mem 1).logseq = 11 ∧
        s'.mTransmitCommitted = 10) := by
    have hfront : ackFlushed2.mInQueue.Front = some 2 := rfl
    have hin : ackFlushed2.mInQueue = ⟨some 2, some 2⟩ := rfl
    unfold DispatchStart
    simp only [M.total_bind_iff, M.total_get_iff]
    rw [if_neg (show ¬ ackFlushed2.mStopFlag = true by decide)]
    simp only [M.total_pure_iff, hfront, M.total_modify_iff, M.total_bind_iff]
    refine Write_block_total envHex 3 2 _ _ ⟨rfl, by decide, rfl⟩ rfl rfl rfl (by decide) rfl ?_
    refine M.total_mono (WriteBlock_success_others envHex envHex_fileOk 3 2 _ (by decide)
      (by decide) rfl rfl ⟨rfl, by decide, rfl⟩ (by decide)) ?_
    rintro a W ⟨h1, h2, h3, h4, h5, h6, h7⟩
    have e1 : W.mNextLogSeq = 3 := h1
    have e2 : W.mCurLogStartSeq = 10 := h2
    have e3 : W.mPendingAckQueue = ⟨some 1, some 1⟩ := h3
    have e4 : W.mTransmitCommitted = 10 := h4
    have e5 : (W.mem 2).next = none := h5
    have e6 : W.mOutQueue = ⟨none, none⟩ := h6
    have e7 : W.mem 1 = ackFlushed2.mem 1 := h7 1 (by decide)
    refine ⟨by rw [e1, e2]; decide, ?_⟩
    refine ProcessPendingAckQueue_total 5 ackFlushed2.mInQueue [1, 2] W _ (by decide) ?_ ?_
    · rw [e3, hin]
      simp [isChain, Queue.PushBackQueue, Queue.Front, setMem, e5]
    · refine ⟨?_, ?_, ?_⟩
      · unfold ackRun
        simp [e1, e3, e4, e6, hin, Queue.PushBackQueue, Queue.Reset, Queue.IsEmpty, Queue.Front]
      · obtain ⟨w, q, m, o, mw, ha, hm⟩ := ackRun_shape W ackFlushed2.mInQueue [1, 2]
        rw [ha]
        obtain ⟨nx, hx⟩ := hm 1
        show (m 1).logseq = 11
        rw [hx, e7]
        rfl
      · obtain ⟨w, q, m, o, mw, ha, -⟩ := ackRun_shape W ackFlushed2.mInQueue [1, 2]
        rw [ha]
        exact e4
  obtain ⟨a, s', h, h1⟩ := key
  exact ⟨s', h, h1⟩

theorem NextOnly.logseq_eq {m m' : Nat → MetaRequest} (h : NextOnly m m') (x : Nat) :
    (m' x).logseq = (m x).logseq := by
  obtain ⟨nx, hx⟩ := h x
  rw [hx]

theorem isChain_cut (mem : Nat → MetaRequest) (t : Nat) (b : List Nat) :
    ∀ (a : List Nat) (h : Option Nat), isChain mem h (a ++ t :: b) = true →
      isChain (Function.update mem t { mem t with next := none }) h (a ++ [t]) = true := by
  intro a
  induction a with
  | nil =>
    intro h hc
    rw [List.nil_append, isChain_cons] at hc
    rw [List.nil_append, isChain_cons, Function.update_same, isChain_nil]
    exact ⟨hc.1, rfl⟩
  | cons x a ih =>
    intro h hc
    have hnd := isChain_nodup mem _ h hc
    rw [List.cons_append, isChain_cons] at hc
    have hx : x ≠ t := by
      intro e
      rw [List.cons_append, List.nodup_cons] at hnd
      exact hnd.1 (by rw [e]; simp)
    rw [List.cons_append, isChain_cons, Function.update_noteq hx]
    exact ⟨hc.1, ih _ hc.2⟩

theorem splitRun_spec (s : Impl) (inDoneQueue : Queue) :
    ∀ (l pre : List Nat), (∀ q ∈ pre, (s.mem q).logseq ≤ s.mTransmitCommitted) →
      splitRun s inDoneQueue l pre.getLast? = (inDoneQueue, s) ∨
      ∃ a t p b, pre ++ l = a ++ t :: p :: b ∧
        (∀ q ∈ a ++ [t], (s.mem q).logseq ≤ s.mTransmitCommitted) ∧
        splitRun s inDoneQueue l pre.getLast? =
          (⟨s.mPendingAckQueue.Front, some t⟩,
            { (s.setReq t fun r => { r with next := none }) with
              mPendingAckQueue := ⟨some p, s.mPendingAckQueue.Back⟩ }) := by
  intro l
  induction l with
  | nil => intro pre _; exact Or.inl rfl
  | cons p ps ih =>
    intro pre hpre
    unfold splitRun
    by_cases hc : s.mTransmitCommitted < (s.mem p).logseq
    · rw [if_pos hc]
      cases hg : pre.getLast? with
      | none => exact Or.inl rfl
      | some t =>
        obtain ⟨a, ha⟩ := List.getLast?_eq_some_iff.mp hg
        refine Or.inr ⟨a, t, p, ps, ?_, ?_, rfl⟩
        · rw [ha, List.append_assoc, List.singleton_append]
        · rw [← ha]
          exact hpre
    · rw [if_neg hc]
      have hp : ∀ q ∈ pre ++ [p], (s.mem q).logseq ≤ s.mTransmitCommitted := by
        intro q hq
        rcases List.mem_append.mp hq with h | h
        · exact hpre q h
        · rw [List.mem_singleton.mp h]
          exact not_lt.mp hc
      have hl : (pre ++ [p]).getLast? = some p := by simp
      rcases ih (pre ++ [p]) hp with h | ⟨a, t, p', b, h1, h2, h3⟩
      · rw [hl] at h
        exact Or.inl h
      · rw [hl] at h3
        refine Or.inr ⟨a, t, p', b, ?_, h2, h3⟩
        rw [← h1, List.append_assoc, List.singleton_append]

theorem ackRun_moved (s : Impl) (inDoneQueue : Queue) (la : List Nat)
    (hch : isChain (s.mPendingAckQueue.PushBackQueue inDoneQueue s.mem).2.2
      (s.mPendingAckQueue.PushBackQueue inDoneQueue s.mem).1.Front la = true)
    (hinv : ∀ p ∈ la, (s.mem p).logseq ≤ s.mNextLogSeq) :
    ∃ moved rest, la = moved ++ rest ∧
      (∀ p ∈ moved, (s.mem p).logseq ≤ s.mTransmitCommitted) ∧
      (moved = [] → (ackRun s inDoneQueue la).2.mOutQueue = s.mOutQueue) ∧
      (moved ≠ [] → ∃ dq m, dq.Front = moved.head? ∧ isChain m dq.Front moved = true ∧
        (ackRun s inDoneQueue la).2.mOutQueue = (s.mOutQueue.PushBackQueue dq m).1 ∧
        (ackRun s inDoneQueue la).2.mem = (s.mOutQueue.PushBackQueue dq m).2.2) := by
  have hp1 := PushBackQueue_nextOnly s.mPendingAckQueue inDoneQueue s.mem
  have hfront := isChain_head _ _ _ hch
  unfold ackRun
  dsimp only
  by_cases hc : s.mTransmitCommitted < s.mNextLogSeq
  · rw [if_pos hc]
    have h' := splitRun_spec
      { s with
        mWokenFlag := false
        mPendingAckQueue := (s.mPendingAckQueue.PushBackQueue inDoneQueue s.mem).1
        mem := (s.mPendingAckQueue.PushBackQueue inDoneQueue s.mem).2.2 }
      inDoneQueue.Reset la [] (by simp)
    simp only [List.getLast?_nil, List.nil_append] at h'
    rcases h' with h | ⟨a, t, p, b, h1, h2, h3⟩
    · rw [h]
      dsimp only
      rw [if_pos (show inDoneQueue.Reset.IsEmpty = true from rfl)]
      exact ⟨[], la, rfl, by simp, fun _ => rfl, fun h => absurd rfl h⟩
    · rw [h3]
      have hf2 : (s.mPendingAckQueue.PushBackQueue inDoneQueue s.mem).1.Front =
          (a ++ [t]).head? := by
        rw [hfront, h1]
        cases a <;> rfl
      have hne : ¬ ((⟨(s.mPendingAckQueue.PushBackQueue inDoneQueue s.mem).1.Front, some t⟩ :
          Queue).IsEmpty = true) := by
        show ¬ ((s.mPendingAckQueue.PushBackQueue inDoneQueue s.mem).1.Front.isNone = true)
        rw [hf2]
        cases a <;> simp
      dsimp only
      rw [if_neg hne]
      refine ⟨a ++ [t], p :: b, by rw [h1]; simp, ?_, fun h => absurd h (by simp), fun _ => ?_⟩
      · intro q hq
        have := h2 q hq
        rw [← hp1.logseq_eq q]
        exact this
      · refine ⟨⟨(s.mPendingAckQueue.PushBackQueue inDoneQueue s.mem).1.Front, some t⟩, _,
          hf2, ?_, rfl, rfl⟩
        rw [h1] at hch
        exact isChain_cut _ t (p :: b) a _ hch
  · rw [if_neg hc]
    have hpb : ∀ (q : Queue) (m : Nat → MetaRequest),
        inDoneQueue.Reset.PushBackQueue q m = (⟨q.mHeadPtr, q.mTailPtr⟩, q.Reset, m) :=
      fun _ _ => rfl
    simp only [hpb]
    cases la with
    | nil =>
      have hn : (s.mPendingAckQueue.PushBackQueue inDoneQueue s.mem).1.mHeadPtr = none := hfront
      have he : (⟨(s.mPendingAckQueue.PushBackQueue inDoneQueue s.mem).1.mHeadPtr,
          (s.mPendingAckQueue.PushBackQueue inDoneQueue s.mem).1.mTailPtr⟩ : Queue).IsEmpty =
          true := by
        show Option.isNone _ = true
        rw [hn]
        rfl
      rw [if_pos he]
      exact ⟨[], [], rfl, by simp, fun _ => rfl, fun h => absurd rfl h⟩
    | cons x xs =>
      have hn : (s.mPendingAckQueue.PushBackQueue inDoneQueue s.mem).1.mHeadPtr = some x := hfront
      have he : ¬ ((⟨(s.mPendingAckQueue.PushBackQueue inDoneQueue s.mem).1.mHeadPtr,
          (s.mPendingAckQueue.PushBackQueue inDoneQueue s.mem).1.mTailPtr⟩ : Queue).IsEmpty =
          true) := by
        show ¬ (Option.isNone _ = true)
        rw [hn]
        simp
      rw [if_neg he]
      refine ⟨x :: xs, [], by simp, ?_, fun h => absurd h (by simp), fun _ => ?_⟩
      · intro q hq
        have := hinv q hq
        omega
      · exact ⟨⟨(s.mPendingAckQueue.PushBackQueue inDoneQueue s.mem).1.mHeadPtr,
          (s.mPendingAckQueue.PushBackQueue inDoneQueue s.mem).1.mTailPtr⟩, _, hn, hch, rfl, rfl⟩

set_option maxRecDepth 4000 in
/-- C11 (the code departs from the claim): `WriteBlock` lets the log sequence
go back (it never compares `blockEndSeq` with `blockStartSeq`), and
`ProcessPendingAckQueue` then takes `mTransmitCommitted >= mNextLogSeq` for
"everything is acknowledged".  After `Start` at log sequence 10, `Notify(10)`,
`Enqueue` of request 1, `ScheduleFlush` and a dispatch cycle, request 1 is
logged with log sequence 11 and waits in the pending-ack queue, the out queue
being empty; after `Enqueue` of a `kWriteBlock` control request with
`blockStartSeq = 11` and `blockEndSeq = 3` and `ScheduleFlush`, the next
dispatch cycle sets `mNextLogSeq = 3`, and `ProcessPendingAckQueue` moves
request 1 to the out queue although its log sequence 11 is above
`mTransmitCommitted = 10`. -/
theorem ProcessPendingAckQueue_unacked_counterexample :
    ∃ s s', Reachable envHex (fun _ _ => True) s ∧ DispatchStart envHex 5 s = Res.ok () s' ∧
      s.mPendingAckQueue.Front = some 1 ∧ s.mOutQueue.Front = none ∧
      s'.mOutQueue.Front = some 1 ∧ (s'.mem 1).logseq = 11 ∧ s'.mTransmitCommitted = 10 ∧
      ¬ ((s'.mem 1).logseq ≤ s'.mTransmitCommitted) := by
  obtain ⟨s', h, h1, h2, h3⟩ := DispatchStart_ackFlushed2
  refine ⟨ackFlushed2, s', ackFlushed2_reachable, h, rfl, rfl, h1, h2, h3, ?_⟩
  rw [h2, h3]
  decide

/-- When every request of the pending-ack queue, the done queue
appended, has `logseq <= mNextLogSeq`, `ProcessPendingAckQueue` returns, and
the requests `moved` that it pushes onto `mOutQueue` are an initial part of
that queue, linked from the front of the queue pushed, each with
`logseq <= mTransmitCommitted`; `mOutQueue` is left as it was when none is
moved. -/
theorem ProcessPendingAckQueue_moves_acked (fuel : Nat) (inDoneQueue : Queue) (la : List Nat)
    (s : Impl) (hl : la.length < fuel)
    (hch : isChain (s.mPendingAckQueue.PushBackQueue inDoneQueue s.mem).2.2
      (s.mPendingAckQueue.PushBackQueue inDoneQueue s.mem).1.Front la = true)
    (hinv : ∀ p ∈ la, (s.mem p).logseq ≤ s.mNextLogSeq) :
    ∃ d s' moved rest, ProcessPendingAckQueue fuel inDoneQueue s = Res.ok d s' ∧
      la = moved ++ rest ∧ s'.mTransmitCommitted = s.mTransmitCommitted ∧
      (∀ p ∈ moved, (s'.mem p).logseq ≤ s'.mTransmitCommitted) ∧
      (moved = [] → s'.mOutQueue = s.mOutQueue) ∧
      (moved ≠ [] → ∃ dq m, dq.Front = moved.head? ∧ isChain m dq.Front moved = true ∧
        s'.mOutQueue = (s.mOutQueue.PushBackQueue dq m).1 ∧
        s'.mem = (s.mOutQueue.PushBackQueue dq m).2.2) := by
  have key : M.total (ProcessPendingAckQueue fuel inDoneQueue) s (fun _ s' =>
      ∃ moved rest, la = moved ++ rest ∧ s'.mTransmitCommitted = s.mTransmitCommitted ∧
        (∀ p ∈ moved, (s'.mem p).logseq ≤ s'.mTransmitCommitted) ∧
        (moved = [] → s'.mOutQueue = s.mOutQueue) ∧
        (moved ≠ [] → ∃ dq m, dq.Front = moved.head? ∧ isChain m dq.Front moved = true ∧
          s'.mOutQueue = (s.mOutQueue.PushBackQueue dq m).1 ∧
          s'.mem = (s.mOutQueue.PushBackQueue dq m).2.2)) := by
    refine ProcessPendingAckQueue_total fuel inDoneQueue la s _ hl hch ?_
    obtain ⟨moved, rest, h1, h2, h3, h4⟩ := ackRun_moved s inDoneQueue la hch hinv
    obtain ⟨w, q, m, o, mw, ha, hm⟩ := ackRun_shape s inDoneQueue la
    have hT : (ackRun s inDoneQueue la).2.mTransmitCommitted = s.mTransmitCommitted := by
      rw [ha]
    have hM : (ackRun s inDoneQueue la).2.mem = m := by
      rw [ha]
    refine ⟨moved, rest, h1, hT, ?_, h3, h4⟩
    intro p hp
    rw [hT, hM, hm.logseq_eq p]
    exact h2 p hp
  obtain ⟨d, s', h, moved, rest, hq⟩ := key
  exact ⟨d, s', moved, rest, h, hq⟩

set_option maxRecDepth 4000 in
theorem ProcessPendingAckQueue_moves_acked_witness :
    ∃ d s' moved rest, ProcessPendingAckQueue 5 stateIn.mInQueue stateIn = Res.ok d s' ∧
      [1, 2, 3] = moved ++ rest ∧ s'.mTransmitCommitted = stateIn.mTransmitCommitted ∧
      (∀ p ∈ moved, (s'.mem p).logseq ≤ s'.mTransmitCommitted) ∧
      (moved = [] → s'.mOutQueue = stateIn.mOutQueue) ∧
      (moved ≠ [] → ∃ dq m, dq.Front = moved.head? ∧ isChain m dq.Front moved = true ∧
        s'.mOutQueue = (stateIn.mOutQueue.PushBackQueue dq m).1 ∧
        s'.mem = (stateIn.mOutQueue.PushBackQueue dq m).2.2) :=
  ProcessPendingAckQueue_moves_acked 5 stateIn.mInQueue [1, 2, 3] stateIn (by decide)
    (by decide) (by decide)

theorem hexDigitValue_eq (c : Nat) :
    hexDigitValue c =
      if 48 ≤ c ∧ c ≤ 57 then c - 48
      else if 97 ≤ c ∧ c ≤ 102 then c - 97 + 10
      else if 65 ≤ c ∧ c ≤ 70 then c - 65 + 10
      else 255 := rfl

set_option maxRecDepth 100000 in
theorem sChar2Hex_eq_map :
    HexIntParser.sChar2Hex = (List.range 256).map hexDigitValue := by decide

/-- C40: the table `HexIntParser::sChar2Hex` has exactly 256 entries, and for
every byte value `c` in 0..255 the entry at `c` is the value (0..15) of `c` as
an ASCII hexadecimal digit, upper and lower case alike, and `0xff` when `c` is
no hexadecimal digit. -/
theorem sChar2Hex_table :
    HexIntParser.sChar2Hex.length = 256 ∧
    (∀ c : Fin 256, HexIntParser.sChar2Hex[c.val]? = some (hexDigitValue c.val)) ∧
    (∀ c : Nat,
      (('0'.toNat ≤ c ∧ c ≤ '9'.toNat) ∨ ('a'.toNat ≤ c ∧ c ≤ 'f'.toNat) ∨
        ('A'.toNat ≤ c ∧ c ≤ 'F'.toNat)) ↔ hexDigitValue c ≤ 15) ∧
    (∀ c : Nat,
      ¬ (('0'.toNat ≤ c ∧ c ≤ '9'.toNat) ∨ ('a'.toNat ≤ c ∧ c ≤ 'f'.toNat) ∨
        ('A'.toNat ≤ c ∧ c ≤ 'F'.toNat)) ↔ hexDigitValue c = 0xff) ∧
    (∀ d : Fin 10, hexDigitValue ('0'.toNat + d.val) = d.val) ∧
    (∀ d : Fin 6, hexDigitValue ('a'.toNat + d.val) = 10 + d.val ∧
      hexDigitValue ('A'.toNat + d.val) = 10 + d.val) := by
  have h0 : '0'.toNat = 48 := rfl
  have h9 : '9'.toNat = 57 := rfl
  have ha : 'a'.toNat = 97 := rfl
  have hf : 'f'.toNat = 102 := rfl
  have hA : 'A'.toNat = 65 := rfl
  have hF : 'F'.toNat = 70 := rfl
  refine ⟨?_, ?_, ?_, ?_, ?_, ?_⟩
  · rw [sChar2Hex_eq_map, List.length_map, List.length_range]
  · intro c
    rw [sChar2Hex_eq_map, List.getElem?_map, List.getElem?_range c.isLt]
    rfl
  · intro c
    rw [h0, h9, ha, hf, hA, hF, hexDigitValue_eq]
    split_ifs <;> omega
  · intro c
    rw [h0, h9, ha, hf, hA, hF, hexDigitValue_eq]
    split_ifs <;> omega
  · intro d
    have := d.isLt
    rw [h0, hexDigitValue_eq]
    split_ifs <;> omega
  · intro d
    have := d.isLt
    rw [ha, hA, hexDigitValue_eq, hexDigitValue_eq]
    constructor <;> split_ifs <;> omega

theorem stringCompare_neg_iff : ∀ (a b : List Nat),
    stringCompare a b < 0 ↔ List.Lex (fun x y : Nat => x < y) a b := by
  intro a
  induction a with
  | nil =>
    intro b
    cases b with
    | nil => simp [stringCompare]
    | cons y ys => simp [stringCompare, List.Lex.nil]
  | cons x xs ih =>
    intro b
    cases b with
    | nil => simp [stringCompare]
    | cons y ys =>
      unfold stringCompare
      rcases Nat.lt_trichotomy x y with h | h | h
      · rw [if_pos h]
        exact ⟨fun _ => List.Lex.rel h, fun _ => by decide⟩
      · subst h
        rw [if_neg (lt_irrefl x), if_neg (lt_irrefl x), ih ys]
        constructor
        · exact fun hl => List.Lex.cons hl
        · intro hl
          cases hl with
          | cons hl => exact hl
          | rel hr => exact absurd hr (lt_irrefl x)
      · rw [if_neg (Nat.lt_asymm h), if_pos h]
        constructor
        · intro hc
          exact absurd hc (by decide)
        · intro hl
          cases hl with
          | cons hl => exact absurd h (lt_irrefl x)
          | rel hr => exact absurd hr (Nat.lt_asymm h)

theorem stringCompare_zero_iff : ∀ (a b : List Nat), stringCompare a b = 0 ↔ a = b := by
  intro a
  induction a with
  | nil =>
    intro b
    cases b with
    | nil => simp [stringCompare]
    | cons y ys => simp [stringCompare]
  | cons x xs ih =>
    intro b
    cases b with
    | nil => simp [stringCompare]
    | cons y ys =>
      unfold stringCompare
      rcases Nat.lt_trichotomy x y with h | h | h
      · rw [if_pos h]
        simp [Nat.ne_of_lt h]
      · subst h
        rw [if_neg (lt_irrefl x), if_neg (lt_irrefl x), ih ys]
        simp
      · rw [if_neg (Nat.lt_asymm h), if_pos h]
        simp [Nat.ne_of_gt h]

theorem stringCompare_pos_iff : ∀ (a b : List Nat),
    0 < stringCompare a b ↔ stringCompare b a < 0 := by
  intro a
  induction a with
  | nil =>
    intro b
    cases b with
    | nil => simp [stringCompare]
    | cons y ys => simp [stringCompare]
  | cons x xs ih =>
    intro b
    cases b with
    | nil => simp [stringCompare]
    | cons y ys =>
      unfold stringCompare
      rcases Nat.lt_trichotomy x y with h | h | h
      · rw [if_pos h, if_neg (Nat.lt_asymm h), if_pos h]
        decide
      · subst h
        rw [if_neg (lt_irrefl x), if_neg (lt_irrefl x), if_neg (lt_irrefl x),
          if_neg (lt_irrefl x)]
        exact ih ys
      · rw [if_neg (Nat.lt_asymm h), if_pos h, if_pos h]
        decide

theorem ServerLocation.lt_iff (a b : ServerLocation) :
    a.lt b = true ↔ List.Lex (fun x y : Nat => x < y) a.hostname b.hostname ∨
      (a.hostname = b.hostname ∧ a.port < b.port) := by
  unfold ServerLocation.lt
  simp only [Bool.or_eq_true, Bool.and_eq_true, decide_eq_true_eq, stringCompare_neg_iff,
    stringCompare_zero_iff]

theorem lex_nat_irrefl (l : List Nat) : ¬ List.Lex (fun x y : Nat => x < y) l l := by
  intro h
  have := (stringCompare_neg_iff l l).mpr h
  rw [(stringCompare_zero_iff l l).mpr rfl] at this
  exact absurd this (by decide)

theorem lex_nat_trans : ∀ (a b c : List Nat), List.Lex (fun x y : Nat => x < y) a b →
    List.Lex (fun x y : Nat => x < y) b c → List.Lex (fun x y : Nat => x < y) a c := by
  intro a b c h1
  induction h1 generalizing c with
  | nil =>
    intro h2
    cases h2 with
    | cons _ => exact List.Lex.nil
    | rel _ => exact List.Lex.nil
  | cons _ ih =>
    intro h2
    cases h2 with
    | cons h => exact List.Lex.cons (ih _ h)
    | rel h => exact List.Lex.rel h
  | rel hr =>
    intro h2
    cases h2 with
    | cons _ => exact List.Lex.rel hr
    | rel h => exact List.Lex.rel (lt_trans hr h)

theorem lex_nat_total (a b : List Nat) :
    List.Lex (fun x y : Nat => x < y) a b ∨ a = b ∨ List.Lex (fun x y : Nat => x < y) b a := by
  rcases lt_trichotomy (stringCompare a b) 0 with h | h | h
  · exact Or.inl ((stringCompare_neg_iff a b).mp h)
  · exact Or.inr (Or.inl ((stringCompare_zero_iff a b).mp h))
  · exact Or.inr (Or.inr ((stringCompare_neg_iff b a).mp ((stringCompare_pos_iff a b).mp h)))

/-- C39: `ServerLocation::operator<` is the lexicographic order on the host
name, compared byte by byte, and then the port; it is irreflexive and
transitive; for all `a` and `b` exactly one of `a < b`, `a == b`, `b < a`
holds; `operator==` holds exactly for equal locations and `operator!=` is its
negation. -/
theorem ServerLocation_lt_strict_total :
    (∀ a b : ServerLocation, a.lt b = true ↔
      (List.Lex (fun x y : Nat => x < y) a.hostname b.hostname ∨
        (a.hostname = b.hostname ∧ a.port < b.port))) ∧
    (∀ a : ServerLocation, a.lt a = false) ∧
    (∀ a b c : ServerLocation, a.lt b = true → b.lt c = true → a.lt c = true) ∧
    (∀ a b : ServerLocation,
      (a.lt b = true ∧ a.eq b = false ∧ b.lt a = false) ∨
      (a.lt b = false ∧ a.eq b = true ∧ b.lt a = false) ∨
      (a.lt b = false ∧ a.eq b = false ∧ b.lt a = true)) ∧
    (∀ a b : ServerLocation, a.eq b = true ↔ a = b) ∧
    (∀ a b : ServerLocation, a.ne b = ! a.eq b) := by
  have heq : ∀ a b : ServerLocation, a.eq b = true ↔ a = b := by
    intro a b
    unfold ServerLocation.eq
    cases a
    cases b
    simp
  have hirr : ∀ a : ServerLocation, ¬ a.lt a = true := by
    intro a h
    rcases (ServerLocation.lt_iff a a).mp h with h | ⟨-, h⟩
    · exact lex_nat_irrefl _ h
    · exact lt_irrefl _ h
  have htr : ∀ a b c : ServerLocation, a.lt b = true → b.lt c = true → a.lt c = true := by
    intro a b c h1 h2
    rw [ServerLocation.lt_iff] at h1 h2 ⊢
    rcases h1 with h1 | ⟨e1, p1⟩
    · rcases h2 with h2 | ⟨e2, p2⟩
      · exact Or.inl (lex_nat_trans _ _ _ h1 h2)
      · rw [← e2]
        exact Or.inl h1
    · rcases h2 with h2 | ⟨e2, p2⟩
      · rw [e1]
        exact Or.inl h2
      · exact Or.inr ⟨e1.trans e2, lt_trans p1 p2⟩
  refine ⟨ServerLocation.lt_iff, ?_, htr, ?_, heq, ?_⟩
  · intro a
    exact Bool.eq_false_iff.mpr (hirr a)
  · intro a b
    have hne1 : a.lt b = true → a.eq b = false := by
      intro h
      refine Bool.eq_false_iff.mpr fun he => ?_
      rw [(heq a b).mp he] at h
      exact hirr b h
    have hne2 : b.lt a = true → a.eq b = false := by
      intro h
      refine Bool.eq_false_iff.mpr fun he => ?_
      rw [(heq a b).mp he] at h
      exact hirr b h
    have has : a.lt b = true → b.lt a = false := by
      intro h
      refine Bool.eq_false_iff.mpr fun h2 => ?_
      exact hirr a (htr a b a h h2)
    have htot : a.lt b = true ∨ a = b ∨ b.lt a = true := by
      rcases lex_nat_total a.hostname b.hostname with h | h | h
      · exact Or.inl ((ServerLocation.lt_iff a b).mpr (Or.inl h))
      · rcases lt_trichotomy a.port b.port with p | p | p
        · exact Or.inl ((ServerLocation.lt_iff a b).mpr (Or.inr ⟨h, p⟩))
        · refine Or.inr (Or.inl ?_)
          cases a
          cases b
          simp only at h p
          rw [h, p]
        · exact Or.inr (Or.inr ((ServerLocation.lt_iff b a).mpr (Or.inr ⟨h.symm, p⟩)))
      · exact Or.inr (Or.inr ((ServerLocation.lt_iff b a).mpr (Or.inl h)))
    rcases htot with h | h | h
    · exact Or.inl ⟨h, hne1 h, has h⟩
    · subst h
      exact Or.inr (Or.inl ⟨Bool.eq_false_iff.mpr (hirr a), (heq a a).mpr rfl,
        Bool.eq_false_iff.mpr (hirr a)⟩)
    · refine Or.inr (Or.inr ⟨?_, hne2 h, h⟩)
      refine Bool.eq_false_iff.mpr fun h2 => ?_
      exact hirr a (htr a b a h2 h)
  · intro a b
    unfold ServerLocation.ne ServerLocation.eq
    by_cases h1 : a.hostname = b.hostname <;> by_cases h2 : a.port = b.port <;> simp [h1, h2]

theorem WriteBlock_bad_format_state (env : Env) (fuel : Nat) (p : Nat) (s : Impl)
    (hdata : (s.mem p).blockData ≠ []) (hlines : (s.mem p).blockLines ≠ [])
    (hseq : s.mLastLogSeq = s.mNextLogSeq) (hstart : (s.mem p).blockStartSeq = s.mLastLogSeq)
    (hg : Good s)
    (hparse : parseBlockCommitted env
      (lastBlockLine (s.mMdStream.buf ++ (s.mem p).blockData)
        (s.mMdStream.buf ++ (s.mem p).blockData).length ((s.mem p).blockLines.getLast?.getD 0)) < 0) :
    M.total (WriteBlock env fuel p) s (fun _ s' =>
      (s'.mem p).statusMsg = "log write: invalid block format" ∧
      s'.mNextBlockSeq = s.mNextBlockSeq ∧
      s'.mWriteState = WriteState.kWriteStateNone ∧
      s'.mBlockChecksum = env.ComputeBlockChecksum
        (env.ChecksumBlocksCombine s.mBlockChecksum (s.mem p).blockChecksum
          (s.mem p).blockData.length)
        (env.showInt s.mMdStream.hex (s.mNextBlockSeq + 1) ++ "/".toList)) := by
  obtain ⟨he, hfd, hf⟩ := hg
  have h1 : ¬ ((s.mem p).blockData.length ≤ 0) := by
    have := List.length_pos.mpr hdata
    omega
  have h2 : (s.mem p).blockLines.isEmpty = false := by
    cases hb : (s.mem p).blockLines with
    | nil => exact absurd hb hlines
    | cons a l => rfl
  have h3 : ¬ (s.mLastLogSeq ≠ s.mNextLogSeq) := not_not.mpr hseq
  have h4 : ¬ ((s.mem p).blockStartSeq ≠ s.mLastLogSeq) := not_not.mpr hstart
  simp only [WriteBlock, M.total_bind_iff, M.total_get_iff, h1, h2, h3, h4, if_false,
    Bool.false_eq_true, M.total_pure_iff]
  refine IsLogStreamGood_total _ ⟨he, hfd, hf⟩ ?_
  simp only [Bool.not_true, Bool.false_eq_true, if_false, M.total_pure_iff, M.total_bind_iff,
    mdSetSync, M.total_modify_iff, M.total_get_iff]
  refine mdWrite_nosync_total env _ _ _ hf rfl ?_
  simp only [M.total_bind_iff, M.total_modify_iff, M.total_get_iff]
  refine mdWrite_nosync_total env _ _ _ hf rfl ?_
  refine mdFlush_nosync_total env _ _ rfl ?_
  simp only [M.total_bind_iff, M.total_modify_iff, M.total_get_iff]
  refine mdWrite_nosync_total env _ _ _ hf rfl ?_
  refine mdFlush_nosync_total env _ _ rfl ?_
  simp only [M.total_bind_iff, M.total_modify_iff, M.total_get_iff, showInt, length_append_sub,
    drop_length_add, Impl.setReq, lastBlockLine_append4, take_drop_append4, hparse,
    if_true, M.total_pure_iff, mdClearBuffer, Function.update_same, Function.update_idem]
  refine ⟨trivial, ?_, trivial, trivial⟩
  omega

/-- C37 (the code differs): `WriteBlock` on a writer with rolling checksum 1 in
the state `kUpdateBlockChecksum`, for the block `c/4/` whose commit line the
parser rejects, fails with "log write: invalid block format" and restores
`mNextBlockSeq`, yet leaves `mBlockChecksum = 8` (the block checksum 5
combined in and the rejected trailer `1/` added) and
`mWriteState = kWriteStateNone`: neither has the value it had before the
call. -/
theorem WriteBlock_bad_format_checksum :
    ∃ s', WriteBlock envOk 5 1 stateBadBlock = Res.ok () s' ∧
      (s'.mem 1).statusMsg = "log write: invalid block format" ∧
      s'.mNextBlockSeq = stateBadBlock.mNextBlockSeq ∧
      stateBadBlock.mBlockChecksum = 1 ∧ s'.mBlockChecksum = 8 ∧
      stateBadBlock.mWriteState = WriteState.kUpdateBlockChecksum ∧
      s'.mWriteState = WriteState.kWriteStateNone := by
  obtain ⟨_, s', h, h1, h2, h3, h4⟩ := WriteBlock_bad_format_state envOk 5 1 stateBadBlock
    (by decide) (by decide) (by decide) (by decide) ⟨rfl, by decide, rfl⟩ (by decide)
  refine ⟨s', h, h1, h2, rfl, ?_, rfl, h3⟩
  rw [h4]
  decide

/-- C36 (the code differs): the queue holding request 1 and the empty queue are
both well formed, yet `PushBack(Queue&)` of the empty queue leaves the first
with head 1 and a null tail: it is changed, its head is not null while its
tail is, and it holds no list of requests. -/
theorem PushBackQueue_empty_argument :
    (⟨some 1, some 1⟩ : Queue).Holds memLoose [1] ∧ Queue.empty.Holds memLoose [] ∧
    ((⟨some 1, some 1⟩ : Queue).PushBackQueue Queue.empty memLoose).1 = ⟨some 1, none⟩ ∧
    ((⟨some 1, some 1⟩ : Queue).PushBackQueue Queue.empty memLoose).1 ≠ ⟨some 1, some 1⟩ ∧
    ∀ l, ¬ ((⟨some 1, some 1⟩ : Queue).PushBackQueue Queue.empty memLoose).1.Holds
      ((⟨some 1, some 1⟩ : Queue).PushBackQueue Queue.empty memLoose).2.2 l := by
  refine ⟨⟨by decide, rfl, by decide⟩, ⟨rfl, rfl, List.nodup_nil⟩, rfl, by decide, ?_⟩
  rintro l ⟨hc, ht, -⟩
  have hne : l ≠ [] := isChain_head_ne_nil _ 1 l hc
  have ht2 : (none : Option Nat) = l.getLast? := ht
  exact hne (List.getLast?_eq_none_iff.mp ht2.symm)

set_option maxRecDepth 4000 in
theorem lostDispatched_reachable : Reachable envOk (fun _ _ => True) lostDispatched := by
  have h0 : Reachable envOk (fun _ _ => True) lostStarted :=
    ⟨Impl.init envOk memLoose (fun _ => 0),
      lostStarted, 2, 0, 10, 0, 0, 0, 0, none, 0, 0, false, none, Properties.none, _,
      Start_fresh_eq envOk envOk_fileOk (fun _ => rfl) 0 0 10 0 0 0 0 0 0 false none
        Properties.none _ (le_refl _) (by decide) rfl rfl, Relation.ReflTransGen.refl⟩
  have h1 := h0.step_tail (Step.notify _ _ 5 (Notify_run envOk 5 lostStarted))
  have h2 := h1.step_tail (Step.enqueue _ _ 1 true (Enqueue_enqueued envOk 1 lostNotified rfl
    (fun h => absurd (show LogAction.kLogAlways = LogAction.kLogNever ∨
        (LogAction.kLogAlways = LogAction.kLogIfOk ∧ (0 : Int) ≠ 0) from h.2) (by decide))
    (by
      intro c h
      have h' : some 0 = some c := h
      cases h'
      decide)
    (by decide)))
  have h3 := h2.step_tail (Step.scheduleFlush _ _ (ScheduleFlush_nonempty lostQueued rfl))
  exact h3.step_tail (Step.dispatchStart _ _ 5
    (DispatchStart_eq envOk envOk_fileOk 3 1 [1] [1] lostFlushed rfl rfl (by decide) (by decide)
      (by decide) ⟨rfl, by decide, rfl⟩
      (fun _ h => absurd (show lostFlushed.mCurLogStartTime + lostFlushed.mLogRotateInterval < 0
        from h) (by decide))
      (by decide) (by decide)))

set_option maxRecDepth 4000 in
/-- C35 (the code differs): after `Start` at log sequence 10, `Notify(5)`,
`Enqueue` of request 1, `ScheduleFlush` and a dispatch cycle, request 1 is
logged with log sequence 11 and is the one request of the pending-ack queue.
`Notify(6)` wakes the worker, `DispatchEnd` runs `ProcessPendingAckQueue` with
an empty queue, which leaves the pending-ack queue with head 1 and a null
tail.  After `Enqueue` of request 2, `ScheduleFlush` and the next dispatch
cycle the pending-ack queue holds request 2 alone: request 1 is in none of the
four queues and was not handed to `submit_request`, while two requests are
counted as pending. -/
theorem ProcessPendingAckQueue_loses_request :
    ∃ s0 s1 s, Reachable envOk (fun _ _ => True) s0 ∧
      Relation.ReflTransGen (Step envOk (fun _ _ => True)) s0 s1 ∧
      Relation.ReflTransGen (Step envOk (fun _ _ => True)) s1 s ∧
      s0.mPendingAckQueue = ⟨some 1, some 1⟩ ∧ (s0.mem 1).logseq = 11 ∧
      s0.mTransmitCommitted = 5 ∧
      s1.mPendingAckQueue = ⟨some 1, none⟩ ∧ s1.mOutQueue.Front = none ∧
      s.mPendingAckQueue = ⟨some 2, some 2⟩ ∧ (s.mem 2).next = none ∧
      s.mPendingQueue.Front = none ∧ s.mInQueue.Front = none ∧ s.mOutQueue.Front = none ∧
      s.submitted = [] ∧ s.mPendingCount = 2 := by
  refine ⟨lostDispatched, lostEnded, lostDispatched2, lostDispatched_reachable, ?_, ?_,
    by decide, by decide, by decide, by decide, by decide, by decide, by decide, by decide,
    by decide, by decide, by decide, by decide⟩
  · exact (Relation.ReflTransGen.single
      (Step.notify _ _ 6 (Notify_run envOk 6 lostDispatched))).tail
      (Step.dispatchEnd _ _ 5 (DispatchEnd_eq 5 [1] lostWoken (by decide) (by decide)
        (by decide)))
  · exact ((Relation.ReflTransGen.single
      (Step.enqueue _ _ 2 true (Enqueue_enqueued envOk 2 lostEnded rfl
        (fun h => absurd (show LogAction.kLogAlways = LogAction.kLogNever ∨
            (LogAction.kLogAlways = LogAction.kLogIfOk ∧ (0 : Int) ≠ 0) from h.2) (by decide))
        (by
          intro c h
          have h' : some 0 = some c := h
          cases h'
          decide)
        (by decide)))).tail
      (Step.scheduleFlush _ _ (ScheduleFlush_nonempty lostQueued2 rfl))).tail
      (Step.dispatchStart _ _ 5
        (DispatchStart_eq envOk envOk_fileOk 3 2 [2] [2] lostFlushed2 rfl rfl (by decide)
          (by decide) (by decide) ⟨rfl, by decide, rfl⟩
          (fun _ h => absurd
            (show lostFlushed2.mCurLogStartTime + lostFlushed2.mLogRotateInterval < 0 from h)
            (by decide))
          (by decide) (by decide)))

/-- C33 (claim as stated fails): with the transmitter down and the stream good,
the clock being past the rotation interval of a log file that already holds
records, `Write` on the queue 1, 2, 3 fails the requests and then starts the
next log file: the block counter goes from 5 to 0, the new segment starts at
sequence 10, and the header block of the new file is flushed to it. -/
theorem Write_transmitter_down_counterexample :
    stateDown.mTransmitterUpFlag = false ∧
      Good stateDown ∧ isChain stateDown.mem (some 1) [1, 2, 3] = true ∧
      (∀ p ∈ [1, 2, 3], (stateDown.mem p).op ≠ MetaOp.META_LOG_WRITER_CONTROL) ∧
      stateDown.mNextBlockSeq = 5 ∧ stateDown.mCurLogStartSeq = -1 ∧
      ∃ s', Write envLate 5 1 stateDown = Res.ok () s' ∧ s'.mNextBlockSeq = 0 ∧
        s'.mCurLogStartSeq = 10 ∧
        ∃ trailer, s'.files s'.mLogName = some (headerLines envLate [] ++ trailer) := by
  refine ⟨rfl, ⟨rfl, by decide, rfl⟩, by decide, by decide, rfl, rfl, ?_⟩
  have hg : Good stateDown := ⟨rfl, by decide, rfl⟩
  obtain ⟨t, hb⟩ := batchesRun_idle envLate 5 [1, 2, 3]
    { stateDown with mMdStream := { stateDown.mMdStream with sync := false } } (Or.inr rfl)
    (by decide)
  have hg2 := (batchesRun_good envLate 5 [1, 2, 3]
    { stateDown with mMdStream := { stateDown.mMdStream with sync := false } } hg rfl).1
  obtain ⟨a, s', h, hQ⟩ := Write_rotate_run envLate 3 1 [1, 2, 3] stateDown
    (fun _ s' => s'.mNextBlockSeq = 0 ∧ s'.mCurLogStartSeq = 10 ∧
      ∃ trailer, s'.files s'.mLogName = some (headerLines envLate [] ++ trailer))
    (Or.inr (Or.inr rfl)) (by decide) (by decide) (by decide) hg
    (by
      rw [hb]
      refine ⟨?_, ?_⟩
      · show stateDown.mCurLogStartSeq < stateDown.mNextLogSeq
        decide
      · show stateDown.mCurLogStartTime + stateDown.mLogRotateInterval < 1000000000000
        decide)
    (by
      refine StartNextLog_run envLate envLate_ioOk 3 _ _ ⟨hg2.1, hg2.2.1, hg2.2.2⟩ ?_ ?_
      · rw [hb]
        rfl
      · intro s1 h1
        have hL : s1.mLastLogSeq = 10 := by
          have := congrArg Impl.mLastLogSeq h1
          rw [hb] at this
          exact this
        have hf := afterNewLog_header_file envLate { s1 with mLogNum := s1.mLogNum + 1 }
          s1.mLastLogSeq
        refine ⟨hf.1, hf.2.1.trans hL, _, hf.2.2⟩)
  exact ⟨s', h, hQ⟩

/-- C33 (amended): with the transmitter down and the stream good, when no log
rotation is due by time at the end of the call, `Write` on any queue without
control requests returns; every loggable request of the queue ends with
`logseq = -1`, `status = -ELOGFAILED` and
`statusMsg = "transaction log write error"`, every other request is unchanged;
`mNextLogSeq` keeps its value; no record is serialized and no block is flushed
or transmitted: sink buffer, digest stream, block counter, transmitted blocks,
files and log number are unchanged. -/
theorem Write_transmitter_down (env : Env) (k head : Nat) (l : List Nat) (s : Impl)
    (hup : s.mTransmitterUpFlag = false) (hg : Good s) (hlen : l.length < k + 2)
    (hch : isChain s.mem (some head) l = true)
    (hctl : ∀ p ∈ l, (s.mem p).op ≠ MetaOp.META_LOG_WRITER_CONTROL)
    (hrot : s.mCurLogStartSeq < s.mNextLogSeq →
      ∀ t, ¬ (s.mCurLogStartTime + s.mLogRotateInterval < env.microseconds t)) :
    ∃ s', Write env (k + 2) head s = Res.ok () s' ∧
      (∀ p ∈ l, (s.mem p).loggable = true → FailedReq env (s'.mem p)) ∧
      (∀ p, p ∉ l ∨ (s.mem p).loggable = false → s'.mem p = s.mem p) ∧
      s'.mNextLogSeq = s.mNextLogSeq ∧ s'.mLastLogSeq = s.mNextLogSeq ∧
      s'.mMdStream.buf = s.mMdStream.buf ∧ s'.mMdStream.md = s.mMdStream.md ∧
      s'.mNextBlockSeq = s.mNextBlockSeq ∧ s'.transmitted = s.transmitted ∧
      s'.files = s.files ∧ s'.mLogNum = s.mLogNum := by
  obtain ⟨t, hb⟩ := batchesRun_idle env (k + 2) l
    { s with mMdStream := { s.mMdStream with sync := false } } (Or.inr hup) hlen
  have hne : l ≠ [] := isChain_head_ne_nil _ _ _ hch
  rw [if_neg hne] at hb
  have hmem : ∀ m : Nat → MetaRequest, m = markFailed env s.mem l →
      (∀ p ∈ l, (s.mem p).loggable = true → FailedReq env (m p)) ∧
      (∀ p, p ∉ l ∨ (s.mem p).loggable = false → m p = s.mem p) := by
    intro m hm
    subst hm
    constructor
    · intro p hp hl
      exact markFailed_failed env l s.mem p (Or.inl ⟨hp, hctl p hp, hl⟩)
    · intro p hp
      refine markFailed_skip env l s.mem p ?_
      rcases hp with hp | hp
      · exact Or.inl hp
      · exact Or.inr (Or.inr hp)
  obtain ⟨a, s', h, hQ⟩ := Write_run env k head l s
    (fun _ s' => (∀ p ∈ l, (s.mem p).loggable = true → FailedReq env (s'.mem p)) ∧
      (∀ p, p ∉ l ∨ (s.mem p).loggable = false → s'.mem p = s.mem p) ∧
      s'.mNextLogSeq = s.mNextLogSeq ∧ s'.mLastLogSeq = s.mNextLogSeq ∧
      s'.mMdStream.buf = s.mMdStream.buf ∧ s'.mMdStream.md = s.mMdStream.md ∧
      s'.mNextBlockSeq = s.mNextBlockSeq ∧ s'.transmitted = s.transmitted ∧
      s'.files = s.files ∧ s'.mLogNum = s.mLogNum)
    (Or.inr (Or.inr hup)) hlen hch hctl hg
    (by
      rw [hb]
      intro hr
      exact hrot hr.1 _ hr.2)
    (by
      unfold writeRun
      dsimp only
      rw [hb]
      split_ifs
      · exact ⟨(hmem _ rfl).1, (hmem _ rfl).2, rfl, rfl, rfl, rfl, rfl, rfl, rfl, rfl⟩
      · exact ⟨(hmem _ rfl).1, (hmem _ rfl).2, rfl, rfl, rfl, rfl, rfl, rfl, rfl, rfl⟩)
  exact ⟨s', h, hQ⟩

theorem Write_transmitter_down_witness :
    ∃ s', Write envOk 5 1 stateDown = Res.ok () s' ∧
      (∀ p ∈ [1, 2, 3], (stateDown.mem p).loggable = true → FailedReq envOk (s'.mem p)) ∧
      (∀ p, p ∉ [1, 2, 3] ∨ (stateDown.mem p).loggable = false → s'.mem p = stateDown.mem p) ∧
      s'.mNextLogSeq = stateDown.mNextLogSeq ∧ s'.mLastLogSeq = stateDown.mNextLogSeq ∧
      s'.mMdStream.buf = stateDown.mMdStream.buf ∧ s'.mMdStream.md = stateDown.mMdStream.md ∧
      s'.mNextBlockSeq = stateDown.mNextBlockSeq ∧ s'.transmitted = stateDown.transmitted ∧
      s'.files = stateDown.files ∧ s'.mLogNum = stateDown.mLogNum :=
  Write_transmitter_down envOk 3 1 [1, 2, 3] stateDown rfl ⟨rfl, by decide, rfl⟩ (by decide)
    (by decide) (by decide)
    (fun _ _ h => absurd
      (show stateDown.mCurLogStartTime + stateDown.mLogRotateInterval < 0 from h) (by decide))


theorem appendToFd_book (s : Impl) (fd : Int) (data : Bytes) :
    (appendToFd s fd data).book = s.book := by
  obtain ⟨g, hg⟩ := appendToFd_eq s fd data
  rw [hg]
  rfl


theorem IoError_book (e : Int) : Frame Impl.book (IoError e) := by
  unfold IoError
  repeat' first
    | with_reducible apply Frame.bind | with_reducible apply Frame.pure
    | with_reducible apply Frame.get | with_reducible apply Frame.panic
    | with_reducible apply Frame.timeout | with_reducible apply Frame.ite
    | with_reducible apply Frame.nextTick | with_reducible apply Frame.ofModify
    | exact appendToFd_book _ _ _
    | rfl | with_reducible intro _ | split | dsimp only

theorem IsLogStreamGood_book : Frame Impl.book IsLogStreamGood := by
  unfold IsLogStreamGood
  repeat' first
    | with_reducible apply IoError_book
    | with_reducible apply Frame.bind | with_reducible apply Frame.pure
    | with_reducible apply Frame.get | with_reducible apply Frame.panic
    | with_reducible apply Frame.timeout | with_reducible apply Frame.ite
    | with_reducible apply Frame.nextTick | with_reducible apply Frame.ofModify
    | exact appendToFd_book _ _ _
    | rfl | with_reducible intro _ | split | dsimp only

theorem Sync_book (env : Env) : Frame Impl.book (Sync env) := by
  unfold Sync
  repeat' first
    | with_reducible apply IoError_book
    | with_reducible apply Frame.bind | with_reducible apply Frame.pure
    | with_reducible apply Frame.get | with_reducible apply Frame.panic
    | with_reducible apply Frame.timeout | with_reducible apply Frame.ite
    | with_reducible apply Frame.nextTick | with_reducible apply Frame.ofModify
    | exact appendToFd_book _ _ _
    | rfl | with_reducible intro _ | split | dsimp only

theorem Close_book (env : Env) : Frame Impl.book (Close env) := by
  unfold Close
  repeat' first
    | with_reducible apply IoError_book
    | with_reducible apply Frame.bind | with_reducible apply Frame.pure
    | with_reducible apply Frame.get | with_reducible apply Frame.panic
    | with_reducible apply Frame.timeout | with_reducible apply Frame.ite
    | with_reducible apply Frame.nextTick | with_reducible apply Frame.ofModify
    | exact appendToFd_book _ _ _
    | rfl | with_reducible intro _ | split | dsimp only

theorem sysWrite_book (env : Env) (b : Bytes) (n : Nat) : Frame Impl.book (sysWrite env b n) := by
  unfold sysWrite
  repeat' first
    | with_reducible apply Frame.bind | with_reducible apply Frame.pure
    | with_reducible apply Frame.get | with_reducible apply Frame.panic
    | with_reducible apply Frame.timeout | with_reducible apply Frame.ite
    | with_reducible apply Frame.nextTick | with_reducible apply Frame.ofModify
    | exact appendToFd_book _ _ _
    | rfl | with_reducible intro _ | split | dsimp only

theorem writeLoop_book (env : Env) (n : Nat) :
    ∀ (b : Bytes) (pos : Nat) (w e : Int), Frame Impl.book (writeLoop env n b pos w e) := by
  induction n with
  | zero =>
    intro b pos w e
    exact Frame.timeout
  | succ n ih =>
    intro b pos w e
    unfold writeLoop
    repeat' first
      | with_reducible apply ih
      | with_reducible apply sysWrite_book
      | with_reducible apply Frame.bind | with_reducible apply Frame.pure
      | with_reducible apply Frame.get | with_reducible apply Frame.panic
      | with_reducible apply Frame.timeout | with_reducible apply Frame.ite
      | with_reducible apply Frame.nextTick | with_reducible apply Frame.ofModify
      | exact appendToFd_book _ _ _
      | rfl | with_reducible intro _ | split | dsimp only

theorem write_book (env : Env) (fuel : Nat) (b : Bytes) : Frame Impl.book (write env fuel b) := by
  unfold write
  repeat' first
    | with_reducible apply IoError_book
    | with_reducible apply IsLogStreamGood_book
    | with_reducible apply writeLoop_book
    | with_reducible apply Frame.bind | with_reducible apply Frame.pure
    | with_reducible apply Frame.get | with_reducible apply Frame.panic
    | with_reducible apply Frame.timeout | with_reducible apply Frame.ite
    | with_reducible apply Frame.nextTick | with_reducible apply Frame.ofModify
    | exact appendToFd_book _ _ _
    | rfl | with_reducible intro _ | split | dsimp only

theorem mdSyncSelf_book (env : Env) (fuel : Nat) : Frame Impl.book (mdSyncSelf env fuel) := by
  unfold mdSyncSelf
  repeat' first
    | with_reducible apply write_book
    | with_reducible apply Frame.bind | with_reducible apply Frame.pure
    | with_reducible apply Frame.get | with_reducible apply Frame.panic
    | with_reducible apply Frame.timeout | with_reducible apply Frame.ite
    | with_reducible apply Frame.nextTick | with_reducible apply Frame.ofModify
    | exact appendToFd_book _ _ _
    | rfl | with_reducible intro _ | split | dsimp only

theorem mdWrite_book (env : Env) (fuel : Nat) (b : Bytes) : Frame Impl.book (mdWrite env fuel b) := by
  unfold mdWrite
  repeat' first
    | with_reducible apply mdSyncSelf_book
    | with_reducible apply Frame.bind | with_reducible apply Frame.pure
    | with_reducible apply Frame.get | with_reducible apply Frame.panic
    | with_reducible apply Frame.timeout | with_reducible apply Frame.ite
    | with_reducible apply Frame.nextTick | with_reducible apply Frame.ofModify
    | exact appendToFd_book _ _ _
    | rfl | with_reducible intro _ | split | dsimp only

theorem mdFlush_book (env : Env) (fuel : Nat) : Frame Impl.book (mdFlush env fuel) := by
  unfold mdFlush flush
  repeat' first
    | with_reducible apply mdSyncSelf_book
    | with_reducible apply IsLogStreamGood_book
    | with_reducible apply Frame.bind | with_reducible apply Frame.pure
    | with_reducible apply Frame.get | with_reducible apply Frame.panic
    | with_reducible apply Frame.timeout | with_reducible apply Frame.ite
    | with_reducible apply Frame.nextTick | with_reducible apply Frame.ofModify
    | exact appendToFd_book _ _ _
    | rfl | with_reducible intro _ | split | dsimp only

theorem StartBlock_book (c : Nat) : Frame Impl.book (StartBlock c) := by
  unfold StartBlock mdSetSync
  repeat' first
    | with_reducible apply Frame.bind | with_reducible apply Frame.pure
    | with_reducible apply Frame.get | with_reducible apply Frame.panic
    | with_reducible apply Frame.timeout | with_reducible apply Frame.ite
    | with_reducible apply Frame.nextTick | with_reducible apply Frame.ofModify
    | exact appendToFd_book _ _ _
    | rfl | with_reducible intro _ | split | dsimp only

theorem FlushBlock_book (env : Env) (fuel : Nat) (inLogSeq : Int) : Frame Impl.book (FlushBlock env fuel inLogSeq) := by
  unfold FlushBlock mdSetSync
  repeat' first
    | with_reducible apply mdWrite_book
    | with_reducible apply mdFlush_book
    | with_reducible apply Sync_book
    | with_reducible apply StartBlock_book
    | with_reducible apply Frame.bind | with_reducible apply Frame.pure
    | with_reducible apply Frame.get | with_reducible apply Frame.panic
    | with_reducible apply Frame.timeout | with_reducible apply Frame.ite
    | with_reducible apply Frame.nextTick | with_reducible apply Frame.ofModify
    | exact appendToFd_book _ _ _
    | rfl | with_reducible intro _ | split | dsimp only

theorem NewLog_book (env : Env) (fuel : Nat) (inLogSeq : Int) : Frame Impl.book (NewLog env fuel inLogSeq) := by
  unfold NewLog microseconds DisplayIsoDateTime SetLogName mdReset mdClear mdSetHex mdSetSync
  repeat' first
    | with_reducible apply Close_book
    | with_reducible apply IoError_book
    | with_reducible apply IsLogStreamGood_book
    | with_reducible apply mdWrite_book
    | with_reducible apply FlushBlock_book
    | with_reducible apply StartBlock_book
    | with_reducible apply Frame.bind | with_reducible apply Frame.pure
    | with_reducible apply Frame.get | with_reducible apply Frame.panic
    | with_reducible apply Frame.timeout | with_reducible apply Frame.ite
    | with_reducible apply Frame.nextTick | with_reducible apply Frame.ofModify
    | exact appendToFd_book _ _ _
    | rfl | with_reducible intro _ | split | dsimp only

theorem CloseLog_book (env : Env) (fuel : Nat) : Frame Impl.book (CloseLog env fuel) := by
  unfold CloseLog DisplayIsoDateTime mdSetSync
  repeat' first
    | with_reducible apply Close_book
    | with_reducible apply IoError_book
    | with_reducible apply IsLogStreamGood_book
    | with_reducible apply mdWrite_book
    | with_reducible apply mdFlush_book
    | with_reducible apply FlushBlock_book
    | with_reducible apply Sync_book
    | with_reducible apply Frame.bind | with_reducible apply Frame.pure
    | with_reducible apply Frame.get | with_reducible apply Frame.panic
    | with_reducible apply Frame.timeout | with_reducible apply Frame.ite
    | with_reducible apply Frame.nextTick | with_reducible apply Frame.ofModify
    | exact appendToFd_book _ _ _
    | rfl | with_reducible intro _ | split | dsimp only


theorem IsLogStreamGood_post (s : Impl) :
    M.post IsLogStreamGood s (fun b s' => (b = true ↔ Good s') ∧ (b = true → s' = s) ∧
      s'.mLogNum = s.mLogNum ∧ s'.mem = s.mem ∧ s'.files = s.files ∧ s'.tick = s.tick ∧
      s'.mLogName = s.mLogName) := by
  unfold IsLogStreamGood
  simp only [M.post_bind_iff, M.post_get_iff]
  by_cases h1 : s.mError ≠ 0 ∨ s.mLogFd < 0
  · rw [if_pos h1]
    simp only [M.post_pure_iff]
    refine ⟨⟨fun h => absurd h (by decide), fun hg => ?_⟩, ?_⟩
    · rcases h1 with h1 | h1
      · exact absurd hg.1 h1
      · exact absurd hg.2.1 (not_le.mpr h1)
    · simp
  · rw [if_neg h1]
    simp only [M.post_bind_iff, M.post_pure_iff]
    by_cases h2 : s.mMdStream.fail = true
    · rw [if_pos h2]
      simp only [M.post_bind_iff, IoError, M.post_modify_iff, M.post_get_iff, M.post_ite_iff,
        M.post_pure_iff, M.post_panic_iff]
      by_cases hp : s.mPanicOnIoErrorFlag = true
      · rw [if_pos hp]
        trivial
      · rw [if_neg hp]
        refine ⟨⟨fun h => by simp at h, fun hg => ?_⟩, ?_⟩
        · have hf : s.mMdStream.fail = false := hg.2.2
          rw [h2] at hf
          cases hf
        · simp
    · rw [if_neg h2]
      simp only [M.post_bind_iff, M.post_pure_iff]
      push_neg at h1
      refine ⟨⟨fun _ => ⟨h1.1, h1.2, ?_⟩, fun _ => trivial⟩, ?_⟩
      · cases hf : s.mMdStream.fail with
        | true => exact absurd hf h2
        | false => rfl
      · simp

theorem StartNextLog_book (env : Env) (fuel : Nat) (s : Impl) :
    M.post (StartNextLog env fuel) s (fun _ s' => s'.mLogNum = s.mLogNum + 1 ∧ s'.mem = s.mem) := by
  unfold StartNextLog
  simp only [M.post_bind_iff, M.post_modify_iff, M.post_get_iff]
  refine Frame.to_post (CloseLog_book env fuel) s _ ?_
  intro _ s1 h1
  refine Frame.to_post (NewLog_book env fuel _) _ _ ?_
  intro _ s2 h2
  have e1 : s1.mLogNum = s.mLogNum := congrArg Prod.fst h1
  have e2 : s1.mem = s.mem := congrArg Prod.snd h1
  have e3 : s2.mLogNum = s1.mLogNum + 1 := congrArg Prod.fst h2
  have e4 : s2.mem = s1.mem := congrArg Prod.snd h2
  exact ⟨by rw [e3, e1], by rw [e4, e2]⟩

/-- C32: what `Control` does and returns, by the type of the request.
`kNop` (the default case of the switch): returns false, every field of the
writer is as before, and the reply fields of the request are filled.
`kSetParameters`: returns false.  `kWriteBlock`: returns true, nothing is
changed.  `kNewLog`: when `mCurLogStartSeq < mLastLogSeq` does not hold no log
is started (log number, files, log name and the count of outside calls are as
before); when it holds, the log is rotated with `StartNextLog`, so that the
log number is one more; in both cases the value returned is true exactly when
the log stream is good.  With all I/O succeeding, a good stream and no record
pending, the rotating call returns true. -/
theorem Control_cases (env : Env) (fuel : Nat) (p : Nat) (s : Impl) :
    ((s.mem p).type = ControlType.kNop →
      Control env fuel p s = Res.ok false (s.setReq p (controlReply s))) ∧
    ((s.mem p).type = ControlType.kSetParameters →
      ∃ s', Control env fuel p s = Res.ok false s') ∧
    ((s.mem p).type = ControlType.kWriteBlock → Control env fuel p s = Res.ok true s) ∧
    ((s.mem p).type = ControlType.kNewLog → ¬ (s.mCurLogStartSeq < s.mLastLogSeq) →
      Control env fuel p s = IsLogStreamGood (s.setReq p (controlReply s)) ∧
      ∀ b s', Control env fuel p s = Res.ok b s' →
        (b = true ↔ Good s') ∧ s'.mLogNum = s.mLogNum ∧ s'.files = s.files ∧
        s'.mLogName = s.mLogName ∧ s'.tick = s.tick) ∧
    ((s.mem p).type = ControlType.kNewLog → s.mCurLogStartSeq < s.mLastLogSeq →
      ∀ b s', Control env fuel p s = Res.ok b s' →
        (b = true ↔ Good s') ∧ s'.mLogNum = s.mLogNum + 1) ∧
    ((s.mem p).type = ControlType.kNewLog → s.mCurLogStartSeq < s.mLastLogSeq →
      IoOk env → Good s → s.mLastLogSeq = s.mNextLogSeq → 2 ≤ fuel →
      ∃ s', Control env fuel p s = Res.ok true s' ∧ s'.mLogNum = s.mLogNum + 1) := by
  refine ⟨?_, ?_, ?_, ?_, ?_, ?_⟩
  · intro h
    unfold Control
    simp only [M.bind_run, M.get_run, h, M.modify_run, M.pure_run]
    rfl
  · intro h
    unfold Control SetParameters nextTick
    simp only [M.bind_run, M.get_run, h, M.modify_run, M.pure_run]
    exact ⟨_, rfl⟩
  · intro h
    unfold Control
    simp only [M.bind_run, M.get_run, h, M.pure_run]
  · intro h hc
    have he : Control env fuel p s = IsLogStreamGood (s.setReq p (controlReply s)) := by
      unfold Control
      simp only [M.bind_run, M.get_run, h, if_neg hc, M.pure_run, M.modify_run]
      rfl
    refine ⟨he, ?_⟩
    intro b s' hr
    rw [he] at hr
    obtain ⟨h1, -, h3, -, h5, h6, h7⟩ := IsLogStreamGood_post _ b s' hr
    exact ⟨h1, h3, h5, h7, h6⟩
  · intro h hc
    have key : M.post (Control env fuel p) s
        (fun b s' => (b = true ↔ Good s') ∧ s'.mLogNum = s.mLogNum + 1) := by
      unfold Control
      simp only [M.post_bind_iff, M.post_get_iff, h, if_pos hc, M.post_modify_iff]
      refine M.post_mono (StartNextLog_book env fuel s) ?_
      intro _ s1 h1
      refine M.post_mono (IsLogStreamGood_post _) ?_
      intro b s2 h2
      exact ⟨h2.1, h2.2.2.1.trans h1.1⟩
    exact key
  · intro h hc io hg hseq hfuel
    obtain ⟨k, rfl⟩ := Nat.exists_eq_add_of_le' hfuel
    have ht : M.total (Control env (k + 2) p) s (fun b _ => b = true) := by
      unfold Control
      simp only [M.total_bind_iff, M.total_get_iff, h, if_pos hc, M.total_modify_iff]
      refine StartNextLog_run env io k s _ hg hseq ?_
      intro s1 _
      refine IsLogStreamGood_total _ ?_ rfl
      exact ⟨rfl, io.open_ok _, rfl⟩
    obtain ⟨b, s', hr, hb⟩ := ht
    have key : M.post (Control env (k + 2) p) s (fun _ s' => s'.mLogNum = s.mLogNum + 1) := by
      unfold Control
      simp only [M.post_bind_iff, M.post_get_iff, h, if_pos hc, M.post_modify_iff]
      refine M.post_mono (StartNextLog_book env (k + 2) s) ?_
      intro _ s1 h1
      refine M.post_mono (IsLogStreamGood_post _) ?_
      intro b s2 h2
      exact h2.2.2.1.trans h1.1
    rw [hb] at hr
    exact ⟨s', hr, key true s' hr⟩

theorem isChain_pushBackQueue (q q2 : Queue) (mem : Nat → MetaRequest) (l1 l2 : List Nat)
    (h1 : q.Holds mem l1) (h2 : isChain mem q2.mHeadPtr l2 = true) (hd : l1.Disjoint l2) :
    isChain (q.PushBackQueue q2 mem).2.2 (q.PushBackQueue q2 mem).1.mHeadPtr (l1 ++ l2) = true := by
  obtain ⟨hc, ht, hnd⟩ := h1
  unfold Queue.PushBackQueue
  cases hq : q.mTailPtr with
  | none =>
    rw [hq] at ht
    have hl : l1 = [] := List.getLast?_eq_none_iff.mp ht.symm
    subst hl
    exact h2
  | some t =>
    rw [hq] at ht
    have htm : t ∈ l1 := List.mem_of_getLast?_eq_some ht.symm
    exact isChain_append mem l1 l2 q.mHeadPtr q2.mHeadPtr t _ hc ht.symm hnd
      (fun h => hd htm h) h2 rfl

theorem isChain_pushBackQueue_other (q q2 : Queue) (mem : Nat → MetaRequest) (l1 l3 : List Nat)
    (h : Option Nat) (h1 : q.mTailPtr = l1.getLast?) (hd : l1.Disjoint l3) :
    isChain (q.PushBackQueue q2 mem).2.2 h l3 = isChain mem h l3 := by
  unfold Queue.PushBackQueue
  cases hq : q.mTailPtr with
  | none => rfl
  | some t =>
    rw [hq] at h1
    have htm : t ∈ l1 := List.mem_of_getLast?_eq_some h1.symm
    exact isChain_update_of_not_mem mem t _ l3 h (fun h3 => hd htm h3)

theorem takeWhile_append_fail {α : Type} (f : α → Bool) (p : α) (b : List α) (hp : f p = false) :
    ∀ a : List α, (∀ x ∈ a, f x = true) →
      (a ++ p :: b).takeWhile f = a ∧ (a ++ p :: b).dropWhile f = p :: b ∧
        (a ++ p :: b).all f = false := by
  intro a
  induction a with
  | nil =>
    intro _
    simp [List.takeWhile, List.dropWhile, hp]
  | cons x a ih =>
    intro h
    have hx : f x = true := h x (List.mem_cons_self _ _)
    obtain ⟨i1, i2, i3⟩ := ih (fun y hy => h y (List.mem_cons_of_mem _ hy))
    refine ⟨?_, ?_, ?_⟩
    · rw [List.cons_append, List.takeWhile_cons, hx, if_pos rfl, i1]
    · rw [List.cons_append, List.dropWhile_cons, hx, if_pos rfl, i2]
    · rw [List.cons_append, List.all_cons, i3, Bool.and_false]

theorem splitRun_cut (s : Impl) (inDoneQueue : Queue) :
    ∀ (l pre : List Nat), (∀ q ∈ pre, (s.mem q).logseq ≤ s.mTransmitCommitted) →
      (splitRun s inDoneQueue l pre.getLast? = (inDoneQueue, s) ∧
        ((∀ q ∈ pre ++ l, (s.mem q).logseq ≤ s.mTransmitCommitted) ∨
          (pre = [] ∧ ∃ p ps, l = p :: ps ∧ s.mTransmitCommitted < (s.mem p).logseq))) ∨
      ∃ a t p b, pre ++ l = a ++ t :: p :: b ∧
        (∀ q ∈ a ++ [t], (s.mem q).logseq ≤ s.mTransmitCommitted) ∧
        s.mTransmitCommitted < (s.mem p).logseq ∧
        splitRun s inDoneQueue l pre.getLast? =
          (⟨s.mPendingAckQueue.Front, some t⟩,
            { (s.setReq t fun r => { r with next := none }) with
              mPendingAckQueue := ⟨some p, s.mPendingAckQueue.Back⟩ }) := by
  intro l
  induction l with
  | nil =>
    intro pre hpre
    refine Or.inl ⟨rfl, Or.inl ?_⟩
    rw [List.append_nil]
    exact hpre
  | cons p ps ih =>
    intro pre hpre
    unfold splitRun
    by_cases hc : s.mTransmitCommitted < (s.mem p).logseq
    · rw [if_pos hc]
      cases hg : pre.getLast? with
      | none =>
        exact Or.inl ⟨rfl, Or.inr ⟨List.getLast?_eq_none_iff.mp hg, p, ps, rfl, hc⟩⟩
      | some t =>
        obtain ⟨a, ha⟩ := List.getLast?_eq_some_iff.mp hg
        refine Or.inr ⟨a, t, p, ps, ?_, ?_, hc, rfl⟩
        · rw [ha, List.append_assoc, List.singleton_append]
        · rw [← ha]
          exact hpre
    · rw [if_neg hc]
      have hp : ∀ q ∈ pre ++ [p], (s.mem q).logseq ≤ s.mTransmitCommitted := by
        intro q hq
        rcases List.mem_append.mp hq with h | h
        · exact hpre q h
        · rw [List.mem_singleton.mp h]
          exact not_lt.mp hc
      have hl : (pre ++ [p]).getLast? = some p := by simp
      have hap : pre ++ [p] ++ ps = pre ++ p :: ps := by
        rw [List.append_assoc, List.singleton_append]
      rcases ih (pre ++ [p]) hp with ⟨h, hh⟩ | ⟨a, t, p', b, h1, h2, h3, h4⟩
      · rw [hl] at h
        refine Or.inl ⟨h, Or.inl ?_⟩
        rcases hh with hh | ⟨hh, -⟩
        · rw [← hap]
          exact hh
        · exact absurd hh (by simp)
      · rw [hl] at h4
        refine Or.inr ⟨a, t, p', b, ?_, h2, h3, h4⟩
        rw [← h1, hap]

theorem ackRun_split (s : Impl) (inDoneQueue : Queue) (lp ld lo : List Nat)
    (hP : s.mPendingAckQueue.Holds s.mem lp) (hD : inDoneQueue.Holds s.mem ld)
    (hO : s.mOutQueue.Holds s.mem lo) (hd1 : lp.Disjoint ld) (hd2 : lo.Disjoint (lp ++ ld)) :
    isChain (ackRun s inDoneQueue (lp ++ ld)).2.mem
        (ackRun s inDoneQueue (lp ++ ld)).2.mOutQueue.mHeadPtr
        (lo ++ (ackSplit s (lp ++ ld)).1) = true ∧
      isChain (ackRun s inDoneQueue (lp ++ ld)).2.mem
        (ackRun s inDoneQueue (lp ++ ld)).2.mPendingAckQueue.mHeadPtr
        (ackSplit s (lp ++ ld)).2 = true := by
  have hp1 := PushBackQueue_nextOnly s.mPendingAckQueue inDoneQueue s.mem
  have hch := isChain_pushBackQueue s.mPendingAckQueue inDoneQueue s.mem lp ld hP hD.1 hd1
  have hlo := List.disjoint_append_right.mp hd2
  have hO1 : isChain (s.mPendingAckQueue.PushBackQueue inDoneQueue s.mem).2.2
      s.mOutQueue.mHeadPtr lo = true := by
    rw [isChain_pushBackQueue_other _ _ _ lp lo _ hP.2.1 hlo.1.symm]
    exact hO.1
  have hnd := isChain_nodup _ _ _ hch
  have hfront := isChain_head _ _ _ hch
  generalize hla : lp ++ ld = la at hch hnd hfront hd2 ⊢
  unfold ackRun ackSplit
  dsimp only
  by_cases hc : s.mTransmitCommitted < s.mNextLogSeq
  · rw [if_pos hc, if_pos hc]
    have h' := splitRun_cut
      { s with
        mWokenFlag := false
        mPendingAckQueue := (s.mPendingAckQueue.PushBackQueue inDoneQueue s.mem).1
        mem := (s.mPendingAckQueue.PushBackQueue inDoneQueue s.mem).2.2 }
      inDoneQueue.Reset la [] (by simp)
    simp only [List.getLast?_nil, List.nil_append] at h'
    have hnone : ∀ (hs : (la.all fun p => decide ((s.mem p).logseq ≤ s.mTransmitCommitted)) = true ∨
        la.takeWhile (fun p => decide ((s.mem p).logseq ≤ s.mTransmitCommitted)) = [] ∧
        la.dropWhile (fun p => decide ((s.mem p).logseq ≤ s.mTransmitCommitted)) = la),
        (if (la.all fun p => decide ((s.mem p).logseq ≤ s.mTransmitCommitted)) = true then
          (([] : List Nat), la)
        else
          (la.takeWhile (fun p => decide ((s.mem p).logseq ≤ s.mTransmitCommitted)),
            la.dropWhile (fun p => decide ((s.mem p).logseq ≤ s.mTransmitCommitted)))) =
        ([], la) := by
      intro hs
      split_ifs with hall
      · rfl
      · rcases hs with hs | ⟨h1, h2⟩
        · exact absurd hs hall
        · rw [h1, h2]
    rcases h' with ⟨h, hh⟩ | ⟨a, t, p, b, h1, h2, h3, h4⟩
    · rw [h]
      dsimp only
      rw [if_pos (show inDoneQueue.Reset.IsEmpty = true from rfl)]
      have hs : (la.all fun p => decide ((s.mem p).logseq ≤ s.mTransmitCommitted)) = true ∨
          la.takeWhile (fun p => decide ((s.mem p).logseq ≤ s.mTransmitCommitted)) = [] ∧
          la.dropWhile (fun p => decide ((s.mem p).logseq ≤ s.mTransmitCommitted)) = la := by
        rcases hh with hh | ⟨-, p, ps, hl, hp⟩
        · left
          rw [List.all_eq_true]
          intro q hq
          have := hh q hq
          rw [hp1.logseq_eq q] at this
          exact decide_eq_true this
        · right
          have hf : decide ((s.mem p).logseq ≤ s.mTransmitCommitted) = false := by
            rw [hp1.logseq_eq p] at hp
            exact decide_eq_false (not_le.mpr hp)
          rw [hl]
          constructor
          · rw [List.takeWhile_cons, hf]
            rfl
          · rw [List.dropWhile_cons, hf]
            rfl
      rw [hnone hs]
      dsimp only
      rw [List.append_nil]
      exact ⟨hO1, hch⟩
    · subst h1
      rw [h4]
      have hf2 : (s.mPendingAckQueue.PushBackQueue inDoneQueue s.mem).1.Front =
          (a ++ [t]).head? := by
        show (s.mPendingAckQueue.PushBackQueue inDoneQueue s.mem).1.mHeadPtr = _
        rw [hfront]
        cases a <;> rfl
      have hne : ¬ ((⟨(s.mPendingAckQueue.PushBackQueue inDoneQueue s.mem).1.Front, some t⟩ :
          Queue).IsEmpty = true) := by
        show ¬ ((s.mPendingAckQueue.PushBackQueue inDoneQueue s.mem).1.Front.isNone = true)
        rw [hf2]
        cases a <;> simp
      dsimp only
      rw [if_neg hne]
      have hpf : (fun p => decide ((s.mem p).logseq ≤ s.mTransmitCommitted)) p = false := by
        rw [hp1.logseq_eq p] at h3
        exact decide_eq_false (not_le.mpr h3)
      have hall : ∀ x ∈ a ++ [t],
          (fun p => decide ((s.mem p).logseq ≤ s.mTransmitCommitted)) x = true := by
        intro x hx
        have := h2 x hx
        rw [hp1.logseq_eq x] at this
        exact decide_eq_true this
      obtain ⟨k1, k2, k3⟩ := takeWhile_append_fail _ p b hpf (a ++ [t]) hall
      rw [List.append_assoc, List.singleton_append] at k1 k2 k3
      have hall2 : ¬ ((a ++ t :: p :: b).all
          (fun p => decide ((s.mem p).logseq ≤ s.mTransmitCommitted)) = true) := by
        rw [k3]
        exact Bool.false_ne_true
      rw [if_neg hall2, k1, k2]
      dsimp only
      have htla : t ∈ a ++ t :: p :: b := List.mem_append_right _ (List.mem_cons_self _ _)
      have htlo : t ∉ lo := fun h => hd2 h htla
      have htnot : t ∉ p :: b := by
        have h5 := (List.nodup_append.mp hnd).2.1
        exact (List.nodup_cons.mp h5).1
      have hO2 : s.mOutQueue.Holds
          (Function.update (s.mPendingAckQueue.PushBackQueue inDoneQueue s.mem).2.2 t
            { (s.mPendingAckQueue.PushBackQueue inDoneQueue s.mem).2.2 t with next := none })
          lo := by
        refine ⟨?_, hO.2.1, hO.2.2⟩
        rw [isChain_update_of_not_mem _ t _ lo _ htlo]
        exact hO1
      have hcut := isChain_cut (s.mPendingAckQueue.PushBackQueue inDoneQueue s.mem).2.2 t
        (p :: b) a _ hch
      have hdm : lo.Disjoint (a ++ [t]) := by
        intro x hx hy
        refine hd2 hx ?_
        rcases List.mem_append.mp hy with h | h
        · exact List.mem_append_left _ h
        · rw [List.mem_singleton.mp h]
          exact htla
      have hdr : lo.Disjoint (p :: b) := by
        intro x hx hy
        exact hd2 hx (List.mem_append_right _ (List.mem_cons_of_mem _ hy))
      refine ⟨?_, ?_⟩
      · exact isChain_pushBackQueue s.mOutQueue
          ⟨(s.mPendingAckQueue.PushBackQueue inDoneQueue s.mem).1.Front, some t⟩ _ lo (a ++ [t])
          hO2 hcut hdm
      · have hch2 : isChain (s.mPendingAckQueue.PushBackQueue inDoneQueue s.mem).2.2
            (s.mPendingAckQueue.PushBackQueue inDoneQueue s.mem).1.Front
            ((a ++ [t]) ++ p :: b) = true := by
          rw [List.append_assoc, List.singleton_append]
          exact hch
        have hrest := isChain_rest _ (a ++ [t]) (p :: b) _ hch2
        show isChain (s.mOutQueue.PushBackQueue
          ⟨(s.mPendingAckQueue.PushBackQueue inDoneQueue s.mem).1.Front, some t⟩
          (Function.update (s.mPendingAckQueue.PushBackQueue inDoneQueue s.mem).2.2 t
            { (s.mPendingAckQueue.PushBackQueue inDoneQueue s.mem).2.2 t with next := none })).2.2
          (some p) (p :: b) = true
        rw [isChain_pushBackQueue_other s.mOutQueue _ _ lo (p :: b) _ hO.2.1 hdr,
          isChain_update_of_not_mem _ t _ (p :: b) _ htnot]
        exact hrest
  · rw [if_neg hc, if_neg hc]
    have hpb : ∀ (q : Queue) (m : Nat → MetaRequest),
        inDoneQueue.Reset.PushBackQueue q m = (⟨q.mHeadPtr, q.mTailPtr⟩, q.Reset, m) :=
      fun _ _ => rfl
    simp only [hpb]
    cases la with
    | nil =>
      have hn : (s.mPendingAckQueue.PushBackQueue inDoneQueue s.mem).1.mHeadPtr = none := hfront
      have he : (⟨(s.mPendingAckQueue.PushBackQueue inDoneQueue s.mem).1.mHeadPtr,
          (s.mPendingAckQueue.PushBackQueue inDoneQueue s.mem).1.mTailPtr⟩ : Queue).IsEmpty =
          true := by
        show Option.isNone _ = true
        rw [hn]
        rfl
      rw [if_pos he, List.append_nil]
      exact ⟨hO1, rfl⟩
    | cons x xs =>
      have hn : (s.mPendingAckQueue.PushBackQueue inDoneQueue s.mem).1.mHeadPtr = some x := hfront
      have he : ¬ ((⟨(s.mPendingAckQueue.PushBackQueue inDoneQueue s.mem).1.mHeadPtr,
          (s.mPendingAckQueue.PushBackQueue inDoneQueue s.mem).1.mTailPtr⟩ : Queue).IsEmpty =
          true) := by
        show ¬ (Option.isNone _ = true)
        rw [hn]
        simp
      rw [if_neg he]
      refine ⟨?_, rfl⟩
      exact isChain_pushBackQueue s.mOutQueue
        ⟨(s.mPendingAckQueue.PushBackQueue inDoneQueue s.mem).1.mHeadPtr,
          (s.mPendingAckQueue.PushBackQueue inDoneQueue s.mem).1.mTailPtr⟩ _ lo (x :: xs)
        ⟨hO1, hO.2.1, hO.2.2⟩ hch hd2

theorem ackSplit_spec (s : Impl) (l : List Nat) :
    (ackSplit s l).1 ++ (ackSplit s l).2 = l ∧
    (s.mTransmitCommitted < s.mNextLogSeq →
      (∀ p ∈ (ackSplit s l).1, (s.mem p).logseq ≤ s.mTransmitCommitted) ∧
      ((ackSplit s l).1 ≠ [] →
        ∃ q, (ackSplit s l).2.head? = some q ∧ s.mTransmitCommitted < (s.mem q).logseq) ∧
      ((∀ p ∈ l, (s.mem p).logseq ≤ s.mTransmitCommitted) → (ackSplit s l).1 = [])) ∧
    (¬ s.mTransmitCommitted < s.mNextLogSeq → (ackSplit s l).1 = l ∧ (ackSplit s l).2 = []) := by
  unfold ackSplit
  by_cases hc : s.mTransmitCommitted < s.mNextLogSeq
  · rw [if_pos hc]
    by_cases ha : (l.all fun p => decide ((s.mem p).logseq ≤ s.mTransmitCommitted)) = true
    · rw [if_pos ha]
      exact ⟨rfl, fun _ => ⟨fun p hp => absurd hp (List.not_mem_nil p), fun h => absurd rfl h,
        fun _ => rfl⟩, fun h => absurd hc h⟩
    · rw [if_neg ha]
      refine ⟨List.takeWhile_append_dropWhile _ l, fun _ => ⟨?_, ?_, ?_⟩, fun h => absurd hc h⟩
      · intro p hp
        have := List.mem_takeWhile_imp hp
        exact of_decide_eq_true this
      · intro _
        have hne : l.dropWhile (fun p => decide ((s.mem p).logseq ≤ s.mTransmitCommitted)) ≠
            [] := by
          intro h
          rw [List.dropWhile_eq_nil_iff] at h
          exact ha (List.all_eq_true.mpr h)
        cases hd : l.dropWhile (fun p => decide ((s.mem p).logseq ≤ s.mTransmitCommitted)) with
        | nil => exact absurd hd hne
        | cons q qs =>
          refine ⟨q, rfl, ?_⟩
          have h1 := List.head_dropWhile_not
            (fun p => decide ((s.mem p).logseq ≤ s.mTransmitCommitted)) l hne
          have h2 : (l.dropWhile
              (fun p => decide ((s.mem p).logseq ≤ s.mTransmitCommitted))).head hne = q := by
            simp only [hd, List.head_cons]
          rw [h2] at h1
          exact not_le.mp (of_decide_eq_false h1)
      · intro hall
        refine absurd (List.all_eq_true.mpr ?_) ha
        intro x hx
        exact decide_eq_true (hall x hx)
  · rw [if_neg hc]
    exact ⟨List.append_nil l, fun h => absurd h hc, fun _ => ⟨rfl, rfl⟩⟩

set_option maxRecDepth 4000 in
/-- C31 (the code departs from the claim): `ProcessPendingAckQueue` with
`mTransmitCommitted = -1` below `mNextLogSeq = 10`, an empty pending-ack queue
and the just-written requests 1, 2, 3, none of them logged (`logseq = -1`):
every request of the merged list has `logseq <= mTransmitCommitted`, so that
the longest such initial part is the whole list, yet the loop, which cuts the
list only in front of a request with `mTransmitCommitted < logseq`, finds no
such request: nothing is moved to `mOutQueue` and the three requests stay in
the pending-ack queue. -/
theorem ProcessPendingAckQueue_prefix_counterexample :
    stateWrite.mTransmitCommitted < stateWrite.mNextLogSeq ∧
      stateWrite.mPendingAckQueue = Queue.empty ∧ stateWrite.mOutQueue = Queue.empty ∧
      (⟨some 1, some 3⟩ : Queue).Holds stateWrite.mem [1, 2, 3] ∧
      (∀ p ∈ [1, 2, 3], (stateWrite.mem p).logseq ≤ stateWrite.mTransmitCommitted) ∧
      ∃ d s', ProcessPendingAckQueue 5 ⟨some 1, some 3⟩ stateWrite = Res.ok d s' ∧
        s'.mOutQueue.Front = none ∧ s'.mPendingAckQueue = ⟨some 1, some 3⟩ ∧
        isChain s'.mem (some 1) [1, 2, 3] = true := by
  refine ⟨by decide, rfl, rfl, ⟨by decide, rfl, by decide⟩, by decide, ?_⟩
  exact ProcessPendingAckQueue_total 5 ⟨some 1, some 3⟩ [1, 2, 3] stateWrite _ (by decide)
    (by decide) ⟨by decide, by decide, by decide⟩

/-- What `ProcessPendingAckQueue` does when it is called with well formed queues
(the pending-ack queue holding `lp`, the just-written queue `ld`, `mOutQueue`
`lo`, no request twice), returns; afterwards `mOutQueue` links `lo` followed by
the requests moved, and the pending-ack queue links the requests that stay,
both parts in the order of the merged list `lp ++ ld`, and no log sequence is
changed.  With `mTransmitCommitted < mNextLogSeq` the requests moved are those
before the first request with `mTransmitCommitted < logseq`, and none when the
merged list has no such request; with `mTransmitCommitted >= mNextLogSeq` the
whole merged list is moved and none stays. -/
theorem ProcessPendingAckQueue_split (fuel : Nat) (inDoneQueue : Queue) (lp ld lo : List Nat)
    (s : Impl) (hfuel : (lp ++ ld).length < fuel)
    (hP : s.mPendingAckQueue.Holds s.mem lp) (hD : inDoneQueue.Holds s.mem ld)
    (hO : s.mOutQueue.Holds s.mem lo) (hd1 : lp.Disjoint ld) (hd2 : lo.Disjoint (lp ++ ld)) :
    ∃ d s' moved rest, ProcessPendingAckQueue fuel inDoneQueue s = Res.ok d s' ∧
      moved ++ rest = lp ++ ld ∧
      isChain s'.mem s'.mOutQueue.Front (lo ++ moved) = true ∧
      isChain s'.mem s'.mPendingAckQueue.Front rest = true ∧
      (∀ p, (s'.mem p).logseq = (s.mem p).logseq) ∧
      (s.mTransmitCommitted < s.mNextLogSeq →
        (∀ p ∈ moved, (s.mem p).logseq ≤ s.mTransmitCommitted) ∧
        (moved ≠ [] → ∃ q, rest.head? = some q ∧ s.mTransmitCommitted < (s.mem q).logseq) ∧
        ((∀ p ∈ lp ++ ld, (s.mem p).logseq ≤ s.mTransmitCommitted) → moved = [])) ∧
      (¬ s.mTransmitCommitted < s.mNextLogSeq → moved = lp ++ ld ∧ rest = []) := by
  have hch := isChain_pushBackQueue s.mPendingAckQueue inDoneQueue s.mem lp ld hP hD.1 hd1
  have key : M.total (ProcessPendingAckQueue fuel inDoneQueue) s (fun _ s' =>
      isChain s'.mem s'.mOutQueue.Front (lo ++ (ackSplit s (lp ++ ld)).1) = true ∧
      isChain s'.mem s'.mPendingAckQueue.Front (ackSplit s (lp ++ ld)).2 = true ∧
      (∀ p, (s'.mem p).logseq = (s.mem p).logseq)) := by
    refine ProcessPendingAckQueue_total fuel inDoneQueue (lp ++ ld) s _ hfuel hch ?_
    obtain ⟨h1, h2⟩ := ackRun_split s inDoneQueue lp ld lo hP hD hO hd1 hd2
    refine ⟨h1, h2, ?_⟩
    obtain ⟨w, q, m, o, mw, ha, hm⟩ := ackRun_shape s inDoneQueue (lp ++ ld)
    intro p
    rw [ha]
    exact hm.logseq_eq p
  obtain ⟨d, s', h, h1, h2, h3⟩ := key
  obtain ⟨k1, k2, k3⟩ := ackSplit_spec s (lp ++ ld)
  exact ⟨d, s', _, _, h, k1, h1, h2, h3, k2, k3⟩

theorem ProcessPendingAckQueue_split_witness :
    ∃ d s' moved rest, ProcessPendingAckQueue 5 ⟨some 1, some 3⟩ stateAck = Res.ok d s' ∧
      moved ++ rest = [] ++ [1, 2, 3] ∧
      isChain s'.mem s'.mOutQueue.Front ([] ++ moved) = true ∧
      isChain s'.mem s'.mPendingAckQueue.Front rest = true ∧
      (∀ p, (s'.mem p).logseq = (stateAck.mem p).logseq) ∧
      (stateAck.mTransmitCommitted < stateAck.mNextLogSeq →
        (∀ p ∈ moved, (stateAck.mem p).logseq ≤ stateAck.mTransmitCommitted) ∧
        (moved ≠ [] →
          ∃ q, rest.head? = some q ∧ stateAck.mTransmitCommitted < (stateAck.mem q).logseq) ∧
        ((∀ p ∈ [] ++ [1, 2, 3], (stateAck.mem p).logseq ≤ stateAck.mTransmitCommitted) →
          moved = [])) ∧
      (¬ stateAck.mTransmitCommitted < stateAck.mNextLogSeq →
        moved = [] ++ [1, 2, 3] ∧ rest = []) :=
  ProcessPendingAckQueue_split 5 ⟨some 1, some 3⟩ [] [1, 2, 3] [] stateAck (by decide)
    ⟨rfl, rfl, List.nodup_nil⟩ ⟨by decide, rfl, by decide⟩ ⟨rfl, rfl, List.nodup_nil⟩
    (by simp) (by simp)

section NoPanics

variable {α β : Type} {msg : String}

theorem NoPanic.of_pure (a : α) : NoPanic msg (Pure.pure a : M α) := by
  intro s s' h
  cases h

theorem NoPanic.bind_at {m : M α} {g : α → M β} {s : Impl}
    (hm : ∀ s', m s ≠ Res.panic msg s')
    (hg : ∀ a s1, m s = Res.ok a s1 → ∀ s', g a s1 ≠ Res.panic msg s') :
    ∀ s', (m >>= g) s ≠ Res.panic msg s' := by
  intro s' h
  change (match m s with
    | Res.ok a s1 => g a s1
    | Res.panic msg s1 => Res.panic msg s1
    | Res.timeout => Res.timeout) = _ at h
  cases hms : m s with
  | ok a s1 =>
    rw [hms] at h
    exact hg a s1 hms s' h
  | panic msg1 s1 =>
    rw [hms] at h
    have h2 : (Res.panic msg1 s1 : Res β) = Res.panic msg s' := h
    cases h2
    exact hm _ hms
  | timeout =>
    rw [hms] at h
    cases h

theorem NoPanic.of_bind {m : M α} {g : α → M β} (hm : NoPanic msg m)
    (hg : ∀ a, NoPanic msg (g a)) : NoPanic msg (m >>= g) :=
  fun s => NoPanic.bind_at (hm s) (fun a s1 _ => hg a s1)

theorem NoPanic.of_get : NoPanic msg M.get := by
  intro s s' h
  cases h

theorem NoPanic.of_modify {g : Impl → Impl} : NoPanic msg (M.modify g) := by
  intro s s' h
  cases h

theorem NoPanic.of_panic {msg1 : String} (h : msg1 ≠ msg) : NoPanic msg (M.panic msg1 : M α) := by
  intro s s' he
  cases he
  exact h rfl

theorem NoPanic.of_timeout : NoPanic msg (M.timeout : M α) := by
  intro s s' h
  cases h

theorem NoPanic.of_ite (c : Prop) [Decidable c] {a b : M α} (ha : NoPanic msg a)
    (hb : NoPanic msg b) : NoPanic msg (if c then a else b) := by
  split
  · exact ha
  · exact hb

theorem NoPanic.guard_at {c : Prop} [Decidable c] {msg1 : String} {k : PUnit → M β} {s : Impl}
    (hne : msg1 ≠ msg) (hk : ¬ c → ∀ s', k PUnit.unit s ≠ Res.panic msg s') :
    ∀ s', (if c then (M.panic msg1 >>= k) else k PUnit.unit) s ≠ Res.panic msg s' := by
  by_cases hc : c
  · rw [if_pos hc]
    intro s' h
    have h2 : (Res.panic msg1 s : Res β) = Res.panic msg s' := h
    cases h2
    exact hne rfl
  · rw [if_neg hc]
    exact hk hc

theorem NoPanic.of_nextTick : NoPanic msg nextTick := by
  intro s s' h
  cases h

end NoPanics

theorem IoError_noPanic (e : Int) : NoPanic wbPanic (IoError e) := by
  unfold IoError
  repeat' first
    | with_reducible apply NoPanic.of_bind | with_reducible apply NoPanic.of_pure
    | with_reducible apply NoPanic.of_get | with_reducible apply NoPanic.of_panic
    | with_reducible apply NoPanic.of_timeout | with_reducible apply NoPanic.of_ite
    | with_reducible apply NoPanic.of_nextTick | with_reducible apply NoPanic.of_modify
    | decide | with_reducible intro _ | split | dsimp only

theorem IsLogStreamGood_noPanic : NoPanic wbPanic IsLogStreamGood := by
  unfold IsLogStreamGood
  repeat' first
    | with_reducible apply IoError_noPanic
    | with_reducible apply NoPanic.of_bind | with_reducible apply NoPanic.of_pure
    | with_reducible apply NoPanic.of_get | with_reducible apply NoPanic.of_panic
    | with_reducible apply NoPanic.of_timeout | with_reducible apply NoPanic.of_ite
    | with_reducible apply NoPanic.of_nextTick | with_reducible apply NoPanic.of_modify
    | decide | with_reducible intro _ | split | dsimp only

theorem Sync_noPanic (env : Env) : NoPanic wbPanic (Sync env) := by
  unfold Sync
  repeat' first
    | with_reducible apply IoError_noPanic
    | with_reducible apply NoPanic.of_bind | with_reducible apply NoPanic.of_pure
    | with_reducible apply NoPanic.of_get | with_reducible apply NoPanic.of_panic
    | with_reducible apply NoPanic.of_timeout | with_reducible apply NoPanic.of_ite
    | with_reducible apply NoPanic.of_nextTick | with_reducible apply NoPanic.of_modify
    | decide | with_reducible intro _ | split | dsimp only

theorem Close_noPanic (env : Env) : NoPanic wbPanic (Close env) := by
  unfold Close
  repeat' first
    | with_reducible apply IoError_noPanic
    | with_reducible apply NoPanic.of_bind | with_reducible apply NoPanic.of_pure
    | with_reducible apply NoPanic.of_get | with_reducible apply NoPanic.of_panic
    | with_reducible apply NoPanic.of_timeout | with_reducible apply NoPanic.of_ite
    | with_reducible apply NoPanic.of_nextTick | with_reducible apply NoPanic.of_modify
    | decide | with_reducible intro _ | split | dsimp only

theorem sysWrite_noPanic (env : Env) (b : Bytes) (n : Nat) : NoPanic wbPanic (sysWrite env b n) := by
  unfold sysWrite
  repeat' first
    | with_reducible apply NoPanic.of_bind | with_reducible apply NoPanic.of_pure
    | with_reducible apply NoPanic.of_get | with_reducible apply NoPanic.of_panic
    | with_reducible apply NoPanic.of_timeout | with_reducible apply NoPanic.of_ite
    | with_reducible apply NoPanic.of_nextTick | with_reducible apply NoPanic.of_modify
    | decide | with_reducible intro _ | split | dsimp only

theorem writeLoop_noPanic (env : Env) (n : Nat) :
    ∀ (b : Bytes) (pos : Nat) (w e : Int), NoPanic wbPanic (writeLoop env n b pos w e) := by
  induction n with
  | zero =>
    intro b pos w e
    exact NoPanic.of_timeout
  | succ n ih =>
    intro b pos w e
    unfold writeLoop
    repeat' first
      | with_reducible apply ih
      | with_reducible apply sysWrite_noPanic
      | with_reducible apply NoPanic.of_bind | with_reducible apply NoPanic.of_pure
      | with_reducible apply NoPanic.of_get | with_reducible apply NoPanic.of_panic
      | with_reducible apply NoPanic.of_timeout | with_reducible apply NoPanic.of_ite
      | with_reducible apply NoPanic.of_nextTick | with_reducible apply NoPanic.of_modify
      | decide | with_reducible intro _ | split | dsimp only

theorem write_noPanic (env : Env) (fuel : Nat) (b : Bytes) : NoPanic wbPanic (write env fuel b) := by
  unfold write
  repeat' first
    | with_reducible apply IoError_noPanic
    | with_reducible apply IsLogStreamGood_noPanic
    | with_reducible apply writeLoop_noPanic
    | with_reducible apply NoPanic.of_bind | with_reducible apply NoPanic.of_pure
    | with_reducible apply NoPanic.of_get | with_reducible apply NoPanic.of_panic
    | with_reducible apply NoPanic.of_timeout | with_reducible apply NoPanic.of_ite
    | with_reducible apply NoPanic.of_nextTick | with_reducible apply NoPanic.of_modify
    | decide | with_reducible intro _ | split | dsimp only

theorem mdSyncSelf_noPanic (env : Env) (fuel : Nat) : NoPanic wbPanic (mdSyncSelf env fuel) := by
  unfold mdSyncSelf
  repeat' first
    | with_reducible apply write_noPanic
    | with_reducible apply NoPanic.of_bind | with_reducible apply NoPanic.of_pure
    | with_reducible apply NoPanic.of_get | with_reducible apply NoPanic.of_panic
    | with_reducible apply NoPanic.of_timeout | with_reducible apply NoPanic.of_ite
    | with_reducible apply NoPanic.of_nextTick | with_reducible apply NoPanic.of_modify
    | decide | with_reducible intro _ | split | dsimp only

theorem mdWrite_noPanic (env : Env) (fuel : Nat) (b : Bytes) : NoPanic wbPanic (mdWrite env fuel b) := by
  unfold mdWrite
  repeat' first
    | with_reducible apply mdSyncSelf_noPanic
    | with_reducible apply NoPanic.of_bind | with_reducible apply NoPanic.of_pure
    | with_reducible apply NoPanic.of_get | with_reducible apply NoPanic.of_panic
    | with_reducible apply NoPanic.of_timeout | with_reducible apply NoPanic.of_ite
    | with_reducible apply NoPanic.of_nextTick | with_reducible apply NoPanic.of_modify
    | decide | with_reducible intro _ | split | dsimp only

theorem mdFlush_noPanic (env : Env) (fuel : Nat) : NoPanic wbPanic (mdFlush env fuel) := by
  unfold mdFlush flush
  repeat' first
    | with_reducible apply mdSyncSelf_noPanic
    | with_reducible apply IsLogStreamGood_noPanic
    | with_reducible apply NoPanic.of_bind | with_reducible apply NoPanic.of_pure
    | with_reducible apply NoPanic.of_get | with_reducible apply NoPanic.of_panic
    | with_reducible apply NoPanic.of_timeout | with_reducible apply NoPanic.of_ite
    | with_reducible apply NoPanic.of_nextTick | with_reducible apply NoPanic.of_modify
    | decide | with_reducible intro _ | split | dsimp only

theorem StartBlock_noPanic (c : Nat) : NoPanic wbPanic (StartBlock c) := by
  unfold StartBlock mdSetSync
  repeat' first
    | with_reducible apply NoPanic.of_bind | with_reducible apply NoPanic.of_pure
    | with_reducible apply NoPanic.of_get | with_reducible apply NoPanic.of_panic
    | with_reducible apply NoPanic.of_timeout | with_reducible apply NoPanic.of_ite
    | with_reducible apply NoPanic.of_nextTick | with_reducible apply NoPanic.of_modify
    | decide | with_reducible intro _ | split | dsimp only

theorem FlushBlock_noPanic (env : Env) (fuel : Nat) (inLogSeq : Int) : NoPanic wbPanic (FlushBlock env fuel inLogSeq) := by
  unfold FlushBlock mdSetSync
  repeat' first
    | with_reducible apply mdWrite_noPanic
    | with_reducible apply mdFlush_noPanic
    | with_reducible apply Sync_noPanic
    | with_reducible apply StartBlock_noPanic
    | with_reducible apply NoPanic.of_bind | with_reducible apply NoPanic.of_pure
    | with_reducible apply NoPanic.of_get | with_reducible apply NoPanic.of_panic
    | with_reducible apply NoPanic.of_timeout | with_reducible apply NoPanic.of_ite
    | with_reducible apply NoPanic.of_nextTick | with_reducible apply NoPanic.of_modify
    | decide | with_reducible intro _ | split | dsimp only

theorem NewLog_noPanic (env : Env) (fuel : Nat) (inLogSeq : Int) : NoPanic wbPanic (NewLog env fuel inLogSeq) := by
  unfold NewLog microseconds DisplayIsoDateTime SetLogName mdReset mdClear mdSetHex mdSetSync
  repeat' first
    | with_reducible apply Close_noPanic
    | with_reducible apply IoError_noPanic
    | with_reducible apply IsLogStreamGood_noPanic
    | with_reducible apply mdWrite_noPanic
    | with_reducible apply FlushBlock_noPanic
    | with_reducible apply StartBlock_noPanic
    | with_reducible apply NoPanic.of_bind | with_reducible apply NoPanic.of_pure
    | with_reducible apply NoPanic.of_get | with_reducible apply NoPanic.of_panic
    | with_reducible apply NoPanic.of_timeout | with_reducible apply NoPanic.of_ite
    | with_reducible apply NoPanic.of_nextTick | with_reducible apply NoPanic.of_modify
    | decide | with_reducible intro _ | split | dsimp only

theorem CloseLog_noPanic (env : Env) (fuel : Nat) : NoPanic wbPanic (CloseLog env fuel) := by
  unfold CloseLog DisplayIsoDateTime mdSetSync
  repeat' first
    | with_reducible apply Close_noPanic
    | with_reducible apply IoError_noPanic
    | with_reducible apply IsLogStreamGood_noPanic
    | with_reducible apply mdWrite_noPanic
    | with_reducible apply mdFlush_noPanic
    | with_reducible apply FlushBlock_noPanic
    | with_reducible apply Sync_noPanic
    | with_reducible apply NoPanic.of_bind | with_reducible apply NoPanic.of_pure
    | with_reducible apply NoPanic.of_get | with_reducible apply NoPanic.of_panic
    | with_reducible apply NoPanic.of_timeout | with_reducible apply NoPanic.of_ite
    | with_reducible apply NoPanic.of_nextTick | with_reducible apply NoPanic.of_modify
    | decide | with_reducible intro _ | split | dsimp only

theorem StartNextLog_noPanic (env : Env) (fuel : Nat) : NoPanic wbPanic (StartNextLog env fuel) := by
  unfold StartNextLog
  repeat' first
    | with_reducible apply CloseLog_noPanic
    | with_reducible apply NewLog_noPanic
    | with_reducible apply NoPanic.of_bind | with_reducible apply NoPanic.of_pure
    | with_reducible apply NoPanic.of_get | with_reducible apply NoPanic.of_panic
    | with_reducible apply NoPanic.of_timeout | with_reducible apply NoPanic.of_ite
    | with_reducible apply NoPanic.of_nextTick | with_reducible apply NoPanic.of_modify
    | decide | with_reducible intro _ | split | dsimp only

theorem SetParameters_noPanic (env : Env) (pre : Option String) (props : Properties) : NoPanic wbPanic (SetParameters env pre props) := by
  unfold SetParameters
  repeat' first
    | with_reducible apply NoPanic.of_bind | with_reducible apply NoPanic.of_pure
    | with_reducible apply NoPanic.of_get | with_reducible apply NoPanic.of_panic
    | with_reducible apply NoPanic.of_timeout | with_reducible apply NoPanic.of_ite
    | with_reducible apply NoPanic.of_nextTick | with_reducible apply NoPanic.of_modify
    | decide | with_reducible intro _ | split | dsimp only

theorem Control_noPanic (env : Env) (fuel : Nat) (p : Nat) : NoPanic wbPanic (Control env fuel p) := by
  unfold Control
  repeat' first
    | with_reducible apply SetParameters_noPanic
    | with_reducible apply StartNextLog_noPanic
    | with_reducible apply IsLogStreamGood_noPanic
    | with_reducible apply NoPanic.of_bind | with_reducible apply NoPanic.of_pure
    | with_reducible apply NoPanic.of_get | with_reducible apply NoPanic.of_panic
    | with_reducible apply NoPanic.of_timeout | with_reducible apply NoPanic.of_ite
    | with_reducible apply NoPanic.of_nextTick | with_reducible apply NoPanic.of_modify
    | decide | with_reducible intro _ | split | dsimp only

theorem IsSimulateFailure_noPanic (env : Env) : NoPanic wbPanic (IsSimulateFailure env) := by
  unfold IsSimulateFailure
  repeat' first
    | with_reducible apply NoPanic.of_bind | with_reducible apply NoPanic.of_pure
    | with_reducible apply NoPanic.of_get | with_reducible apply NoPanic.of_panic
    | with_reducible apply NoPanic.of_timeout | with_reducible apply NoPanic.of_ite
    | with_reducible apply NoPanic.of_nextTick | with_reducible apply NoPanic.of_modify
    | decide | with_reducible intro _ | split | dsimp only

theorem LogError_noPanic (env : Env) (p : Nat) : NoPanic wbPanic (LogError env p) := by
  unfold LogError
  repeat' first
    | with_reducible apply NoPanic.of_bind | with_reducible apply NoPanic.of_pure
    | with_reducible apply NoPanic.of_get | with_reducible apply NoPanic.of_panic
    | with_reducible apply NoPanic.of_timeout | with_reducible apply NoPanic.of_ite
    | with_reducible apply NoPanic.of_nextTick | with_reducible apply NoPanic.of_modify
    | decide | with_reducible intro _ | split | dsimp only

theorem WriteInner_noPanic (env : Env) (fuel : Nat) (n : Nat) :
    ∀ (head : Option Nat) (eb : Int) (sim up : Bool),
      NoPanic wbPanic (WriteInner env fuel n head eb sim up) := by
  induction n with
  | zero =>
    intro head eb sim up
    exact NoPanic.of_timeout
  | succ n ih =>
    intro head eb sim up
    cases head with
    | none => exact NoPanic.of_pure _
    | some p =>
      unfold WriteInner
      repeat' first
        | with_reducible apply ih
        | with_reducible apply Control_noPanic
        | with_reducible apply mdWrite_noPanic
        | with_reducible apply LogError_noPanic
        | with_reducible apply NoPanic.of_bind | with_reducible apply NoPanic.of_pure
        | with_reducible apply NoPanic.of_get | with_reducible apply NoPanic.of_panic
        | with_reducible apply NoPanic.of_timeout | with_reducible apply NoPanic.of_ite
        | with_reducible apply NoPanic.of_nextTick | with_reducible apply NoPanic.of_modify
        | decide | with_reducible intro _ | split | dsimp only

theorem WriteFailed_noPanic (env : Env) (n : Nat) :
    ∀ (ptr endPtr : Option Nat), NoPanic wbPanic (WriteFailed env n ptr endPtr) := by
  induction n with
  | zero =>
    intro ptr endPtr
    exact NoPanic.of_timeout
  | succ n ih =>
    intro ptr endPtr
    unfold WriteFailed
    repeat' first
      | with_reducible apply ih
      | with_reducible apply LogError_noPanic
      | with_reducible apply NoPanic.of_bind | with_reducible apply NoPanic.of_pure
      | with_reducible apply NoPanic.of_get | with_reducible apply NoPanic.of_panic
      | with_reducible apply NoPanic.of_timeout | with_reducible apply NoPanic.of_ite
      | with_reducible apply NoPanic.of_nextTick | with_reducible apply NoPanic.of_modify
      | decide | with_reducible intro _ | split | dsimp only


theorem WriteBlock_noPanic (env : Env) (fuel : Nat) (p : Nat) (s : Impl)
    (h : s.mLastLogSeq = s.mNextLogSeq) :
    ∀ s', WriteBlock env fuel p s ≠ Res.panic wbPanic s' := by
  unfold WriteBlock
  refine NoPanic.bind_at (NoPanic.of_get s) ?_
  intro a s1 h1
  have ha : a = s := by
    cases h1
    rfl
  have h' : a.mLastLogSeq = a.mNextLogSeq := by
    rw [ha]
    exact h
  refine NoPanic.guard_at (by decide) ?_
  intro _
  refine NoPanic.guard_at (by decide) ?_
  intro _
  rw [if_neg (not_not.mpr h')]
  dsimp only
  suffices hr : NoPanic wbPanic _ from hr s1
  unfold mdSetSync mdClearBuffer
  repeat' first
    | with_reducible apply IsLogStreamGood_noPanic
    | with_reducible apply mdWrite_noPanic
    | with_reducible apply mdFlush_noPanic
    | with_reducible apply Sync_noPanic
    | with_reducible apply StartBlock_noPanic
    | with_reducible apply NoPanic.of_bind | with_reducible apply NoPanic.of_pure
    | with_reducible apply NoPanic.of_get | with_reducible apply NoPanic.of_panic
    | with_reducible apply NoPanic.of_timeout | with_reducible apply NoPanic.of_ite
    | with_reducible apply NoPanic.of_nextTick | with_reducible apply NoPanic.of_modify
    | decide | with_reducible intro _ | split | dsimp only

theorem LogError_seqs (env : Env) (p : Nat) :
    Frame (fun s : Impl => (s.mLastLogSeq, s.mNextLogSeq)) (LogError env p) :=
  Frame.ofModify (fun _ => rfl)

theorem WriteFailed_seqs (env : Env) (n : Nat) :
    ∀ (ptr endPtr : Option Nat),
      Frame (fun s : Impl => (s.mLastLogSeq, s.mNextLogSeq)) (WriteFailed env n ptr endPtr) := by
  induction n with
  | zero =>
    intro ptr endPtr
    exact Frame.timeout
  | succ n ih =>
    intro ptr endPtr
    unfold WriteFailed
    repeat' first
      | with_reducible apply ih
      | with_reducible apply LogError_seqs
      | with_reducible apply Frame.bind | with_reducible apply Frame.pure
      | with_reducible apply Frame.get | with_reducible apply Frame.panic
      | with_reducible apply Frame.timeout | with_reducible apply Frame.ite
      | rfl | with_reducible intro _ | split | dsimp only

theorem WriteBatches_noPanic (env : Env) (fuel : Nat) (n : Nat) :
    ∀ (head : Option Nat), NoPanic wbPanic (WriteBatches env fuel n head) := by
  induction n with
  | zero =>
    intro head
    exact NoPanic.of_timeout
  | succ n ih =>
    intro head
    cases head with
    | none => exact NoPanic.of_pure _
    | some p =>
      intro s
      unfold WriteBatches
      refine NoPanic.bind_at (NoPanic.of_modify s) ?_
      intro _ s1 _
      refine NoPanic.bind_at (NoPanic.of_get s1) ?_
      intro a1 s2 _
      dsimp only
      refine NoPanic.bind_at (IsSimulateFailure_noPanic env s2) ?_
      intro sim s3 _
      refine NoPanic.bind_at (WriteInner_noPanic env fuel fuel _ _ _ _ s3) ?_
      intro r s4 hW
      clear hW
      obtain ⟨r1, r2⟩ := r
      refine NoPanic.bind_at (NoPanic.of_get s4) ?_
      intro a2 s5 _
      dsimp only
      have hjp : ∀ (t0 : Impl) (s' : Impl),
          (do
            let good ← IsLogStreamGood
            if (good && !sim && a1.mTransmitterUpFlag) = true then
              M.modify fun s => { s with mNextLogSeq := s.mLastLogSeq }
            else
              M.modify fun s => { s with mLastLogSeq := s.mNextLogSeq }
              WriteFailed env fuel (some p)
                (match r1 with
                | some p => (a2.mem p).next
                | none => none)
            match r2 with
            | some c =>
              let s ← M.get
              if (s.mem c).type = ControlType.kWriteBlock then
                WriteBlock env fuel c
            | none => pure ()
            WriteBatches env fuel n
              (match r1 with
              | some p => (a2.mem p).next
              | none => none)) t0 ≠ Res.panic wbPanic s' := by
        intro t0
        dsimp only
        refine NoPanic.bind_at (IsLogStreamGood_noPanic t0) ?_
        intro good2 t1 _
        split
        · refine NoPanic.bind_at (NoPanic.of_modify t1) ?_
          intro _ t2 ht2
          have heq : t2.mLastLogSeq = t2.mNextLogSeq := by
            cases ht2
            rfl
          cases r2 with
          | some c =>
            refine NoPanic.bind_at (NoPanic.of_get _) ?_
            intro a3 t4 h4
            have e4 : t4.mLastLogSeq = t4.mNextLogSeq := by
              cases h4
              exact heq
            split
            · refine NoPanic.bind_at (WriteBlock_noPanic env fuel _ t4 e4) ?_
              intro _ t5 _
              exact ih _ t5
            · refine NoPanic.bind_at (NoPanic.of_pure _ t4) ?_
              intro _ t5 _
              exact ih _ t5
          | none =>
            refine NoPanic.bind_at (NoPanic.of_pure _ _) ?_
            intro _ t5 _
            exact ih _ t5
        · refine NoPanic.bind_at (NoPanic.of_modify t1) ?_
          intro _ t2 ht2
          refine NoPanic.bind_at (WriteFailed_noPanic env fuel _ _ t2) ?_
          intro _ t3 ht3
          have heq : t3.mLastLogSeq = t3.mNextLogSeq := by
            have h1 := WriteFailed_seqs env fuel _ _ t2 _ t3 ht3
            have h2 : t3.mLastLogSeq = t2.mLastLogSeq := congrArg Prod.fst h1
            have h3 : t3.mNextLogSeq = t2.mNextLogSeq := congrArg Prod.snd h1
            rw [h2, h3]
            cases ht2
            rfl
          cases r2 with
          | some c =>
            refine NoPanic.bind_at (NoPanic.of_get _) ?_
            intro a3 t4 h4
            have e4 : t4.mLastLogSeq = t4.mNextLogSeq := by
              cases h4
              exact heq
            split
            · refine NoPanic.bind_at (WriteBlock_noPanic env fuel _ t4 e4) ?_
              intro _ t5 _
              exact ih _ t5
            · refine NoPanic.bind_at (NoPanic.of_pure _ t4) ?_
              intro _ t5 _
              exact ih _ t5
          | none =>
            refine NoPanic.bind_at (NoPanic.of_pure _ _) ?_
            intro _ t5 _
            exact ih _ t5
      split
      · refine NoPanic.bind_at (IsLogStreamGood_noPanic s5) ?_
        intro good s6 _
        split
        · refine NoPanic.bind_at (FlushBlock_noPanic env fuel _ s6) ?_
          intro _ s7 _
          exact hjp s7
        · refine NoPanic.bind_at (NoPanic.of_pure _ s6) ?_
          intro _ s7 _
          exact hjp s7
      · refine NoPanic.bind_at (NoPanic.of_pure _ s5) ?_
        intro _ s7 _
        exact hjp s7

theorem Write_noPanic (env : Env) (fuel : Nat) (head : Nat) :
    NoPanic wbPanic (Write env fuel head) := by
  unfold Write microseconds mdSetSync
  repeat' first
    | with_reducible apply IsLogStreamGood_noPanic
    | with_reducible apply StartNextLog_noPanic
    | with_reducible apply NewLog_noPanic
    | with_reducible apply WriteBatches_noPanic
    | with_reducible apply NoPanic.of_bind | with_reducible apply NoPanic.of_pure
    | with_reducible apply NoPanic.of_get | with_reducible apply NoPanic.of_panic
    | with_reducible apply NoPanic.of_timeout | with_reducible apply NoPanic.of_ite
    | with_reducible apply NoPanic.of_nextTick | with_reducible apply NoPanic.of_modify
    | decide | with_reducible intro _ | split | dsimp only

/-- C38: `Write` never ends in the panic "invalid write block invocation", for
every queue, state and outcome of the outside calls.  `WriteBlock`, for a
request with block data and lines, raises that panic exactly when it is
entered with `mLastLogSeq != mNextLogSeq`; and the step of `Write` that comes
before the call of `WriteBlock` (commit the batch, or reset `mLastLogSeq` and
fail the requests of the batch) always ends with `mLastLogSeq = mNextLogSeq`. -/
theorem Write_never_invalid_block_invocation (env : Env) (fuel : Nat) :
    (∀ (head : Nat) (s s' : Impl),
      Write env fuel head s ≠ Res.panic "invalid write block invocation" s') ∧
    (∀ (p : Nat) (s : Impl), (s.mem p).blockData ≠ [] → (s.mem p).blockLines ≠ [] →
      (s.mLastLogSeq ≠ s.mNextLogSeq ↔
        WriteBlock env fuel p s = Res.panic "invalid write block invocation" s)) ∧
    (∀ (commit : Bool) (cur endPtr : Option Nat) (s : Impl) (a : Unit) (s' : Impl),
      (if commit = true then M.modify fun s => { s with mNextLogSeq := s.mLastLogSeq }
        else do
          M.modify fun s => { s with mLastLogSeq := s.mNextLogSeq }
          WriteFailed env fuel cur endPtr) s = Res.ok a s' →
      s'.mLastLogSeq = s'.mNextLogSeq) := by
  refine ⟨fun head s s' => Write_noPanic env fuel head s s', ?_, ?_⟩
  · intro p s hd hl
    have h1 : ¬ ((s.mem p).blockData.length ≤ 0) := by
      have := List.length_pos.mpr hd
      omega
    have h2 : (s.mem p).blockLines.isEmpty = false := by
      cases hb : (s.mem p).blockLines with
      | nil => exact absurd hb hl
      | cons a l => rfl
    constructor
    · intro hne
      unfold WriteBlock
      simp only [M.bind_run, M.get_run, h1, h2, if_false, Bool.false_eq_true, M.pure_run,
        if_pos hne, M.panic_run]
    · intro hp hne
      exact WriteBlock_noPanic env fuel p s hne s hp
  · intro commit cur endPtr s a s' h
    by_cases hc : commit = true
    · rw [if_pos hc] at h
      cases h
      rfl
    · rw [if_neg hc] at h
      have h2 : WriteFailed env fuel cur endPtr { s with mLastLogSeq := s.mNextLogSeq } =
          Res.ok a s' := h
      have h1 := WriteFailed_seqs env fuel cur endPtr _ _ s' h2
      have e1 : s'.mLastLogSeq = s.mNextLogSeq := congrArg Prod.fst h1
      have e2 : s'.mNextLogSeq = s.mNextLogSeq := congrArg Prod.snd h1
      rw [e1, e2]

theorem writeLoop_ok_at (env : Env) (k : Nat) (buf : Bytes) (s : Impl)
    (hw : env.sysWrite s.tick buf.length = buf.length) (hb : buf ≠ []) :
    writeLoop env (k + 2) buf 0 0 0 s =
      Res.ok ((buf.length : Int), env.errno s.tick)
        (appendToFd { s with tick := s.tick + 1 } s.mLogFd buf) := by
  have hlen : 0 < buf.length := List.length_pos.mpr hb
  simp [writeLoop, sysWrite, nextTick, hlen, hw, appendToFd]

theorem writeLoop_fail_at (env : Env) (k : Nat) (buf : Bytes) (s : Impl)
    (hw : env.sysWrite s.tick buf.length = -1) (hb : buf ≠ []) :
    writeLoop env (k + 1) buf 0 0 0 s =
      Res.ok (-1, env.errno s.tick) { s with tick := s.tick + 1 } := by
  have hlen : 0 < buf.length := List.length_pos.mpr hb
  simp [writeLoop, sysWrite, nextTick, hlen, hw]
  omega

theorem IsLogStreamGood_bad {s : Impl} (Q : Bool → Impl → Prop) (h : s.mError ≠ 0)
    (hq : Q false s) : M.total IsLogStreamGood s Q := by
  simp only [IsLogStreamGood, M.total_bind_iff, M.total_get_iff, Or.inl h, if_true,
    M.total_pure_iff]
  exact hq

theorem mdFlush_sync_total_at (env : Env) (k : Nat) {s : Impl}
    (Q : Unit → Impl → Prop) (hg : Good s) (hs : s.mMdStream.sync = true)
    (hb : s.mMdStream.buf ≠ []) (hw : s.mWriteState = WriteState.kWriteStateNone)
    (hio : env.sysWrite s.tick s.mMdStream.buf.length = s.mMdStream.buf.length)
    (hq : Q () { s with
      tick := s.tick + 1
      files := (appendToFd s s.mLogFd s.mMdStream.buf).files
      mMdStream := { s.mMdStream with buf := [] } }) :
    M.total (mdFlush env (k + 2)) s Q := by
  obtain ⟨he, hfd, hf⟩ := hg
  have hlen : 0 < s.mMdStream.buf.length := List.length_pos.mpr hb
  have hnn : ¬ ((s.mMdStream.buf.length : Int) < 0) := by omega
  have hemp : s.mMdStream.buf.isEmpty = false := by
    cases hbuf : s.mMdStream.buf with
    | nil => exact absurd hbuf hb
    | cons a l => rfl
  have hw' : ¬ (s.mWriteState = WriteState.kUpdateBlockChecksum) := by
    rw [hw]
    decide
  simp only [mdFlush, mdSyncSelf, write, flush, M.total_bind_iff, M.total_get_iff, hf, hs, hemp,
    Bool.false_eq_true, if_false, if_true, Bool.not_true, M.total_pure_iff, hw', hlen,
    M.total_modify_iff]
  refine IsLogStreamGood_total _ ⟨he, hfd, hf⟩ ?_
  simp only [if_true, M.total_bind_iff]
  refine M.total_of_eq (writeLoop_ok_at env k _ s hio hb) ?_
  simp only [hnn, if_false, M.total_pure_iff, M.total_bind_iff]
  rw [appendToFd_files]
  refine IsLogStreamGood_total _ ⟨he, hfd, hf⟩ ?_
  simp only [Bool.not_true, Bool.or_false]
  refine IsLogStreamGood_total _ ⟨he, hfd, hf⟩ ?_
  simp only [Bool.not_true, Bool.or_false]
  have e := appendToFd_files_congr s { s with tick := s.tick + 1 } s.mLogFd s.mMdStream.buf rfl rfl
  rw [e]
  exact hq

theorem mdFlush_sync_fails (env : Env) (k : Nat) {s : Impl}
    (Q : Unit → Impl → Prop) (hg : Good s) (hs : s.mMdStream.sync = true)
    (hb : s.mMdStream.buf ≠ []) (hw : s.mWriteState = WriteState.kWriteStateNone)
    (hio : env.sysWrite s.tick s.mMdStream.buf.length = -1) (herr : env.errno s.tick = kEIO)
    (hp : s.mPanicOnIoErrorFlag = false)
    (hq : Q () { s with
      tick := s.tick + 1
      mError := - kEIO
      mMdStream := { s.mMdStream with buf := [], fail := true } }) :
    M.total (mdFlush env (k + 1)) s Q := by
  obtain ⟨he, hfd, hf⟩ := hg
  have hlen : 0 < s.mMdStream.buf.length := List.length_pos.mpr hb
  have hemp : s.mMdStream.buf.isEmpty = false := by
    cases hbuf : s.mMdStream.buf with
    | nil => exact absurd hbuf hb
    | cons a l => rfl
  have hw' : ¬ (s.mWriteState = WriteState.kUpdateBlockChecksum) := by
    rw [hw]
    decide
  simp only [mdFlush, mdSyncSelf, write, flush, M.total_bind_iff, M.total_get_iff, hf, hs, hemp,
    Bool.false_eq_true, if_false, if_true, Bool.not_true, M.total_pure_iff, hw', hlen,
    M.total_modify_iff]
  refine IsLogStreamGood_total _ ⟨he, hfd, hf⟩ ?_
  simp only [if_true, M.total_bind_iff]
  refine M.total_of_eq (writeLoop_fail_at env k _ s hio hb) ?_
  have hp' : ¬ (s.mPanicOnIoErrorFlag = true) := by
    rw [hp]
    decide
  have h5 : (0 : Int) < kEIO := by decide
  simp only [M.total_bind_iff, IoError, M.total_modify_iff, M.total_get_iff, herr, h5, if_true,
    Int.reduceNeg, Int.reduceLT]
  rw [if_neg hp']
  simp only [M.total_pure_iff]
  refine IsLogStreamGood_bad _ ?_ ?_
  · show (- kEIO : Int) ≠ 0
    decide
  simp only [Bool.not_false, Bool.or_true]
  refine IsLogStreamGood_bad _ ?_ ?_
  · show (- kEIO : Int) ≠ 0
    decide
  simp only [Bool.not_false, Bool.or_true]
  exact hq

theorem Sync_off (env : Env) {s : Impl} (Q : Unit → Impl → Prop) (h : s.mSyncFlag = false)
    (hq : Q () s) : M.total (Sync env) s Q := by
  have hc : s.mLogFd < 0 ∨ (! s.mSyncFlag) = true := Or.inr (by rw [h]; rfl)
  simp only [Sync, M.total_bind_iff, M.total_get_iff, hc, if_true, M.total_pure_iff]
  exact hq

theorem Close_total_at (env : Env) {s : Impl} (Q : Bool → Impl → Prop)
    (hio : env.sysClose s.tick = 0)
    (hq : Q (decide (0 < s.mLogFd)) (afterClose s)) : M.total (Close env) s Q := by
  unfold afterClose at hq
  by_cases h : s.mLogFd ≤ 0
  · rw [if_pos h] at hq
    have hd : decide (0 < s.mLogFd) = false := by simpa using h
    rw [hd] at hq
    simp only [Close, M.total_bind_iff, M.total_get_iff, h, if_true, M.total_pure_iff]
    exact hq
  · rw [if_neg h] at hq
    have hd : decide (0 < s.mLogFd) = true := by simpa using h
    rw [hd] at hq
    simp only [Close, M.total_bind_iff, M.total_get_iff, h, if_false, M.total_nextTick_iff,
      M.total_modify_iff, hio, beq_self_eq_true, Bool.not_true, Bool.false_eq_true,
      M.total_pure_iff]
    exact hq

theorem FlushBlock_total_at (env : Env) (k : Nat) (inLogSeq : Int) {s : Impl}
    (Q : Unit → Impl → Prop) (hg : Good s) (hs : s.mMdStream.sync = false)
    (hsync : s.mSyncFlag = false) (hio : ∀ t n, s.tick ≤ t → env.sysWrite t n = n)
    (hq : Q () (afterFlushBlock env s inLogSeq)) :
    M.total (FlushBlock env (k + 2) inLogSeq) s Q := by
  obtain ⟨he, hfd, hf⟩ := hg
  simp only [FlushBlock, M.total_bind_iff, M.total_modify_iff, M.total_get_iff]
  refine mdWrite_nosync_total env _ _ _ hf hs ?_
  refine mdFlush_nosync_total env _ _ hs ?_
  simp only [M.total_bind_iff, M.total_modify_iff, M.total_get_iff]
  refine mdWrite_nosync_total env _ _ _ hf hs ?_
  refine mdFlush_nosync_total env _ _ hs ?_
  simp only [M.total_bind_iff, M.total_modify_iff, M.total_get_iff]
  refine mdWrite_nosync_total env _ _ _ hf hs ?_
  refine mdFlush_nosync_total env _ _ hs ?_
  simp only [M.total_bind_iff, M.total_modify_iff, M.total_get_iff, showInt, List.take_length,
    List.drop_left, take_length_append3, not_length_append3_lt, if_false, M.total_ite_iff,
    M.total_nextTick_iff, M.total_pure_iff, mdSetSync]
  simp only [commitLine_eq, blockSeqText_eq, txChecksum_eq, trailerChecksum_eq]
  have tail : ∀ s1 : Impl, Good s1 → s1.mMdStream.sync = true → s1.mMdStream.buf ≠ [] →
      s1.mWriteState = WriteState.kWriteStateNone → (∀ n, env.sysWrite s1.tick n = n) →
      s1.mSyncFlag = false →
      Q () { s1 with
        tick := s1.tick + 1 + (if s1.mSyncFlag then 1 else 0)
        files := (appendToFd s1 s1.mLogFd s1.mMdStream.buf).files
        mMdStream := { s1.mMdStream with buf := [], sync := false }
        mWriteState := WriteState.kUpdateBlockChecksum
        mBlockChecksum := s1.mNextBlockChecksum } →
      M.total (mdFlush env (k + 2)) s1 (fun _ s' => M.total (Sync env) s'
        (fun _ s' => M.total (StartBlock s'.mNextBlockChecksum) s' Q)) := by
    intro s1 hg1 hs1 hb1 hw1 hio1 hsy1 hq1
    refine mdFlush_sync_total_at env k _ hg1 hs1 hb1 hw1 (hio1 _) ?_
    refine Sync_off env _ hsy1 ?_
    simp only [StartBlock, mdSetSync, M.total_bind_iff, M.total_modify_iff]
    have key : (if s1.mSyncFlag = true then 1 else 0) = 0 :=
      if_neg (by rw [hsy1]; decide)
    rw [key, Nat.add_zero] at hq1
    exact hq1
  have hq' := hq
  unfold afterFlushBlock transmits txBlock at hq'
  rw [blockTrailer_eq] at hq'
  generalize commitLine env s inLogSeq = C at hq' ⊢
  generalize blockSeqText env s = S at hq' ⊢
  generalize env.showInt s.mMdStream.hex (trailerChecksum env s inLogSeq) = K at hq' ⊢
  have hmd : ∀ (b : Nat) (B md : Bytes) (h : Bool) (f : Bool),
      ({ buf := [], bufSize := max (max (max b (B ++ C).length) (B ++ C ++ S).length)
            (B ++ C ++ S ++ (K ++ "\n".toList)).length,
          sync := false, fail := f, hex := h, md := md ++ C ++ S ++ (K ++ "\n".toList) } : MdStream) =
        { buf := [], bufSize := max b (B ++ (C ++ S ++ K ++ "\n".toList)).length,
          sync := false, fail := f, hex := h, md := md ++ (C ++ S ++ K ++ "\n".toList) } := by
    intro b B md h f
    simp only [List.append_assoc, List.length_append, MdStream.mk.injEq, true_and, and_true]
    omega
  have hfiles : ∀ s1 : Impl, s1.fds = s.fds → s1.files = s.files → s1.mLogFd = s.mLogFd →
      (appendToFd s1 s1.mLogFd (s.mMdStream.buf ++ C ++ S ++ (K ++ "\n".toList))).files =
        (appendToFd s s.mLogFd (s.mMdStream.buf ++ (C ++ S ++ K ++ "\n".toList))).files := by
    intro s1 e1 e2 e3
    rw [e3, appendToFd_files_congr s s1 _ _ e1 e2]
    simp only [List.append_assoc]
  split_ifs with h1 h2
  · refine tail _ ⟨he, hfd, hf⟩ rfl (by simp) rfl
      (fun n => hio _ n (by first | exact Nat.le_succ _ | exact le_refl _)) hsync ?_
    simp only [h1, decide_True, if_true, h2, ne_eq, not_false_eq_true, and_self] at hq'
    convert hq' using 2
    all_goals first | exact hmd _ _ _ _ _ | exact hfiles _ rfl rfl rfl
  · refine tail _ ⟨he, hfd, hf⟩ rfl (by simp) rfl
      (fun n => hio _ n (by first | exact Nat.le_succ _ | exact le_refl _)) hsync ?_
    simp only [h1, decide_True, if_true, h2, ne_eq, not_false_eq_true, and_self, and_false,
      if_false] at hq'
    convert hq' using 2
    all_goals first | exact hmd _ _ _ _ _ | exact hfiles _ rfl rfl rfl
  · refine tail _ ⟨he, hfd, hf⟩ rfl (by simp) rfl
      (fun n => hio _ n (by first | exact Nat.le_succ _ | exact le_refl _)) hsync ?_
    simp only [h1, decide_False, if_true, ne_eq, not_false_eq_true, and_self, false_and,
      Bool.false_eq_true, if_false, add_zero] at hq'
    convert hq' using 2
    all_goals first | exact hmd _ _ _ _ _ | exact hfiles _ rfl rfl rfl


theorem afterClose_tick_le (s : Impl) : s.tick ≤ (afterClose s).tick := by
  unfold afterClose
  split
  · exact le_refl _
  · exact Nat.le_succ _

theorem afterClose_syncFlag (s : Impl) : (afterClose s).mSyncFlag = s.mSyncFlag := by
  unfold afterClose
  split <;> rfl

theorem NewLog_total_at (env : Env) (k : Nat) (inLogSeq : Int) {s : Impl}
    (Q : Unit → Impl → Prop) (hclose : ∀ t, env.sysClose t = 0) (hopen : ∀ t, 0 ≤ env.sysOpen t)
    (hio : ∀ t n, s.tick ≤ t → env.sysWrite t n = n) (hsync : s.mSyncFlag = false)
    (hq : Q () (afterNewLog env s inLogSeq)) :
    M.total (NewLog env (k + 2) inLogSeq) s Q := by
  simp only [NewLog, M.total_bind_iff]
  refine Close_total_at env _ (hclose _) ?_
  simp only [microseconds, SetLogName, StartBlock, mdSetSync, mdReset, mdClear, mdSetHex,
    DisplayIsoDateTime, M.total_bind_iff, M.total_nextTick_iff, M.total_pure_iff,
    M.total_modify_iff, M.total_get_iff, not_lt.mpr (hopen _), if_false]
  refine mdWrite_nosync_total env _ _ _ rfl rfl ?_
  simp only [M.total_bind_iff, M.total_modify_iff, M.total_get_iff]
  have hX : Good (newLogHeader env s inLogSeq) ∧ (newLogHeader env s inLogSeq).mMdStream.sync = false :=
    ⟨⟨rfl, hopen _, rfl⟩, rfl⟩
  have hsy : (newLogHeader env s inLogSeq).mSyncFlag = false :=
    (afterClose_syncFlag s).trans hsync
  have hio2 : ∀ t n, (newLogHeader env s inLogSeq).tick ≤ t → env.sysWrite t n = n := by
    intro t n ht
    refine hio t n ?_
    have h1 := afterClose_tick_le s
    have h2 : (newLogHeader env s inLogSeq).tick = (afterClose s).tick + 3 := rfl
    omega
  refine FlushBlock_total_at env k _ _ (s := newLogHeader env s inLogSeq) hX.1 hX.2 hsy hio2 ?_
  refine IsLogStreamGood_total _ (afterFlushBlock_good env _ _ hX.1) ?_
  simp only [if_true, M.total_modify_iff]
  exact hq

theorem FlushBlock_fails (env : Env) (k : Nat) (inLogSeq : Int) {s : Impl}
    (Q : Unit → Impl → Prop) (hg : Good s) (hs : s.mMdStream.sync = false)
    (hsync : s.mSyncFlag = false) (hp : s.mPanicOnIoErrorFlag = false)
    (htx : 0 < s.mNextBlockSeq + 1)
    (hio : ∀ n, env.sysWrite (s.tick + 1) n = -1) (herr : env.errno (s.tick + 1) = kEIO)
    (hq : ∀ s' : Impl, s'.mem = s.mem → s'.mLastLogSeq = s.mLastLogSeq →
      s'.mNextLogSeq = s.mNextLogSeq → s'.mError = - kEIO → s'.tick = s.tick + 2 →
      s'.mSyncFlag = s.mSyncFlag → s'.mLogFd = s.mLogFd → Q () s') :
    M.total (FlushBlock env (k + 1) inLogSeq) s Q := by
  obtain ⟨he, hfd, hf⟩ := hg
  simp only [FlushBlock, M.total_bind_iff, M.total_modify_iff, M.total_get_iff]
  refine mdWrite_nosync_total env _ _ _ hf hs ?_
  refine mdFlush_nosync_total env _ _ hs ?_
  simp only [M.total_bind_iff, M.total_modify_iff, M.total_get_iff]
  refine mdWrite_nosync_total env _ _ _ hf hs ?_
  refine mdFlush_nosync_total env _ _ hs ?_
  simp only [M.total_bind_iff, M.total_modify_iff, M.total_get_iff]
  refine mdWrite_nosync_total env _ _ _ hf hs ?_
  refine mdFlush_nosync_total env _ _ hs ?_
  simp only [M.total_bind_iff, M.total_modify_iff, M.total_get_iff, showInt, List.take_length,
    List.drop_left, take_length_append3, not_length_append3_lt, if_false, M.total_ite_iff,
    M.total_nextTick_iff, M.total_pure_iff, mdSetSync]
  have tail : ∀ s1 : Impl, Good s1 → s1.mMdStream.sync = true → s1.mMdStream.buf ≠ [] →
      s1.mWriteState = WriteState.kWriteStateNone →
      env.sysWrite s1.tick s1.mMdStream.buf.length = -1 → env.errno s1.tick = kEIO →
      s1.mPanicOnIoErrorFlag = false → s1.mSyncFlag = false →
      Q () { s1 with
        tick := s1.tick + 1
        mError := - kEIO
        mMdStream := { s1.mMdStream with buf := [], fail := true, sync := false }
        mWriteState := WriteState.kUpdateBlockChecksum
        mBlockChecksum := s1.mNextBlockChecksum } →
      M.total (mdFlush env (k + 1)) s1 (fun _ s' => M.total (Sync env) s'
        (fun _ s' => M.total (StartBlock s'.mNextBlockChecksum) s' Q)) := by
    intro s1 hg1 hs1 hb1 hw1 hio1 herr1 hp1 hsy1 hq1
    refine mdFlush_sync_fails env k _ hg1 hs1 hb1 hw1 hio1 herr1 hp1 ?_
    refine Sync_off env _ hsy1 ?_
    simp only [StartBlock, mdSetSync, M.total_bind_iff, M.total_modify_iff]
    exact hq1
  split_ifs
  · refine tail _ ⟨he, hfd, hf⟩ rfl (by simp) rfl (hio _) herr hp hsync ?_
    exact hq _ rfl rfl rfl rfl rfl rfl rfl
  · refine tail _ ⟨he, hfd, hf⟩ rfl (by simp) rfl (hio _) herr hp hsync ?_
    exact hq _ rfl rfl rfl rfl rfl rfl rfl

theorem afterNewLog_facts (env : Env) (s : Impl) (L : Int) (hopen : ∀ t, 0 ≤ env.sysOpen t) :
    (afterNewLog env s L).mem = s.mem ∧ (afterNewLog env s L).mNextLogSeq = L ∧
    (afterNewLog env s L).mLastLogSeq = L ∧ (afterNewLog env s L).mCurLogStartSeq = L ∧
    Good (afterNewLog env s L) := by
  have hm : (afterClose s).mem = s.mem := by
    unfold afterClose
    split <;> rfl
  refine ⟨hm, rfl, rfl, rfl, ?_⟩
  exact ⟨rfl, hopen _, rfl⟩

theorem CloseLog_flush_fails (env : Env) (k : Nat) {s : Impl}
    (Q : Unit → Impl → Prop) (hg : Good s) (hs : s.mMdStream.sync = false)
    (hsync : s.mSyncFlag = false) (hp : s.mPanicOnIoErrorFlag = false)
    (htx : 0 < s.mNextBlockSeq + 1) (hne : s.mLastLogSeq ≠ s.mNextLogSeq)
    (hio : ∀ n, env.sysWrite (s.tick + 1) n = -1) (herr : env.errno (s.tick + 1) = kEIO)
    (hq : ∀ s' : Impl, s'.mem = s.mem → s'.mLastLogSeq = s.mNextLogSeq →
      s'.mNextLogSeq = s.mNextLogSeq → s'.mError = - kEIO → s'.tick = s.tick + 2 →
      s'.mSyncFlag = s.mSyncFlag → s'.mLogFd = s.mLogFd → Q () s') :
    M.total (CloseLog env (k + 1)) s Q := by
  unfold CloseLog
  simp only [M.total_bind_iff]
  refine IsLogStreamGood_total _ hg ?_
  simp only [if_true, M.total_bind_iff, M.total_get_iff, if_pos hne]
  refine FlushBlock_fails env k _ _ hg hs hsync hp htx hio herr ?_
  intro s1 h1 h2 h3 h4 h5 h6 h7
  have hbad : s1.mError ≠ 0 := by
    rw [h4]
    decide
  refine IsLogStreamGood_bad _ hbad ?_
  simp only [Bool.not_false, if_true, M.total_bind_iff, M.total_modify_iff, M.total_pure_iff]
  exact hq _ h1 h3 h3 h4 h5 h6 h7

theorem StartNextLog_flush_fails (env : Env) (k : Nat) {s : Impl}
    (Q : Unit → Impl → Prop) (hg : Good s) (hs : s.mMdStream.sync = false)
    (hsync : s.mSyncFlag = false) (hp : s.mPanicOnIoErrorFlag = false)
    (htx : 0 < s.mNextBlockSeq + 1) (hne : s.mLastLogSeq ≠ s.mNextLogSeq)
    (hio : ∀ n, env.sysWrite (s.tick + 1) n = -1) (herr : env.errno (s.tick + 1) = kEIO)
    (hok : ∀ t n, s.tick + 2 ≤ t → env.sysWrite t n = n)
    (hclose : ∀ t, env.sysClose t = 0) (hopen : ∀ t, 0 ≤ env.sysOpen t)
    (hq : ∀ s' : Impl, s'.mem = s.mem → s'.mLastLogSeq = s.mNextLogSeq →
      s'.mNextLogSeq = s.mNextLogSeq → s'.mCurLogStartSeq = s.mNextLogSeq → Good s' →
      Q () s') :
    M.total (StartNextLog env (k + 2)) s Q := by
  unfold StartNextLog
  simp only [M.total_bind_iff]
  refine CloseLog_flush_fails env (k + 1) _ hg hs hsync hp htx hne hio herr ?_
  intro s1 h1 h2 h3 _ h5 h6 _
  simp only [M.total_modify_iff, M.total_get_iff]
  refine NewLog_total_at env k _ _ hclose hopen ?_ ?_ ?_
  · intro t n ht
    have ht1 : s1.tick ≤ t := ht
    exact hok t n (by omega)
  · exact h6.trans hsync
  · obtain ⟨f1, f2, f3, f4, f5⟩ :=
      afterNewLog_facts env { s1 with mLogNum := s1.mLogNum + 1 } s1.mLastLogSeq hopen
    refine hq _ (f1.trans h1) (f3.trans h2) (f2.trans h2) (f4.trans h2) f5

theorem Control_newlog_flush_fails (env : Env) (k p : Nat) {s : Impl}
    (Q : Bool → Impl → Prop) (hg : Good s) (hs : s.mMdStream.sync = false)
    (hsync : s.mSyncFlag = false) (hp : s.mPanicOnIoErrorFlag = false)
    (htx : 0 < s.mNextBlockSeq + 1) (hne : s.mLastLogSeq ≠ s.mNextLogSeq)
    (htype : (s.mem p).type = ControlType.kNewLog) (hcur : s.mCurLogStartSeq < s.mLastLogSeq)
    (hio : ∀ n, env.sysWrite (s.tick + 1) n = -1) (herr : env.errno (s.tick + 1) = kEIO)
    (hok : ∀ t n, s.tick + 2 ≤ t → env.sysWrite t n = n)
    (hclose : ∀ t, env.sysClose t = 0) (hopen : ∀ t, 0 ≤ env.sysOpen t)
    (hq : ∀ s' : Impl, (∀ q, q ≠ p → s'.mem q = s.mem q) →
      (s'.mem p).next = (s.mem p).next → (s'.mem p).type = (s.mem p).type →
      s'.mLastLogSeq = s.mNextLogSeq → s'.mNextLogSeq = s.mNextLogSeq →
      s'.mCurLogStartSeq = s.mNextLogSeq → Good s' → Q true s') :
    M.total (Control env (k + 2) p) s Q := by
  unfold Control
  simp only [M.total_bind_iff, M.total_get_iff, htype, if_pos hcur, M.total_modify_iff]
  refine StartNextLog_flush_fails env k _ hg hs hsync hp htx hne hio herr hok hclose hopen ?_
  intro s1 h1 h2 h3 h4 h5
  refine IsLogStreamGood_total _ h5 ?_
  refine hq _ ?_ ?_ ?_ h2 h3 h4 h5
  · intro q hqp
    show Function.update s1.mem p _ q = _
    rw [Function.update_noteq hqp, h1]
  · show (Function.update s1.mem p _ p).next = _
    rw [Function.update_same, h1]
  · show (Function.update s1.mem p _ p).type = _
    rw [Function.update_same, h1]

theorem WriteInner_step_logged (env : Env) (fuel n p : Nat) (s : Impl) (eb : Int)
    (Q : Option Nat × Option Nat → Impl → Prop)
    (hf : s.mMdStream.fail = false) (hs : s.mMdStream.sync = false)
    (hop : (s.mem p).op ≠ MetaOp.META_LOG_WRITER_CONTROL) (hlog : (s.mem p).loggable = true)
    (hwl : ∀ r o, (env.WriteLog r o).ret = true ∧ (env.WriteLog r o).streamOk = true)
    (heb : ¬ eb ≤ (logReq env s p).mLastLogSeq)
    (hsmall : ¬ (logReq env s p).mMdStream.bufSize / 4 * 3 <
      (logReq env s p).mMdStream.buf.length)
    (hq : M.total (WriteInner env fuel n (s.mem p).next eb false true) (logReq env s p) Q) :
    M.total (WriteInner env fuel (n + 1) (some p) eb false true) s Q := by
  simp only [WriteInner, M.total_bind_iff, M.total_get_iff, hop, if_false, hf,
    Bool.not_true, Bool.or_self, Bool.false_eq_true, hlog, if_true, M.total_modify_iff,
    Impl.setReq, M.total_pure_iff]
  refine mdWrite_nosync_total env fuel _ _ hf hs ?_
  simp only [(hwl _ _).1, (hwl _ _).2, Bool.not_true, Bool.or_false,
    Bool.false_eq_true, if_false, M.total_pure_iff, M.total_bind_iff, M.total_modify_iff,
    M.total_get_iff, M.total_ite_iff, hf, Function.update_same]
  have hX : ({ s with
      mem := Function.update s.mem p { s.mem p with logseq := s.mLastLogSeq + 1 }
      mLastLogSeq := s.mLastLogSeq + 1
      mMdStream :=
        { s.mMdStream with
          buf := s.mMdStream.buf ++
            (env.WriteLog { s.mem p with logseq := s.mLastLogSeq + 1 }
              s.mOmitDefaultsFlag).data
          bufSize := max s.mMdStream.bufSize (s.mMdStream.buf ++
            (env.WriteLog { s.mem p with logseq := s.mLastLogSeq + 1 }
              s.mOmitDefaultsFlag).data).length
          md := s.mMdStream.md ++
            (env.WriteLog { s.mem p with logseq := s.mLastLogSeq + 1 }
              s.mOmitDefaultsFlag).data
          fail := false } } : Impl) = logReq env s p := by
    unfold logReq
    rw [← hf]
  rw [hX]
  show (if eb ≤ (logReq env s p).mLastLogSeq then _
    else if (logReq env s p).mMdStream.bufSize / 4 * 3 <
        (logReq env s p).mMdStream.buf.length then _ else _)
  rw [if_neg heb, if_neg hsmall]
  exact hq

theorem WriteInner_newlog_flush_fails (env : Env) (k n c : Nat) (s : Impl) (eb : Int)
    (Q : Option Nat × Option Nat → Impl → Prop)
    (hg : Good s) (hs : s.mMdStream.sync = false)
    (hsync : s.mSyncFlag = false) (hp : s.mPanicOnIoErrorFlag = false)
    (htx : 0 < s.mNextBlockSeq + 1) (hne : s.mLastLogSeq ≠ s.mNextLogSeq)
    (hcur : s.mCurLogStartSeq < s.mLastLogSeq)
    (hopc : (s.mem c).op = MetaOp.META_LOG_WRITER_CONTROL)
    (htype : (s.mem c).type = ControlType.kNewLog)
    (hio : ∀ n, env.sysWrite (s.tick + 1) n = -1) (herr : env.errno (s.tick + 1) = kEIO)
    (hok : ∀ t n, s.tick + 2 ≤ t → env.sysWrite t n = n)
    (hclose : ∀ t, env.sysClose t = 0) (hopen : ∀ t, 0 ≤ env.sysOpen t)
    (hq : ∀ s' : Impl, (∀ q, q ≠ c → s'.mem q = s.mem q) →
      (s'.mem c).next = (s.mem c).next → (s'.mem c).type = (s.mem c).type →
      s'.mLastLogSeq = s.mNextLogSeq → s'.mNextLogSeq = s.mNextLogSeq →
      s'.mCurLogStartSeq = s.mNextLogSeq → Good s' → Q (some c, some c) s') :
    M.total (WriteInner env (k + 2) (n + 1) (some c) eb false true) s Q := by
  simp only [WriteInner, M.total_bind_iff, M.total_get_iff, hopc, if_true]
  refine Control_newlog_flush_fails env k c _ hg hs hsync hp htx hne htype hcur hio herr hok
    hclose hopen ?_
  intro s1 h1 h2 h3 h4 h5 h6 h7
  simp only [if_true, M.total_pure_iff]
  exact hq s1 h1 h2 h3 h4 h5 h6 h7

theorem Write_newlog_flush_fails (env : Env) (k p c : Nat) (s : Impl)
    (Q : Unit → Impl → Prop) (hg : Good s)
    (hsync : s.mSyncFlag = false) (hp : s.mPanicOnIoErrorFlag = false)
    (htx : 0 < s.mNextBlockSeq + 1) (hint : ¬ 0 < s.mFailureSimulationInterval)
    (hup : s.mTransmitterUpFlag = true) (hmax : 1 < s.mMaxBlockSize)
    (hcur : s.mCurLogStartSeq ≤ s.mNextLogSeq)
    (hop : (s.mem p).op ≠ MetaOp.META_LOG_WRITER_CONTROL) (hlog : (s.mem p).loggable = true)
    (hnext : (s.mem p).next = some c) (hpc : p ≠ c)
    (hopc : (s.mem c).op = MetaOp.META_LOG_WRITER_CONTROL)
    (htype : (s.mem c).type = ControlType.kNewLog) (hnextc : (s.mem c).next = none)
    (hwl : ∀ r o, (env.WriteLog r o).ret = true ∧ (env.WriteLog r o).streamOk = true)
    (hsmall : ∀ r o, ¬ (max s.mMdStream.bufSize
        (s.mMdStream.buf ++ (env.WriteLog r o).data).length / 4 * 3 <
      (s.mMdStream.buf ++ (env.WriteLog r o).data).length))
    (hio : ∀ n, env.sysWrite (s.tick + 1) n = -1) (herr : env.errno (s.tick + 1) = kEIO)
    (hok : ∀ t n, s.tick + 2 ≤ t → env.sysWrite t n = n)
    (hclose : ∀ t, env.sysClose t = 0) (hopen : ∀ t, 0 ≤ env.sysOpen t)
    (hq : ∀ s' : Impl, s'.mNextLogSeq = s.mNextLogSeq →
      (s'.mem p).logseq = s.mNextLogSeq + 1 → (s'.mem p).status = (s.mem p).status → Q () s') :
    M.total (Write env (k + 3) p) s Q := by
  simp only [Write, M.total_bind_iff]
  refine IsLogStreamGood_total _ hg ?_
  simp only [Bool.not_true, Bool.false_eq_true, if_false, M.total_pure_iff, M.total_bind_iff,
    mdSetSync, M.total_modify_iff]
  simp only [WriteBatches, M.total_bind_iff, M.total_modify_iff, M.total_get_iff,
    IsSimulateFailure, hint, if_false, M.total_pure_iff, hup]
  have hsm : ¬ (logReq env { s with
        mMdStream := { s.mMdStream with sync := false }
        mLastLogSeq := s.mNextLogSeq } p).mMdStream.bufSize / 4 * 3 <
      (logReq env { s with
        mMdStream := { s.mMdStream with sync := false }
        mLastLogSeq := s.mNextLogSeq } p).mMdStream.buf.length := hsmall _ _
  have heb : ¬ s.mNextLogSeq + s.mMaxBlockSize ≤ (logReq env { s with
        mMdStream := { s.mMdStream with sync := false }
        mLastLogSeq := s.mNextLogSeq } p).mLastLogSeq := by
    show ¬ s.mNextLogSeq + s.mMaxBlockSize ≤ s.mNextLogSeq + 1
    omega
  refine WriteInner_step_logged env (k + 3) (k + 2) p _ _ _ hg.2.2 rfl hop hlog hwl heb hsm ?_
  show M.total (WriteInner env (k + 3) (k + 2) (s.mem p).next _ false true) _ _
  rw [hnext]
  refine WriteInner_newlog_flush_fails env (k + 1) (k + 1) c _ _ _ ⟨hg.1, hg.2.1, hg.2.2⟩ rfl
    hsync hp htx ?_ ?_ ?_ ?_ hio herr hok hclose hopen ?_
  · show s.mNextLogSeq + 1 ≠ s.mNextLogSeq
    omega
  · show s.mCurLogStartSeq < s.mNextLogSeq + 1
    omega
  · rw [logReq_op]
    exact hopc
  · show (Function.update s.mem p _ c).type = _
    rw [Function.update_noteq hpc.symm]
    exact htype
  intro s1 h1 h2 h3 h4 h5 h6 h7
  have e1 : s1.mem p = { s.mem p with logseq := s.mNextLogSeq + 1 } := by
    rw [h1 p hpc]
    show Function.update s.mem p _ p = _
    rw [Function.update_same]
  have e2 : (s1.mem c).next = none := by
    rw [h2]
    show (Function.update s.mem p _ c).next = _
    rw [Function.update_noteq hpc.symm]
    exact hnextc
  have e3 : (s1.mem c).type = ControlType.kNewLog := by
    rw [h3]
    show (Function.update s.mem p _ c).type = _
    rw [Function.update_noteq hpc.symm]
    exact htype
  have e4 : s1.mLastLogSeq = s.mNextLogSeq := h4
  have e5 : s1.mNextLogSeq = s.mNextLogSeq := h5
  have e6 : s1.mCurLogStartSeq = s.mNextLogSeq := h6
  dsimp only
  have hlt : ¬ (s1.mNextLogSeq < s1.mLastLogSeq ∧ True) := by
    rw [e4, e5]
    simp
  rw [if_neg hlt]
  simp only [M.total_bind_iff, M.total_pure_iff]
  refine IsLogStreamGood_total _ h7 ?_
  simp only [Bool.not_false, Bool.and_self, if_true, M.total_bind_iff, M.total_modify_iff,
    M.total_get_iff, e3]
  rw [if_neg (by decide), e2]
  simp only [WriteBatches, M.total_bind_iff, M.total_pure_iff]
  have hrot : ¬ (s1.mCurLogStartSeq < s1.mLastLogSeq) := by
    rw [e4, e6]
    exact lt_irrefl _
  rw [if_neg hrot]
  simp only [M.total_pure_iff]
  refine hq _ e4 ?_ ?_
  · show (s1.mem p).logseq = _
    rw [e1]
  · show (s1.mem p).status = _
    rw [e1]

set_option maxRecDepth 4000 in
/-- C34 (the code departs from the claim): `Write` on the list of request 1
(`kLogAlways`) followed by the `kNewLog` control request 2, from `stateRotate`
(`mNextLogSeq = 10`), when the `write` of the block that `CloseLog` flushes
fails with `EIO` and every later call succeeds.  `Write` returns with
`mNextLogSeq = 10` as before, and request 1, a loggable request that is not a
control request, is left with `logseq = 11` and `status = 0`: it is neither
marked failed nor within `(10, 10]`. -/
theorem Write_newlog_after_failed_flush :
    ∃ s', Write envFlaky 3 1 stateRotate = Res.ok () s' ∧
      stateRotate.mNextLogSeq = 10 ∧ s'.mNextLogSeq = 10 ∧
      (stateRotate.mem 1).op ≠ MetaOp.META_LOG_WRITER_CONTROL ∧
      (stateRotate.mem 1).loggable = true ∧
      (s'.mem 1).logseq = 11 ∧ (s'.mem 1).status = 0 ∧
      ¬ ((s'.mem 1).logseq = -1 ∧ (s'.mem 1).status = - envFlaky.ELOGFAILED) ∧
      ¬ (stateRotate.mNextLogSeq < (s'.mem 1).logseq ∧ (s'.mem 1).logseq ≤ s'.mNextLogSeq) := by
  have key : M.total (Write envFlaky (0 + 3) 1) stateRotate
      (fun _ s' => s'.mNextLogSeq = 10 ∧ (s'.mem 1).logseq = 11 ∧ (s'.mem 1).status = 0) := by
    refine Write_newlog_flush_fails envFlaky 0 1 2 stateRotate _ ⟨rfl, by decide, rfl⟩ rfl rfl
      (by decide) (by decide) rfl (by decide) (by decide) (by decide) rfl rfl (by decide) rfl rfl
      rfl (fun _ _ => ⟨rfl, rfl⟩) ?_ (fun _ => rfl) rfl ?_ (fun _ => rfl) ?_ ?_
    · intro r o
      show ¬ (max 1048576 2 / 4 * 3 < 2)
      decide
    · intro t n ht
      have ht2 : 0 + 2 ≤ t := ht
      show (if t = 1 then (-1 : Int) else (n : Int)) = n
      rw [if_neg (by omega)]
    · intro t
      show (0 : Int) ≤ 3
      decide
    · intro s' h1 h2 h3
      exact ⟨h1, h2, h3⟩
  obtain ⟨_, s', h, e1, e2, e3⟩ := key
  refine ⟨s', h, rfl, e1, by decide, rfl, e2, e3, ?_, ?_⟩
  · rw [e2]
    intro hc
    exact absurd hc.1 (by decide)
  · rw [e2, e1]
    intro hc
    exact absurd hc.2 (by decide)

theorem Frame.count_of_keep {α : Type} {m : M α} (hm : Frame Impl.keep m) :
    Frame (fun s : Impl => s.mPendingCount) m :=
  Frame.mono (fun s s' h => by
    have h1 : s'.keep.mPendingCount = s.keep.mPendingCount := congrArg _ h
    exact h1) hm

theorem splitPendingAck_count (n : Nat) :
    ∀ (ptr prev : Option Nat) (q : Queue),
      Frame (fun s : Impl => s.mPendingCount) (splitPendingAck n ptr prev q) := by
  induction n with
  | zero =>
    intro ptr prev q
    exact Frame.timeout
  | succ n ih =>
    intro ptr prev q
    cases ptr with
    | none => exact Frame.pure _
    | some p =>
      unfold splitPendingAck
      repeat' first
        | with_reducible apply ih
        | with_reducible apply Frame.bind
        | with_reducible apply Frame.pure
        | with_reducible apply Frame.get
        | with_reducible apply Frame.ite
        | with_reducible apply Frame.ofModify
        | rfl
        | with_reducible intro _
        | split
        | dsimp only

theorem ProcessPendingAckQueue_count (fuel : Nat) (q : Queue) :
    Frame (fun s : Impl => s.mPendingCount) (ProcessPendingAckQueue fuel q) := by
  unfold ProcessPendingAckQueue
  repeat' first
    | with_reducible apply splitPendingAck_count
    | with_reducible apply Frame.bind
    | with_reducible apply Frame.pure
    | with_reducible apply Frame.get
    | with_reducible apply Frame.ite
    | with_reducible apply Frame.ofModify
    | rfl
    | with_reducible intro _
    | split
    | dsimp only

theorem DispatchEnd_count (fuel : Nat) :
    Frame (fun s : Impl => s.mPendingCount) (DispatchEnd fuel) := by
  unfold DispatchEnd
  repeat' first
    | with_reducible apply ProcessPendingAckQueue_count
    | with_reducible apply Frame.bind
    | with_reducible apply Frame.pure
    | with_reducible apply Frame.get
    | with_reducible apply Frame.ite
    | with_reducible apply Frame.ofModify
    | rfl
    | with_reducible intro _
    | split
    | dsimp only

theorem DispatchStart_count (env : Env) (fuel : Nat) :
    Frame (fun s : Impl => s.mPendingCount) (DispatchStart env fuel) := by
  unfold DispatchStart
  repeat' first
    | with_reducible apply ProcessPendingAckQueue_count
    | with_reducible exact Frame.count_of_keep (Write_keep _ _ _)
    | with_reducible apply Frame.bind
    | with_reducible apply Frame.pure
    | with_reducible apply Frame.get
    | with_reducible apply Frame.ite
    | with_reducible apply Frame.ofModify
    | rfl
    | with_reducible intro _
    | split
    | dsimp only

theorem Notify_count (env : Env) (seq : Int) :
    Frame (fun s : Impl => s.mPendingCount) (Notify env seq) := by
  unfold Notify
  repeat' first
    | with_reducible apply Frame.bind
    | with_reducible apply Frame.pure
    | with_reducible apply Frame.get
    | with_reducible apply Frame.ite
    | with_reducible apply Frame.nextTick
    | with_reducible apply Frame.ofModify
    | rfl
    | with_reducible intro _
    | split
    | dsimp only

theorem ScheduleFlush_count : Frame (fun s : Impl => s.mPendingCount) ScheduleFlush := by
  unfold ScheduleFlush
  repeat' first
    | with_reducible apply Frame.bind
    | with_reducible apply Frame.pure
    | with_reducible apply Frame.get
    | with_reducible apply Frame.ite
    | with_reducible apply Frame.ofModify
    | rfl
    | with_reducible intro _
    | split
    | dsimp only

theorem SetCommitted_count (seq chk fid st : Int) :
    Frame (fun s : Impl => s.mPendingCount) (SetCommitted seq chk fid st) := by
  unfold SetCommitted
  repeat' first
    | with_reducible apply Frame.bind
    | with_reducible apply Frame.pure
    | with_reducible apply Frame.get
    | with_reducible apply Frame.ite
    | with_reducible apply Frame.ofModify
    | rfl
    | with_reducible intro _
    | split
    | dsimp only

theorem RequestCommitted_count (env : Env) (p : Nat) (fid : Int) :
    Frame (fun s : Impl => s.mPendingCount) (RequestCommitted env p fid) := by
  unfold RequestCommitted
  repeat' first
    | with_reducible apply Frame.bind
    | with_reducible apply Frame.pure
    | with_reducible apply Frame.get
    | with_reducible apply Frame.panic
    | with_reducible apply Frame.ite
    | with_reducible apply Frame.ofModify
    | rfl
    | with_reducible intro _
    | split
    | dsimp only

theorem Start_count (env : Env) (fuel : Nat) (inLogNum inLogSeq inCommittedLogSeq
    inCommittedFidSeed inCommittedErrCheckSum inCommittedStatus : Int)
    (inLogAppendMdStatePtr : Option MdStateCtx) (inLogAppendStartSeq inLogAppendLastBlockSeq : Int)
    (inLogAppendHexFlag : Bool) (inParametersPrefixPtr : Option String) (inParameters : Properties) :
    Frame (fun s : Impl => s.mPendingCount)
      (Start env fuel inLogNum inLogSeq inCommittedLogSeq inCommittedFidSeed
        inCommittedErrCheckSum inCommittedStatus inLogAppendMdStatePtr inLogAppendStartSeq
        inLogAppendLastBlockSeq inLogAppendHexFlag inParametersPrefixPtr inParameters) := by
  unfold Start mdReset SetLogName microseconds mdSetHex
  repeat' first
    | with_reducible exact Frame.count_of_keep (SetParameters_keep _ _ _)
    | with_reducible exact Frame.count_of_keep (StartNextLog_keep _ _)
    | with_reducible exact Frame.count_of_keep (NewLog_keep _ _ _)
    | with_reducible exact Frame.count_of_keep (StartBlock_keep _)
    | with_reducible exact Frame.count_of_keep (Close_keep _)
    | with_reducible exact Frame.count_of_keep (IoError_keep _)
    | with_reducible exact Frame.count_of_keep IsLogStreamGood_keep
    | with_reducible apply Frame.bind
    | with_reducible apply Frame.pure
    | with_reducible apply Frame.get
    | with_reducible apply Frame.panic
    | with_reducible apply Frame.timeout
    | with_reducible apply Frame.ite
    | with_reducible apply Frame.nextTick
    | with_reducible apply Frame.ofModify
    | rfl
    | with_reducible intro _
    | split
    | dsimp only

theorem Enqueue_count_nonneg (env : Env) (p : Nat) (s s' : Impl) (b : Bool)
    (h : Enqueue env p s = Res.ok b s') (h0 : 0 ≤ s.mPendingCount) : 0 ≤ s'.mPendingCount := by
  rcases Bool.eq_false_or_eq_true s.mStopFlag with hstop | hstop
  · rw [Enqueue_stopped env p s hstop] at h
    cases h
    exact h0
  · by_cases hsc : shortCircuits s p
    · rw [Enqueue_shortCircuit env p s hstop hsc] at h
      cases h
      exact h0
    · by_cases hc : ∀ c, (s.mem p).logQueueCounter = some c →
          0 < wrapInt32 (s.counters c + 1)
      · by_cases hov : 0 < wrapInt32 (s.mPendingCount + 1)
        · rw [Enqueue_enqueued env p s hstop hsc hc hov] at h
          cases h
          exact le_of_lt hov
        · rw [Enqueue_pending_panic env p s hstop hsc hc (not_lt.mp hov)] at h
          cases h
      · push_neg at hc
        obtain ⟨c, hcc, hle⟩ := hc
        rw [Enqueue_counter_panic env p s hstop hsc c hcc hle] at h
        cases h

theorem deliver_count_nonneg (n : Nat) :
    ∀ (ptr : Option Nat) (s : Impl), 0 ≤ s.mPendingCount →
      M.post (deliver n ptr) s (fun _ s' => 0 ≤ s'.mPendingCount) := by
  induction n with
  | zero =>
    intro ptr s _
    simp only [deliver, M.post_timeout_iff]
  | succ n ih =>
    intro ptr s h0
    cases ptr with
    | none =>
      simp only [deliver, M.post_pure_iff]
      exact h0
    | some p =>
      simp only [deliver, M.post_bind_iff, M.post_get_iff, M.post_modify_iff, M.post_ite_iff,
        M.post_pure_iff, M.post_panic_iff]
      split_ifs with h1 h2 h3 h4
      all_goals first
        | trivial
        | exact ih _ _ (not_lt.mp h3)
        | exact ih _ _ (not_lt.mp h4)
        | exact ih _ _ (not_lt.mp h2)

theorem Timeout_count_nonneg (fuel : Nat) (s s' : Impl) (h : Timeout fuel s = Res.ok () s')
    (h0 : 0 ≤ s.mPendingCount) : 0 ≤ s'.mPendingCount := by
  have key : M.post (Timeout fuel) s (fun _ s' => 0 ≤ s'.mPendingCount) := by
    simp only [Timeout, M.post_bind_iff, M.post_get_iff, M.post_modify_iff, M.post_ite_iff,
      M.post_pure_iff]
    split_ifs
    · exact h0
    · exact deliver_count_nonneg fuel _ _ h0
  exact key () s' h

/-- The pending count of a writer is never negative: `Start` and every step
keep `0 <= mPendingCount` (`Enqueue` and `Timeout` panic instead of leaving it
at or below 0, respectively below 0; no other operation writes it). -/
theorem Step.count_nonneg (env : Env) (allowed : Impl → Int → Prop) (s s' : Impl)
    (h : Step env allowed s s') (h0 : 0 ≤ s.mPendingCount) : 0 ≤ s'.mPendingCount := by
  cases h with
  | enqueue p b h => exact Enqueue_count_nonneg env p s s' b h h0
  | committed p fid h =>
    have e : s'.mPendingCount = s.mPendingCount := RequestCommitted_count env p fid s () s' h
    rw [e]
    exact h0
  | setCommitted seq chk fid st _ h =>
    have e : s'.mPendingCount = s.mPendingCount := SetCommitted_count seq chk fid st s () s' h
    rw [e]
    exact h0
  | scheduleFlush h =>
    have e : s'.mPendingCount = s.mPendingCount := ScheduleFlush_count s () s' h
    rw [e]
    exact h0
  | dispatchStart fuel h =>
    have e : s'.mPendingCount = s.mPendingCount := DispatchStart_count env fuel s () s' h
    rw [e]
    exact h0
  | dispatchEnd fuel h =>
    have e : s'.mPendingCount = s.mPendingCount := DispatchEnd_count fuel s () s' h
    rw [e]
    exact h0
  | timeout fuel h => exact Timeout_count_nonneg fuel s s' h h0
  | notify seq h =>
    have e : s'.mPendingCount = s.mPendingCount := Notify_count env seq s () s' h
    rw [e]
    exact h0

/-- In every state a writer reaches from its constructed state (pending count
0) by a successful `Start` and steps, `0 <= mPendingCount`. -/
theorem pendingCount_nonneg_of_start (env : Env) (allowed : Impl → Int → Prop)
    (mem : Nat → MetaRequest) (counters : Nat → Int) (s1 s : Impl) (fuel : Nat)
    (inLogNum inLogSeq inCommittedLogSeq inCommittedFidSeed inCommittedErrCheckSum
      inCommittedStatus : Int) (inLogAppendMdStatePtr : Option MdStateCtx)
    (inLogAppendStartSeq inLogAppendLastBlockSeq : Int) (inLogAppendHexFlag : Bool)
    (inParametersPrefixPtr : Option String) (inParameters : Properties) (r : Int × Option String)
    (hstart : Start env fuel inLogNum inLogSeq inCommittedLogSeq inCommittedFidSeed
      inCommittedErrCheckSum inCommittedStatus inLogAppendMdStatePtr inLogAppendStartSeq
      inLogAppendLastBlockSeq inLogAppendHexFlag inParametersPrefixPtr inParameters
      (Impl.init env mem counters) = Res.ok r s1)
    (hrun : Relation.ReflTransGen (Step env allowed) s1 s) : 0 ≤ s.mPendingCount := by
  induction hrun with
  | refl =>
    have e : s1.mPendingCount = (Impl.init env mem counters).mPendingCount :=
      Start_count env fuel _ _ _ _ _ _ _ _ _ _ _ _ _ r s1 hstart
    rw [e]
    exact le_refl _
  | tail _ hstep ih => exact Step.count_nonneg env allowed _ _ hstep ih

set_option maxRecDepth 4000 in
/-- C3: in a state where the pending count and the queue counter of the request
(when it has one) are not negative, as in every state a writer reaches, and
below the largest `int`, `Enqueue` returns, and it returns true if and only if
`mStopFlag` is false and it is not the case that both the request does not
require logging (`kLogNever`, or `kLogIfOk` with a status other than 0) and
`mPendingCount` is 0 or the request has no queue counter or that counter is 0.
In particular a request that does not require logging is enqueued when requests
are pending and its counter is positive. -/
theorem Enqueue_returns_true_iff (env : Env) (p : Nat) (s : Impl)
    (hpc : 0 ≤ s.mPendingCount) (hpc2 : s.mPendingCount < 2147483647)
    (hcn : ∀ c, (s.mem p).logQueueCounter = some c →
      0 ≤ s.counters c ∧ s.counters c < 2147483647) :
    ∃ b s', Enqueue env p s = Res.ok b s' ∧
      (b = true ↔
        (s.mStopFlag = false ∧
          ¬ ((s.mem p).notLogged ∧
            (s.mPendingCount = 0 ∨ (s.mem p).logQueueCounter = none ∨
              ∃ c, (s.mem p).logQueueCounter = some c ∧ s.counters c = 0)))) ∧
      (s.mStopFlag = false → (s.mem p).notLogged → 0 < s.mPendingCount →
        (∃ c, (s.mem p).logQueueCounter = some c ∧ 0 < s.counters c) → b = true) := by
  have hsc_iff : shortCircuits s p ↔ ((s.mem p).notLogged ∧
      (s.mPendingCount = 0 ∨ (s.mem p).logQueueCounter = none ∨
        ∃ c, (s.mem p).logQueueCounter = some c ∧ s.counters c = 0)) := by
    unfold shortCircuits
    constructor
    · rintro ⟨h1, h2⟩
      refine ⟨h2, ?_⟩
      rcases h1 with h | h | ⟨c, hc, hle⟩
      · exact Or.inl (le_antisymm h hpc)
      · exact Or.inr (Or.inl h)
      · exact Or.inr (Or.inr ⟨c, hc, le_antisymm hle (hcn c hc).1⟩)
    · rintro ⟨h2, h1⟩
      refine ⟨?_, h2⟩
      rcases h1 with h | h | ⟨c, hc, hz⟩
      · exact Or.inl (le_of_eq h)
      · exact Or.inr (Or.inl h)
      · exact Or.inr (Or.inr ⟨c, hc, le_of_eq hz⟩)
  have hov : 0 < wrapInt32 (s.mPendingCount + 1) := by
    unfold wrapInt32
    omega
  have hc : ∀ c, (s.mem p).logQueueCounter = some c → 0 < wrapInt32 (s.counters c + 1) := by
    intro c h
    have := hcn c h
    unfold wrapInt32
    omega
  rcases Bool.eq_false_or_eq_true s.mStopFlag with hstop | hstop
  · refine ⟨false, _, Enqueue_stopped env p s hstop, ?_, ?_⟩
    · rw [hstop]
      simp
    · intro h
      rw [hstop] at h
      cases h
  · by_cases hsc : shortCircuits s p
    · refine ⟨false, _, Enqueue_shortCircuit env p s hstop hsc, ?_, ?_⟩
      · constructor
        · intro h
          cases h
        · rintro ⟨-, h⟩
          exact absurd (hsc_iff.mp hsc) h
      · intro _ _ hpos ⟨c, hcc, hcpos⟩
        exfalso
        obtain ⟨h1, -⟩ := hsc
        rcases h1 with h | h | ⟨c', hc', hle⟩
        · omega
        · rw [hcc] at h
          cases h
        · rw [hcc] at hc'
          cases hc'
          omega
    · refine ⟨true, _, Enqueue_enqueued env p s hstop hsc hc hov, ?_, fun _ _ _ _ => rfl⟩
      constructor
      · intro _
        exact ⟨hstop, fun h => hsc (hsc_iff.mpr h)⟩
      · intro _
        rfl

theorem Enqueue_returns_true_iff_witness :
    ∃ b s', Enqueue envOk 0 { stateEx LogAction.kLogNever 0 5 with mPendingCount := 1 } =
        Res.ok b s' ∧ b = true := by
  obtain ⟨b, s', h, -, h2⟩ := Enqueue_returns_true_iff envOk 0
    { stateEx LogAction.kLogNever 0 5 with mPendingCount := 1 } (by decide) (by decide)
    (by
      intro c _
      show 0 ≤ (5 : Int) ∧ (5 : Int) < 2147483647
      decide)
  exact ⟨b, s', h, h2 rfl (Or.inl rfl) (by decide) ⟨0, rfl, by decide⟩⟩

section KeepsRules

variable {α β γ : Type} {I : Impl → Prop}

theorem Keeps.kpure (a : α) : Keeps I (Pure.pure a : M α) := by
  intro s b s' hs h
  cases h
  exact hs

theorem Keeps.kbind {m : M α} {g : α → M β} (hm : Keeps I m) (hg : ∀ a, Keeps I (g a)) :
    Keeps I (m >>= g) := by
  intro s b s' hs h
  change (match m s with
    | Res.ok a s1 => g a s1
    | Res.panic msg s1 => Res.panic msg s1
    | Res.timeout => Res.timeout) = _ at h
  cases hms : m s with
  | ok a s1 =>
    rw [hms] at h
    exact hg a s1 b s' (hm s a s1 hs hms) h
  | panic msg s1 =>
    rw [hms] at h
    cases h
  | timeout =>
    rw [hms] at h
    cases h

theorem Keeps.kbind_get {k : Impl → M β} (h : ∀ s0, I s0 → Keeps I (k s0)) :
    Keeps I (M.get >>= k) := by
  intro s b s' hs hr
  exact h s hs s b s' hs hr

theorem Keeps.kget : Keeps I M.get := by
  intro s b s' hs h
  cases h
  exact hs

theorem Keeps.kmodify {g : Impl → Impl} (hg : ∀ s, I s → I (g s)) : Keeps I (M.modify g) := by
  intro s b s' hs h
  cases h
  exact hg s hs

theorem Keeps.kpanic (msg : String) : Keeps I (M.panic msg : M α) := by
  intro s b s' _ h
  cases h

theorem Keeps.ktimeout : Keeps I (M.timeout : M α) := by
  intro s b s' _ h
  cases h

theorem Keeps.kite (c : Prop) [Decidable c] {a b : M α} (ha : Keeps I a) (hb : Keeps I b) :
    Keeps I (if c then a else b) := by
  split
  · exact ha
  · exact hb

theorem Keeps.ktick (hf : ∀ s : Impl, I s → I { s with tick := s.tick + 1 }) :
    Keeps I nextTick := by
  intro s b s' hs h
  cases h
  exact hf s hs

theorem Keeps.kframe {f : Impl → γ} (hI : ∀ s s', f s' = f s → I s → I s') {m : M α}
    (hm : Frame f m) : Keeps I m := by
  intro s a s' hs h
  exact hI s s' (hm s a s' h) hs

theorem Keeps.kpost {m : M α} (h : Keeps I m) (s : Impl) (hs : I s) :
    M.post m s (fun _ s' => I s') := by
  intro a s' hr
  exact h s a s' hs hr

end KeepsRules

theorem Linked.of_none {mem : Nat → MetaRequest} {q : Nat} (h : Linked mem none q) : False := by
  cases h

theorem Linked.closed {C : Nat → Prop} {mem : Nat → MetaRequest} (hc : Closed C mem)
    {h : Option Nat} {q : Nat} (hl : Linked mem h q) (hh : OptIn C h) : C q := by
  induction hl with
  | head p => exact hh p rfl
  | next p q _ ih =>
    refine ih ?_
    intro x hx
    exact hc p x (hh p rfl) hx

theorem Linked.step {mem : Nat → MetaRequest} {h : Option Nat} {p x : Nat}
    (hl : Linked mem h p) (hx : (mem p).next = some x) : Linked mem h x := by
  induction hl with
  | head p =>
    refine Linked.next p x ?_
    rw [hx]
    exact Linked.head x
  | next p q _ ih => exact Linked.next p _ (ih hx)

theorem Owned.sub {C : Nat → Prop} {s : Impl} (h : Owned C s) (q : Nat) (hq : s.queued q) :
    C q := by
  obtain ⟨hc, h1, h2, h3, h4⟩ := h
  rcases hq with hq | hq | hq | hq
  · exact Linked.closed hc hq h1
  · exact Linked.closed hc hq h2
  · exact Linked.closed hc hq h3
  · exact Linked.closed hc hq h4

theorem Owned.self (s : Impl) : Owned (fun q => s.queued q) s := by
  refine ⟨?_, ?_, ?_, ?_, ?_⟩
  · intro p x hp hx
    rcases hp with hp | hp | hp | hp
    · exact Or.inl (Linked.step hp hx)
    · exact Or.inr (Or.inl (Linked.step hp hx))
    · exact Or.inr (Or.inr (Or.inl (Linked.step hp hx)))
    · exact Or.inr (Or.inr (Or.inr (Linked.step hp hx)))
  · intro p hp
    refine Or.inl ?_
    rw [hp]
    exact Linked.head p
  · intro p hp
    refine Or.inr (Or.inl ?_)
    rw [hp]
    exact Linked.head p
  · intro p hp
    refine Or.inr (Or.inr (Or.inl ?_))
    rw [hp]
    exact Linked.head p
  · intro p hp
    refine Or.inr (Or.inr (Or.inr ?_))
    rw [hp]
    exact Linked.head p

theorem appendToFd_logic (s : Impl) (fd : Int) (data : Bytes) :
    (appendToFd s fd data).logic = s.logic := by
  obtain ⟨g, hg⟩ := appendToFd_eq s fd data
  rw [hg]
  rfl

theorem IoError_logic (e : Int) : Frame Impl.logic (IoError e) := by
  unfold IoError
  repeat' first
    | with_reducible apply Frame.bind | with_reducible apply Frame.pure
    | with_reducible apply Frame.get | with_reducible apply Frame.panic
    | with_reducible apply Frame.timeout | with_reducible apply Frame.ite
    | with_reducible apply Frame.nextTick | with_reducible apply Frame.ofModify
    | exact appendToFd_logic _ _ _
    | rfl | with_reducible intro _ | split | dsimp only

theorem IsLogStreamGood_logic : Frame Impl.logic IsLogStreamGood := by
  unfold IsLogStreamGood
  repeat' first
    | with_reducible apply IoError_logic
    | with_reducible apply Frame.bind | with_reducible apply Frame.pure
    | with_reducible apply Frame.get | with_reducible apply Frame.panic
    | with_reducible apply Frame.timeout | with_reducible apply Frame.ite
    | with_reducible apply Frame.nextTick | with_reducible apply Frame.ofModify
    | exact appendToFd_logic _ _ _
    | rfl | with_reducible intro _ | split | dsimp only

theorem Sync_logic (env : Env) : Frame Impl.logic (Sync env) := by
  unfold Sync
  repeat' first
    | with_reducible apply IoError_logic
    | with_reducible apply Frame.bind | with_reducible apply Frame.pure
    | with_reducible apply Frame.get | with_reducible apply Frame.panic
    | with_reducible apply Frame.timeout | with_reducible apply Frame.ite
    | with_reducible apply Frame.nextTick | with_reducible apply Frame.ofModify
    | exact appendToFd_logic _ _ _
    | rfl | with_reducible intro _ | split | dsimp only

theorem Close_logic (env : Env) : Frame Impl.logic (Close env) := by
  unfold Close
  repeat' first
    | with_reducible apply IoError_logic
    | with_reducible apply Frame.bind | with_reducible apply Frame.pure
    | with_reducible apply Frame.get | with_reducible apply Frame.panic
    | with_reducible apply Frame.timeout | with_reducible apply Frame.ite
    | with_reducible apply Frame.nextTick | with_reducible apply Frame.ofModify
    | exact appendToFd_logic _ _ _
    | rfl | with_reducible intro _ | split | dsimp only

theorem sysWrite_logic (env : Env) (b : Bytes) (n : Nat) : Frame Impl.logic (sysWrite env b n) := by
  unfold sysWrite
  repeat' first
    | with_reducible apply Frame.bind | with_reducible apply Frame.pure
    | with_reducible apply Frame.get | with_reducible apply Frame.panic
    | with_reducible apply Frame.timeout | with_reducible apply Frame.ite
    | with_reducible apply Frame.nextTick | with_reducible apply Frame.ofModify
    | exact appendToFd_logic _ _ _
    | rfl | with_reducible intro _ | split | dsimp only

theorem writeLoop_logic (env : Env) (n : Nat) :
    ∀ (b : Bytes) (pos : Nat) (w e : Int), Frame Impl.logic (writeLoop env n b pos w e) := by
  induction n with
  | zero =>
    intro b pos w e
    exact Frame.timeout
  | succ n ih =>
    intro b pos w e
    unfold writeLoop
    repeat' first
      | with_reducible apply ih
      | with_reducible apply sysWrite_logic
      | with_reducible apply Frame.bind | with_reducible apply Frame.pure
      | with_reducible apply Frame.get | with_reducible apply Frame.panic
      | with_reducible apply Frame.timeout | with_reducible apply Frame.ite
      | with_reducible apply Frame.nextTick | with_reducible apply Frame.ofModify
      | exact appendToFd_logic _ _ _
      | rfl | with_reducible intro _ | split | dsimp only

theorem write_logic (env : Env) (fuel : Nat) (b : Bytes) : Frame Impl.logic (write env fuel b) := by
  unfold write
  repeat' first
    | with_reducible apply IoError_logic
    | with_reducible apply IsLogStreamGood_logic
    | with_reducible apply writeLoop_logic
    | with_reducible apply Frame.bind | with_reducible apply Frame.pure
    | with_reducible apply Frame.get | with_reducible apply Frame.panic
    | with_reducible apply Frame.timeout | with_reducible apply Frame.ite
    | with_reducible apply Frame.nextTick | with_reducible apply Frame.ofModify
    | exact appendToFd_logic _ _ _
    | rfl | with_reducible intro _ | split | dsimp only

theorem mdSyncSelf_logic (env : Env) (fuel : Nat) : Frame Impl.logic (mdSyncSelf env fuel) := by
  unfold mdSyncSelf
  repeat' first
    | with_reducible apply write_logic
    | with_reducible apply Frame.bind | with_reducible apply Frame.pure
    | with_reducible apply Frame.get | with_reducible apply Frame.panic
    | with_reducible apply Frame.timeout | with_reducible apply Frame.ite
    | with_reducible apply Frame.nextTick | with_reducible apply Frame.ofModify
    | exact appendToFd_logic _ _ _
    | rfl | with_reducible intro _ | split | dsimp only

theorem mdWrite_logic (env : Env) (fuel : Nat) (b : Bytes) : Frame Impl.logic (mdWrite env fuel b) := by
  unfold mdWrite
  repeat' first
    | with_reducible apply mdSyncSelf_logic
    | with_reducible apply Frame.bind | with_reducible apply Frame.pure
    | with_reducible apply Frame.get | with_reducible apply Frame.panic
    | with_reducible apply Frame.timeout | with_reducible apply Frame.ite
    | with_reducible apply Frame.nextTick | with_reducible apply Frame.ofModify
    | exact appendToFd_logic _ _ _
    | rfl | with_reducible intro _ | split | dsimp only

theorem mdFlush_logic (env : Env) (fuel : Nat) : Frame Impl.logic (mdFlush env fuel) := by
  unfold mdFlush flush
  repeat' first
    | with_reducible apply mdSyncSelf_logic
    | with_reducible apply IsLogStreamGood_logic
    | with_reducible apply Frame.bind | with_reducible apply Frame.pure
    | with_reducible apply Frame.get | with_reducible apply Frame.panic
    | with_reducible apply Frame.timeout | with_reducible apply Frame.ite
    | with_reducible apply Frame.nextTick | with_reducible apply Frame.ofModify
    | exact appendToFd_logic _ _ _
    | rfl | with_reducible intro _ | split | dsimp only

theorem StartBlock_logic (c : Nat) : Frame Impl.logic (StartBlock c) := by
  unfold StartBlock mdSetSync
  repeat' first
    | with_reducible apply Frame.bind | with_reducible apply Frame.pure
    | with_reducible apply Frame.get | with_reducible apply Frame.panic
    | with_reducible apply Frame.timeout | with_reducible apply Frame.ite
    | with_reducible apply Frame.nextTick | with_reducible apply Frame.ofModify
    | exact appendToFd_logic _ _ _
    | rfl | with_reducible intro _ | split | dsimp only

theorem Frame.wseq_of_logic {α : Type} {m : M α} (hm : Frame Impl.logic m) :
    Frame Impl.wseq m :=
  Frame.mono (fun s s' h => by
    have e1 : s'.mem = s.mem := congrArg (fun x => x.1) h
    have e2 : s'.mNextLogSeq = s.mNextLogSeq := congrArg (fun x => x.2.1) h
    have e3 : s'.mLastLogSeq = s.mLastLogSeq := congrArg (fun x => x.2.2.1) h
    have e4 : s'.mCurLogStartSeq = s.mCurLogStartSeq := congrArg (fun x => x.2.2.2.1) h
    show (s'.mem, s'.mNextLogSeq, s'.mLastLogSeq, s'.mCurLogStartSeq) =
      (s.mem, s.mNextLogSeq, s.mLastLogSeq, s.mCurLogStartSeq)
    rw [e1, e2, e3, e4]) hm

theorem IoError_wseq (e : Int) : Frame Impl.wseq (IoError e) :=
  Frame.wseq_of_logic (IoError_logic e)

theorem IsLogStreamGood_wseq : Frame Impl.wseq IsLogStreamGood :=
  Frame.wseq_of_logic (IsLogStreamGood_logic )

theorem Sync_wseq (env : Env) : Frame Impl.wseq (Sync env) :=
  Frame.wseq_of_logic (Sync_logic env)

theorem Close_wseq (env : Env) : Frame Impl.wseq (Close env) :=
  Frame.wseq_of_logic (Close_logic env)

theorem sysWrite_wseq (env : Env) (b : Bytes) (n : Nat) : Frame Impl.wseq (sysWrite env b n) :=
  Frame.wseq_of_logic (sysWrite_logic env b n)

theorem writeLoop_wseq (env : Env) (n : Nat) :
    ∀ (b : Bytes) (pos : Nat) (w e : Int), Frame Impl.wseq (writeLoop env n b pos w e) := by
  intro b pos w e
  exact Frame.wseq_of_logic (writeLoop_logic env n b pos w e)

theorem write_wseq (env : Env) (fuel : Nat) (b : Bytes) : Frame Impl.wseq (write env fuel b) :=
  Frame.wseq_of_logic (write_logic env fuel b)

theorem mdSyncSelf_wseq (env : Env) (fuel : Nat) : Frame Impl.wseq (mdSyncSelf env fuel) :=
  Frame.wseq_of_logic (mdSyncSelf_logic env fuel)

theorem mdWrite_wseq (env : Env) (fuel : Nat) (b : Bytes) : Frame Impl.wseq (mdWrite env fuel b) :=
  Frame.wseq_of_logic (mdWrite_logic env fuel b)

theorem mdFlush_wseq (env : Env) (fuel : Nat) : Frame Impl.wseq (mdFlush env fuel) :=
  Frame.wseq_of_logic (mdFlush_logic env fuel)

theorem StartBlock_wseq (c : Nat) : Frame Impl.wseq (StartBlock c) :=
  Frame.wseq_of_logic (StartBlock_logic c)

theorem FlushBlock_wseq (env : Env) (fuel : Nat) (inLogSeq : Int) : Frame Impl.wseq (FlushBlock env fuel inLogSeq) := by
  unfold FlushBlock mdSetSync
  repeat' first
    | with_reducible apply mdWrite_wseq
    | with_reducible apply mdFlush_wseq
    | with_reducible apply Sync_wseq
    | with_reducible apply StartBlock_wseq
    | with_reducible apply Frame.bind | with_reducible apply Frame.pure
    | with_reducible apply Frame.get | with_reducible apply Frame.panic
    | with_reducible apply Frame.timeout | with_reducible apply Frame.ite
    | with_reducible apply Frame.nextTick | with_reducible apply Frame.ofModify
    | rfl | with_reducible intro _ | split | dsimp only

theorem IsSimulateFailure_wseq (env : Env) : Frame Impl.wseq (IsSimulateFailure env) := by
  unfold IsSimulateFailure
  repeat' first
    | with_reducible apply Frame.bind
    | with_reducible apply Frame.pure
    | with_reducible apply Frame.get
    | with_reducible apply Frame.panic
    | with_reducible apply Frame.timeout
    | with_reducible apply Frame.ite
    | with_reducible apply Frame.nextTick
    | with_reducible apply Frame.ofModify
    | rfl
    | with_reducible intro _
    | split
    | dsimp only

theorem Frame.fixed_of_book {α : Type} {m : M α} (hm : Frame Impl.book m) :
    Frame Impl.fixed m :=
  Frame.mono (fun s s' h => by
    have h1 : s'.mem = s.mem := congrArg Prod.snd h
    unfold Impl.fixed
    rw [h1]) hm

theorem fixed_update (s s' : Impl) (p : Nat) (r : MetaRequest)
    (hm : s'.mem = Function.update s.mem p r)
    (h : (r.next, r.commitPendingFlag, r.type, r.blockStartSeq, r.blockEndSeq) =
      ((s.mem p).next, (s.mem p).commitPendingFlag, (s.mem p).type, (s.mem p).blockStartSeq,
        (s.mem p).blockEndSeq)) : s'.fixed = s.fixed := by
  funext q
  unfold Impl.fixed
  rw [hm]
  by_cases hq : q = p
  · subst hq
    rw [Function.update_same]
    exact h
  · rw [Function.update_noteq hq]

theorem IoError_fixed (e : Int) : Frame Impl.fixed (IoError e) :=
  Frame.fixed_of_book (IoError_book e)

theorem IsLogStreamGood_fixed : Frame Impl.fixed IsLogStreamGood :=
  Frame.fixed_of_book (IsLogStreamGood_book )

theorem Sync_fixed (env : Env) : Frame Impl.fixed (Sync env) :=
  Frame.fixed_of_book (Sync_book env)

theorem Close_fixed (env : Env) : Frame Impl.fixed (Close env) :=
  Frame.fixed_of_book (Close_book env)

theorem sysWrite_fixed (env : Env) (b : Bytes) (n : Nat) : Frame Impl.fixed (sysWrite env b n) :=
  Frame.fixed_of_book (sysWrite_book env b n)

theorem writeLoop_fixed (env : Env) (n : Nat) :
    ∀ (b : Bytes) (pos : Nat) (w e : Int), Frame Impl.fixed (writeLoop env n b pos w e) := by
  intro b pos w e
  exact Frame.fixed_of_book (writeLoop_book env n b pos w e)

theorem write_fixed (env : Env) (fuel : Nat) (b : Bytes) : Frame Impl.fixed (write env fuel b) :=
  Frame.fixed_of_book (write_book env fuel b)

theorem mdSyncSelf_fixed (env : Env) (fuel : Nat) : Frame Impl.fixed (mdSyncSelf env fuel) :=
  Frame.fixed_of_book (mdSyncSelf_book env fuel)

theorem mdWrite_fixed (env : Env) (fuel : Nat) (b : Bytes) : Frame Impl.fixed (mdWrite env fuel b) :=
  Frame.fixed_of_book (mdWrite_book env fuel b)

theorem mdFlush_fixed (env : Env) (fuel : Nat) : Frame Impl.fixed (mdFlush env fuel) :=
  Frame.fixed_of_book (mdFlush_book env fuel)

theorem StartBlock_fixed (c : Nat) : Frame Impl.fixed (StartBlock c) :=
  Frame.fixed_of_book (StartBlock_book c)

theorem FlushBlock_fixed (env : Env) (fuel : Nat) (inLogSeq : Int) : Frame Impl.fixed (FlushBlock env fuel inLogSeq) :=
  Frame.fixed_of_book (FlushBlock_book env fuel inLogSeq)

theorem NewLog_fixed (env : Env) (fuel : Nat) (inLogSeq : Int) : Frame Impl.fixed (NewLog env fuel inLogSeq) :=
  Frame.fixed_of_book (NewLog_book env fuel inLogSeq)

theorem CloseLog_fixed (env : Env) (fuel : Nat) : Frame Impl.fixed (CloseLog env fuel) :=
  Frame.fixed_of_book (CloseLog_book env fuel)

theorem StartNextLog_fixed (env : Env) (fuel : Nat) : Frame Impl.fixed (StartNextLog env fuel) := by
  unfold StartNextLog
  repeat' first
    | with_reducible apply CloseLog_fixed
    | with_reducible apply NewLog_fixed
    | with_reducible apply Frame.bind
    | with_reducible apply Frame.pure
    | with_reducible apply Frame.get
    | with_reducible apply Frame.panic
    | with_reducible apply Frame.timeout
    | with_reducible apply Frame.ite
    | with_reducible apply Frame.nextTick
    | with_reducible apply Frame.ofModify
    | exact fixed_update _ _ _ _ rfl rfl
    | rfl
    | with_reducible intro _
    | split
    | dsimp only

theorem SetParameters_fixed (env : Env) (pre : Option String) (props : Properties) : Frame Impl.fixed (SetParameters env pre props) := by
  unfold SetParameters
  repeat' first
    | with_reducible apply Frame.bind
    | with_reducible apply Frame.pure
    | with_reducible apply Frame.get
    | with_reducible apply Frame.panic
    | with_reducible apply Frame.timeout
    | with_reducible apply Frame.ite
    | with_reducible apply Frame.nextTick
    | with_reducible apply Frame.ofModify
    | exact fixed_update _ _ _ _ rfl rfl
    | rfl
    | with_reducible intro _
    | split
    | dsimp only

theorem Control_fixed (env : Env) (fuel : Nat) (p : Nat) : Frame Impl.fixed (Control env fuel p) := by
  unfold Control
  repeat' first
    | with_reducible apply SetParameters_fixed
    | with_reducible apply StartNextLog_fixed
    | with_reducible apply IsLogStreamGood_fixed
    | with_reducible apply Frame.bind
    | with_reducible apply Frame.pure
    | with_reducible apply Frame.get
    | with_reducible apply Frame.panic
    | with_reducible apply Frame.timeout
    | with_reducible apply Frame.ite
    | with_reducible apply Frame.nextTick
    | with_reducible apply Frame.ofModify
    | exact fixed_update _ _ _ _ rfl rfl
    | rfl
    | with_reducible intro _
    | split
    | dsimp only

theorem WriteBlock_fixed (env : Env) (fuel : Nat) (p : Nat) : Frame Impl.fixed (WriteBlock env fuel p) := by
  unfold WriteBlock mdSetSync mdClearBuffer
  repeat' first
    | with_reducible apply IsLogStreamGood_fixed
    | with_reducible apply mdWrite_fixed
    | with_reducible apply mdFlush_fixed
    | with_reducible apply Sync_fixed
    | with_reducible apply StartBlock_fixed
    | with_reducible apply Frame.bind
    | with_reducible apply Frame.pure
    | with_reducible apply Frame.get
    | with_reducible apply Frame.panic
    | with_reducible apply Frame.timeout
    | with_reducible apply Frame.ite
    | with_reducible apply Frame.nextTick
    | with_reducible apply Frame.ofModify
    | exact fixed_update _ _ _ _ rfl rfl
    | rfl
    | with_reducible intro _
    | split
    | dsimp only

theorem IsSimulateFailure_fixed (env : Env) : Frame Impl.fixed (IsSimulateFailure env) := by
  unfold IsSimulateFailure
  repeat' first
    | with_reducible apply Frame.bind
    | with_reducible apply Frame.pure
    | with_reducible apply Frame.get
    | with_reducible apply Frame.panic
    | with_reducible apply Frame.timeout
    | with_reducible apply Frame.ite
    | with_reducible apply Frame.nextTick
    | with_reducible apply Frame.ofModify
    | exact fixed_update _ _ _ _ rfl rfl
    | rfl
    | with_reducible intro _
    | split
    | dsimp only

theorem LogError_fixed (env : Env) (p : Nat) : Frame Impl.fixed (LogError env p) := by
  unfold LogError
  repeat' first
    | with_reducible apply Frame.bind
    | with_reducible apply Frame.pure
    | with_reducible apply Frame.get
    | with_reducible apply Frame.panic
    | with_reducible apply Frame.timeout
    | with_reducible apply Frame.ite
    | with_reducible apply Frame.nextTick
    | with_reducible apply Frame.ofModify
    | exact fixed_update _ _ _ _ rfl rfl
    | rfl
    | with_reducible intro _
    | split
    | dsimp only

theorem WriteInner_fixed (env : Env) (fuel : Nat) (n : Nat) :
    ∀ (head : Option Nat) (eb : Int) (sim up : Bool),
      Frame Impl.fixed (WriteInner env fuel n head eb sim up) := by
  induction n with
  | zero =>
    intro head eb sim up
    exact Frame.timeout
  | succ n ih =>
    intro head eb sim up
    cases head with
    | none => exact Frame.pure _
    | some p =>
      unfold WriteInner
      repeat' first
        | with_reducible apply ih
        | with_reducible apply Control_fixed
        | with_reducible apply mdWrite_fixed
        | with_reducible apply LogError_fixed
        | with_reducible apply Frame.bind
        | with_reducible apply Frame.pure
        | with_reducible apply Frame.get
        | with_reducible apply Frame.panic
        | with_reducible apply Frame.timeout
        | with_reducible apply Frame.ite
        | with_reducible apply Frame.nextTick
        | with_reducible apply Frame.ofModify
        | exact fixed_update _ _ _ _ rfl rfl
        | rfl
        | with_reducible intro _
        | split
        | dsimp only

theorem WriteFailed_fixed (env : Env) (n : Nat) :
    ∀ (ptr endPtr : Option Nat), Frame Impl.fixed (WriteFailed env n ptr endPtr) := by
  induction n with
  | zero =>
    intro ptr endPtr
    exact Frame.timeout
  | succ n ih =>
    intro ptr endPtr
    unfold WriteFailed
    repeat' first
      | with_reducible apply ih
      | with_reducible apply LogError_fixed
      | with_reducible apply Frame.bind
      | with_reducible apply Frame.pure
      | with_reducible apply Frame.get
      | with_reducible apply Frame.panic
      | with_reducible apply Frame.timeout
      | with_reducible apply Frame.ite
      | with_reducible apply Frame.nextTick
      | with_reducible apply Frame.ofModify
      | exact fixed_update _ _ _ _ rfl rfl
      | rfl
      | with_reducible intro _
      | split
      | dsimp only

theorem WriteBatches_fixed (env : Env) (fuel : Nat) (n : Nat) :
    ∀ (head : Option Nat), Frame Impl.fixed (WriteBatches env fuel n head) := by
  induction n with
  | zero =>
    intro head
    exact Frame.timeout
  | succ n ih =>
    intro head
    cases head with
    | none => exact Frame.pure _
    | some p =>
      unfold WriteBatches
      repeat' first
        | with_reducible apply ih
        | with_reducible apply IsSimulateFailure_fixed
        | with_reducible apply WriteInner_fixed
        | with_reducible apply IsLogStreamGood_fixed
        | with_reducible apply FlushBlock_fixed
        | with_reducible apply WriteFailed_fixed
        | with_reducible apply WriteBlock_fixed
        | with_reducible apply Frame.bind
        | with_reducible apply Frame.pure
        | with_reducible apply Frame.get
        | with_reducible apply Frame.panic
        | with_reducible apply Frame.timeout
        | with_reducible apply Frame.ite
        | with_reducible apply Frame.nextTick
        | with_reducible apply Frame.ofModify
        | exact fixed_update _ _ _ _ rfl rfl
        | rfl
        | with_reducible intro _
        | split
        | dsimp only

theorem Write_fixed (env : Env) (fuel : Nat) (head : Nat) :
    Frame Impl.fixed (Write env fuel head) := by
  unfold Write microseconds mdSetSync
  repeat' first
    | with_reducible apply IsLogStreamGood_fixed
    | with_reducible apply StartNextLog_fixed
    | with_reducible apply NewLog_fixed
    | with_reducible apply WriteBatches_fixed
    | with_reducible apply Frame.bind
    | with_reducible apply Frame.pure
    | with_reducible apply Frame.get
    | with_reducible apply Frame.panic
    | with_reducible apply Frame.timeout
    | with_reducible apply Frame.ite
    | with_reducible apply Frame.nextTick
    | with_reducible apply Frame.ofModify
    | exact fixed_update _ _ _ _ rfl rfl
    | rfl
    | with_reducible intro _
    | split
    | dsimp only

theorem Frame.wiring_of {α : Type} {m : M α} (hk : Frame Impl.keep m) (hf : Frame Impl.fixed m) :
    Frame Impl.wiring m := by
  intro s a s' h
  have h1 := hk s a s' h
  have h2 := hf s a s' h
  have e1 : s'.mPendingQueue = s.mPendingQueue := congrArg (fun x => x.mPendingQueue) h1
  have e2 : s'.mInQueue = s.mInQueue := congrArg (fun x => x.mInQueue) h1
  have e3 : s'.mPendingAckQueue = s.mPendingAckQueue := congrArg (fun x => x.mPendingAckQueue) h1
  have e4 : s'.mOutQueue = s.mOutQueue := congrArg (fun x => x.mOutQueue) h1
  have e5 : (fun q => (s'.mem q).next) = fun q => (s.mem q).next := by
    funext q
    exact congrArg (fun x => (x q).1) h2
  show (_, _, _, _, _) = (_, _, _, _, _)
  rw [e5, e1, e2, e3, e4]

theorem Frame.flags_of_fixed {α : Type} {m : M α} (hf : Frame Impl.fixed m) :
    Frame Impl.flags m := by
  intro s a s' h
  have h2 := hf s a s' h
  funext q
  exact congrArg (fun x => (x q).2.1) h2

theorem Frame.flagsBut_of_flags {α : Type} {m : M α} (p : Nat) (hf : Frame Impl.flags m) :
    Frame (Impl.flagsBut p) m := by
  intro s a s' h
  have h2 := hf s a s' h
  funext q
  unfold Impl.flagsBut
  rw [show (s'.mem q).commitPendingFlag = (s.mem q).commitPendingFlag from congrFun h2 q]

theorem wiring_setReq (s : Impl) (p : Nat) (f : MetaRequest → MetaRequest)
    (hf : ∀ r, (f r).next = r.next) : (s.setReq p f).wiring = s.wiring := by
  have e : (fun q => ((s.setReq p f).mem q).next) = fun q => (s.mem q).next := by
    funext q
    unfold Impl.setReq
    by_cases h : q = p
    · subst h
      simp only [Function.update_same]
      exact hf _
    · simp only [Function.update_noteq h]
  show (_, _, _, _, _) = (_, _, _, _, _)
  rw [e]
  rfl

theorem flags_nextOnly (s s' : Impl) (h : NextOnly s.mem s'.mem) : s'.flags = s.flags := by
  funext q
  obtain ⟨nx, hx⟩ := h q
  unfold Impl.flags
  rw [hx]

theorem flagsBut_setReq (s : Impl) (p : Nat) (f : MetaRequest → MetaRequest) :
    Impl.flagsBut p (s.setReq p f) = Impl.flagsBut p s := by
  funext q
  unfold Impl.flagsBut Impl.setReq
  by_cases h : q = p
  · subst h
    simp
  · simp [Function.update_noteq h]

theorem OptIn.ofNone (C : Nat → Prop) : OptIn C none := by
  intro p h
  cases h

theorem OptIn.ofSome {C : Nat → Prop} {p : Nat} (h : C p) : OptIn C (some p) := by
  intro q hq
  cases hq
  exact h

theorem Closed.set {C : Nat → Prop} {mem : Nat → MetaRequest} (hc : Closed C mem) (t : Nat)
    (r : MetaRequest) (hr : OptIn C r.next) : Closed C (Function.update mem t r) := by
  intro p x hp hx
  by_cases h : p = t
  · subst h
    rw [Function.update_same] at hx
    exact hr x hx
  · rw [Function.update_noteq h] at hx
    exact hc p x hp hx

theorem Closed.add {C : Nat → Prop} {mem : Nat → MetaRequest} (hc : Closed C mem) (p : Nat)
    (r : MetaRequest) (hr : r.next = none) :
    Closed (fun q => C q ∨ q = p) (Function.update mem p r) := by
  intro q x hq hx
  by_cases h : q = p
  · subst h
    rw [Function.update_same, hr] at hx
    cases hx
  · rw [Function.update_noteq h] at hx
    rcases hq with hq | hq
    · exact Or.inl (hc q x hq hx)
    · exact absurd hq h

theorem PushBackQueue_closed {C : Nat → Prop} {mem : Nat → MetaRequest} (hc : Closed C mem)
    (q inQ : Queue) (hin : OptIn C inQ.Front) : Closed C (q.PushBackQueue inQ mem).2.2 := by
  unfold Queue.PushBackQueue
  cases q.mTailPtr with
  | none => exact hc
  | some t => exact Closed.set hc t _ hin

theorem PushBackQueue_head {C : Nat → Prop} (mem : Nat → MetaRequest) (q inQ : Queue)
    (hq : OptIn C q.Front) (hin : OptIn C inQ.Front) :
    OptIn C (q.PushBackQueue inQ mem).1.Front := by
  unfold Queue.PushBackQueue
  cases q.mTailPtr with
  | none => exact hin
  | some t => exact hq

theorem PushBackQueue_rest (C : Nat → Prop) (mem : Nat → MetaRequest) (q inQ : Queue) :
    OptIn C (q.PushBackQueue inQ mem).2.1.Front := by
  unfold Queue.PushBackQueue
  cases q.mTailPtr with
  | none => exact OptIn.ofNone C
  | some t => exact OptIn.ofNone C

theorem PushBack_closed {C : Nat → Prop} {mem : Nat → MetaRequest} (hc : Closed C mem)
    (q : Queue) (p : Nat) (hp : C p) : Closed C (q.PushBack p mem).2 := by
  unfold Queue.PushBack
  cases q.mTailPtr with
  | none => exact hc
  | some t => exact Closed.set hc t _ (OptIn.ofSome hp)

theorem PushBack_head {C : Nat → Prop} (mem : Nat → MetaRequest) (q : Queue) (p : Nat)
    (hq : OptIn C q.Front) (hp : C p) : OptIn C (q.PushBack p mem).1.Front := by
  unfold Queue.PushBack
  cases q.mTailPtr with
  | none => exact OptIn.ofSome hp
  | some t => exact hq

theorem OptIn.weaken {C D : Nat → Prop} {o : Option Nat} (h : OptIn C o) (hcd : ∀ q, C q → D q) :
    OptIn D o := fun p hp => hcd p (h p hp)

theorem Owned.of_wiring {C : Nat → Prop} {s s' : Impl} (h : s'.wiring = s.wiring)
    (hs : Owned C s) : Owned C s' := by
  unfold Impl.wiring at h
  simp only [Prod.mk.injEq] at h
  obtain ⟨h0, h1, h2, h3, h4⟩ := h
  refine ⟨?_, ?_, ?_, ?_, ?_⟩
  · intro p x hp hx
    have e : (s'.mem p).next = (s.mem p).next := congrFun h0 p
    rw [e] at hx
    exact hs.1 p x hp hx
  · rw [h1]
    exact hs.2.1
  · rw [h2]
    exact hs.2.2.1
  · rw [h3]
    exact hs.2.2.2.1
  · rw [h4]
    exact hs.2.2.2.2

theorem Owned.inHead {C : Nat → Prop} {s : Impl} (h : Owned C s) : OptIn C s.mInQueue.Front :=
  h.2.2.1

theorem Keeps.owned_of_wiring {α : Type} (C : Nat → Prop) {m : M α} (h : Frame Impl.wiring m) :
    Keeps (Owned C) m :=
  Keeps.kframe (fun s s' e hs => Owned.of_wiring e hs) h

theorem Keeps.of_post {α : Type} {I : Impl → Prop} {m : M α}
    (h : ∀ s, I s → M.post m s (fun _ s' => I s')) : Keeps I m :=
  fun s a s' hs hm => h s hs a s' hm

/-! ### The frames of the links and of the flags -/

theorem Write_wiring (env : Env) (fuel : Nat) (head : Nat) :
    Frame Impl.wiring (Write env fuel head) :=
  Frame.wiring_of (Write_keep _ _ _) (Write_fixed _ _ _)

theorem Write_flags (env : Env) (fuel : Nat) (head : Nat) :
    Frame Impl.flags (Write env fuel head) :=
  Frame.flags_of_fixed (Write_fixed _ _ _)

theorem RequestCommitted_wiring (env : Env) (p : Nat) (fid : Int) :
    Frame Impl.wiring (RequestCommitted env p fid) := by
  unfold RequestCommitted
  repeat' first
    | with_reducible apply Frame.bind
    | with_reducible apply Frame.pure
    | with_reducible apply Frame.get
    | with_reducible apply Frame.panic
    | with_reducible apply Frame.ite
    | with_reducible apply Frame.ofModify
    | exact wiring_setReq _ _ _ (fun _ => rfl)
    | rfl
    | with_reducible intro _
    | split
    | dsimp only

theorem RequestCommitted_flagsBut (env : Env) (p : Nat) (fid : Int) :
    Frame (Impl.flagsBut p) (RequestCommitted env p fid) := by
  unfold RequestCommitted
  repeat' first
    | with_reducible apply Frame.bind
    | with_reducible apply Frame.pure
    | with_reducible apply Frame.get
    | with_reducible apply Frame.panic
    | with_reducible apply Frame.ite
    | with_reducible apply Frame.ofModify
    | exact flagsBut_setReq _ _ _
    | rfl
    | with_reducible intro _
    | split
    | dsimp only

theorem SetCommitted_wiring (seq chk fid st : Int) :
    Frame Impl.wiring (SetCommitted seq chk fid st) := by
  unfold SetCommitted
  repeat' first
    | with_reducible apply Frame.ofModify
    | rfl
    | with_reducible intro _

theorem SetCommitted_flags (seq chk fid st : Int) :
    Frame Impl.flags (SetCommitted seq chk fid st) := by
  unfold SetCommitted
  repeat' first
    | with_reducible apply Frame.ofModify
    | rfl
    | with_reducible intro _

theorem Notify_wiring (env : Env) (seq : Int) : Frame Impl.wiring (Notify env seq) := by
  unfold Notify
  repeat' first
    | with_reducible apply Frame.bind
    | with_reducible apply Frame.pure
    | with_reducible apply Frame.get
    | with_reducible apply Frame.ite
    | with_reducible apply Frame.nextTick
    | with_reducible apply Frame.ofModify
    | rfl
    | with_reducible intro _
    | split
    | dsimp only

theorem Notify_flags (env : Env) (seq : Int) : Frame Impl.flags (Notify env seq) := by
  unfold Notify
  repeat' first
    | with_reducible apply Frame.bind
    | with_reducible apply Frame.pure
    | with_reducible apply Frame.get
    | with_reducible apply Frame.ite
    | with_reducible apply Frame.nextTick
    | with_reducible apply Frame.ofModify
    | rfl
    | with_reducible intro _
    | split
    | dsimp only

theorem ScheduleFlush_flags : Frame Impl.flags ScheduleFlush := by
  unfold ScheduleFlush
  repeat' first
    | with_reducible apply Frame.bind
    | with_reducible apply Frame.pure
    | with_reducible apply Frame.get
    | with_reducible apply Frame.ite
    | with_reducible apply Frame.ofModify
    | exact flags_nextOnly _ _ (PushBackQueue_nextOnly _ _ _)
    | rfl
    | with_reducible intro _
    | split
    | dsimp only

theorem splitPendingAck_nextOnly (n : Nat) :
    ∀ (ptr prev : Option Nat) (done : Queue) (s : Impl),
      M.post (splitPendingAck n ptr prev done) s (fun _ s' => NextOnly s.mem s'.mem) := by
  induction n with
  | zero =>
    intro ptr prev done s
    simp only [splitPendingAck, M.post_timeout_iff]
  | succ n ih =>
    intro ptr prev done s
    cases ptr with
    | none =>
      simp only [splitPendingAck, M.post_pure_iff]
      exact NextOnly.refl _
    | some p =>
      simp only [splitPendingAck, M.post_bind_iff, M.post_get_iff, M.post_ite_iff]
      split_ifs with h1
      · cases prev with
        | none =>
          simp only [M.post_pure_iff]
          exact NextOnly.refl _
        | some prev =>
          simp only [M.post_bind_iff, M.post_modify_iff, M.post_pure_iff]
          exact NextOnly.setMem _ _ _
      · exact ih _ _ _ _

theorem ProcessPendingAckQueue_nextOnly (fuel : Nat) (q : Queue) (s : Impl) :
    M.post (ProcessPendingAckQueue fuel q) s (fun _ s' => NextOnly s.mem s'.mem) := by
  have h1 : NextOnly s.mem (s.mPendingAckQueue.PushBackQueue q s.mem).2.2 :=
    PushBackQueue_nextOnly _ _ _
  simp only [ProcessPendingAckQueue, M.post_bind_iff, M.post_modify_iff, M.post_get_iff,
    M.post_ite_iff]
  split_ifs with hc
  · refine M.post_mono (splitPendingAck_nextOnly fuel _ _ _ _) ?_
    intro d s2 hs2
    have h2 : NextOnly s.mem s2.mem := h1.trans hs2
    simp only [M.post_ite_iff, M.post_pure_iff, M.post_bind_iff, M.post_get_iff,
      M.post_modify_iff]
    split_ifs
    · exact h2
    · exact h2.trans (PushBackQueue_nextOnly _ _ _)
  · simp only [M.post_ite_iff, M.post_pure_iff, M.post_bind_iff, M.post_get_iff,
      M.post_modify_iff]
    have h2 : NextOnly s.mem (q.Reset.PushBackQueue
        (s.mPendingAckQueue.PushBackQueue q s.mem).1
        (s.mPendingAckQueue.PushBackQueue q s.mem).2.2).2.2 :=
      h1.trans (PushBackQueue_nextOnly _ _ _)
    split_ifs
    · exact h2
    · exact h2.trans (PushBackQueue_nextOnly _ _ _)

theorem ProcessPendingAckQueue_flags (fuel : Nat) (q : Queue) :
    Frame Impl.flags (ProcessPendingAckQueue fuel q) :=
  fun s a s' h => flags_nextOnly _ _ (ProcessPendingAckQueue_nextOnly fuel q s a s' h)

theorem DispatchEnd_flags (fuel : Nat) : Frame Impl.flags (DispatchEnd fuel) := by
  unfold DispatchEnd
  repeat' first
    | with_reducible apply ProcessPendingAckQueue_flags
    | with_reducible apply Frame.bind
    | with_reducible apply Frame.pure
    | with_reducible apply Frame.get
    | with_reducible apply Frame.ite
    | with_reducible apply Frame.ofModify
    | rfl
    | with_reducible intro _
    | split
    | dsimp only

theorem DispatchStart_flags (env : Env) (fuel : Nat) :
    Frame Impl.flags (DispatchStart env fuel) := by
  unfold DispatchStart
  repeat' first
    | with_reducible apply ProcessPendingAckQueue_flags
    | with_reducible exact Write_flags _ _ _
    | with_reducible apply Frame.bind
    | with_reducible apply Frame.pure
    | with_reducible apply Frame.get
    | with_reducible apply Frame.ite
    | with_reducible apply Frame.ofModify
    | rfl
    | with_reducible intro _
    | split
    | dsimp only

theorem Start_wiring (env : Env) (fuel : Nat) (inLogNum inLogSeq inCommittedLogSeq
    inCommittedFidSeed inCommittedErrCheckSum inCommittedStatus : Int)
    (inLogAppendMdStatePtr : Option MdStateCtx) (inLogAppendStartSeq inLogAppendLastBlockSeq : Int)
    (inLogAppendHexFlag : Bool) (inParametersPrefixPtr : Option String) (inParameters : Properties) :
    Frame Impl.wiring
      (Start env fuel inLogNum inLogSeq inCommittedLogSeq inCommittedFidSeed
        inCommittedErrCheckSum inCommittedStatus inLogAppendMdStatePtr inLogAppendStartSeq
        inLogAppendLastBlockSeq inLogAppendHexFlag inParametersPrefixPtr inParameters) := by
  unfold Start mdReset SetLogName microseconds mdSetHex
  repeat' first
    | with_reducible exact Frame.wiring_of (SetParameters_keep _ _ _) (SetParameters_fixed _ _ _)
    | with_reducible exact Frame.wiring_of (StartNextLog_keep _ _) (StartNextLog_fixed _ _)
    | with_reducible exact Frame.wiring_of (NewLog_keep _ _ _) (NewLog_fixed _ _ _)
    | with_reducible exact Frame.wiring_of (StartBlock_keep _) (StartBlock_fixed _)
    | with_reducible exact Frame.wiring_of (Close_keep _) (Close_fixed _)
    | with_reducible exact Frame.wiring_of (IoError_keep _) (IoError_fixed _)
    | with_reducible exact Frame.wiring_of IsLogStreamGood_keep IsLogStreamGood_fixed
    | with_reducible apply Frame.bind
    | with_reducible apply Frame.pure
    | with_reducible apply Frame.get
    | with_reducible apply Frame.panic
    | with_reducible apply Frame.timeout
    | with_reducible apply Frame.ite
    | with_reducible apply Frame.nextTick
    | with_reducible apply Frame.ofModify
    | rfl
    | with_reducible intro _
    | split
    | dsimp only

/-! ### The requests linked in the queues -/

theorem ScheduleFlush_owned (C : Nat → Prop) : Keeps (Owned C) ScheduleFlush := by
  refine Keeps.of_post (fun s hs => ?_)
  simp only [ScheduleFlush, M.post_bind_iff, M.post_get_iff, M.post_ite_iff, M.post_pure_iff,
    M.post_modify_iff]
  split_ifs
  · exact hs
  · exact ⟨PushBackQueue_closed hs.1 _ _ hs.2.1, PushBackQueue_rest C _ _ _,
      PushBackQueue_head _ _ _ hs.2.2.1 hs.2.1, hs.2.2.2.1, hs.2.2.2.2⟩

theorem splitPendingAck_owned (C : Nat → Prop) (n : Nat) :
    ∀ (ptr prev : Option Nat) (done : Queue) (s : Impl), Owned C s → OptIn C ptr →
      OptIn C done.Front →
      M.post (splitPendingAck n ptr prev done) s (fun r s' => Owned C s' ∧ OptIn C r.Front) := by
  induction n with
  | zero =>
    intro ptr prev done s _ _ _
    simp only [splitPendingAck, M.post_timeout_iff]
  | succ n ih =>
    intro ptr prev done s hs hp hd
    cases ptr with
    | none =>
      simp only [splitPendingAck, M.post_pure_iff]
      exact ⟨hs, hd⟩
    | some p =>
      simp only [splitPendingAck, M.post_bind_iff, M.post_get_iff, M.post_ite_iff]
      split_ifs with h1
      · cases prev with
        | none =>
          simp only [M.post_pure_iff]
          exact ⟨hs, hd⟩
        | some prev =>
          simp only [M.post_bind_iff, M.post_modify_iff, M.post_pure_iff]
          exact ⟨⟨Closed.set hs.1 prev _ (OptIn.ofNone C), hs.2.1, hs.2.2.1,
            OptIn.ofSome (hp p rfl), hs.2.2.2.2⟩, hs.2.2.2.1⟩
      · exact ih _ _ _ _ hs (fun x hx => hs.1 p x (hp p rfl) hx) hd

theorem ProcessPendingAckQueue_owned (C : Nat → Prop) (fuel : Nat) (q : Queue)
    (hq : OptIn C q.Front) : Keeps (Owned C) (ProcessPendingAckQueue fuel q) := by
  refine Keeps.of_post (fun s hs => ?_)
  have h1 : Owned C
      { s with
        mWokenFlag := false
        mPendingAckQueue := (s.mPendingAckQueue.PushBackQueue q s.mem).1
        mem := (s.mPendingAckQueue.PushBackQueue q s.mem).2.2 } :=
    ⟨PushBackQueue_closed hs.1 _ _ hq, hs.2.1, hs.2.2.1,
      PushBackQueue_head _ _ _ hs.2.2.2.1 hq, hs.2.2.2.2⟩
  have tail : ∀ (d : Queue) (s2 : Impl), Owned C s2 → OptIn C d.Front →
      Owned C
        { s2 with
          mOutQueue := (s2.mOutQueue.PushBackQueue d s2.mem).1
          mem := (s2.mOutQueue.PushBackQueue d s2.mem).2.2
          mainWakeups := s2.mainWakeups + 1 } :=
    fun d s2 hs2 hd => ⟨PushBackQueue_closed hs2.1 _ _ hd, hs2.2.1, hs2.2.2.1, hs2.2.2.2.1,
      PushBackQueue_head _ _ _ hs2.2.2.2.2 hd⟩
  simp only [ProcessPendingAckQueue, M.post_bind_iff, M.post_modify_iff, M.post_get_iff,
    M.post_ite_iff]
  split_ifs with hc
  · refine M.post_mono (splitPendingAck_owned C fuel _ _ _ _ h1 h1.2.2.2.1 (OptIn.ofNone C)) ?_
    rintro d s2 ⟨hs2, hd⟩
    simp only [M.post_ite_iff, M.post_pure_iff, M.post_bind_iff, M.post_get_iff,
      M.post_modify_iff]
    split_ifs
    · exact hs2
    · exact tail d s2 hs2 hd
  · simp only [M.post_ite_iff, M.post_pure_iff, M.post_bind_iff, M.post_get_iff,
      M.post_modify_iff]
    have h2 : Owned C
        { s with
          mWokenFlag := false
          mPendingAckQueue := (q.Reset.PushBackQueue
            (s.mPendingAckQueue.PushBackQueue q s.mem).1
            (s.mPendingAckQueue.PushBackQueue q s.mem).2.2).2.1
          mem := (q.Reset.PushBackQueue
            (s.mPendingAckQueue.PushBackQueue q s.mem).1
            (s.mPendingAckQueue.PushBackQueue q s.mem).2.2).2.2 } :=
      ⟨PushBackQueue_closed h1.1 _ _ h1.2.2.2.1, hs.2.1, hs.2.2.1, PushBackQueue_rest C _ _ _,
        hs.2.2.2.2⟩
    have hd : OptIn C (q.Reset.PushBackQueue
        (s.mPendingAckQueue.PushBackQueue q s.mem).1
        (s.mPendingAckQueue.PushBackQueue q s.mem).2.2).1.Front :=
      PushBackQueue_head _ _ _ (OptIn.ofNone C) h1.2.2.2.1
    split_ifs
    · exact h2
    · exact tail _ _ h2 hd

theorem DispatchEnd_owned (C : Nat → Prop) (fuel : Nat) : Keeps (Owned C) (DispatchEnd fuel) := by
  unfold DispatchEnd
  repeat' first
    | exact ProcessPendingAckQueue_owned C _ _ (OptIn.ofNone C)
    | with_reducible apply Keeps.kbind
    | with_reducible apply Keeps.kpure
    | with_reducible apply Keeps.kget
    | with_reducible apply Keeps.kite
    | with_reducible intro _
    | split
    | dsimp only

theorem DispatchStart_owned (C : Nat → Prop) (env : Env) (fuel : Nat) :
    Keeps (Owned C) (DispatchStart env fuel) := by
  unfold DispatchStart
  refine Keeps.kbind_get (fun s0 hs0 => ?_)
  repeat' first
    | exact ProcessPendingAckQueue_owned C _ _ (OptIn.ofNone C)
    | exact ProcessPendingAckQueue_owned C _ _ hs0.2.2.1
    | exact Keeps.owned_of_wiring C (Write_wiring _ _ _)
    | with_reducible apply Keeps.kbind
    | with_reducible apply Keeps.kpure
    | with_reducible apply Keeps.kget
    | with_reducible apply Keeps.kite
    | with_reducible apply Keeps.kmodify
    | exact fun _ hs => hs
    | exact fun _ hs => ⟨hs.1, hs.2.1, OptIn.ofNone C, hs.2.2.2.1, hs.2.2.2.2⟩
    | with_reducible intro _
    | split
    | dsimp only

theorem deliver_owned (C : Nat → Prop) (n : Nat) :
    ∀ (ptr : Option Nat), Keeps (Owned C) (deliver n ptr) := by
  induction n with
  | zero =>
    intro ptr
    exact Keeps.ktimeout
  | succ n ih =>
    intro ptr
    cases ptr with
    | none => exact Keeps.kpure _
    | some p =>
      unfold deliver
      repeat' first
        | with_reducible apply ih
        | with_reducible apply Keeps.kbind
        | with_reducible apply Keeps.kpure
        | with_reducible apply Keeps.kget
        | with_reducible apply Keeps.kpanic
        | with_reducible apply Keeps.kite
        | with_reducible apply Keeps.kmodify
        | exact fun _ hs => hs
        | exact fun _ hs => ⟨Closed.set hs.1 _ _ (OptIn.ofNone C), hs.2.1, hs.2.2.1,
            hs.2.2.2.1, hs.2.2.2.2⟩
        | with_reducible intro _
        | split
        | dsimp only

theorem Timeout_owned (C : Nat → Prop) (fuel : Nat) : Keeps (Owned C) (Timeout fuel) := by
  unfold Timeout
  repeat' first
    | with_reducible apply deliver_owned
    | with_reducible apply Keeps.kbind
    | with_reducible apply Keeps.kpure
    | with_reducible apply Keeps.kget
    | with_reducible apply Keeps.kite
    | with_reducible apply Keeps.kmodify
    | exact fun _ hs => ⟨hs.1, hs.2.1, hs.2.2.1, hs.2.2.2.1, OptIn.ofNone C⟩
    | with_reducible intro _
    | split
    | dsimp only

/-- What `Enqueue` does to the links and the flags: when the call returns
true, the requests linked after it were linked before it or are the request
passed; when it returns false, no request is added; the flag of every other
request is left as it was; the flag of the request is set when the call
returns true and left as it was when it returns false. -/
theorem Enqueue_owned (C : Nat → Prop) (env : Env) (p : Nat) (s s' : Impl) (b : Bool)
    (h : Enqueue env p s = Res.ok b s') (hs : Owned C s) :
    (b = true → Owned (fun q => C q ∨ q = p) s') ∧ (b = false → Owned C s') ∧
      (∀ q, q ≠ p → (s'.mem q).commitPendingFlag = (s.mem q).commitPendingFlag) ∧
      (b = true → (s'.mem p).commitPendingFlag = true) ∧
      (b = false → (s'.mem p).commitPendingFlag = (s.mem p).commitPendingFlag) := by
  have hfalse : ∀ r : MetaRequest,
      Enqueue env p s = Res.ok false
        { s with mNextSeq := s.mNextSeq + 1, mem := Function.update s.mem p r } →
      r.next = none → r.commitPendingFlag = (s.mem p).commitPendingFlag →
      (b = true → Owned (fun q => C q ∨ q = p) s') ∧ (b = false → Owned C s') ∧
      (∀ q, q ≠ p → (s'.mem q).commitPendingFlag = (s.mem q).commitPendingFlag) ∧
      (b = true → (s'.mem p).commitPendingFlag = true) ∧
      (b = false → (s'.mem p).commitPendingFlag = (s.mem p).commitPendingFlag) := by
    intro r he hr hf
    rw [he] at h
    cases h
    refine ⟨fun hb => absurd hb (by decide), fun _ => ?_, fun q hq => ?_,
      fun hb => absurd hb (by decide), fun _ => ?_⟩
    · exact ⟨Closed.set hs.1 p r (hr ▸ OptIn.ofNone C), hs.2.1, hs.2.2.1, hs.2.2.2.1,
        hs.2.2.2.2⟩
    · show (Function.update s.mem p r q).commitPendingFlag = _
      rw [Function.update_noteq hq]
    · show (Function.update s.mem p r p).commitPendingFlag = _
      rw [Function.update_same]
      exact hf
  rcases Bool.eq_false_or_eq_true s.mStopFlag with hstop | hstop
  · exact hfalse _ (Enqueue_stopped env p s hstop) rfl rfl
  · by_cases hsc : shortCircuits s p
    · exact hfalse _ (Enqueue_shortCircuit env p s hstop hsc) rfl rfl
    · by_cases hc : ∀ c, (s.mem p).logQueueCounter = some c →
          0 < wrapInt32 (s.counters c + 1)
      · by_cases hov : 0 < wrapInt32 (s.mPendingCount + 1)
        · rw [Enqueue_enqueued env p s hstop hsc hc hov] at h
          cases h
          refine ⟨fun _ => ?_, fun hb => absurd hb (by decide), fun q hq => ?_, fun _ => ?_,
            fun hb => absurd hb (by decide)⟩
          · exact ⟨PushBack_closed (Closed.add hs.1 p _ rfl) _ p (Or.inr rfl),
              PushBack_head _ _ p (hs.2.1.weaken (fun _ => Or.inl)) (Or.inr rfl),
              hs.2.2.1.weaken (fun _ => Or.inl), hs.2.2.2.1.weaken (fun _ => Or.inl),
              hs.2.2.2.2.weaken (fun _ => Or.inl)⟩
          · obtain ⟨nx, hx⟩ := PushBack_nextOnly s.mPendingQueue p (Function.update s.mem p
              { s.mem p with next := none, seqno := s.mNextSeq + 1, commitPendingFlag := true }) q
            show ((s.mPendingQueue.PushBack p _).2 q).commitPendingFlag = _
            rw [hx, Function.update_noteq hq]
          · obtain ⟨nx, hx⟩ := PushBack_nextOnly s.mPendingQueue p (Function.update s.mem p
              { s.mem p with next := none, seqno := s.mNextSeq + 1, commitPendingFlag := true }) p
            show ((s.mPendingQueue.PushBack p _).2 p).commitPendingFlag = true
            rw [hx, Function.update_same]
        · rw [Enqueue_pending_panic env p s hstop hsc hc (not_lt.mp hov)] at h
          cases h
      · push_neg at hc
        obtain ⟨c, hc1, hc2⟩ := hc
        rw [Enqueue_counter_panic env p s hstop hsc c hc1 hc2] at h
        cases h

theorem Move.queued_flag (env : Env) (allowed : Impl → Int → Prop) (canDispatch : Impl → Prop)
    (s s' : Impl)
    (hm : Move env (fun s p => ¬ s.queued p) allowed canDispatch s s')
    (hI : ∀ q, s.queued q → (s.mem q).commitPendingFlag = true) :
    ∀ q, s'.queued q → (s'.mem q).commitPendingFlag = true := by
  have hown := Owned.self s
  have same : Owned (fun q => s.queued q) s' → s'.flags = s.flags →
      ∀ q, s'.queued q → (s'.mem q).commitPendingFlag = true := by
    intro ho hf q hq
    have e : (s'.mem q).commitPendingFlag = (s.mem q).commitPendingFlag := congrFun hf q
    rw [e]
    exact hI q (ho.sub q hq)
  cases hm with
  | enqueue p b h =>
    obtain ⟨h1, h2, h3, h4, h5⟩ := Enqueue_owned _ env p s s' b h hown
    intro q hq
    cases b with
    | false =>
      have hq' := (h2 rfl).sub q hq
      by_cases e : q = p
      · subst e
        rw [h5 rfl]
        exact hI q hq'
      · rw [h3 q e]
        exact hI q hq'
    | true =>
      by_cases e : q = p
      · subst e
        exact h4 rfl
      · rw [h3 q e]
        rcases (h1 rfl).sub q hq with hq' | hq'
        · exact hI q hq'
        · exact absurd hq' e
  | committed p fid hcan h =>
    intro q hq
    have ho : Owned (fun q => s.queued q) s' :=
      Keeps.owned_of_wiring _ (RequestCommitted_wiring env p fid) s () s' hown h
    have hq' := ho.sub q hq
    have hne : q ≠ p := fun e => hcan (e ▸ hq')
    have hf := congrFun (RequestCommitted_flagsBut env p fid s () s' h) q
    unfold Impl.flagsBut at hf
    simp only [hne, ne_eq, not_false_eq_true, decide_True, Bool.true_and] at hf
    rw [hf]
    exact hI q hq'
  | setCommitted seq chk fid st _ h =>
    exact same (Keeps.owned_of_wiring _ (SetCommitted_wiring seq chk fid st) s () s' hown h)
      (SetCommitted_flags seq chk fid st s () s' h)
  | scheduleFlush h =>
    exact same (ScheduleFlush_owned _ s () s' hown h) (ScheduleFlush_flags s () s' h)
  | dispatchStart fuel _ h =>
    exact same (DispatchStart_owned _ env fuel s () s' hown h) (DispatchStart_flags env fuel s () s' h)
  | dispatchEnd fuel h =>
    exact same (DispatchEnd_owned _ fuel s () s' hown h) (DispatchEnd_flags fuel s () s' h)
  | timeout fuel h =>
    exact same (Timeout_owned _ fuel s () s' hown h) (Timeout_flags fuel s () s' h)
  | notify seq h =>
    exact same (Keeps.owned_of_wiring _ (Notify_wiring env seq) s () s' hown h)
      (Notify_flags env seq s () s' h)

/-- Every step leaves the flag of a request as it was, unless the step is an
`Enqueue` of the request that returns true or a `Committed` for the request. -/
theorem Move.flag_frame (env : Env) (canCommit : Impl → Nat → Prop)
    (allowed : Impl → Int → Prop) (canDispatch : Impl → Prop) (s s' : Impl)
    (hm : Move env canCommit allowed canDispatch s s') (q : Nat) :
    (s'.mem q).commitPendingFlag = (s.mem q).commitPendingFlag ∨
      (Enqueue env q s = Res.ok true s' ∧ (s'.mem q).commitPendingFlag = true) ∨
      (∃ fid, RequestCommitted env q fid s = Res.ok () s' ∧
        (s'.mem q).commitPendingFlag = false) := by
  have same : s'.flags = s.flags →
      (s'.mem q).commitPendingFlag = (s.mem q).commitPendingFlag ∨
      (Enqueue env q s = Res.ok true s' ∧ (s'.mem q).commitPendingFlag = true) ∨
      (∃ fid, RequestCommitted env q fid s = Res.ok () s' ∧
        (s'.mem q).commitPendingFlag = false) :=
    fun hf => Or.inl (congrFun hf q)
  cases hm with
  | enqueue p b h =>
    obtain ⟨-, -, h3, h4, h5⟩ := Enqueue_owned _ env p s s' b h (Owned.self s)
    by_cases e : q = p
    · subst e
      cases b with
      | false => exact Or.inl (h5 rfl)
      | true => exact Or.inr (Or.inl ⟨h, h4 rfl⟩)
    · exact Or.inl (h3 q e)
  | committed p fid hcan h =>
    by_cases e : q = p
    · subst e
      exact Or.inr (Or.inr ⟨fid, h, ((commitPendingFlag_transitions env q s s').2.2.1) fid h⟩)
    · have hf := congrFun (RequestCommitted_flagsBut env p fid s () s' h) q
      unfold Impl.flagsBut at hf
      simp only [e, ne_eq, not_false_eq_true, decide_True, Bool.true_and] at hf
      exact Or.inl hf
  | setCommitted seq chk fid st _ h => exact same (SetCommitted_flags seq chk fid st s () s' h)
  | scheduleFlush h => exact same (ScheduleFlush_flags s () s' h)
  | dispatchStart fuel _ h => exact same (DispatchStart_flags env fuel s () s' h)
  | dispatchEnd fuel h => exact same (DispatchEnd_flags fuel s () s' h)
  | timeout fuel h => exact same (Timeout_flags fuel s () s' h)
  | notify seq h => exact same (Notify_flags env seq s () s' h)

theorem Started.no_queue (env : Env) (mem : Nat → MetaRequest) (counters : Nat → Int)
    (fuel : Nat) (inLogNum inLogSeq inCommittedLogSeq inCommittedFidSeed inCommittedErrCheckSum
      inCommittedStatus : Int) (inLogAppendMdStatePtr : Option MdStateCtx)
    (inLogAppendStartSeq inLogAppendLastBlockSeq : Int) (inLogAppendHexFlag : Bool)
    (inParametersPrefixPtr : Option String) (inParameters : Properties) (r : Int × Option String)
    (s1 : Impl)
    (h : Start env fuel inLogNum inLogSeq inCommittedLogSeq inCommittedFidSeed
      inCommittedErrCheckSum inCommittedStatus inLogAppendMdStatePtr inLogAppendStartSeq
      inLogAppendLastBlockSeq inLogAppendHexFlag inParametersPrefixPtr inParameters
      (Impl.init env mem counters) = Res.ok r s1) (q : Nat) : ¬ s1.queued q := by
  have hl := Start_wiring env fuel inLogNum inLogSeq inCommittedLogSeq inCommittedFidSeed
    inCommittedErrCheckSum inCommittedStatus inLogAppendMdStatePtr inLogAppendStartSeq
    inLogAppendLastBlockSeq inLogAppendHexFlag inParametersPrefixPtr inParameters _ _ _ h
  have e1 : s1.mPendingQueue.Front = none := congrArg (fun x => x.2.1) hl
  have e2 : s1.mInQueue.Front = none := congrArg (fun x => x.2.2.1) hl
  have e3 : s1.mPendingAckQueue.Front = none := congrArg (fun x => x.2.2.2.1) hl
  have e4 : s1.mOutQueue.Front = none := congrArg (fun x => x.2.2.2.2) hl
  unfold Impl.queued
  rw [e1, e2, e3, e4]
  rintro (h | h | h | h) <;> exact h.of_none

set_option maxRecDepth 4000 in
theorem cycQueued_started :
    Started envOk (fun _ => True) (fun _ _ => True)
      (Move envOk (fun s p => ¬ s.queued p) (fun _ _ => True) (fun _ => True)) cycQueued := by
  refine ⟨fun _ => reqEx LogAction.kLogAlways 0, fun _ => 0, cycStarted, 2,
    0, 0, 100, 0, 0, 0, none, 0, 0, false, none, Properties.none, _, trivial, trivial,
    Start_fresh_eq envOk envOk_fileOk (fun _ => rfl) 0 0 0 100 0 0 0 0 0 false none
      Properties.none _ (le_refl _) (le_refl _) rfl rfl, ?_⟩
  have h1 : Move envOk (fun s p => ¬ s.queued p) (fun _ _ => True) (fun _ => True)
      cycStarted cycNotified :=
    Move.notify _ _ 0 (Notify_run envOk 0 cycStarted)
  have h2 : Move envOk (fun s p => ¬ s.queued p) (fun _ _ => True) (fun _ => True)
      cycNotified cycQueued :=
    Move.enqueue _ _ 1 true (Enqueue_enqueued envOk 1 cycNotified rfl
      (fun h => absurd (show LogAction.kLogAlways = LogAction.kLogNever ∨
          (LogAction.kLogAlways = LogAction.kLogIfOk ∧ (0 : Int) ≠ 0) from h.2) (by decide))
      (by
        intro c h
        have h' : some 0 = some c := h
        cases h'
        decide)
      (by decide))
  exact (Relation.ReflTransGen.single h1).tail h2

set_option maxRecDepth 4000 in
theorem cycQueued_queued : cycQueued.queued 1 := by
  have e : cycQueued.mPendingQueue.Front = some 1 := rfl
  unfold Impl.queued
  rw [e]
  exact Or.inl (Linked.head 1)

/-- C26 (amended): in every state that a writer reaches from its constructed
state by a successful `Start` and then `Enqueue`, `Committed` (called for a
request that is not linked in a queue), `SetCommitted`, `ScheduleFlush`,
`DispatchStart`, `DispatchEnd`, `Timeout` and `Notify` steps, every request
linked from the head of the pending, in, pending-ack or out queue has
`commitPendingFlag` true; and a further step leaves the flag of every request
as it was, unless the step is an `Enqueue` of that request returning true
(the flag is then true) or a `Committed` for that request (the flag is then
false): `Timeout`, which unlinks and delivers the request, leaves it true. -/
theorem commitPendingFlag_queued (env : Env) (s : Impl)
    (hs : Started env (fun _ => True) (fun _ _ => True)
      (Move env (fun s p => ¬ s.queued p) (fun _ _ => True) (fun _ => True)) s) :
    (∀ q, s.queued q → (s.mem q).commitPendingFlag = true) ∧
      ∀ s', Move env (fun s p => ¬ s.queued p) (fun _ _ => True) (fun _ => True) s s' → ∀ q,
        (s'.mem q).commitPendingFlag = (s.mem q).commitPendingFlag ∨
        (Enqueue env q s = Res.ok true s' ∧ (s'.mem q).commitPendingFlag = true) ∨
        (∃ fid, RequestCommitted env q fid s = Res.ok () s' ∧
          (s'.mem q).commitPendingFlag = false) := by
  refine ⟨?_, fun s' hm q => Move.flag_frame env _ _ _ s s' hm q⟩
  obtain ⟨mem, counters, s1, fuel, a1, a2, a3, a4, a5, a6, a7, a8, a9, a10, a11, a12, name, -, -,
    hstart, hsteps⟩ := hs
  induction hsteps with
  | refl =>
    intro q hq
    exact absurd hq (Started.no_queue env mem counters fuel a1 a2 a3 a4 a5 a6 a7 a8 a9 a10 a11
      a12 _ s1 hstart q)
  | tail _ hm ih => exact Move.queued_flag env _ _ _ _ hm ih

theorem commitPendingFlag_queued_witness :
    cycQueued.queued 1 ∧ (cycQueued.mem 1).commitPendingFlag = true ∧
      ((∀ q, cycQueued.queued q → (cycQueued.mem q).commitPendingFlag = true) ∧
        ∀ s', Move envOk (fun s p => ¬ s.queued p) (fun _ _ => True) (fun _ => True)
            cycQueued s' → ∀ q,
          (s'.mem q).commitPendingFlag = (cycQueued.mem q).commitPendingFlag ∨
          (Enqueue envOk q cycQueued = Res.ok true s' ∧ (s'.mem q).commitPendingFlag = true) ∨
          (∃ fid, RequestCommitted envOk q fid cycQueued = Res.ok () s' ∧
            (s'.mem q).commitPendingFlag = false)) :=
  ⟨cycQueued_queued,
    (commitPendingFlag_queued envOk cycQueued cycQueued_started).1 1 cycQueued_queued,
    commitPendingFlag_queued envOk cycQueued cycQueued_started⟩

section TriRules
variable {α β : Type} {P R : Impl → Prop}

theorem Tri.of_keeps {m : M α} {Q : α → Impl → Prop} (h : Keeps P m)
    (hq : ∀ a s, P s → Q a s) : Tri P m Q :=
  fun s hs a s' hm => hq a s' (h s a s' hs hm)

theorem Tri.bindK {m : M α} {g : α → M β} {Q : β → Impl → Prop} (hm : Keeps P m)
    (hg : ∀ a, Tri P (g a) Q) : Tri P (m >>= g) Q := by
  intro s hs
  rw [M.post_bind_iff]
  intro a s1 h1
  exact hg a s1 (hm s a s1 hs h1)

theorem Tri.bindT {m : M α} {g : α → M β} {Q : β → Impl → Prop} (R : α → Impl → Prop)
    (hm : Tri P m R) (hg : ∀ a, Tri (R a) (g a) Q) : Tri P (m >>= g) Q := by
  intro s hs
  rw [M.post_bind_iff]
  intro a s1 h1
  exact hg a s1 (hm s hs a s1 h1)

theorem Tri.modifyTo {f : Impl → Impl} {g : Unit → M β} {Q : β → Impl → Prop}
    (R : Impl → Prop) (hf : ∀ s, P s → R (f s)) (hg : Tri R (g ()) Q) :
    Tri P (M.modify f >>= g) Q := by
  intro s hs
  rw [M.post_bind_iff, M.post_modify_iff]
  exact hg _ (hf s hs)

theorem Tri.getK {g : Impl → M β} {Q : β → Impl → Prop}
    (hg : ∀ s0, P s0 → Tri P (g s0) Q) : Tri P (M.get >>= g) Q := by
  intro s hs
  rw [M.post_bind_iff, M.post_get_iff]
  exact hg s hs s hs

theorem Tri.pureT {a : α} {Q : α → Impl → Prop} (h : ∀ s, P s → Q a s) :
    Tri P (Pure.pure a : M α) Q := by
  intro s hs
  rw [M.post_pure_iff]
  exact h s hs

theorem Tri.iteT (c : Prop) [Decidable c] {a b : M α} {Q : α → Impl → Prop}
    (ha : c → Tri P a Q) (hb : ¬ c → Tri P b Q) : Tri P (if c then a else b) Q := by
  intro s hs
  split
  · exact ha ‹_› s hs
  · exact hb ‹_› s hs

theorem Keeps.any {m : M α} : Keeps (fun _ => True) m := fun _ _ _ _ _ => trivial

theorem Keeps.kiteC {I : Impl → Prop} (c : Prop) [Decidable c] {a b : M α}
    (ha : c → Keeps I a) (hb : ¬ c → Keeps I b) : Keeps I (if c then a else b) := by
  split
  · exact ha ‹_›
  · exact hb ‹_›

theorem Keeps.and {I J : Impl → Prop} {m : M α} (h1 : Keeps I m) (h2 : Keeps J m) :
    Keeps (fun s => I s ∧ J s) m :=
  fun s a s' hs hm => ⟨h1 s a s' hs.1 hm, h2 s a s' hs.2 hm⟩

theorem Keeps.kjp {γ : Type} {I : Impl → Prop} {k : γ → M β} {body : (γ → M β) → M α}
    (hk : ∀ y, Keeps I (k y))
    (hb : ∀ jp : γ → M β, (∀ y, Keeps I (jp y)) → Keeps I (body jp)) :
    Keeps I (letFun k body) := hb k hk

end TriRules

section WInvRules
variable {m0 : Nat → MetaRequest} {n0 : Int}

theorem WInv.k_congr {s s' : Impl} (hs : WInv m0 n0 s) (hm : s'.mem = s.mem)
    (h1 : s'.mNextLogSeq = s.mNextLogSeq) (h2 : s'.mLastLogSeq = s.mLastLogSeq) :
    WInv m0 n0 s' := by
  unfold WInv
  rw [hm, h1, h2]
  exact hs

theorem WInv.of_wseq {s s' : Impl} (h : s'.wseq = s.wseq) (hs : WInv m0 n0 s) :
    WInv m0 n0 s' := by
  unfold Impl.wseq at h
  simp only [Prod.mk.injEq] at h
  exact hs.k_congr h.1 h.2.1 h.2.2.1

theorem WInv.k_frame {α : Type} {m : M α} (h : Frame Impl.wseq m) : Keeps (WInv m0 n0) m :=
  Keeps.kframe (fun _ _ e hs => WInv.of_wseq e hs) h

theorem setReq_mem_same (s : Impl) (p : Nat) (f : MetaRequest → MetaRequest) :
    (s.setReq p f).mem p = f (s.mem p) := by
  unfold Impl.setReq
  exact Function.update_same _ _ _

theorem setReq_mem_other (s : Impl) (p q : Nat) (f : MetaRequest → MetaRequest) (h : q ≠ p) :
    (s.setReq p f).mem q = s.mem q := by
  unfold Impl.setReq
  exact Function.update_noteq h _ _

theorem WInv.k_setReq {s : Impl} (hs : WInv m0 n0 s) (p : Nat) (f : MetaRequest → MetaRequest)
    (hf : ∀ r, (f r).logseq = r.logseq ∧ (f r).blockStartSeq = r.blockStartSeq ∧
      (f r).blockEndSeq = r.blockEndSeq) : WInv m0 n0 (s.setReq p f) := by
  obtain ⟨h1, h2, h3, h4⟩ := hs
  refine ⟨h1, h2, fun q => ?_, fun q => ?_⟩
  · by_cases e : q = p
    · subst e
      rw [setReq_mem_same, (hf _).1]
      exact h3 q
    · rw [setReq_mem_other _ _ _ _ e]
      exact h3 q
  · by_cases e : q = p
    · subst e
      rw [setReq_mem_same, (hf _).2.1, (hf _).2.2]
      exact h4 q
    · rw [setReq_mem_other _ _ _ _ e]
      exact h4 q

theorem WInv.setLogseq {s : Impl} (hs : WInv m0 n0 s) (p : Nat) (f : MetaRequest → MetaRequest)
    (hf : ∀ r, ((f r).logseq = -1 ∨ n0 < (f r).logseq) ∧
      (f r).blockStartSeq = r.blockStartSeq ∧ (f r).blockEndSeq = r.blockEndSeq) :
    WInv m0 n0 (s.setReq p f) := by
  obtain ⟨h1, h2, h3, h4⟩ := hs
  refine ⟨h1, h2, fun q => ?_, fun q => ?_⟩
  · by_cases e : q = p
    · subst e
      rw [setReq_mem_same]
      exact Or.inr (hf _).1
    · rw [setReq_mem_other _ _ _ _ e]
      exact h3 q
  · by_cases e : q = p
    · subst e
      rw [setReq_mem_same, (hf _).2.1, (hf _).2.2]
      exact h4 q
    · rw [setReq_mem_other _ _ _ _ e]
      exact h4 q

theorem WInv.seqs {s s' : Impl} (hs : WInv m0 n0 s) (hm : s'.mem = s.mem)
    (h1 : n0 ≤ s'.mNextLogSeq) (h2 : s'.mNextLogSeq ≤ s'.mLastLogSeq) : WInv m0 n0 s' := by
  unfold WInv
  rw [hm]
  exact ⟨h1, h2, hs.2.2.1, hs.2.2.2⟩

theorem WInv.k_toLast {s s' : Impl} (hs : WInv m0 n0 s) (hm : s'.mem = s.mem)
    (h1 : s'.mNextLogSeq = s.mLastLogSeq) (h2 : s'.mLastLogSeq = s.mLastLogSeq) :
    WInv m0 n0 s' :=
  hs.seqs hm (h1 ▸ le_trans hs.1 hs.2.1) (by rw [h1, h2])

theorem WInv.k_toNext {s s' : Impl} (hs : WInv m0 n0 s) (hm : s'.mem = s.mem)
    (h1 : s'.mNextLogSeq = s.mNextLogSeq) (h2 : s'.mLastLogSeq = s.mNextLogSeq) :
    WInv m0 n0 s' :=
  hs.seqs hm (h1 ▸ hs.1) (by rw [h1, h2])

theorem WInv.toSeq {s s' : Impl} (hs : WInv m0 n0 s) (L : Int) (hL : n0 ≤ L)
    (hm : s'.mem = s.mem) (h1 : s'.mNextLogSeq = L) (h2 : s'.mLastLogSeq = L) :
    WInv m0 n0 s' :=
  hs.seqs hm (h1 ▸ hL) (by rw [h1, h2])

theorem WInv.le_last {s : Impl} (hs : WInv m0 n0 s) : n0 ≤ s.mLastLogSeq :=
  le_trans hs.1 hs.2.1

theorem WInv.le_next {s : Impl} (hs : WInv m0 n0 s) : n0 ≤ s.mNextLogSeq := hs.1

theorem WInv.blockEnd {s : Impl} (hs : WInv m0 n0 s) (p : Nat)
    (h : ¬ (s.mem p).blockStartSeq ≠ s.mLastLogSeq) : n0 ≤ (s.mem p).blockEndSeq := by
  have e : (s.mem p).blockStartSeq = s.mLastLogSeq := not_not.mp h
  have := hs.2.2.2 p
  have := hs.le_last
  omega

theorem WInv.block {s : Impl} (hs : WInv m0 n0 s) (p : Nat) (f : MetaRequest → MetaRequest)
    (hf : ∀ r, (f r).logseq = r.logseq ∧ (f r).blockStartSeq = r.blockStartSeq ∧
      (f r).blockEndSeq = r.blockEndSeq) (e : Int) (he : n0 ≤ e) :
    WInv m0 n0 { (s.setReq p f) with mLastLogSeq := e, mNextLogSeq := e } :=
  (hs.k_setReq p f hf).seqs rfl he (le_refl _)

theorem WInv.incr {s : Impl} (hs : WInv m0 n0 s) (p : Nat) :
    WInv m0 n0
      { (s.setReq p fun r => { r with logseq := s.mLastLogSeq + 1 }) with
        mLastLogSeq := s.mLastLogSeq + 1 } := by
  have hl := hs.le_last
  have h2 : s.mNextLogSeq ≤ s.mLastLogSeq := hs.2.1
  have h := hs.setLogseq p (fun r => { r with logseq := s.mLastLogSeq + 1 })
    (fun r => ⟨Or.inr (show n0 < s.mLastLogSeq + 1 by omega), rfl, rfl⟩)
  exact h.seqs rfl hs.1 (show s.mNextLogSeq ≤ s.mLastLogSeq + 1 by omega)

end WInvRules

section WritePath
variable (m0 : Nat → MetaRequest) (n0 : Int)

theorem NewLog_winv (env : Env) (fuel : Nat) (L : Int) (hL : n0 ≤ L) :
    Keeps (WInv m0 n0) (NewLog env fuel L) := by
  unfold NewLog SetLogName microseconds DisplayIsoDateTime mdReset mdClear mdSetHex mdSetSync
  repeat' first
    | with_reducible apply WInv.k_frame (Close_wseq _)
    | with_reducible apply WInv.k_frame (IoError_wseq _)
    | with_reducible apply WInv.k_frame (Sync_wseq _)
    | with_reducible apply WInv.k_frame (StartBlock_wseq _)
    | with_reducible apply WInv.k_frame (mdWrite_wseq _ _ _)
    | with_reducible apply WInv.k_frame (mdFlush_wseq _ _)
    | with_reducible apply WInv.k_frame (FlushBlock_wseq _ _ _)
    | with_reducible apply WInv.k_frame IsLogStreamGood_wseq
    | with_reducible apply WInv.k_frame (IsSimulateFailure_wseq _)
    | with_reducible apply Keeps.kbind
    | with_reducible apply Keeps.kpure
    | with_reducible apply Keeps.kget
    | with_reducible apply Keeps.kpanic
    | with_reducible apply Keeps.ktimeout
    | with_reducible apply Keeps.kite
    | (with_reducible apply Keeps.ktick; intro _ hs; exact hs.k_congr (by with_reducible rfl) (by with_reducible rfl) (by with_reducible rfl))
    | (with_reducible apply Keeps.kmodify; intro _ hs; first
        | exact hs.k_congr (by with_reducible rfl) (by with_reducible rfl) (by with_reducible rfl)
        | exact hs.toSeq L hL (by with_reducible rfl) (by with_reducible rfl) (by with_reducible rfl)
        | exact hs.k_toLast (by with_reducible rfl) (by with_reducible rfl) (by with_reducible rfl)
        | exact hs.k_toNext (by with_reducible rfl) (by with_reducible rfl) (by with_reducible rfl))
    | with_reducible intro _
    | split
    | dsimp only

theorem CloseLog_winv (env : Env) (fuel : Nat) : Keeps (WInv m0 n0) (CloseLog env fuel) := by
  unfold CloseLog DisplayIsoDateTime mdSetSync
  repeat' first
    | with_reducible apply WInv.k_frame (Close_wseq _)
    | with_reducible apply WInv.k_frame (IoError_wseq _)
    | with_reducible apply WInv.k_frame (Sync_wseq _)
    | with_reducible apply WInv.k_frame (StartBlock_wseq _)
    | with_reducible apply WInv.k_frame (mdWrite_wseq _ _ _)
    | with_reducible apply WInv.k_frame (mdFlush_wseq _ _)
    | with_reducible apply WInv.k_frame (FlushBlock_wseq _ _ _)
    | with_reducible apply WInv.k_frame IsLogStreamGood_wseq
    | with_reducible apply WInv.k_frame (IsSimulateFailure_wseq _)
    | with_reducible apply Keeps.kbind
    | with_reducible apply Keeps.kpure
    | with_reducible apply Keeps.kget
    | with_reducible apply Keeps.kpanic
    | with_reducible apply Keeps.ktimeout
    | with_reducible apply Keeps.kite
    | (with_reducible apply Keeps.ktick; intro _ hs; exact hs.k_congr (by with_reducible rfl) (by with_reducible rfl) (by with_reducible rfl))
    | (with_reducible apply Keeps.kmodify; intro _ hs; first
        | exact hs.k_congr (by with_reducible rfl) (by with_reducible rfl) (by with_reducible rfl)
        | exact hs.k_toNext (by with_reducible rfl) (by with_reducible rfl) (by with_reducible rfl))
    | with_reducible intro _
    | split
    | dsimp only

theorem StartNextLog_winv (env : Env) (fuel : Nat) :
    Keeps (WInv m0 n0) (StartNextLog env fuel) := by
  unfold StartNextLog
  repeat' first
    | with_reducible apply CloseLog_winv
    | (with_reducible apply NewLog_winv; exact WInv.le_last (by assumption))
    | with_reducible apply Keeps.kbind_get
    | with_reducible apply Keeps.kbind
    | with_reducible apply Keeps.kpure
    | with_reducible apply Keeps.kget
    | with_reducible apply Keeps.kpanic
    | with_reducible apply Keeps.ktimeout
    | with_reducible apply Keeps.kite
    | (with_reducible apply Keeps.ktick; intro _ hs; exact hs.k_congr (by with_reducible rfl) (by with_reducible rfl) (by with_reducible rfl))
    | (with_reducible apply Keeps.kmodify; intro _ hs; first
        | exact hs.k_congr (by with_reducible rfl) (by with_reducible rfl) (by with_reducible rfl))
    | with_reducible intro _
    | split
    | dsimp only

theorem SetParameters_winv (env : Env) (pre : Option String) (inParameters : Properties) :
    Keeps (WInv m0 n0) (SetParameters env pre inParameters) := by
  unfold SetParameters
  repeat' first
    | with_reducible apply Keeps.kbind
    | with_reducible apply Keeps.kpure
    | with_reducible apply Keeps.kget
    | with_reducible apply Keeps.kpanic
    | with_reducible apply Keeps.ktimeout
    | with_reducible apply Keeps.kite
    | (with_reducible apply Keeps.ktick; intro _ hs; exact hs.k_congr (by with_reducible rfl) (by with_reducible rfl) (by with_reducible rfl))
    | (with_reducible apply Keeps.kmodify; intro _ hs; first
        | exact hs.k_congr (by with_reducible rfl) (by with_reducible rfl) (by with_reducible rfl))
    | with_reducible intro _
    | split
    | dsimp only

theorem Control_winv (env : Env) (fuel : Nat) (p : Nat) :
    Keeps (WInv m0 n0) (Control env fuel p) := by
  unfold Control
  repeat' first
    | with_reducible apply WInv.k_frame IsLogStreamGood_wseq
    | with_reducible apply SetParameters_winv
    | with_reducible apply StartNextLog_winv
    | with_reducible apply Keeps.kbind
    | with_reducible apply Keeps.kpure
    | with_reducible apply Keeps.kget
    | with_reducible apply Keeps.kpanic
    | with_reducible apply Keeps.ktimeout
    | with_reducible apply Keeps.kite
    | (with_reducible apply Keeps.ktick; intro _ hs; exact hs.k_congr (by with_reducible rfl) (by with_reducible rfl) (by with_reducible rfl))
    | (with_reducible apply Keeps.kmodify; intro _ hs; first
        | (with_reducible apply WInv.k_setReq hs; exact fun _ => ⟨rfl, rfl, rfl⟩))
    | with_reducible intro _
    | split
    | dsimp only

theorem LogError_winv (env : Env) (p : Nat) : Keeps (WInv m0 n0) (LogError env p) := by
  unfold LogError
  exact Keeps.kmodify (fun _ hs => hs.setLogseq _ _ (fun _ => ⟨Or.inl rfl, rfl, rfl⟩))

theorem WriteBlock_winv (env : Env) (fuel : Nat) (p : Nat) :
    Keeps (WInv m0 n0) (WriteBlock env fuel p) := by
  unfold WriteBlock mdSetSync mdClearBuffer
  refine Keeps.kbind_get (fun s0 hs0 => ?_)
  repeat' first
    | with_reducible apply WInv.k_frame (Close_wseq _)
    | with_reducible apply WInv.k_frame (IoError_wseq _)
    | with_reducible apply WInv.k_frame (Sync_wseq _)
    | with_reducible apply WInv.k_frame (StartBlock_wseq _)
    | with_reducible apply WInv.k_frame (mdWrite_wseq _ _ _)
    | with_reducible apply WInv.k_frame (mdFlush_wseq _ _)
    | with_reducible apply WInv.k_frame (FlushBlock_wseq _ _ _)
    | with_reducible apply WInv.k_frame IsLogStreamGood_wseq
    | with_reducible apply WInv.k_frame (IsSimulateFailure_wseq _)
    | with_reducible apply Keeps.kbind
    | with_reducible apply Keeps.kpure
    | with_reducible apply Keeps.kget
    | with_reducible apply Keeps.kpanic
    | with_reducible apply Keeps.ktimeout
    | with_reducible apply Keeps.kiteC
    | (with_reducible apply Keeps.ktick; intro _ hs; exact hs.k_congr (by with_reducible rfl) (by with_reducible rfl) (by with_reducible rfl))
    | (with_reducible apply Keeps.kmodify; intro _ hs; first
        | exact hs.k_congr (by with_reducible rfl) (by with_reducible rfl) (by with_reducible rfl)
        | (with_reducible apply WInv.k_setReq hs; exact fun _ => ⟨rfl, rfl, rfl⟩)
        | (with_reducible apply WInv.block hs; exact fun _ => ⟨rfl, rfl, rfl⟩; exact hs0.blockEnd _ (by assumption)))
    | with_reducible intro _
    | split
    | dsimp only

theorem WriteFailed_winv (env : Env) (n : Nat) :
    ∀ (ptr e : Option Nat), Keeps (WInv m0 n0) (WriteFailed env n ptr e) := by
  induction n with
  | zero =>
    intro ptr e
    exact Keeps.ktimeout
  | succ n ih =>
    intro ptr e
    unfold WriteFailed
    repeat' first
      | with_reducible apply ih
      | with_reducible apply LogError_winv
      | with_reducible apply Keeps.kbind
      | with_reducible apply Keeps.kpure
      | with_reducible apply Keeps.kget
      | with_reducible apply Keeps.kpanic
      | with_reducible apply Keeps.ktimeout
      | with_reducible apply Keeps.kite
      | (with_reducible apply Keeps.ktick; intro _ hs; exact hs.k_congr (by with_reducible rfl) (by with_reducible rfl) (by with_reducible rfl))
      | (with_reducible apply Keeps.kmodify; intro _ hs; first
          | exact hs.k_congr (by with_reducible rfl) (by with_reducible rfl) (by with_reducible rfl))
      | with_reducible intro _
      | split
      | dsimp only

end WritePath

section TriMore
variable {α β : Type} {P P' : Impl → Prop}

theorem Tri.pre {m : M α} {Q : α → Impl → Prop} (hP : ∀ s, P s → P' s) (h : Tri P' m Q) :
    Tri P m Q := fun s hs => h s (hP s hs)

theorem Tri.panicBind {msg : String} {g : α → M β} {Q : β → Impl → Prop} :
    Tri P ((M.panic msg : M α) >>= g) Q := by
  intro s hs
  rw [M.post_bind_iff]
  intro a s1 h1
  simp only [M.panic_run] at h1
  cases h1

theorem Tri.toKeeps {I : Impl → Prop} {m : M α} (h : Tri I m (fun _ s' => I s')) : Keeps I m :=
  fun s a s' hs hm => h s hs a s' hm

end TriMore

section WriteLoop
variable (m0 : Nat → MetaRequest) (n0 : Int)

theorem WInv.strict_of_wseq {s s' : Impl} (h : s'.wseq = s.wseq)
    (hs : WInv m0 n0 s ∧ s.mNextLogSeq < s.mLastLogSeq) :
    WInv m0 n0 s' ∧ s'.mNextLogSeq < s'.mLastLogSeq := by
  refine ⟨WInv.of_wseq h hs.1, ?_⟩
  unfold Impl.wseq at h
  simp only [Prod.mk.injEq] at h
  rw [h.2.1, h.2.2.1]
  exact hs.2

theorem WInv.decr {s : Impl} (hs : WInv m0 n0 s ∧ s.mNextLogSeq < s.mLastLogSeq) :
    WInv m0 n0 { s with mLastLogSeq := s.mLastLogSeq - 1 } := by
  have h2 := hs.2
  exact hs.1.seqs rfl hs.1.1 (show s.mNextLogSeq ≤ s.mLastLogSeq - 1 by omega)

theorem WInv.incr_strict {s : Impl} (hs : WInv m0 n0 s) (p : Nat) :
    WInv m0 n0
        { (s.setReq p fun r => { r with logseq := s.mLastLogSeq + 1 }) with
          mLastLogSeq := s.mLastLogSeq + 1 } ∧
      ({ (s.setReq p fun r => { r with logseq := s.mLastLogSeq + 1 }) with
          mLastLogSeq := s.mLastLogSeq + 1 } : Impl).mNextLogSeq <
        ({ (s.setReq p fun r => { r with logseq := s.mLastLogSeq + 1 }) with
          mLastLogSeq := s.mLastLogSeq + 1 } : Impl).mLastLogSeq := by
  have h2 : s.mNextLogSeq ≤ s.mLastLogSeq := hs.2.1
  exact ⟨hs.incr p, show s.mNextLogSeq < s.mLastLogSeq + 1 by omega⟩

theorem WriteInner_winv (env : Env) (fuel : Nat) (n : Nat) :
    ∀ (ptr : Option Nat) (eb : Int) (sim up : Bool),
      Keeps (WInv m0 n0) (WriteInner env fuel n ptr eb sim up) := by
  induction n with
  | zero =>
    intro ptr eb sim up
    exact Keeps.ktimeout
  | succ n ih =>
    intro ptr eb sim up
    cases ptr with
    | none => exact Keeps.kpure _
    | some p =>
      unfold WriteInner
      refine Keeps.kbind_get (fun s0 hs0 => ?_)
      refine Keeps.kite _ ?ctl (Keeps.kite _ (ih _ _ _ _) ?main)
      case ctl =>
        repeat' first
          | with_reducible apply ih
          | with_reducible apply Control_winv
          | with_reducible apply Keeps.kbind
          | with_reducible apply Keeps.kpure
          | with_reducible apply Keeps.kget
          | with_reducible apply Keeps.kite
          | with_reducible intro _
          | dsimp only
      case main =>
        dsimp only
        refine Keeps.kite _ (Keeps.kite _ (Keeps.kpure _)
          (Keeps.kbind (Keeps.kpure _) (fun _ => ?seg))) ?rest
        case rest =>
          repeat' first
            | with_reducible apply ih
            | with_reducible apply Keeps.kbind
            | with_reducible apply Keeps.kpure
            | with_reducible apply Keeps.kget
            | with_reducible apply Keeps.kite
            | with_reducible intro _
            | dsimp only
        case seg =>
          refine Tri.toKeeps (Tri.modifyTo
            (fun s => WInv m0 n0 s ∧ s.mNextLogSeq < s.mLastLogSeq)
            (fun s hs => by exact WInv.incr_strict m0 n0 hs p) ?_)
          refine Tri.getK (fun s1 _ => ?_)
          refine Tri.bindK (Keeps.kframe (fun _ _ e hs => WInv.strict_of_wseq m0 n0 e hs)
            (mdWrite_wseq _ _ _)) (fun _ => ?_)
          refine Tri.bindK (Keeps.kmodify (fun _ hs => WInv.strict_of_wseq m0 n0 rfl hs))
            (fun _ => ?_)
          refine Tri.iteT _ (fun _ => Tri.panicBind)
            (fun _ => Tri.bindK (Keeps.kpure _) (fun _ => ?_))
          refine Tri.getK (fun s2 _ => Tri.iteT _ (fun _ => ?dec) (fun _ => ?keep))
          case dec =>
            refine Tri.modifyTo (WInv m0 n0) (fun s hs => by exact WInv.decr m0 n0 hs)
              (Tri.of_keeps ?_ (fun _ _ h => h))
            repeat' first
              | with_reducible apply ih
              | with_reducible apply LogError_winv
              | with_reducible apply Keeps.kbind
              | with_reducible apply Keeps.kpure
              | with_reducible apply Keeps.kget
              | with_reducible apply Keeps.kite
              | with_reducible intro _
              | dsimp only
          case keep =>
            refine Tri.pre (fun _ h => by exact h.1) (Tri.of_keeps ?_ (fun _ _ h => h))
            repeat' first
              | with_reducible apply ih
              | with_reducible apply Keeps.kbind
              | with_reducible apply Keeps.kpure
              | with_reducible apply Keeps.kget
              | with_reducible apply Keeps.kite
              | with_reducible intro _
              | dsimp only

theorem WriteBatches_winv (env : Env) (fuel : Nat) (n : Nat) :
    ∀ (ptr : Option Nat), Keeps (WInv m0 n0) (WriteBatches env fuel n ptr) := by
  induction n with
  | zero =>
    intro ptr
    exact Keeps.ktimeout
  | succ n ih =>
    intro ptr
    cases ptr with
    | none => exact Keeps.kpure _
    | some p =>
      unfold WriteBatches
      repeat' first
        | with_reducible apply WInv.k_frame (FlushBlock_wseq _ _ _)
        | with_reducible apply WInv.k_frame IsLogStreamGood_wseq
        | with_reducible apply WInv.k_frame (IsSimulateFailure_wseq _)
        | with_reducible apply ih
        | with_reducible apply WriteInner_winv
        | with_reducible apply WriteFailed_winv
        | with_reducible apply WriteBlock_winv
        | with_reducible apply Keeps.kbind
        | with_reducible apply Keeps.kpure
        | with_reducible apply Keeps.kget
        | with_reducible apply Keeps.kpanic
        | with_reducible apply Keeps.ktimeout
        | with_reducible apply Keeps.kite
        | (with_reducible apply Keeps.ktick; intro _ hs; exact hs.k_congr (by with_reducible rfl) (by with_reducible rfl) (by with_reducible rfl))
        | (with_reducible apply Keeps.kmodify; intro _ hs; first
            | exact hs.k_toNext (by with_reducible rfl) (by with_reducible rfl) (by with_reducible rfl)
            | exact hs.k_toLast (by with_reducible rfl) (by with_reducible rfl) (by with_reducible rfl))
        | with_reducible intro _
        | split
        | dsimp only

theorem Write_winv (env : Env) (fuel : Nat) (head : Nat) :
    Keeps (WInv m0 n0) (Write env fuel head) := by
  unfold Write mdSetSync microseconds
  repeat' first
    | with_reducible apply WInv.k_frame (FlushBlock_wseq _ _ _)
    | with_reducible apply WInv.k_frame IsLogStreamGood_wseq
    | with_reducible apply WInv.k_frame (IsSimulateFailure_wseq _)
    | with_reducible apply StartNextLog_winv
    | with_reducible apply WriteBatches_winv
    | (with_reducible apply NewLog_winv; exact WInv.le_next (by assumption))
    | with_reducible apply Keeps.kbind_get
    | with_reducible apply Keeps.kbind
    | with_reducible apply Keeps.kpure
    | with_reducible apply Keeps.kget
    | with_reducible apply Keeps.kpanic
    | with_reducible apply Keeps.ktimeout
    | with_reducible apply Keeps.kite
    | (with_reducible apply Keeps.ktick; intro _ hs; exact hs.k_congr (by with_reducible rfl) (by with_reducible rfl) (by with_reducible rfl))
    | (with_reducible apply Keeps.kmodify; intro _ hs; first
        | exact hs.k_congr (by with_reducible rfl) (by with_reducible rfl) (by with_reducible rfl))
    | with_reducible intro _
    | split
    | dsimp only

end WriteLoop

section SeqRules

theorem gauge_eq {s s' : Impl} (h : s'.gauge = s.gauge) :
    s'.mCommitted = s.mCommitted ∧ s'.mPendingCommitted = s.mPendingCommitted ∧
      s'.mNextLogSeq = s.mNextLogSeq ∧ s'.mLastLogSeq = s.mLastLogSeq := by
  unfold Impl.gauge at h
  simp only [Prod.mk.injEq] at h
  exact h

theorem blocks_eq {s s' : Impl} (h : s'.blocks = s.blocks) (q : Nat) :
    (s'.mem q).blockStartSeq = (s.mem q).blockStartSeq ∧
      (s'.mem q).blockEndSeq = (s.mem q).blockEndSeq := by
  have e := congrFun h q
  unfold Impl.blocks at e
  simp only [Prod.mk.injEq] at e
  exact e

theorem SeqInv.of_gauge {s s' : Impl} (hg : s'.gauge = s.gauge) (hb : s'.blocks = s.blocks)
    (hs : SeqInv s) : SeqInv s' := by
  obtain ⟨g1, g2, g3, g4⟩ := gauge_eq hg
  unfold SeqInv
  rw [g1, g2, g3, g4]
  refine ⟨hs.1, hs.2.1, hs.2.2.1, fun q => ?_⟩
  rw [(blocks_eq hb q).1, (blocks_eq hb q).2]
  exact hs.2.2.2 q

theorem blocks_nextOnly (s s' : Impl) (h : NextOnly s.mem s'.mem) : s'.blocks = s.blocks := by
  funext q
  obtain ⟨nx, hx⟩ := h q
  unfold Impl.blocks
  rw [hx]

theorem blocks_update (s s' : Impl) (p : Nat) (r : MetaRequest)
    (hm : s'.mem = Function.update s.mem p r)
    (h1 : r.blockStartSeq = (s.mem p).blockStartSeq)
    (h2 : r.blockEndSeq = (s.mem p).blockEndSeq) : s'.blocks = s.blocks := by
  funext q
  unfold Impl.blocks
  rw [hm]
  by_cases hq : q = p
  · subst hq
    rw [Function.update_same, h1, h2]
  · rw [Function.update_noteq hq]

theorem Frame.blocks_of_fixed {α : Type} {m : M α} (hf : Frame Impl.fixed m) :
    Frame Impl.blocks m := by
  intro s a s' h
  have h2 := hf s a s' h
  funext q
  have e := congrFun h2 q
  unfold Impl.fixed at e
  simp only [Prod.mk.injEq] at e
  unfold Impl.blocks
  rw [e.2.2.2.1, e.2.2.2.2]

theorem Frame.gauge_of {α : Type} {m : M α} (hk : Frame Impl.keep m) (hw : Frame Impl.wseq m) :
    Frame Impl.gauge m := by
  intro s a s' h
  have h1 := hk s a s' h
  have h2 := hw s a s' h
  have e1 : s'.mCommitted = s.mCommitted := congrArg (fun x => x.mCommitted) h1
  have e2 : s'.mPendingCommitted = s.mPendingCommitted :=
    congrArg (fun x => x.mPendingCommitted) h1
  unfold Impl.wseq at h2
  simp only [Prod.mk.injEq] at h2
  unfold Impl.gauge
  rw [e1, e2, h2.2.1, h2.2.2.1]

theorem splitPendingAck_gauge (n : Nat) :
    ∀ (ptr prev : Option Nat) (q : Queue), Frame Impl.gauge (splitPendingAck n ptr prev q) := by
  induction n with
  | zero =>
    intro ptr prev q
    exact Frame.timeout
  | succ n ih =>
    intro ptr prev q
    cases ptr with
    | none => exact Frame.pure _
    | some p =>
      unfold splitPendingAck
      repeat' first
        | with_reducible apply ih
        | with_reducible apply Frame.bind
        | with_reducible apply Frame.pure
        | with_reducible apply Frame.get
        | with_reducible apply Frame.panic
        | with_reducible apply Frame.timeout
        | with_reducible apply Frame.ite
        | with_reducible apply Frame.nextTick
        | with_reducible apply Frame.ofModify
        | exact blocks_update _ _ _ _ rfl rfl rfl
        | rfl
        | with_reducible intro _
        | split
        | dsimp only

theorem ProcessPendingAckQueue_gauge (fuel : Nat) (q : Queue) :
    Frame Impl.gauge (ProcessPendingAckQueue fuel q) := by
  unfold ProcessPendingAckQueue
  repeat' first
    | with_reducible apply splitPendingAck_gauge
    | with_reducible apply Frame.bind
    | with_reducible apply Frame.pure
    | with_reducible apply Frame.get
    | with_reducible apply Frame.panic
    | with_reducible apply Frame.timeout
    | with_reducible apply Frame.ite
    | with_reducible apply Frame.nextTick
    | with_reducible apply Frame.ofModify
    | exact blocks_update _ _ _ _ rfl rfl rfl
    | rfl
    | with_reducible intro _
    | split
    | dsimp only

theorem ProcessPendingAckQueue_blocks (fuel : Nat) (q : Queue) :
    Frame Impl.blocks (ProcessPendingAckQueue fuel q) :=
  fun s a s' h => blocks_nextOnly _ _ (ProcessPendingAckQueue_nextOnly fuel q s a s' h)

theorem DispatchEnd_gauge (fuel : Nat) : Frame Impl.gauge (DispatchEnd fuel) := by
  unfold DispatchEnd
  repeat' first
    | with_reducible apply ProcessPendingAckQueue_gauge
    | with_reducible apply Frame.bind
    | with_reducible apply Frame.pure
    | with_reducible apply Frame.get
    | with_reducible apply Frame.panic
    | with_reducible apply Frame.timeout
    | with_reducible apply Frame.ite
    | with_reducible apply Frame.nextTick
    | with_reducible apply Frame.ofModify
    | exact blocks_update _ _ _ _ rfl rfl rfl
    | rfl
    | with_reducible intro _
    | split
    | dsimp only

theorem DispatchEnd_blocks (fuel : Nat) : Frame Impl.blocks (DispatchEnd fuel) := by
  unfold DispatchEnd
  repeat' first
    | with_reducible apply ProcessPendingAckQueue_blocks
    | with_reducible apply Frame.bind
    | with_reducible apply Frame.pure
    | with_reducible apply Frame.get
    | with_reducible apply Frame.panic
    | with_reducible apply Frame.timeout
    | with_reducible apply Frame.ite
    | with_reducible apply Frame.nextTick
    | with_reducible apply Frame.ofModify
    | exact blocks_update _ _ _ _ rfl rfl rfl
    | rfl
    | with_reducible intro _
    | split
    | dsimp only

theorem deliver_gauge (n : Nat) : ∀ (ptr : Option Nat), Frame Impl.gauge (deliver n ptr) := by
  induction n with
  | zero =>
    intro ptr
    exact Frame.timeout
  | succ n ih =>
    intro ptr
    cases ptr with
    | none => exact Frame.pure _
    | some p =>
      unfold deliver
      repeat' first
        | with_reducible apply ih
        | with_reducible apply Frame.bind
        | with_reducible apply Frame.pure
        | with_reducible apply Frame.get
        | with_reducible apply Frame.panic
        | with_reducible apply Frame.timeout
        | with_reducible apply Frame.ite
        | with_reducible apply Frame.nextTick
        | with_reducible apply Frame.ofModify
        | exact blocks_update _ _ _ _ rfl rfl rfl
        | rfl
        | with_reducible intro _
        | split
        | dsimp only

theorem deliver_blocks (n : Nat) : ∀ (ptr : Option Nat), Frame Impl.blocks (deliver n ptr) := by
  induction n with
  | zero =>
    intro ptr
    exact Frame.timeout
  | succ n ih =>
    intro ptr
    cases ptr with
    | none => exact Frame.pure _
    | some p =>
      unfold deliver
      repeat' first
        | with_reducible apply ih
        | with_reducible apply Frame.bind
        | with_reducible apply Frame.pure
        | with_reducible apply Frame.get
        | with_reducible apply Frame.panic
        | with_reducible apply Frame.timeout
        | with_reducible apply Frame.ite
        | with_reducible apply Frame.nextTick
        | with_reducible apply Frame.ofModify
        | exact blocks_update _ _ _ _ rfl rfl rfl
        | rfl
        | with_reducible intro _
        | split
        | dsimp only

theorem Timeout_gauge (fuel : Nat) : Frame Impl.gauge (Timeout fuel) := by
  unfold Timeout
  repeat' first
    | with_reducible apply deliver_gauge
    | with_reducible apply Frame.bind
    | with_reducible apply Frame.pure
    | with_reducible apply Frame.get
    | with_reducible apply Frame.panic
    | with_reducible apply Frame.timeout
    | with_reducible apply Frame.ite
    | with_reducible apply Frame.nextTick
    | with_reducible apply Frame.ofModify
    | exact blocks_update _ _ _ _ rfl rfl rfl
    | rfl
    | with_reducible intro _
    | split
    | dsimp only

theorem Timeout_blocks (fuel : Nat) : Frame Impl.blocks (Timeout fuel) := by
  unfold Timeout
  repeat' first
    | with_reducible apply deliver_blocks
    | with_reducible apply Frame.bind
    | with_reducible apply Frame.pure
    | with_reducible apply Frame.get
    | with_reducible apply Frame.panic
    | with_reducible apply Frame.timeout
    | with_reducible apply Frame.ite
    | with_reducible apply Frame.nextTick
    | with_reducible apply Frame.ofModify
    | exact blocks_update _ _ _ _ rfl rfl rfl
    | rfl
    | with_reducible intro _
    | split
    | dsimp only

theorem Notify_gauge (env : Env) (seq : Int) : Frame Impl.gauge (Notify env seq) := by
  unfold Notify
  repeat' first
    | with_reducible apply Frame.bind
    | with_reducible apply Frame.pure
    | with_reducible apply Frame.get
    | with_reducible apply Frame.panic
    | with_reducible apply Frame.timeout
    | with_reducible apply Frame.ite
    | with_reducible apply Frame.nextTick
    | with_reducible apply Frame.ofModify
    | exact blocks_update _ _ _ _ rfl rfl rfl
    | rfl
    | with_reducible intro _
    | split
    | dsimp only

theorem Notify_blocks (env : Env) (seq : Int) : Frame Impl.blocks (Notify env seq) := by
  unfold Notify
  repeat' first
    | with_reducible apply Frame.bind
    | with_reducible apply Frame.pure
    | with_reducible apply Frame.get
    | with_reducible apply Frame.panic
    | with_reducible apply Frame.timeout
    | with_reducible apply Frame.ite
    | with_reducible apply Frame.nextTick
    | with_reducible apply Frame.ofModify
    | exact blocks_update _ _ _ _ rfl rfl rfl
    | rfl
    | with_reducible intro _
    | split
    | dsimp only

theorem Start_fixed (env : Env) (fuel : Nat) (inLogNum inLogSeq inCommittedLogSeq
    inCommittedFidSeed inCommittedErrCheckSum inCommittedStatus : Int)
    (inLogAppendMdStatePtr : Option MdStateCtx) (inLogAppendStartSeq inLogAppendLastBlockSeq : Int)
    (inLogAppendHexFlag : Bool) (inParametersPrefixPtr : Option String) (inParameters : Properties) :
    Frame Impl.fixed
      (Start env fuel inLogNum inLogSeq inCommittedLogSeq inCommittedFidSeed
        inCommittedErrCheckSum inCommittedStatus inLogAppendMdStatePtr inLogAppendStartSeq
        inLogAppendLastBlockSeq inLogAppendHexFlag inParametersPrefixPtr inParameters) := by
  unfold Start mdReset SetLogName microseconds mdSetHex
  repeat' first
    | with_reducible apply SetParameters_fixed
    | with_reducible apply StartNextLog_fixed
    | with_reducible apply NewLog_fixed
    | with_reducible apply StartBlock_fixed
    | with_reducible apply Close_fixed
    | with_reducible apply IoError_fixed
    | with_reducible apply IsLogStreamGood_fixed
    | with_reducible apply Frame.bind
    | with_reducible apply Frame.pure
    | with_reducible apply Frame.get
    | with_reducible apply Frame.panic
    | with_reducible apply Frame.timeout
    | with_reducible apply Frame.ite
    | with_reducible apply Frame.nextTick
    | with_reducible apply Frame.ofModify
    | rfl
    | with_reducible intro _
    | split
    | dsimp only

theorem DispatchStart_seq (env : Env) (fuel : Nat) (s s' : Impl)
    (h : DispatchStart env fuel s = Res.ok () s') (hs : SeqInv s) :
    SeqInv s' ∧ ∀ q, (s'.mem q).logseq = (s.mem q).logseq ∨ (s'.mem q).logseq = -1 ∨
      s'.mInFlightCommitted.mSeq < (s'.mem q).logseq := by
  have key : M.post (DispatchStart env fuel) s (fun _ s' =>
      SeqInv s' ∧ ∀ q, (s'.mem q).logseq = (s.mem q).logseq ∨ (s'.mem q).logseq = -1 ∨
        s'.mInFlightCommitted.mSeq < (s'.mem q).logseq) := by
    have led : ∀ {s1 s2 : Impl}, s2.ledger = s1.ledger →
        s2.mCommitted = s1.mCommitted ∧ s2.mPendingCommitted = s1.mPendingCommitted ∧
          s2.mInFlightCommitted = s1.mInFlightCommitted ∧
          s2.mMaxDoneLogSeq = s1.mMaxDoneLogSeq := by
      intro s1 s2 h
      unfold Impl.ledger at h
      simp only [Prod.mk.injEq] at h
      exact h
    have tailNone : ∀ s1 : Impl, s1.gauge = s.gauge → s1.mem = s.mem →
        M.post (ProcessPendingAckQueue fuel Queue.empty) s1 (fun _ s' =>
          SeqInv s' ∧ ∀ q, (s'.mem q).logseq = (s.mem q).logseq ∨ (s'.mem q).logseq = -1 ∨
            s'.mInFlightCommitted.mSeq < (s'.mem q).logseq) := by
      intro s1 g1 m1 a s2 h2
      have g2 := ProcessPendingAckQueue_gauge fuel _ s1 a s2 h2
      have n2 := ProcessPendingAckQueue_nextOnly fuel _ s1 a s2 h2
      rw [m1] at n2
      exact ⟨SeqInv.of_gauge (g2.trans g1) (blocks_nextOnly _ _ n2) hs,
        fun q => Or.inl (n2.logseq_eq q)⟩
    have tailSome : ∀ (head : Nat) (s1 : Impl), s1.gauge = s.gauge → s1.mem = s.mem →
        s1.mInFlightCommitted = s.mPendingCommitted →
        M.post (Write env fuel head) s1 (fun _ s2 =>
          M.post (ProcessPendingAckQueue fuel s.mInQueue) s2 (fun _ s' =>
            SeqInv s' ∧ ∀ q, (s'.mem q).logseq = (s.mem q).logseq ∨ (s'.mem q).logseq = -1 ∨
              s'.mInFlightCommitted.mSeq < (s'.mem q).logseq)) := by
      intro head s1 g1 m1 f1 a s2 h2 b s3 h3
      obtain ⟨c1, p1, n1, l1⟩ := gauge_eq g1
      have w0 : ∀ n0, n0 ≤ s.mNextLogSeq → WInv s.mem n0 s1 := by
        intro n0 hn
        unfold WInv
        rw [n1, l1, m1]
        exact ⟨hn, hs.2.2.1, fun q => Or.inl rfl, hs.2.2.2⟩
      have wP := Write_winv s.mem s.mPendingCommitted.mSeq env fuel head s1 a s2
        (w0 _ hs.2.1) h2
      have wC := Write_winv s.mem s.mCommitted.mSeq env fuel head s1 a s2 (w0 _ hs.1) h2
      obtain ⟨c2, p2, f2, -⟩ := led ((Write_keep env fuel head).ledger_of_keep s1 a s2 h2)
      obtain ⟨c3, p3, f3, -⟩ := led (ProcessPendingAckQueue_ledger fuel _ s2 b s3 h3)
      obtain ⟨-, -, n3, l3⟩ := gauge_eq (ProcessPendingAckQueue_gauge fuel _ s2 b s3 h3)
      have nx := ProcessPendingAckQueue_nextOnly fuel _ s2 b s3 h3
      refine ⟨⟨?_, ?_, ?_, fun q => ?_⟩, fun q => ?_⟩
      · rw [c3, c2, c1, n3]
        exact wC.1
      · rw [p3, p2, p1, n3]
        exact wP.1
      · rw [n3, l3]
        exact wP.2.1
      · rw [(blocks_eq (blocks_nextOnly _ _ nx) q).1, (blocks_eq (blocks_nextOnly _ _ nx) q).2]
        exact wP.2.2.2 q
      · rw [nx.logseq_eq q, f3, f2, f1]
        exact wP.2.2.1 q
    simp only [DispatchStart, M.post_bind_iff, M.post_get_iff, M.post_ite_iff, M.post_modify_iff,
      M.post_pure_iff]
    cases hq : s.mInQueue.Front with
    | none =>
      simp only [M.post_bind_iff, M.post_ite_iff, M.post_pure_iff]
      split_ifs
      all_goals first
        | exact tailNone _ rfl rfl
        | exact ⟨hs, fun q => Or.inl rfl⟩
        | exact ⟨hs, fun q => Or.inl trivial⟩
        | exact ⟨hs, fun q => trivial⟩
        | exact hs
    | some head =>
      simp only [M.post_bind_iff, M.post_modify_iff, M.post_pure_iff]
      split_ifs
      · exact tailSome head _ rfl rfl rfl
      · exact tailSome head _ rfl rfl rfl
  exact key () s' h

end SeqRules

section StartSeq
variable {α : Type} {c L : Int}

theorem BInv.b_congr {s s' : Impl} (hs : BInv c s) (h1 : s'.mCommitted = s.mCommitted)
    (h2 : s'.mPendingCommitted = s.mPendingCommitted) : BInv c s' := by
  unfold BInv
  rw [h1, h2]
  exact hs

theorem BInv.start {s' : Impl} (h1 : s'.mCommitted.mSeq = c)
    (h2 : s'.mPendingCommitted.mSeq = c) : BInv c s' := ⟨h1, h2⟩

theorem BInv.b_frame {m : M α} (hk : Frame Impl.keep m) : Keeps (BInv c) m :=
  Keeps.kframe (fun s s' e hs => BInv.b_congr hs (congrArg (fun x => x.mCommitted) e)
    (congrArg (fun x => x.mPendingCommitted) e)) hk

theorem CInv.c_congr {s s' : Impl} (hs : CInv c L s) (h1 : s'.mCommitted = s.mCommitted)
    (h2 : s'.mPendingCommitted = s.mPendingCommitted) (h3 : s'.mNextLogSeq = s.mNextLogSeq)
    (h4 : s'.mLastLogSeq = s.mLastLogSeq) : CInv c L s' := by
  unfold CInv
  rw [h1, h2, h3, h4]
  exact hs

theorem CInv.ofB {s s' : Impl} (hs : BInv c s) (h1 : s'.mCommitted = s.mCommitted)
    (h2 : s'.mPendingCommitted = s.mPendingCommitted) (h3 : s'.mNextLogSeq = L)
    (h4 : s'.mLastLogSeq = L) : CInv c L s' := by
  unfold CInv
  rw [h1, h2]
  exact ⟨hs.1, hs.2, h3, h4⟩

theorem CInv.setSeq {s s' : Impl} (hs : CInv c L s) (h1 : s'.mCommitted = s.mCommitted)
    (h2 : s'.mPendingCommitted = s.mPendingCommitted) (h3 : s'.mNextLogSeq = L)
    (h4 : s'.mLastLogSeq = L) : CInv c L s' :=
  CInv.ofB ⟨hs.1, hs.2.1⟩ h1 h2 h3 h4

theorem CInv.c_toLast {s s' : Impl} (hs : CInv c L s) (h1 : s'.mCommitted = s.mCommitted)
    (h2 : s'.mPendingCommitted = s.mPendingCommitted) (h3 : s'.mNextLogSeq = s.mLastLogSeq)
    (h4 : s'.mLastLogSeq = s.mLastLogSeq) : CInv c L s' :=
  hs.setSeq h1 h2 (h3.trans hs.2.2.2) (h4.trans hs.2.2.2)

theorem CInv.c_toNext {s s' : Impl} (hs : CInv c L s) (h1 : s'.mCommitted = s.mCommitted)
    (h2 : s'.mPendingCommitted = s.mPendingCommitted) (h3 : s'.mNextLogSeq = s.mNextLogSeq)
    (h4 : s'.mLastLogSeq = s.mNextLogSeq) : CInv c L s' :=
  hs.setSeq h1 h2 (h3.trans hs.2.2.1) (h4.trans hs.2.2.1)

theorem CInv.c_frame {m : M α} (hk : Frame Impl.keep m) (hw : Frame Impl.wseq m) :
    Keeps (CInv c L) m :=
  Keeps.kframe (fun s s' e hs => by
    obtain ⟨g1, g2, g3, g4⟩ := gauge_eq e
    exact hs.c_congr g1 g2 g3 g4) (Frame.gauge_of hk hw)

theorem CInv.last {s : Impl} (hs : CInv c L s) : s.mLastLogSeq = L := hs.2.2.2

theorem Tri.ofC {m : M α} (h : Keeps (CInv c L) m) :
    Tri (CInv c L) m (fun _ s' => CInv c L s') :=
  Tri.of_keeps h (fun _ _ hs => hs)

end StartSeq

section StartSeq2
variable (c L : Int)

theorem NewLog_cinv (env : Env) (fuel : Nat) (L' : Int) (h : L' = L) :
    Keeps (CInv c L) (NewLog env fuel L') := by
  subst h
  unfold NewLog SetLogName microseconds DisplayIsoDateTime mdReset mdClear mdSetHex mdSetSync
  repeat' first
    | with_reducible apply CInv.c_frame (Close_keep _) (Close_wseq _)
    | with_reducible apply CInv.c_frame (IoError_keep _) (IoError_wseq _)
    | with_reducible apply CInv.c_frame (Sync_keep _) (Sync_wseq _)
    | with_reducible apply CInv.c_frame (StartBlock_keep _) (StartBlock_wseq _)
    | with_reducible apply CInv.c_frame (mdWrite_keep _ _ _) (mdWrite_wseq _ _ _)
    | with_reducible apply CInv.c_frame (mdFlush_keep _ _) (mdFlush_wseq _ _)
    | with_reducible apply CInv.c_frame (FlushBlock_keep _ _ _) (FlushBlock_wseq _ _ _)
    | with_reducible apply CInv.c_frame IsLogStreamGood_keep IsLogStreamGood_wseq
    | with_reducible apply Keeps.kbind
    | with_reducible apply Keeps.kpure
    | with_reducible apply Keeps.kget
    | with_reducible apply Keeps.kpanic
    | with_reducible apply Keeps.ktimeout
    | with_reducible apply Keeps.kite
    | (with_reducible apply Keeps.ktick; intro _ hs; first
        | exact BInv.b_congr hs (by with_reducible rfl) (by with_reducible rfl)
        | exact CInv.c_congr hs (by with_reducible rfl) (by with_reducible rfl) (by with_reducible rfl) (by with_reducible rfl))
    | (with_reducible apply Keeps.kmodify; intro _ hs; first
        | exact BInv.b_congr hs (by with_reducible rfl) (by with_reducible rfl)
        | exact CInv.c_congr hs (by with_reducible rfl) (by with_reducible rfl) (by with_reducible rfl) (by with_reducible rfl)
        | exact CInv.setSeq hs (by with_reducible rfl) (by with_reducible rfl) (by with_reducible rfl) (by with_reducible rfl)
        | exact CInv.c_toLast hs (by with_reducible rfl) (by with_reducible rfl) (by with_reducible rfl) (by with_reducible rfl)
        | exact CInv.c_toNext hs (by with_reducible rfl) (by with_reducible rfl) (by with_reducible rfl) (by with_reducible rfl))
    | with_reducible intro _
    | split
    | dsimp only

theorem CloseLog_cinv (env : Env) (fuel : Nat) : Keeps (CInv c L) (CloseLog env fuel) := by
  unfold CloseLog DisplayIsoDateTime mdSetSync
  repeat' first
    | with_reducible apply CInv.c_frame (Close_keep _) (Close_wseq _)
    | with_reducible apply CInv.c_frame (IoError_keep _) (IoError_wseq _)
    | with_reducible apply CInv.c_frame (Sync_keep _) (Sync_wseq _)
    | with_reducible apply CInv.c_frame (StartBlock_keep _) (StartBlock_wseq _)
    | with_reducible apply CInv.c_frame (mdWrite_keep _ _ _) (mdWrite_wseq _ _ _)
    | with_reducible apply CInv.c_frame (mdFlush_keep _ _) (mdFlush_wseq _ _)
    | with_reducible apply CInv.c_frame (FlushBlock_keep _ _ _) (FlushBlock_wseq _ _ _)
    | with_reducible apply CInv.c_frame IsLogStreamGood_keep IsLogStreamGood_wseq
    | with_reducible apply Keeps.kbind
    | with_reducible apply Keeps.kpure
    | with_reducible apply Keeps.kget
    | with_reducible apply Keeps.kpanic
    | with_reducible apply Keeps.ktimeout
    | with_reducible apply Keeps.kite
    | (with_reducible apply Keeps.ktick; intro _ hs; first
        | exact BInv.b_congr hs (by with_reducible rfl) (by with_reducible rfl)
        | exact CInv.c_congr hs (by with_reducible rfl) (by with_reducible rfl) (by with_reducible rfl) (by with_reducible rfl))
    | (with_reducible apply Keeps.kmodify; intro _ hs; first
        | exact BInv.b_congr hs (by with_reducible rfl) (by with_reducible rfl)
        | exact CInv.c_congr hs (by with_reducible rfl) (by with_reducible rfl) (by with_reducible rfl) (by with_reducible rfl)
        | exact CInv.setSeq hs (by with_reducible rfl) (by with_reducible rfl) (by with_reducible rfl) (by with_reducible rfl)
        | exact CInv.c_toLast hs (by with_reducible rfl) (by with_reducible rfl) (by with_reducible rfl) (by with_reducible rfl)
        | exact CInv.c_toNext hs (by with_reducible rfl) (by with_reducible rfl) (by with_reducible rfl) (by with_reducible rfl))
    | with_reducible intro _
    | split
    | dsimp only

theorem StartNextLog_cinv (env : Env) (fuel : Nat) :
    Keeps (CInv c L) (StartNextLog env fuel) := by
  unfold StartNextLog
  repeat' first
    | with_reducible apply CloseLog_cinv
    | (with_reducible apply NewLog_cinv; exact CInv.last (by assumption))
    | with_reducible apply CInv.c_frame (Close_keep _) (Close_wseq _)
    | with_reducible apply CInv.c_frame (IoError_keep _) (IoError_wseq _)
    | with_reducible apply CInv.c_frame (Sync_keep _) (Sync_wseq _)
    | with_reducible apply CInv.c_frame (StartBlock_keep _) (StartBlock_wseq _)
    | with_reducible apply CInv.c_frame (mdWrite_keep _ _ _) (mdWrite_wseq _ _ _)
    | with_reducible apply CInv.c_frame (mdFlush_keep _ _) (mdFlush_wseq _ _)
    | with_reducible apply CInv.c_frame (FlushBlock_keep _ _ _) (FlushBlock_wseq _ _ _)
    | with_reducible apply CInv.c_frame IsLogStreamGood_keep IsLogStreamGood_wseq
    | with_reducible apply Keeps.kbind_get
    | with_reducible apply Keeps.kbind
    | with_reducible apply Keeps.kpure
    | with_reducible apply Keeps.kget
    | with_reducible apply Keeps.kpanic
    | with_reducible apply Keeps.ktimeout
    | with_reducible apply Keeps.kite
    | (with_reducible apply Keeps.ktick; intro _ hs; first
        | exact BInv.b_congr hs (by with_reducible rfl) (by with_reducible rfl)
        | exact CInv.c_congr hs (by with_reducible rfl) (by with_reducible rfl) (by with_reducible rfl) (by with_reducible rfl))
    | (with_reducible apply Keeps.kmodify; intro _ hs; first
        | exact BInv.b_congr hs (by with_reducible rfl) (by with_reducible rfl)
        | exact CInv.c_congr hs (by with_reducible rfl) (by with_reducible rfl) (by with_reducible rfl) (by with_reducible rfl)
        | exact CInv.setSeq hs (by with_reducible rfl) (by with_reducible rfl) (by with_reducible rfl) (by with_reducible rfl)
        | exact CInv.c_toLast hs (by with_reducible rfl) (by with_reducible rfl) (by with_reducible rfl) (by with_reducible rfl)
        | exact CInv.c_toNext hs (by with_reducible rfl) (by with_reducible rfl) (by with_reducible rfl) (by with_reducible rfl))
    | with_reducible intro _
    | split
    | dsimp only

theorem NewLog_tri (env : Env) (fuel : Nat) :
    Tri (BInv c) (NewLog env fuel L) (fun _ s' => CInv c L s') := by
  unfold NewLog SetLogName microseconds DisplayIsoDateTime mdReset mdClear mdSetHex mdSetSync
  repeat' first
    | with_reducible apply Tri.ofC
    | (with_reducible apply Tri.modifyTo (CInv c L); intro _ hs; exact CInv.ofB hs (by with_reducible rfl) (by with_reducible rfl) (by with_reducible rfl) (by with_reducible rfl))
    | with_reducible apply Tri.getK
    | with_reducible apply Tri.bindK
    | with_reducible apply Tri.iteT
    | with_reducible apply BInv.b_frame (Close_keep _)
    | with_reducible apply CInv.c_frame (Close_keep _) (Close_wseq _)
    | with_reducible apply CInv.c_frame (IoError_keep _) (IoError_wseq _)
    | with_reducible apply CInv.c_frame (Sync_keep _) (Sync_wseq _)
    | with_reducible apply CInv.c_frame (StartBlock_keep _) (StartBlock_wseq _)
    | with_reducible apply CInv.c_frame (mdWrite_keep _ _ _) (mdWrite_wseq _ _ _)
    | with_reducible apply CInv.c_frame (mdFlush_keep _ _) (mdFlush_wseq _ _)
    | with_reducible apply CInv.c_frame (FlushBlock_keep _ _ _) (FlushBlock_wseq _ _ _)
    | with_reducible apply CInv.c_frame IsLogStreamGood_keep IsLogStreamGood_wseq
    | with_reducible apply Keeps.kbind
    | with_reducible apply Keeps.kpure
    | with_reducible apply Keeps.kget
    | with_reducible apply Keeps.kite
    | (with_reducible apply Keeps.ktick; intro _ hs; first
        | exact BInv.b_congr hs (by with_reducible rfl) (by with_reducible rfl)
        | exact CInv.c_congr hs (by with_reducible rfl) (by with_reducible rfl) (by with_reducible rfl) (by with_reducible rfl))
    | (with_reducible apply Keeps.kmodify; intro _ hs; first
        | exact BInv.b_congr hs (by with_reducible rfl) (by with_reducible rfl)
        | exact CInv.c_congr hs (by with_reducible rfl) (by with_reducible rfl) (by with_reducible rfl) (by with_reducible rfl)
        | exact CInv.setSeq hs (by with_reducible rfl) (by with_reducible rfl) (by with_reducible rfl) (by with_reducible rfl)
        | exact CInv.c_toLast hs (by with_reducible rfl) (by with_reducible rfl) (by with_reducible rfl) (by with_reducible rfl)
        | exact CInv.c_toNext hs (by with_reducible rfl) (by with_reducible rfl) (by with_reducible rfl) (by with_reducible rfl))
    | with_reducible intro _
    | split
    | dsimp only

theorem Start_tri (env : Env) (fuel : Nat) (inLogNum inCommittedFidSeed inCommittedErrCheckSum
    inCommittedStatus : Int) (inLogAppendMdStatePtr : Option MdStateCtx)
    (inLogAppendStartSeq inLogAppendLastBlockSeq : Int) (inLogAppendHexFlag : Bool)
    (inParametersPrefixPtr : Option String) (inParameters : Properties) :
    Tri (fun _ => True)
      (Start env fuel inLogNum L c inCommittedFidSeed inCommittedErrCheckSum
        inCommittedStatus inLogAppendMdStatePtr inLogAppendStartSeq inLogAppendLastBlockSeq
        inLogAppendHexFlag inParametersPrefixPtr inParameters)
      (fun r s' => r.2.isSome = true → CInv c L s') := by
  unfold Start mdReset SetLogName microseconds mdSetHex
  repeat' first
    | with_reducible apply Keeps.any
    | (with_reducible apply Tri.pureT; intro _ hs; first | exact fun _ => hs | (intro h2; exact absurd h2 (by simp)))
    | (with_reducible apply Tri.modifyTo (CInv c L); intro _ hs; exact CInv.ofB hs (by with_reducible rfl) (by with_reducible rfl) (by with_reducible rfl) (by with_reducible rfl))
    | (with_reducible apply Tri.modifyTo (BInv c); intro _ _; exact BInv.start (by with_reducible rfl) (by with_reducible rfl))
    | with_reducible apply Tri.bindT (fun _ => CInv c L) (NewLog_tri c L _ _)
    | with_reducible apply StartNextLog_cinv
    | with_reducible apply Tri.getK
    | with_reducible apply Tri.bindK
    | with_reducible apply Tri.iteT
    | with_reducible apply BInv.b_frame (Close_keep _)
    | with_reducible apply CInv.c_frame (Close_keep _) (Close_wseq _)
    | with_reducible apply CInv.c_frame (IoError_keep _) (IoError_wseq _)
    | with_reducible apply CInv.c_frame (Sync_keep _) (Sync_wseq _)
    | with_reducible apply CInv.c_frame (StartBlock_keep _) (StartBlock_wseq _)
    | with_reducible apply CInv.c_frame (mdWrite_keep _ _ _) (mdWrite_wseq _ _ _)
    | with_reducible apply CInv.c_frame (mdFlush_keep _ _) (mdFlush_wseq _ _)
    | with_reducible apply CInv.c_frame (FlushBlock_keep _ _ _) (FlushBlock_wseq _ _ _)
    | with_reducible apply CInv.c_frame IsLogStreamGood_keep IsLogStreamGood_wseq
    | with_reducible apply Keeps.kbind
    | with_reducible apply Keeps.kpure
    | with_reducible apply Keeps.kget
    | with_reducible apply Keeps.kite
    | (with_reducible apply Keeps.ktick; intro _ hs; first
        | exact BInv.b_congr hs (by with_reducible rfl) (by with_reducible rfl)
        | exact CInv.c_congr hs (by with_reducible rfl) (by with_reducible rfl) (by with_reducible rfl) (by with_reducible rfl))
    | (with_reducible apply Keeps.kmodify; intro _ hs; first
        | exact BInv.b_congr hs (by with_reducible rfl) (by with_reducible rfl)
        | exact CInv.c_congr hs (by with_reducible rfl) (by with_reducible rfl) (by with_reducible rfl) (by with_reducible rfl)
        | exact CInv.setSeq hs (by with_reducible rfl) (by with_reducible rfl) (by with_reducible rfl) (by with_reducible rfl)
        | exact CInv.c_toLast hs (by with_reducible rfl) (by with_reducible rfl) (by with_reducible rfl) (by with_reducible rfl)
        | exact CInv.c_toNext hs (by with_reducible rfl) (by with_reducible rfl) (by with_reducible rfl) (by with_reducible rfl))
    | with_reducible intro _
    | split
    | dsimp only

end StartSeq2

section Claim27

theorem Start_seqInv (env : Env) (mem : Nat → MetaRequest) (counters : Nat → Int) (fuel : Nat)
    (inLogNum inLogSeq inCommittedLogSeq inCommittedFidSeed inCommittedErrCheckSum
      inCommittedStatus : Int) (inLogAppendMdStatePtr : Option MdStateCtx)
    (inLogAppendStartSeq inLogAppendLastBlockSeq : Int) (inLogAppendHexFlag : Bool)
    (inParametersPrefixPtr : Option String) (inParameters : Properties) (name : String)
    (s1 : Impl) (hmem : ∀ q, (mem q).blockStartSeq ≤ (mem q).blockEndSeq)
    (hcl : inCommittedLogSeq ≤ inLogSeq)
    (h : Start env fuel inLogNum inLogSeq inCommittedLogSeq inCommittedFidSeed
      inCommittedErrCheckSum inCommittedStatus inLogAppendMdStatePtr inLogAppendStartSeq
      inLogAppendLastBlockSeq inLogAppendHexFlag inParametersPrefixPtr inParameters
      (Impl.init env mem counters) = Res.ok (0, some name) s1) : SeqInv s1 := by
  have hc : CInv inCommittedLogSeq inLogSeq s1 :=
    Start_tri inCommittedLogSeq inLogSeq env fuel inLogNum inCommittedFidSeed
      inCommittedErrCheckSum inCommittedStatus inLogAppendMdStatePtr inLogAppendStartSeq
      inLogAppendLastBlockSeq inLogAppendHexFlag inParametersPrefixPtr inParameters
      (Impl.init env mem counters) trivial _ _ h rfl
  have hb : s1.blocks = (Impl.init env mem counters).blocks :=
    Frame.blocks_of_fixed (Start_fixed env fuel inLogNum inLogSeq inCommittedLogSeq
      inCommittedFidSeed inCommittedErrCheckSum inCommittedStatus inLogAppendMdStatePtr
      inLogAppendStartSeq inLogAppendLastBlockSeq inLogAppendHexFlag inParametersPrefixPtr
      inParameters) _ _ _ h
  refine ⟨?_, ?_, ?_, fun q => ?_⟩
  · rw [hc.1, hc.2.2.1]
    exact hcl
  · rw [hc.2.1, hc.2.2.1]
    exact hcl
  · rw [hc.2.2.1, hc.2.2.2]
  · rw [(blocks_eq hb q).1, (blocks_eq hb q).2]
    exact hmem q

theorem blocks_pushBack_update (s s' : Impl) (q : Queue) (p : Nat) (r : MetaRequest)
    (hm : s'.mem = (q.PushBack p (Function.update s.mem p r)).2)
    (h1 : r.blockStartSeq = (s.mem p).blockStartSeq)
    (h2 : r.blockEndSeq = (s.mem p).blockEndSeq) : s'.blocks = s.blocks := by
  funext x
  obtain ⟨nx, hx⟩ := PushBack_nextOnly q p (Function.update s.mem p r) x
  unfold Impl.blocks
  rw [hm, hx]
  by_cases hq : x = p
  · subst hq
    rw [Function.update_same]
    exact Prod.ext h1 h2
  · rw [Function.update_noteq hq]

theorem Enqueue_seqInv (env : Env) (p : Nat) (s s' : Impl) (b : Bool)
    (h : Enqueue env p s = Res.ok b s') (hs : SeqInv s) : SeqInv s' := by
  rcases Bool.eq_false_or_eq_true s.mStopFlag with hstop | hstop
  · rw [Enqueue_stopped env p s hstop] at h
    cases h
    exact SeqInv.of_gauge (s := s) rfl (blocks_update s _ p _ rfl rfl rfl) hs
  · by_cases hsc : shortCircuits s p
    · rw [Enqueue_shortCircuit env p s hstop hsc] at h
      cases h
      exact SeqInv.of_gauge (s := s) rfl (blocks_update s _ p _ rfl rfl rfl) hs
    · by_cases hc : ∀ c, (s.mem p).logQueueCounter = some c →
          0 < wrapInt32 (s.counters c + 1)
      · by_cases hov : 0 < wrapInt32 (s.mPendingCount + 1)
        · rw [Enqueue_enqueued env p s hstop hsc hc hov] at h
          cases h
          exact SeqInv.of_gauge (s := s) rfl (blocks_pushBack_update s _ _ p _ rfl rfl rfl) hs
        · rw [Enqueue_pending_panic env p s hstop hsc hc (not_lt.mp hov)] at h
          cases h
      · push_neg at hc
        obtain ⟨c, hc1, hc2⟩ := hc
        rw [Enqueue_counter_panic env p s hstop hsc c hc1 hc2] at h
        cases h

theorem RequestCommitted_seqInv (env : Env) (p : Nat) (fid : Int) (s s' : Impl)
    (h : RequestCommitted env p fid s = Res.ok () s') (hs : SeqInv s)
    (hcan : (s.mem p).logseq ≤ s.mNextLogSeq) : SeqInv s' := by
  have hd : SeqInv (afterDecrement s p) :=
    SeqInv.of_gauge (s := s) rfl (blocks_update s _ p _ rfl rfl rfl) hs
  rcases RequestCommitted_cases env p fid s with ⟨-, e⟩ | ⟨-, c, -, -, e⟩ | ⟨-, -, -, e⟩ |
    ⟨-, -, -, -, e⟩ | ⟨-, -, -, -, -, e⟩ | ⟨-, -, hl, -, ho, e⟩
  · rw [e] at h
    cases h
    exact hs
  · rw [e] at h
    cases h
  · rw [e] at h
    cases h
    exact hd
  · rw [e] at h
    cases h
  · rw [e] at h
    cases h
  · rw [e] at h
    cases h
    exact ⟨hcan, hd.2.1, hd.2.2.1, hd.2.2.2⟩

theorem ScheduleFlush_seqInv (s s' : Impl) (h : ScheduleFlush s = Res.ok () s')
    (hs : SeqInv s) : SeqInv s' := by
  rcases Bool.eq_false_or_eq_true s.mPendingQueue.IsEmpty with he | he
  · rw [ScheduleFlush_empty s he] at h
    cases h
    exact hs
  · rw [ScheduleFlush_nonempty s he] at h
    cases h
    have hb := blocks_nextOnly s
      { s with
        mPendingCommitted := s.mCommitted
        mInQueue := (s.mInQueue.PushBackQueue s.mPendingQueue s.mem).1
        mPendingQueue := (s.mInQueue.PushBackQueue s.mPendingQueue s.mem).2.1
        mem := (s.mInQueue.PushBackQueue s.mPendingQueue s.mem).2.2
        workerWakeups := s.workerWakeups + 1 } (PushBackQueue_nextOnly _ _ _)
    refine ⟨hs.1, hs.1, hs.2.2.1, fun q => ?_⟩
    rw [(blocks_eq hb q).1, (blocks_eq hb q).2]
    exact hs.2.2.2 q

theorem Move.keeps_seqInv (env : Env) (s s' : Impl)
    (hm : Move env (fun s p => (s.mem p).logseq ≤ s.mNextLogSeq)
      (fun s seq => seq ≤ s.mNextLogSeq) (fun _ => True) s s') (hs : SeqInv s) : SeqInv s' := by
  cases hm with
  | enqueue p b h => exact Enqueue_seqInv env p s s' b h hs
  | committed p fid hcan h => exact RequestCommitted_seqInv env p fid s s' h hs hcan
  | setCommitted seq chk fid st hal h =>
    simp only [SetCommitted, M.modify_run, Res.ok.injEq, true_and] at h
    subst h
    exact ⟨hal, hs.2.1, hs.2.2.1, hs.2.2.2⟩
  | scheduleFlush h => exact ScheduleFlush_seqInv s s' h hs
  | dispatchStart fuel _ h => exact (DispatchStart_seq env fuel s s' h hs).1
  | dispatchEnd fuel h =>
    exact SeqInv.of_gauge (DispatchEnd_gauge fuel s () s' h) (DispatchEnd_blocks fuel s () s' h) hs
  | timeout fuel h =>
    exact SeqInv.of_gauge (Timeout_gauge fuel s () s' h) (Timeout_blocks fuel s () s' h) hs
  | notify seq h =>
    exact SeqInv.of_gauge (Notify_gauge env seq s () s' h) (Notify_blocks env seq s () s' h) hs

theorem DispatchStart_snapshot (env : Env) (fuel : Nat) (s s' : Impl) (head : Nat)
    (h : DispatchStart env fuel s = Res.ok () s') (hq : s.mInQueue.Front = some head) :
    s'.mInFlightCommitted = s.mPendingCommitted := by
  have key : M.post (DispatchStart env fuel) s (fun _ s' =>
      s'.mInFlightCommitted = s.mPendingCommitted) := by
    have led : ∀ {s1 s2 : Impl}, s2.ledger = s1.ledger →
        s2.mInFlightCommitted = s1.mInFlightCommitted := by
      intro s1 s2 h
      unfold Impl.ledger at h
      simp only [Prod.mk.injEq] at h
      exact h.2.2.1
    have tailSome : ∀ (head : Nat) (s1 : Impl),
        s1.mInFlightCommitted = s.mPendingCommitted →
        M.post (Write env fuel head) s1 (fun _ s2 =>
          M.post (ProcessPendingAckQueue fuel s.mInQueue) s2 (fun _ s' =>
            s'.mInFlightCommitted = s.mPendingCommitted)) := by
      intro head s1 e3 a s2 h2 b s3 h3
      rw [led (ProcessPendingAckQueue_ledger fuel _ s2 b s3 h3),
        led ((Write_keep env fuel head).ledger_of_keep s1 a s2 h2)]
      exact e3
    simp only [DispatchStart, M.post_bind_iff, M.post_get_iff, M.post_ite_iff, M.post_modify_iff,
      M.post_pure_iff]
    cases hq' : s.mInQueue.Front with
    | none =>
      rw [hq'] at hq
      cases hq
    | some head =>
      simp only [M.post_bind_iff, M.post_modify_iff, M.post_pure_iff]
      split_ifs
      · exact tailSome head _ rfl
      · exact tailSome head _ rfl
  exact key () s' h

set_option maxRecDepth 4000 in
theorem seqFlushed_started :
    Started envOk (fun mem => ∀ q, (mem q).blockStartSeq ≤ (mem q).blockEndSeq)
      (fun inLogSeq inCommittedLogSeq => inCommittedLogSeq ≤ inLogSeq)
      (Move envOk (fun s p => (s.mem p).logseq ≤ s.mNextLogSeq)
        (fun s seq => seq ≤ s.mNextLogSeq) (fun _ => True)) seqFlushed := by
  refine ⟨fun _ => reqEx LogAction.kLogAlways 0, fun _ => 0, seqStarted, 2,
    0, 0, 0, 0, 0, 0, none, 0, 0, false, none, Properties.none, _, fun _ => le_refl _,
    le_refl _,
    Start_fresh_eq envOk envOk_fileOk (fun _ => rfl) 0 0 0 0 0 0 0 0 0 false none
      Properties.none _ (le_refl _) (le_refl _) rfl rfl, ?_⟩
  have h1 : Move envOk (fun s p => (s.mem p).logseq ≤ s.mNextLogSeq)
      (fun s seq => seq ≤ s.mNextLogSeq) (fun _ => True) seqStarted seqNotified :=
    Move.notify _ _ 0 (Notify_run envOk 0 seqStarted)
  have h2 : Move envOk (fun s p => (s.mem p).logseq ≤ s.mNextLogSeq)
      (fun s seq => seq ≤ s.mNextLogSeq) (fun _ => True) seqNotified seqQueued :=
    Move.enqueue _ _ 1 true (Enqueue_enqueued envOk 1 seqNotified rfl
      (fun h => absurd (show LogAction.kLogAlways = LogAction.kLogNever ∨
          (LogAction.kLogAlways = LogAction.kLogIfOk ∧ (0 : Int) ≠ 0) from h.2) (by decide))
      (by
        intro c h
        have h' : some 0 = some c := h
        cases h'
        decide)
      (by decide))
  have h3 : Move envOk (fun s p => (s.mem p).logseq ≤ s.mNextLogSeq)
      (fun s seq => seq ≤ s.mNextLogSeq) (fun _ => True) seqQueued seqFlushed :=
    Move.scheduleFlush _ _ (ScheduleFlush_nonempty seqQueued rfl)
  exact ((Relation.ReflTransGen.single h1).tail h2).tail h3

set_option maxRecDepth 4000 in
theorem DispatchStart_seqFlushed :
    DispatchStart envOk 5 seqFlushed =
      Res.ok () (afterDispatchStart envOk 5 [1] [1] seqFlushed) :=
  DispatchStart_eq envOk envOk_fileOk 3 1 [1] [1] seqFlushed rfl rfl (by decide) (by decide)
    (by decide) ⟨rfl, by decide, rfl⟩
    (fun _ h => absurd (show seqFlushed.mCurLogStartTime + seqFlushed.mLogRotateInterval < 0
      from h) (by decide))
    (by decide) (by decide)

theorem Started.seqInv (env : Env) (s : Impl)
    (hs : Started env (fun mem => ∀ q, (mem q).blockStartSeq ≤ (mem q).blockEndSeq)
      (fun inLogSeq inCommittedLogSeq => inCommittedLogSeq ≤ inLogSeq)
      (Move env (fun s p => (s.mem p).logseq ≤ s.mNextLogSeq)
        (fun s seq => seq ≤ s.mNextLogSeq) (fun _ => True)) s) : SeqInv s := by
  obtain ⟨mem, counters, s1, fuel1, a1, a2, a3, a4, a5, a6, a7, a8, a9, a10, a11, a12, name,
    hmem, hcl, hstart, hsteps⟩ := hs
  have h1 : SeqInv s1 := Start_seqInv env mem counters fuel1 a1 a2 a3 a4 a5 a6 a7 a8 a9 a10 a11
    a12 name s1 hmem hcl hstart
  clear hstart
  induction hsteps with
  | refl => exact h1
  | tail _ hm ih => exact Move.keeps_seqInv env _ _ hm ih

/-- C27 (amended): take a writer constructed over requests with
`blockStartSeq <= blockEndSeq`, started by a `Start` whose committed log
sequence is at most its log sequence, and then driven by `Enqueue`,
`ScheduleFlush`, `DispatchStart`, `DispatchEnd`, `Timeout`, `Notify`,
`SetCommitted` with a sequence at most `mNextLogSeq`, and `Committed` for
requests whose `logseq` is at most `mNextLogSeq`.  In every state so reached
`mPendingCommitted.mSeq <= mNextLogSeq`; a dispatch cycle with a non-empty in
queue snapshots `mInFlightCommitted = mPendingCommitted`; and after the cycle
every request either has the `logseq` it had before the cycle, or has
`logseq = -1` (its write failed), or has a `logseq` above
`mInFlightCommitted.mSeq`.  No assumption is made on the file system, the
transmitter, rotation or the control requests in the queue. -/
theorem DispatchStart_logseq_bound (env : Env) (s : Impl)
    (hs : Started env (fun mem => ∀ q, (mem q).blockStartSeq ≤ (mem q).blockEndSeq)
      (fun inLogSeq inCommittedLogSeq => inCommittedLogSeq ≤ inLogSeq)
      (Move env (fun s p => (s.mem p).logseq ≤ s.mNextLogSeq)
        (fun s seq => seq ≤ s.mNextLogSeq) (fun _ => True)) s)
    (fuel : Nat) (s' : Impl) (h : DispatchStart env fuel s = Res.ok () s') :
    s.mPendingCommitted.mSeq ≤ s.mNextLogSeq ∧
      (∀ head, s.mInQueue.Front = some head →
        s'.mInFlightCommitted = s.mPendingCommitted) ∧
      ∀ q, (s'.mem q).logseq = (s.mem q).logseq ∨ (s'.mem q).logseq = -1 ∨
        s'.mInFlightCommitted.mSeq < (s'.mem q).logseq := by
  have hinv : SeqInv s := Started.seqInv env s hs
  exact ⟨hinv.2.1, fun head hq => DispatchStart_snapshot env fuel s s' head h hq,
    (DispatchStart_seq env fuel s s' h hinv).2⟩

set_option maxRecDepth 4000 in
theorem DispatchStart_logseq_bound_witness :
    (seqFlushed.mem 1).logseq = -1 ∧
      ((afterDispatchStart envOk 5 [1] [1] seqFlushed).mem 1).logseq = 1 ∧
      (afterDispatchStart envOk 5 [1] [1] seqFlushed).mInFlightCommitted.mSeq = 0 ∧
      (seqFlushed.mPendingCommitted.mSeq ≤ seqFlushed.mNextLogSeq ∧
        (∀ head, seqFlushed.mInQueue.Front = some head →
          (afterDispatchStart envOk 5 [1] [1] seqFlushed).mInFlightCommitted =
            seqFlushed.mPendingCommitted) ∧
        ∀ q, ((afterDispatchStart envOk 5 [1] [1] seqFlushed).mem q).logseq =
            (seqFlushed.mem q).logseq ∨
          ((afterDispatchStart envOk 5 [1] [1] seqFlushed).mem q).logseq = -1 ∨
          (afterDispatchStart envOk 5 [1] [1] seqFlushed).mInFlightCommitted.mSeq <
            ((afterDispatchStart envOk 5 [1] [1] seqFlushed).mem q).logseq) :=
  ⟨rfl, rfl, rfl, DispatchStart_logseq_bound envOk seqFlushed seqFlushed_started 5 _
    DispatchStart_seqFlushed⟩

end Claim27

section TInvRules
variable {α β : Type} {t0 : List TxBlock} {B lo d : Int} {c : Option Nat}

theorem logic_mk {s s' : Impl} (h1 : s'.mem = s.mem) (h2 : s'.mNextLogSeq = s.mNextLogSeq)
    (h3 : s'.mLastLogSeq = s.mLastLogSeq) (h4 : s'.mCurLogStartSeq = s.mCurLogStartSeq)
    (h5 : s'.mMaxBlockSize = s.mMaxBlockSize) (h6 : s'.transmitted = s.transmitted)
    (h7 : s'.mNextBlockSeq = s.mNextBlockSeq) : s'.logic = s.logic := by
  unfold Impl.logic
  rw [h1, h2, h3, h4, h5, h6, h7]

theorem logic_fields {s s' : Impl} (h : s'.logic = s.logic) :
    s'.mem = s.mem ∧ s'.mNextLogSeq = s.mNextLogSeq ∧ s'.mLastLogSeq = s.mLastLogSeq ∧
      s'.mCurLogStartSeq = s.mCurLogStartSeq ∧ s'.mMaxBlockSize = s.mMaxBlockSize ∧
      s'.transmitted = s.transmitted ∧ s'.mNextBlockSeq = s.mNextBlockSeq := by
  unfold Impl.logic at h
  simp only [Prod.mk.injEq] at h
  exact h

theorem Keeps.of_logic {I : Impl → Prop} {m : M α} (hf : Frame Impl.logic m)
    (hI : LogicInv I) : Keeps I m :=
  Keeps.kframe (fun s s' e hs => hI s s' e hs) hf

theorem LogicInv.app {I : Impl → Prop} (hI : LogicInv I) {s s' : Impl}
    (e : s'.logic = s.logic) (hs : I s) : I s' := hI s s' e hs

theorem Tri.getWith {P : Impl → Prop} {g : Impl → M β} {Q : β → Impl → Prop}
    (R : Impl → Impl → Prop) (h : ∀ s0, P s0 → R s0 s0)
    (hg : ∀ s0, P s0 → Tri (R s0) (g s0) Q) : Tri P (M.get >>= g) Q := by
  intro s hs
  rw [M.post_bind_iff, M.post_get_iff]
  exact hg s hs s (h s hs)

theorem Tri.modifyT {P : Impl → Prop} {f : Impl → Impl} {Q : Unit → Impl → Prop}
    (h : ∀ s, P s → Q () (f s)) : Tri P (M.modify f) Q := by
  intro s hs
  rw [M.post_modify_iff]
  exact h s hs

theorem IsSimulateFailure_logic (env : Env) : Frame Impl.logic (IsSimulateFailure env) := by
  unfold IsSimulateFailure
  repeat' first
    | with_reducible apply Frame.bind
    | with_reducible apply Frame.pure
    | with_reducible apply Frame.get
    | with_reducible apply Frame.panic
    | with_reducible apply Frame.timeout
    | with_reducible apply Frame.ite
    | with_reducible apply Frame.nextTick
    | with_reducible apply Frame.ofModify
    | rfl
    | with_reducible intro _

theorem Blocks.base (t0 : List TxBlock) (B : Int) : Blocks t0 B t0 :=
  ⟨[], by simp, fun b hb => absurd hb (by simp)⟩

theorem Blocks.snoc {t : List TxBlock} (h : Blocks t0 B t) (b : TxBlock) (h1 : 1 ≤ b.count)
    (h2 : b.count ≤ B) : Blocks t0 B (t ++ [b]) := by
  obtain ⟨bs, e, hb⟩ := h
  refine ⟨bs ++ [b], by rw [e, List.append_assoc], fun x hx => ?_⟩
  rcases List.mem_append.mp hx with h | h
  · exact hb x h
  · rw [List.mem_singleton.mp h]
    exact ⟨h1, h2⟩

theorem TInv.t_congr {s s' : Impl} (hs : TInv t0 B lo d c s) (hm : s'.mem = s.mem)
    (h1 : s'.mNextLogSeq = s.mNextLogSeq) (h2 : s'.mLastLogSeq = s.mLastLogSeq)
    (h3 : s'.mMaxBlockSize = s.mMaxBlockSize) (h4 : s'.transmitted = s.transmitted) :
    TInv t0 B lo d c s' := by
  unfold TInv
  rw [hm, h1, h2, h3, h4]
  exact hs

theorem TInv.t_logic : LogicInv (TInv t0 B lo d c) := by
  intro s s' e hs
  obtain ⟨h1, h2, h3, -, h5, h6, -⟩ := logic_fields e
  exact hs.t_congr h1 h2 h3 h5 h6

theorem TInv.t_eq {d' : Int} {s s' : Impl} (hd : d' ≤ B) (hs : TInv t0 B lo d c s)
    (hm : s'.mem = s.mem) (h1 : s'.mNextLogSeq = s'.mLastLogSeq)
    (h3 : s'.mMaxBlockSize = s.mMaxBlockSize) (h4 : s'.transmitted = s.transmitted) :
    TInv t0 B 0 d' c s' := by
  unfold TInv
  rw [hm, h3, h4, h1]
  exact ⟨hs.1, by omega, by omega, hs.2.2.2.1, hs.2.2.2.2⟩

theorem TInv.t_setReq {s : Impl} (hs : TInv t0 B lo d c s) (p : Nat)
    (f : MetaRequest → MetaRequest) (hf : ∀ r, (f r).type = r.type ∧ (f r).op = r.op) :
    TInv t0 B lo d c (s.setReq p f) := by
  obtain ⟨h1, h2, h3, h4, h5, h6⟩ := hs
  have key : ∀ q, ((s.setReq p f).mem q).type = (s.mem q).type ∧
      ((s.setReq p f).mem q).op = (s.mem q).op := by
    intro q
    by_cases e : q = p
    · subst e
      rw [setReq_mem_same]
      exact hf _
    · rw [setReq_mem_other _ _ _ _ e]
      exact ⟨rfl, rfl⟩
  refine ⟨h1, h2, h3, h4, fun q => ?_, fun q hq => ?_⟩
  · rw [(key q).1, (key q).2]
    exact h5 q
  · rw [(key q).2]
    exact h6 q hq

theorem TInv.t_weaken {lo' d' : Int} {c' : Option Nat} {s : Impl} (hs : TInv t0 B lo d c s)
    (h1 : lo' ≤ lo) (h2 : d' ≤ d) (hc : c' = none ∨ c' = c) : TInv t0 B lo' d' c' s := by
  obtain ⟨a1, a2, a3, a4, a5, a6⟩ := hs
  refine ⟨a1, by omega, by omega, a4, a5, fun p hp => ?_⟩
  rcases hc with e | e
  · rw [e] at hp
    cases hp
  · exact a6 p (e ▸ hp)

theorem TInv.ctl {s : Impl} (hs : TInv t0 B lo d c s) (p : Nat)
    (hp : (s.mem p).op = MetaOp.META_LOG_WRITER_CONTROL) : TInv t0 B lo d (some p) s := by
  obtain ⟨a1, a2, a3, a4, a5, a6⟩ := hs
  refine ⟨a1, a2, a3, a4, a5, fun q hq => ?_⟩
  cases hq
  exact hp

theorem TInv.notBlock {s : Impl} {p : Nat} (hs : TInv t0 B lo d (some p) s) :
    ¬ (s.mem p).type = ControlType.kWriteBlock :=
  (hs.2.2.2.2.1 p (hs.2.2.2.2.2 p rfl)).2

theorem GInv.g_incr {L : Int} {s : Impl} (hs : GInv t0 B d c L s) :
    FInv t0 B d c L { s with mNextBlockSeq := s.mNextBlockSeq + 1 } :=
  ⟨hs.1.t_congr rfl rfl rfl rfl rfl, fun h => hs.2 (by
    have h' : 0 < s.mNextBlockSeq + 1 := h
    omega)⟩

theorem FInv.f_logic {L : Int} : LogicInv (FInv t0 B d c L) := by
  intro s s' e hs
  obtain ⟨h1, h2, h3, -, h5, h6, h7⟩ := logic_fields e
  refine ⟨hs.1.t_congr h1 h2 h3 h5 h6, ?_⟩
  rw [h7, h2]
  exact hs.2

theorem FInv.append {L : Int} {s s0 : Impl} (hM2 : B ≤ 2147483647) (hs : FInv t0 B d c L s)
    (h0 : FInv t0 B d c L s0) (hp : 0 < s0.mNextBlockSeq) (data : Bytes) (cs : Nat) :
    FInv t0 B d c L
      { s with transmitted := s.transmitted ++
        [{ endSeq := L, count := wrapInt32 (L - s0.mNextLogSeq), data := data,
           checksum := cs }] } := by
  obtain ⟨a1, a2⟩ := h0.2 hp
  have hw : wrapInt32 (L - s0.mNextLogSeq) = L - s0.mNextLogSeq :=
    wrapInt32_of_range _ (by omega) (by omega)
  obtain ⟨⟨h1, h2, h3, h4, h5⟩, h6⟩ := hs
  refine ⟨⟨h1, h2, h3, ?_, h5⟩, h6⟩
  refine Blocks.snoc h4 _ ?_ ?_
  · show 1 ≤ wrapInt32 (L - s0.mNextLogSeq)
    rw [hw]
    omega
  · show wrapInt32 (L - s0.mNextLogSeq) ≤ B
    rw [hw]
    omega

theorem NInv.n_logic : LogicInv (NInv t0 B d c) := by
  intro s s' e hs
  obtain ⟨h1, h2, h3, -, h5, h6, h7⟩ := logic_fields e
  refine ⟨hs.1.t_congr h1 h2 h3 h5 h6, ?_⟩
  rw [h7]
  exact hs.2

theorem NInv.n_start {s s' : Impl} (hs : TInv t0 B 0 d c s) (hm : s'.mem = s.mem)
    (h1 : s'.mNextLogSeq = s.mNextLogSeq) (h2 : s'.mLastLogSeq = s.mLastLogSeq)
    (h3 : s'.mMaxBlockSize = s.mMaxBlockSize) (h4 : s'.transmitted = s.transmitted)
    (h7 : s'.mNextBlockSeq = -1) : NInv t0 B d c s' :=
  ⟨hs.t_congr hm h1 h2 h3 h4, h7⟩

theorem NInv.n_eq {s s' : Impl} (hd : d ≤ B) (hs : NInv t0 B d c s) (hm : s'.mem = s.mem)
    (h1 : s'.mNextLogSeq = s'.mLastLogSeq) (h3 : s'.mMaxBlockSize = s.mMaxBlockSize)
    (h4 : s'.transmitted = s.transmitted) (h7 : s'.mNextBlockSeq = s.mNextBlockSeq) :
    NInv t0 B d c s' :=
  ⟨hs.1.t_eq hd hm h1 h3 h4, h7.trans hs.2⟩

theorem NInv.toG {L : Int} (s : Impl) (hs : NInv t0 B d c s) : GInv t0 B d c L s :=
  ⟨hs.1, fun h => by
    have := hs.2
    omega⟩

theorem NInv.n_toT (s : Impl) (hs : NInv t0 B d c s) : TInv t0 B 0 d c s := hs.1

theorem HInv.h_logic {n l : Int} : LogicInv (HInv t0 B d c n l) := by
  intro s s' e hs
  obtain ⟨h1, h2, h3, -, h5, h6, h7⟩ := logic_fields e
  refine ⟨hs.1.t_congr h1 h2 h3 h5 h6, ?_, ?_⟩
  · rw [h2]
    exact hs.2.1
  · rw [h3]
    exact hs.2.2

theorem HInv.h_start (s : Impl) (hs : TInv t0 B 0 d c s) :
    HInv t0 B d c s.mNextLogSeq s.mLastLogSeq s := ⟨hs, rfl, rfl⟩

theorem HInv.h_toT {n l : Int} (s : Impl) (hs : HInv t0 B d c n l s) : TInv t0 B 0 d c s := hs.1

theorem HInv.toG_ne {n l : Int} (hd0 : 0 ≤ d) (hne : l ≠ n) (s : Impl)
    (hs : HInv t0 B d c n l s) : GInv t0 B d c l s := by
  obtain ⟨⟨h1, h2, h3, h4, h5⟩, e1, e2⟩ := hs
  refine ⟨⟨h1, h2, h3, h4, h5⟩, fun _ => ?_⟩
  omega

theorem HInv.toG_lt {n l : Int} {up : Prop} (hd0 : 0 ≤ d) (hlt : n < l ∧ up) (s : Impl)
    (hs : HInv t0 B d c n l s) : GInv t0 B d c l s := by
  obtain ⟨⟨h1, h2, h3, h4, h5⟩, e1, e2⟩ := hs
  have := hlt.1
  refine ⟨⟨h1, h2, h3, h4, h5⟩, fun _ => ?_⟩
  omega

theorem EInv.e_logic {eb : Int} : LogicInv (EInv t0 B lo d c eb) := by
  intro s s' e hs
  obtain ⟨h1, h2, h3, -, h5, h6, h7⟩ := logic_fields e
  refine ⟨hs.1.t_congr h1 h2 h3 h5 h6, ?_⟩
  rw [h2]
  exact hs.2

theorem UInv.u_logic : LogicInv (UInv t0 B c) := by
  intro s s' e hs
  obtain ⟨h1, -, -, -, h5, h6, -⟩ := logic_fields e
  unfold UInv
  rw [h1, h5, h6]
  exact hs

theorem UNInv.un_logic : LogicInv (UNInv t0 B c) := by
  intro s s' e hs
  obtain ⟨-, -, -, -, -, -, h7⟩ := logic_fields e
  refine ⟨UInv.u_logic s s' e hs.1, ?_⟩
  rw [h7]
  exact hs.2

theorem UInv.dropC (s : Impl) (hs : UInv t0 B c s) : UInv t0 B none s :=
  ⟨hs.1, hs.2.1, hs.2.2.1, fun _ h => Option.noConfusion h⟩

theorem TInv.toU (s : Impl) (hs : TInv t0 B lo d c s) : UInv t0 B c s :=
  ⟨hs.1, hs.2.2.2.1, hs.2.2.2.2.1, hs.2.2.2.2.2⟩

theorem UInv.u_eq {d' : Int} {s s' : Impl} (hd : d' ≤ B) (hs : UInv t0 B c s)
    (hm : s'.mem = s.mem) (h1 : s'.mNextLogSeq = s'.mLastLogSeq)
    (h3 : s'.mMaxBlockSize = s.mMaxBlockSize) (h4 : s'.transmitted = s.transmitted) :
    TInv t0 B 0 d' c s' := by
  unfold TInv
  rw [hm, h3, h4, h1]
  exact ⟨hs.1, by omega, by omega, hs.2.1, hs.2.2⟩

theorem UNInv.un_start {s s' : Impl} (hs : UInv t0 B c s) (hm : s'.mem = s.mem)
    (h3 : s'.mMaxBlockSize = s.mMaxBlockSize) (h4 : s'.transmitted = s.transmitted)
    (h7 : s'.mNextBlockSeq = -1) : UNInv t0 B c s' := by
  refine ⟨?_, h7⟩
  unfold UInv
  rw [hm, h3, h4]
  exact hs

theorem NInv.ofUN {s s' : Impl} (hd : d ≤ B) (hs : UNInv t0 B c s) (hm : s'.mem = s.mem)
    (h1 : s'.mNextLogSeq = s'.mLastLogSeq) (h3 : s'.mMaxBlockSize = s.mMaxBlockSize)
    (h4 : s'.transmitted = s.transmitted) (h7 : s'.mNextBlockSeq = s.mNextBlockSeq) :
    NInv t0 B d c s' :=
  ⟨hs.1.u_eq hd hm h1 h3 h4, h7.trans hs.2⟩

theorem Tri.timeoutT {P : Impl → Prop} {Q : α → Impl → Prop} : Tri P (M.timeout : M α) Q := by
  intro s _ a s' h
  cases h

theorem IsLogStreamGood_flag {I : Impl → Prop} (hI : LogicInv I) :
    Tri I IsLogStreamGood (fun b s' => (b = false → ¬ Good s') ∧ I s') := by
  intro s hs b s' h
  have hp := IsLogStreamGood_post s b s' h
  refine ⟨fun hb hg => ?_, hI s s' (IsLogStreamGood_logic s b s' h) hs⟩
  have := hp.1.mpr hg
  rw [hb] at this
  cases this

theorem IsLogStreamGood_bad_tri {I : Impl → Prop} (hI : LogicInv I) :
    Tri (fun s => I s ∧ ¬ Good s) IsLogStreamGood (fun b s' => b = false ∧ I s') := by
  intro s hs b s' h
  have hp := IsLogStreamGood_post s b s' h
  refine ⟨?_, hI s s' (IsLogStreamGood_logic s b s' h) hs.1⟩
  cases b with
  | false => rfl
  | true =>
    have g := hp.1.mp rfl
    rw [hp.2.1 rfl] at g
    exact absurd g hs.2

theorem EInv.e_incr {eb : Int} {s : Impl} (hs : EInv t0 B 0 1 c eb s) (p : Nat) :
    EInv t0 B 1 0 c eb
      { (s.setReq p fun r => { r with logseq := s.mLastLogSeq + 1 }) with
        mLastLogSeq := s.mLastLogSeq + 1 } := by
  obtain ⟨⟨a1, a2, a3, a4, a5, a6⟩, e⟩ :=
    (⟨hs.1.t_setReq p (fun r => { r with logseq := s.mLastLogSeq + 1 })
      (fun _ => ⟨rfl, rfl⟩), hs.2⟩ :
      EInv t0 B 0 1 c eb (s.setReq p fun r => { r with logseq := s.mLastLogSeq + 1 }))
  refine ⟨⟨a1, ?_, ?_, a4, a5, a6⟩, e⟩
  · show s.mNextLogSeq + 1 ≤ s.mLastLogSeq + 1
    have : s.mNextLogSeq + 0 ≤ s.mLastLogSeq := a2
    omega
  · show s.mLastLogSeq + 1 + 0 ≤ s.mNextLogSeq + B
    have : s.mLastLogSeq + 1 ≤ s.mNextLogSeq + B := a3
    omega

theorem EInv.e_decr {eb : Int} {s : Impl} (hs : EInv t0 B 1 0 c eb s) :
    EInv t0 B 0 0 c eb { s with mLastLogSeq := s.mLastLogSeq - 1 } := by
  obtain ⟨⟨a1, a2, a3, a4, a5, a6⟩, e⟩ := hs
  refine ⟨⟨a1, ?_, ?_, a4, a5, a6⟩, e⟩
  · show s.mNextLogSeq + 0 ≤ s.mLastLogSeq - 1
    omega
  · show s.mLastLogSeq - 1 + 0 ≤ s.mNextLogSeq + B
    omega

theorem EInv.relax {lo' d' eb : Int} (h1 : lo' ≤ lo) (h2 : d' ≤ d) (s : Impl)
    (hs : EInv t0 B lo d c eb s) : EInv t0 B lo' d' c eb s :=
  ⟨hs.1.t_weaken h1 h2 (Or.inr rfl), hs.2⟩

theorem EInv.e_setReq {eb : Int} {s : Impl} (hs : EInv t0 B lo d c eb s) (p : Nat)
    (f : MetaRequest → MetaRequest) (hf : ∀ r, (f r).type = r.type ∧ (f r).op = r.op) :
    EInv t0 B lo d c eb (s.setReq p f) :=
  ⟨hs.1.t_setReq p f hf, hs.2⟩

theorem EInv.tighten {eb l : Int} {s : Impl}
    (hs : EInv t0 B 0 0 c eb s ∧ s.mLastLogSeq = l) (h : ¬ eb ≤ l) : EInv t0 B 0 1 c eb s := by
  obtain ⟨⟨⟨a1, a2, a3, a4, a5, a6⟩, e⟩, e2⟩ := hs
  refine ⟨⟨a1, a2, ?_, a4, a5, a6⟩, e⟩
  omega

theorem EInv.retNone {eb : Int} {s : Impl} {X : Prop} (hlo : 0 ≤ lo) (hd : 0 ≤ d)
    (hs : EInv t0 B lo d c eb s ∧ X) (p : Option Nat) :
    TInv t0 B 0 0 (p, (none : Option Nat)).2 s :=
  hs.1.1.t_weaken hlo hd (Or.inl rfl)

theorem TInv.toE (s : Impl) (hs : TInv t0 B 0 1 c s) :
    EInv t0 B 0 1 none (s.mNextLogSeq + s.mMaxBlockSize) s :=
  ⟨hs.t_weaken (le_refl _) (le_refl _) (Or.inl rfl), by rw [hs.1]⟩

theorem LogError_einv {eb : Int} (env : Env) (p : Nat) :
    Keeps (EInv t0 B lo d c eb) (LogError env p) := by
  unfold LogError
  exact Keeps.kmodify (fun s hs => hs.e_setReq p _ (fun _ => ⟨rfl, rfl⟩))

theorem FlushBlock_tri (hM2 : B ≤ 2147483647) (env : Env) (fuel : Nat) (L : Int) :
    Tri (GInv t0 B d c L) (FlushBlock env fuel L) (fun _ s' => TInv t0 B 0 d c s') := by
  have hI : LogicInv (FInv t0 B d c L) := FInv.f_logic
  unfold FlushBlock mdSetSync
  refine Tri.modifyTo (FInv t0 B d c L) (fun s hs => by exact GInv.g_incr hs)
    (Tri.of_keeps ?_ (fun _ _ h => h.1))
  repeat' first
    | with_reducible apply Keeps.of_logic (mdWrite_logic _ _ _) hI
    | with_reducible apply Keeps.of_logic (mdFlush_logic _ _) hI
    | with_reducible apply Keeps.of_logic (Sync_logic _) hI
    | with_reducible apply Keeps.of_logic (StartBlock_logic _) hI
    | with_reducible apply Keeps.kbind_get
    | with_reducible apply Keeps.kbind
    | with_reducible apply Keeps.kpure
    | with_reducible apply Keeps.kget
    | with_reducible apply Keeps.kpanic
    | with_reducible apply Keeps.kiteC
    | (with_reducible apply Keeps.ktick; intro _ hs; exact hI.app (logic_mk (by with_reducible rfl) (by with_reducible rfl) (by with_reducible rfl) (by with_reducible rfl) (by with_reducible rfl) (by with_reducible rfl) (by with_reducible rfl)) hs)
    | (with_reducible apply Keeps.kmodify; intro _ hs; first
        | exact hI.app (logic_mk (by with_reducible rfl) (by with_reducible rfl) (by with_reducible rfl) (by with_reducible rfl) (by with_reducible rfl) (by with_reducible rfl) (by with_reducible rfl)) hs
        | exact FInv.append hM2 hs (by assumption) (by assumption) _ _)
    | with_reducible intro _
    | split
    | dsimp only

theorem NewLog_fresh (hd : d ≤ B) (hM2 : B ≤ 2147483647) (env : Env) (fuel : Nat) (L : Int) :
    Tri (UInv t0 B c) (NewLog env fuel L) (fun _ s' => TInv t0 B 0 d c s') := by
  unfold NewLog SetLogName microseconds DisplayIsoDateTime mdReset mdClear mdSetHex mdSetSync
  repeat' first
    | (with_reducible apply Tri.modifyTo (UNInv t0 B c); intro _ hs; exact UNInv.un_start hs (by with_reducible rfl) (by with_reducible rfl) (by with_reducible rfl) (by with_reducible rfl))
    | (with_reducible apply Tri.modifyTo (NInv t0 B d c); intro _ hs; exact NInv.ofUN hd hs (by with_reducible rfl) (by with_reducible rfl) (by with_reducible rfl) (by with_reducible rfl) (by with_reducible rfl))
    | with_reducible apply Tri.bindT (fun _ => TInv t0 B 0 d c) (Tri.pre NInv.toG (FlushBlock_tri hM2 _ _ _))
    | (with_reducible apply Keeps.of_logic (Close_logic _); first | exact TInv.t_logic | exact NInv.n_logic | exact HInv.h_logic | exact EInv.e_logic | exact UInv.u_logic | exact UNInv.un_logic)
    | (with_reducible apply Keeps.of_logic (IoError_logic _); first | exact TInv.t_logic | exact NInv.n_logic | exact HInv.h_logic | exact EInv.e_logic | exact UInv.u_logic | exact UNInv.un_logic)
    | (with_reducible apply Keeps.of_logic (Sync_logic _); first | exact TInv.t_logic | exact NInv.n_logic | exact HInv.h_logic | exact EInv.e_logic | exact UInv.u_logic | exact UNInv.un_logic)
    | (with_reducible apply Keeps.of_logic (StartBlock_logic _); first | exact TInv.t_logic | exact NInv.n_logic | exact HInv.h_logic | exact EInv.e_logic | exact UInv.u_logic | exact UNInv.un_logic)
    | (with_reducible apply Keeps.of_logic (mdWrite_logic _ _ _); first | exact TInv.t_logic | exact NInv.n_logic | exact HInv.h_logic | exact EInv.e_logic | exact UInv.u_logic | exact UNInv.un_logic)
    | (with_reducible apply Keeps.of_logic (mdFlush_logic _ _); first | exact TInv.t_logic | exact NInv.n_logic | exact HInv.h_logic | exact EInv.e_logic | exact UInv.u_logic | exact UNInv.un_logic)
    | (with_reducible apply Keeps.of_logic (IsLogStreamGood_logic); first | exact TInv.t_logic | exact NInv.n_logic | exact HInv.h_logic | exact EInv.e_logic | exact UInv.u_logic | exact UNInv.un_logic)
    | (with_reducible apply Keeps.of_logic (IsSimulateFailure_logic _); first | exact TInv.t_logic | exact NInv.n_logic | exact HInv.h_logic | exact EInv.e_logic | exact UInv.u_logic | exact UNInv.un_logic)
    | with_reducible apply Tri.iteT
    | (with_reducible apply Tri.pureT; intro _ hs; first | exact hs | exact NInv.n_toT _ hs | exact HInv.h_toT _ hs)
    | with_reducible apply Tri.pre HInv.h_toT
    | with_reducible apply Tri.getK
    | with_reducible apply Tri.panicBind
    | with_reducible apply Tri.bindK
    | (with_reducible apply Tri.modifyT; intro _ hs; first
        | exact TInv.t_logic.app (logic_mk (by with_reducible rfl) (by with_reducible rfl) (by with_reducible rfl) (by with_reducible rfl) (by with_reducible rfl) (by with_reducible rfl) (by with_reducible rfl)) hs
        | exact NInv.n_logic.app (logic_mk (by with_reducible rfl) (by with_reducible rfl) (by with_reducible rfl) (by with_reducible rfl) (by with_reducible rfl) (by with_reducible rfl) (by with_reducible rfl)) hs
        | exact HInv.h_logic.app (logic_mk (by with_reducible rfl) (by with_reducible rfl) (by with_reducible rfl) (by with_reducible rfl) (by with_reducible rfl) (by with_reducible rfl) (by with_reducible rfl)) hs
        | exact EInv.e_logic.app (logic_mk (by with_reducible rfl) (by with_reducible rfl) (by with_reducible rfl) (by with_reducible rfl) (by with_reducible rfl) (by with_reducible rfl) (by with_reducible rfl)) hs
        | exact UInv.u_logic.app (logic_mk (by with_reducible rfl) (by with_reducible rfl) (by with_reducible rfl) (by with_reducible rfl) (by with_reducible rfl) (by with_reducible rfl) (by with_reducible rfl)) hs
        | exact UNInv.un_logic.app (logic_mk (by with_reducible rfl) (by with_reducible rfl) (by with_reducible rfl) (by with_reducible rfl) (by with_reducible rfl) (by with_reducible rfl) (by with_reducible rfl)) hs
        | exact TInv.t_eq hd hs (by with_reducible rfl) (by with_reducible rfl) (by with_reducible rfl) (by with_reducible rfl)
        | exact NInv.n_eq hd hs (by with_reducible rfl) (by with_reducible rfl) (by with_reducible rfl) (by with_reducible rfl) (by with_reducible rfl))
    | with_reducible refine Tri.of_keeps ?_ (fun _ _ h => h)
    | with_reducible refine Tri.of_keeps ?_ (fun _ s h => NInv.n_toT s h)
    | with_reducible refine Tri.of_keeps ?_ (fun _ s h => HInv.h_toT s h)
    | with_reducible apply Keeps.kbind_get
    | with_reducible apply Keeps.kbind
    | with_reducible apply Keeps.kpure
    | with_reducible apply Keeps.kget
    | with_reducible apply Keeps.kpanic
    | with_reducible apply Keeps.ktimeout
    | with_reducible apply Keeps.kiteC
    | (with_reducible apply Keeps.ktick; intro _ hs; first | exact TInv.t_logic.app (logic_mk (by with_reducible rfl) (by with_reducible rfl) (by with_reducible rfl) (by with_reducible rfl) (by with_reducible rfl) (by with_reducible rfl) (by with_reducible rfl)) hs | exact NInv.n_logic.app (logic_mk (by with_reducible rfl) (by with_reducible rfl) (by with_reducible rfl) (by with_reducible rfl) (by with_reducible rfl) (by with_reducible rfl) (by with_reducible rfl)) hs | exact HInv.h_logic.app (logic_mk (by with_reducible rfl) (by with_reducible rfl) (by with_reducible rfl) (by with_reducible rfl) (by with_reducible rfl) (by with_reducible rfl) (by with_reducible rfl)) hs | exact EInv.e_logic.app (logic_mk (by with_reducible rfl) (by with_reducible rfl) (by with_reducible rfl) (by with_reducible rfl) (by with_reducible rfl) (by with_reducible rfl) (by with_reducible rfl)) hs | exact UInv.u_logic.app (logic_mk (by with_reducible rfl) (by with_reducible rfl) (by with_reducible rfl) (by with_reducible rfl) (by with_reducible rfl) (by with_reducible rfl) (by with_reducible rfl)) hs | exact UNInv.un_logic.app (logic_mk (by with_reducible rfl) (by with_reducible rfl) (by with_reducible rfl) (by with_reducible rfl) (by with_reducible rfl) (by with_reducible rfl) (by with_reducible rfl)) hs)
    | (with_reducible apply Keeps.kmodify; intro _ hs; first
        | exact TInv.t_logic.app (logic_mk (by with_reducible rfl) (by with_reducible rfl) (by with_reducible rfl) (by with_reducible rfl) (by with_reducible rfl) (by with_reducible rfl) (by with_reducible rfl)) hs
        | exact NInv.n_logic.app (logic_mk (by with_reducible rfl) (by with_reducible rfl) (by with_reducible rfl) (by with_reducible rfl) (by with_reducible rfl) (by with_reducible rfl) (by with_reducible rfl)) hs
        | exact HInv.h_logic.app (logic_mk (by with_reducible rfl) (by with_reducible rfl) (by with_reducible rfl) (by with_reducible rfl) (by with_reducible rfl) (by with_reducible rfl) (by with_reducible rfl)) hs
        | exact EInv.e_logic.app (logic_mk (by with_reducible rfl) (by with_reducible rfl) (by with_reducible rfl) (by with_reducible rfl) (by with_reducible rfl) (by with_reducible rfl) (by with_reducible rfl)) hs
        | exact UInv.u_logic.app (logic_mk (by with_reducible rfl) (by with_reducible rfl) (by with_reducible rfl) (by with_reducible rfl) (by with_reducible rfl) (by with_reducible rfl) (by with_reducible rfl)) hs
        | exact UNInv.un_logic.app (logic_mk (by with_reducible rfl) (by with_reducible rfl) (by with_reducible rfl) (by with_reducible rfl) (by with_reducible rfl) (by with_reducible rfl) (by with_reducible rfl)) hs
        | exact TInv.t_eq hd hs (by with_reducible rfl) (by with_reducible rfl) (by with_reducible rfl) (by with_reducible rfl)
        | exact NInv.n_eq hd hs (by with_reducible rfl) (by with_reducible rfl) (by with_reducible rfl) (by with_reducible rfl) (by with_reducible rfl))
    | with_reducible intro _
    | split
    | dsimp only

theorem NewLog_tinv (hd : d ≤ B) (hM2 : B ≤ 2147483647) (env : Env) (fuel : Nat) (L : Int) :
    Keeps (TInv t0 B 0 d c) (NewLog env fuel L) :=
  Tri.toKeeps (Tri.pre TInv.toU (NewLog_fresh hd hM2 env fuel L))

theorem CloseLog_tinv (hd0 : 0 ≤ d) (hd : d ≤ B) (hM2 : B ≤ 2147483647) (env : Env)
    (fuel : Nat) : Keeps (TInv t0 B 0 d c) (CloseLog env fuel) := by
  unfold CloseLog DisplayIsoDateTime mdSetSync
  refine Tri.toKeeps ?_
  repeat' first
    | with_reducible apply Tri.bindT (fun _ => TInv t0 B 0 d c) (Tri.pre (HInv.toG_ne hd0 (by assumption)) (FlushBlock_tri hM2 _ _ _))
    | with_reducible apply Tri.getWith (fun s0 x => HInv t0 B d c s0.mNextLogSeq s0.mLastLogSeq x) HInv.h_start
    | (with_reducible apply Keeps.of_logic (Close_logic _); first | exact TInv.t_logic | exact NInv.n_logic | exact HInv.h_logic | exact EInv.e_logic | exact UInv.u_logic | exact UNInv.un_logic)
    | (with_reducible apply Keeps.of_logic (IoError_logic _); first | exact TInv.t_logic | exact NInv.n_logic | exact HInv.h_logic | exact EInv.e_logic | exact UInv.u_logic | exact UNInv.un_logic)
    | (with_reducible apply Keeps.of_logic (Sync_logic _); first | exact TInv.t_logic | exact NInv.n_logic | exact HInv.h_logic | exact EInv.e_logic | exact UInv.u_logic | exact UNInv.un_logic)
    | (with_reducible apply Keeps.of_logic (StartBlock_logic _); first | exact TInv.t_logic | exact NInv.n_logic | exact HInv.h_logic | exact EInv.e_logic | exact UInv.u_logic | exact UNInv.un_logic)
    | (with_reducible apply Keeps.of_logic (mdWrite_logic _ _ _); first | exact TInv.t_logic | exact NInv.n_logic | exact HInv.h_logic | exact EInv.e_logic | exact UInv.u_logic | exact UNInv.un_logic)
    | (with_reducible apply Keeps.of_logic (mdFlush_logic _ _); first | exact TInv.t_logic | exact NInv.n_logic | exact HInv.h_logic | exact EInv.e_logic | exact UInv.u_logic | exact UNInv.un_logic)
    | (with_reducible apply Keeps.of_logic (IsLogStreamGood_logic); first | exact TInv.t_logic | exact NInv.n_logic | exact HInv.h_logic | exact EInv.e_logic | exact UInv.u_logic | exact UNInv.un_logic)
    | (with_reducible apply Keeps.of_logic (IsSimulateFailure_logic _); first | exact TInv.t_logic | exact NInv.n_logic | exact HInv.h_logic | exact EInv.e_logic | exact UInv.u_logic | exact UNInv.un_logic)
    | with_reducible apply Tri.iteT
    | (with_reducible apply Tri.pureT; intro _ hs; first | exact hs | exact NInv.n_toT _ hs | exact HInv.h_toT _ hs)
    | with_reducible apply Tri.pre HInv.h_toT
    | with_reducible apply Tri.getK
    | with_reducible apply Tri.panicBind
    | with_reducible apply Tri.bindK
    | (with_reducible apply Tri.modifyT; intro _ hs; first
        | exact TInv.t_logic.app (logic_mk (by with_reducible rfl) (by with_reducible rfl) (by with_reducible rfl) (by with_reducible rfl) (by with_reducible rfl) (by with_reducible rfl) (by with_reducible rfl)) hs
        | exact NInv.n_logic.app (logic_mk (by with_reducible rfl) (by with_reducible rfl) (by with_reducible rfl) (by with_reducible rfl) (by with_reducible rfl) (by with_reducible rfl) (by with_reducible rfl)) hs
        | exact HInv.h_logic.app (logic_mk (by with_reducible rfl) (by with_reducible rfl) (by with_reducible rfl) (by with_reducible rfl) (by with_reducible rfl) (by with_reducible rfl) (by with_reducible rfl)) hs
        | exact EInv.e_logic.app (logic_mk (by with_reducible rfl) (by with_reducible rfl) (by with_reducible rfl) (by with_reducible rfl) (by with_reducible rfl) (by with_reducible rfl) (by with_reducible rfl)) hs
        | exact UInv.u_logic.app (logic_mk (by with_reducible rfl) (by with_reducible rfl) (by with_reducible rfl) (by with_reducible rfl) (by with_reducible rfl) (by with_reducible rfl) (by with_reducible rfl)) hs
        | exact UNInv.un_logic.app (logic_mk (by with_reducible rfl) (by with_reducible rfl) (by with_reducible rfl) (by with_reducible rfl) (by with_reducible rfl) (by with_reducible rfl) (by with_reducible rfl)) hs
        | exact TInv.t_eq hd hs (by with_reducible rfl) (by with_reducible rfl) (by with_reducible rfl) (by with_reducible rfl))
    | with_reducible refine Tri.of_keeps ?_ (fun _ _ h => h)
    | with_reducible refine Tri.of_keeps ?_ (fun _ s h => NInv.n_toT s h)
    | with_reducible refine Tri.of_keeps ?_ (fun _ s h => HInv.h_toT s h)
    | with_reducible apply Keeps.kbind_get
    | with_reducible apply Keeps.kbind
    | with_reducible apply Keeps.kpure
    | with_reducible apply Keeps.kget
    | with_reducible apply Keeps.kpanic
    | with_reducible apply Keeps.ktimeout
    | with_reducible apply Keeps.kiteC
    | (with_reducible apply Keeps.ktick; intro _ hs; first | exact TInv.t_logic.app (logic_mk (by with_reducible rfl) (by with_reducible rfl) (by with_reducible rfl) (by with_reducible rfl) (by with_reducible rfl) (by with_reducible rfl) (by with_reducible rfl)) hs | exact NInv.n_logic.app (logic_mk (by with_reducible rfl) (by with_reducible rfl) (by with_reducible rfl) (by with_reducible rfl) (by with_reducible rfl) (by with_reducible rfl) (by with_reducible rfl)) hs | exact HInv.h_logic.app (logic_mk (by with_reducible rfl) (by with_reducible rfl) (by with_reducible rfl) (by with_reducible rfl) (by with_reducible rfl) (by with_reducible rfl) (by with_reducible rfl)) hs | exact EInv.e_logic.app (logic_mk (by with_reducible rfl) (by with_reducible rfl) (by with_reducible rfl) (by with_reducible rfl) (by with_reducible rfl) (by with_reducible rfl) (by with_reducible rfl)) hs | exact UInv.u_logic.app (logic_mk (by with_reducible rfl) (by with_reducible rfl) (by with_reducible rfl) (by with_reducible rfl) (by with_reducible rfl) (by with_reducible rfl) (by with_reducible rfl)) hs | exact UNInv.un_logic.app (logic_mk (by with_reducible rfl) (by with_reducible rfl) (by with_reducible rfl) (by with_reducible rfl) (by with_reducible rfl) (by with_reducible rfl) (by with_reducible rfl)) hs)
    | (with_reducible apply Keeps.kmodify; intro _ hs; first
        | exact TInv.t_logic.app (logic_mk (by with_reducible rfl) (by with_reducible rfl) (by with_reducible rfl) (by with_reducible rfl) (by with_reducible rfl) (by with_reducible rfl) (by with_reducible rfl)) hs
        | exact NInv.n_logic.app (logic_mk (by with_reducible rfl) (by with_reducible rfl) (by with_reducible rfl) (by with_reducible rfl) (by with_reducible rfl) (by with_reducible rfl) (by with_reducible rfl)) hs
        | exact HInv.h_logic.app (logic_mk (by with_reducible rfl) (by with_reducible rfl) (by with_reducible rfl) (by with_reducible rfl) (by with_reducible rfl) (by with_reducible rfl) (by with_reducible rfl)) hs
        | exact EInv.e_logic.app (logic_mk (by with_reducible rfl) (by with_reducible rfl) (by with_reducible rfl) (by with_reducible rfl) (by with_reducible rfl) (by with_reducible rfl) (by with_reducible rfl)) hs
        | exact UInv.u_logic.app (logic_mk (by with_reducible rfl) (by with_reducible rfl) (by with_reducible rfl) (by with_reducible rfl) (by with_reducible rfl) (by with_reducible rfl) (by with_reducible rfl)) hs
        | exact UNInv.un_logic.app (logic_mk (by with_reducible rfl) (by with_reducible rfl) (by with_reducible rfl) (by with_reducible rfl) (by with_reducible rfl) (by with_reducible rfl) (by with_reducible rfl)) hs
        | exact TInv.t_eq hd hs (by with_reducible rfl) (by with_reducible rfl) (by with_reducible rfl) (by with_reducible rfl))
    | with_reducible intro _
    | split
    | dsimp only

theorem StartNextLog_tinv (hd0 : 0 ≤ d) (hd : d ≤ B) (hM2 : B ≤ 2147483647) (env : Env)
    (fuel : Nat) : Keeps (TInv t0 B 0 d c) (StartNextLog env fuel) := by
  unfold StartNextLog
  repeat' first
    | with_reducible apply CloseLog_tinv hd0 hd hM2
    | with_reducible apply NewLog_tinv hd hM2
    | (with_reducible apply Keeps.of_logic (Close_logic _); first | exact TInv.t_logic | exact NInv.n_logic | exact HInv.h_logic | exact EInv.e_logic | exact UInv.u_logic | exact UNInv.un_logic)
    | (with_reducible apply Keeps.of_logic (IoError_logic _); first | exact TInv.t_logic | exact NInv.n_logic | exact HInv.h_logic | exact EInv.e_logic | exact UInv.u_logic | exact UNInv.un_logic)
    | (with_reducible apply Keeps.of_logic (Sync_logic _); first | exact TInv.t_logic | exact NInv.n_logic | exact HInv.h_logic | exact EInv.e_logic | exact UInv.u_logic | exact UNInv.un_logic)
    | (with_reducible apply Keeps.of_logic (StartBlock_logic _); first | exact TInv.t_logic | exact NInv.n_logic | exact HInv.h_logic | exact EInv.e_logic | exact UInv.u_logic | exact UNInv.un_logic)
    | (with_reducible apply Keeps.of_logic (mdWrite_logic _ _ _); first | exact TInv.t_logic | exact NInv.n_logic | exact HInv.h_logic | exact EInv.e_logic | exact UInv.u_logic | exact UNInv.un_logic)
    | (with_reducible apply Keeps.of_logic (mdFlush_logic _ _); first | exact TInv.t_logic | exact NInv.n_logic | exact HInv.h_logic | exact EInv.e_logic | exact UInv.u_logic | exact UNInv.un_logic)
    | (with_reducible apply Keeps.of_logic (IsLogStreamGood_logic); first | exact TInv.t_logic | exact NInv.n_logic | exact HInv.h_logic | exact EInv.e_logic | exact UInv.u_logic | exact UNInv.un_logic)
    | (with_reducible apply Keeps.of_logic (IsSimulateFailure_logic _); first | exact TInv.t_logic | exact NInv.n_logic | exact HInv.h_logic | exact EInv.e_logic | exact UInv.u_logic | exact UNInv.un_logic)
    | with_reducible apply Tri.iteT
    | (with_reducible apply Tri.pureT; intro _ hs; first | exact hs | exact NInv.n_toT _ hs | exact HInv.h_toT _ hs)
    | with_reducible apply Tri.pre HInv.h_toT
    | with_reducible apply Tri.getK
    | with_reducible apply Tri.panicBind
    | with_reducible apply Tri.bindK
    | (with_reducible apply Tri.modifyT; intro _ hs; first
        | exact TInv.t_logic.app (logic_mk (by with_reducible rfl) (by with_reducible rfl) (by with_reducible rfl) (by with_reducible rfl) (by with_reducible rfl) (by with_reducible rfl) (by with_reducible rfl)) hs
        | exact NInv.n_logic.app (logic_mk (by with_reducible rfl) (by with_reducible rfl) (by with_reducible rfl) (by with_reducible rfl) (by with_reducible rfl) (by with_reducible rfl) (by with_reducible rfl)) hs
        | exact HInv.h_logic.app (logic_mk (by with_reducible rfl) (by with_reducible rfl) (by with_reducible rfl) (by with_reducible rfl) (by with_reducible rfl) (by with_reducible rfl) (by with_reducible rfl)) hs
        | exact EInv.e_logic.app (logic_mk (by with_reducible rfl) (by with_reducible rfl) (by with_reducible rfl) (by with_reducible rfl) (by with_reducible rfl) (by with_reducible rfl) (by with_reducible rfl)) hs
        | exact UInv.u_logic.app (logic_mk (by with_reducible rfl) (by with_reducible rfl) (by with_reducible rfl) (by with_reducible rfl) (by with_reducible rfl) (by with_reducible rfl) (by with_reducible rfl)) hs
        | exact UNInv.un_logic.app (logic_mk (by with_reducible rfl) (by with_reducible rfl) (by with_reducible rfl) (by with_reducible rfl) (by with_reducible rfl) (by with_reducible rfl) (by with_reducible rfl)) hs)
    | with_reducible refine Tri.of_keeps ?_ (fun _ _ h => h)
    | with_reducible refine Tri.of_keeps ?_ (fun _ s h => NInv.n_toT s h)
    | with_reducible refine Tri.of_keeps ?_ (fun _ s h => HInv.h_toT s h)
    | with_reducible apply Keeps.kbind_get
    | with_reducible apply Keeps.kbind
    | with_reducible apply Keeps.kpure
    | with_reducible apply Keeps.kget
    | with_reducible apply Keeps.kpanic
    | with_reducible apply Keeps.ktimeout
    | with_reducible apply Keeps.kiteC
    | (with_reducible apply Keeps.ktick; intro _ hs; first | exact TInv.t_logic.app (logic_mk (by with_reducible rfl) (by with_reducible rfl) (by with_reducible rfl) (by with_reducible rfl) (by with_reducible rfl) (by with_reducible rfl) (by with_reducible rfl)) hs | exact NInv.n_logic.app (logic_mk (by with_reducible rfl) (by with_reducible rfl) (by with_reducible rfl) (by with_reducible rfl) (by with_reducible rfl) (by with_reducible rfl) (by with_reducible rfl)) hs | exact HInv.h_logic.app (logic_mk (by with_reducible rfl) (by with_reducible rfl) (by with_reducible rfl) (by with_reducible rfl) (by with_reducible rfl) (by with_reducible rfl) (by with_reducible rfl)) hs | exact EInv.e_logic.app (logic_mk (by with_reducible rfl) (by with_reducible rfl) (by with_reducible rfl) (by with_reducible rfl) (by with_reducible rfl) (by with_reducible rfl) (by with_reducible rfl)) hs | exact UInv.u_logic.app (logic_mk (by with_reducible rfl) (by with_reducible rfl) (by with_reducible rfl) (by with_reducible rfl) (by with_reducible rfl) (by with_reducible rfl) (by with_reducible rfl)) hs | exact UNInv.un_logic.app (logic_mk (by with_reducible rfl) (by with_reducible rfl) (by with_reducible rfl) (by with_reducible rfl) (by with_reducible rfl) (by with_reducible rfl) (by with_reducible rfl)) hs)
    | (with_reducible apply Keeps.kmodify; intro _ hs; first
        | exact TInv.t_logic.app (logic_mk (by with_reducible rfl) (by with_reducible rfl) (by with_reducible rfl) (by with_reducible rfl) (by with_reducible rfl) (by with_reducible rfl) (by with_reducible rfl)) hs
        | exact NInv.n_logic.app (logic_mk (by with_reducible rfl) (by with_reducible rfl) (by with_reducible rfl) (by with_reducible rfl) (by with_reducible rfl) (by with_reducible rfl) (by with_reducible rfl)) hs
        | exact HInv.h_logic.app (logic_mk (by with_reducible rfl) (by with_reducible rfl) (by with_reducible rfl) (by with_reducible rfl) (by with_reducible rfl) (by with_reducible rfl) (by with_reducible rfl)) hs
        | exact EInv.e_logic.app (logic_mk (by with_reducible rfl) (by with_reducible rfl) (by with_reducible rfl) (by with_reducible rfl) (by with_reducible rfl) (by with_reducible rfl) (by with_reducible rfl)) hs
        | exact UInv.u_logic.app (logic_mk (by with_reducible rfl) (by with_reducible rfl) (by with_reducible rfl) (by with_reducible rfl) (by with_reducible rfl) (by with_reducible rfl) (by with_reducible rfl)) hs
        | exact UNInv.un_logic.app (logic_mk (by with_reducible rfl) (by with_reducible rfl) (by with_reducible rfl) (by with_reducible rfl) (by with_reducible rfl) (by with_reducible rfl) (by with_reducible rfl)) hs)
    | with_reducible intro _
    | split
    | dsimp only

theorem LogError_tinv (env : Env) (p : Nat) : Keeps (TInv t0 B lo d c) (LogError env p) := by
  unfold LogError
  exact Keeps.kmodify (fun s hs => hs.t_setReq p _ (fun _ => ⟨rfl, rfl⟩))

theorem Control_tinv (hd0 : 0 ≤ d) (hd : d ≤ B) (hM2 : B ≤ 2147483647) (env : Env)
    (fuel : Nat) (p : Nat) : Keeps (TInv t0 B 0 d (some p)) (Control env fuel p) := by
  unfold Control
  refine Keeps.kbind_get (fun s0 hs0 => ?_)
  have hty := hs0.2.2.2.2.1 p (hs0.2.2.2.2.2 p rfl)
  dsimp only
  split
  · exact Keeps.kpure _
  · rename_i h
    exact absurd h hty.1
  · skip
    repeat' first
      | with_reducible apply StartNextLog_tinv hd0 hd hM2
      | (with_reducible apply Keeps.of_logic (Close_logic _); first | exact TInv.t_logic | exact NInv.n_logic | exact HInv.h_logic | exact EInv.e_logic | exact UInv.u_logic | exact UNInv.un_logic)
      | (with_reducible apply Keeps.of_logic (IoError_logic _); first | exact TInv.t_logic | exact NInv.n_logic | exact HInv.h_logic | exact EInv.e_logic | exact UInv.u_logic | exact UNInv.un_logic)
      | (with_reducible apply Keeps.of_logic (Sync_logic _); first | exact TInv.t_logic | exact NInv.n_logic | exact HInv.h_logic | exact EInv.e_logic | exact UInv.u_logic | exact UNInv.un_logic)
      | (with_reducible apply Keeps.of_logic (StartBlock_logic _); first | exact TInv.t_logic | exact NInv.n_logic | exact HInv.h_logic | exact EInv.e_logic | exact UInv.u_logic | exact UNInv.un_logic)
      | (with_reducible apply Keeps.of_logic (mdWrite_logic _ _ _); first | exact TInv.t_logic | exact NInv.n_logic | exact HInv.h_logic | exact EInv.e_logic | exact UInv.u_logic | exact UNInv.un_logic)
      | (with_reducible apply Keeps.of_logic (mdFlush_logic _ _); first | exact TInv.t_logic | exact NInv.n_logic | exact HInv.h_logic | exact EInv.e_logic | exact UInv.u_logic | exact UNInv.un_logic)
      | (with_reducible apply Keeps.of_logic (IsLogStreamGood_logic); first | exact TInv.t_logic | exact NInv.n_logic | exact HInv.h_logic | exact EInv.e_logic | exact UInv.u_logic | exact UNInv.un_logic)
      | (with_reducible apply Keeps.of_logic (IsSimulateFailure_logic _); first | exact TInv.t_logic | exact NInv.n_logic | exact HInv.h_logic | exact EInv.e_logic | exact UInv.u_logic | exact UNInv.un_logic)
      | with_reducible apply Tri.iteT
      | (with_reducible apply Tri.pureT; intro _ hs; first | exact hs | exact NInv.n_toT _ hs | exact HInv.h_toT _ hs)
      | with_reducible apply Tri.pre HInv.h_toT
      | with_reducible apply Tri.getK
      | with_reducible apply Tri.panicBind
      | with_reducible apply Tri.bindK
      | (with_reducible apply Tri.modifyT; intro _ hs; first
          | exact TInv.t_logic.app (logic_mk (by with_reducible rfl) (by with_reducible rfl) (by with_reducible rfl) (by with_reducible rfl) (by with_reducible rfl) (by with_reducible rfl) (by with_reducible rfl)) hs
          | exact NInv.n_logic.app (logic_mk (by with_reducible rfl) (by with_reducible rfl) (by with_reducible rfl) (by with_reducible rfl) (by with_reducible rfl) (by with_reducible rfl) (by with_reducible rfl)) hs
          | exact HInv.h_logic.app (logic_mk (by with_reducible rfl) (by with_reducible rfl) (by with_reducible rfl) (by with_reducible rfl) (by with_reducible rfl) (by with_reducible rfl) (by with_reducible rfl)) hs
          | exact EInv.e_logic.app (logic_mk (by with_reducible rfl) (by with_reducible rfl) (by with_reducible rfl) (by with_reducible rfl) (by with_reducible rfl) (by with_reducible rfl) (by with_reducible rfl)) hs
          | exact UInv.u_logic.app (logic_mk (by with_reducible rfl) (by with_reducible rfl) (by with_reducible rfl) (by with_reducible rfl) (by with_reducible rfl) (by with_reducible rfl) (by with_reducible rfl)) hs
          | exact UNInv.un_logic.app (logic_mk (by with_reducible rfl) (by with_reducible rfl) (by with_reducible rfl) (by with_reducible rfl) (by with_reducible rfl) (by with_reducible rfl) (by with_reducible rfl)) hs
          | exact TInv.t_setReq hs _ _ (fun _ => ⟨rfl, rfl⟩))
      | with_reducible refine Tri.of_keeps ?_ (fun _ _ h => h)
      | with_reducible refine Tri.of_keeps ?_ (fun _ s h => NInv.n_toT s h)
      | with_reducible refine Tri.of_keeps ?_ (fun _ s h => HInv.h_toT s h)
      | with_reducible apply Keeps.kbind_get
      | with_reducible apply Keeps.kbind
      | with_reducible apply Keeps.kpure
      | with_reducible apply Keeps.kget
      | with_reducible apply Keeps.kpanic
      | with_reducible apply Keeps.ktimeout
      | with_reducible apply Keeps.kiteC
      | (with_reducible apply Keeps.ktick; intro _ hs; first | exact TInv.t_logic.app (logic_mk (by with_reducible rfl) (by with_reducible rfl) (by with_reducible rfl) (by with_reducible rfl) (by with_reducible rfl) (by with_reducible rfl) (by with_reducible rfl)) hs | exact NInv.n_logic.app (logic_mk (by with_reducible rfl) (by with_reducible rfl) (by with_reducible rfl) (by with_reducible rfl) (by with_reducible rfl) (by with_reducible rfl) (by with_reducible rfl)) hs | exact HInv.h_logic.app (logic_mk (by with_reducible rfl) (by with_reducible rfl) (by with_reducible rfl) (by with_reducible rfl) (by with_reducible rfl) (by with_reducible rfl) (by with_reducible rfl)) hs | exact EInv.e_logic.app (logic_mk (by with_reducible rfl) (by with_reducible rfl) (by with_reducible rfl) (by with_reducible rfl) (by with_reducible rfl) (by with_reducible rfl) (by with_reducible rfl)) hs | exact UInv.u_logic.app (logic_mk (by with_reducible rfl) (by with_reducible rfl) (by with_reducible rfl) (by with_reducible rfl) (by with_reducible rfl) (by with_reducible rfl) (by with_reducible rfl)) hs | exact UNInv.un_logic.app (logic_mk (by with_reducible rfl) (by with_reducible rfl) (by with_reducible rfl) (by with_reducible rfl) (by with_reducible rfl) (by with_reducible rfl) (by with_reducible rfl)) hs)
      | (with_reducible apply Keeps.kmodify; intro _ hs; first
          | exact TInv.t_logic.app (logic_mk (by with_reducible rfl) (by with_reducible rfl) (by with_reducible rfl) (by with_reducible rfl) (by with_reducible rfl) (by with_reducible rfl) (by with_reducible rfl)) hs
          | exact NInv.n_logic.app (logic_mk (by with_reducible rfl) (by with_reducible rfl) (by with_reducible rfl) (by with_reducible rfl) (by with_reducible rfl) (by with_reducible rfl) (by with_reducible rfl)) hs
          | exact HInv.h_logic.app (logic_mk (by with_reducible rfl) (by with_reducible rfl) (by with_reducible rfl) (by with_reducible rfl) (by with_reducible rfl) (by with_reducible rfl) (by with_reducible rfl)) hs
          | exact EInv.e_logic.app (logic_mk (by with_reducible rfl) (by with_reducible rfl) (by with_reducible rfl) (by with_reducible rfl) (by with_reducible rfl) (by with_reducible rfl) (by with_reducible rfl)) hs
          | exact UInv.u_logic.app (logic_mk (by with_reducible rfl) (by with_reducible rfl) (by with_reducible rfl) (by with_reducible rfl) (by with_reducible rfl) (by with_reducible rfl) (by with_reducible rfl)) hs
          | exact UNInv.un_logic.app (logic_mk (by with_reducible rfl) (by with_reducible rfl) (by with_reducible rfl) (by with_reducible rfl) (by with_reducible rfl) (by with_reducible rfl) (by with_reducible rfl)) hs
          | exact TInv.t_setReq hs _ _ (fun _ => ⟨rfl, rfl⟩))
      | with_reducible intro _
      | split
      | dsimp only
  · skip
    repeat' first
      | with_reducible apply StartNextLog_tinv hd0 hd hM2
      | (with_reducible apply Keeps.of_logic (Close_logic _); first | exact TInv.t_logic | exact NInv.n_logic | exact HInv.h_logic | exact EInv.e_logic | exact UInv.u_logic | exact UNInv.un_logic)
      | (with_reducible apply Keeps.of_logic (IoError_logic _); first | exact TInv.t_logic | exact NInv.n_logic | exact HInv.h_logic | exact EInv.e_logic | exact UInv.u_logic | exact UNInv.un_logic)
      | (with_reducible apply Keeps.of_logic (Sync_logic _); first | exact TInv.t_logic | exact NInv.n_logic | exact HInv.h_logic | exact EInv.e_logic | exact UInv.u_logic | exact UNInv.un_logic)
      | (with_reducible apply Keeps.of_logic (StartBlock_logic _); first | exact TInv.t_logic | exact NInv.n_logic | exact HInv.h_logic | exact EInv.e_logic | exact UInv.u_logic | exact UNInv.un_logic)
      | (with_reducible apply Keeps.of_logic (mdWrite_logic _ _ _); first | exact TInv.t_logic | exact NInv.n_logic | exact HInv.h_logic | exact EInv.e_logic | exact UInv.u_logic | exact UNInv.un_logic)
      | (with_reducible apply Keeps.of_logic (mdFlush_logic _ _); first | exact TInv.t_logic | exact NInv.n_logic | exact HInv.h_logic | exact EInv.e_logic | exact UInv.u_logic | exact UNInv.un_logic)
      | (with_reducible apply Keeps.of_logic (IsLogStreamGood_logic); first | exact TInv.t_logic | exact NInv.n_logic | exact HInv.h_logic | exact EInv.e_logic | exact UInv.u_logic | exact UNInv.un_logic)
      | (with_reducible apply Keeps.of_logic (IsSimulateFailure_logic _); first | exact TInv.t_logic | exact NInv.n_logic | exact HInv.h_logic | exact EInv.e_logic | exact UInv.u_logic | exact UNInv.un_logic)
      | with_reducible apply Tri.iteT
      | (with_reducible apply Tri.pureT; intro _ hs; first | exact hs | exact NInv.n_toT _ hs | exact HInv.h_toT _ hs)
      | with_reducible apply Tri.pre HInv.h_toT
      | with_reducible apply Tri.getK
      | with_reducible apply Tri.panicBind
      | with_reducible apply Tri.bindK
      | (with_reducible apply Tri.modifyT; intro _ hs; first
          | exact TInv.t_logic.app (logic_mk (by with_reducible rfl) (by with_reducible rfl) (by with_reducible rfl) (by with_reducible rfl) (by with_reducible rfl) (by with_reducible rfl) (by with_reducible rfl)) hs
          | exact NInv.n_logic.app (logic_mk (by with_reducible rfl) (by with_reducible rfl) (by with_reducible rfl) (by with_reducible rfl) (by with_reducible rfl) (by with_reducible rfl) (by with_reducible rfl)) hs
          | exact HInv.h_logic.app (logic_mk (by with_reducible rfl) (by with_reducible rfl) (by with_reducible rfl) (by with_reducible rfl) (by with_reducible rfl) (by with_reducible rfl) (by with_reducible rfl)) hs
          | exact EInv.e_logic.app (logic_mk (by with_reducible rfl) (by with_reducible rfl) (by with_reducible rfl) (by with_reducible rfl) (by with_reducible rfl) (by with_reducible rfl) (by with_reducible rfl)) hs
          | exact UInv.u_logic.app (logic_mk (by with_reducible rfl) (by with_reducible rfl) (by with_reducible rfl) (by with_reducible rfl) (by with_reducible rfl) (by with_reducible rfl) (by with_reducible rfl)) hs
          | exact UNInv.un_logic.app (logic_mk (by with_reducible rfl) (by with_reducible rfl) (by with_reducible rfl) (by with_reducible rfl) (by with_reducible rfl) (by with_reducible rfl) (by with_reducible rfl)) hs
          | exact TInv.t_setReq hs _ _ (fun _ => ⟨rfl, rfl⟩))
      | with_reducible refine Tri.of_keeps ?_ (fun _ _ h => h)
      | with_reducible refine Tri.of_keeps ?_ (fun _ s h => NInv.n_toT s h)
      | with_reducible refine Tri.of_keeps ?_ (fun _ s h => HInv.h_toT s h)
      | with_reducible apply Keeps.kbind_get
      | with_reducible apply Keeps.kbind
      | with_reducible apply Keeps.kpure
      | with_reducible apply Keeps.kget
      | with_reducible apply Keeps.kpanic
      | with_reducible apply Keeps.ktimeout
      | with_reducible apply Keeps.kiteC
      | (with_reducible apply Keeps.ktick; intro _ hs; first | exact TInv.t_logic.app (logic_mk (by with_reducible rfl) (by with_reducible rfl) (by with_reducible rfl) (by with_reducible rfl) (by with_reducible rfl) (by with_reducible rfl) (by with_reducible rfl)) hs | exact NInv.n_logic.app (logic_mk (by with_reducible rfl) (by with_reducible rfl) (by with_reducible rfl) (by with_reducible rfl) (by with_reducible rfl) (by with_reducible rfl) (by with_reducible rfl)) hs | exact HInv.h_logic.app (logic_mk (by with_reducible rfl) (by with_reducible rfl) (by with_reducible rfl) (by with_reducible rfl) (by with_reducible rfl) (by with_reducible rfl) (by with_reducible rfl)) hs | exact EInv.e_logic.app (logic_mk (by with_reducible rfl) (by with_reducible rfl) (by with_reducible rfl) (by with_reducible rfl) (by with_reducible rfl) (by with_reducible rfl) (by with_reducible rfl)) hs | exact UInv.u_logic.app (logic_mk (by with_reducible rfl) (by with_reducible rfl) (by with_reducible rfl) (by with_reducible rfl) (by with_reducible rfl) (by with_reducible rfl) (by with_reducible rfl)) hs | exact UNInv.un_logic.app (logic_mk (by with_reducible rfl) (by with_reducible rfl) (by with_reducible rfl) (by with_reducible rfl) (by with_reducible rfl) (by with_reducible rfl) (by with_reducible rfl)) hs)
      | (with_reducible apply Keeps.kmodify; intro _ hs; first
          | exact TInv.t_logic.app (logic_mk (by with_reducible rfl) (by with_reducible rfl) (by with_reducible rfl) (by with_reducible rfl) (by with_reducible rfl) (by with_reducible rfl) (by with_reducible rfl)) hs
          | exact NInv.n_logic.app (logic_mk (by with_reducible rfl) (by with_reducible rfl) (by with_reducible rfl) (by with_reducible rfl) (by with_reducible rfl) (by with_reducible rfl) (by with_reducible rfl)) hs
          | exact HInv.h_logic.app (logic_mk (by with_reducible rfl) (by with_reducible rfl) (by with_reducible rfl) (by with_reducible rfl) (by with_reducible rfl) (by with_reducible rfl) (by with_reducible rfl)) hs
          | exact EInv.e_logic.app (logic_mk (by with_reducible rfl) (by with_reducible rfl) (by with_reducible rfl) (by with_reducible rfl) (by with_reducible rfl) (by with_reducible rfl) (by with_reducible rfl)) hs
          | exact UInv.u_logic.app (logic_mk (by with_reducible rfl) (by with_reducible rfl) (by with_reducible rfl) (by with_reducible rfl) (by with_reducible rfl) (by with_reducible rfl) (by with_reducible rfl)) hs
          | exact UNInv.un_logic.app (logic_mk (by with_reducible rfl) (by with_reducible rfl) (by with_reducible rfl) (by with_reducible rfl) (by with_reducible rfl) (by with_reducible rfl) (by with_reducible rfl)) hs
          | exact TInv.t_setReq hs _ _ (fun _ => ⟨rfl, rfl⟩))
      | with_reducible intro _
      | split
      | dsimp only

theorem WriteFailed_tinv (env : Env) (n : Nat) :
    ∀ (ptr e : Option Nat), Keeps (TInv t0 B lo d c) (WriteFailed env n ptr e) := by
  induction n with
  | zero =>
    intro ptr e
    exact Keeps.ktimeout
  | succ n ih =>
    intro ptr e
    unfold WriteFailed
    repeat' first
      | with_reducible apply ih
      | with_reducible apply LogError_tinv
      | (with_reducible apply Keeps.of_logic (Close_logic _); first | exact TInv.t_logic | exact NInv.n_logic | exact HInv.h_logic | exact EInv.e_logic | exact UInv.u_logic | exact UNInv.un_logic)
      | (with_reducible apply Keeps.of_logic (IoError_logic _); first | exact TInv.t_logic | exact NInv.n_logic | exact HInv.h_logic | exact EInv.e_logic | exact UInv.u_logic | exact UNInv.un_logic)
      | (with_reducible apply Keeps.of_logic (Sync_logic _); first | exact TInv.t_logic | exact NInv.n_logic | exact HInv.h_logic | exact EInv.e_logic | exact UInv.u_logic | exact UNInv.un_logic)
      | (with_reducible apply Keeps.of_logic (StartBlock_logic _); first | exact TInv.t_logic | exact NInv.n_logic | exact HInv.h_logic | exact EInv.e_logic | exact UInv.u_logic | exact UNInv.un_logic)
      | (with_reducible apply Keeps.of_logic (mdWrite_logic _ _ _); first | exact TInv.t_logic | exact NInv.n_logic | exact HInv.h_logic | exact EInv.e_logic | exact UInv.u_logic | exact UNInv.un_logic)
      | (with_reducible apply Keeps.of_logic (mdFlush_logic _ _); first | exact TInv.t_logic | exact NInv.n_logic | exact HInv.h_logic | exact EInv.e_logic | exact UInv.u_logic | exact UNInv.un_logic)
      | (with_reducible apply Keeps.of_logic (IsLogStreamGood_logic); first | exact TInv.t_logic | exact NInv.n_logic | exact HInv.h_logic | exact EInv.e_logic | exact UInv.u_logic | exact UNInv.un_logic)
      | (with_reducible apply Keeps.of_logic (IsSimulateFailure_logic _); first | exact TInv.t_logic | exact NInv.n_logic | exact HInv.h_logic | exact EInv.e_logic | exact UInv.u_logic | exact UNInv.un_logic)
      | with_reducible apply Tri.iteT
      | (with_reducible apply Tri.pureT; intro _ hs; first | exact hs | exact NInv.n_toT _ hs | exact HInv.h_toT _ hs)
      | with_reducible apply Tri.pre HInv.h_toT
      | with_reducible apply Tri.getK
      | with_reducible apply Tri.panicBind
      | with_reducible apply Tri.bindK
      | (with_reducible apply Tri.modifyT; intro _ hs; first
          | exact TInv.t_logic.app (logic_mk (by with_reducible rfl) (by with_reducible rfl) (by with_reducible rfl) (by with_reducible rfl) (by with_reducible rfl) (by with_reducible rfl) (by with_reducible rfl)) hs
          | exact NInv.n_logic.app (logic_mk (by with_reducible rfl) (by with_reducible rfl) (by with_reducible rfl) (by with_reducible rfl) (by with_reducible rfl) (by with_reducible rfl) (by with_reducible rfl)) hs
          | exact HInv.h_logic.app (logic_mk (by with_reducible rfl) (by with_reducible rfl) (by with_reducible rfl) (by with_reducible rfl) (by with_reducible rfl) (by with_reducible rfl) (by with_reducible rfl)) hs
          | exact EInv.e_logic.app (logic_mk (by with_reducible rfl) (by with_reducible rfl) (by with_reducible rfl) (by with_reducible rfl) (by with_reducible rfl) (by with_reducible rfl) (by with_reducible rfl)) hs
          | exact UInv.u_logic.app (logic_mk (by with_reducible rfl) (by with_reducible rfl) (by with_reducible rfl) (by with_reducible rfl) (by with_reducible rfl) (by with_reducible rfl) (by with_reducible rfl)) hs
          | exact UNInv.un_logic.app (logic_mk (by with_reducible rfl) (by with_reducible rfl) (by with_reducible rfl) (by with_reducible rfl) (by with_reducible rfl) (by with_reducible rfl) (by with_reducible rfl)) hs)
      | with_reducible refine Tri.of_keeps ?_ (fun _ _ h => h)
      | with_reducible refine Tri.of_keeps ?_ (fun _ s h => NInv.n_toT s h)
      | with_reducible refine Tri.of_keeps ?_ (fun _ s h => HInv.h_toT s h)
      | with_reducible apply Keeps.kbind_get
      | with_reducible apply Keeps.kbind
      | with_reducible apply Keeps.kpure
      | with_reducible apply Keeps.kget
      | with_reducible apply Keeps.kpanic
      | with_reducible apply Keeps.ktimeout
      | with_reducible apply Keeps.kiteC
      | (with_reducible apply Keeps.ktick; intro _ hs; first | exact TInv.t_logic.app (logic_mk (by with_reducible rfl) (by with_reducible rfl) (by with_reducible rfl) (by with_reducible rfl) (by with_reducible rfl) (by with_reducible rfl) (by with_reducible rfl)) hs | exact NInv.n_logic.app (logic_mk (by with_reducible rfl) (by with_reducible rfl) (by with_reducible rfl) (by with_reducible rfl) (by with_reducible rfl) (by with_reducible rfl) (by with_reducible rfl)) hs | exact HInv.h_logic.app (logic_mk (by with_reducible rfl) (by with_reducible rfl) (by with_reducible rfl) (by with_reducible rfl) (by with_reducible rfl) (by with_reducible rfl) (by with_reducible rfl)) hs | exact EInv.e_logic.app (logic_mk (by with_reducible rfl) (by with_reducible rfl) (by with_reducible rfl) (by with_reducible rfl) (by with_reducible rfl) (by with_reducible rfl) (by with_reducible rfl)) hs | exact UInv.u_logic.app (logic_mk (by with_reducible rfl) (by with_reducible rfl) (by with_reducible rfl) (by with_reducible rfl) (by with_reducible rfl) (by with_reducible rfl) (by with_reducible rfl)) hs | exact UNInv.un_logic.app (logic_mk (by with_reducible rfl) (by with_reducible rfl) (by with_reducible rfl) (by with_reducible rfl) (by with_reducible rfl) (by with_reducible rfl) (by with_reducible rfl)) hs)
      | (with_reducible apply Keeps.kmodify; intro _ hs; first
          | exact TInv.t_logic.app (logic_mk (by with_reducible rfl) (by with_reducible rfl) (by with_reducible rfl) (by with_reducible rfl) (by with_reducible rfl) (by with_reducible rfl) (by with_reducible rfl)) hs
          | exact NInv.n_logic.app (logic_mk (by with_reducible rfl) (by with_reducible rfl) (by with_reducible rfl) (by with_reducible rfl) (by with_reducible rfl) (by with_reducible rfl) (by with_reducible rfl)) hs
          | exact HInv.h_logic.app (logic_mk (by with_reducible rfl) (by with_reducible rfl) (by with_reducible rfl) (by with_reducible rfl) (by with_reducible rfl) (by with_reducible rfl) (by with_reducible rfl)) hs
          | exact EInv.e_logic.app (logic_mk (by with_reducible rfl) (by with_reducible rfl) (by with_reducible rfl) (by with_reducible rfl) (by with_reducible rfl) (by with_reducible rfl) (by with_reducible rfl)) hs
          | exact UInv.u_logic.app (logic_mk (by with_reducible rfl) (by with_reducible rfl) (by with_reducible rfl) (by with_reducible rfl) (by with_reducible rfl) (by with_reducible rfl) (by with_reducible rfl)) hs
          | exact UNInv.un_logic.app (logic_mk (by with_reducible rfl) (by with_reducible rfl) (by with_reducible rfl) (by with_reducible rfl) (by with_reducible rfl) (by with_reducible rfl) (by with_reducible rfl)) hs)
      | with_reducible intro _
      | split
      | dsimp only

theorem WriteInner_tri (h1 : 1 ≤ B) (hM2 : B ≤ 2147483647) (env : Env) (fuel : Nat) (n : Nat) :
    ∀ (ptr : Option Nat) (eb : Int) (sim up : Bool),
      Tri (EInv t0 B 0 1 none eb) (WriteInner env fuel n ptr eb sim up)
        (fun r s' => TInv t0 B 0 0 r.2 s') := by
  have h00 : (0 : Int) ≤ 0 := le_refl _
  have h01 : (0 : Int) ≤ 1 := by decide
  induction n with
  | zero =>
    intro ptr eb sim up
    exact Tri.timeoutT
  | succ n ih =>
    intro ptr eb sim up
    cases ptr with
    | none => exact Tri.pureT (fun s hs => hs.1.t_weaken h00 h01 (Or.inl rfl))
    | some p =>
      unfold WriteInner
      refine Tri.getWith (fun s0 x => EInv t0 B 0 1 none eb x ∧ x = s0)
        (fun s hs => ⟨hs, rfl⟩) (fun s0 _ => ?_)
      refine Tri.iteT _ (fun hc => ?ctl)
        (fun _ => Tri.iteT _ (fun _ => Tri.pre (fun _ h => h.1) (ih _ _ _ _)) (fun _ => ?main))
      case ctl =>
        refine Tri.pre
          (fun x hx => (hx.1.1.ctl p (hx.2 ▸ hc) : TInv t0 B 0 1 (some p) x)) ?_
        refine Tri.bindK (Control_tinv h01 h1 hM2 env fuel p) (fun brk => ?_)
        repeat' first
          | (with_reducible apply Tri.pureT; intro _ hs; exact TInv.t_weaken hs h00 h01 (Or.inr rfl))
          | with_reducible apply Tri.getWith (fun s0 x => EInv t0 B 0 1 none (s0.mNextLogSeq + s0.mMaxBlockSize) x) (fun s hs => TInv.toE s hs)
          | with_reducible apply ih
          | (with_reducible apply Keeps.of_logic (Close_logic _); first | exact TInv.t_logic | exact NInv.n_logic | exact HInv.h_logic | exact EInv.e_logic | exact UInv.u_logic | exact UNInv.un_logic)
          | (with_reducible apply Keeps.of_logic (IoError_logic _); first | exact TInv.t_logic | exact NInv.n_logic | exact HInv.h_logic | exact EInv.e_logic | exact UInv.u_logic | exact UNInv.un_logic)
          | (with_reducible apply Keeps.of_logic (Sync_logic _); first | exact TInv.t_logic | exact NInv.n_logic | exact HInv.h_logic | exact EInv.e_logic | exact UInv.u_logic | exact UNInv.un_logic)
          | (with_reducible apply Keeps.of_logic (StartBlock_logic _); first | exact TInv.t_logic | exact NInv.n_logic | exact HInv.h_logic | exact EInv.e_logic | exact UInv.u_logic | exact UNInv.un_logic)
          | (with_reducible apply Keeps.of_logic (mdWrite_logic _ _ _); first | exact TInv.t_logic | exact NInv.n_logic | exact HInv.h_logic | exact EInv.e_logic | exact UInv.u_logic | exact UNInv.un_logic)
          | (with_reducible apply Keeps.of_logic (mdFlush_logic _ _); first | exact TInv.t_logic | exact NInv.n_logic | exact HInv.h_logic | exact EInv.e_logic | exact UInv.u_logic | exact UNInv.un_logic)
          | (with_reducible apply Keeps.of_logic (IsLogStreamGood_logic); first | exact TInv.t_logic | exact NInv.n_logic | exact HInv.h_logic | exact EInv.e_logic | exact UInv.u_logic | exact UNInv.un_logic)
          | (with_reducible apply Keeps.of_logic (IsSimulateFailure_logic _); first | exact TInv.t_logic | exact NInv.n_logic | exact HInv.h_logic | exact EInv.e_logic | exact UInv.u_logic | exact UNInv.un_logic)
          | with_reducible apply Tri.iteT
          | (with_reducible apply Tri.pureT; intro _ hs; first | exact hs | exact NInv.n_toT _ hs | exact HInv.h_toT _ hs)
          | with_reducible apply Tri.pre HInv.h_toT
          | with_reducible apply Tri.getK
          | with_reducible apply Tri.panicBind
          | with_reducible apply Tri.bindK
          | (with_reducible apply Tri.modifyT; intro _ hs; first
              | exact TInv.t_logic.app (logic_mk (by with_reducible rfl) (by with_reducible rfl) (by with_reducible rfl) (by with_reducible rfl) (by with_reducible rfl) (by with_reducible rfl) (by with_reducible rfl)) hs
              | exact NInv.n_logic.app (logic_mk (by with_reducible rfl) (by with_reducible rfl) (by with_reducible rfl) (by with_reducible rfl) (by with_reducible rfl) (by with_reducible rfl) (by with_reducible rfl)) hs
              | exact HInv.h_logic.app (logic_mk (by with_reducible rfl) (by with_reducible rfl) (by with_reducible rfl) (by with_reducible rfl) (by with_reducible rfl) (by with_reducible rfl) (by with_reducible rfl)) hs
              | exact EInv.e_logic.app (logic_mk (by with_reducible rfl) (by with_reducible rfl) (by with_reducible rfl) (by with_reducible rfl) (by with_reducible rfl) (by with_reducible rfl) (by with_reducible rfl)) hs
              | exact UInv.u_logic.app (logic_mk (by with_reducible rfl) (by with_reducible rfl) (by with_reducible rfl) (by with_reducible rfl) (by with_reducible rfl) (by with_reducible rfl) (by with_reducible rfl)) hs
              | exact UNInv.un_logic.app (logic_mk (by with_reducible rfl) (by with_reducible rfl) (by with_reducible rfl) (by with_reducible rfl) (by with_reducible rfl) (by with_reducible rfl) (by with_reducible rfl)) hs)
          | with_reducible refine Tri.of_keeps ?_ (fun _ _ h => h)
          | with_reducible refine Tri.of_keeps ?_ (fun _ s h => NInv.n_toT s h)
          | with_reducible refine Tri.of_keeps ?_ (fun _ s h => HInv.h_toT s h)
          | with_reducible apply Keeps.kbind_get
          | with_reducible apply Keeps.kbind
          | with_reducible apply Keeps.kpure
          | with_reducible apply Keeps.kget
          | with_reducible apply Keeps.kpanic
          | with_reducible apply Keeps.ktimeout
          | with_reducible apply Keeps.kiteC
          | (with_reducible apply Keeps.ktick; intro _ hs; first | exact TInv.t_logic.app (logic_mk (by with_reducible rfl) (by with_reducible rfl) (by with_reducible rfl) (by with_reducible rfl) (by with_reducible rfl) (by with_reducible rfl) (by with_reducible rfl)) hs | exact NInv.n_logic.app (logic_mk (by with_reducible rfl) (by with_reducible rfl) (by with_reducible rfl) (by with_reducible rfl) (by with_reducible rfl) (by with_reducible rfl) (by with_reducible rfl)) hs | exact HInv.h_logic.app (logic_mk (by with_reducible rfl) (by with_reducible rfl) (by with_reducible rfl) (by with_reducible rfl) (by with_reducible rfl) (by with_reducible rfl) (by with_reducible rfl)) hs | exact EInv.e_logic.app (logic_mk (by with_reducible rfl) (by with_reducible rfl) (by with_reducible rfl) (by with_reducible rfl) (by with_reducible rfl) (by with_reducible rfl) (by with_reducible rfl)) hs | exact UInv.u_logic.app (logic_mk (by with_reducible rfl) (by with_reducible rfl) (by with_reducible rfl) (by with_reducible rfl) (by with_reducible rfl) (by with_reducible rfl) (by with_reducible rfl)) hs | exact UNInv.un_logic.app (logic_mk (by with_reducible rfl) (by with_reducible rfl) (by with_reducible rfl) (by with_reducible rfl) (by with_reducible rfl) (by with_reducible rfl) (by with_reducible rfl)) hs)
          | (with_reducible apply Keeps.kmodify; intro _ hs; first
              | exact TInv.t_logic.app (logic_mk (by with_reducible rfl) (by with_reducible rfl) (by with_reducible rfl) (by with_reducible rfl) (by with_reducible rfl) (by with_reducible rfl) (by with_reducible rfl)) hs
              | exact NInv.n_logic.app (logic_mk (by with_reducible rfl) (by with_reducible rfl) (by with_reducible rfl) (by with_reducible rfl) (by with_reducible rfl) (by with_reducible rfl) (by with_reducible rfl)) hs
              | exact HInv.h_logic.app (logic_mk (by with_reducible rfl) (by with_reducible rfl) (by with_reducible rfl) (by with_reducible rfl) (by with_reducible rfl) (by with_reducible rfl) (by with_reducible rfl)) hs
              | exact EInv.e_logic.app (logic_mk (by with_reducible rfl) (by with_reducible rfl) (by with_reducible rfl) (by with_reducible rfl) (by with_reducible rfl) (by with_reducible rfl) (by with_reducible rfl)) hs
              | exact UInv.u_logic.app (logic_mk (by with_reducible rfl) (by with_reducible rfl) (by with_reducible rfl) (by with_reducible rfl) (by with_reducible rfl) (by with_reducible rfl) (by with_reducible rfl)) hs
              | exact UNInv.un_logic.app (logic_mk (by with_reducible rfl) (by with_reducible rfl) (by with_reducible rfl) (by with_reducible rfl) (by with_reducible rfl) (by with_reducible rfl) (by with_reducible rfl)) hs)
          | with_reducible intro _
          | split
          | dsimp only
      case main =>
        dsimp only
        refine Tri.pre (fun _ h => h.1) ?_
        refine Tri.iteT _ (fun _ => Tri.iteT _
          (fun _ => Tri.pureT (fun s hs => hs.1.t_weaken h00 h01 (Or.inl rfl)))
          (fun _ => Tri.bindK (Keeps.kpure _) (fun _ => ?seg))) (fun _ => ?rest)
        case rest =>
          refine Tri.pre (EInv.relax h00 h01) ?_
          repeat' first
            | with_reducible apply Tri.getWith (fun s0 x => EInv t0 B 0 0 none eb x ∧ x.mLastLogSeq = s0.mLastLogSeq) (fun s hs => ⟨hs, rfl⟩)
            | (with_reducible apply Tri.pureT; intro _ hs; exact EInv.retNone h00 h00 hs _)
            | with_reducible refine Tri.pre (fun x hx => EInv.tighten hx (by assumption)) (ih _ _ _ _)
            | (with_reducible apply Keeps.of_logic (Close_logic _); first | exact TInv.t_logic | exact NInv.n_logic | exact HInv.h_logic | exact EInv.e_logic | exact UInv.u_logic | exact UNInv.un_logic)
            | (with_reducible apply Keeps.of_logic (IoError_logic _); first | exact TInv.t_logic | exact NInv.n_logic | exact HInv.h_logic | exact EInv.e_logic | exact UInv.u_logic | exact UNInv.un_logic)
            | (with_reducible apply Keeps.of_logic (Sync_logic _); first | exact TInv.t_logic | exact NInv.n_logic | exact HInv.h_logic | exact EInv.e_logic | exact UInv.u_logic | exact UNInv.un_logic)
            | (with_reducible apply Keeps.of_logic (StartBlock_logic _); first | exact TInv.t_logic | exact NInv.n_logic | exact HInv.h_logic | exact EInv.e_logic | exact UInv.u_logic | exact UNInv.un_logic)
            | (with_reducible apply Keeps.of_logic (mdWrite_logic _ _ _); first | exact TInv.t_logic | exact NInv.n_logic | exact HInv.h_logic | exact EInv.e_logic | exact UInv.u_logic | exact UNInv.un_logic)
            | (with_reducible apply Keeps.of_logic (mdFlush_logic _ _); first | exact TInv.t_logic | exact NInv.n_logic | exact HInv.h_logic | exact EInv.e_logic | exact UInv.u_logic | exact UNInv.un_logic)
            | (with_reducible apply Keeps.of_logic (IsLogStreamGood_logic); first | exact TInv.t_logic | exact NInv.n_logic | exact HInv.h_logic | exact EInv.e_logic | exact UInv.u_logic | exact UNInv.un_logic)
            | (with_reducible apply Keeps.of_logic (IsSimulateFailure_logic _); first | exact TInv.t_logic | exact NInv.n_logic | exact HInv.h_logic | exact EInv.e_logic | exact UInv.u_logic | exact UNInv.un_logic)
            | with_reducible apply Tri.iteT
            | (with_reducible apply Tri.pureT; intro _ hs; first | exact hs | exact NInv.n_toT _ hs | exact HInv.h_toT _ hs)
            | with_reducible apply Tri.pre HInv.h_toT
            | with_reducible apply Tri.getK
            | with_reducible apply Tri.panicBind
            | with_reducible apply Tri.bindK
            | (with_reducible apply Tri.modifyT; intro _ hs; first
                | exact TInv.t_logic.app (logic_mk (by with_reducible rfl) (by with_reducible rfl) (by with_reducible rfl) (by with_reducible rfl) (by with_reducible rfl) (by with_reducible rfl) (by with_reducible rfl)) hs
                | exact NInv.n_logic.app (logic_mk (by with_reducible rfl) (by with_reducible rfl) (by with_reducible rfl) (by with_reducible rfl) (by with_reducible rfl) (by with_reducible rfl) (by with_reducible rfl)) hs
                | exact HInv.h_logic.app (logic_mk (by with_reducible rfl) (by with_reducible rfl) (by with_reducible rfl) (by with_reducible rfl) (by with_reducible rfl) (by with_reducible rfl) (by with_reducible rfl)) hs
                | exact EInv.e_logic.app (logic_mk (by with_reducible rfl) (by with_reducible rfl) (by with_reducible rfl) (by with_reducible rfl) (by with_reducible rfl) (by with_reducible rfl) (by with_reducible rfl)) hs
                | exact UInv.u_logic.app (logic_mk (by with_reducible rfl) (by with_reducible rfl) (by with_reducible rfl) (by with_reducible rfl) (by with_reducible rfl) (by with_reducible rfl) (by with_reducible rfl)) hs
                | exact UNInv.un_logic.app (logic_mk (by with_reducible rfl) (by with_reducible rfl) (by with_reducible rfl) (by with_reducible rfl) (by with_reducible rfl) (by with_reducible rfl) (by with_reducible rfl)) hs)
            | with_reducible refine Tri.of_keeps ?_ (fun _ _ h => h)
            | with_reducible refine Tri.of_keeps ?_ (fun _ s h => NInv.n_toT s h)
            | with_reducible refine Tri.of_keeps ?_ (fun _ s h => HInv.h_toT s h)
            | with_reducible apply Keeps.kbind_get
            | with_reducible apply Keeps.kbind
            | with_reducible apply Keeps.kpure
            | with_reducible apply Keeps.kget
            | with_reducible apply Keeps.kpanic
            | with_reducible apply Keeps.ktimeout
            | with_reducible apply Keeps.kiteC
            | (with_reducible apply Keeps.ktick; intro _ hs; first | exact TInv.t_logic.app (logic_mk (by with_reducible rfl) (by with_reducible rfl) (by with_reducible rfl) (by with_reducible rfl) (by with_reducible rfl) (by with_reducible rfl) (by with_reducible rfl)) hs | exact NInv.n_logic.app (logic_mk (by with_reducible rfl) (by with_reducible rfl) (by with_reducible rfl) (by with_reducible rfl) (by with_reducible rfl) (by with_reducible rfl) (by with_reducible rfl)) hs | exact HInv.h_logic.app (logic_mk (by with_reducible rfl) (by with_reducible rfl) (by with_reducible rfl) (by with_reducible rfl) (by with_reducible rfl) (by with_reducible rfl) (by with_reducible rfl)) hs | exact EInv.e_logic.app (logic_mk (by with_reducible rfl) (by with_reducible rfl) (by with_reducible rfl) (by with_reducible rfl) (by with_reducible rfl) (by with_reducible rfl) (by with_reducible rfl)) hs | exact UInv.u_logic.app (logic_mk (by with_reducible rfl) (by with_reducible rfl) (by with_reducible rfl) (by with_reducible rfl) (by with_reducible rfl) (by with_reducible rfl) (by with_reducible rfl)) hs | exact UNInv.un_logic.app (logic_mk (by with_reducible rfl) (by with_reducible rfl) (by with_reducible rfl) (by with_reducible rfl) (by with_reducible rfl) (by with_reducible rfl) (by with_reducible rfl)) hs)
            | (with_reducible apply Keeps.kmodify; intro _ hs; first
                | exact TInv.t_logic.app (logic_mk (by with_reducible rfl) (by with_reducible rfl) (by with_reducible rfl) (by with_reducible rfl) (by with_reducible rfl) (by with_reducible rfl) (by with_reducible rfl)) hs
                | exact NInv.n_logic.app (logic_mk (by with_reducible rfl) (by with_reducible rfl) (by with_reducible rfl) (by with_reducible rfl) (by with_reducible rfl) (by with_reducible rfl) (by with_reducible rfl)) hs
                | exact HInv.h_logic.app (logic_mk (by with_reducible rfl) (by with_reducible rfl) (by with_reducible rfl) (by with_reducible rfl) (by with_reducible rfl) (by with_reducible rfl) (by with_reducible rfl)) hs
                | exact EInv.e_logic.app (logic_mk (by with_reducible rfl) (by with_reducible rfl) (by with_reducible rfl) (by with_reducible rfl) (by with_reducible rfl) (by with_reducible rfl) (by with_reducible rfl)) hs
                | exact UInv.u_logic.app (logic_mk (by with_reducible rfl) (by with_reducible rfl) (by with_reducible rfl) (by with_reducible rfl) (by with_reducible rfl) (by with_reducible rfl) (by with_reducible rfl)) hs
                | exact UNInv.un_logic.app (logic_mk (by with_reducible rfl) (by with_reducible rfl) (by with_reducible rfl) (by with_reducible rfl) (by with_reducible rfl) (by with_reducible rfl) (by with_reducible rfl)) hs)
            | with_reducible intro _
            | split
            | dsimp only
        case seg =>
          refine Tri.modifyTo (EInv t0 B 1 0 none eb) (fun s hs => by exact EInv.e_incr hs p) ?_
          refine Tri.getK (fun s1 _ => ?_)
          refine Tri.bindK (Keeps.of_logic (mdWrite_logic _ _ _) EInv.e_logic) (fun _ => ?_)
          refine Tri.bindK (Keeps.kmodify (fun _ hs =>
            EInv.e_logic.app (logic_mk rfl rfl rfl rfl rfl rfl rfl) hs)) (fun _ => ?_)
          refine Tri.iteT _ (fun _ => Tri.panicBind)
            (fun _ => Tri.bindK (Keeps.kpure _) (fun _ => ?_))
          refine Tri.getK (fun s2 _ => Tri.iteT _ (fun _ => ?dec) (fun _ => ?keep))
          case dec =>
            refine Tri.modifyTo (EInv t0 B 0 0 none eb) (fun s hs => by exact EInv.e_decr hs) ?_
            refine Tri.bindK (LogError_einv env p) (fun _ => ?_)
            repeat' first
              | with_reducible apply Tri.getWith (fun s0 x => EInv t0 B 0 0 none eb x ∧ x.mLastLogSeq = s0.mLastLogSeq) (fun s hs => ⟨hs, rfl⟩)
              | (with_reducible apply Tri.pureT; intro _ hs; exact EInv.retNone h00 h00 hs _)
              | with_reducible refine Tri.pre (fun x hx => EInv.tighten hx (by assumption)) (ih _ _ _ _)
              | (with_reducible apply Keeps.of_logic (Close_logic _); first | exact TInv.t_logic | exact NInv.n_logic | exact HInv.h_logic | exact EInv.e_logic | exact UInv.u_logic | exact UNInv.un_logic)
              | (with_reducible apply Keeps.of_logic (IoError_logic _); first | exact TInv.t_logic | exact NInv.n_logic | exact HInv.h_logic | exact EInv.e_logic | exact UInv.u_logic | exact UNInv.un_logic)
              | (with_reducible apply Keeps.of_logic (Sync_logic _); first | exact TInv.t_logic | exact NInv.n_logic | exact HInv.h_logic | exact EInv.e_logic | exact UInv.u_logic | exact UNInv.un_logic)
              | (with_reducible apply Keeps.of_logic (StartBlock_logic _); first | exact TInv.t_logic | exact NInv.n_logic | exact HInv.h_logic | exact EInv.e_logic | exact UInv.u_logic | exact UNInv.un_logic)
              | (with_reducible apply Keeps.of_logic (mdWrite_logic _ _ _); first | exact TInv.t_logic | exact NInv.n_logic | exact HInv.h_logic | exact EInv.e_logic | exact UInv.u_logic | exact UNInv.un_logic)
              | (with_reducible apply Keeps.of_logic (mdFlush_logic _ _); first | exact TInv.t_logic | exact NInv.n_logic | exact HInv.h_logic | exact EInv.e_logic | exact UInv.u_logic | exact UNInv.un_logic)
              | (with_reducible apply Keeps.of_logic (IsLogStreamGood_logic); first | exact TInv.t_logic | exact NInv.n_logic | exact HInv.h_logic | exact EInv.e_logic | exact UInv.u_logic | exact UNInv.un_logic)
              | (with_reducible apply Keeps.of_logic (IsSimulateFailure_logic _); first | exact TInv.t_logic | exact NInv.n_logic | exact HInv.h_logic | exact EInv.e_logic | exact UInv.u_logic | exact UNInv.un_logic)
              | with_reducible apply Tri.iteT
              | (with_reducible apply Tri.pureT; intro _ hs; first | exact hs | exact NInv.n_toT _ hs | exact HInv.h_toT _ hs)
              | with_reducible apply Tri.pre HInv.h_toT
              | with_reducible apply Tri.getK
              | with_reducible apply Tri.panicBind
              | with_reducible apply Tri.bindK
              | (with_reducible apply Tri.modifyT; intro _ hs; first
                  | exact TInv.t_logic.app (logic_mk (by with_reducible rfl) (by with_reducible rfl) (by with_reducible rfl) (by with_reducible rfl) (by with_reducible rfl) (by with_reducible rfl) (by with_reducible rfl)) hs
                  | exact NInv.n_logic.app (logic_mk (by with_reducible rfl) (by with_reducible rfl) (by with_reducible rfl) (by with_reducible rfl) (by with_reducible rfl) (by with_reducible rfl) (by with_reducible rfl)) hs
                  | exact HInv.h_logic.app (logic_mk (by with_reducible rfl) (by with_reducible rfl) (by with_reducible rfl) (by with_reducible rfl) (by with_reducible rfl) (by with_reducible rfl) (by with_reducible rfl)) hs
                  | exact EInv.e_logic.app (logic_mk (by with_reducible rfl) (by with_reducible rfl) (by with_reducible rfl) (by with_reducible rfl) (by with_reducible rfl) (by with_reducible rfl) (by with_reducible rfl)) hs
                  | exact UInv.u_logic.app (logic_mk (by with_reducible rfl) (by with_reducible rfl) (by with_reducible rfl) (by with_reducible rfl) (by with_reducible rfl) (by with_reducible rfl) (by with_reducible rfl)) hs
                  | exact UNInv.un_logic.app (logic_mk (by with_reducible rfl) (by with_reducible rfl) (by with_reducible rfl) (by with_reducible rfl) (by with_reducible rfl) (by with_reducible rfl) (by with_reducible rfl)) hs)
              | with_reducible refine Tri.of_keeps ?_ (fun _ _ h => h)
              | with_reducible refine Tri.of_keeps ?_ (fun _ s h => NInv.n_toT s h)
              | with_reducible refine Tri.of_keeps ?_ (fun _ s h => HInv.h_toT s h)
              | with_reducible apply Keeps.kbind_get
              | with_reducible apply Keeps.kbind
              | with_reducible apply Keeps.kpure
              | with_reducible apply Keeps.kget
              | with_reducible apply Keeps.kpanic
              | with_reducible apply Keeps.ktimeout
              | with_reducible apply Keeps.kiteC
              | (with_reducible apply Keeps.ktick; intro _ hs; first | exact TInv.t_logic.app (logic_mk (by with_reducible rfl) (by with_reducible rfl) (by with_reducible rfl) (by with_reducible rfl) (by with_reducible rfl) (by with_reducible rfl) (by with_reducible rfl)) hs | exact NInv.n_logic.app (logic_mk (by with_reducible rfl) (by with_reducible rfl) (by with_reducible rfl) (by with_reducible rfl) (by with_reducible rfl) (by with_reducible rfl) (by with_reducible rfl)) hs | exact HInv.h_logic.app (logic_mk (by with_reducible rfl) (by with_reducible rfl) (by with_reducible rfl) (by with_reducible rfl) (by with_reducible rfl) (by with_reducible rfl) (by with_reducible rfl)) hs | exact EInv.e_logic.app (logic_mk (by with_reducible rfl) (by with_reducible rfl) (by with_reducible rfl) (by with_reducible rfl) (by with_reducible rfl) (by with_reducible rfl) (by with_reducible rfl)) hs | exact UInv.u_logic.app (logic_mk (by with_reducible rfl) (by with_reducible rfl) (by with_reducible rfl) (by with_reducible rfl) (by with_reducible rfl) (by with_reducible rfl) (by with_reducible rfl)) hs | exact UNInv.un_logic.app (logic_mk (by with_reducible rfl) (by with_reducible rfl) (by with_reducible rfl) (by with_reducible rfl) (by with_reducible rfl) (by with_reducible rfl) (by with_reducible rfl)) hs)
              | (with_reducible apply Keeps.kmodify; intro _ hs; first
                  | exact TInv.t_logic.app (logic_mk (by with_reducible rfl) (by with_reducible rfl) (by with_reducible rfl) (by with_reducible rfl) (by with_reducible rfl) (by with_reducible rfl) (by with_reducible rfl)) hs
                  | exact NInv.n_logic.app (logic_mk (by with_reducible rfl) (by with_reducible rfl) (by with_reducible rfl) (by with_reducible rfl) (by with_reducible rfl) (by with_reducible rfl) (by with_reducible rfl)) hs
                  | exact HInv.h_logic.app (logic_mk (by with_reducible rfl) (by with_reducible rfl) (by with_reducible rfl) (by with_reducible rfl) (by with_reducible rfl) (by with_reducible rfl) (by with_reducible rfl)) hs
                  | exact EInv.e_logic.app (logic_mk (by with_reducible rfl) (by with_reducible rfl) (by with_reducible rfl) (by with_reducible rfl) (by with_reducible rfl) (by with_reducible rfl) (by with_reducible rfl)) hs
                  | exact UInv.u_logic.app (logic_mk (by with_reducible rfl) (by with_reducible rfl) (by with_reducible rfl) (by with_reducible rfl) (by with_reducible rfl) (by with_reducible rfl) (by with_reducible rfl)) hs
                  | exact UNInv.un_logic.app (logic_mk (by with_reducible rfl) (by with_reducible rfl) (by with_reducible rfl) (by with_reducible rfl) (by with_reducible rfl) (by with_reducible rfl) (by with_reducible rfl)) hs)
              | with_reducible intro _
              | split
              | dsimp only
          case keep =>
            refine Tri.bindK (Keeps.kpure _) (fun _ => ?_)
            refine Tri.pre (EInv.relax h01 h00) ?_
            repeat' first
              | with_reducible apply Tri.getWith (fun s0 x => EInv t0 B 0 0 none eb x ∧ x.mLastLogSeq = s0.mLastLogSeq) (fun s hs => ⟨hs, rfl⟩)
              | (with_reducible apply Tri.pureT; intro _ hs; exact EInv.retNone h00 h00 hs _)
              | with_reducible refine Tri.pre (fun x hx => EInv.tighten hx (by assumption)) (ih _ _ _ _)
              | (with_reducible apply Keeps.of_logic (Close_logic _); first | exact TInv.t_logic | exact NInv.n_logic | exact HInv.h_logic | exact EInv.e_logic | exact UInv.u_logic | exact UNInv.un_logic)
              | (with_reducible apply Keeps.of_logic (IoError_logic _); first | exact TInv.t_logic | exact NInv.n_logic | exact HInv.h_logic | exact EInv.e_logic | exact UInv.u_logic | exact UNInv.un_logic)
              | (with_reducible apply Keeps.of_logic (Sync_logic _); first | exact TInv.t_logic | exact NInv.n_logic | exact HInv.h_logic | exact EInv.e_logic | exact UInv.u_logic | exact UNInv.un_logic)
              | (with_reducible apply Keeps.of_logic (StartBlock_logic _); first | exact TInv.t_logic | exact NInv.n_logic | exact HInv.h_logic | exact EInv.e_logic | exact UInv.u_logic | exact UNInv.un_logic)
              | (with_reducible apply Keeps.of_logic (mdWrite_logic _ _ _); first | exact TInv.t_logic | exact NInv.n_logic | exact HInv.h_logic | exact EInv.e_logic | exact UInv.u_logic | exact UNInv.un_logic)
              | (with_reducible apply Keeps.of_logic (mdFlush_logic _ _); first | exact TInv.t_logic | exact NInv.n_logic | exact HInv.h_logic | exact EInv.e_logic | exact UInv.u_logic | exact UNInv.un_logic)
              | (with_reducible apply Keeps.of_logic (IsLogStreamGood_logic); first | exact TInv.t_logic | exact NInv.n_logic | exact HInv.h_logic | exact EInv.e_logic | exact UInv.u_logic | exact UNInv.un_logic)
              | (with_reducible apply Keeps.of_logic (IsSimulateFailure_logic _); first | exact TInv.t_logic | exact NInv.n_logic | exact HInv.h_logic | exact EInv.e_logic | exact UInv.u_logic | exact UNInv.un_logic)
              | with_reducible apply Tri.iteT
              | (with_reducible apply Tri.pureT; intro _ hs; first | exact hs | exact NInv.n_toT _ hs | exact HInv.h_toT _ hs)
              | with_reducible apply Tri.pre HInv.h_toT
              | with_reducible apply Tri.getK
              | with_reducible apply Tri.panicBind
              | with_reducible apply Tri.bindK
              | (with_reducible apply Tri.modifyT; intro _ hs; first
                  | exact TInv.t_logic.app (logic_mk (by with_reducible rfl) (by with_reducible rfl) (by with_reducible rfl) (by with_reducible rfl) (by with_reducible rfl) (by with_reducible rfl) (by with_reducible rfl)) hs
                  | exact NInv.n_logic.app (logic_mk (by with_reducible rfl) (by with_reducible rfl) (by with_reducible rfl) (by with_reducible rfl) (by with_reducible rfl) (by with_reducible rfl) (by with_reducible rfl)) hs
                  | exact HInv.h_logic.app (logic_mk (by with_reducible rfl) (by with_reducible rfl) (by with_reducible rfl) (by with_reducible rfl) (by with_reducible rfl) (by with_reducible rfl) (by with_reducible rfl)) hs
                  | exact EInv.e_logic.app (logic_mk (by with_reducible rfl) (by with_reducible rfl) (by with_reducible rfl) (by with_reducible rfl) (by with_reducible rfl) (by with_reducible rfl) (by with_reducible rfl)) hs
                  | exact UInv.u_logic.app (logic_mk (by with_reducible rfl) (by with_reducible rfl) (by with_reducible rfl) (by with_reducible rfl) (by with_reducible rfl) (by with_reducible rfl) (by with_reducible rfl)) hs
                  | exact UNInv.un_logic.app (logic_mk (by with_reducible rfl) (by with_reducible rfl) (by with_reducible rfl) (by with_reducible rfl) (by with_reducible rfl) (by with_reducible rfl) (by with_reducible rfl)) hs)
              | with_reducible refine Tri.of_keeps ?_ (fun _ _ h => h)
              | with_reducible refine Tri.of_keeps ?_ (fun _ s h => NInv.n_toT s h)
              | with_reducible refine Tri.of_keeps ?_ (fun _ s h => HInv.h_toT s h)
              | with_reducible apply Keeps.kbind_get
              | with_reducible apply Keeps.kbind
              | with_reducible apply Keeps.kpure
              | with_reducible apply Keeps.kget
              | with_reducible apply Keeps.kpanic
              | with_reducible apply Keeps.ktimeout
              | with_reducible apply Keeps.kiteC
              | (with_reducible apply Keeps.ktick; intro _ hs; first | exact TInv.t_logic.app (logic_mk (by with_reducible rfl) (by with_reducible rfl) (by with_reducible rfl) (by with_reducible rfl) (by with_reducible rfl) (by with_reducible rfl) (by with_reducible rfl)) hs | exact NInv.n_logic.app (logic_mk (by with_reducible rfl) (by with_reducible rfl) (by with_reducible rfl) (by with_reducible rfl) (by with_reducible rfl) (by with_reducible rfl) (by with_reducible rfl)) hs | exact HInv.h_logic.app (logic_mk (by with_reducible rfl) (by with_reducible rfl) (by with_reducible rfl) (by with_reducible rfl) (by with_reducible rfl) (by with_reducible rfl) (by with_reducible rfl)) hs | exact EInv.e_logic.app (logic_mk (by with_reducible rfl) (by with_reducible rfl) (by with_reducible rfl) (by with_reducible rfl) (by with_reducible rfl) (by with_reducible rfl) (by with_reducible rfl)) hs | exact UInv.u_logic.app (logic_mk (by with_reducible rfl) (by with_reducible rfl) (by with_reducible rfl) (by with_reducible rfl) (by with_reducible rfl) (by with_reducible rfl) (by with_reducible rfl)) hs | exact UNInv.un_logic.app (logic_mk (by with_reducible rfl) (by with_reducible rfl) (by with_reducible rfl) (by with_reducible rfl) (by with_reducible rfl) (by with_reducible rfl) (by with_reducible rfl)) hs)
              | (with_reducible apply Keeps.kmodify; intro _ hs; first
                  | exact TInv.t_logic.app (logic_mk (by with_reducible rfl) (by with_reducible rfl) (by with_reducible rfl) (by with_reducible rfl) (by with_reducible rfl) (by with_reducible rfl) (by with_reducible rfl)) hs
                  | exact NInv.n_logic.app (logic_mk (by with_reducible rfl) (by with_reducible rfl) (by with_reducible rfl) (by with_reducible rfl) (by with_reducible rfl) (by with_reducible rfl) (by with_reducible rfl)) hs
                  | exact HInv.h_logic.app (logic_mk (by with_reducible rfl) (by with_reducible rfl) (by with_reducible rfl) (by with_reducible rfl) (by with_reducible rfl) (by with_reducible rfl) (by with_reducible rfl)) hs
                  | exact EInv.e_logic.app (logic_mk (by with_reducible rfl) (by with_reducible rfl) (by with_reducible rfl) (by with_reducible rfl) (by with_reducible rfl) (by with_reducible rfl) (by with_reducible rfl)) hs
                  | exact UInv.u_logic.app (logic_mk (by with_reducible rfl) (by with_reducible rfl) (by with_reducible rfl) (by with_reducible rfl) (by with_reducible rfl) (by with_reducible rfl) (by with_reducible rfl)) hs
                  | exact UNInv.un_logic.app (logic_mk (by with_reducible rfl) (by with_reducible rfl) (by with_reducible rfl) (by with_reducible rfl) (by with_reducible rfl) (by with_reducible rfl) (by with_reducible rfl)) hs)
              | with_reducible intro _
              | split
              | dsimp only

theorem CloseLog_bad (hd : d ≤ B) (hM2 : B ≤ 2147483647) (env : Env) (fuel : Nat) :
    Tri (fun s => UInv t0 B c s ∧ ¬ Good s) (CloseLog env fuel)
      (fun _ s' => TInv t0 B 0 d c s') := by
  unfold CloseLog DisplayIsoDateTime mdSetSync
  refine Tri.bindT (fun b s' => b = false ∧ UInv t0 B c s')
    (IsLogStreamGood_bad_tri UInv.u_logic) (fun b => ?_)
  dsimp only
  refine Tri.iteT _ (fun hb s hs => absurd hb (by rw [hs.1]; decide)) (fun _ => ?_)
  refine Tri.modifyTo (TInv t0 B 0 d c) (fun s hs => by exact UInv.u_eq hd hs.2 rfl rfl rfl rfl) ?_
  repeat' first
    | (with_reducible apply Keeps.of_logic (Close_logic _); first | exact TInv.t_logic | exact NInv.n_logic | exact HInv.h_logic | exact EInv.e_logic | exact UInv.u_logic | exact UNInv.un_logic)
    | (with_reducible apply Keeps.of_logic (IoError_logic _); first | exact TInv.t_logic | exact NInv.n_logic | exact HInv.h_logic | exact EInv.e_logic | exact UInv.u_logic | exact UNInv.un_logic)
    | (with_reducible apply Keeps.of_logic (Sync_logic _); first | exact TInv.t_logic | exact NInv.n_logic | exact HInv.h_logic | exact EInv.e_logic | exact UInv.u_logic | exact UNInv.un_logic)
    | (with_reducible apply Keeps.of_logic (StartBlock_logic _); first | exact TInv.t_logic | exact NInv.n_logic | exact HInv.h_logic | exact EInv.e_logic | exact UInv.u_logic | exact UNInv.un_logic)
    | (with_reducible apply Keeps.of_logic (mdWrite_logic _ _ _); first | exact TInv.t_logic | exact NInv.n_logic | exact HInv.h_logic | exact EInv.e_logic | exact UInv.u_logic | exact UNInv.un_logic)
    | (with_reducible apply Keeps.of_logic (mdFlush_logic _ _); first | exact TInv.t_logic | exact NInv.n_logic | exact HInv.h_logic | exact EInv.e_logic | exact UInv.u_logic | exact UNInv.un_logic)
    | (with_reducible apply Keeps.of_logic (IsLogStreamGood_logic); first | exact TInv.t_logic | exact NInv.n_logic | exact HInv.h_logic | exact EInv.e_logic | exact UInv.u_logic | exact UNInv.un_logic)
    | (with_reducible apply Keeps.of_logic (IsSimulateFailure_logic _); first | exact TInv.t_logic | exact NInv.n_logic | exact HInv.h_logic | exact EInv.e_logic | exact UInv.u_logic | exact UNInv.un_logic)
    | with_reducible apply Tri.iteT
    | (with_reducible apply Tri.pureT; intro _ hs; first | exact hs | exact NInv.n_toT _ hs | exact HInv.h_toT _ hs)
    | with_reducible apply Tri.pre HInv.h_toT
    | with_reducible apply Tri.getK
    | with_reducible apply Tri.panicBind
    | with_reducible apply Tri.bindK
    | (with_reducible apply Tri.modifyT; intro _ hs; first
        | exact TInv.t_logic.app (logic_mk (by with_reducible rfl) (by with_reducible rfl) (by with_reducible rfl) (by with_reducible rfl) (by with_reducible rfl) (by with_reducible rfl) (by with_reducible rfl)) hs
        | exact NInv.n_logic.app (logic_mk (by with_reducible rfl) (by with_reducible rfl) (by with_reducible rfl) (by with_reducible rfl) (by with_reducible rfl) (by with_reducible rfl) (by with_reducible rfl)) hs
        | exact HInv.h_logic.app (logic_mk (by with_reducible rfl) (by with_reducible rfl) (by with_reducible rfl) (by with_reducible rfl) (by with_reducible rfl) (by with_reducible rfl) (by with_reducible rfl)) hs
        | exact EInv.e_logic.app (logic_mk (by with_reducible rfl) (by with_reducible rfl) (by with_reducible rfl) (by with_reducible rfl) (by with_reducible rfl) (by with_reducible rfl) (by with_reducible rfl)) hs
        | exact UInv.u_logic.app (logic_mk (by with_reducible rfl) (by with_reducible rfl) (by with_reducible rfl) (by with_reducible rfl) (by with_reducible rfl) (by with_reducible rfl) (by with_reducible rfl)) hs
        | exact UNInv.un_logic.app (logic_mk (by with_reducible rfl) (by with_reducible rfl) (by with_reducible rfl) (by with_reducible rfl) (by with_reducible rfl) (by with_reducible rfl) (by with_reducible rfl)) hs
        | exact TInv.t_eq hd hs (by with_reducible rfl) (by with_reducible rfl) (by with_reducible rfl) (by with_reducible rfl))
    | with_reducible refine Tri.of_keeps ?_ (fun _ _ h => h)
    | with_reducible refine Tri.of_keeps ?_ (fun _ s h => NInv.n_toT s h)
    | with_reducible refine Tri.of_keeps ?_ (fun _ s h => HInv.h_toT s h)
    | with_reducible apply Keeps.kbind_get
    | with_reducible apply Keeps.kbind
    | with_reducible apply Keeps.kpure
    | with_reducible apply Keeps.kget
    | with_reducible apply Keeps.kpanic
    | with_reducible apply Keeps.ktimeout
    | with_reducible apply Keeps.kiteC
    | (with_reducible apply Keeps.ktick; intro _ hs; first | exact TInv.t_logic.app (logic_mk (by with_reducible rfl) (by with_reducible rfl) (by with_reducible rfl) (by with_reducible rfl) (by with_reducible rfl) (by with_reducible rfl) (by with_reducible rfl)) hs | exact NInv.n_logic.app (logic_mk (by with_reducible rfl) (by with_reducible rfl) (by with_reducible rfl) (by with_reducible rfl) (by with_reducible rfl) (by with_reducible rfl) (by with_reducible rfl)) hs | exact HInv.h_logic.app (logic_mk (by with_reducible rfl) (by with_reducible rfl) (by with_reducible rfl) (by with_reducible rfl) (by with_reducible rfl) (by with_reducible rfl) (by with_reducible rfl)) hs | exact EInv.e_logic.app (logic_mk (by with_reducible rfl) (by with_reducible rfl) (by with_reducible rfl) (by with_reducible rfl) (by with_reducible rfl) (by with_reducible rfl) (by with_reducible rfl)) hs | exact UInv.u_logic.app (logic_mk (by with_reducible rfl) (by with_reducible rfl) (by with_reducible rfl) (by with_reducible rfl) (by with_reducible rfl) (by with_reducible rfl) (by with_reducible rfl)) hs | exact UNInv.un_logic.app (logic_mk (by with_reducible rfl) (by with_reducible rfl) (by with_reducible rfl) (by with_reducible rfl) (by with_reducible rfl) (by with_reducible rfl) (by with_reducible rfl)) hs)
    | (with_reducible apply Keeps.kmodify; intro _ hs; first
        | exact TInv.t_logic.app (logic_mk (by with_reducible rfl) (by with_reducible rfl) (by with_reducible rfl) (by with_reducible rfl) (by with_reducible rfl) (by with_reducible rfl) (by with_reducible rfl)) hs
        | exact NInv.n_logic.app (logic_mk (by with_reducible rfl) (by with_reducible rfl) (by with_reducible rfl) (by with_reducible rfl) (by with_reducible rfl) (by with_reducible rfl) (by with_reducible rfl)) hs
        | exact HInv.h_logic.app (logic_mk (by with_reducible rfl) (by with_reducible rfl) (by with_reducible rfl) (by with_reducible rfl) (by with_reducible rfl) (by with_reducible rfl) (by with_reducible rfl)) hs
        | exact EInv.e_logic.app (logic_mk (by with_reducible rfl) (by with_reducible rfl) (by with_reducible rfl) (by with_reducible rfl) (by with_reducible rfl) (by with_reducible rfl) (by with_reducible rfl)) hs
        | exact UInv.u_logic.app (logic_mk (by with_reducible rfl) (by with_reducible rfl) (by with_reducible rfl) (by with_reducible rfl) (by with_reducible rfl) (by with_reducible rfl) (by with_reducible rfl)) hs
        | exact UNInv.un_logic.app (logic_mk (by with_reducible rfl) (by with_reducible rfl) (by with_reducible rfl) (by with_reducible rfl) (by with_reducible rfl) (by with_reducible rfl) (by with_reducible rfl)) hs
        | exact TInv.t_eq hd hs (by with_reducible rfl) (by with_reducible rfl) (by with_reducible rfl) (by with_reducible rfl))
    | with_reducible intro _
    | split
    | dsimp only

theorem StartNextLog_bad (hd : d ≤ B) (hM2 : B ≤ 2147483647) (env : Env) (fuel : Nat) :
    Tri (fun s => UInv t0 B c s ∧ ¬ Good s) (StartNextLog env fuel)
      (fun _ s' => TInv t0 B 0 d c s') := by
  unfold StartNextLog
  refine Tri.bindT (fun _ => TInv t0 B 0 d c) (CloseLog_bad hd hM2 env fuel) (fun _ => ?_)
  repeat' first
    | with_reducible refine Tri.of_keeps (NewLog_tinv hd hM2 _ _ _) (fun _ _ h => h)
    | (with_reducible apply Keeps.of_logic (Close_logic _); first | exact TInv.t_logic | exact NInv.n_logic | exact HInv.h_logic | exact EInv.e_logic | exact UInv.u_logic | exact UNInv.un_logic)
    | (with_reducible apply Keeps.of_logic (IoError_logic _); first | exact TInv.t_logic | exact NInv.n_logic | exact HInv.h_logic | exact EInv.e_logic | exact UInv.u_logic | exact UNInv.un_logic)
    | (with_reducible apply Keeps.of_logic (Sync_logic _); first | exact TInv.t_logic | exact NInv.n_logic | exact HInv.h_logic | exact EInv.e_logic | exact UInv.u_logic | exact UNInv.un_logic)
    | (with_reducible apply Keeps.of_logic (StartBlock_logic _); first | exact TInv.t_logic | exact NInv.n_logic | exact HInv.h_logic | exact EInv.e_logic | exact UInv.u_logic | exact UNInv.un_logic)
    | (with_reducible apply Keeps.of_logic (mdWrite_logic _ _ _); first | exact TInv.t_logic | exact NInv.n_logic | exact HInv.h_logic | exact EInv.e_logic | exact UInv.u_logic | exact UNInv.un_logic)
    | (with_reducible apply Keeps.of_logic (mdFlush_logic _ _); first | exact TInv.t_logic | exact NInv.n_logic | exact HInv.h_logic | exact EInv.e_logic | exact UInv.u_logic | exact UNInv.un_logic)
    | (with_reducible apply Keeps.of_logic (IsLogStreamGood_logic); first | exact TInv.t_logic | exact NInv.n_logic | exact HInv.h_logic | exact EInv.e_logic | exact UInv.u_logic | exact UNInv.un_logic)
    | (with_reducible apply Keeps.of_logic (IsSimulateFailure_logic _); first | exact TInv.t_logic | exact NInv.n_logic | exact HInv.h_logic | exact EInv.e_logic | exact UInv.u_logic | exact UNInv.un_logic)
    | with_reducible apply Tri.iteT
    | (with_reducible apply Tri.pureT; intro _ hs; first | exact hs | exact NInv.n_toT _ hs | exact HInv.h_toT _ hs)
    | with_reducible apply Tri.pre HInv.h_toT
    | with_reducible apply Tri.getK
    | with_reducible apply Tri.panicBind
    | with_reducible apply Tri.bindK
    | (with_reducible apply Tri.modifyT; intro _ hs; first
        | exact TInv.t_logic.app (logic_mk (by with_reducible rfl) (by with_reducible rfl) (by with_reducible rfl) (by with_reducible rfl) (by with_reducible rfl) (by with_reducible rfl) (by with_reducible rfl)) hs
        | exact NInv.n_logic.app (logic_mk (by with_reducible rfl) (by with_reducible rfl) (by with_reducible rfl) (by with_reducible rfl) (by with_reducible rfl) (by with_reducible rfl) (by with_reducible rfl)) hs
        | exact HInv.h_logic.app (logic_mk (by with_reducible rfl) (by with_reducible rfl) (by with_reducible rfl) (by with_reducible rfl) (by with_reducible rfl) (by with_reducible rfl) (by with_reducible rfl)) hs
        | exact EInv.e_logic.app (logic_mk (by with_reducible rfl) (by with_reducible rfl) (by with_reducible rfl) (by with_reducible rfl) (by with_reducible rfl) (by with_reducible rfl) (by with_reducible rfl)) hs
        | exact UInv.u_logic.app (logic_mk (by with_reducible rfl) (by with_reducible rfl) (by with_reducible rfl) (by with_reducible rfl) (by with_reducible rfl) (by with_reducible rfl) (by with_reducible rfl)) hs
        | exact UNInv.un_logic.app (logic_mk (by with_reducible rfl) (by with_reducible rfl) (by with_reducible rfl) (by with_reducible rfl) (by with_reducible rfl) (by with_reducible rfl) (by with_reducible rfl)) hs)
    | with_reducible refine Tri.of_keeps ?_ (fun _ _ h => h)
    | with_reducible refine Tri.of_keeps ?_ (fun _ s h => NInv.n_toT s h)
    | with_reducible refine Tri.of_keeps ?_ (fun _ s h => HInv.h_toT s h)
    | with_reducible apply Keeps.kbind_get
    | with_reducible apply Keeps.kbind
    | with_reducible apply Keeps.kpure
    | with_reducible apply Keeps.kget
    | with_reducible apply Keeps.kpanic
    | with_reducible apply Keeps.ktimeout
    | with_reducible apply Keeps.kiteC
    | (with_reducible apply Keeps.ktick; intro _ hs; first | exact TInv.t_logic.app (logic_mk (by with_reducible rfl) (by with_reducible rfl) (by with_reducible rfl) (by with_reducible rfl) (by with_reducible rfl) (by with_reducible rfl) (by with_reducible rfl)) hs | exact NInv.n_logic.app (logic_mk (by with_reducible rfl) (by with_reducible rfl) (by with_reducible rfl) (by with_reducible rfl) (by with_reducible rfl) (by with_reducible rfl) (by with_reducible rfl)) hs | exact HInv.h_logic.app (logic_mk (by with_reducible rfl) (by with_reducible rfl) (by with_reducible rfl) (by with_reducible rfl) (by with_reducible rfl) (by with_reducible rfl) (by with_reducible rfl)) hs | exact EInv.e_logic.app (logic_mk (by with_reducible rfl) (by with_reducible rfl) (by with_reducible rfl) (by with_reducible rfl) (by with_reducible rfl) (by with_reducible rfl) (by with_reducible rfl)) hs | exact UInv.u_logic.app (logic_mk (by with_reducible rfl) (by with_reducible rfl) (by with_reducible rfl) (by with_reducible rfl) (by with_reducible rfl) (by with_reducible rfl) (by with_reducible rfl)) hs | exact UNInv.un_logic.app (logic_mk (by with_reducible rfl) (by with_reducible rfl) (by with_reducible rfl) (by with_reducible rfl) (by with_reducible rfl) (by with_reducible rfl) (by with_reducible rfl)) hs)
    | (with_reducible apply Keeps.kmodify; intro _ hs; first
        | exact TInv.t_logic.app (logic_mk (by with_reducible rfl) (by with_reducible rfl) (by with_reducible rfl) (by with_reducible rfl) (by with_reducible rfl) (by with_reducible rfl) (by with_reducible rfl)) hs
        | exact NInv.n_logic.app (logic_mk (by with_reducible rfl) (by with_reducible rfl) (by with_reducible rfl) (by with_reducible rfl) (by with_reducible rfl) (by with_reducible rfl) (by with_reducible rfl)) hs
        | exact HInv.h_logic.app (logic_mk (by with_reducible rfl) (by with_reducible rfl) (by with_reducible rfl) (by with_reducible rfl) (by with_reducible rfl) (by with_reducible rfl) (by with_reducible rfl)) hs
        | exact EInv.e_logic.app (logic_mk (by with_reducible rfl) (by with_reducible rfl) (by with_reducible rfl) (by with_reducible rfl) (by with_reducible rfl) (by with_reducible rfl) (by with_reducible rfl)) hs
        | exact UInv.u_logic.app (logic_mk (by with_reducible rfl) (by with_reducible rfl) (by with_reducible rfl) (by with_reducible rfl) (by with_reducible rfl) (by with_reducible rfl) (by with_reducible rfl)) hs
        | exact UNInv.un_logic.app (logic_mk (by with_reducible rfl) (by with_reducible rfl) (by with_reducible rfl) (by with_reducible rfl) (by with_reducible rfl) (by with_reducible rfl) (by with_reducible rfl)) hs)
    | with_reducible intro _
    | split
    | dsimp only

theorem WriteBatches_tri (h1 : 1 ≤ B) (hM2 : B ≤ 2147483647) (env : Env) (fuel : Nat) (n : Nat) :
    ∀ (ptr c : Option Nat),
      Tri (fun s => UInv t0 B c s ∧ (ptr = none → TInv t0 B 0 0 c s))
        (WriteBatches env fuel n ptr) (fun _ s' => TInv t0 B 0 0 none s') := by
  have h00 : (0 : Int) ≤ 0 := le_refl _
  have h0 : (0 : Int) ≤ B := by omega
  induction n with
  | zero =>
    intro ptr c
    exact Tri.timeoutT
  | succ n ih =>
    intro ptr c
    cases ptr with
    | none => exact Tri.pureT (fun s hs => (hs.2 rfl).t_weaken h00 h00 (Or.inl rfl))
    | some p =>
      unfold WriteBatches
      refine Tri.pre (fun s h => UInv.dropC s h.1) ?_
      refine Tri.modifyTo (TInv t0 B 0 1 none)
        (fun s hs => by exact UInv.u_eq h1 hs rfl rfl rfl rfl) ?_
      refine Tri.getWith (fun s0 x => EInv t0 B 0 1 none (s0.mNextLogSeq + s0.mMaxBlockSize) x)
        (fun s hs => TInv.toE s hs) (fun s0 _ => ?_)
      dsimp only
      refine Tri.bindK (Keeps.of_logic (IsSimulateFailure_logic _) EInv.e_logic) (fun sim => ?_)
      refine Tri.bindT (fun r s' => TInv t0 B 0 0 r.2 s')
        (WriteInner_tri h1 hM2 env fuel fuel _ _ _ _) (fun r => ?_)
      rcases r with ⟨r1, _ | cptr⟩
      all_goals dsimp only
      all_goals
        repeat' first
          | (exfalso; exact TInv.notBlock (by assumption) (by assumption))
          | with_reducible apply Tri.bindT (fun _ => TInv t0 B 0 0 _) (Tri.pre (HInv.toG_lt h00 (by assumption)) (FlushBlock_tri hM2 _ _ _))
          | with_reducible apply Tri.getWith (fun s0 x => HInv t0 B 0 _ s0.mNextLogSeq s0.mLastLogSeq x) HInv.h_start
          | with_reducible apply Tri.bindK (Keeps.of_logic IsLogStreamGood_logic HInv.h_logic)
          | with_reducible refine Tri.pre (fun s hs => ⟨TInv.toU s hs, fun _ => hs⟩) (ih _ _)
          | with_reducible apply WriteFailed_tinv
          | (with_reducible apply Keeps.of_logic (Close_logic _); first | exact TInv.t_logic | exact NInv.n_logic | exact HInv.h_logic | exact EInv.e_logic | exact UInv.u_logic | exact UNInv.un_logic)
          | (with_reducible apply Keeps.of_logic (IoError_logic _); first | exact TInv.t_logic | exact NInv.n_logic | exact HInv.h_logic | exact EInv.e_logic | exact UInv.u_logic | exact UNInv.un_logic)
          | (with_reducible apply Keeps.of_logic (Sync_logic _); first | exact TInv.t_logic | exact NInv.n_logic | exact HInv.h_logic | exact EInv.e_logic | exact UInv.u_logic | exact UNInv.un_logic)
          | (with_reducible apply Keeps.of_logic (StartBlock_logic _); first | exact TInv.t_logic | exact NInv.n_logic | exact HInv.h_logic | exact EInv.e_logic | exact UInv.u_logic | exact UNInv.un_logic)
          | (with_reducible apply Keeps.of_logic (mdWrite_logic _ _ _); first | exact TInv.t_logic | exact NInv.n_logic | exact HInv.h_logic | exact EInv.e_logic | exact UInv.u_logic | exact UNInv.un_logic)
          | (with_reducible apply Keeps.of_logic (mdFlush_logic _ _); first | exact TInv.t_logic | exact NInv.n_logic | exact HInv.h_logic | exact EInv.e_logic | exact UInv.u_logic | exact UNInv.un_logic)
          | (with_reducible apply Keeps.of_logic (IsLogStreamGood_logic); first | exact TInv.t_logic | exact NInv.n_logic | exact HInv.h_logic | exact EInv.e_logic | exact UInv.u_logic | exact UNInv.un_logic)
          | (with_reducible apply Keeps.of_logic (IsSimulateFailure_logic _); first | exact TInv.t_logic | exact NInv.n_logic | exact HInv.h_logic | exact EInv.e_logic | exact UInv.u_logic | exact UNInv.un_logic)
          | with_reducible apply Tri.iteT
          | (with_reducible apply Tri.pureT; intro _ hs; first | exact hs | exact NInv.n_toT _ hs | exact HInv.h_toT _ hs)
          | with_reducible apply Tri.pre HInv.h_toT
          | with_reducible apply Tri.getK
          | with_reducible apply Tri.panicBind
          | with_reducible apply Tri.bindK
          | (with_reducible apply Tri.modifyT; intro _ hs; first
              | exact TInv.t_logic.app (logic_mk (by with_reducible rfl) (by with_reducible rfl) (by with_reducible rfl) (by with_reducible rfl) (by with_reducible rfl) (by with_reducible rfl) (by with_reducible rfl)) hs
              | exact NInv.n_logic.app (logic_mk (by with_reducible rfl) (by with_reducible rfl) (by with_reducible rfl) (by with_reducible rfl) (by with_reducible rfl) (by with_reducible rfl) (by with_reducible rfl)) hs
              | exact HInv.h_logic.app (logic_mk (by with_reducible rfl) (by with_reducible rfl) (by with_reducible rfl) (by with_reducible rfl) (by with_reducible rfl) (by with_reducible rfl) (by with_reducible rfl)) hs
              | exact EInv.e_logic.app (logic_mk (by with_reducible rfl) (by with_reducible rfl) (by with_reducible rfl) (by with_reducible rfl) (by with_reducible rfl) (by with_reducible rfl) (by with_reducible rfl)) hs
              | exact UInv.u_logic.app (logic_mk (by with_reducible rfl) (by with_reducible rfl) (by with_reducible rfl) (by with_reducible rfl) (by with_reducible rfl) (by with_reducible rfl) (by with_reducible rfl)) hs
              | exact UNInv.un_logic.app (logic_mk (by with_reducible rfl) (by with_reducible rfl) (by with_reducible rfl) (by with_reducible rfl) (by with_reducible rfl) (by with_reducible rfl) (by with_reducible rfl)) hs
              | exact TInv.t_eq h0 hs (by with_reducible rfl) (by with_reducible rfl) (by with_reducible rfl) (by with_reducible rfl))
          | with_reducible refine Tri.of_keeps ?_ (fun _ _ h => h)
          | with_reducible refine Tri.of_keeps ?_ (fun _ s h => NInv.n_toT s h)
          | with_reducible refine Tri.of_keeps ?_ (fun _ s h => HInv.h_toT s h)
          | with_reducible apply Keeps.kbind_get
          | with_reducible apply Keeps.kbind
          | with_reducible apply Keeps.kpure
          | with_reducible apply Keeps.kget
          | with_reducible apply Keeps.kpanic
          | with_reducible apply Keeps.ktimeout
          | with_reducible apply Keeps.kiteC
          | (with_reducible apply Keeps.ktick; intro _ hs; first | exact TInv.t_logic.app (logic_mk (by with_reducible rfl) (by with_reducible rfl) (by with_reducible rfl) (by with_reducible rfl) (by with_reducible rfl) (by with_reducible rfl) (by with_reducible rfl)) hs | exact NInv.n_logic.app (logic_mk (by with_reducible rfl) (by with_reducible rfl) (by with_reducible rfl) (by with_reducible rfl) (by with_reducible rfl) (by with_reducible rfl) (by with_reducible rfl)) hs | exact HInv.h_logic.app (logic_mk (by with_reducible rfl) (by with_reducible rfl) (by with_reducible rfl) (by with_reducible rfl) (by with_reducible rfl) (by with_reducible rfl) (by with_reducible rfl)) hs | exact EInv.e_logic.app (logic_mk (by with_reducible rfl) (by with_reducible rfl) (by with_reducible rfl) (by with_reducible rfl) (by with_reducible rfl) (by with_reducible rfl) (by with_reducible rfl)) hs | exact UInv.u_logic.app (logic_mk (by with_reducible rfl) (by with_reducible rfl) (by with_reducible rfl) (by with_reducible rfl) (by with_reducible rfl) (by with_reducible rfl) (by with_reducible rfl)) hs | exact UNInv.un_logic.app (logic_mk (by with_reducible rfl) (by with_reducible rfl) (by with_reducible rfl) (by with_reducible rfl) (by with_reducible rfl) (by with_reducible rfl) (by with_reducible rfl)) hs)
          | (with_reducible apply Keeps.kmodify; intro _ hs; first
              | exact TInv.t_logic.app (logic_mk (by with_reducible rfl) (by with_reducible rfl) (by with_reducible rfl) (by with_reducible rfl) (by with_reducible rfl) (by with_reducible rfl) (by with_reducible rfl)) hs
              | exact NInv.n_logic.app (logic_mk (by with_reducible rfl) (by with_reducible rfl) (by with_reducible rfl) (by with_reducible rfl) (by with_reducible rfl) (by with_reducible rfl) (by with_reducible rfl)) hs
              | exact HInv.h_logic.app (logic_mk (by with_reducible rfl) (by with_reducible rfl) (by with_reducible rfl) (by with_reducible rfl) (by with_reducible rfl) (by with_reducible rfl) (by with_reducible rfl)) hs
              | exact EInv.e_logic.app (logic_mk (by with_reducible rfl) (by with_reducible rfl) (by with_reducible rfl) (by with_reducible rfl) (by with_reducible rfl) (by with_reducible rfl) (by with_reducible rfl)) hs
              | exact UInv.u_logic.app (logic_mk (by with_reducible rfl) (by with_reducible rfl) (by with_reducible rfl) (by with_reducible rfl) (by with_reducible rfl) (by with_reducible rfl) (by with_reducible rfl)) hs
              | exact UNInv.un_logic.app (logic_mk (by with_reducible rfl) (by with_reducible rfl) (by with_reducible rfl) (by with_reducible rfl) (by with_reducible rfl) (by with_reducible rfl) (by with_reducible rfl)) hs
              | exact TInv.t_eq h0 hs (by with_reducible rfl) (by with_reducible rfl) (by with_reducible rfl) (by with_reducible rfl))
          | with_reducible intro _
          | split
          | dsimp only

theorem Write_tri (h1 : 1 ≤ B) (hM2 : B ≤ 2147483647) (env : Env) (fuel : Nat) (head : Nat) :
    Tri (UInv t0 B none) (Write env fuel head) (fun _ s' => TInv t0 B 0 0 none s') := by
  have h00 : (0 : Int) ≤ 0 := le_refl _
  have h0 : (0 : Int) ≤ B := by omega
  unfold Write mdSetSync microseconds
  refine Tri.bindT (fun b s' => (b = false → ¬ Good s') ∧ UInv t0 B none s')
    (IsLogStreamGood_flag UInv.u_logic) (fun good => ?_)
  dsimp only
  refine Tri.iteT _ (fun hb => ?bad) (fun _ => ?ok)
  case bad =>
    refine Tri.pre (fun s hs =>
      (⟨hs.2, hs.1 (by cases good <;> simp at hb ⊢)⟩ : UInv t0 B none s ∧ ¬ Good s)) ?_
    repeat' first
      | with_reducible apply Tri.bindT (fun _ => TInv t0 B 0 0 none) (StartNextLog_bad h0 hM2 env fuel)
      | with_reducible apply Tri.bindT (fun _ => TInv t0 B 0 0 none) (Tri.pre (fun _ h => h.1) (NewLog_fresh h0 hM2 env fuel _))
      | with_reducible refine Tri.bindT (fun _ => TInv t0 B 0 0 none) (Tri.pre (fun s hs => ⟨hs, fun h => Option.noConfusion h⟩) (WriteBatches_tri h1 hM2 _ _ _ _ _)) ?_
      | with_reducible refine Tri.bindT (fun _ => TInv t0 B 0 0 none) (Tri.pre (fun s hs => ⟨TInv.toU s hs, fun h => Option.noConfusion h⟩) (WriteBatches_tri h1 hM2 _ _ _ _ _)) ?_
      | with_reducible apply StartNextLog_tinv h00 h0 hM2
      | (with_reducible apply Keeps.of_logic (Close_logic _); first | exact TInv.t_logic | exact NInv.n_logic | exact HInv.h_logic | exact EInv.e_logic | exact UInv.u_logic | exact UNInv.un_logic)
      | (with_reducible apply Keeps.of_logic (IoError_logic _); first | exact TInv.t_logic | exact NInv.n_logic | exact HInv.h_logic | exact EInv.e_logic | exact UInv.u_logic | exact UNInv.un_logic)
      | (with_reducible apply Keeps.of_logic (Sync_logic _); first | exact TInv.t_logic | exact NInv.n_logic | exact HInv.h_logic | exact EInv.e_logic | exact UInv.u_logic | exact UNInv.un_logic)
      | (with_reducible apply Keeps.of_logic (StartBlock_logic _); first | exact TInv.t_logic | exact NInv.n_logic | exact HInv.h_logic | exact EInv.e_logic | exact UInv.u_logic | exact UNInv.un_logic)
      | (with_reducible apply Keeps.of_logic (mdWrite_logic _ _ _); first | exact TInv.t_logic | exact NInv.n_logic | exact HInv.h_logic | exact EInv.e_logic | exact UInv.u_logic | exact UNInv.un_logic)
      | (with_reducible apply Keeps.of_logic (mdFlush_logic _ _); first | exact TInv.t_logic | exact NInv.n_logic | exact HInv.h_logic | exact EInv.e_logic | exact UInv.u_logic | exact UNInv.un_logic)
      | (with_reducible apply Keeps.of_logic (IsLogStreamGood_logic); first | exact TInv.t_logic | exact NInv.n_logic | exact HInv.h_logic | exact EInv.e_logic | exact UInv.u_logic | exact UNInv.un_logic)
      | (with_reducible apply Keeps.of_logic (IsSimulateFailure_logic _); first | exact TInv.t_logic | exact NInv.n_logic | exact HInv.h_logic | exact EInv.e_logic | exact UInv.u_logic | exact UNInv.un_logic)
      | with_reducible apply Tri.iteT
      | (with_reducible apply Tri.pureT; intro _ hs; first | exact hs | exact NInv.n_toT _ hs | exact HInv.h_toT _ hs)
      | with_reducible apply Tri.pre HInv.h_toT
      | with_reducible apply Tri.getK
      | with_reducible apply Tri.panicBind
      | with_reducible apply Tri.bindK
      | (with_reducible apply Tri.modifyT; intro _ hs; first
          | exact TInv.t_logic.app (logic_mk (by with_reducible rfl) (by with_reducible rfl) (by with_reducible rfl) (by with_reducible rfl) (by with_reducible rfl) (by with_reducible rfl) (by with_reducible rfl)) hs
          | exact NInv.n_logic.app (logic_mk (by with_reducible rfl) (by with_reducible rfl) (by with_reducible rfl) (by with_reducible rfl) (by with_reducible rfl) (by with_reducible rfl) (by with_reducible rfl)) hs
          | exact HInv.h_logic.app (logic_mk (by with_reducible rfl) (by with_reducible rfl) (by with_reducible rfl) (by with_reducible rfl) (by with_reducible rfl) (by with_reducible rfl) (by with_reducible rfl)) hs
          | exact EInv.e_logic.app (logic_mk (by with_reducible rfl) (by with_reducible rfl) (by with_reducible rfl) (by with_reducible rfl) (by with_reducible rfl) (by with_reducible rfl) (by with_reducible rfl)) hs
          | exact UInv.u_logic.app (logic_mk (by with_reducible rfl) (by with_reducible rfl) (by with_reducible rfl) (by with_reducible rfl) (by with_reducible rfl) (by with_reducible rfl) (by with_reducible rfl)) hs
          | exact UNInv.un_logic.app (logic_mk (by with_reducible rfl) (by with_reducible rfl) (by with_reducible rfl) (by with_reducible rfl) (by with_reducible rfl) (by with_reducible rfl) (by with_reducible rfl)) hs
          | exact TInv.t_eq h0 hs (by with_reducible rfl) (by with_reducible rfl) (by with_reducible rfl) (by with_reducible rfl))
      | with_reducible refine Tri.of_keeps ?_ (fun _ _ h => h)
      | with_reducible refine Tri.of_keeps ?_ (fun _ s h => NInv.n_toT s h)
      | with_reducible refine Tri.of_keeps ?_ (fun _ s h => HInv.h_toT s h)
      | with_reducible apply Keeps.kbind_get
      | with_reducible apply Keeps.kbind
      | with_reducible apply Keeps.kpure
      | with_reducible apply Keeps.kget
      | with_reducible apply Keeps.kpanic
      | with_reducible apply Keeps.ktimeout
      | with_reducible apply Keeps.kiteC
      | (with_reducible apply Keeps.ktick; intro _ hs; first | exact TInv.t_logic.app (logic_mk (by with_reducible rfl) (by with_reducible rfl) (by with_reducible rfl) (by with_reducible rfl) (by with_reducible rfl) (by with_reducible rfl) (by with_reducible rfl)) hs | exact NInv.n_logic.app (logic_mk (by with_reducible rfl) (by with_reducible rfl) (by with_reducible rfl) (by with_reducible rfl) (by with_reducible rfl) (by with_reducible rfl) (by with_reducible rfl)) hs | exact HInv.h_logic.app (logic_mk (by with_reducible rfl) (by with_reducible rfl) (by with_reducible rfl) (by with_reducible rfl) (by with_reducible rfl) (by with_reducible rfl) (by with_reducible rfl)) hs | exact EInv.e_logic.app (logic_mk (by with_reducible rfl) (by with_reducible rfl) (by with_reducible rfl) (by with_reducible rfl) (by with_reducible rfl) (by with_reducible rfl) (by with_reducible rfl)) hs | exact UInv.u_logic.app (logic_mk (by with_reducible rfl) (by with_reducible rfl) (by with_reducible rfl) (by with_reducible rfl) (by with_reducible rfl) (by with_reducible rfl) (by with_reducible rfl)) hs | exact UNInv.un_logic.app (logic_mk (by with_reducible rfl) (by with_reducible rfl) (by with_reducible rfl) (by with_reducible rfl) (by with_reducible rfl) (by with_reducible rfl) (by with_reducible rfl)) hs)
      | (with_reducible apply Keeps.kmodify; intro _ hs; first
          | exact TInv.t_logic.app (logic_mk (by with_reducible rfl) (by with_reducible rfl) (by with_reducible rfl) (by with_reducible rfl) (by with_reducible rfl) (by with_reducible rfl) (by with_reducible rfl)) hs
          | exact NInv.n_logic.app (logic_mk (by with_reducible rfl) (by with_reducible rfl) (by with_reducible rfl) (by with_reducible rfl) (by with_reducible rfl) (by with_reducible rfl) (by with_reducible rfl)) hs
          | exact HInv.h_logic.app (logic_mk (by with_reducible rfl) (by with_reducible rfl) (by with_reducible rfl) (by with_reducible rfl) (by with_reducible rfl) (by with_reducible rfl) (by with_reducible rfl)) hs
          | exact EInv.e_logic.app (logic_mk (by with_reducible rfl) (by with_reducible rfl) (by with_reducible rfl) (by with_reducible rfl) (by with_reducible rfl) (by with_reducible rfl) (by with_reducible rfl)) hs
          | exact UInv.u_logic.app (logic_mk (by with_reducible rfl) (by with_reducible rfl) (by with_reducible rfl) (by with_reducible rfl) (by with_reducible rfl) (by with_reducible rfl) (by with_reducible rfl)) hs
          | exact UNInv.un_logic.app (logic_mk (by with_reducible rfl) (by with_reducible rfl) (by with_reducible rfl) (by with_reducible rfl) (by with_reducible rfl) (by with_reducible rfl) (by with_reducible rfl)) hs
          | exact TInv.t_eq h0 hs (by with_reducible rfl) (by with_reducible rfl) (by with_reducible rfl) (by with_reducible rfl))
      | with_reducible intro _
      | split
      | dsimp only
  case ok =>
    refine Tri.pre (fun _ h => h.2) ?_
    repeat' first
      | with_reducible apply Tri.bindT (fun _ => TInv t0 B 0 0 none) (StartNextLog_bad h0 hM2 env fuel)
      | with_reducible apply Tri.bindT (fun _ => TInv t0 B 0 0 none) (Tri.pre (fun _ h => h.1) (NewLog_fresh h0 hM2 env fuel _))
      | with_reducible refine Tri.bindT (fun _ => TInv t0 B 0 0 none) (Tri.pre (fun s hs => ⟨hs, fun h => Option.noConfusion h⟩) (WriteBatches_tri h1 hM2 _ _ _ _ _)) ?_
      | with_reducible refine Tri.bindT (fun _ => TInv t0 B 0 0 none) (Tri.pre (fun s hs => ⟨TInv.toU s hs, fun h => Option.noConfusion h⟩) (WriteBatches_tri h1 hM2 _ _ _ _ _)) ?_
      | with_reducible apply StartNextLog_tinv h00 h0 hM2
      | (with_reducible apply Keeps.of_logic (Close_logic _); first | exact TInv.t_logic | exact NInv.n_logic | exact HInv.h_logic | exact EInv.e_logic | exact UInv.u_logic | exact UNInv.un_logic)
      | (with_reducible apply Keeps.of_logic (IoError_logic _); first | exact TInv.t_logic | exact NInv.n_logic | exact HInv.h_logic | exact EInv.e_logic | exact UInv.u_logic | exact UNInv.un_logic)
      | (with_reducible apply Keeps.of_logic (Sync_logic _); first | exact TInv.t_logic | exact NInv.n_logic | exact HInv.h_logic | exact EInv.e_logic | exact UInv.u_logic | exact UNInv.un_logic)
      | (with_reducible apply Keeps.of_logic (StartBlock_logic _); first | exact TInv.t_logic | exact NInv.n_logic | exact HInv.h_logic | exact EInv.e_logic | exact UInv.u_logic | exact UNInv.un_logic)
      | (with_reducible apply Keeps.of_logic (mdWrite_logic _ _ _); first | exact TInv.t_logic | exact NInv.n_logic | exact HInv.h_logic | exact EInv.e_logic | exact UInv.u_logic | exact UNInv.un_logic)
      | (with_reducible apply Keeps.of_logic (mdFlush_logic _ _); first | exact TInv.t_logic | exact NInv.n_logic | exact HInv.h_logic | exact EInv.e_logic | exact UInv.u_logic | exact UNInv.un_logic)
      | (with_reducible apply Keeps.of_logic (IsLogStreamGood_logic); first | exact TInv.t_logic | exact NInv.n_logic | exact HInv.h_logic | exact EInv.e_logic | exact UInv.u_logic | exact UNInv.un_logic)
      | (with_reducible apply Keeps.of_logic (IsSimulateFailure_logic _); first | exact TInv.t_logic | exact NInv.n_logic | exact HInv.h_logic | exact EInv.e_logic | exact UInv.u_logic | exact UNInv.un_logic)
      | with_reducible apply Tri.iteT
      | (with_reducible apply Tri.pureT; intro _ hs; first | exact hs | exact NInv.n_toT _ hs | exact HInv.h_toT _ hs)
      | with_reducible apply Tri.pre HInv.h_toT
      | with_reducible apply Tri.getK
      | with_reducible apply Tri.panicBind
      | with_reducible apply Tri.bindK
      | (with_reducible apply Tri.modifyT; intro _ hs; first
          | exact TInv.t_logic.app (logic_mk (by with_reducible rfl) (by with_reducible rfl) (by with_reducible rfl) (by with_reducible rfl) (by with_reducible rfl) (by with_reducible rfl) (by with_reducible rfl)) hs
          | exact NInv.n_logic.app (logic_mk (by with_reducible rfl) (by with_reducible rfl) (by with_reducible rfl) (by with_reducible rfl) (by with_reducible rfl) (by with_reducible rfl) (by with_reducible rfl)) hs
          | exact HInv.h_logic.app (logic_mk (by with_reducible rfl) (by with_reducible rfl) (by with_reducible rfl) (by with_reducible rfl) (by with_reducible rfl) (by with_reducible rfl) (by with_reducible rfl)) hs
          | exact EInv.e_logic.app (logic_mk (by with_reducible rfl) (by with_reducible rfl) (by with_reducible rfl) (by with_reducible rfl) (by with_reducible rfl) (by with_reducible rfl) (by with_reducible rfl)) hs
          | exact UInv.u_logic.app (logic_mk (by with_reducible rfl) (by with_reducible rfl) (by with_reducible rfl) (by with_reducible rfl) (by with_reducible rfl) (by with_reducible rfl) (by with_reducible rfl)) hs
          | exact UNInv.un_logic.app (logic_mk (by with_reducible rfl) (by with_reducible rfl) (by with_reducible rfl) (by with_reducible rfl) (by with_reducible rfl) (by with_reducible rfl) (by with_reducible rfl)) hs
          | exact TInv.t_eq h0 hs (by with_reducible rfl) (by with_reducible rfl) (by with_reducible rfl) (by with_reducible rfl))
      | with_reducible refine Tri.of_keeps ?_ (fun _ _ h => h)
      | with_reducible refine Tri.of_keeps ?_ (fun _ s h => NInv.n_toT s h)
      | with_reducible refine Tri.of_keeps ?_ (fun _ s h => HInv.h_toT s h)
      | with_reducible apply Keeps.kbind_get
      | with_reducible apply Keeps.kbind
      | with_reducible apply Keeps.kpure
      | with_reducible apply Keeps.kget
      | with_reducible apply Keeps.kpanic
      | with_reducible apply Keeps.ktimeout
      | with_reducible apply Keeps.kiteC
      | (with_reducible apply Keeps.ktick; intro _ hs; first | exact TInv.t_logic.app (logic_mk (by with_reducible rfl) (by with_reducible rfl) (by with_reducible rfl) (by with_reducible rfl) (by with_reducible rfl) (by with_reducible rfl) (by with_reducible rfl)) hs | exact NInv.n_logic.app (logic_mk (by with_reducible rfl) (by with_reducible rfl) (by with_reducible rfl) (by with_reducible rfl) (by with_reducible rfl) (by with_reducible rfl) (by with_reducible rfl)) hs | exact HInv.h_logic.app (logic_mk (by with_reducible rfl) (by with_reducible rfl) (by with_reducible rfl) (by with_reducible rfl) (by with_reducible rfl) (by with_reducible rfl) (by with_reducible rfl)) hs | exact EInv.e_logic.app (logic_mk (by with_reducible rfl) (by with_reducible rfl) (by with_reducible rfl) (by with_reducible rfl) (by with_reducible rfl) (by with_reducible rfl) (by with_reducible rfl)) hs | exact UInv.u_logic.app (logic_mk (by with_reducible rfl) (by with_reducible rfl) (by with_reducible rfl) (by with_reducible rfl) (by with_reducible rfl) (by with_reducible rfl) (by with_reducible rfl)) hs | exact UNInv.un_logic.app (logic_mk (by with_reducible rfl) (by with_reducible rfl) (by with_reducible rfl) (by with_reducible rfl) (by with_reducible rfl) (by with_reducible rfl) (by with_reducible rfl)) hs)
      | (with_reducible apply Keeps.kmodify; intro _ hs; first
          | exact TInv.t_logic.app (logic_mk (by with_reducible rfl) (by with_reducible rfl) (by with_reducible rfl) (by with_reducible rfl) (by with_reducible rfl) (by with_reducible rfl) (by with_reducible rfl)) hs
          | exact NInv.n_logic.app (logic_mk (by with_reducible rfl) (by with_reducible rfl) (by with_reducible rfl) (by with_reducible rfl) (by with_reducible rfl) (by with_reducible rfl) (by with_reducible rfl)) hs
          | exact HInv.h_logic.app (logic_mk (by with_reducible rfl) (by with_reducible rfl) (by with_reducible rfl) (by with_reducible rfl) (by with_reducible rfl) (by with_reducible rfl) (by with_reducible rfl)) hs
          | exact EInv.e_logic.app (logic_mk (by with_reducible rfl) (by with_reducible rfl) (by with_reducible rfl) (by with_reducible rfl) (by with_reducible rfl) (by with_reducible rfl) (by with_reducible rfl)) hs
          | exact UInv.u_logic.app (logic_mk (by with_reducible rfl) (by with_reducible rfl) (by with_reducible rfl) (by with_reducible rfl) (by with_reducible rfl) (by with_reducible rfl) (by with_reducible rfl)) hs
          | exact UNInv.un_logic.app (logic_mk (by with_reducible rfl) (by with_reducible rfl) (by with_reducible rfl) (by with_reducible rfl) (by with_reducible rfl) (by with_reducible rfl) (by with_reducible rfl)) hs
          | exact TInv.t_eq h0 hs (by with_reducible rfl) (by with_reducible rfl) (by with_reducible rfl) (by with_reducible rfl))
      | with_reducible intro _
      | split
      | dsimp only

end TInvRules

theorem logReq_loggable (env : Env) (s : Impl) (p q : Nat) :
    ((logReq env s p).mem q).loggable = (s.mem q).loggable := by
  show (Function.update s.mem p { s.mem p with logseq := s.mLastLogSeq + 1 } q).loggable = _
  by_cases e : q = p
  · subst e
    rw [Function.update_same]
    rfl
  · rw [Function.update_noteq e]

theorem simRun_off (env : Env) (s : Impl) (hsim : ¬ 0 < s.mFailureSimulationInterval) :
    simRun env s = (false, s) := by
  unfold simRun
  rw [if_neg hsim]

theorem innerRun_full (env : Env) (eb : Int) (W : Nat)
    (hW : ∀ r f, (env.WriteLog r f).data.length ≤ W) (rest : List Nat) :
    ∀ (l1 : List Nat) (s : Impl), l1 ≠ [] → (∀ p ∈ l1, (s.mem p).loggable = true) →
      s.mLastLogSeq + l1.length = eb →
      s.mMdStream.buf.length + l1.length * W ≤ s.mMdStream.bufSize / 4 * 3 →
      (innerRun env eb false true (l1 ++ rest) s).rest = rest ∧
        (innerRun env eb false true (l1 ++ rest) s).state.mLastLogSeq = eb := by
  intro l1
  induction l1 with
  | nil => intro s h; exact absurd rfl h
  | cons p ps ih =>
    intro s _ hlog hlen hbuf
    have hp : (s.mem p).loggable = true := hlog p (List.mem_cons_self _ _)
    have hstep : stepReq env s p = logReq env s p := by
      unfold stepReq
      rw [if_pos hp]
    have hlast : (logReq env s p).mLastLogSeq = s.mLastLogSeq + 1 := rfl
    have hbl : (logReq env s p).mMdStream.buf.length ≤ s.mMdStream.buf.length + W := by
      show (s.mMdStream.buf ++ (env.WriteLog _ _).data).length ≤ _
      rw [List.length_append]
      have := hW { s.mem p with logseq := s.mLastLogSeq + 1 } s.mOmitDefaultsFlag
      omega
    have hbs : s.mMdStream.bufSize / 4 * 3 ≤ (logReq env s p).mMdStream.bufSize / 4 * 3 :=
      Nat.mul_le_mul_right 3 (Nat.div_le_div_right (le_max_left _ _))
    have hlen' : s.mLastLogSeq + ((ps.length : Int) + 1) = eb := by
      rw [← hlen]
      simp
    have hbuf' : s.mMdStream.buf.length + (ps.length + 1) * W ≤ s.mMdStream.bufSize / 4 * 3 := by
      simpa using hbuf
    have hexp : (ps.length + 1) * W = ps.length * W + W := by ring
    rw [List.cons_append]
    rcases innerRun_cons_cases env eb false true p (ps ++ rest) s with ⟨-, -, h, -⟩ |
      ⟨-, -, hb, h⟩ | ⟨-, -, hb, h⟩ | ⟨h, -⟩
    · cases h
    · rw [h, hstep]
      cases ps with
      | nil =>
        refine ⟨rfl, ?_⟩
        show (logReq env s p).mLastLogSeq = eb
        rw [hlast, ← hlen']
        simp
      | cons q qs =>
        exfalso
        rw [hstep] at hb
        rcases hb with hb | hb
        · rw [hlast] at hb
          have : ((q :: qs).length : Int) = (qs.length : Int) + 1 := by simp
          omega
        · have : (q :: qs).length = qs.length + 1 := rfl
          rw [this] at hexp hbuf'
          have : 0 ≤ (qs.length + 1) * W := Nat.zero_le _
          omega
    · rw [h, hstep]
      rw [hstep] at hb
      cases ps with
      | nil =>
        exfalso
        apply hb
        left
        rw [hlast, ← hlen']
        simp
      | cons q qs =>
        refine ih (logReq env s p) (List.cons_ne_nil _ _) (fun x hx => ?_) ?_ ?_
        · rw [logReq_loggable]
          exact hlog x (List.mem_cons_of_mem _ hx)
        · rw [hlast, ← hlen']
          omega
        · omega
    · cases h

theorem batchesRun_step (env : Env) (n : Nat) (l : List Nat) (s : Impl) (hne : l ≠ []) :
    batchesRun env (n + 1) l s = batchesRun env n (batchRun env l s).1 (batchRun env l s).2 := by
  cases l with
  | nil => exact absurd rfl hne
  | cons a as => rfl

theorem batchRun_full (env : Env) (W : Nat) (hW : ∀ r f, (env.WriteLog r f).data.length ≤ W)
    (l1 rest : List Nat) (s : Impl) (hne : l1 ≠ [])
    (hlog : ∀ p ∈ l1, (s.mem p).loggable = true)
    (hM : (l1.length : Int) = s.mMaxBlockSize) (h2 : s.mMaxBlockSize ≤ 2147483647)
    (hup : s.mTransmitterUpFlag = true) (hsim : ¬ 0 < s.mFailureSimulationInterval)
    (hb : 0 ≤ s.mNextBlockSeq)
    (hbuf : s.mMdStream.buf.length + l1.length * W ≤ s.mMdStream.bufSize / 4 * 3) :
    (batchRun env (l1 ++ rest) s).1 = rest ∧
      ∃ b, (batchRun env (l1 ++ rest) s).2.transmitted = s.transmitted ++ [b] ∧
        b.count = s.mMaxBlockSize ∧ b.endSeq = s.mNextLogSeq + s.mMaxBlockSize := by
  have h1 : 1 ≤ s.mMaxBlockSize := by
    cases l1 with
    | nil => exact absurd rfl hne
    | cons a as =>
      rw [← hM]
      simp
  have hsr := simRun_off env { s with mLastLogSeq := s.mNextLogSeq } hsim
  have e1 : (simRun env { s with mLastLogSeq := s.mNextLogSeq }).1 = false := by rw [hsr]
  have e2 : (simRun env { s with mLastLogSeq := s.mNextLogSeq }).2 =
      { s with mLastLogSeq := s.mNextLogSeq } := by rw [hsr]
  have key : (innerRun env (s.mNextLogSeq + s.mMaxBlockSize)
        (simRun env { s with mLastLogSeq := s.mNextLogSeq }).1 s.mTransmitterUpFlag (l1 ++ rest)
        (simRun env { s with mLastLogSeq := s.mNextLogSeq }).2).rest = rest ∧
      (innerRun env (s.mNextLogSeq + s.mMaxBlockSize)
        (simRun env { s with mLastLogSeq := s.mNextLogSeq }).1 s.mTransmitterUpFlag (l1 ++ rest)
        (simRun env { s with mLastLogSeq := s.mNextLogSeq }).2).state.mLastLogSeq =
        s.mNextLogSeq + s.mMaxBlockSize := by
    have gen : ∀ up : Bool, up = true →
        (innerRun env (s.mNextLogSeq + s.mMaxBlockSize) false up (l1 ++ rest)
          { s with mLastLogSeq := s.mNextLogSeq }).rest = rest ∧
        (innerRun env (s.mNextLogSeq + s.mMaxBlockSize) false up (l1 ++ rest)
          { s with mLastLogSeq := s.mNextLogSeq }).state.mLastLogSeq =
          s.mNextLogSeq + s.mMaxBlockSize := by
      intro up h
      subst h
      exact innerRun_full env (s.mNextLogSeq + s.mMaxBlockSize) W hW rest l1
        { s with mLastLogSeq := s.mNextLogSeq } hne hlog
        (show s.mNextLogSeq + (l1.length : Int) = _ by rw [hM]) hbuf
    rw [e1, e2]
    exact gen _ hup
  obtain ⟨hr, hl⟩ := key
  obtain ⟨m, L, b, z, d, hS⟩ := innerRun_shape env (s.mNextLogSeq + s.mMaxBlockSize)
    (simRun env { s with mLastLogSeq := s.mNextLogSeq }).1 s.mTransmitterUpFlag (l1 ++ rest)
    (simRun env { s with mLastLogSeq := s.mNextLogSeq }).2
  rw [hS] at hl
  have hL : L = s.mNextLogSeq + s.mMaxBlockSize := hl
  unfold batchRun
  dsimp only
  rw [hr, hS, e2, e1]
  refine ⟨rfl, ?_⟩
  have hf : s.mNextLogSeq < L ∧ s.mTransmitterUpFlag = true := ⟨by omega, hup⟩
  have htr : transmits
      ({ ({ s with mLastLogSeq := s.mNextLogSeq } : Impl) with
        mem := m, mLastLogSeq := L
        mMdStream := { s.mMdStream with buf := b, bufSize := z, md := d } } : Impl) = true := by
    unfold transmits
    exact decide_eq_true (by show 0 < s.mNextBlockSeq + 1; omega)
  rw [if_pos hf]
  refine ⟨txBlock env ({ ({ s with mLastLogSeq := s.mNextLogSeq } : Impl) with
        mem := m, mLastLogSeq := L
        mMdStream := { s.mMdStream with buf := b, bufSize := z, md := d } } : Impl) L, ?_, ?_, hL⟩
  · split_ifs
    · show (if transmits _ = true then _ else _) = _
      rw [if_pos htr]
    · show (if transmits _ = true then _ else _) = _
      rw [if_pos htr]
  · show wrapInt32 (L - s.mNextLogSeq) = s.mMaxBlockSize
    rw [wrapInt32_of_range _ (by omega) (by omega)]
    omega

/-- C17 (claim as stated fails): three `Write` calls.  With `mMaxBlockSize = 1`
at the call, a `kSetParameters` request that sets `maxBlockSize` to 2, followed
by two loggable requests: one block of 2 records.  With `mMaxBlockSize = 1`, a
`kWriteBlock` request for the log sequences 10 to 12: one block of 2 records.
With `mMaxBlockSize = 2` and the transmitter down, the queue of the two
loggable requests 1 and 2: no block at all. -/
theorem Write_block_records_counterexample :
    (stateParams.mMaxBlockSize = 1 ∧ Res.counts (Write envOk 6 1 stateParams) = some [2]) ∧
    (stateBlockTwo.mMaxBlockSize = 1 ∧
      Res.counts (Write envHex 6 1 stateBlockTwo) = some [2]) ∧
    (stateTwoDown.mMaxBlockSize = 2 ∧ isChain stateTwoDown.mem (some 1) [1, 2] = true ∧
      (∀ p ∈ [1, 2], (stateTwoDown.mem p).loggable = true) ∧
      Res.counts (Write envOk 6 1 stateTwoDown) = some []) := by
  refine ⟨⟨rfl, ?_⟩, ⟨rfl, ?_⟩, rfl, by decide, by decide, ?_⟩
  · decide!
  · decide!
  · decide!

/-- C17 (amended): a `Write` call with `1 <= mMaxBlockSize` (an `int`).  When
no control request is a `kSetParameters` or a `kWriteBlock` request, every
block the call hands to the transmitter holds at least 1 and at most
`mMaxBlockSize` records.  When the queue begins with exactly `mMaxBlockSize`
loggable requests and holds no control request, the stream is good and past
its header block, the file calls succeed, the transmitter is up, no failure
is simulated, no rotation is due, and the records (at most `W` bytes each)
fit in three quarters of the buffer, the call returns and these requests are
one block of `mMaxBlockSize` records that ends at
`mNextLogSeq + mMaxBlockSize`: the only block when the queue ends there, and
followed by blocks of 1 to `mMaxBlockSize` records for the requests after
them. -/
theorem Write_block_records (env : Env) (fuel head : Nat) (s : Impl)
    (h1 : 1 ≤ s.mMaxBlockSize) (h2 : s.mMaxBlockSize ≤ 2147483647) :
    ((∀ q, (s.mem q).op = MetaOp.META_LOG_WRITER_CONTROL →
        (s.mem q).type ≠ ControlType.kSetParameters ∧
          (s.mem q).type ≠ ControlType.kWriteBlock) →
      ∀ s', Write env fuel head s = Res.ok () s' →
        ∃ bs, s'.transmitted = s.transmitted ++ bs ∧
          ∀ b ∈ bs, 1 ≤ b.count ∧ b.count ≤ s.mMaxBlockSize) ∧
    ∀ (k W : Nat) (l1 rest : List Nat), fuel = k + 2 → (l1 ++ rest).length < k + 2 →
      isChain s.mem (some head) (l1 ++ rest) = true →
      (∀ p ∈ l1 ++ rest, (s.mem p).op ≠ MetaOp.META_LOG_WRITER_CONTROL) →
      (∀ p ∈ l1, (s.mem p).loggable = true) → (l1.length : Int) = s.mMaxBlockSize →
      FileOk env → Good s → 0 ≤ s.mNextBlockSeq → s.mTransmitterUpFlag = true →
      ¬ 0 < s.mFailureSimulationInterval →
      (∀ t, ¬ (s.mCurLogStartTime + s.mLogRotateInterval < env.microseconds t)) →
      (∀ r f, (env.WriteLog r f).data.length ≤ W) →
      s.mMdStream.buf.length + l1.length * W ≤ s.mMdStream.bufSize / 4 * 3 →
      ∃ s' b bs, Write env fuel head s = Res.ok () s' ∧
        s'.transmitted = s.transmitted ++ b :: bs ∧ b.count = s.mMaxBlockSize ∧
        b.endSeq = s.mNextLogSeq + s.mMaxBlockSize ∧ (rest = [] → bs = []) ∧
        ∀ b' ∈ bs, 1 ≤ b'.count ∧ b'.count ≤ s.mMaxBlockSize := by
  refine ⟨fun hctl s' h => ?_, ?_⟩
  · exact (Write_tri h1 h2 env fuel head s
      ⟨rfl, Blocks.base _ _, hctl, fun _ hn => Option.noConfusion hn⟩ () s' h).2.2.2.1
  · intro k W l1 rest hfuel hlen hch hctl hlog hM io hg hb hup hsim hrot hW hbuf
    subst hfuel
    have hw := Write_eq env io k head (l1 ++ rest) s hlen hch hctl hg hrot
    obtain ⟨tw, ht⟩ := writeRun_tick env (k + 2) (l1 ++ rest) s
    have hne : l1 ≠ [] := by
      intro e
      rw [e] at hM
      simp at hM
      omega
    obtain ⟨hr, b, hb1, hb2, hb3⟩ := batchRun_full env W hW l1 rest
      { s with mMdStream := { s.mMdStream with sync := false } } hne hlog hM h2 hup hsim hb hbuf
    obtain ⟨-, -, -, hnb, hmx⟩ := batchRun_blocks env (l1 ++ rest)
      { s with mMdStream := { s.mMdStream with sync := false } } h1 h2 hb
    have hmx' : (batchRun env (l1 ++ rest)
        { s with mMdStream := { s.mMdStream with sync := false } }).2.mMaxBlockSize =
        s.mMaxBlockSize := hmx
    obtain ⟨bs, e, c⟩ := batchesRun_blocks env (k + 1) rest
      (batchRun env (l1 ++ rest) { s with mMdStream := { s.mMdStream with sync := false } }).2
      (by rw [hmx']; exact h1) (by rw [hmx']; exact h2) hnb
    have hstep : batchesRun env (k + 2) (l1 ++ rest)
        { s with mMdStream := { s.mMdStream with sync := false } } =
        batchesRun env (k + 1) rest
          (batchRun env (l1 ++ rest)
            { s with mMdStream := { s.mMdStream with sync := false } }).2 := by
      rw [batchesRun_step env (k + 1) (l1 ++ rest) _
        (fun e => hne (List.append_eq_nil.mp e).1), hr]
    refine ⟨_, b, bs, hw, ?_, hb2, hb3, ?_, ?_⟩
    · rw [ht]
      show (batchesRun env (k + 2) (l1 ++ rest) _).transmitted = _
      rw [hstep, e, hb1]
      simp
    · intro hrest
      subst hrest
      have e' : (batchRun env (l1 ++ [])
          { s with mMdStream := { s.mMdStream with sync := false } }).2.transmitted =
          (batchRun env (l1 ++ [])
            { s with mMdStream := { s.mMdStream with sync := false } }).2.transmitted ++ bs := e
      exact (List.self_eq_append_right.mp e')
    · intro b' hb'
      have := c b' hb'
      rw [hmx'] at this
      exact this

theorem Write_block_records_witness :
    ∃ s' b, Write envOk 5 1 stateFull = Res.ok () s' ∧
      s'.transmitted = stateFull.transmitted ++ [b] ∧ b.count = 2 ∧ b.endSeq = 12 := by
  obtain ⟨s', b, bs, h, e, c1, c2, c3, -⟩ :=
    (Write_block_records envOk 5 1 stateFull (by decide) (by decide)).2 3 2 [1, 2] [] rfl
      (by decide) (by decide) (by decide) (by decide) (by decide) envOk_fileOk
      ⟨rfl, by decide, rfl⟩ (by decide) rfl (by decide)
      (fun _ hlt => absurd (show stateFull.mCurLogStartTime + stateFull.mLogRotateInterval < 0
        from hlt) (by decide))
      (fun _ _ => le_refl _) (by decide)
  rw [c3 rfl] at e
  exact ⟨s', b, h, e, c1, c2⟩

end KFS
